import Mathlib

/-!
# qpDUNES dual Newton strategy: `src/dual_qp.c`

A shallow embedding of the routines of `dual_qp.c` and proofs about them.

Conventions of the embedding.

* `real_t` is an arbitrary linearly ordered field `α` (the reals are the intended
  instance); the C library function `sqrt` is a parameter `sqrt : α → α`, and the
  theorems that need it assume `SqrtSpec sqrt`, which `Real.sqrt` satisfies.
* Vectors (`x_vector_t`, `xn_vector_t`, ...) are their flat `data` arrays, `Nat → α`,
  written with `Function.update`.
* The block-banded matrices (`xn2x_matrix_t`) are addressed as the source addresses
  them, through `accHessian(k, l, i, j)` / `accCholHessian(k, l, i, j)`.
* `for` loops are folds over `List.range`; a `return` inside a loop is the error
  branch of `Except`, which carries the state at the moment of the return.
* The preprocessor switches `__USE_ASSERTS__` and `__DEBUG__` are Boolean parameters.
-/

namespace QpDunes

/-! ## Return codes and option enumerations -/

/-- Return codes of `return_t` that `dual_qp.c` uses. -/
inductive return_t
  | QPDUNES_OK
  | QPDUNES_SUCC_OPTIMAL_SOLUTION_FOUND
  | QPDUNES_ERR_STAGE_QP_INFEASIBLE
  | QPDUNES_ERR_DIVISION_BY_ZERO
  | QPDUNES_ERR_INVALID_ARGUMENT
  | QPDUNES_ERR_UNKNOWN_ERROR
  | QPDUNES_ERR_ITERATION_LIMIT_REACHED
  | QPDUNES_ERR_NEWTON_SYSTEM_NO_ASCENT_DIRECTION
  | QPDUNES_ERR_NUMBER_OF_MAX_LINESEARCH_ITERATIONS_REACHED
  | QPDUNES_ERR_DECEEDED_MIN_LINESEARCH_STEPSIZE
  | QPDUNES_ERR_EXCEEDED_MAX_LINESEARCH_STEPSIZE
  | QPDUNES_ERR_UNKNOWN_LS_TYPE
  deriving DecidableEq

open return_t

/-- Values of `options.regType`. -/
inductive regType_t
  | QPDUNES_REG_LEVENBERG_MARQUARDT
  | QPDUNES_REG_NORMALIZED_LEVENBERG_MARQUARDT
  | QPDUNES_REG_SINGULAR_DIRECTIONS
  | QPDUNES_REG_UNCONSTRAINED_HESSIAN
  | QPDUNES_REG_GRADIENT_STEP
  | unknownRegType
  deriving DecidableEq

open regType_t

/-- Values of `options.nwtnHssnFacAlg`. -/
inductive nwtnHssnFacAlg_t
  | QPDUNES_NH_FAC_BAND_FORWARD
  | QPDUNES_NH_FAC_BAND_REVERSE
  | unknownFacAlg
  deriving DecidableEq

open nwtnHssnFacAlg_t

/-- A flat `data` array of `real_t`. -/
abbrev vector_t (α : Type) := Nat → α

/-! ## Gradient assembly -/

/-- The fields of `interval_t` that the gradient assembly reads: the dynamics block
`C` (row-major, `nx` rows of `nz` entries), the offset `c` and the primal `z`. -/
structure interval_t (α : Type) where
  C : vector_t α
  c : vector_t α
  z : vector_t α

/-- Modelled from the spec: `multiplyCz` is declared outside `dual_qp.c`; it writes
the product `C z` of the `nx × nz` dynamics block with the stacked stage variable
into the first `nx` entries of `res`. -/
def multiplyCz {α : Type} [LinearOrderedField α] (nx nz : Nat)
    (res C z : vector_t α) : vector_t α :=
  (List.range nx).foldl
    (fun r ii => Function.update r ii
      ((List.range nz).foldl (fun s jj => s + C (ii * nz + jj) * z jj) 0))
    res

/-- Modelled from the spec: `addToVector` is declared outside `dual_qp.c`; it adds
the first `len` entries of `vec` onto `res`. -/
def addToVector {α : Type} [LinearOrderedField α] (res vec : vector_t α) (len : Nat) :
    vector_t α :=
  (List.range len).foldl (fun r ii => Function.update r ii (r ii + vec ii)) res

/-- The result of `qpDUNES_computeNewtonGradient`: the return code and the two
vectors it writes. -/
structure gradient_result (α : Type) where
  status : return_t
  gradient : vector_t α
  gradPiece : vector_t α

/-- Embedding of `qpDUNES_computeNewtonGradient` (dual_qp.c:723-746). -/
def qpDUNES_computeNewtonGradient {α : Type} [LinearOrderedField α] (N nx nz : Nat)
    (intervals : Nat → interval_t α) (gradient gradPiece : vector_t α) :
    gradient_result α :=
  let st := (List.range N).foldl
    (fun (st : vector_t α × vector_t α) kk =>
      -- ( C_kk*z_kk^opt + c_kk ) - x_(kk+1)^opt
      let p1 := multiplyCz nx nz st.2 (intervals kk).C (intervals kk).z
      let p2 := addToVector p1 (intervals kk).c nx
      let p3 := (List.range nx).foldl
        (fun p ii => Function.update p ii (p ii - (intervals (kk + 1)).z ii)) p2
      -- write gradient part
      let g := (List.range nx).foldl
        (fun g ii => Function.update g (kk * nx + ii) (p3 ii)) st.1
      (g, p3))
    (gradient, gradPiece)
  { status := QPDUNES_OK, gradient := st.1, gradPiece := st.2 }

/-! ## Active-set comparison -/

/-- What `qpDUNES_compareActSets` leaves behind: the returned count `nChgdConstr`,
the output `*lastActSetChangeIdx` and the per-stage flags `actSetHasChanged`.
The counter is a natural number (the width of `uint_t` is declared outside
`dual_qp.c`; the count is bounded by the number of status entries). -/
structure actSetDiff_t where
  nChgdConstr : Nat
  lastActSetChangeIdx : Int
  actSetHasChanged : Nat → Bool

/-- Body of the inner loop of `qpDUNES_compareActSets` (dual_qp.c:2084-2093) for
entry `ii` of stage `kk`. -/
def compareActSets_entry (newActSetStatus oldActSetStatus : Nat → Nat → Int)
    (kk : Nat) (st : actSetDiff_t) (ii : Nat) : actSetDiff_t :=
  if newActSetStatus kk ii ≠ oldActSetStatus kk ii then
    { nChgdConstr := st.nChgdConstr + 1,
      actSetHasChanged := Function.update st.actSetHasChanged kk true,
      lastActSetChangeIdx := (kk : Int) }
  else st

/-- Body of the stage loop of `qpDUNES_compareActSets` (dual_qp.c:2080-2095):
clear the stage flag, then compare the `_ND(kk)+_NV(kk)` entries of the stage. -/
def compareActSets_stage (nDnV : Nat → Nat)
    (newActSetStatus oldActSetStatus : Nat → Nat → Int)
    (st : actSetDiff_t) (kk : Nat) : actSetDiff_t :=
  (List.range (nDnV kk)).foldl (compareActSets_entry newActSetStatus oldActSetStatus kk)
    { st with actSetHasChanged := Function.update st.actSetHasChanged kk false }

/-- Embedding of `qpDUNES_compareActSets` (dual_qp.c:2071-2105). `NI` is `_NI_`,
`nDnV kk` is `_ND(kk)+_NV(kk)`, `flags` the `actSetHasChanged` fields on entry. -/
def qpDUNES_compareActSets (NI : Nat) (nDnV : Nat → Nat)
    (newActSetStatus oldActSetStatus : Nat → Nat → Int) (flags : Nat → Bool) :
    actSetDiff_t :=
  (List.range (NI + 1)).foldl (compareActSets_stage nDnV newActSetStatus oldActSetStatus)
    { nChgdConstr := 0, lastActSetChangeIdx := -1, actSetHasChanged := flags }

/-- Stage `k` has at least one constraint whose status differs between the tables. -/
def stageDiffers (nDnV : Nat → Nat) (newActSetStatus oldActSetStatus : Nat → Nat → Int)
    (k : Nat) : Prop :=
  ∃ ii, ii < nDnV k ∧ newActSetStatus k ii ≠ oldActSetStatus k ii

/-! ## The block-banded Newton system -/

/-- Modelled from the spec: the accessor macros `accHessian(k, l, i, j)` and
`accCholHessian(k, l, i, j)` are declared outside `dual_qp.c`. The packed matrix is
"addressed by (row-block, off ∈ {-1,0}, i, j)": block row `k`, block column offset
`l` (`-1` the sub-diagonal block, `0` the diagonal block), in-block row `i` and
in-block column `j`; distinct addresses are distinct cells. -/
abbrev xn2x_matrix_t (α : Type) := Nat × Int × Nat × Nat → α

/-- The fields of `qpData->options` read by the Newton-system routines. -/
structure qpOptions_t (α : Type) where
  regType : regType_t
  nwtnHssnFacAlg : nwtnHssnFacAlg_t
  regParam : α
  newtonHessDiagRegTolerance : α
  equalityTolerance : α
  QPDUNES_INFTY : α
  QPDUNES_ZERO : α

/-- The loop `for ll in l: sum -= f ll`. -/
def subLoop {α : Type} [LinearOrderedField α] (l : List Nat) (f : Nat → α) (sum : α) : α :=
  l.foldl (fun s ll => s - f ll) sum

/-- What a factorization routine writes: the factor `cholHessian` and the flag
`*isHessianRegularized`. The list `pivots` is ghost state: it records, in order, every
pivot squared-sum `sum` as it arrives at the check "2) check for too small diagonal
elements"; nothing reads it. -/
structure factor_state (α : Type) where
  cholHessian : xn2x_matrix_t α
  isHessianRegularized : Bool
  pivots : List α

/-- A `for` loop over the indices `l` whose body may `return`: the body either goes
on with a new state (`.ok`) or leaves the routine (`.error`), which ends the loop. -/
def loopExcept {ε σ : Type} (body : σ → Nat → Except ε σ) : List Nat → σ → Except ε σ
  | [], s => .ok s
  | i :: l, s =>
    match body s i with
    | .error e => .error e
    | .ok s1 => loopExcept body l s1

/-- The outcome of a column of a factorization: either the routine returns with a
code (and the state so far), or the loop goes on. -/
abbrev factor_step (α : Type) : Type := Except (return_t × factor_state α) (factor_state α)

/-- Step 1) of a column of `qpDUNES_factorizeNewtonHessian` (dual_qp.c:885-899): the
pivot squared-sum `sum` of in-block column `jj` of block column `kk`. -/
def factorizeNewtonHessian_pivotSum {α : Type} [LinearOrderedField α] (nx : Nat)
    (hessian L : xn2x_matrix_t α) (kk jj : Nat) : α :=
  -- take diagonal element of original
  let sum := hessian (kk, 0, jj, jj)
  -- subtract squared forepart of corresponding row: this diagonal block
  let sum := subLoop (List.range jj) (fun ll => L (kk, 0, jj, ll) * L (kk, 0, jj, ll)) sum
  -- this row's subdiagonal block
  if kk > 0 then
    subLoop (List.range nx) (fun ll => L (kk, -1, jj, ll) * L (kk, -1, jj, ll)) sum
  else sum

/-- Step 2) of a column of `qpDUNES_factorizeNewtonHessian` (dual_qp.c:902-920): the
check for too small diagonal elements. `.ok (sum, flag)` goes on with the (possibly
regularized) `sum` and the new value of `*isHessianRegularized`; `.error code` is
`return code`. -/
def factorizeNewtonHessian_check {α : Type} [LinearOrderedField α] (opts : qpOptions_t α)
    (sum : α) (isHessianRegularized : Bool) : Except return_t (α × Bool) :=
  if opts.regType = regType_t.QPDUNES_REG_SINGULAR_DIRECTIONS
      ∧ sum < opts.newtonHessDiagRegTolerance then
    .ok (sum + (opts.QPDUNES_INFTY * opts.QPDUNES_INFTY + 1), true)
  else if sum < opts.newtonHessDiagRegTolerance then
    .error QPDUNES_ERR_DIVISION_BY_ZERO
  else .ok (sum, isHessianRegularized)

/-- The loop "3) write remainder of jj-th column: this diagonal block" of
`qpDUNES_factorizeNewtonHessian` (dual_qp.c:930-952). -/
def factorizeNewtonHessian_diagBlock {α : Type} [LinearOrderedField α] (nx : Nat)
    (hessian : xn2x_matrix_t α) (kk jj : Nat) (L : xn2x_matrix_t α) : xn2x_matrix_t α :=
  (List.range' (jj + 1) (nx - (jj + 1))).foldl
    (fun L ii =>
      let sum := hessian (kk, 0, ii, jj)
      -- subtract forepart of this row times forepart of jj-th row
      let sum := subLoop (List.range jj)
        (fun ll => L (kk, 0, ii, ll) * L (kk, 0, jj, ll)) sum
      let sum := if kk > 0 then
          subLoop (List.range nx) (fun ll => L (kk, -1, ii, ll) * L (kk, -1, jj, ll)) sum
        else sum
      Function.update L (kk, 0, ii, jj) (sum / L (kk, 0, jj, jj)))
    L

/-- The loop "following row's subdiagonal block" of `qpDUNES_factorizeNewtonHessian`
(dual_qp.c:954-971). -/
def factorizeNewtonHessian_subBlock {α : Type} [LinearOrderedField α] (NI nx : Nat)
    (hessian : xn2x_matrix_t α) (kk jj : Nat) (L : xn2x_matrix_t α) : xn2x_matrix_t α :=
  if (kk : Int) < (NI : Int) - 1 then
    (List.range nx).foldl
      (fun L ii =>
        let sum := hessian (kk + 1, -1, ii, jj)
        -- subtract forepart of this row times forepart of jj-th row
        let sum := subLoop (List.range jj)
          (fun ll => L (kk + 1, -1, ii, ll) * L (kk, 0, jj, ll)) sum
        Function.update L (kk + 1, -1, ii, jj) (sum / L (kk, 0, jj, jj)))
      L
  else L

/-- Body of the in-block column loop of `qpDUNES_factorizeNewtonHessian`
(dual_qp.c:884-972) for block column `kk` and in-block column `jj`. -/
def factorizeNewtonHessian_column {α : Type} [LinearOrderedField α] (sqrt : α → α)
    (opts : qpOptions_t α) (NI nx : Nat) (hessian : xn2x_matrix_t α) (kk jj : Nat)
    (st : factor_state α) : factor_step α :=
  -- 1) compute diagonal element: ii == jj
  let sum := factorizeNewtonHessian_pivotSum nx hessian st.cholHessian kk jj
  -- 2) check for too small diagonal elements
  match factorizeNewtonHessian_check opts sum st.isHessianRegularized with
  | .error code => .error (code, { st with pivots := st.pivots ++ [sum] })
  | .ok (sum1, isReg) =>
    let L := Function.update st.cholHessian (kk, 0, jj, jj) (sqrt sum1)
    -- 3) write remainder of jj-th column
    let L := factorizeNewtonHessian_diagBlock nx hessian kk jj L
    let L := factorizeNewtonHessian_subBlock NI nx hessian kk jj L
    .ok { cholHessian := L, isHessianRegularized := isReg, pivots := st.pivots ++ [sum] }

/-- Turn the outcome of the loops into the pair (return code, state). -/
def factor_finish {α : Type} (r : factor_step α) : return_t × factor_state α :=
  match r with
  | .error e => e
  | .ok st => (QPDUNES_OK, st)

/-- Embedding of `qpDUNES_factorizeNewtonHessian` (dual_qp.c:867-978): the forward
block-tridiagonal Cholesky factorization. -/
def qpDUNES_factorizeNewtonHessian {α : Type} [LinearOrderedField α] (sqrt : α → α)
    (opts : qpOptions_t α) (NI nx : Nat) (hessian : xn2x_matrix_t α)
    (st : factor_state α) : return_t × factor_state α :=
  factor_finish
    (loopExcept
      (fun st kk => loopExcept
        (fun st jj => factorizeNewtonHessian_column sqrt opts NI nx hessian kk jj st)
        (List.range nx) st)
      (List.range NI) st)

/-- Step 1) of a column of `qpDUNES_factorizeNewtonHessianBottomUp`
(dual_qp.c:1008-1023): the pivot squared-sum `sum` of in-block column `jj` of block
column `kk` (transposed access: the rest of the column). -/
def factorizeNewtonHessianBottomUp_pivotSum {α : Type} [LinearOrderedField α]
    (NI nx : Nat) (hessian L : xn2x_matrix_t α) (kk jj : Nat) : α :=
  -- take diagonal element of original
  let sum := hessian (kk, 0, jj, jj)
  -- subtract squared rearpart of corresponding row: this diagonal block
  let sum := subLoop (List.range' (jj + 1) (nx - (jj + 1)))
    (fun ll => L (kk, 0, ll, jj) * L (kk, 0, ll, jj)) sum
  -- this row's subdiagonal block
  if (kk : Int) < (NI : Int) - 1 then
    subLoop (List.range nx) (fun ll => L (kk + 1, -1, ll, jj) * L (kk + 1, -1, ll, jj)) sum
  else sum

/-- Step 2) of a column of `qpDUNES_factorizeNewtonHessianBottomUp`
(dual_qp.c:1026-1043): the check for too small diagonal elements. The result is the
new value of `*isHessianRegularized` together with either the (possibly regularized)
`sum` to go on with, or the code to return. `debug` is `__DEBUG__`. -/
def factorizeNewtonHessianBottomUp_check {α : Type} [LinearOrderedField α] (debug : Bool)
    (opts : qpOptions_t α) (sum : α) (isHessianRegularized : Bool) :
    Bool × Except return_t α :=
  if opts.regType = regType_t.QPDUNES_REG_SINGULAR_DIRECTIONS
      ∧ sum < opts.newtonHessDiagRegTolerance then
    let sum := sum + opts.regParam
    if debug = true ∧ sum < opts.newtonHessDiagRegTolerance then
      (true, .error QPDUNES_ERR_DIVISION_BY_ZERO)
    else (true, .ok sum)
  else if sum < 100 * opts.equalityTolerance then
    (isHessianRegularized, .error QPDUNES_ERR_DIVISION_BY_ZERO)
  else (isHessianRegularized, .ok sum)

/-- The loop "3) write remainder of jj-th column (upwards! via transposed access:
jj-th row, leftwards): this diagonal block" of
`qpDUNES_factorizeNewtonHessianBottomUp` (dual_qp.c:1050-1068). -/
def factorizeNewtonHessianBottomUp_diagBlock {α : Type} [LinearOrderedField α]
    (NI nx : Nat) (hessian : xn2x_matrix_t α) (kk jj : Nat) (L : xn2x_matrix_t α) :
    xn2x_matrix_t α :=
  (List.range jj).reverse.foldl
    (fun L ii =>
      let sum := hessian (kk, 0, jj, ii)
      -- subtract rear part of this row times rear part of jj-th row
      let sum := subLoop (List.range' (jj + 1) (nx - (jj + 1)))
        (fun ll => L (kk, 0, ll, ii) * L (kk, 0, ll, jj)) sum
      let sum := if (kk : Int) < (NI : Int) - 1 then
          subLoop (List.range nx)
            (fun ll => L (kk + 1, -1, ll, ii) * L (kk + 1, -1, ll, jj)) sum
        else sum
      -- write transposed
      Function.update L (kk, 0, jj, ii) (sum / L (kk, 0, jj, jj)))
    L

/-- The loop "following row's subdiagonal block" of
`qpDUNES_factorizeNewtonHessianBottomUp` (dual_qp.c:1070-1083). -/
def factorizeNewtonHessianBottomUp_subBlock {α : Type} [LinearOrderedField α]
    (nx : Nat) (hessian : xn2x_matrix_t α) (kk jj : Nat) (L : xn2x_matrix_t α) :
    xn2x_matrix_t α :=
  if kk > 0 then
    (List.range nx).reverse.foldl
      (fun L ii =>
        let sum := hessian (kk, -1, jj, ii)
        -- subtract rear part of this row times rear part of jj-th row
        let sum := subLoop (List.range' (jj + 1) (nx - (jj + 1)))
          (fun ll => L (kk, -1, ll, ii) * L (kk, 0, ll, jj)) sum
        -- write transposed
        Function.update L (kk, -1, jj, ii) (sum / L (kk, 0, jj, jj)))
      L
  else L

/-- Body of the in-block column loop of `qpDUNES_factorizeNewtonHessianBottomUp`
(dual_qp.c:1007-1084) for block column `kk` and in-block column `jj`. -/
def factorizeNewtonHessianBottomUp_column {α : Type} [LinearOrderedField α]
    (sqrt : α → α) (debug : Bool) (opts : qpOptions_t α) (NI nx : Nat)
    (hessian : xn2x_matrix_t α) (kk jj : Nat) (st : factor_state α) : factor_step α :=
  -- 1) compute diagonal element: ii == jj
  let sum := factorizeNewtonHessianBottomUp_pivotSum NI nx hessian st.cholHessian kk jj
  -- 2) check for too small diagonal elements
  match factorizeNewtonHessianBottomUp_check debug opts sum st.isHessianRegularized with
  | (isReg, .error code) =>
    .error (code, { st with isHessianRegularized := isReg, pivots := st.pivots ++ [sum] })
  | (isReg, .ok sum1) =>
    let L := Function.update st.cholHessian (kk, 0, jj, jj) (sqrt sum1)
    -- 3) write remainder of jj-th column
    let L := factorizeNewtonHessianBottomUp_diagBlock NI nx hessian kk jj L
    let L := factorizeNewtonHessianBottomUp_subBlock nx hessian kk jj L
    .ok { cholHessian := L, isHessianRegularized := isReg, pivots := st.pivots ++ [sum] }

/-- The local `blockIdxStart` of `qpDUNES_factorizeNewtonHessianBottomUp`
(dual_qp.c:995). -/
def blockIdxStart (NI : Nat) (lastActSetChangeIdx : Int) : Int :=
  if lastActSetChangeIdx ≥ 0 then min lastActSetChangeIdx ((NI : Int) - 1) else -1

/-- Embedding of `qpDUNES_factorizeNewtonHessianBottomUp` (dual_qp.c:985-1089): the
reverse block-tridiagonal Cholesky factorization, restarted at `blockIdxStart`. The
loop `for (kk = blockIdxStart; kk >= 0; --kk)` visits `blockIdxStart, ..., 0`. -/
def qpDUNES_factorizeNewtonHessianBottomUp {α : Type} [LinearOrderedField α]
    (sqrt : α → α) (debug : Bool) (opts : qpOptions_t α) (NI nx : Nat)
    (hessian : xn2x_matrix_t α) (lastActSetChangeIdx : Int) (st : factor_state α) :
    return_t × factor_state α :=
  factor_finish
    (loopExcept
      (fun st kk => loopExcept
        (fun st jj =>
          factorizeNewtonHessianBottomUp_column sqrt debug opts NI nx hessian kk jj st)
        (List.range nx).reverse st)
      (List.range (blockIdxStart NI lastActSetChangeIdx + 1).toNat).reverse st)

/-! ## Back-substitution -/

/-- The outcome of a row of a back-substitution: the routine returns with a code,
or the loop goes on with the updated `res`. -/
abbrev backsolve_step (α : Type) : Type := Except (return_t × vector_t α) (vector_t α)

/-- Row `(kk, ii)` of a top-down solve with the lower-triangular factor
(dual_qp.c:1112-1136 and 1217-1235). `sum0` is the right-hand side entry the row
starts from, `useAsserts` is `__USE_ASSERTS__`, and `inftyBranch` tells whether the
row has the branch that zeroes the component of a pivot above `QPDUNES_INFTY`
(only `qpDUNES_solveNewtonEquation` has it). -/
def backsolve_lowerRow {α : Type} [LinearOrderedField α] (useAsserts inftyBranch : Bool)
    (opts : qpOptions_t α) (nx : Nat) (cholHessian : xn2x_matrix_t α) (kk ii : Nat)
    (sum0 : α) (res : vector_t α) : backsolve_step α :=
  let sum := sum0
  -- subtract all previously resolved unknowns of the subdiagonal block
  let sum := if kk > 0 then
      subLoop (List.range nx)
        (fun jj => cholHessian (kk, -1, ii, jj) * res ((kk - 1) * nx + jj)) sum
    else sum
  -- ... of the diagonal block
  let sum := subLoop (List.range ii)
    (fun jj => cholHessian (kk, 0, ii, jj) * res (kk * nx + jj)) sum
  -- divide by diagonal element
  if useAsserts = true ∧ |cholHessian (kk, 0, ii, ii)| < opts.QPDUNES_ZERO * |sum| then
    .error (QPDUNES_ERR_DIVISION_BY_ZERO, res)
  else if inftyBranch = true ∧ cholHessian (kk, 0, ii, ii) > opts.QPDUNES_INFTY then
    .ok (Function.update res (kk * nx + ii) 0)
  else
    .ok (Function.update res (kk * nx + ii) (sum / cholHessian (kk, 0, ii, ii)))

/-- Row `(kk, ii)` of a bottom-up solve with the transposed factor
(dual_qp.c:1145-1163 and 1190-1208). -/
def backsolve_upperRow {α : Type} [LinearOrderedField α] (useAsserts : Bool)
    (opts : qpOptions_t α) (NI nx : Nat) (cholHessian : xn2x_matrix_t α) (kk ii : Nat)
    (sum0 : α) (res : vector_t α) : backsolve_step α :=
  let sum := sum0
  -- subtract all previously resolved unknowns of the diagonal block
  let sum := subLoop (List.range' (ii + 1) (nx - (ii + 1)))
    (fun jj => cholHessian (kk, 0, jj, ii) * res (kk * nx + jj)) sum
  -- ... of the superdiagonal block, through the following row's subdiagonal block
  let sum := if (kk : Int) < (NI : Int) - 1 then
      subLoop (List.range nx)
        (fun jj => cholHessian (kk + 1, -1, jj, ii) * res ((kk + 1) * nx + jj)) sum
    else sum
  -- divide by diagonal element
  if useAsserts = true ∧ |cholHessian (kk, 0, ii, ii)| < opts.QPDUNES_ZERO * |sum| then
    .error (QPDUNES_ERR_DIVISION_BY_ZERO, res)
  else
    .ok (Function.update res (kk * nx + ii) (sum / cholHessian (kk, 0, ii, ii)))

/-- Turn the outcome of the loops of a back-substitution into (return code, `res`). -/
def backsolve_finish {α : Type} (r : backsolve_step α) : return_t × vector_t α :=
  match r with
  | .error e => e
  | .ok res => (QPDUNES_OK, res)

/-- Embedding of `qpDUNES_solveNewtonEquation` (dual_qp.c:1098-1168): solve
`L x = g` top-down, then `L^T res = x` bottom-up. -/
def qpDUNES_solveNewtonEquation {α : Type} [LinearOrderedField α] (useAsserts : Bool)
    (opts : qpOptions_t α) (NI nx : Nat) (res : vector_t α)
    (cholHessian : xn2x_matrix_t α) (gradient : vector_t α) : return_t × vector_t α :=
  backsolve_finish
    (match loopExcept
        (fun res kk => loopExcept
          (fun res ii => backsolve_lowerRow useAsserts true opts nx cholHessian kk ii
            (gradient (kk * nx + ii)) res)
          (List.range nx) res)
        (List.range NI) res with
      | .error e => .error e
      | .ok res =>
        loopExcept
          (fun res kk => loopExcept
            (fun res ii => backsolve_upperRow useAsserts opts NI nx cholHessian kk ii
              (res (kk * nx + ii)) res)
            (List.range nx).reverse res)
          (List.range NI).reverse res)

/-- Embedding of `qpDUNES_solveNewtonEquationBottomUp` (dual_qp.c:1176-1240): solve
`L^T x = g` bottom-up, then `L res = x` top-down. -/
def qpDUNES_solveNewtonEquationBottomUp {α : Type} [LinearOrderedField α]
    (useAsserts : Bool) (opts : qpOptions_t α) (NI nx : Nat) (res : vector_t α)
    (cholHessian : xn2x_matrix_t α) (gradient : vector_t α) : return_t × vector_t α :=
  backsolve_finish
    (match loopExcept
        (fun res kk => loopExcept
          (fun res ii => backsolve_upperRow useAsserts opts NI nx cholHessian kk ii
            (gradient (kk * nx + ii)) res)
          (List.range nx).reverse res)
        (List.range NI).reverse res with
      | .error e => .error e
      | .ok res =>
        loopExcept
          (fun res kk => loopExcept
            (fun res ii => backsolve_lowerRow useAsserts false opts nx cholHessian kk ii
              (res (kk * nx + ii)) res)
            (List.range nx) res)
          (List.range NI) res)

/-! ## Back-substitution with a record of the divisions -/

/-- The vector `res` of a back-substitution together with ghost state: `checks`
records, in order, the pair (numerator `sum`, pivot) each time a row arrives at
"divide by diagonal element", and `divs` records the pair of each division
`sum / pivot` that is executed; nothing reads them. -/
structure backsolve_state (α : Type) where
  res : vector_t α
  checks : List (α × α)
  divs : List (α × α)

/-- The outcome of a row of a back-substitution with the record of the divisions. -/
abbrev backsolve_ghostStep (α : Type) : Type :=
  Except (return_t × backsolve_state α) (backsolve_state α)

/-- Row `(kk, ii)` of a top-down solve (dual_qp.c:1112-1136 and 1217-1235) with the
record of the divisions; see `backsolve_lowerRow`. -/
def backsolve_lowerRow_ghost {α : Type} [LinearOrderedField α]
    (useAsserts inftyBranch : Bool) (opts : qpOptions_t α) (nx : Nat)
    (cholHessian : xn2x_matrix_t α) (kk ii : Nat) (sum0 : α) (s : backsolve_state α) :
    backsolve_ghostStep α :=
  let sum := sum0
  -- subtract all previously resolved unknowns of the subdiagonal block
  let sum := if kk > 0 then
      subLoop (List.range nx)
        (fun jj => cholHessian (kk, -1, ii, jj) * s.res ((kk - 1) * nx + jj)) sum
    else sum
  -- ... of the diagonal block
  let sum := subLoop (List.range ii)
    (fun jj => cholHessian (kk, 0, ii, jj) * s.res (kk * nx + jj)) sum
  let checks := s.checks ++ [(sum, cholHessian (kk, 0, ii, ii))]
  -- divide by diagonal element
  if useAsserts = true ∧ |cholHessian (kk, 0, ii, ii)| < opts.QPDUNES_ZERO * |sum| then
    .error (QPDUNES_ERR_DIVISION_BY_ZERO, { s with checks := checks })
  else if inftyBranch = true ∧ cholHessian (kk, 0, ii, ii) > opts.QPDUNES_INFTY then
    .ok { res := Function.update s.res (kk * nx + ii) 0, checks := checks, divs := s.divs }
  else
    .ok { res := Function.update s.res (kk * nx + ii) (sum / cholHessian (kk, 0, ii, ii)),
          checks := checks, divs := s.divs ++ [(sum, cholHessian (kk, 0, ii, ii))] }

/-- Row `(kk, ii)` of a bottom-up solve (dual_qp.c:1145-1163 and 1190-1208) with the
record of the divisions; see `backsolve_upperRow`. -/
def backsolve_upperRow_ghost {α : Type} [LinearOrderedField α] (useAsserts : Bool)
    (opts : qpOptions_t α) (NI nx : Nat) (cholHessian : xn2x_matrix_t α) (kk ii : Nat)
    (sum0 : α) (s : backsolve_state α) : backsolve_ghostStep α :=
  let sum := sum0
  -- subtract all previously resolved unknowns of the diagonal block
  let sum := subLoop (List.range' (ii + 1) (nx - (ii + 1)))
    (fun jj => cholHessian (kk, 0, jj, ii) * s.res (kk * nx + jj)) sum
  -- ... of the superdiagonal block, through the following row's subdiagonal block
  let sum := if (kk : Int) < (NI : Int) - 1 then
      subLoop (List.range nx)
        (fun jj => cholHessian (kk + 1, -1, jj, ii) * s.res ((kk + 1) * nx + jj)) sum
    else sum
  let checks := s.checks ++ [(sum, cholHessian (kk, 0, ii, ii))]
  -- divide by diagonal element
  if useAsserts = true ∧ |cholHessian (kk, 0, ii, ii)| < opts.QPDUNES_ZERO * |sum| then
    .error (QPDUNES_ERR_DIVISION_BY_ZERO, { s with checks := checks })
  else
    .ok { res := Function.update s.res (kk * nx + ii) (sum / cholHessian (kk, 0, ii, ii)),
          checks := checks, divs := s.divs ++ [(sum, cholHessian (kk, 0, ii, ii))] }

/-- Turn the outcome of the loops of a back-substitution with the record of the
divisions into (return code, state). -/
def backsolve_ghostFinish {α : Type} (r : backsolve_ghostStep α) :
    return_t × backsolve_state α :=
  match r with
  | .error e => e
  | .ok s => (QPDUNES_OK, s)

/-- The routine `qpDUNES_solveNewtonEquation` (dual_qp.c:1098-1168) with the record of
the divisions. -/
def qpDUNES_solveNewtonEquation_ghost {α : Type} [LinearOrderedField α]
    (useAsserts : Bool) (opts : qpOptions_t α) (NI nx : Nat) (res : vector_t α)
    (cholHessian : xn2x_matrix_t α) (gradient : vector_t α) :
    return_t × backsolve_state α :=
  backsolve_ghostFinish
    (match loopExcept
        (fun s kk => loopExcept
          (fun s ii => backsolve_lowerRow_ghost useAsserts true opts nx cholHessian kk ii
            (gradient (kk * nx + ii)) s)
          (List.range nx) s)
        (List.range NI) ⟨res, [], []⟩ with
      | .error e => .error e
      | .ok s =>
        loopExcept
          (fun s kk => loopExcept
            (fun s ii => backsolve_upperRow_ghost useAsserts opts NI nx cholHessian kk ii
              (s.res (kk * nx + ii)) s)
            (List.range nx).reverse s)
          (List.range NI).reverse s)

/-- The routine `qpDUNES_solveNewtonEquationBottomUp` (dual_qp.c:1176-1240) with the
record of the divisions. -/
def qpDUNES_solveNewtonEquationBottomUp_ghost {α : Type} [LinearOrderedField α]
    (useAsserts : Bool) (opts : qpOptions_t α) (NI nx : Nat) (res : vector_t α)
    (cholHessian : xn2x_matrix_t α) (gradient : vector_t α) :
    return_t × backsolve_state α :=
  backsolve_ghostFinish
    (match loopExcept
        (fun s kk => loopExcept
          (fun s ii => backsolve_upperRow_ghost useAsserts opts NI nx cholHessian kk ii
            (gradient (kk * nx + ii)) s)
          (List.range nx).reverse s)
        (List.range NI).reverse ⟨res, [], []⟩ with
      | .error e => .error e
      | .ok s =>
        loopExcept
          (fun s kk => loopExcept
            (fun s ii => backsolve_lowerRow_ghost useAsserts false opts nx cholHessian kk ii
              (s.res (kk * nx + ii)) s)
            (List.range nx) s)
          (List.range NI) s)

/-- The guard `fabs(pivot) < QPDUNES_ZERO * fabs(sum)` of the back-substitutions, for
a recorded pair (numerator, pivot). -/
def guardHolds {α : Type} [LinearOrderedField α] (opts : qpOptions_t α) (p : α × α) : Prop :=
  |p.2| < opts.QPDUNES_ZERO * |p.1|

/-! ## Factorization with regularization -/

/-- What `qpDUNES_factorNewtonSystem` returns and writes: the return code, the
Hessian (Levenberg-Marquardt regularization changes it) and the factor state. -/
structure newtonFactor_result (α : Type) where
  status : return_t
  hessian : xn2x_matrix_t α
  fac : factor_state α

/-- The first or second factorization pass of `qpDUNES_factorNewtonSystem`: the
switch on `options.nwtnHssnFacAlg` (dual_qp.c:765-777 and 833-845); `none` is the
`default` branch. -/
def factorNewtonSystem_pass {α : Type} [LinearOrderedField α] (sqrt : α → α)
    (debug : Bool) (opts : qpOptions_t α) (NI nx : Nat) (hessian : xn2x_matrix_t α)
    (lastActSetChangeIdx : Int) (st : factor_state α) :
    Option (return_t × factor_state α) :=
  match opts.nwtnHssnFacAlg with
  | nwtnHssnFacAlg_t.QPDUNES_NH_FAC_BAND_FORWARD =>
    some (qpDUNES_factorizeNewtonHessian sqrt opts NI nx hessian st)
  | nwtnHssnFacAlg_t.QPDUNES_NH_FAC_BAND_REVERSE =>
    some (qpDUNES_factorizeNewtonHessianBottomUp sqrt debug opts NI nx hessian
      lastActSetChangeIdx st)
  | nwtnHssnFacAlg_t.unknownFacAlg => none

/-- The scan "check maximum diagonal element" of `qpDUNES_factorNewtonSystem`
(dual_qp.c:759, 780-790): the minimum of `QPDUNES_INFTY` and the diagonal of the
factor when the first pass returned `QPDUNES_OK`, and `QPDUNES_INFTY` otherwise. -/
def factorNewtonSystem_minDiagElem {α : Type} [LinearOrderedField α]
    (opts : qpOptions_t α) (NI nx : Nat) (statusFlag : return_t)
    (cholHessian : xn2x_matrix_t α) : α :=
  if statusFlag = QPDUNES_OK then
    (List.range NI).foldl
      (fun m kk => (List.range nx).foldl
        (fun m ii => if m > cholHessian (kk, 0, ii, ii) then cholHessian (kk, 0, ii, ii)
          else m) m)
      opts.QPDUNES_INFTY
  else opts.QPDUNES_INFTY

/-- The Levenberg-Marquardt update `accHessian(kk,0,jj,jj) += regParam`
(dual_qp.c:803-807). -/
def factorNewtonSystem_addRegParam {α : Type} [LinearOrderedField α]
    (opts : qpOptions_t α) (NI nx : Nat) (hessian : xn2x_matrix_t α) : xn2x_matrix_t α :=
  (List.range NI).foldl
    (fun H kk => (List.range nx).foldl
      (fun H jj => Function.update H (kk, 0, jj, jj) (H (kk, 0, jj, jj) + opts.regParam)) H)
    hessian

/-- Embedding of `qpDUNES_factorNewtonSystem` (dual_qp.c:750-860). -/
def qpDUNES_factorNewtonSystem {α : Type} [LinearOrderedField α] (sqrt : α → α)
    (debug : Bool) (opts : qpOptions_t α) (NI nx : Nat) (hessian : xn2x_matrix_t α)
    (st : factor_state α) (lastActSetChangeIdx : Int) : newtonFactor_result α :=
  -- Try to factorize Newton Hessian, to check if positive definite
  match factorNewtonSystem_pass sqrt debug opts NI nx hessian lastActSetChangeIdx st with
  | none => { status := QPDUNES_ERR_INVALID_ARGUMENT, hessian := hessian, fac := st }
  | some (statusFlag, st1) =>
    let minDiagElem := factorNewtonSystem_minDiagElem opts NI nx statusFlag st1.cholHessian
    if statusFlag = QPDUNES_ERR_DIVISION_BY_ZERO
        ∨ minDiagElem < opts.newtonHessDiagRegTolerance then
      -- the switch on regType: `.ok H` is `break` with the Hessian `H`, `.error r` a `return`
      let switched : Except (newtonFactor_result α) (xn2x_matrix_t α) :=
        match opts.regType with
        | regType_t.QPDUNES_REG_LEVENBERG_MARQUARDT =>
          .ok (factorNewtonSystem_addRegParam opts NI nx hessian)
        | regType_t.QPDUNES_REG_NORMALIZED_LEVENBERG_MARQUARDT => .ok hessian
        | regType_t.QPDUNES_REG_SINGULAR_DIRECTIONS =>
          .error { status := QPDUNES_OK, hessian := hessian, fac := st1 }
        | regType_t.QPDUNES_REG_UNCONSTRAINED_HESSIAN =>
          .error { status := QPDUNES_ERR_UNKNOWN_ERROR, hessian := hessian, fac := st1 }
        | regType_t.QPDUNES_REG_GRADIENT_STEP =>
          .error { status := QPDUNES_ERR_DIVISION_BY_ZERO, hessian := hessian,
                   fac := { st1 with isHessianRegularized := true } }
        | regType_t.unknownRegType => .ok hessian
      match switched with
      | .error r => r
      | .ok hessian1 =>
        let st2 := { st1 with isHessianRegularized := true }
        -- refactor Newton Hessian (the reverse variant with `_NI_+1`: the full Hessian)
        match factorNewtonSystem_pass sqrt debug opts NI nx hessian1 ((NI : Int) + 1) st2 with
        | none => { status := QPDUNES_ERR_INVALID_ARGUMENT, hessian := hessian1, fac := st2 }
        | some (statusFlag2, st3) =>
          if statusFlag2 ≠ QPDUNES_OK then
            { status := statusFlag2, hessian := hessian1, fac := st3 }
          else { status := QPDUNES_OK, hessian := hessian1, fac := st3 }
    else if statusFlag ≠ QPDUNES_OK then
      { status := statusFlag, hessian := hessian, fac := st1 }
    else { status := QPDUNES_OK, hessian := hessian, fac := st1 }

/-! ## Newton system setup -/

/-- Values of `interval->qpSolverSpecification`. -/
inductive qp_solver_t
  | QPDUNES_STAGE_QP_SOLVER_CLIPPING
  | QPDUNES_STAGE_QP_SOLVER_QPOASES
  | unknownSolver
  deriving DecidableEq

open qp_solver_t

/-- The fields of `interval_t` that the Newton setup and the line search read besides
the data of the gradient assembly: the flag `actSetHasChanged`, the stage solver and the
multipliers `y` of the local bounds (`y[2*i]` for the lower, `y[2*i+1]` for the upper
bound of variable `i`). -/
structure intervalNewton_t (α : Type) where
  actSetHasChanged : Bool
  qpSolverSpecification : qp_solver_t
  y : vector_t α

/-- The temporaries of `qpData` that `qpDUNES_setupNewtonSystem` hands to the routines
declared outside `dual_qp.c`: `xxMatTmp` (row-major `nx` by `nx`, read and written by
`dual_qp.c` itself), `xVecTmp`, and the others together with the qpOASES objects
(`other`). -/
structure setup_tmp (α τ : Type) where
  xxMatTmp : vector_t α
  xVecTmp : vector_t α
  other : τ

/-- What `qpDUNES_setupNewtonSystem` reads from `qpData` besides the stages, and the
routines declared outside `dual_qp.c` that it calls, as transformers of the temporaries
they are given (the first argument is the stage whose data they read):
`qpOASES_EPE` stands for the calls `qpOASES_getZT`, `qpOASES_getCholZTHZ`,
`backsolveRT_ZTET`, `multiplyMatrixTMatrixDenseDense` of dual_qp.c:607-611,
`qpOASES_CPC` for the calls of dual_qp.c:632-641 and `qpOASES_CPE` for the calls of
dual_qp.c:668-680. -/
structure setup_env (α τ : Type) where
  NI : Nat
  nx : Nat
  nz : Nat
  stationarityTolerance : α
  equalityTolerance : α
  qpOASES_EPE : Nat → setup_tmp α τ → setup_tmp α τ
  getInvQ : Nat → setup_tmp α τ → setup_tmp α τ
  qpDUNES_makeMatrixDense : setup_tmp α τ → setup_tmp α τ
  qpOASES_CPC : Nat → setup_tmp α τ → setup_tmp α τ
  addCInvHCT : Nat → setup_tmp α τ → setup_tmp α τ
  qpOASES_CPE : Nat → setup_tmp α τ → setup_tmp α τ
  multiplyAInvQ : Nat → setup_tmp α τ → setup_tmp α τ

/-- What `qpDUNES_setupNewtonSystem` writes: the Newton Hessian, the gradient and the
temporaries. -/
structure setup_state (α τ : Type) where
  hessian : xn2x_matrix_t α
  gradient : vector_t α
  tmp : setup_tmp α τ

/-- Modelled from the spec: `vectorNorm` is declared outside `dual_qp.c`; the spec
reads `vectorNorm(gradient, len)` as the norm of the gradient, the Euclidean norm of
the first `len` entries. -/
def vectorNorm {α : Type} [LinearOrderedField α] (sqrt : α → α) (vec : vector_t α)
    (len : Nat) : α :=
  sqrt ((List.range len).foldl (fun s ii => s + vec ii * vec ii) 0)

/-- The loop "Annihilate columns in invQ" of `qpDUNES_setupNewtonSystem`
(dual_qp.c:619-625), on the multipliers `y` of stage `kk+1`. -/
def setupNewtonSystem_annihilate {α : Type} [LinearOrderedField α] (nx : Nat)
    (equalityTolerance : α) (y : vector_t α) (xxMatTmp : vector_t α) : vector_t α :=
  (List.range nx).foldl
    (fun xx ii =>
      -- check if local constraint lb_x or ub_x is active
      if y (2 * ii) ≥ equalityTolerance ∨ y (2 * ii + 1) ≥ equalityTolerance then
        Function.update xx (ii * nx + ii) 0
      else xx)
    xxMatTmp

/-- The loop "write Hessian part" of a diagonal block (dual_qp.c:648-654): copy
`xxMatTmp` into the diagonal block `kk` and clean `xxMatTmp`. -/
def setupNewtonSystem_writeDiag {α : Type} [LinearOrderedField α] (nx kk : Nat)
    (hessian : xn2x_matrix_t α) (xxMatTmp : vector_t α) : xn2x_matrix_t α × vector_t α :=
  (List.range nx).foldl
    (fun st ii => (List.range nx).foldl
      (fun (st : xn2x_matrix_t α × vector_t α) jj =>
        (Function.update st.1 (kk, 0, ii, jj) (st.2 (ii * nx + jj)),
          -- clean xxMatTmp
          Function.update st.2 (ii * nx + jj) 0))
      st)
    (hessian, xxMatTmp)

/-- Body of the loop "1) diagonal blocks" of `qpDUNES_setupNewtonSystem`
(dual_qp.c:596-656) for block `kk`. -/
def setupNewtonSystem_diagBlock {α τ : Type} [LinearOrderedField α] (env : setup_env α τ)
    (stages : Nat → intervalNewton_t α) (kk : Nat) (s : setup_state α τ) :
    setup_state α τ :=
  -- check whether block needs to be recomputed
  if (stages kk).actSetHasChanged = true ∨ (stages (kk + 1)).actSetHasChanged = true then
    -- get EPE part
    let t :=
      if (stages (kk + 1)).qpSolverSpecification = QPDUNES_STAGE_QP_SOLVER_QPOASES then
        env.qpOASES_EPE (kk + 1) s.tmp
      else
        -- clipping QP solver
        let t := env.getInvQ (kk + 1) s.tmp
        let t := env.qpDUNES_makeMatrixDense t
        let xx := setupNewtonSystem_annihilate env.nx env.equalityTolerance
          (stages (kk + 1)).y t.xxMatTmp
        { t with xxMatTmp := xx }
    -- add CPC part
    let t :=
      if (stages kk).qpSolverSpecification = QPDUNES_STAGE_QP_SOLVER_QPOASES then
        env.qpOASES_CPC kk t
      else env.addCInvHCT kk t
    -- write Hessian part
    let w := setupNewtonSystem_writeDiag env.nx kk s.hessian t.xxMatTmp
    { s with hessian := w.1, tmp := { t with xxMatTmp := w.2 } }
  else s

/-- The loop "write Hessian part" of a sub-diagonal block of a qpOASES stage
(dual_qp.c:683-687). -/
def setupNewtonSystem_writeSubQpoases {α : Type} [LinearOrderedField α] (nx kk : Nat)
    (hessian : xn2x_matrix_t α) (xxMatTmp : vector_t α) : xn2x_matrix_t α :=
  (List.range nx).foldl
    (fun H ii => (List.range nx).foldl
      (fun H jj => Function.update H (kk, -1, ii, jj) (-xxMatTmp (ii * nx + jj)))
      H)
    hessian

/-- The loop "write Hessian part" of a sub-diagonal block of a clipping stage
(dual_qp.c:693-706), on the multipliers `y` of stage `kk`. -/
def setupNewtonSystem_writeSubClipping {α : Type} [LinearOrderedField α] (nx kk : Nat)
    (equalityTolerance : α) (y : vector_t α) (hessian : xn2x_matrix_t α)
    (xxMatTmp : vector_t α) : xn2x_matrix_t α :=
  (List.range nx).foldl
    (fun H ii => (List.range nx).foldl
      (fun H jj =>
        -- check if local constraints lb_x and ub_x are inactive
        if y (2 * jj) ≤ equalityTolerance ∧ y (2 * jj + 1) ≤ equalityTolerance then
          Function.update H (kk, -1, ii, jj) (-xxMatTmp (ii * nx + jj))
        else
          -- eliminate column if variable bound is active
          Function.update H (kk, -1, ii, jj) 0)
      H)
    hessian

/-- Body of the loop "2) sub-diagonal blocks" of `qpDUNES_setupNewtonSystem`
(dual_qp.c:659-709) for block `kk`. -/
def setupNewtonSystem_subBlock {α τ : Type} [LinearOrderedField α] (env : setup_env α τ)
    (stages : Nat → intervalNewton_t α) (kk : Nat) (s : setup_state α τ) :
    setup_state α τ :=
  if (stages kk).actSetHasChanged = true then
    if (stages kk).qpSolverSpecification = QPDUNES_STAGE_QP_SOLVER_QPOASES then
      let t := env.qpOASES_CPE kk s.tmp
      let H := setupNewtonSystem_writeSubQpoases env.nx kk s.hessian t.xxMatTmp
      { s with hessian := H, tmp := t }
    else
      -- clipping QP solver
      let t := env.multiplyAInvQ kk s.tmp
      let H := setupNewtonSystem_writeSubClipping env.nx kk env.equalityTolerance
        (stages kk).y s.hessian t.xxMatTmp
      { s with hessian := H, tmp := t }
  else s

/-- Embedding of `qpDUNES_setupNewtonSystem` (dual_qp.c:564-716): assemble the
gradient, leave with `QPDUNES_SUCC_OPTIMAL_SOLUTION_FOUND` when its norm is below
`stationarityTolerance`, and otherwise rebuild the diagonal blocks `0 .. NI-1` and the
sub-diagonal blocks `1 .. NI-1` of the Newton Hessian. `intervals` holds the data of
the gradient assembly and `stages` the other fields of the same stages. -/
def qpDUNES_setupNewtonSystem {α τ : Type} [LinearOrderedField α] (sqrt : α → α)
    (env : setup_env α τ) (intervals : Nat → interval_t α)
    (stages : Nat → intervalNewton_t α) (s : setup_state α τ) :
    return_t × setup_state α τ :=
  -- calculate gradient and check gradient norm for convergence
  let g := qpDUNES_computeNewtonGradient env.NI env.nx env.nz intervals s.gradient
    s.tmp.xVecTmp
  let s := { s with gradient := g.gradient, tmp := { s.tmp with xVecTmp := g.gradPiece } }
  if vectorNorm sqrt s.gradient (env.nx * env.NI) < env.stationarityTolerance then
    (QPDUNES_SUCC_OPTIMAL_SOLUTION_FOUND, s)
  else
    -- calculate hessian: 1) diagonal blocks
    let s := (List.range env.NI).foldl
      (fun s kk => setupNewtonSystem_diagBlock env stages kk s) s
    -- 2) sub-diagonal blocks
    let s := (List.range' 1 (env.NI - 1)).foldl
      (fun s kk => setupNewtonSystem_subBlock env stages kk s) s
    (QPDUNES_OK, s)

/-! ## Step length -/

/-- Values of `options.lsType`. -/
inductive lsType_t
  | QPDUNES_LS_BACKTRACKING_LS
  | QPDUNES_LS_BACKTRACKING_LS_WITH_AS_CHANGE
  | QPDUNES_LS_GOLDEN_SECTION_LS
  | QPDUNES_LS_GRADIENT_BISECTION_LS
  | QPDUNES_LS_ACCELERATED_GRADIENT_BISECTION_LS
  | QPDUNES_LS_GRID_LS
  | QPDUNES_LS_ACCELERATED_GRID_LS
  | unknownLsType
  deriving DecidableEq

open lsType_t

/-- The fields of `qpData->options` read by `qpDUNES_determineStepLength`. -/
structure lsOptions_t (α : Type) where
  lsType : lsType_t
  equalityTolerance : α
  QPDUNES_INFTY : α
  lineSearchReductionFactor : α

/-- What `qpDUNES_determineStepLength` and the line searches write: the multipliers
`lambda`, the step `*alpha`, the counter `*itCntr`, `*objValIncumbent`, and the rest of
`qpData` (`qp`: the stage QP variables and the temporaries such as `lambdaTry`). -/
structure ls_state (α σ : Type) where
  lambda : vector_t α
  alpha : α
  itCntr : Nat
  objValIncumbent : α
  qp : σ

/-- What `qpDUNES_determineStepLength` reads from `qpData`, and the routines it calls.
The stage solver routines `directQpSolver_getMinStepsize`, `directQpSolver_doStep` and
`qpOASES_doStep` are declared outside `dual_qp.c` (the first argument is the stage; the
last argument of `directQpSolver_getMinStepsize` is the value of its in/out parameter
on entry). The objective evaluation and the four line searches are routines of
`dual_qp.c` that are kept abstract here; the line searches take `deltaLambdaFS`,
`alphaMin`, `alphaMax` (and the backtracking search the incumbent objective value). -/
structure ls_env (α σ : Type) where
  NI : Nat
  nx : Nat
  opts : lsOptions_t α
  directQpSolver_getMinStepsize : Nat → σ → α → α
  directQpSolver_doStep : Nat → α → σ → σ
  qpOASES_doStep : Nat → α → σ → σ
  qpDUNES_computeObjectiveValue : σ → α
  qpDUNES_backTrackingLineSearch :
    vector_t α → α → α → α → ls_state α σ → return_t × ls_state α σ
  qpDUNES_goldenSectionIntervalSearch :
    vector_t α → α → α → ls_state α σ → return_t × ls_state α σ
  qpDUNES_bisectionIntervalSearch :
    vector_t α → α → α → ls_state α σ → return_t × ls_state α σ
  qpDUNES_gridSearch : α → α → ls_state α σ → return_t × ls_state α σ

/-- Modelled from the spec: `addVectorScaledVector(res, x, scalingFactor, y, len)` is
declared outside `dual_qp.c`; it writes `x + scalingFactor * y` into the first `len`
entries of `res` ("updates lambda" by the step along the direction). -/
def addVectorScaledVector {α : Type} [LinearOrderedField α] (res x : vector_t α)
    (scalingFactor : α) (y : vector_t α) (len : Nat) : vector_t α :=
  (List.range len).foldl
    (fun r ii => Function.update r ii (x ii + scalingFactor * y ii)) res

/-- Modelled from the spec: `addScaledVector(res, scalingFactor, update, len)` is
declared outside `dual_qp.c`; it adds `scalingFactor * update` onto the first `len`
entries of `res`. -/
def addScaledVector {α : Type} [LinearOrderedField α] (res : vector_t α)
    (scalingFactor : α) (update : vector_t α) (len : Nat) : vector_t α :=
  (List.range len).foldl
    (fun r ii => Function.update r ii (r ii + scalingFactor * update ii)) res

/-- The block "compute minimum step size for active set change" of
`qpDUNES_determineStepLength` (dual_qp.c:1317-1344): the pair of the locals
(`alphaMin`, `alphaASChange`) after the loop over the stages `0 .. NI`. -/
def determineStepLength_alphaMin {α σ : Type} [LinearOrderedField α] (env : ls_env α σ)
    (stages : Nat → intervalNewton_t α) (qp : σ) : α × α :=
  let alphaMin : α := 0
  let alphaASChange := env.opts.QPDUNES_INFTY
  let alphaMin :=
    if (stages 0).qpSolverSpecification = QPDUNES_STAGE_QP_SOLVER_CLIPPING then
      env.opts.QPDUNES_INFTY
    else alphaMin
  (List.range (env.NI + 1)).foldl
    (fun (a : α × α) kk =>
      if (stages kk).qpSolverSpecification = QPDUNES_STAGE_QP_SOLVER_CLIPPING then
        let alphaASChange := env.directQpSolver_getMinStepsize kk qp a.2
        if alphaASChange < a.1 then (alphaASChange, alphaASChange)
        else (a.1, alphaASChange)
      else a)
    (alphaMin, alphaASChange)

/-- The loop "update primal, dual, and internal QP solver variables" over the stages
`0 .. NI` (dual_qp.c:1352-1375 and 1437-1469); `.error` is the `return` of the
`default` branch. -/
def determineStepLength_doSteps {α σ : Type} [LinearOrderedField α] (env : ls_env α σ)
    (stages : Nat → intervalNewton_t α) (alpha : α) (qp : σ) : Except (return_t × σ) σ :=
  loopExcept
    (fun qp kk =>
      match (stages kk).qpSolverSpecification with
      | QPDUNES_STAGE_QP_SOLVER_CLIPPING => .ok (env.directQpSolver_doStep kk alpha qp)
      | QPDUNES_STAGE_QP_SOLVER_QPOASES => .ok (env.qpOASES_doStep kk alpha qp)
      | unknownSolver => .error (QPDUNES_ERR_UNKNOWN_ERROR, qp))
    (List.range (env.NI + 1)) qp

/-- The switch "do a line search" of `qpDUNES_determineStepLength`
(dual_qp.c:1383-1435): `.ok (statusFlag, s)` goes on to "UPDATE VARIABLES", `.error` is
a `return` inside the switch. -/
def determineStepLength_lineSearch {α σ : Type} [LinearOrderedField α] (env : ls_env α σ)
    (deltaLambdaFS : vector_t α) (alphaMin alphaMax : α) (s : ls_state α σ) :
    Except (return_t × ls_state α σ) (return_t × ls_state α σ) :=
  match env.opts.lsType with
  | QPDUNES_LS_BACKTRACKING_LS =>
    let r := env.qpDUNES_backTrackingLineSearch deltaLambdaFS 0 alphaMax
      s.objValIncumbent s
    if r.1 = QPDUNES_ERR_DECEEDED_MIN_LINESEARCH_STEPSIZE then .error r else .ok r
  | QPDUNES_LS_BACKTRACKING_LS_WITH_AS_CHANGE =>
    let r := env.qpDUNES_backTrackingLineSearch deltaLambdaFS 0 alphaMax
      s.objValIncumbent s
    if r.1 = QPDUNES_ERR_DECEEDED_MIN_LINESEARCH_STEPSIZE then .error r
    else
      -- check for active set change
      if alphaMin < 1 - env.opts.equalityTolerance ∧ r.2.alpha < alphaMin then
        .ok (r.1, { r.2 with alpha := alphaMin })
      else .ok r
  | QPDUNES_LS_GOLDEN_SECTION_LS =>
    .ok (env.qpDUNES_goldenSectionIntervalSearch deltaLambdaFS alphaMin alphaMax s)
  | QPDUNES_LS_GRADIENT_BISECTION_LS =>
    .ok (env.qpDUNES_bisectionIntervalSearch deltaLambdaFS alphaMin alphaMax s)
  | QPDUNES_LS_ACCELERATED_GRADIENT_BISECTION_LS =>
    let r := env.qpDUNES_backTrackingLineSearch deltaLambdaFS 0 alphaMax
      s.objValIncumbent s
    if r.1 = QPDUNES_ERR_DECEEDED_MIN_LINESEARCH_STEPSIZE then .error r
    else
      -- take last alpha that did not yet lead to ascent
      let alphaMax := min alphaMax (r.2.alpha / env.opts.lineSearchReductionFactor)
      .ok (env.qpDUNES_bisectionIntervalSearch deltaLambdaFS alphaMin alphaMax r.2)
  | QPDUNES_LS_GRID_LS => .ok (env.qpDUNES_gridSearch alphaMin alphaMax s)
  | QPDUNES_LS_ACCELERATED_GRID_LS =>
    let r := env.qpDUNES_backTrackingLineSearch deltaLambdaFS 0 alphaMax
      s.objValIncumbent s
    if r.1 = QPDUNES_ERR_DECEEDED_MIN_LINESEARCH_STEPSIZE then .error r
    else
      let alphaMax := min alphaMax (r.2.alpha / env.opts.lineSearchReductionFactor)
      .ok (env.qpDUNES_gridSearch alphaMin alphaMax r.2)
  | unknownLsType => .ok (QPDUNES_ERR_UNKNOWN_LS_TYPE, s)

/-- Embedding of `qpDUNES_determineStepLength` (dual_qp.c:1304-1475). -/
def qpDUNES_determineStepLength {α σ : Type} [LinearOrderedField α] (env : ls_env α σ)
    (stages : Nat → intervalNewton_t α) (deltaLambdaFS : vector_t α)
    (newtonHessianRegularized : Bool) (s : ls_state α σ) : return_t × ls_state α σ :=
  let nV := env.nx * env.NI
  let alphaMax : α := 1
  let s := { s with itCntr := 0 }
  -- compute minimum step size for active set change
  let alphaMin := (determineStepLength_alphaMin env stages s.qp).1
  -- take full step and leave
  if alphaMin > 1 - env.opts.equalityTolerance ∧ newtonHessianRegularized = false then
    let s := { s with alpha := 1 }
    let lambda := addVectorScaledVector s.lambda s.lambda s.alpha deltaLambdaFS nV
    let s := { s with lambda := lambda }
    match determineStepLength_doSteps env stages s.alpha s.qp with
    | .error e => (e.1, { s with qp := e.2 })
    | .ok qp =>
      (QPDUNES_OK,
        { s with qp := qp, objValIncumbent := env.qpDUNES_computeObjectiveValue qp })
  else
    -- do a line search
    match determineStepLength_lineSearch env deltaLambdaFS alphaMin alphaMax s with
    | .error r => r
    | .ok (statusFlag, s) =>
      -- UPDATE VARIABLES
      let lambda := addScaledVector s.lambda s.alpha deltaLambdaFS nV
      let s := { s with lambda := lambda }
      match determineStepLength_doSteps env stages s.alpha s.qp with
      | .error e => (e.1, { s with qp := e.2 })
      | .ok qp =>
        (statusFlag,
          { s with qp := qp, objValIncumbent := env.qpDUNES_computeObjectiveValue qp })

/-! ## The outer driver -/

/-- The part of `qpData` (and of the locals of `qpDUNES_solve`) that the driver and the
Newton-system routines of `dual_qp.c` read and write themselves. Everything else
(stage data, multipliers, step size, incumbent objective, iteration log) is `ext`:
it is only touched by the routines that are parameters of the driver. -/
structure solve_state (α ε : Type) where
  hessian : xn2x_matrix_t α
  cholHessian : xn2x_matrix_t α
  gradient : vector_t α
  deltaLambda : vector_t α
  isHessianRegularized : Bool
  lastActSetChangeIdx : Int
  numIter : Int
  ext : ε

/-- The configuration of a solve and the routines the driver calls that are not
modelled here in full: the stage solvers (external collaborators), the Newton
setup, the line search and the logging. Each is a state transformer; those that
return a `return_t` give it along with the new state. -/
structure solve_env (α ε : Type) where
  sqrt : α → α
  debug : Bool
  useAsserts : Bool
  opts : qpOptions_t α
  NI : Nat
  nx : Nat
  maxIter : Int
  nbrInitialGradientSteps : Int
  logIterations : Bool
  initialStageStep : Nat → solve_state α ε → return_t × solve_state α ε
  computeObjectiveValue : solve_state α ε → solve_state α ε
  acceptActSet : solve_state α ε → solve_state α ε
  saveLastActSet : solve_state α ε → solve_state α ε
  logIteration : solve_state α ε → solve_state α ε
  computeNewtonGradient : solve_state α ε → solve_state α ε
  setupNewtonSystem : solve_state α ε → return_t × solve_state α ε
  updateAllLocalQPs : solve_state α ε → solve_state α ε
  solveLocalQP : Nat → solve_state α ε → return_t × solve_state α ε
  determineStepLength : solve_state α ε → return_t × solve_state α ε

/-- Modelled from the spec: `qpDUNES_copyVector` is declared outside `dual_qp.c`; it
copies the first `len` entries of `src` to `res`. -/
def qpDUNES_copyVector {α : Type} (res src : vector_t α) (len : Nat) : vector_t α :=
  (List.range len).foldl (fun r ii => Function.update r ii (src ii)) res

/-- Embedding of `qpDUNES_solveAllLocalQPs` (dual_qp.c:483-515). The stage loop is
run in stage order (the stages write disjoint workspaces); `errCntr` counts the
stages whose solve did not return `QPDUNES_OK`. -/
def qpDUNES_solveAllLocalQPs {σ : Type} (NI : Nat) (updateAllLocalQPs : σ → σ)
    (solveLocalQP : Nat → σ → return_t × σ) (s : σ) : return_t × σ :=
  -- 1) update local QP data
  let s := updateAllLocalQPs s
  -- 2) solve local QPs
  let r := (List.range (NI + 1)).foldl
    (fun (r : Nat × σ) kk =>
      let q := solveLocalQP kk r.2
      if q.1 ≠ QPDUNES_OK then (r.1 + 1, q.2) else (r.1, q.2))
    (0, s)
  if r.1 > 0 then (QPDUNES_ERR_STAGE_QP_INFEASIBLE, r.2) else (QPDUNES_OK, r.2)

/-- The guarded call `if (logLevel >= QPDUNES_LOG_ITERATIONS) qpDUNES_logIteration(..)`. -/
def solve_logIfEnabled {α ε : Type} (env : solve_env α ε) (s : solve_state α ε) :
    solve_state α ε :=
  if env.logIterations = true then env.logIteration s else s

/-- The outcome of a phase of the driver: `.error (code, state)` is a `return code`,
`.ok state` goes on. -/
abbrev solve_step (α ε : Type) : Type :=
  Except (return_t × solve_state α ε) (solve_state α ε)

/-- Steps (1Ba)-(1Bc) of an iteration of `qpDUNES_solve` (dual_qp.c:158-222): set up,
factorize and solve the Newton system. -/
def solve_newtonDirection {α ε : Type} [LinearOrderedField α] (env : solve_env α ε)
    (s : solve_state α ε) : solve_step α ε :=
  -- (1Ba) set up Newton system
  let r := env.setupNewtonSystem s
  match r.1 with
  | QPDUNES_OK =>
    let s := r.2
    -- (1Bb) factorize Newton system
    let f := qpDUNES_factorNewtonSystem env.sqrt env.debug env.opts env.NI env.nx s.hessian
      { cholHessian := s.cholHessian, isHessianRegularized := s.isHessianRegularized,
        pivots := [] }
      s.lastActSetChangeIdx
    let s := { s with hessian := f.hessian, cholHessian := f.fac.cholHessian,
                      isHessianRegularized := f.fac.isHessianRegularized }
    match f.status with
    | QPDUNES_OK =>
      -- (1Bc) compute step direction
      let b : Option (return_t × vector_t α) :=
        match env.opts.nwtnHssnFacAlg with
        | nwtnHssnFacAlg_t.QPDUNES_NH_FAC_BAND_FORWARD =>
          some (qpDUNES_solveNewtonEquation env.useAsserts env.opts env.NI env.nx
            s.deltaLambda s.cholHessian s.gradient)
        | nwtnHssnFacAlg_t.QPDUNES_NH_FAC_BAND_REVERSE =>
          some (qpDUNES_solveNewtonEquationBottomUp env.useAsserts env.opts env.NI env.nx
            s.deltaLambda s.cholHessian s.gradient)
        | nwtnHssnFacAlg_t.unknownFacAlg => none
      match b with
      | none => .error (QPDUNES_ERR_INVALID_ARGUMENT, s)
      | some (statusFlag, res) =>
        let s := { s with deltaLambda := res }
        if statusFlag ≠ QPDUNES_OK then .error (statusFlag, solve_logIfEnabled env s)
        else .ok s
    | statusFlag => .error (statusFlag, solve_logIfEnabled env s)
  | QPDUNES_SUCC_OPTIMAL_SOLUTION_FOUND =>
    -- zero gradient norm detected
    let s := solve_logIfEnabled env r.2
    .error (QPDUNES_SUCC_OPTIMAL_SOLUTION_FOUND,
      if env.logIterations = true then env.saveLastActSet s else s)
  | statusFlag => .error (statusFlag, solve_logIfEnabled env r.2)

/-- Body of the loop of nonsmooth Newton iterations of `qpDUNES_solve`
(dual_qp.c:126-344) for the iteration counter `itCntr`. -/
def solve_iteration {α ε : Type} [LinearOrderedField α] (env : solve_env α ε)
    (itCntr : Int) (s : solve_state α ε) : solve_step α ε :=
  let s := { s with numIter := itCntr, isHessianRegularized := false }
  -- (1) get a step direction: switch between gradient and Newton steps
  let dir : solve_step α ε :=
    if itCntr > 1 ∧ itCntr - 1 ≤ env.nbrInitialGradientSteps then
      -- (1Aa) get a gradient step, (1Ab) do gradient step
      let s := env.computeNewtonGradient s
      .ok { s with deltaLambda := qpDUNES_copyVector s.deltaLambda s.gradient (env.NI * env.nx) }
    else solve_newtonDirection env s
  match dir with
  | .error e => .error e
  | .ok s =>
    -- (2) do QP solution for full step; the returned status is not used
    let s := (qpDUNES_solveAllLocalQPs env.NI env.updateAllLocalQPs env.solveLocalQP s).2
    -- (4) determine step length: do line search along the way of the full step
    let r := env.determineStepLength s
    match r.1 with
    | QPDUNES_OK => .ok (env.logIteration (env.acceptActSet r.2))
    | QPDUNES_ERR_NUMBER_OF_MAX_LINESEARCH_ITERATIONS_REACHED =>
      .ok (env.logIteration (env.acceptActSet r.2))
    | QPDUNES_ERR_EXCEEDED_MAX_LINESEARCH_STEPSIZE =>
      .ok (env.logIteration (env.acceptActSet r.2))
    | QPDUNES_ERR_DECEEDED_MIN_LINESEARCH_STEPSIZE =>
      -- deltaLambda is no ascent direction
      .error (QPDUNES_ERR_NEWTON_SYSTEM_NO_ASCENT_DIRECTION, solve_logIfEnabled env r.2)
    | statusFlag => .error (statusFlag, solve_logIfEnabled env r.2)

/-- The loop `for (itCntr = start; itCntr <= maxIter; ++itCntr)` of `qpDUNES_solve`
with `fuel` iterations left, and what follows it (dual_qp.c:126, 347-352). -/
def solve_loop {α ε : Type} [LinearOrderedField α] (env : solve_env α ε) :
    Nat → Int → solve_state α ε → return_t × solve_state α ε
  | 0, _, s => (QPDUNES_ERR_ITERATION_LIMIT_REACHED, { s with numIter := env.maxIter })
  | fuel + 1, itCntr, s =>
    match solve_iteration env itCntr s with
    | .error e => e
    | .ok s1 => solve_loop env fuel (itCntr + 1) s1

/-- Embedding of `qpDUNES_solve` (dual_qp.c:39-353). -/
def qpDUNES_solve {α ε : Type} [LinearOrderedField α] (env : solve_env α ε)
    (s : solve_state α ε) : return_t × solve_state α ε :=
  let s := { s with numIter := 0, lastActSetChangeIdx := (env.NI : Int) }
  -- (2) resolve initial QPs; `statusFlag` keeps the status of the stage solved last
  let r := (List.range (env.NI + 1)).foldl
    (fun (r : return_t × solve_state α ε) ii => env.initialStageStep ii r.2)
    (QPDUNES_OK, s)
  let s := env.computeObjectiveValue r.2
  if r.1 ≠ QPDUNES_OK then (r.1, solve_logIfEnabled env s)
  else
    -- get active set of local constraints, (3a) log
    let s := solve_logIfEnabled env (env.acceptActSet s)
    -- loop of nonsmooth Newton iterations
    solve_loop env env.maxIter.toNat 1 s

/-! ## Dense readings of the banded matrices -/

/-- What the theorems assume of the C library function `sqrt`: on a nonnegative
argument it returns the nonnegative square root. `Real.sqrt` is the intended
instance. -/
structure SqrtSpec {α : Type} [LinearOrderedField α] (sqrt : α → α) : Prop where
  nonneg : ∀ x, 0 ≤ sqrt x
  sq : ∀ x, 0 ≤ x → sqrt x * sqrt x = x

/-- The lower-triangular block-banded factor `L` stored in `cholHessian`, as the
`N*nx` by `N*nx` matrix it stands for: row `r = k*nx + i`, column `m = k'*nx + j`.
The entry is `cholHessian(k,0,i,j)` in the lower triangle (`j ≤ i`) of the diagonal
block (`k' = k`), `cholHessian(k,-1,i,j)` in the sub-diagonal block (`k' = k-1`), and
zero elsewhere. -/
def lowerFactor {α : Type} [LinearOrderedField α] (nx : Nat) (L : xn2x_matrix_t α)
    (r m : Nat) : α :=
  if m / nx = r / nx then
    (if m % nx ≤ r % nx then L (r / nx, 0, r % nx, m % nx) else 0)
  else if m / nx + 1 = r / nx then L (r / nx, -1, r % nx, m % nx)
  else 0

/-- The symmetric block-tridiagonal Newton Hessian stored in `hessian`, as the
`N*nx` by `N*nx` matrix it stands for: the diagonal blocks are `hessian(k,0,.,.)`, the
sub-diagonal blocks `hessian(k,-1,.,.)`, the super-diagonal blocks the transposes of
the sub-diagonal blocks, and every other block is zero. -/
def fullHessian {α : Type} [LinearOrderedField α] (nx : Nat) (H : xn2x_matrix_t α)
    (r m : Nat) : α :=
  if m / nx = r / nx then H (r / nx, 0, r % nx, m % nx)
  else if m / nx + 1 = r / nx then H (r / nx, -1, r % nx, m % nx)
  else if r / nx + 1 = m / nx then H (m / nx, -1, m % nx, r % nx)
  else 0

/-- The `n` by `n` matrix `A` is symmetric positive definite. -/
def IsSPD {α : Type} [LinearOrderedField α] (n : Nat) (A : Nat → Nat → α) : Prop :=
  (∀ r m, r < n → m < n → A r m = A m r)
  ∧ ∀ x : Nat → α, (∃ i, i < n ∧ x i ≠ 0) →
      0 < ∑ r in Finset.range n, ∑ m in Finset.range n, x r * A r m * x m

/-! ## Predicates used in the proofs -/

/-- Columns `0 .. c-1` of the lower-triangular `Lf` are columns of a Cholesky factor of
the `n` by `n` matrix `A`: their diagonal entries are positive and, for every row `r`
on or below the diagonal, `A r t` is the product of rows `r` and `t` of `Lf`. -/
def cholColumnsDone {α : Type} [LinearOrderedField α] (n c : Nat) (A Lf : Nat → Nat → α) :
    Prop :=
  ∀ t, t < c → 0 < Lf t t
    ∧ ∀ r, t ≤ r → r < n → A r t = ∑ u in Finset.range (t + 1), Lf r u * Lf t u


/-- What holds of the outcome of a loop or of a loop body: `P` of the state it goes on
with, `Q` of what it returns. -/
def outcome {ε σ : Type} (P : σ → Prop) (Q : ε → Prop) (r : Except ε σ) : Prop :=
  match r with
  | .ok s => P s
  | .error e => Q e

/-- The invariant of the threshold theorems: in a state the loop goes on with every
recorded pivot sum is at least `thr`; a return inside the loop is a return of
`QPDUNES_ERR_DIVISION_BY_ZERO` with a recorded pivot sum below `thr`. -/
def pivotsOutcome {α : Type} [LinearOrderedField α] (thr : α) (r : factor_step α) : Prop :=
  outcome (fun st => ∀ s ∈ st.pivots, thr ≤ s)
    (fun e => e.1 = QPDUNES_ERR_DIVISION_BY_ZERO ∧ ∃ s ∈ e.2.pivots, s < thr) r

/-- Every pivot squared-sum recorded so far is at least `thr`. -/
def pivotsAbove {α : Type} [LinearOrderedField α] (thr : α) (st : factor_state α) : Prop :=
  ∀ s ∈ st.pivots, thr ≤ s

/-- Rows `c .. n-1` of the lower-triangular `Lf` are rows of a reverse Cholesky factor
of the `n` by `n` matrix `A` (`A = Lf^T * Lf`): their diagonal entries are positive
and, for every column `r` on or left of the diagonal, `A t r` is the product of columns
`t` and `r` of `Lf`. -/
def cholRowsDone {α : Type} [LinearOrderedField α] (n c : Nat) (A Lf : Nat → Nat → α) :
    Prop :=
  ∀ t, c ≤ t → t < n → 0 < Lf t t
    ∧ ∀ r, r ≤ t → A t r = ∑ u in Finset.range (n - t), Lf (t + u) t * Lf (t + u) r

/-- The reverse factorization goes on with the pivot squared-sum `s` as it is: it
neither regularizes it (`regType = SingularDirections` and `s` below
`newtonHessDiagRegTolerance`) nor fails on it (`s` below `1.e2 * equalityTolerance`). -/
def pivotAcceptedBottomUp {α : Type} [LinearOrderedField α] (opts : qpOptions_t α)
    (s : α) : Prop :=
  (opts.regType = regType_t.QPDUNES_REG_SINGULAR_DIRECTIONS →
      opts.newtonHessDiagRegTolerance ≤ s)
    ∧ 100 * opts.equalityTolerance ≤ s

/-- Every pivot squared-sum recorded so far was accepted by the reverse
factorization. -/
def pivotsAcceptedBottomUp {α : Type} [LinearOrderedField α] (opts : qpOptions_t α)
    (st : factor_state α) : Prop :=
  ∀ s ∈ st.pivots, pivotAcceptedBottomUp opts s

/-- The invariant of a top-down solve with the factor `Lf` for the right-hand side `b`
when the rows before `c` are done: they satisfy their equations, and the entries of
`res` from `c` on are still those of `res0`. -/
def lowerSolved {α : Type} [LinearOrderedField α] (c : Nat) (Lf : Nat → Nat → α)
    (b res res0 : vector_t α) : Prop :=
  (∀ r, r < c → ∑ t in Finset.range (r + 1), Lf r t * res t = b r)
    ∧ ∀ r, c ≤ r → res r = res0 r

/-- The invariant of a bottom-up solve with the transpose of `Lf` for the right-hand
side `b` when the rows from `c` on are done: they satisfy their equations, and the
entries of `res` before `c` are still those of `res0`. -/
def upperSolved {α : Type} [LinearOrderedField α] (n c : Nat) (Lf : Nat → Nat → α)
    (b res res0 : vector_t α) : Prop :=
  (∀ r, c ≤ r → r < n → ∑ u in Finset.range (n - r), Lf (r + u) r * res (r + u) = b r)
    ∧ ∀ r, r < c → res r = res0 r

/-- A back-substitution returned inside a loop: the code is
`QPDUNES_ERR_DIVISION_BY_ZERO`, which only the division guard of `__USE_ASSERTS__`
returns, and only for a positive `QPDUNES_ZERO`. -/
def guardFired {α : Type} [LinearOrderedField α] (useAsserts : Bool) (opts : qpOptions_t α)
    (e : return_t × vector_t α) : Prop :=
  e.1 = QPDUNES_ERR_DIVISION_BY_ZERO ∧ useAsserts = true ∧ 0 < opts.QPDUNES_ZERO

/-- The diagonal entries of the factor in the columns before `c` are positive and not
above `QPDUNES_INFTY`. -/
def diagBounded {α : Type} [LinearOrderedField α] (opts : qpOptions_t α) (nx c : Nat)
    (L : xn2x_matrix_t α) : Prop :=
  ∀ k i, i < nx → k * nx + i < c → 0 < L (k, 0, i, i) ∧ L (k, 0, i, i) ≤ opts.QPDUNES_INFTY

/-- The record of a back-substitution that goes on (assertions enabled): no pair that
arrived at a division and no division executed satisfies the guard. -/
def guardPassed {α : Type} [LinearOrderedField α] (opts : qpOptions_t α)
    (s : backsolve_state α) : Prop :=
  (∀ p ∈ s.checks, ¬ guardHolds opts p) ∧ (∀ p ∈ s.divs, ¬ guardHolds opts p)

/-- The record of a back-substitution that returns inside a loop (assertions enabled):
the code is `QPDUNES_ERR_DIVISION_BY_ZERO`, a pair that arrived at a division satisfies
the guard, and no division executed does. -/
def guardReturned {α : Type} [LinearOrderedField α] (opts : qpOptions_t α)
    (e : return_t × backsolve_state α) : Prop :=
  e.1 = QPDUNES_ERR_DIVISION_BY_ZERO ∧ (∃ p ∈ e.2.checks, guardHolds opts p)
    ∧ (∀ p ∈ e.2.divs, ¬ guardHolds opts p)

/-! ## Concrete inputs -/

/-- A configuration for the examples: `newtonHessDiagRegTolerance = 1`,
`equalityTolerance = 1/1000` (so `1.e2 * equalityTolerance = 1/10`), `regParam = 1`,
`QPDUNES_INFTY = 1000`, `QPDUNES_ZERO = 1/1000`. -/
def exampleOptions (α : Type) [LinearOrderedField α] (regType : regType_t)
    (facAlg : nwtnHssnFacAlg_t) : qpOptions_t α :=
  { regType := regType, nwtnHssnFacAlg := facAlg, regParam := 1,
    newtonHessDiagRegTolerance := 1, equalityTolerance := 1 / 1000,
    QPDUNES_INFTY := 1000, QPDUNES_ZERO := 1 / 1000 }

/-- A solve with one coupling interval and `nx = 1` for the examples: the initial
resolve, the Newton setup and the line search succeed and leave the Newton system
alone, every stage QP solve of the iterations returns `stageStatus`, and `ext`
counts the calls of `qpDUNES_determineStepLength`. -/
def exampleEnv (α : Type) [LinearOrderedField α] (sqrt : α → α) (regType : regType_t)
    (stageStatus : return_t) (maxIter : Int) : solve_env α Nat :=
  { sqrt := sqrt, debug := false, useAsserts := false,
    opts := exampleOptions α regType nwtnHssnFacAlg_t.QPDUNES_NH_FAC_BAND_FORWARD,
    NI := 1, nx := 1, maxIter := maxIter, nbrInitialGradientSteps := 0,
    logIterations := false,
    initialStageStep := fun _ s => (QPDUNES_OK, s),
    computeObjectiveValue := fun s => s,
    acceptActSet := fun s => s,
    saveLastActSet := fun s => s,
    logIteration := fun s => s,
    computeNewtonGradient := fun s => s,
    setupNewtonSystem := fun s => (QPDUNES_OK, s),
    updateAllLocalQPs := fun s => s,
    solveLocalQP := fun _ s => (stageStatus, s),
    determineStepLength := fun s => (QPDUNES_OK, { s with ext := s.ext + 1 }) }

/-- The state the example solves start from: the 1 x 1 Newton Hessian `(h)`, the
gradient `(2)`, `deltaLambda = (0)`, and no line search so far. -/
def exampleState (α : Type) [LinearOrderedField α] (h : α) : solve_state α Nat :=
  { hessian := fun _ => h, cholHessian := fun _ => 0, gradient := fun _ => 2,
    deltaLambda := fun _ => 0, isHessianRegularized := false, lastActSetChangeIdx := 0,
    numIter := 0, ext := 0 }

/-- The packed Newton Hessian of the examples with two block rows and `nx = 1`: the
diagonal blocks are `(1)` and `(2)`, the sub-diagonal block is `(1)`; as a matrix,
`[[1, 1], [1, 2]]`. -/
def exampleHessian (α : Type) [LinearOrderedField α] : xn2x_matrix_t α :=
  fun x => if x = (1, 0, 0, 0) then 2 else 1

/-- The packed Newton Hessian of the examples for the reverse factorization, with two
block rows and `nx = 1`: the diagonal blocks are `(2)` and `(1)`, the sub-diagonal
block is `(1)`; as a matrix, `[[2, 1], [1, 1]]`. -/
def exampleHessianBottomUp (α : Type) [LinearOrderedField α] : xn2x_matrix_t α :=
  fun x => if x = (0, 0, 0, 0) then 2 else 1

/-- The one-by-one Hessian `[[1/100]]` (one block row, `nx = 1`). -/
def exampleHessianSmall (α : Type) [LinearOrderedField α] : xn2x_matrix_t α :=
  fun _ => 1 / 100

/-- A factor with two block rows and `nx = 1` whose first pivot `2000` is above
`QPDUNES_INFTY = 1000`; as a matrix, `[[2000, 0], [1, 1]]`. -/
def exampleFactorFlagged (α : Type) [LinearOrderedField α] : xn2x_matrix_t α :=
  fun x => if x = (0, 0, 0, 0) then 2000 else 1

/-- The cells of the factor that the column step `(kk, jj)` of the reverse
factorization writes: the pivot `(kk,0,jj,jj)`, the rest of row `jj` of the diagonal
block, and row `jj` of the sub-diagonal block of block row `kk` (if `kk > 0`). -/
def cellWritten (nx kk jj : Nat) (x : Nat × Int × Nat × Nat) : Prop :=
  x = (kk, 0, jj, jj) ∨ (∃ ii, ii < jj ∧ x = (kk, 0, jj, ii))
    ∨ (kk > 0 ∧ ∃ ii, ii < nx ∧ x = (kk, -1, jj, ii))

/-- The cells that the reverse factorization still has to write when it is about to
go on below row `J` of block row `kk`: those of the rows before `J` of block row `kk`
and of all rows of the block rows before `kk`. -/
def cellPending (nx kk J : Nat) (x : Nat × Int × Nat × Nat) : Prop :=
  ∃ k j, j < nx ∧ cellWritten nx k j x ∧ (k < kk ∨ (k = kk ∧ j < J))

/-- What holds of the outcomes of two runs of a loop or of a loop body: both go on,
with states related by `R`, or both return, with results related by `Q`. -/
def outcome2 {ε σ : Type} (R : σ → σ → Prop) (Q : ε → ε → Prop)
    (r1 r2 : Except ε σ) : Prop :=
  match r1, r2 with
  | .ok a, .ok b => R a b
  | .error e1, .error e2 => Q e1 e2
  | _, _ => False

/-- The Hessian `exampleHessianBottomUp` after a change of its first block row: the
diagonal blocks are `(3)` and `(1)`, the sub-diagonal block is `(1)`; as a matrix,
`[[3, 1], [1, 1]]`. -/
def exampleHessianChanged (α : Type) [LinearOrderedField α] : xn2x_matrix_t α :=
  fun x => if x = (0, 0, 0, 0) then 3 else 1

/-- The outcome of a loop or loop body seen through a map of the states and a map of
the returned values. -/
def outcomeMap {ε ε1 σ τ : Type} (p : σ → τ) (pe : ε → ε1) (r : Except ε σ) : Except ε1 τ :=
  match r with
  | .ok s => .ok (p s)
  | .error e => .error (pe e)

/-- A line-search configuration for the examples: two stages (`NI = 1`, `nx = 1`),
`equalityTolerance = 1/1000`, `QPDUNES_INFTY = 1000`, every Clipping stage reports the
minimum step `5`, the stage solver steps and the line searches leave the state alone,
and the objective value is `0`. -/
def exampleLsEnv (α : Type) [LinearOrderedField α] (lsType : lsType_t) : ls_env α Unit :=
  { NI := 1, nx := 1,
    opts := { lsType := lsType, equalityTolerance := 1 / 1000, QPDUNES_INFTY := 1000,
              lineSearchReductionFactor := 1 / 2 },
    directQpSolver_getMinStepsize := fun _ _ _ => 5,
    directQpSolver_doStep := fun _ _ qp => qp,
    qpOASES_doStep := fun _ _ qp => qp,
    qpDUNES_computeObjectiveValue := fun _ => 0,
    qpDUNES_backTrackingLineSearch := fun _ _ _ _ s => (QPDUNES_OK, s),
    qpDUNES_goldenSectionIntervalSearch := fun _ _ _ s => (QPDUNES_OK, s),
    qpDUNES_bisectionIntervalSearch := fun _ _ _ s => (QPDUNES_OK, s),
    qpDUNES_gridSearch := fun _ _ s => (QPDUNES_OK, s) }

/-- Stages for the examples: stage `0` uses the solver `solver0`, every other stage the
solver `solver1`; no active set has changed and the multipliers are zero. -/
def exampleStages (α : Type) [LinearOrderedField α] (solver0 solver1 : qp_solver_t) :
    Nat → intervalNewton_t α :=
  fun kk =>
    { actSetHasChanged := false,
      qpSolverSpecification := if kk = 0 then solver0 else solver1,
      y := fun _ => 0 }

/-- The line-search state the examples start from. -/
def exampleLsState (α : Type) [LinearOrderedField α] : ls_state α Unit :=
  { lambda := fun _ => 2, alpha := 0, itCntr := 7, objValIncumbent := 0, qp := () }

/-! ## The line searches -/

/-- The fields of `interval_t` that the line searches of `dual_qp.c` read and write
themselves: the stage dimension `nV`, the dynamics `C` and `c`, the bounds `zLow` and
`zUpp`, the primal `z`, the multipliers `y`, the linear term `q` and the constant `p` of
the stage objective, the scratch vector `zVecTmp`, and the fields `zUnconstrained` and
`dz` of `qpSolverClipping`. -/
structure intervalLs_t (α : Type) where
  nV : Nat
  C : vector_t α
  c : vector_t α
  zLow : vector_t α
  zUpp : vector_t α
  z : vector_t α
  y : vector_t α
  q : vector_t α
  p : α
  zVecTmp : vector_t α
  zUnconstrained : vector_t α
  dz : vector_t α

/-- The part of `qpData` the line searches work on: the stages, the temporaries
`xVecTmp` and `xnVecTmp2` (the `gradientTry` of the bisection search), and `other`, which
only the routines declared outside `dual_qp.c` touch (the qpOASES objects and the
like). The field `interval->optObjVal`, which `dual_qp.c` writes and never reads, is
left out. -/
structure lsData (α ω : Type) where
  intervals : Nat → intervalLs_t α
  xVecTmp : vector_t α
  xnVecTmp2 : vector_t α
  other : ω

/-- The fields of `qpData->options` that only the line searches read. -/
structure lineSearchOptions_t (α : Type) where
  lineSearchMinRelProgress : α
  lineSearchMinAbsProgress : α
  maxNumLineSearchIterations : Nat
  maxNumLineSearchRefinementIterations : Nat
  lineSearchStationarityTolerance : α
  lineSearchIncreaseFactor : α
  lineSearchMaxStepSize : α
  lineSearchNbrGridPoints : Nat

/-- What the line searches read from `qpData` besides the stages, and the routines
declared outside `dual_qp.c` that they call. `errorValue` is the value of a return code
converted to `real_t` and `alphaC` the indeterminate value the local `alphaC` of the
bisection search has before its first assignment. The stage solver routines get the
stage index first; `directQpSolver_doStep` and `qpOASES_doStep` are the calls of
`qpDUNES_determineStepLength` (dual_qp.c:1452-1462), `directQpSolver_doStep_try` and
`qpOASES_doStep_try` the calls of `qpDUNES_computeParametricObjectiveValue`
(dual_qp.c:1968 and 1972), which pass other arguments and give back the local `pTry`.
`multiplyzHz` gets the stage whose `H` is passed, the vector and the length;
`directQpSolver_saturateVector` gets the vector, `y`, `zLow`, `zUpp` and the length and
gives back the vector and `y`. The golden section search, which starts with
`assert(1 == 0)`, is not embedded: it gets `lambda`, `deltaLambdaFS`, `alphaMin`,
`alphaMax` and works on `*alpha`, `*itCntr` and the stage data. -/
structure lineSearch_env (α ω : Type) where
  NI : Nat
  nx : Nat
  nz : Nat
  sqrt : α → α
  opts : lsOptions_t α
  lsOpts : lineSearchOptions_t α
  errorValue : return_t → α
  alphaC : α
  directQpSolver_getMinStepsize : Nat → lsData α ω → α → α
  directQpSolver_doStep : Nat → α → lsData α ω → lsData α ω
  qpOASES_doStep : Nat → α → lsData α ω → lsData α ω
  directQpSolver_doStep_try : Nat → α → lsData α ω → α × lsData α ω
  qpOASES_doStep_try : Nat → α → lsData α ω → α × lsData α ω
  multiplyzHz : Nat → vector_t α → Nat → α
  directQpSolver_saturateVector :
    vector_t α → vector_t α → vector_t α → vector_t α → Nat → vector_t α × vector_t α
  qpDUNES_goldenSectionIntervalSearch :
    vector_t α → vector_t α → α → α → α × Nat × lsData α ω →
      return_t × (α × Nat × lsData α ω)

/-- Modelled from the spec: `scalarProd(x, y, len)` is declared outside `dual_qp.c`; the
spec reads `scalarProd(gradientTry, deltaLambdaFS, nV)` as the product
`gradient^T deltaLambda`, the sum of the products of the first `len` entries. -/
def scalarProd {α : Type} [LinearOrderedField α] (x y : vector_t α) (len : Nat) : α :=
  (List.range len).foldl (fun s ii => s + x ii * y ii) 0

/-- Embedding of `qpDUNES_computeObjectiveValue` (dual_qp.c:1917-1941). -/
def qpDUNES_computeObjectiveValue {α ω : Type} [LinearOrderedField α]
    (env : lineSearch_env α ω) (qp : lsData α ω) : α :=
  (List.range (env.NI + 1)).foldl
    (fun objVal kk =>
      let interval := qp.intervals kk
      -- quadratic objective part
      let optObjVal := 1 / 2 * env.multiplyzHz kk interval.z interval.nV
      -- linear objective part
      let optObjVal := optObjVal + scalarProd interval.q interval.z interval.nV
      -- constant objective part
      let optObjVal := optObjVal + interval.p
      -- sum up
      objVal + optObjVal)
    0

/-- Embedding of `qpDUNES_computeParametricObjectiveValue` (dual_qp.c:1949-1991): the
value it returns and the stage data it leaves behind. The `return` of the `default`
branch gives the return code as a `real_t`. -/
def qpDUNES_computeParametricObjectiveValue {α ω : Type} [LinearOrderedField α]
    (env : lineSearch_env α ω) (stages : Nat → intervalNewton_t α) (alpha : α)
    (qp : lsData α ω) : α × lsData α ω :=
  match loopExcept
    (fun (st : α × lsData α ω) kk =>
      -- get primal variables for trial step length
      let t : Option (α × lsData α ω) :=
        match (stages kk).qpSolverSpecification with
        | QPDUNES_STAGE_QP_SOLVER_CLIPPING => some (env.directQpSolver_doStep_try kk alpha st.2)
        | QPDUNES_STAGE_QP_SOLVER_QPOASES => some (env.qpOASES_doStep_try kk alpha st.2)
        | unknownSolver => none
      match t with
      | none => .error (env.errorValue QPDUNES_ERR_UNKNOWN_ERROR, st.2)
      | some (pTry, qp) =>
        let interval := qp.intervals kk
        -- quadratic objective part
        let optObjVal := 1 / 2 * env.multiplyzHz kk interval.z interval.nV
        -- linear objective part
        let optObjVal := optObjVal + scalarProd interval.zVecTmp interval.z interval.nV
        -- constant objective part
        let optObjVal := optObjVal + pTry
        .ok (st.1 + optObjVal, qp))
    (List.range (env.NI + 1)) (0, qp) with
  | .error e => e
  | .ok r => r

/-- The loop of `qpDUNES_backTrackingLineSearch` (dual_qp.c:1502-1521) with `fuel`
iterations left: the loop runs while `*itCntr < maxNumLineSearchIterations` and every
iteration that does not return adds one to `*itCntr`, so `fuel` is
`maxNumLineSearchIterations - *itCntr`. With no iteration left the function leaves with
`QPDUNES_ERR_NUMBER_OF_MAX_LINESEARCH_ITERATIONS_REACHED` (dual_qp.c:1523-1527). -/
def backTrackingLineSearch_loop {α ω : Type} [LinearOrderedField α]
    (env : lineSearch_env α ω) (stages : Nat → intervalNewton_t α)
    (normDeltaLambda alphaMin objValIncumbent minimumProgress : α) :
    Nat → ls_state α (lsData α ω) → return_t × ls_state α (lsData α ω)
  | 0, s => (QPDUNES_ERR_NUMBER_OF_MAX_LINESEARCH_ITERATIONS_REACHED, s)
  | fuel + 1, s =>
    -- get objective value
    let r := qpDUNES_computeParametricObjectiveValue env stages s.alpha s.qp
    let s := { s with qp := r.2 }
    -- check for progress
    if r.1 > objValIncumbent + minimumProgress then (QPDUNES_OK, s)
    else
      -- try smaller step size
      let s := { s with alpha := s.alpha * env.opts.lineSearchReductionFactor }
      -- ensure minimum step size
      if normDeltaLambda * (s.alpha - alphaMin) < env.opts.equalityTolerance then
        (QPDUNES_ERR_DECEEDED_MIN_LINESEARCH_STEPSIZE, { s with alpha := alphaMin })
      else
        backTrackingLineSearch_loop env stages normDeltaLambda alphaMin objValIncumbent
          minimumProgress fuel { s with itCntr := s.itCntr + 1 }

/-- Embedding of `qpDUNES_backTrackingLineSearch` (dual_qp.c:1483-1528); the argument
`lambdaTry` is not used by the function. -/
def qpDUNES_backTrackingLineSearch {α ω : Type} [LinearOrderedField α]
    (env : lineSearch_env α ω) (stages : Nat → intervalNewton_t α)
    (deltaLambdaFS : vector_t α) (nV : Nat) (alphaMin alphaMax objValIncumbent : α)
    (s : ls_state α (lsData α ω)) : return_t × ls_state α (lsData α ω) :=
  let minimumProgress :=
    env.lsOpts.lineSearchMinRelProgress * |objValIncumbent|
      + env.lsOpts.lineSearchMinAbsProgress
  let normDeltaLambda := vectorNorm env.sqrt deltaLambdaFS nV
  let s := { s with alpha := alphaMax }
  -- perform line search
  backTrackingLineSearch_loop env stages normDeltaLambda alphaMin objValIncumbent
    minimumProgress (env.lsOpts.maxNumLineSearchIterations - s.itCntr) s

/-- Body of the loop of `qpDUNES_gridSearch` (dual_qp.c:1864-1873) for the grid index
`kk`. -/
def gridSearch_step {α ω : Type} [LinearOrderedField α] (env : lineSearch_env α ω)
    (stages : Nat → intervalNewton_t α) (alphaMin alphaMax : α)
    (s : ls_state α (lsData α ω)) (kk : Nat) : ls_state α (lsData α ω) :=
  let alphaTry := alphaMin
    + (kk : α) * (alphaMax - alphaMin) / ((env.lsOpts.lineSearchNbrGridPoints : α) - 1)
  let r := qpDUNES_computeParametricObjectiveValue env stages alphaTry s.qp
  let s := { s with qp := r.2 }
  if r.1 > s.objValIncumbent then { s with objValIncumbent := r.1, alpha := alphaTry }
  else s

/-- Embedding of `qpDUNES_gridSearch` (dual_qp.c:1851-1878). -/
def qpDUNES_gridSearch {α ω : Type} [LinearOrderedField α] (env : lineSearch_env α ω)
    (stages : Nat → intervalNewton_t α) (alphaMin alphaMax : α)
    (s : ls_state α (lsData α ω)) : return_t × ls_state α (lsData α ω) :=
  let s := (List.range env.lsOpts.lineSearchNbrGridPoints).foldl
    (gridSearch_step env stages alphaMin alphaMax) s
  (QPDUNES_OK, { s with itCntr := s.itCntr + env.lsOpts.lineSearchNbrGridPoints })

/-- The grid point `kk` of `qpDUNES_gridSearch`: the value of `alphaTry` for the grid
index `kk` (dual_qp.c:1865-1867). -/
def gridSearch_point {α ω : Type} [LinearOrderedField α] (env : lineSearch_env α ω)
    (alphaMin alphaMax : α) (kk : Nat) : α :=
  alphaMin
    + (kk : α) * (alphaMax - alphaMin) / ((env.lsOpts.lineSearchNbrGridPoints : α) - 1)

/-- The stage data before the evaluation at grid point `k` of a grid search on the data
`qp`: every grid point before it has been evaluated by
`qpDUNES_computeParametricObjectiveValue` on the data left by the one before. -/
def gridSearch_trialData {α ω : Type} [LinearOrderedField α] (env : lineSearch_env α ω)
    (stages : Nat → intervalNewton_t α) (alphaMin alphaMax : α) (k : Nat)
    (qp : lsData α ω) : lsData α ω :=
  (List.range k).foldl
    (fun qp kk =>
      (qpDUNES_computeParametricObjectiveValue env stages
        (gridSearch_point env alphaMin alphaMax kk) qp).2)
    qp

/-- The dual value the grid search computes at grid point `k`. -/
def gridSearch_trialValue {α ω : Type} [LinearOrderedField α] (env : lineSearch_env α ω)
    (stages : Nat → intervalNewton_t α) (alphaMin alphaMax : α) (k : Nat)
    (qp : lsData α ω) : α :=
  (qpDUNES_computeParametricObjectiveValue env stages
    (gridSearch_point env alphaMin alphaMax k)
    (gridSearch_trialData env stages alphaMin alphaMax k qp)).1

/-- The loop "update z locally according to alpha guess" of
`qpDUNES_bisectionIntervalSearch` (dual_qp.c:1730-1736 and 1789-1795) over the stages
`0 .. NI`, for the trial step length `alphaTry`. -/
def bisectionIntervalSearch_trialPrimal {α ω : Type} [LinearOrderedField α]
    (env : lineSearch_env α ω) (alphaTry : α) (qp : lsData α ω) : lsData α ω :=
  (List.range (env.NI + 1)).foldl
    (fun (qp : lsData α ω) kk =>
      let interval := qp.intervals kk
      -- get primal variables for trial step length
      let zTry := addVectorScaledVector interval.zVecTmp interval.zUnconstrained alphaTry
        interval.dz interval.nV
      let r := env.directQpSolver_saturateVector zTry interval.y interval.zLow interval.zUpp
        interval.nV
      let interval := { interval with zVecTmp := r.1, y := r.2 }
      { qp with intervals := Function.update qp.intervals kk interval })
    qp

/-- The loop "manual gradient computation" of `qpDUNES_bisectionIntervalSearch`
(dual_qp.c:1739-1753 and 1798-1812): the gradient of the trial primals `zVecTmp`,
written to `gradientTry`. -/
def bisectionIntervalSearch_gradientTry {α ω : Type} [LinearOrderedField α]
    (env : lineSearch_env α ω) (qp : lsData α ω) : lsData α ω :=
  (List.range env.NI).foldl
    (fun (qp : lsData α ω) kk =>
      -- ( A_kk*x_kk^opt + B_kk*u_kk^opt + c_kk ) - x_(kk+1)^opt
      let x := multiplyCz env.nx env.nz qp.xVecTmp (qp.intervals kk).C
        (qp.intervals kk).zVecTmp
      let x := addToVector x (qp.intervals kk).c env.nx
      let x := (List.range env.nx).foldl
        (fun x ii => Function.update x ii (x ii - (qp.intervals (kk + 1)).zVecTmp ii)) x
      -- write gradient part
      let g := (List.range env.nx).foldl
        (fun g ii => Function.update g (kk * env.nx + ii) (x ii)) qp.xnVecTmp2
      { qp with xVecTmp := x, xnVecTmp2 := g })
    qp

/-- One evaluation of the directional derivative in `qpDUNES_bisectionIntervalSearch`
(dual_qp.c:1729-1754 and 1788-1813): the trial primals for `alphaTry`, their gradient,
and `alphaSlope`, its product with `deltaLambdaFS`. -/
def bisectionIntervalSearch_slope {α ω : Type} [LinearOrderedField α]
    (env : lineSearch_env α ω) (deltaLambdaFS : vector_t α) (nV : Nat) (alphaTry : α)
    (qp : lsData α ω) : α × lsData α ω :=
  let qp := bisectionIntervalSearch_trialPrimal env alphaTry qp
  let qp := bisectionIntervalSearch_gradientTry env qp
  (scalarProd qp.xnVecTmp2 deltaLambdaFS nV, qp)

/-- The locals `alphaMin`, `alphaMax`, `alphaC` of `qpDUNES_bisectionIntervalSearch`
together with what it writes, and the record `evals` of the derivative evaluations made
so far: the step length and the `alphaSlope` of each, the latest first. The record is
not part of the C state. -/
structure bisection_state (α ω : Type) where
  alphaMin : α
  alphaMax : α
  alphaC : α
  s : ls_state α (lsData α ω)
  evals : List (α × α)

/-- The loop "(1) check if full step is stationary or even still ascent direction" of
`qpDUNES_bisectionIntervalSearch` (dual_qp.c:1728-1781) with `fuel` iterations left
(`maxNumLineSearchRefinementIterations - *itCntr`): `.error` is a `return`, `.ok` is
the `break` or the end of the loop; the `break` does not add to `*itCntr`. -/
def bisectionIntervalSearch_inflate {α ω : Type} [LinearOrderedField α]
    (env : lineSearch_env α ω) (deltaLambdaFS : vector_t α) (nV : Nat)
    (slopeNormalization : α) :
    Nat → bisection_state α ω → Except (return_t × bisection_state α ω) (bisection_state α ω)
  | 0, b => .ok b
  | fuel + 1, b =>
    let r := bisectionIntervalSearch_slope env deltaLambdaFS nV b.alphaMax b.s.qp
    let alphaSlope := r.1
    let s := { b.s with qp := r.2 }
    let b := { b with s := s, evals := (b.alphaMax, alphaSlope) :: b.evals }
    -- take full step if stationary
    if |alphaSlope / slopeNormalization| ≤ env.lsOpts.lineSearchStationarityTolerance then
      let s := { b.s with alpha := b.alphaMax }
      .error (QPDUNES_OK, { b with s := s })
    -- go into normal interval search if full step leads to descent
    else if alphaSlope / slopeNormalization < 0 then .ok b
    else
      -- increase step size otherwise (full step still leads to ascent)
      let alphaMin := b.alphaMax
      let alphaMax := b.alphaMax * env.lsOpts.lineSearchIncreaseFactor
      let b : bisection_state α ω := { b with alphaMin := alphaMin, alphaMax := alphaMax }
      -- break if maximum step size reached
      if b.alphaMax > env.lsOpts.lineSearchMaxStepSize then
        let s := { b.s with alpha := b.alphaMin }
        .error (QPDUNES_ERR_EXCEEDED_MAX_LINESEARCH_STEPSIZE, { b with s := s })
      else
        let s := { b.s with itCntr := b.s.itCntr + 1 }
        bisectionIntervalSearch_inflate env deltaLambdaFS nV slopeNormalization fuel
          { b with s := s }

/-- The loop "(2) regular bisection interval search" of
`qpDUNES_bisectionIntervalSearch` (dual_qp.c:1785-1832) with `fuel` iterations left, and
what follows it (dual_qp.c:1839-1842). -/
def bisectionIntervalSearch_halve {α ω : Type} [LinearOrderedField α]
    (env : lineSearch_env α ω) (deltaLambdaFS : vector_t α) (nV : Nat)
    (slopeNormalization : α) :
    Nat → bisection_state α ω → return_t × bisection_state α ω
  | 0, b =>
    let s := { b.s with alpha := b.alphaC }
    (QPDUNES_ERR_NUMBER_OF_MAX_LINESEARCH_ITERATIONS_REACHED, { b with s := s })
  | fuel + 1, b =>
    let b := { b with alphaC := 1 / 2 * (b.alphaMin + b.alphaMax) }
    let r := bisectionIntervalSearch_slope env deltaLambdaFS nV b.alphaC b.s.qp
    let alphaSlope := r.1
    let s := { b.s with qp := r.2 }
    let b := { b with s := s, evals := (b.alphaC, alphaSlope) :: b.evals }
    -- check for stationarity in search direction
    if |alphaSlope / slopeNormalization| ≤ env.lsOpts.lineSearchStationarityTolerance then
      let s := { b.s with alpha := b.alphaC }
      (QPDUNES_OK, { b with s := s })
    else
      -- half interval
      let b :=
        -- ascent right of gradient: throw out left interval
        if alphaSlope > 0 then { b with alphaMin := b.alphaC }
        -- ascent left of gradient: throw out right interval
        else { b with alphaMax := b.alphaC }
      let s := { b.s with itCntr := b.s.itCntr + 1 }
      bisectionIntervalSearch_halve env deltaLambdaFS nV slopeNormalization fuel
        { b with s := s }

/-- Embedding of `qpDUNES_bisectionIntervalSearch` (dual_qp.c:1703-1843) together with
the record of its derivative evaluations; the argument `lambdaTry` is not used by the
function. -/
def qpDUNES_bisectionIntervalSearch_trace {α ω : Type} [LinearOrderedField α]
    (env : lineSearch_env α ω) (deltaLambdaFS : vector_t α) (nV : Nat)
    (alphaMin alphaMax : α) (s : ls_state α (lsData α ω)) :
    return_t × bisection_state α ω :=
  -- demand more stationarity for smaller steps
  let slopeNormalization := min 1 (vectorNorm env.sqrt deltaLambdaFS nV)
  let b : bisection_state α ω :=
    { alphaMin := alphaMin, alphaMax := alphaMax, alphaC := env.alphaC, s := s, evals := [] }
  match bisectionIntervalSearch_inflate env deltaLambdaFS nV slopeNormalization
      (env.lsOpts.maxNumLineSearchRefinementIterations - b.s.itCntr) b with
  | .error r => r
  | .ok b =>
    bisectionIntervalSearch_halve env deltaLambdaFS nV slopeNormalization
      (env.lsOpts.maxNumLineSearchRefinementIterations - b.s.itCntr) b

/-- Embedding of `qpDUNES_bisectionIntervalSearch` (dual_qp.c:1703-1843): the return
code and what the function writes. -/
def qpDUNES_bisectionIntervalSearch {α ω : Type} [LinearOrderedField α]
    (env : lineSearch_env α ω) (deltaLambdaFS : vector_t α) (nV : Nat)
    (alphaMin alphaMax : α) (s : ls_state α (lsData α ω)) :
    return_t × ls_state α (lsData α ω) :=
  let r := qpDUNES_bisectionIntervalSearch_trace env deltaLambdaFS nV alphaMin alphaMax s
  (r.1, r.2.s)

/-- The routines `qpDUNES_determineStepLength` calls, for a configuration of the line
searches: the objective evaluation and the backtracking, bisection and grid searches
are the embeddings above, called with `nV = nx * NI` (dual_qp.c:1315). -/
def lineSearch_lsEnv {α ω : Type} [LinearOrderedField α] (env : lineSearch_env α ω)
    (stages : Nat → intervalNewton_t α) : ls_env α (lsData α ω) :=
  { NI := env.NI, nx := env.nx, opts := env.opts,
    directQpSolver_getMinStepsize := env.directQpSolver_getMinStepsize,
    directQpSolver_doStep := env.directQpSolver_doStep,
    qpOASES_doStep := env.qpOASES_doStep,
    qpDUNES_computeObjectiveValue := qpDUNES_computeObjectiveValue env,
    qpDUNES_backTrackingLineSearch := fun deltaLambdaFS alphaMin alphaMax objValIncumbent s =>
      qpDUNES_backTrackingLineSearch env stages deltaLambdaFS (env.nx * env.NI) alphaMin
        alphaMax objValIncumbent s,
    qpDUNES_goldenSectionIntervalSearch := fun deltaLambdaFS alphaMin alphaMax s =>
      let r := env.qpDUNES_goldenSectionIntervalSearch s.lambda deltaLambdaFS alphaMin
        alphaMax (s.alpha, s.itCntr, s.qp)
      (r.1, { s with alpha := r.2.1, itCntr := r.2.2.1, qp := r.2.2.2 }),
    qpDUNES_bisectionIntervalSearch := fun deltaLambdaFS alphaMin alphaMax s =>
      qpDUNES_bisectionIntervalSearch env deltaLambdaFS (env.nx * env.NI) alphaMin alphaMax s,
    qpDUNES_gridSearch := fun alphaMin alphaMax s =>
      qpDUNES_gridSearch env stages alphaMin alphaMax s }

/-- The stage data before trial `i` of a backtracking search that starts with the step
length `alpha` on the data `qp`: every earlier trial has run
`qpDUNES_computeParametricObjectiveValue` at its step length on the data left by the
trial before it. -/
def backTracking_trialData {α ω : Type} [LinearOrderedField α] (env : lineSearch_env α ω)
    (stages : Nat → intervalNewton_t α) : Nat → α → lsData α ω → lsData α ω
  | 0, _, qp => qp
  | i + 1, alpha, qp =>
    backTracking_trialData env stages i (alpha * env.opts.lineSearchReductionFactor)
      (qpDUNES_computeParametricObjectiveValue env stages alpha qp).2

/-- The dual value of trial `i` of a backtracking search that starts with the step
length `alpha` on the data `qp`: what `qpDUNES_computeParametricObjectiveValue` returns
for the step length `alpha * lineSearchReductionFactor ^ i`. -/
def backTracking_trialValue {α ω : Type} [LinearOrderedField α] (env : lineSearch_env α ω)
    (stages : Nat → intervalNewton_t α) (i : Nat) (alpha : α) (qp : lsData α ω) : α :=
  (qpDUNES_computeParametricObjectiveValue env stages
    (alpha * env.opts.lineSearchReductionFactor ^ i)
    (backTracking_trialData env stages i alpha qp)).1

/-- Stage data for the line-search examples: two stages (`NI = 1`) with one variable
each, `C = (1)`, `c = (0)`, bounds `-1000` and `1000`, `z = q = y = zVecTmp = 0`,
`p = 0`; stage `0` has `zUnconstrained = (1)` and `dz = (-2)`, stage `1` has both zero,
so the gradient of the trial primals at the step length `a` is `1 - 2 a`. The component
`other` lists the step lengths at which the dual value was evaluated, the latest
first. -/
def exampleLsData (α : Type) [LinearOrderedField α] (evaluated : List α) :
    lsData α (List α) :=
  { intervals := fun kk =>
      { nV := 1, C := fun _ => 1, c := fun _ => 0, zLow := fun _ => -1000,
        zUpp := fun _ => 1000, z := fun _ => 0, y := fun _ => 0, q := fun _ => 0, p := 0,
        zVecTmp := fun _ => 0, zUnconstrained := fun _ => if kk = 0 then 1 else 0,
        dz := fun _ => if kk = 0 then -2 else 0 },
    xVecTmp := fun _ => 0, xnVecTmp2 := fun _ => 0, other := evaluated }

/-- A configuration for the line-search examples: `NI = nx = nz = 1`,
`equalityTolerance = 1/1000`, `QPDUNES_INFTY = 1000`, `lineSearchReductionFactor = 1/2`,
`lineSearchMinRelProgress = 0`, `lineSearchMinAbsProgress = 1/1000`,
`lineSearchStationarityTolerance = 1/1000`, `lineSearchIncreaseFactor = 2`,
`lineSearchMaxStepSize = 1`. Every Clipping stage reports the minimum step `minStep`,
the accepted step of a stage leaves the data alone, no bound saturates, and the trial
step of stage `0` at the step length `a` gives `pTry = a - a^2` and records `a`, so the
dual value along the search direction is `a - a^2`. -/
def exampleLineSearchEnv (α : Type) [LinearOrderedField α] (sqrt : α → α)
    (lsType : lsType_t) (minStep : α) (maxIt maxRef nGrid : Nat) :
    lineSearch_env α (List α) :=
  { NI := 1, nx := 1, nz := 1, sqrt := sqrt,
    opts := { lsType := lsType, equalityTolerance := 1 / 1000, QPDUNES_INFTY := 1000,
              lineSearchReductionFactor := 1 / 2 },
    lsOpts := { lineSearchMinRelProgress := 0, lineSearchMinAbsProgress := 1 / 1000,
                maxNumLineSearchIterations := maxIt,
                maxNumLineSearchRefinementIterations := maxRef,
                lineSearchStationarityTolerance := 1 / 1000,
                lineSearchIncreaseFactor := 2, lineSearchMaxStepSize := 1,
                lineSearchNbrGridPoints := nGrid },
    errorValue := fun _ => 0,
    alphaC := 0,
    directQpSolver_getMinStepsize := fun _ _ _ => minStep,
    directQpSolver_doStep := fun _ _ qp => qp,
    qpOASES_doStep := fun _ _ qp => qp,
    directQpSolver_doStep_try := fun kk a qp =>
      if kk = 0 then (a - a ^ 2, { qp with other := a :: qp.other }) else (0, qp),
    qpOASES_doStep_try := fun _ _ qp => (0, qp),
    multiplyzHz := fun _ _ _ => 0,
    directQpSolver_saturateVector := fun vec y _ _ _ => (vec, y),
    qpDUNES_goldenSectionIntervalSearch := fun _ _ _ _ st => (QPDUNES_OK, st) }

/-- The state the line-search examples start from: `lambda = (2, 2, ..)`, the step
length `3` left by an earlier iteration, the incumbent objective value `0`, and no dual
value evaluated so far. -/
def exampleLineSearchState (α : Type) [LinearOrderedField α] :
    ls_state α (lsData α (List α)) :=
  { lambda := fun _ => 2, alpha := 3, itCntr := 0, objValIncumbent := 0,
    qp := exampleLsData α [] }

/-- Step (1) of an iteration of `qpDUNES_solve` (dual_qp.c:133-222) for the iteration
counter `itCntr`: the gradient step or the Newton direction, as in `solve_iteration`. -/
def solve_direction {α ε : Type} [LinearOrderedField α] (env : solve_env α ε)
    (itCntr : Int) (s : solve_state α ε) : solve_step α ε :=
  let s := { s with numIter := itCntr, isHessianRegularized := false }
  if itCntr > 1 ∧ itCntr - 1 ≤ env.nbrInitialGradientSteps then
    let s := env.computeNewtonGradient s
    .ok { s with deltaLambda := qpDUNES_copyVector s.deltaLambda s.gradient (env.NI * env.nx) }
  else solve_newtonDirection env s

/-- The example solve with iteration logging switched on, in which `ext` counts the
calls of `qpDUNES_logIteration` instead of the line searches. -/
def exampleLogEnv (α : Type) [LinearOrderedField α] (sqrt : α → α) (maxIter : Int) :
    solve_env α Nat :=
  { exampleEnv α sqrt regType_t.QPDUNES_REG_LEVENBERG_MARQUARDT QPDUNES_OK maxIter with
    logIterations := true,
    logIteration := fun s => { s with ext := s.ext + 1 },
    determineStepLength := fun s => (QPDUNES_OK, s) }

/-- The example solve in which the initial resolve of stage 0 fails with
`ERR_STAGE_QP_INFEASIBLE` and the one of stage 1 (the last stage, `NI = 1`) succeeds;
the Newton setup returns `setupStatus`. -/
def exampleInitialFailEnv (α : Type) [LinearOrderedField α] (sqrt : α → α)
    (setupStatus : return_t) (maxIter : Int) : solve_env α Nat :=
  { exampleEnv α sqrt regType_t.QPDUNES_REG_LEVENBERG_MARQUARDT QPDUNES_OK maxIter with
    initialStageStep := fun ii s =>
      (if ii = 0 then QPDUNES_ERR_STAGE_QP_INFEASIBLE else QPDUNES_OK, s),
    setupNewtonSystem := fun s => (setupStatus, s) }

/-! ## The active set of the local constraints -/

/-- What `qpDUNES_getActSet` writes: the table `actSetStatus`, the count `nActConstr`
it returns, and the function-static `counter` of dual_qp.c:2014, which keeps its value
from one call to the next. The count is a natural number (it is bounded by the number
of status entries). -/
structure actSet_t where
  actSetStatus : Nat → Nat → Int
  nActConstr : Nat
  counter : Int

/-- Body of the loop over the entries of a Clipping stage in `qpDUNES_getActSet`
(dual_qp.c:2018-2041): go through the multipliers `y` of stage `kk` in pairs by two. -/
def getActSet_entryClipping {α : Type} [LinearOrderedField α] (equalityTolerance : α)
    (y : vector_t α) (kk : Nat) (st : actSet_t) (ii : Nat) : actSet_t :=
  if y (2 * ii) > equalityTolerance then
    -- lower bound active
    { st with
      actSetStatus := Function.update st.actSetStatus kk
        (Function.update (st.actSetStatus kk) ii (-1)),
      nActConstr := st.nActConstr + 1 }
  else if y (2 * ii + 1) > equalityTolerance then
    -- upper bound active
    { st with
      actSetStatus := Function.update st.actSetStatus kk
        (Function.update (st.actSetStatus kk) ii 1),
      nActConstr := st.nActConstr + 1 }
  else
    -- no constraint bound active
    { st with
      actSetStatus := Function.update st.actSetStatus kk
        (Function.update (st.actSetStatus kk) ii 0) }

/-- Body of the loop over the entries of a stage that is not a Clipping stage in
`qpDUNES_getActSet` (dual_qp.c:2047-2052): every entry gets the next value of the
static counter. -/
def getActSet_entryQpoases (kk : Nat) (st : actSet_t) (ii : Nat) : actSet_t :=
  let counter := st.counter + 1
  { st with
    counter := counter,
    actSetStatus := Function.update st.actSetStatus kk
      (Function.update (st.actSetStatus kk) ii counter) }

/-- Body of the stage loop of `qpDUNES_getActSet` (dual_qp.c:2016-2054). -/
def getActSet_stage {α : Type} [LinearOrderedField α] (nDnV : Nat → Nat)
    (equalityTolerance : α) (stages : Nat → intervalNewton_t α) (st : actSet_t)
    (kk : Nat) : actSet_t :=
  if (stages kk).qpSolverSpecification = QPDUNES_STAGE_QP_SOLVER_CLIPPING then
    (List.range (nDnV kk)).foldl
      (getActSet_entryClipping equalityTolerance (stages kk).y kk) st
  else
    (List.range (nDnV kk)).foldl (getActSet_entryQpoases kk) st

/-- Embedding of `qpDUNES_getActSet` (dual_qp.c:2001-2062). `NI` is `_NI_`, `nDnV kk`
is `_ND(kk)+_NV(kk)`, `actSetStatus` the table on entry and `counter` the value of the
static counter on entry; the returned number is the field `nActConstr`. -/
def qpDUNES_getActSet {α : Type} [LinearOrderedField α] (NI : Nat) (nDnV : Nat → Nat)
    (equalityTolerance : α) (stages : Nat → intervalNewton_t α)
    (actSetStatus : Nat → Nat → Int) (counter : Int) : actSet_t :=
  (List.range (NI + 1)).foldl (getActSet_stage nDnV equalityTolerance stages)
    { actSetStatus := actSetStatus, nActConstr := 0, counter := counter }

/-- Two Clipping stages with two multipliers each for the examples: the lower bound of
stage `0` is active (`y = (1, 0)`), the upper bound of stage `1` is active
(`y = (0, 1)`). -/
def exampleActiveStages (α : Type) [LinearOrderedField α] : Nat → intervalNewton_t α :=
  fun kk =>
    { actSetHasChanged := false,
      qpSolverSpecification := QPDUNES_STAGE_QP_SOLVER_CLIPPING,
      y := fun i => if i = kk then 1 else 0 }

/-! ## The product of the Newton Hessian with a vector -/

/-- Body of the loop over the in-block rows of `qpDUNES_multiplyNewtonHessianVector`
(dual_qp.c:1266-1291) for block row `kk` and in-block row `ii`. -/
def multiplyNewtonHessianVector_row {α : Type} [LinearOrderedField α] (NI nx : Nat)
    (hessian : xn2x_matrix_t α) (vec : vector_t α) (kk : Nat) (res : vector_t α)
    (ii : Nat) : vector_t α :=
  -- go through subdiagonal block by columns
  let res :=
    if kk > 0 then
      (List.range nx).foldl
        (fun r jj => Function.update r (kk * nx + ii)
          (r (kk * nx + ii) + hessian (kk, -1, ii, jj) * vec ((kk - 1) * nx + jj)))
        res
    else res
  -- go through diagonal block by columns
  let res := (List.range nx).foldl
    (fun r jj => Function.update r (kk * nx + ii)
      (r (kk * nx + ii) + hessian (kk, 0, ii, jj) * vec (kk * nx + jj)))
    res
  -- go through superdiagonal block by columns; transposed access though
  if (kk : Int) < (NI : Int) - 1 then
    (List.range nx).foldl
      (fun r jj => Function.update r (kk * nx + jj)
        (r (kk * nx + jj) + hessian (kk + 1, -1, ii, jj) * vec ((kk + 1) * nx + ii)))
      res
  else res

/-- Body of the loop over the block rows of `qpDUNES_multiplyNewtonHessianVector`
(dual_qp.c:1257-1292): empty the result chunk of block row `kk`, then write it. -/
def multiplyNewtonHessianVector_block {α : Type} [LinearOrderedField α] (NI nx : Nat)
    (hessian : xn2x_matrix_t α) (vec : vector_t α) (res : vector_t α) (kk : Nat) :
    vector_t α :=
  let res := (List.range nx).foldl (fun r ii => Function.update r (kk * nx + ii) 0) res
  (List.range nx).foldl (multiplyNewtonHessianVector_row NI nx hessian vec kk) res

/-- Embedding of `qpDUNES_multiplyNewtonHessianVector` (dual_qp.c:1248-1295). The
vector `vec` is read only and is not the storage of `res`. -/
def qpDUNES_multiplyNewtonHessianVector {α : Type} [LinearOrderedField α] (NI nx : Nat)
    (res : vector_t α) (hessian : xn2x_matrix_t α) (vec : vector_t α) :
    return_t × vector_t α :=
  (QPDUNES_OK,
    (List.range NI).foldl (multiplyNewtonHessianVector_block NI nx hessian vec) res)

/-- A Newton setup configuration for the examples: one coupling interval,
`nx = nz = 1`, `stationarityTolerance = 1`, and stage routines that leave the
temporaries alone. -/
def exampleSetupEnv (α : Type) [LinearOrderedField α] : setup_env α Unit :=
  { NI := 1, nx := 1, nz := 1, stationarityTolerance := 1, equalityTolerance := 1 / 1000,
    qpOASES_EPE := fun _ t => t, getInvQ := fun _ t => t,
    qpDUNES_makeMatrixDense := fun t => t, qpOASES_CPC := fun _ t => t,
    addCInvHCT := fun _ t => t, qpOASES_CPE := fun _ t => t,
    multiplyAInvQ := fun _ t => t }

/-- Stages with `C = (1)`, `c = (0)` and the primals `z = (0)` for the examples. -/
def exampleZeroIntervals (α : Type) [LinearOrderedField α] : Nat → interval_t α :=
  fun _ => { C := fun _ => 1, c := fun _ => 0, z := fun _ => 0 }

/-- The example solve whose Newton setup is `qpDUNES_setupNewtonSystem` on stages with
`C = (1)`, `c = (0)` and the primals `z = (0)`, for which the assembled gradient is
`(0)`. -/
def exampleStationaryEnv (α : Type) [LinearOrderedField α] (sqrt : α → α)
    (maxIter : Int) : solve_env α Nat :=
  { exampleEnv α sqrt regType_t.QPDUNES_REG_LEVENBERG_MARQUARDT QPDUNES_OK maxIter with
    setupNewtonSystem := fun s =>
      ((qpDUNES_setupNewtonSystem sqrt (exampleSetupEnv α)
          (exampleZeroIntervals α)
          (exampleStages α QPDUNES_STAGE_QP_SOLVER_CLIPPING QPDUNES_STAGE_QP_SOLVER_CLIPPING)
          { hessian := s.hessian, gradient := s.gradient,
            tmp := { xxMatTmp := fun _ => 0, xVecTmp := fun _ => 0, other := () } }).1,
        s) }

/-! ## The forward factorization with a record of the square roots and divisions -/

/-- The state of a forward factorization together with ghost state: `roots` records,
in order, the argument of every call of `sqrt`, and `divs` the divisor of every division
that is executed; nothing reads them. -/
structure factor_record (α : Type) where
  fac : factor_state α
  roots : List α
  divs : List α

/-- The outcome of a column of the forward factorization with the record. -/
abbrev factor_recordStep (α : Type) : Type :=
  Except (return_t × factor_record α) (factor_record α)

/-- The loop "3) write remainder of jj-th column: this diagonal block"
(dual_qp.c:930-952) on the factor and the record of the divisors; see
`factorizeNewtonHessian_diagBlock`. -/
def factorizeNewtonHessian_diagBlock_record {α : Type} [LinearOrderedField α] (nx : Nat)
    (hessian : xn2x_matrix_t α) (kk jj : Nat) (t : xn2x_matrix_t α × List α) :
    xn2x_matrix_t α × List α :=
  (List.range' (jj + 1) (nx - (jj + 1))).foldl
    (fun t ii =>
      let sum := hessian (kk, 0, ii, jj)
      -- subtract forepart of this row times forepart of jj-th row
      let sum := subLoop (List.range jj)
        (fun ll => t.1 (kk, 0, ii, ll) * t.1 (kk, 0, jj, ll)) sum
      let sum := if kk > 0 then
          subLoop (List.range nx) (fun ll => t.1 (kk, -1, ii, ll) * t.1 (kk, -1, jj, ll)) sum
        else sum
      (Function.update t.1 (kk, 0, ii, jj) (sum / t.1 (kk, 0, jj, jj)),
        t.2 ++ [t.1 (kk, 0, jj, jj)]))
    t

/-- The loop "following row's subdiagonal block" (dual_qp.c:954-971) on the factor and
the record of the divisors; see `factorizeNewtonHessian_subBlock`. -/
def factorizeNewtonHessian_subBlock_record {α : Type} [LinearOrderedField α] (NI nx : Nat)
    (hessian : xn2x_matrix_t α) (kk jj : Nat) (t : xn2x_matrix_t α × List α) :
    xn2x_matrix_t α × List α :=
  if (kk : Int) < (NI : Int) - 1 then
    (List.range nx).foldl
      (fun t ii =>
        let sum := hessian (kk + 1, -1, ii, jj)
        -- subtract forepart of this row times forepart of jj-th row
        let sum := subLoop (List.range jj)
          (fun ll => t.1 (kk + 1, -1, ii, ll) * t.1 (kk, 0, jj, ll)) sum
        (Function.update t.1 (kk + 1, -1, ii, jj) (sum / t.1 (kk, 0, jj, jj)),
          t.2 ++ [t.1 (kk, 0, jj, jj)]))
      t
  else t

/-- Body of the in-block column loop of `qpDUNES_factorizeNewtonHessian`
(dual_qp.c:884-972) with the record of the square roots and divisions; see
`factorizeNewtonHessian_column`. -/
def factorizeNewtonHessian_column_record {α : Type} [LinearOrderedField α]
    (sqrt : α → α) (opts : qpOptions_t α) (NI nx : Nat) (hessian : xn2x_matrix_t α)
    (kk jj : Nat) (t : factor_record α) : factor_recordStep α :=
  -- 1) compute diagonal element: ii == jj
  let sum := factorizeNewtonHessian_pivotSum nx hessian t.fac.cholHessian kk jj
  -- 2) check for too small diagonal elements
  match factorizeNewtonHessian_check opts sum t.fac.isHessianRegularized with
  | .error code =>
    .error (code, { t with fac := { t.fac with pivots := t.fac.pivots ++ [sum] } })
  | .ok (sum1, isReg) =>
    let L := Function.update t.fac.cholHessian (kk, 0, jj, jj) (sqrt sum1)
    -- 3) write remainder of jj-th column
    let w := factorizeNewtonHessian_diagBlock_record nx hessian kk jj (L, t.divs)
    let w := factorizeNewtonHessian_subBlock_record NI nx hessian kk jj w
    .ok { fac := { cholHessian := w.1, isHessianRegularized := isReg,
                   pivots := t.fac.pivots ++ [sum] },
          roots := t.roots ++ [sum1], divs := w.2 }

/-- The routine `qpDUNES_factorizeNewtonHessian` (dual_qp.c:867-978) with the record of
the square roots and divisions, started with an empty record. -/
def qpDUNES_factorizeNewtonHessian_record {α : Type} [LinearOrderedField α]
    (sqrt : α → α) (opts : qpOptions_t α) (NI nx : Nat) (hessian : xn2x_matrix_t α)
    (st : factor_state α) : return_t × factor_record α :=
  match loopExcept
      (fun t kk => loopExcept
        (fun t jj => factorizeNewtonHessian_column_record sqrt opts NI nx hessian kk jj t)
        (List.range nx) t)
      (List.range NI) { fac := st, roots := [], divs := [] } with
  | .error e => e
  | .ok t => (QPDUNES_OK, t)

/-! ## Symmetry of the diagonal blocks -/

/-- The row-major `nx` by `nx` matrix held in `xxMatTmp` is symmetric. -/
def isSymmetricDense {α : Type} (nx : Nat) (xxMatTmp : vector_t α) : Prop :=
  ∀ i j, i < nx → j < nx → xxMatTmp (i * nx + j) = xxMatTmp (j * nx + i)

/-- The diagonal block `k` of the packed Newton Hessian is symmetric. -/
def isSymmetricBlock {α : Type} (nx k : Nat) (hessian : xn2x_matrix_t α) : Prop :=
  ∀ i j, i < nx → j < nx → hessian (k, 0, i, j) = hessian (k, 0, j, i)

/-- A Newton setup configuration for the examples with one coupling interval and
`nx = 2`, `nz = 2`: `stationarityTolerance = 0` and `equalityTolerance = 1/1000`; the
stage routines leave the temporaries alone. -/
def exampleSymmetricSetupEnv (α : Type) [LinearOrderedField α] : setup_env α Unit :=
  { NI := 1, nx := 2, nz := 2, stationarityTolerance := 0, equalityTolerance := 1 / 1000,
    qpOASES_EPE := fun _ t => t,
    getInvQ := fun _ t => t,
    qpDUNES_makeMatrixDense := fun t => t,
    qpOASES_CPC := fun _ t => t,
    addCInvHCT := fun _ t => t,
    qpOASES_CPE := fun _ t => t,
    multiplyAInvQ := fun _ t => t }

/-- The state the Newton setup examples start from: all entries zero. -/
def exampleSetupState (α : Type) [LinearOrderedField α] : setup_state α Unit :=
  { hessian := fun _ => 0, gradient := fun _ => 0,
    tmp := { xxMatTmp := fun _ => 0, xVecTmp := fun _ => 0, other := () } }

/-! ## The trial step of a Clipping stage -/

/-- Modelled from the spec: "the constrained minimizer is obtained by clamping
componentwise to `[zLow, zUpp]`". -/
def clampToBounds {α : Type} [LinearOrderedField α] (zLow zUpp v : α) : α :=
  max zLow (min zUpp v)

/-- Modelled from the spec: `directQpSolver_doStep` is declared outside `dual_qp.c`.
The spec gives the step of a Clipping stage as `doStep(alpha) -> (z, y, q, p)` with
"parametric step along direction `dz`: `z(alpha) = zUncon + alpha*dz` clipped each
alpha" and "multipliers `y` at each coordinate are max(0, +-(unclipped - clipped) *
diag(H)) split into lower/upper pairs" (`y[2i]` the lower, `y[2i+1]` the upper one).
This is the stage after the call of dual_qp.c:1968, which has the step write its primal
to `interval->z` (the arguments for the unclipped and for the clipped point are both
`&(interval->z)`), its multipliers to `interval->y` and its linear term to `qTry =
&(interval->zVecTmp)`: the first `nV` entries of `z` and `zVecTmp` and the first `nV`
pairs of `y` are written, and `zUnconstrained`, `dz`, the bounds, `q` and `p` are left
alone. The spec gives no formula for the linear term and the
constant of the step: they are the parameters `qTrial` and `pTrial`, functions of the
stage and `alpha`; `diagH kk` is the diagonal of the Hessian of stage `kk`. -/
def directQpSolver_trialStage {α : Type} [LinearOrderedField α] (diagH : Nat → vector_t α)
    (qTrial : Nat → α → vector_t α) (kk : Nat) (alpha : α) (interval : intervalLs_t α) :
    intervalLs_t α :=
  { interval with
    z := fun i =>
      if i < interval.nV then
        clampToBounds (interval.zLow i) (interval.zUpp i)
          (interval.zUnconstrained i + alpha * interval.dz i)
      else interval.z i,
    y := fun m =>
      if m / 2 < interval.nV then
        (if m % 2 = 0 then
          max 0 (-((interval.zUnconstrained (m / 2) + alpha * interval.dz (m / 2)
            - clampToBounds (interval.zLow (m / 2)) (interval.zUpp (m / 2))
                (interval.zUnconstrained (m / 2) + alpha * interval.dz (m / 2)))
            * diagH kk (m / 2)))
         else
          max 0 ((interval.zUnconstrained (m / 2) + alpha * interval.dz (m / 2)
            - clampToBounds (interval.zLow (m / 2)) (interval.zUpp (m / 2))
                (interval.zUnconstrained (m / 2) + alpha * interval.dz (m / 2)))
            * diagH kk (m / 2)))
      else interval.y m,
    zVecTmp := fun i => if i < interval.nV then qTrial kk alpha i else interval.zVecTmp i }

/-- Modelled from the spec: the call of `directQpSolver_doStep` in
`qpDUNES_computeParametricObjectiveValue` (dual_qp.c:1968) on stage `kk`: the local
`pTry` it gives back and the data it leaves; see `directQpSolver_trialStage`. -/
def directQpSolver_doStep_trial {α ω : Type} [LinearOrderedField α]
    (diagH : Nat → vector_t α) (qTrial : Nat → α → vector_t α) (pTrial : Nat → α → α)
    (kk : Nat) (alpha : α) (qp : lsData α ω) : α × lsData α ω :=
  (pTrial kk alpha,
    { qp with
      intervals := Function.update qp.intervals kk
        (directQpSolver_trialStage diagH qTrial kk alpha (qp.intervals kk)) })

/-- The line-search configuration `env` with the trial step of the Clipping stages
modelled from the spec. -/
def lineSearch_trialEnv {α ω : Type} [LinearOrderedField α] (env : lineSearch_env α ω)
    (diagH : Nat → vector_t α) (qTrial : Nat → α → vector_t α) (pTrial : Nat → α → α) :
    lineSearch_env α ω :=
  { env with directQpSolver_doStep_try := directQpSolver_doStep_trial diagH qTrial pTrial }

/-- The contribution of stage `kk` to the value of
`qpDUNES_computeParametricObjectiveValue` (dual_qp.c:1981-1987) for the stage data
`interval` left by the trial step and the constant `pTry`. -/
def parametricObjective_stageValue {α ω : Type} [LinearOrderedField α]
    (env : lineSearch_env α ω) (kk : Nat) (interval : intervalLs_t α) (pTry : α) : α :=
  1 / 2 * env.multiplyzHz kk interval.z interval.nV
    + scalarProd interval.zVecTmp interval.z interval.nV + pTry

/-- Modelled from the spec: `multiplyMatrixTMatrixDenseDense` is declared outside
`dual_qp.c`; the spec reads its two calls for a diagonal block as "set block to `MᵀM`"
(`addToRes` false) and "add `MᵀM`" (`addToRes` true). With `M1` of `dim0` rows and
`dim1` columns and `M2` of `dim0` rows and `dim2` columns, both dense and row-major,
entry `(ii, jj)` of the `dim1` by `dim2` result receives
`sum over ll < dim0 of M1[ll, ii] * M2[ll, jj]`. -/
def multiplyMatrixTMatrixDenseDense {α : Type} [LinearOrderedField α]
    (res M1 M2 : vector_t α) (dim0 dim1 dim2 : Nat) (addToRes : Bool) : vector_t α :=
  fun idx =>
    if idx < dim1 * dim2 then
      (if addToRes = true then res idx else 0)
        + ((List.range dim0).map
            (fun ll => M1 (ll * dim1 + idx / dim2) * M2 (ll * dim2 + idx % dim2))).sum
    else res idx

/-- Modelled from the spec: `getInvQ` is declared outside `dual_qp.c`; for a Clipping
stage the spec has it "materialize `diag(H)⁻¹`". It leaves the first `nV` diagonal
entries `invQ` of the inverse stage Hessian in `res`, in diagonal storage. -/
def getInvQ {α : Type} [LinearOrderedField α] (res invQ : vector_t α) (nV : Nat) :
    vector_t α :=
  fun ii => if ii < nV then invQ ii else res ii

/-- Modelled from the spec: `qpDUNES_makeMatrixDense` is declared outside `dual_qp.c`;
it turns the diagonal storage that `getInvQ` leaves into the dense row-major
`dim0` by `dim1` matrix with that diagonal. -/
def qpDUNES_makeMatrixDense {α : Type} [LinearOrderedField α] (M : vector_t α)
    (dim0 dim1 : Nat) : vector_t α :=
  fun idx =>
    if idx < dim0 * dim1 then (if idx / dim1 = idx % dim1 then M (idx / dim1) else 0)
    else M idx

/-- Modelled from the spec: `addCInvHCT` is declared outside `dual_qp.c`; for a Clipping
stage the spec has it add `C·diag(H)⁻¹·Cᵀ` with the columns of active bounds
annihilated. With `projInvQ` the diagonal of the inverse stage Hessian after
that annihilation and `C` dense, row-major with `nx` rows and `nz` columns, entry
`(ii, jj)` of `res` receives `sum over ll < nz of C[ii, ll] * projInvQ[ll] * C[jj, ll]`
on top of what it holds. -/
def addCInvHCT {α : Type} [LinearOrderedField α] (res projInvQ C : vector_t α)
    (nx nz : Nat) : vector_t α :=
  fun idx =>
    if idx < nx * nx then
      res idx
        + ((List.range nz).map
            (fun ll => C (idx / nx * nz + ll) * projInvQ ll * C (idx % nx * nz + ll))).sum
    else res idx

/-- Modelled from the spec: the routines that `qpDUNES_setupNewtonSystem` calls for a
diagonal block (dual_qp.c:605-645), put into the configuration `env`. For a qpOASES
stage `k`, `nFree k` is the number of free variables that `qpOASES_getZT` reports,
`backsolveRT_ZTET k` is the matrix `M = Rᵀ\ (ZᵀEᵀ)` that `backsolveRT_ZTET` leaves in
`zxMatTmp2` and `backsolveRT_ZTCT k` the matrix `M = Rᵀ\ (ZᵀCᵀ)` that
`backsolveRT_ZTCT` leaves there; for a Clipping stage `k`, `nV k` is its number of
variables, `invQ k` the diagonal of its inverse Hessian and `projInvQ k` that diagonal
with the entries of active bounds annihilated. These are arbitrary; the products are
formed as the spec describes. -/
def setupNewtonSystem_denseEnv {α τ : Type} [LinearOrderedField α] (env : setup_env α τ)
    (intervals : Nat → interval_t α) (nV nFree : Nat → Nat)
    (backsolveRT_ZTET backsolveRT_ZTCT invQ projInvQ : Nat → vector_t α) :
    setup_env α τ :=
  { env with
    qpOASES_EPE := fun k t =>
      let xx := multiplyMatrixTMatrixDenseDense t.xxMatTmp (backsolveRT_ZTET k)
        (backsolveRT_ZTET k) (nFree k) env.nx env.nx false
      { t with xxMatTmp := xx },
    getInvQ := fun k t => { t with xxMatTmp := getInvQ t.xxMatTmp (invQ k) (nV k) },
    qpDUNES_makeMatrixDense := fun t =>
      { t with xxMatTmp := qpDUNES_makeMatrixDense t.xxMatTmp env.nx env.nx },
    qpOASES_CPC := fun k t =>
      let xx := multiplyMatrixTMatrixDenseDense t.xxMatTmp (backsolveRT_ZTCT k)
        (backsolveRT_ZTCT k) (nFree k) env.nx env.nx true
      { t with xxMatTmp := xx },
    addCInvHCT := fun k t =>
      let xx := addCInvHCT t.xxMatTmp (projInvQ k) (intervals k).C env.nx env.nz
      { t with xxMatTmp := xx } }

/-- Stages for the Newton setup examples whose active set has changed: stage `0` is a
qpOASES stage, every other stage a Clipping stage with the lower bound of coordinate
`0` active (`y = (1, 0, 0, ..)`). -/
def exampleMixedStages (α : Type) [LinearOrderedField α] : Nat → intervalNewton_t α :=
  fun kk =>
    { actSetHasChanged := true,
      qpSolverSpecification :=
        if kk = 0 then QPDUNES_STAGE_QP_SOLVER_QPOASES
        else QPDUNES_STAGE_QP_SOLVER_CLIPPING,
      y := fun i => if i = 0 then 1 else 0 }

/-- A configuration for the examples on the dual ascent: as `exampleLineSearchEnv`, with
`lineSearchMinRelProgress = minRel`, `lineSearchMinAbsProgress = minAbs`, and stage
solvers that reproduce a trial. The trial step of stage `0` at the step length `a`
gives `pTry = f a` and records `a`, the trial step of the other stage gives `pTry = 0`;
the accepted step of a stage at the step length `a` stores that value as `p` and the
linear term `zVecTmp` of the trial as `q`. On the data `exampleLsData`, whose `z` is
zero, the dual value along the search direction is `f a`. -/
def exampleAscentEnv (α : Type) [LinearOrderedField α] (sqrt : α → α) (f : α → α)
    (minRel minAbs : α) (lsType : lsType_t) (minStep : α) (maxIt maxRef nGrid : Nat) :
    lineSearch_env α (List α) :=
  { NI := 1, nx := 1, nz := 1, sqrt := sqrt,
    opts := { lsType := lsType, equalityTolerance := 1 / 1000, QPDUNES_INFTY := 1000,
              lineSearchReductionFactor := 1 / 2 },
    lsOpts := { lineSearchMinRelProgress := minRel, lineSearchMinAbsProgress := minAbs,
                maxNumLineSearchIterations := maxIt,
                maxNumLineSearchRefinementIterations := maxRef,
                lineSearchStationarityTolerance := 1 / 1000,
                lineSearchIncreaseFactor := 2, lineSearchMaxStepSize := 1,
                lineSearchNbrGridPoints := nGrid },
    errorValue := fun _ => 0,
    alphaC := 0,
    directQpSolver_getMinStepsize := fun _ _ _ => minStep,
    directQpSolver_doStep := fun kk a qp =>
      let interval := qp.intervals kk
      let interval :=
        { interval with q := interval.zVecTmp, p := if kk = 0 then f a else 0 }
      { qp with intervals := Function.update qp.intervals kk interval },
    qpOASES_doStep := fun _ _ qp => qp,
    directQpSolver_doStep_try := fun kk a qp =>
      if kk = 0 then (f a, { qp with other := a :: qp.other }) else (0, qp),
    qpOASES_doStep_try := fun _ _ qp => (0, qp),
    multiplyzHz := fun _ _ _ => 0,
    directQpSolver_saturateVector := fun vec y _ _ _ => (vec, y),
    qpDUNES_goldenSectionIntervalSearch := fun _ _ _ _ st => (QPDUNES_OK, st) }

/-- The step-length routine on the examples on the dual ascent: two Clipping stages, the
direction `deltaLambda = (1)`, a Hessian that is not regularized, and the state
`exampleLineSearchState` with the incumbent objective value `objVal`. -/
def exampleAscentStep (α : Type) [LinearOrderedField α] (sqrt : α → α) (f : α → α)
    (minRel minAbs : α) (lsType : lsType_t) (minStep : α) (maxIt maxRef nGrid : Nat)
    (objVal : α) : return_t × ls_state α (lsData α (List α)) :=
  qpDUNES_determineStepLength
    (lineSearch_lsEnv
      (exampleAscentEnv α sqrt f minRel minAbs lsType minStep maxIt maxRef nGrid)
      (exampleStages α QPDUNES_STAGE_QP_SOLVER_CLIPPING QPDUNES_STAGE_QP_SOLVER_CLIPPING))
    (exampleStages α QPDUNES_STAGE_QP_SOLVER_CLIPPING QPDUNES_STAGE_QP_SOLVER_CLIPPING)
    (fun _ => 1) false { exampleLineSearchState α with objValIncumbent := objVal }

/-! # Theorems -/

/-! ## Loop lemmas -/

theorem foldl_add_eq_sum {α : Type} [LinearOrderedField α] (F : Nat → α) (n : Nat) (a : α) :
    (List.range n).foldl (fun s jj => s + F jj) a = a + ∑ jj in Finset.range n, F jj := by
  induction n with
  | zero => simp
  | succ n ih => simp [List.range_succ, List.foldl_append, ih, Finset.sum_range_succ, add_assoc]

theorem foldl_update_self {α : Type} (f : Nat → α → α) (r0 : vector_t α) (n i : Nat) :
    ((List.range n).foldl (fun r ii => Function.update r ii (f ii (r ii))) r0) i
      = if i < n then f i (r0 i) else r0 i := by
  induction n with
  | zero => simp
  | succ n ih =>
    rw [List.range_succ, List.foldl_append]
    simp only [List.foldl_cons, List.foldl_nil]
    by_cases h : i = n
    · subst h
      simp [ih]
    · rw [Function.update_noteq h, ih]
      by_cases h2 : i < n
      · simp [h2, Nat.lt_succ_of_lt h2]
      · have : ¬ i < n + 1 := by omega
        simp [h2, this]

theorem foldl_update_offset {α : Type} (off : Nat) (v : Nat → α) (g0 : vector_t α)
    (n j : Nat) :
    ((List.range n).foldl (fun g ii => Function.update g (off + ii) (v ii)) g0) j
      = if off ≤ j ∧ j < off + n then v (j - off) else g0 j := by
  induction n with
  | zero =>
    have : ¬ (off ≤ j ∧ j < off) := by omega
    simp [this]
  | succ n ih =>
    rw [List.range_succ, List.foldl_append]
    simp only [List.foldl_cons, List.foldl_nil]
    by_cases h : j = off + n
    · subst h
      simp
    · rw [Function.update_noteq h, ih]
      by_cases h2 : off ≤ j ∧ j < off + n
      · have : off ≤ j ∧ j < off + (n + 1) := ⟨h2.1, by omega⟩
        simp [h2, this]
      · have : ¬ (off ≤ j ∧ j < off + (n + 1)) := by omega
        simp [h2, this]

theorem subLoop_range {α : Type} [LinearOrderedField α] (F : Nat → α) (n : Nat) (a : α) :
    subLoop (List.range n) F a = a - ∑ ll in Finset.range n, F ll := by
  unfold subLoop
  induction n with
  | zero => simp
  | succ n ih =>
    simp only [List.range_succ, List.foldl_append, ih, List.foldl_cons, List.foldl_nil,
      Finset.sum_range_succ]
    ring

theorem subLoop_range' {α : Type} [LinearOrderedField α] (F : Nat → α) (s n : Nat) (a : α) :
    subLoop (List.range' s n) F a = a - ∑ t in Finset.range n, F (s + t) := by
  unfold subLoop
  induction n generalizing s a with
  | zero => simp
  | succ n ih =>
    simp only [List.range'_succ, List.foldl_cons, ih, Finset.sum_range_succ']
    have : ∀ t, F (s + 1 + t) = F (s + (t + 1)) := fun t => by rw [Nat.add_right_comm, Nat.add_assoc]
    simp only [this, Nat.add_zero]
    ring

theorem subLoop_congr {α : Type} [LinearOrderedField α] (l : List Nat) (F G : Nat → α) (a : α)
    (h : ∀ ll, ll ∈ l → F ll = G ll) : subLoop l F a = subLoop l G a := by
  unfold subLoop
  induction l generalizing a with
  | nil => rfl
  | cons x l ih =>
    simp only [List.foldl_cons]
    rw [h x (List.mem_cons_self x l)]
    exact ih _ (fun ll hl => h ll (List.mem_cons_of_mem x hl))

/-- A loop that writes one cell per index: when the cells are distinct and the value
written does not depend on the cells the loop writes, every cell written holds the
value computed from the initial state, and the other cells are unchanged. -/
theorem foldl_update_spec {κ α : Type} [DecidableEq κ] (e : Nat → κ)
    (val : (κ → α) → Nat → α) (l : List Nat) (hnd : l.Nodup)
    (hinj : ∀ a, a ∈ l → ∀ b, b ∈ l → e a = e b → a = b)
    (hval : ∀ M M1 : κ → α, (∀ x, (∀ a, a ∈ l → x ≠ e a) → M x = M1 x) →
      ∀ ii, val M ii = val M1 ii)
    (M0 : κ → α) :
    (∀ x, (∀ a, a ∈ l → x ≠ e a) →
        l.foldl (fun M ii => Function.update M (e ii) (val M ii)) M0 x = M0 x)
    ∧ (∀ a, a ∈ l →
        l.foldl (fun M ii => Function.update M (e ii) (val M ii)) M0 (e a) = val M0 a) := by
  induction l generalizing M0 with
  | nil => exact ⟨fun _ _ => rfl, fun a ha => absurd ha (List.not_mem_nil a)⟩
  | cons i l ih =>
    have hnd2 : l.Nodup := (List.nodup_cons.1 hnd).2
    have hil : i ∉ l := (List.nodup_cons.1 hnd).1
    have hinj2 : ∀ a, a ∈ l → ∀ b, b ∈ l → e a = e b → a = b := fun a ha b hb =>
      hinj a (List.mem_cons_of_mem i ha) b (List.mem_cons_of_mem i hb)
    have hval2 : ∀ M M1 : κ → α, (∀ x, (∀ a, a ∈ l → x ≠ e a) → M x = M1 x) →
        ∀ ii, val M ii = val M1 ii := by
      intro M M1 h ii
      exact hval M M1 (fun x hx => h x (fun a ha => hx a (List.mem_cons_of_mem i ha))) ii
    obtain ⟨ih1, ih2⟩ := ih hnd2 hinj2 hval2 (Function.update M0 (e i) (val M0 i))
    simp only [List.foldl_cons]
    constructor
    · intro x hx
      rw [ih1 x (fun a ha => hx a (List.mem_cons_of_mem i ha))]
      exact Function.update_noteq (hx i (List.mem_cons_self i l)) _ _
    · intro a ha
      rcases List.mem_cons.1 ha with h | h
      · subst h
        rw [ih1 (e a)]
        · exact Function.update_same _ _ _
        · intro b hb hab
          have := hinj a (List.mem_cons_self a l) b (List.mem_cons_of_mem a hb) hab
          exact hil (this ▸ hb)
      · rw [ih2 a h]
        apply hval
        intro x hx
        exact Function.update_noteq (hx i (List.mem_cons_self i l)) _ _

/-! ## Positivity of the pivots of a symmetric positive-definite matrix -/

theorem sum_mul_update {α : Type} [LinearOrderedField α] (s : Finset Nat) (g x : Nat → α)
    (u0 : Nat) (v : α) (hu : u0 ∈ s) :
    ∑ r in s, g r * Function.update x u0 v r = ∑ r in s, g r * x r + g u0 * (v - x u0) := by
  have h : ∀ r ∈ s, g r * Function.update x u0 v r
      = g r * x r + (if r = u0 then g u0 * (v - x u0) else 0) := by
    intro r _
    by_cases hr : r = u0
    · subst hr; simp; ring
    · simp [Function.update_noteq hr, hr]
  rw [Finset.sum_congr rfl h, Finset.sum_add_distrib, Finset.sum_ite_eq' s u0]
  simp [hu]

/-- Existence of a vector annihilated by the processed columns. -/
theorem exists_annihilated {α : Type} [LinearOrderedField α] (c : Nat) (M : Nat → Nat → α)
    (hdiag : ∀ t, t < c → M t t ≠ 0)
    (hlow : ∀ r u, r < u → M r u = 0) :
    ∀ d, d ≤ c → ∃ x : Nat → α, x c = 1 ∧ (∀ i, c < i → x i = 0)
      ∧ ∀ u, c - d ≤ u → u < c → ∑ r in Finset.range (c + 1), M r u * x r = 0 := by
  intro d
  induction d with
  | zero =>
    intro _
    refine ⟨fun i => if i = c then 1 else 0, by simp, ?_, ?_⟩
    · intro i hi; simp; omega
    · intro u h1 h2; omega
  | succ d ih =>
    intro hd
    obtain ⟨x, hx1, hx2, hx3⟩ := ih (by omega)
    have hu0 : c - (d + 1) < c := by omega
    have hmem : c - (d + 1) ∈ Finset.range (c + 1) := by simp; omega
    refine ⟨Function.update x (c - (d + 1))
      (x (c - (d + 1)) - (∑ r in Finset.range (c + 1), M r (c - (d + 1)) * x r)
        / M (c - (d + 1)) (c - (d + 1))), ?_, ?_, ?_⟩
    · rw [Function.update_noteq (by omega)]; exact hx1
    · intro i hi
      rw [Function.update_noteq (by omega)]; exact hx2 i hi
    · intro u h1 h2
      rw [sum_mul_update _ _ _ _ _ hmem]
      by_cases hu : u = c - (d + 1)
      · subst hu
        field_simp [hdiag _ hu0]
        ring
      · have : c - (d + 1) < u := by omega
        rw [hlow _ _ this, zero_mul, add_zero]
        exact hx3 u (by omega) h2

/-- Positivity of the next Cholesky pivot of a symmetric positive-definite matrix. -/
theorem chol_pivot_pos {α : Type} [LinearOrderedField α] (n c : Nat) (hc : c < n)
    (A Lf : Nat → Nat → α)
    (hsym : ∀ r m, r < n → m < n → A r m = A m r)
    (hpd : ∀ x : Nat → α, (∃ i, i < n ∧ x i ≠ 0) →
      0 < ∑ r in Finset.range n, ∑ m in Finset.range n, x r * A r m * x m)
    (hdiag : ∀ t, t < c → Lf t t ≠ 0)
    (hcol : ∀ t, t < c → ∀ r, t ≤ r → r ≤ c →
      A r t = ∑ u in Finset.range (t + 1), Lf r u * Lf t u) :
    0 < A c c - ∑ t in Finset.range c, Lf c t * Lf c t := by
  -- the lower-triangular truncation of the factor
  set M : Nat → Nat → α := fun r u => if u ≤ r then Lf r u else 0 with hM
  have hMlow : ∀ r u, r < u → M r u = 0 := by
    intro r u h; simp [hM]; intro h2; omega
  have hMdiag : ∀ t, t < c → M t t ≠ 0 := by
    intro t ht; simp [hM]; exact hdiag t ht
  obtain ⟨x, hx1, hx2, hx3⟩ := exists_annihilated c M hMdiag hMlow c le_rfl
  have hx3' : ∀ u, u < c → ∑ r in Finset.range (c + 1), M r u * x r = 0 :=
    fun u hu => hx3 u (by omega) hu
  -- entries of A through the factor
  have hB : ∀ r t, t < c → t ≤ r → r ≤ c → A r t = ∑ u in Finset.range c, M r u * M t u := by
    intro r t ht htr hrc
    rw [hcol t ht r htr hrc]
    have hsub : Finset.range (t + 1) ⊆ Finset.range c := by
      intro u hu; simp at hu ⊢; omega
    rw [← Finset.sum_subset hsub]
    · apply Finset.sum_congr rfl
      intro u hu
      simp at hu
      have h1 : u ≤ r := by omega
      have h2 : u ≤ t := by omega
      simp [hM, h1, h2]
    · intro u _ hu
      simp at hu
      have : t < u := by omega
      rw [hMlow t u this, mul_zero]
  have hA : ∀ r m, r ∈ Finset.range (c + 1) → m ∈ Finset.range (c + 1) →
      x r * A r m * x m = (∑ u in Finset.range c, (M r u * x r) * (M m u * x m))
        + (if r = c ∧ m = c then A c c - ∑ t in Finset.range c, Lf c t * Lf c t else 0) := by
    intro r m hr hm
    simp at hr hm
    by_cases hcc : r = c ∧ m = c
    · obtain ⟨h1, h2⟩ := hcc
      rw [h1, h2, if_pos ⟨rfl, rfl⟩, hx1]
      have : ∑ u in Finset.range c, M c u * 1 * (M c u * 1) = ∑ t in Finset.range c, Lf c t * Lf c t := by
        apply Finset.sum_congr rfl
        intro u hu
        simp at hu
        have : u ≤ c := by omega
        simp [hM, this]
      rw [this]; ring
    · rw [if_neg hcc, add_zero]
      have key : A r m = ∑ u in Finset.range c, M r u * M m u := by
        by_cases hrm : m ≤ r
        · exact hB r m (by omega) hrm (by omega)
        · rw [hsym r m (by omega) (by omega), hB m r (by omega) (by omega) (by omega)]
          apply Finset.sum_congr rfl
          intro u _; ring
      rw [key, Finset.mul_sum, Finset.sum_mul]
      apply Finset.sum_congr rfl
      intro u _; ring
  have hxne : ∃ i, i < n ∧ x i ≠ 0 := ⟨c, hc, by rw [hx1]; exact one_ne_zero⟩
  have hq := hpd x hxne
  have hsub : Finset.range (c + 1) ⊆ Finset.range n := by
    intro u hu; simp at hu ⊢; omega
  have hzero : ∀ i, i ∈ Finset.range n → i ∉ Finset.range (c + 1) → x i = 0 := by
    intro i _ hi; simp at hi; exact hx2 i (by omega)
  have hq2 : ∑ r in Finset.range n, ∑ m in Finset.range n, x r * A r m * x m
      = ∑ r in Finset.range (c + 1), ∑ m in Finset.range (c + 1), x r * A r m * x m := by
    rw [← Finset.sum_subset hsub]
    · apply Finset.sum_congr rfl
      intro r _
      rw [← Finset.sum_subset hsub]
      intro m hm hm2
      rw [hzero m hm hm2, mul_zero]
    · intro r hr hr2
      apply Finset.sum_eq_zero
      intro m _
      rw [hzero r hr hr2, zero_mul, zero_mul]
  rw [hq2] at hq
  have hq3 : ∑ r in Finset.range (c + 1), ∑ m in Finset.range (c + 1), x r * A r m * x m
      = A c c - ∑ t in Finset.range c, Lf c t * Lf c t := by
    rw [Finset.sum_congr rfl (fun r hr => Finset.sum_congr rfl (fun m hm => hA r m hr hm))]
    simp only [Finset.sum_add_distrib]
    have h1 : ∑ r in Finset.range (c + 1), ∑ m in Finset.range (c + 1),
        ∑ u in Finset.range c, (M r u * x r) * (M m u * x m) = 0 := by
      have : ∀ r ∈ Finset.range (c + 1), ∑ m in Finset.range (c + 1),
          ∑ u in Finset.range c, (M r u * x r) * (M m u * x m) = 0 := by
        intro r _
        rw [Finset.sum_comm]
        apply Finset.sum_eq_zero
        intro u hu
        simp at hu
        rw [← Finset.mul_sum, hx3' u hu, mul_zero]
      exact Finset.sum_eq_zero this
    have hcmem : c ∈ Finset.range (c + 1) := by simp
    rw [h1, zero_add]
    rw [Finset.sum_eq_single c]
    · rw [Finset.sum_eq_single c]
      · simp
      · intro m _ hm; simp [hm]
      · intro h; exact absurd hcmem h
    · intro r _ hr
      apply Finset.sum_eq_zero
      intro m _; simp [hr]
    · intro h; exact absurd hcmem h
  rw [hq3] at hq
  exact hq

/-- Positivity of the next pivot of the reverse Cholesky factorization of a symmetric
positive-definite matrix: the forward statement for the matrix with rows and columns
in reverse order. -/
theorem chol_pivot_pos_reverse {α : Type} [LinearOrderedField α] (n c : Nat) (hc : c < n)
    (A Lf : Nat → Nat → α)
    (hsym : ∀ r m, r < n → m < n → A r m = A m r)
    (hpd : ∀ x : Nat → α, (∃ i, i < n ∧ x i ≠ 0) →
      0 < ∑ r in Finset.range n, ∑ m in Finset.range n, x r * A r m * x m)
    (hdiag : ∀ t, c < t → t < n → Lf t t ≠ 0)
    (hrow : ∀ t, c < t → t < n → ∀ r, c ≤ r → r ≤ t →
      A t r = ∑ u in Finset.range (n - t), Lf (t + u) t * Lf (t + u) r) :
    0 < A c c - ∑ u in Finset.range (n - c - 1), Lf (c + 1 + u) c * Lf (c + 1 + u) c := by
  have key := chol_pivot_pos n (n - 1 - c) (by omega)
    (fun r m => A (n - 1 - r) (n - 1 - m)) (fun r m => Lf (n - 1 - m) (n - 1 - r))
    (fun r m hr hm => hsym _ _ (by omega) (by omega))
    (by
      rintro x ⟨i, hi, hx⟩
      have h1 := hpd (fun j => x (n - 1 - j))
        ⟨n - 1 - i, by omega, by
          have : n - 1 - (n - 1 - i) = i := by omega
          simp only [this]; exact hx⟩
      rw [← Finset.sum_range_reflect] at h1
      have h2 : ∀ r ∈ Finset.range n,
          ∑ m in Finset.range n,
            x (n - 1 - (n - 1 - r)) * A (n - 1 - r) m * x (n - 1 - m)
          = ∑ m in Finset.range n, x r * A (n - 1 - r) (n - 1 - m) * x m := by
        intro r hr
        have hr2 : r < n := Finset.mem_range.1 hr
        rw [← Finset.sum_range_reflect]
        apply Finset.sum_congr rfl
        intro m hm
        have hm2 : m < n := Finset.mem_range.1 hm
        have e1 : n - 1 - (n - 1 - r) = r := by omega
        have e2 : n - 1 - (n - 1 - m) = m := by omega
        rw [e1, e2]
      rw [Finset.sum_congr rfl h2] at h1
      exact h1)
    (by
      intro t ht
      exact hdiag (n - 1 - t) (by omega) (by omega))
    (by
      intro t ht r hr1 hr2
      show A (n - 1 - r) (n - 1 - t) = _
      rw [hsym _ _ (by omega) (by omega), hrow (n - 1 - t) (by omega) (by omega) (n - 1 - r)
        (by omega) (by omega)]
      have e1 : n - (n - 1 - t) = t + 1 := by omega
      rw [e1, ← Finset.sum_range_reflect]
      apply Finset.sum_congr rfl
      intro u hu
      have hu2 : u < t + 1 := Finset.mem_range.1 hu
      have e2 : n - 1 - t + (t + 1 - 1 - u) = n - 1 - u := by omega
      rw [e2]
      ring)
  have e0 : n - 1 - (n - 1 - c) = c := by omega
  simp only [e0] at key
  have e1 : n - c - 1 = n - 1 - c := by omega
  rw [e1, ← Finset.sum_range_reflect]
  have e2 : ∑ j in Finset.range (n - 1 - c),
        Lf (c + 1 + (n - 1 - c - 1 - j)) c * Lf (c + 1 + (n - 1 - c - 1 - j)) c
      = ∑ t in Finset.range (n - 1 - c), Lf (n - 1 - t) c * Lf (n - 1 - t) c := by
    apply Finset.sum_congr rfl
    intro j hj
    have hj2 : j < n - 1 - c := Finset.mem_range.1 hj
    have e3 : c + 1 + (n - 1 - c - 1 - j) = n - 1 - j := by omega
    rw [e3]
  rw [e2]
  exact key

/-! ## Gradient assembly: the dual gradient formula -/

theorem multiplyCz_apply {α : Type} [LinearOrderedField α] (nx nz : Nat)
    (res C z : vector_t α) (i : Nat) :
    multiplyCz nx nz res C z i
      = if i < nx then ∑ jj in Finset.range nz, C (i * nz + jj) * z jj else res i := by
  unfold multiplyCz
  rw [foldl_update_self (fun ii _ => (List.range nz).foldl (fun s jj => s + C (ii * nz + jj) * z jj) 0)]
  simp [foldl_add_eq_sum]

theorem addToVector_apply {α : Type} [LinearOrderedField α] (res vec : vector_t α)
    (len i : Nat) :
    addToVector res vec len i = if i < len then res i + vec i else res i := by
  unfold addToVector
  rw [foldl_update_self (fun ii x => x + vec ii)]

/-- One pass of the stage loop of `qpDUNES_computeNewtonGradient`, as a function. -/
theorem gradient_loop_inv {α : Type} [LinearOrderedField α] (nx nz : Nat)
    (intervals : Nat → interval_t α) (gradient gradPiece : vector_t α) :
    ∀ K, ∀ k i, k < K → i < nx →
      ((List.range K).foldl
        (fun (st : vector_t α × vector_t α) kk =>
          let p1 := multiplyCz nx nz st.2 (intervals kk).C (intervals kk).z
          let p2 := addToVector p1 (intervals kk).c nx
          let p3 := (List.range nx).foldl
            (fun p ii => Function.update p ii (p ii - (intervals (kk + 1)).z ii)) p2
          let g := (List.range nx).foldl
            (fun g ii => Function.update g (kk * nx + ii) (p3 ii)) st.1
          (g, p3))
        (gradient, gradPiece)).1 (k * nx + i)
      = (∑ jj in Finset.range nz, (intervals k).C (i * nz + jj) * (intervals k).z jj)
          + (intervals k).c i - (intervals (k + 1)).z i := by
  intro K
  induction K with
  | zero => intro k i hk; omega
  | succ K ih =>
    intro k i hk hi
    rw [List.range_succ, List.foldl_append]
    simp only [List.foldl_cons, List.foldl_nil]
    rw [foldl_update_offset]
    by_cases hkK : k = K
    · subst hkK
      have h1 : k * nx ≤ k * nx + i ∧ k * nx + i < k * nx + nx := by omega
      rw [if_pos h1, Nat.add_sub_cancel_left,
        foldl_update_self (fun ii x => x - (intervals (k + 1)).z ii), if_pos hi,
        addToVector_apply, if_pos hi, multiplyCz_apply, if_pos hi]
    · have hlt : k < K := by omega
      have h1 : ¬ (K * nx ≤ k * nx + i ∧ k * nx + i < K * nx + nx) := by
        intro h
        have : (k + 1) * nx ≤ K * nx := Nat.mul_le_mul_right nx hlt
        have h3 : (k + 1) * nx = k * nx + nx := by ring
        omega
      rw [if_neg h1]
      exact ih k i hlt hi

/-- C1. Dual gradient formula: after `qpDUNES_computeNewtonGradient`, for every
coupling interval `k < N` and every `i < nx`, the entry `gradient[k*nx+i]` equals
`(C_k z_k)[i] + c_k[i] - z_{k+1}[i]`, and the routine returns `QPDUNES_OK`
(whatever the inputs: it has no failure mode). -/
theorem computeNewtonGradient_formula {α : Type} [LinearOrderedField α] (N nx nz : Nat)
    (intervals : Nat → interval_t α) (gradient gradPiece : vector_t α)
    (k i : Nat) (hk : k < N) (hi : i < nx) :
    (qpDUNES_computeNewtonGradient N nx nz intervals gradient gradPiece).status = QPDUNES_OK
    ∧ (qpDUNES_computeNewtonGradient N nx nz intervals gradient gradPiece).gradient (k * nx + i)
      = (∑ jj in Finset.range nz, (intervals k).C (i * nz + jj) * (intervals k).z jj)
          + (intervals k).c i - (intervals (k + 1)).z i :=
  ⟨rfl, gradient_loop_inv nx nz intervals gradient gradPiece N k i hk hi⟩

/-- Witness for C1: two stages with `nx = 1`, `nz = 2`, `C_0 = (2 3)`, `z_0 = (5, 7)`,
`c_0 = 11`, `z_1 = (4)`: the gradient is `2*5 + 3*7 + 11 - 4`. -/
theorem computeNewtonGradient_formula_witness :
    (0 < 1 ∧ 0 < 1) ∧
    ((qpDUNES_computeNewtonGradient 1 1 2
        (fun kk => if kk = 0 then
            { C := fun j => if j = 0 then (2 : ℚ) else 3,
              c := fun _ => 11,
              z := fun j => if j = 0 then 5 else 7 }
          else { C := fun _ => 0, c := fun _ => 0, z := fun _ => 4 })
        (fun _ => 0) (fun _ => 0)).status = QPDUNES_OK
    ∧ (qpDUNES_computeNewtonGradient 1 1 2
        (fun kk => if kk = 0 then
            { C := fun j => if j = 0 then (2 : ℚ) else 3,
              c := fun _ => 11,
              z := fun j => if j = 0 then 5 else 7 }
          else { C := fun _ => 0, c := fun _ => 0, z := fun _ => 4 })
        (fun _ => 0) (fun _ => 0)).gradient (0 * 1 + 0)
      = (∑ jj in Finset.range 2,
          (if 0 * 2 + jj = 0 then (2 : ℚ) else 3) * (if jj = 0 then 5 else 7)) + 11 - 4) :=
  ⟨⟨by decide, by decide⟩,
    computeNewtonGradient_formula 1 1 2 _ (fun _ => 0) (fun _ => 0) 0 0 (by decide) (by decide)⟩

/-! ## Active-set comparison -/

theorem compareActSets_entries_inv (newS oldS : Nat → Nat → Int) (kk : Nat)
    (st : actSetDiff_t) (I : Nat) :
    let r := (List.range I).foldl (compareActSets_entry newS oldS kk) st
    (∀ k, k ≠ kk → r.actSetHasChanged k = st.actSetHasChanged k)
    ∧ ((∃ ii, ii < I ∧ newS kk ii ≠ oldS kk ii) →
        r.actSetHasChanged kk = true ∧ r.lastActSetChangeIdx = (kk : Int)
          ∧ 0 < r.nChgdConstr)
    ∧ ((¬ ∃ ii, ii < I ∧ newS kk ii ≠ oldS kk ii) → r = st) := by
  induction I with
  | zero =>
    refine ⟨fun _ _ => rfl, ?_, fun _ => rfl⟩
    rintro ⟨ii, h, _⟩
    omega
  | succ I ih =>
    intro r
    have hr : r = compareActSets_entry newS oldS kk
        ((List.range I).foldl (compareActSets_entry newS oldS kk) st) I := by
      simp only [r, List.range_succ, List.foldl_append, List.foldl_cons, List.foldl_nil]
    obtain ⟨ih1, ih2, ih3⟩ := ih
    generalize (List.range I).foldl (compareActSets_entry newS oldS kk) st = s
      at hr ih1 ih2 ih3
    by_cases hd : newS kk I ≠ oldS kk I
    · rw [compareActSets_entry, if_pos hd] at hr
      refine ⟨?_, ?_, ?_⟩
      · intro k hk
        rw [hr]
        simp only [Function.update_noteq hk]
        exact ih1 k hk
      · intro _
        rw [hr]
        simp
      · intro h
        exact absurd ⟨I, Nat.lt_succ_self I, hd⟩ h
    · rw [compareActSets_entry, if_neg hd] at hr
      rw [hr]
      refine ⟨ih1, ?_, ?_⟩
      · rintro ⟨ii, hii, hne⟩
        apply ih2
        refine ⟨ii, ?_, hne⟩
        by_cases h : ii = I
        · subst h; exact absurd hne hd
        · omega
      · intro h
        apply ih3
        rintro ⟨ii, hii, hne⟩
        exact h ⟨ii, Nat.lt_succ_of_lt hii, hne⟩

/-- The invariant of the stage loop of `qpDUNES_compareActSets` after `K` stages. -/
theorem compareActSets_stages_inv (nDnV : Nat → Nat) (newS oldS : Nat → Nat → Int)
    (flags : Nat → Bool) (K : Nat) :
    let r := (List.range K).foldl (compareActSets_stage nDnV newS oldS)
      { nChgdConstr := 0, lastActSetChangeIdx := -1, actSetHasChanged := flags }
    (∀ k, k < K → (r.actSetHasChanged k = true ↔ stageDiffers nDnV newS oldS k))
    ∧ (∀ k, K ≤ k → r.actSetHasChanged k = flags k)
    ∧ (r.nChgdConstr = 0 ↔ ∀ k, k < K → ¬ stageDiffers nDnV newS oldS k)
    ∧ (r.lastActSetChangeIdx = -1 ↔ ∀ k, k < K → ¬ stageDiffers nDnV newS oldS k)
    ∧ (∀ k, k < K → stageDiffers nDnV newS oldS k →
        (∀ j, j < K → k < j → ¬ stageDiffers nDnV newS oldS j) →
        r.lastActSetChangeIdx = (k : Int)) := by
  induction K with
  | zero =>
    refine ⟨?_, fun _ _ => rfl, ?_, ?_, ?_⟩
    · intro k hk; omega
    · simp
    · simp
    · intro k hk; omega
  | succ K ih =>
    intro r
    obtain ⟨ih1, ih2, ih3, ih4, ih5⟩ := ih
    generalize hs : (List.range K).foldl (compareActSets_stage nDnV newS oldS)
      { nChgdConstr := 0, lastActSetChangeIdx := -1, actSetHasChanged := flags } = s
      at ih1 ih2 ih3 ih4 ih5
    have hr : r = (List.range (nDnV K)).foldl (compareActSets_entry newS oldS K)
        { s with actSetHasChanged := Function.update s.actSetHasChanged K false } := by
      simp only [r, List.range_succ, List.foldl_append, List.foldl_cons, List.foldl_nil, hs]
      rfl
    obtain ⟨e1, e2, e3⟩ := compareActSets_entries_inv newS oldS K
      { s with actSetHasChanged := Function.update s.actSetHasChanged K false } (nDnV K)
    rw [← hr] at e1 e2 e3
    have eflag : ∀ k, k ≠ K → r.actSetHasChanged k = s.actSetHasChanged k := by
      intro k hk
      rw [e1 k hk]
      exact Function.update_noteq hk _ _
    by_cases hd : stageDiffers nDnV newS oldS K
    · obtain ⟨f1, f2, f3⟩ := e2 hd
      refine ⟨?_, ?_, ?_, ?_, ?_⟩
      · intro k hk
        by_cases hkK : k = K
        · subst hkK; exact ⟨fun _ => hd, fun _ => f1⟩
        · rw [eflag k hkK]; exact ih1 k (by omega)
      · intro k hk
        rw [eflag k (by omega)]; exact ih2 k (by omega)
      · constructor
        · intro h; omega
        · intro h; exact absurd hd (h K (Nat.lt_succ_self K))
      · constructor
        · intro h; rw [f2] at h; omega
        · intro h; exact absurd hd (h K (Nat.lt_succ_self K))
      · intro k hk hdk hmax
        by_cases hkK : k = K
        · subst hkK; exact f2
        · exact absurd hd (hmax K (Nat.lt_succ_self K) (by omega))
    · have hrs := e3 hd
      have hn : r.nChgdConstr = s.nChgdConstr := by rw [hrs]
      have hl : r.lastActSetChangeIdx = s.lastActSetChangeIdx := by rw [hrs]
      have hK : r.actSetHasChanged K = false := by rw [hrs]; simp
      refine ⟨?_, ?_, ?_, ?_, ?_⟩
      · intro k hk
        by_cases hkK : k = K
        · subst hkK
          rw [hK]
          exact ⟨fun h => by simp at h, fun h => absurd h hd⟩
        · rw [eflag k hkK]; exact ih1 k (by omega)
      · intro k hk
        rw [eflag k (by omega)]; exact ih2 k (by omega)
      · rw [hn, ih3]
        constructor
        · intro h k hk
          by_cases hkK : k = K
          · subst hkK; exact hd
          · exact h k (by omega)
        · intro h k hk; exact h k (by omega)
      · rw [hl, ih4]
        constructor
        · intro h k hk
          by_cases hkK : k = K
          · subst hkK; exact hd
          · exact h k (by omega)
        · intro h k hk; exact h k (by omega)
      · intro k hk hdk hmax
        have hkK : k ≠ K := by rintro rfl; exact hd hdk
        rw [hl]
        exact ih5 k (by omega) hdk (fun j hj hkj => hmax j (by omega) hkj)

/-- C6. Active-set diff consistency: after `qpDUNES_compareActSets`, for every pair
of status tables, the returned `nChgdConstr` is 0 iff the output
`lastActSetChangeIdx` is -1 iff `actSetHasChanged` is false on every stage `0..N`. -/
theorem compareActSets_consistent (NI : Nat) (nDnV : Nat → Nat)
    (newActSetStatus oldActSetStatus : Nat → Nat → Int) (flags : Nat → Bool) :
    ((qpDUNES_compareActSets NI nDnV newActSetStatus oldActSetStatus flags).nChgdConstr = 0
      ↔ (qpDUNES_compareActSets NI nDnV newActSetStatus oldActSetStatus
            flags).lastActSetChangeIdx = -1)
    ∧ ((qpDUNES_compareActSets NI nDnV newActSetStatus oldActSetStatus
            flags).lastActSetChangeIdx = -1
      ↔ ∀ k, k ≤ NI →
          (qpDUNES_compareActSets NI nDnV newActSetStatus oldActSetStatus
            flags).actSetHasChanged k = false) := by
  obtain ⟨h1, _, h3, h4, _⟩ :=
    compareActSets_stages_inv nDnV newActSetStatus oldActSetStatus flags (NI + 1)
  unfold qpDUNES_compareActSets
  refine ⟨by rw [h3, h4], ?_⟩
  rw [h4]
  constructor
  · intro h k hk
    have := h k (by omega)
    rw [← h1 k (by omega)] at this
    simpa using this
  · intro h k hk hd
    have := (h1 k hk).2 hd
    rw [h k (by omega)] at this
    simp at this

/-- C7. `qpDUNES_compareActSets` sets `actSetHasChanged[k]` to true exactly for the
stages `k` in `0..N` with at least one differing status entry, sets
`lastActSetChangeIdx` to -1 when no stage differs, and otherwise to the largest
stage index at which some status differs. -/
theorem compareActSets_lastIdx (NI : Nat) (nDnV : Nat → Nat)
    (newActSetStatus oldActSetStatus : Nat → Nat → Int) (flags : Nat → Bool) :
    (∀ k, k ≤ NI →
      ((qpDUNES_compareActSets NI nDnV newActSetStatus oldActSetStatus
          flags).actSetHasChanged k = true
        ↔ stageDiffers nDnV newActSetStatus oldActSetStatus k))
    ∧ ((∀ k, k ≤ NI → ¬ stageDiffers nDnV newActSetStatus oldActSetStatus k) →
        (qpDUNES_compareActSets NI nDnV newActSetStatus oldActSetStatus
          flags).lastActSetChangeIdx = -1)
    ∧ (∀ k, k ≤ NI → stageDiffers nDnV newActSetStatus oldActSetStatus k →
        (∀ j, j ≤ NI → k < j → ¬ stageDiffers nDnV newActSetStatus oldActSetStatus j) →
        (qpDUNES_compareActSets NI nDnV newActSetStatus oldActSetStatus
          flags).lastActSetChangeIdx = (k : Int)) := by
  obtain ⟨h1, _, _, h4, h5⟩ :=
    compareActSets_stages_inv nDnV newActSetStatus oldActSetStatus flags (NI + 1)
  unfold qpDUNES_compareActSets
  refine ⟨fun k hk => h1 k (by omega), ?_, ?_⟩
  · intro h
    rw [h4]
    exact fun k hk => h k (by omega)
  · intro k hk hd hmax
    exact h5 k (by omega) hd (fun j hj hkj => hmax j (by omega) hkj)

/-! ## Loops that may return -/

theorem loopExcept_inv {ε σ : Type} (body : σ → Nat → Except ε σ) (P : σ → Prop)
    (Q : ε → Prop) (l : List Nat)
    (h : ∀ s i, i ∈ l → P s → outcome P Q (body s i)) :
    ∀ s, P s → outcome P Q (loopExcept body l s) := by
  induction l with
  | nil => intro s hs; exact hs
  | cons i l ih =>
    intro s hs
    have hb := h s i (List.mem_cons_self i l) hs
    unfold loopExcept
    cases hbe : body s i with
    | error e => rw [hbe] at hb; exact hb
    | ok s1 =>
      rw [hbe] at hb
      exact ih (fun s j hj => h s j (List.mem_cons_of_mem i hj)) s1 hb

theorem loopExcept_append {ε σ : Type} (body : σ → Nat → Except ε σ) (l1 l2 : List Nat)
    (s : σ) :
    loopExcept body (l1 ++ l2) s
      = match loopExcept body l1 s with
        | .error e => .error e
        | .ok s1 => loopExcept body l2 s1 := by
  induction l1 generalizing s with
  | nil => rfl
  | cons i l ih =>
    simp only [List.cons_append, loopExcept]
    cases body s i with
    | error e => rfl
    | ok s1 => exact ih s1

/-! ## The failure threshold of the factorizations -/

theorem factorizeNewtonHessian_column_pivots {α : Type} [LinearOrderedField α]
    (sqrt : α → α) (opts : qpOptions_t α) (NI nx : Nat) (hessian : xn2x_matrix_t α)
    (hreg : opts.regType ≠ regType_t.QPDUNES_REG_SINGULAR_DIRECTIONS)
    (kk jj : Nat) (st : factor_state α)
    (hst : ∀ s ∈ st.pivots, opts.newtonHessDiagRegTolerance ≤ s) :
    pivotsOutcome opts.newtonHessDiagRegTolerance
      (factorizeNewtonHessian_column sqrt opts NI nx hessian kk jj st) := by
  unfold factorizeNewtonHessian_column pivotsOutcome outcome factorizeNewtonHessian_check
  simp only [hreg, false_and, if_false]
  by_cases h : factorizeNewtonHessian_pivotSum nx hessian st.cholHessian kk jj
      < opts.newtonHessDiagRegTolerance
  · simp only [if_pos h]
    exact ⟨trivial, _, by simp, h⟩
  · simp only [if_neg h]
    intro s hs
    rcases List.mem_append.1 hs with h1 | h1
    · exact hst s h1
    · rw [List.mem_singleton.1 h1]
      exact not_lt.1 h

theorem factorizeNewtonHessianBottomUp_column_pivots {α : Type} [LinearOrderedField α]
    (sqrt : α → α) (debug : Bool) (opts : qpOptions_t α) (NI nx : Nat)
    (hessian : xn2x_matrix_t α)
    (hreg : opts.regType ≠ regType_t.QPDUNES_REG_SINGULAR_DIRECTIONS)
    (kk jj : Nat) (st : factor_state α)
    (hst : ∀ s ∈ st.pivots, 100 * opts.equalityTolerance ≤ s) :
    pivotsOutcome (100 * opts.equalityTolerance)
      (factorizeNewtonHessianBottomUp_column sqrt debug opts NI nx hessian kk jj st) := by
  unfold factorizeNewtonHessianBottomUp_column pivotsOutcome outcome
    factorizeNewtonHessianBottomUp_check
  simp only [hreg, false_and, if_false]
  by_cases h : factorizeNewtonHessianBottomUp_pivotSum NI nx hessian st.cholHessian kk jj
      < 100 * opts.equalityTolerance
  · simp only [if_pos h]
    exact ⟨trivial, _, by simp, h⟩
  · simp only [if_neg h]
    intro s hs
    rcases List.mem_append.1 hs with h1 | h1
    · exact hst s h1
    · rw [List.mem_singleton.1 h1]
      exact not_lt.1 h

theorem pivotsOutcome_finish {α : Type} [LinearOrderedField α] (thr : α)
    (r : factor_step α) (h : pivotsOutcome thr r) :
    ((factor_finish r).1 = QPDUNES_ERR_DIVISION_BY_ZERO
        ↔ ∃ s ∈ (factor_finish r).2.pivots, s < thr)
    ∧ ((factor_finish r).1 = QPDUNES_OK ↔ ¬ ∃ s ∈ (factor_finish r).2.pivots, s < thr) := by
  cases r with
  | error e =>
    obtain ⟨h1, h2⟩ := h
    simp only [factor_finish]
    refine ⟨⟨fun _ => h2, fun _ => h1⟩, ⟨fun h3 => ?_, fun h3 => absurd h2 h3⟩⟩
    rw [h1] at h3
    exact absurd h3 (by decide)
  | ok st =>
    have h1 : ¬ ∃ s ∈ st.pivots, s < thr := by
      rintro ⟨s, hs, hlt⟩
      exact absurd (h s hs) (not_le.2 hlt)
    simp only [factor_finish]
    exact ⟨⟨fun h3 => absurd h3 (by decide), fun h3 => absurd h3 h1⟩,
      ⟨fun _ => h1, fun _ => trivial⟩⟩

/-- C10 (as amended). Pivot failure threshold: for every `regType` other than
`SingularDirections`, the forward factorization returns `ERR_DIVISION_BY_ZERO` iff
some computed pivot squared-sum is below `newtonHessDiagRegTolerance`, and
`QPDUNES_OK` otherwise; the reverse factorization (whatever the restart index)
returns `ERR_DIVISION_BY_ZERO` iff some computed pivot squared-sum is below
`1.e2 * equalityTolerance`, and `QPDUNES_OK` otherwise. -/
theorem factorize_failure_threshold {α : Type} [LinearOrderedField α] (sqrt : α → α)
    (debug : Bool) (opts : qpOptions_t α) (NI nx : Nat) (hessian : xn2x_matrix_t α)
    (cholHessian : xn2x_matrix_t α) (isReg : Bool) (lastActSetChangeIdx : Int)
    (hreg : opts.regType ≠ regType_t.QPDUNES_REG_SINGULAR_DIRECTIONS) :
    (((qpDUNES_factorizeNewtonHessian sqrt opts NI nx hessian
          ⟨cholHessian, isReg, []⟩).1 = QPDUNES_ERR_DIVISION_BY_ZERO
        ↔ ∃ s ∈ (qpDUNES_factorizeNewtonHessian sqrt opts NI nx hessian
            ⟨cholHessian, isReg, []⟩).2.pivots, s < opts.newtonHessDiagRegTolerance)
      ∧ ((qpDUNES_factorizeNewtonHessian sqrt opts NI nx hessian
          ⟨cholHessian, isReg, []⟩).1 = QPDUNES_OK
        ↔ ¬ ∃ s ∈ (qpDUNES_factorizeNewtonHessian sqrt opts NI nx hessian
            ⟨cholHessian, isReg, []⟩).2.pivots, s < opts.newtonHessDiagRegTolerance))
    ∧ (((qpDUNES_factorizeNewtonHessianBottomUp sqrt debug opts NI nx hessian
          lastActSetChangeIdx ⟨cholHessian, isReg, []⟩).1 = QPDUNES_ERR_DIVISION_BY_ZERO
        ↔ ∃ s ∈ (qpDUNES_factorizeNewtonHessianBottomUp sqrt debug opts NI nx hessian
            lastActSetChangeIdx ⟨cholHessian, isReg, []⟩).2.pivots,
              s < 100 * opts.equalityTolerance)
      ∧ ((qpDUNES_factorizeNewtonHessianBottomUp sqrt debug opts NI nx hessian
          lastActSetChangeIdx ⟨cholHessian, isReg, []⟩).1 = QPDUNES_OK
        ↔ ¬ ∃ s ∈ (qpDUNES_factorizeNewtonHessianBottomUp sqrt debug opts NI nx hessian
            lastActSetChangeIdx ⟨cholHessian, isReg, []⟩).2.pivots,
              s < 100 * opts.equalityTolerance)) := by
  constructor
  · apply pivotsOutcome_finish
    apply loopExcept_inv _ _ _ _ _ _ (by simp)
    intro st kk _ hst
    apply loopExcept_inv _ _ _ _ _ _ hst
    intro st jj _ hst
    exact factorizeNewtonHessian_column_pivots sqrt opts NI nx hessian hreg kk jj st hst
  · apply pivotsOutcome_finish
    apply loopExcept_inv _ _ _ _ _ _ (by simp)
    intro st kk _ hst
    apply loopExcept_inv _ _ _ _ _ _ hst
    intro st jj _ hst
    exact factorizeNewtonHessianBottomUp_column_pivots sqrt debug opts NI nx hessian hreg
      kk jj st hst

/-- Witness for C10: the 1 x 1 Hessian `(1/2)` with Levenberg-Marquardt
regularization. -/
theorem factorize_failure_threshold_witness :
    (exampleOptions ℝ regType_t.QPDUNES_REG_LEVENBERG_MARQUARDT
        nwtnHssnFacAlg_t.QPDUNES_NH_FAC_BAND_FORWARD).regType
      ≠ regType_t.QPDUNES_REG_SINGULAR_DIRECTIONS
    ∧ ((qpDUNES_factorizeNewtonHessian Real.sqrt
          (exampleOptions ℝ regType_t.QPDUNES_REG_LEVENBERG_MARQUARDT
            nwtnHssnFacAlg_t.QPDUNES_NH_FAC_BAND_FORWARD)
          1 1 (fun _ => 1 / 2) ⟨fun _ => 0, false, []⟩).1 = QPDUNES_ERR_DIVISION_BY_ZERO
        ↔ ∃ s ∈ (qpDUNES_factorizeNewtonHessian Real.sqrt
          (exampleOptions ℝ regType_t.QPDUNES_REG_LEVENBERG_MARQUARDT
            nwtnHssnFacAlg_t.QPDUNES_NH_FAC_BAND_FORWARD)
          1 1 (fun _ => 1 / 2) ⟨fun _ => 0, false, []⟩).2.pivots,
            s < (exampleOptions ℝ regType_t.QPDUNES_REG_LEVENBERG_MARQUARDT
              nwtnHssnFacAlg_t.QPDUNES_NH_FAC_BAND_FORWARD).newtonHessDiagRegTolerance) :=
  ⟨by decide,
    (factorize_failure_threshold Real.sqrt false
      (exampleOptions ℝ regType_t.QPDUNES_REG_LEVENBERG_MARQUARDT
        nwtnHssnFacAlg_t.QPDUNES_NH_FAC_BAND_FORWARD)
      1 1 (fun _ => 1 / 2) (fun _ => 0) false 0 (by decide)).1.1⟩

/-- Counterexample to C10 as stated: with Levenberg-Marquardt regularization,
`newtonHessDiagRegTolerance = 1` and `equalityTolerance = 1/1000`, the reverse
factorization of the 1 x 1 Hessian `(1/2)` computes the pivot squared-sum `1/2`,
which is below `newtonHessDiagRegTolerance`, and returns `QPDUNES_OK`. -/
theorem factorizeBottomUp_threshold_counterexample :
    (qpDUNES_factorizeNewtonHessianBottomUp Real.sqrt false
        (exampleOptions ℝ regType_t.QPDUNES_REG_LEVENBERG_MARQUARDT
          nwtnHssnFacAlg_t.QPDUNES_NH_FAC_BAND_REVERSE)
        1 1 (fun _ => 1 / 2) 0 ⟨fun _ => 0, false, []⟩).1 = QPDUNES_OK
    ∧ (qpDUNES_factorizeNewtonHessianBottomUp Real.sqrt false
        (exampleOptions ℝ regType_t.QPDUNES_REG_LEVENBERG_MARQUARDT
          nwtnHssnFacAlg_t.QPDUNES_NH_FAC_BAND_REVERSE)
        1 1 (fun _ => 1 / 2) 0 ⟨fun _ => 0, false, []⟩).2.pivots = [1 / 2]
    ∧ (1 / 2 : ℝ) < (exampleOptions ℝ regType_t.QPDUNES_REG_LEVENBERG_MARQUARDT
          nwtnHssnFacAlg_t.QPDUNES_NH_FAC_BAND_REVERSE).newtonHessDiagRegTolerance := by
  have h : ¬ ((1 : ℝ) / 2 < 100 * (1 / 1000)) := by norm_num
  have h2 : ¬ ((2 : ℝ)⁻¹ < 100 * (1000)⁻¹) := by norm_num
  refine ⟨?_, ?_, ?_⟩
  · simp [qpDUNES_factorizeNewtonHessianBottomUp, blockIdxStart, loopExcept,
      factorizeNewtonHessianBottomUp_column, factorizeNewtonHessianBottomUp_pivotSum,
      factorizeNewtonHessianBottomUp_check, factor_finish, subLoop, exampleOptions, h, h2]
  · simp [qpDUNES_factorizeNewtonHessianBottomUp, blockIdxStart, loopExcept,
      factorizeNewtonHessianBottomUp_column, factorizeNewtonHessianBottomUp_pivotSum,
      factorizeNewtonHessianBottomUp_check, factor_finish, subLoop, exampleOptions, h, h2]
  · norm_num [exampleOptions]

/-! ## The driver: what happens when a phase reports a failure -/

/-- C9 (as amended). With `regType = GradientStep`, when the first factorization pass
of an iteration fails at a pivot (returns `ERR_DIVISION_BY_ZERO`) or leaves a factor
diagonal entry below `newtonHessDiagRegTolerance`, `qpDUNES_factorNewtonSystem` returns
`ERR_DIVISION_BY_ZERO` with `isHessianRegularized = true`, and `qpDUNES_solve` returns
that error in this iteration: the state it returns is the state after the
factorization (logged when logging is on), so neither the stage solve nor the line
search is run and `deltaLambda` is not written. -/
theorem solve_gradientStep_regularization_returns {α ε : Type} [LinearOrderedField α]
    (env : solve_env α ε) (fuel : Nat) (itCntr : Int) (s s1 : solve_state α ε)
    (statusFlag : return_t) (st1 : factor_state α)
    (hNewton : ¬ (itCntr > 1 ∧ itCntr - 1 ≤ env.nbrInitialGradientSteps))
    (hsetup : env.setupNewtonSystem { s with numIter := itCntr, isHessianRegularized := false }
      = (QPDUNES_OK, s1))
    (hreg : env.opts.regType = regType_t.QPDUNES_REG_GRADIENT_STEP)
    (hpass : factorNewtonSystem_pass env.sqrt env.debug env.opts env.NI env.nx s1.hessian
      s1.lastActSetChangeIdx ⟨s1.cholHessian, s1.isHessianRegularized, []⟩
        = some (statusFlag, st1))
    (htrig : statusFlag = QPDUNES_ERR_DIVISION_BY_ZERO
      ∨ factorNewtonSystem_minDiagElem env.opts env.NI env.nx statusFlag st1.cholHessian
          < env.opts.newtonHessDiagRegTolerance) :
    (qpDUNES_factorNewtonSystem env.sqrt env.debug env.opts env.NI env.nx s1.hessian
        ⟨s1.cholHessian, s1.isHessianRegularized, []⟩ s1.lastActSetChangeIdx).status
      = QPDUNES_ERR_DIVISION_BY_ZERO
    ∧ (qpDUNES_factorNewtonSystem env.sqrt env.debug env.opts env.NI env.nx s1.hessian
        ⟨s1.cholHessian, s1.isHessianRegularized, []⟩
        s1.lastActSetChangeIdx).fac.isHessianRegularized = true
    ∧ solve_loop env (fuel + 1) itCntr s
      = (QPDUNES_ERR_DIVISION_BY_ZERO,
          solve_logIfEnabled env
            { s1 with cholHessian := st1.cholHessian, isHessianRegularized := true }) := by
  have hf : qpDUNES_factorNewtonSystem env.sqrt env.debug env.opts env.NI env.nx s1.hessian
        ⟨s1.cholHessian, s1.isHessianRegularized, []⟩ s1.lastActSetChangeIdx
      = { status := QPDUNES_ERR_DIVISION_BY_ZERO, hessian := s1.hessian,
          fac := { st1 with isHessianRegularized := true } } := by
    unfold qpDUNES_factorNewtonSystem
    rw [hpass]
    simp only [if_pos htrig, hreg]
  refine ⟨by rw [hf], by rw [hf], ?_⟩
  unfold solve_loop solve_iteration
  simp only [if_neg hNewton]
  unfold solve_newtonDirection
  simp only [hsetup, hf]

/-- Witness for C9 (as amended): the example solve with `regType = GradientStep` and the
1 x 1 Newton Hessian `(0)`, whose pivot `0` is below `newtonHessDiagRegTolerance = 1`. -/
theorem solve_gradientStep_regularization_returns_witness :
    solve_loop (exampleEnv ℝ Real.sqrt regType_t.QPDUNES_REG_GRADIENT_STEP QPDUNES_OK 5)
        (4 + 1) 1 (exampleState ℝ 0)
      = (QPDUNES_ERR_DIVISION_BY_ZERO,
          solve_logIfEnabled
            (exampleEnv ℝ Real.sqrt regType_t.QPDUNES_REG_GRADIENT_STEP QPDUNES_OK 5)
            { ({ exampleState ℝ 0 with numIter := 1, isHessianRegularized := false } :
                solve_state ℝ Nat) with
              cholHessian := (fun _ => 0), isHessianRegularized := true }) :=
  (solve_gradientStep_regularization_returns
    (exampleEnv ℝ Real.sqrt regType_t.QPDUNES_REG_GRADIENT_STEP QPDUNES_OK 5) 4 1
    (exampleState ℝ 0)
    { exampleState ℝ 0 with numIter := 1, isHessianRegularized := false }
    QPDUNES_ERR_DIVISION_BY_ZERO ⟨fun _ => 0, false, [0]⟩
    (by decide) rfl rfl
    (by
      simp [factorNewtonSystem_pass, exampleEnv, exampleOptions, exampleState,
        qpDUNES_factorizeNewtonHessian, loopExcept, factorizeNewtonHessian_column,
        factorizeNewtonHessian_pivotSum, factorizeNewtonHessian_check, factor_finish,
        subLoop])
    (Or.inl rfl)).2.2

/-- Counterexample to C9 as stated: the example solve with `regType = GradientStep`,
`maxIter = 5`, gradient `(2)` and the 1 x 1 Newton Hessian `(0)`. The pivot `0` is
below `newtonHessDiagRegTolerance = 1`; `qpDUNES_solve` returns
`ERR_DIVISION_BY_ZERO`, the line search has not been called (`ext = 0`) and
`deltaLambda = (0)` is not the gradient. -/
theorem solve_gradientStep_counterexample :
    (qpDUNES_solve (exampleEnv ℝ Real.sqrt regType_t.QPDUNES_REG_GRADIENT_STEP QPDUNES_OK 5)
        (exampleState ℝ 0)).1 = QPDUNES_ERR_DIVISION_BY_ZERO
    ∧ (qpDUNES_solve (exampleEnv ℝ Real.sqrt regType_t.QPDUNES_REG_GRADIENT_STEP QPDUNES_OK 5)
        (exampleState ℝ 0)).2.ext = 0
    ∧ (qpDUNES_solve (exampleEnv ℝ Real.sqrt regType_t.QPDUNES_REG_GRADIENT_STEP QPDUNES_OK 5)
        (exampleState ℝ 0)).2.isHessianRegularized = true
    ∧ (qpDUNES_solve (exampleEnv ℝ Real.sqrt regType_t.QPDUNES_REG_GRADIENT_STEP QPDUNES_OK 5)
        (exampleState ℝ 0)).2.deltaLambda 0 = 0
    ∧ (qpDUNES_solve (exampleEnv ℝ Real.sqrt regType_t.QPDUNES_REG_GRADIENT_STEP QPDUNES_OK 5)
        (exampleState ℝ 0)).2.gradient 0 = 2 := by
  have h : qpDUNES_solve
      (exampleEnv ℝ Real.sqrt regType_t.QPDUNES_REG_GRADIENT_STEP QPDUNES_OK 5)
      (exampleState ℝ 0)
      = (QPDUNES_ERR_DIVISION_BY_ZERO,
          { exampleState ℝ 0 with
              isHessianRegularized := true, lastActSetChangeIdx := 1, numIter := 1 }) := by
    simp [qpDUNES_solve, solve_loop, solve_iteration, solve_newtonDirection,
      solve_logIfEnabled, qpDUNES_factorNewtonSystem, factorNewtonSystem_pass,
      factorNewtonSystem_minDiagElem, exampleEnv, exampleOptions, exampleState,
      qpDUNES_factorizeNewtonHessian, loopExcept, factorizeNewtonHessian_column,
      factorizeNewtonHessian_pivotSum, factorizeNewtonHessian_check, factor_finish,
      subLoop, List.range_succ]
  rw [h]
  exact ⟨rfl, rfl, rfl, rfl, rfl⟩

/-- C8 (the code at the failing input). In the example solve with `maxIter = 1` every
stage QP solve of iteration 1 fails: `qpDUNES_solveAllLocalQPs` reports
`ERR_STAGE_QP_INFEASIBLE`. `qpDUNES_solve` drops that status, runs the line search
(`ext = 1`) and returns `ERR_ITERATION_LIMIT_REACHED`. -/
theorem solve_stage_failure_not_propagated :
    (qpDUNES_solveAllLocalQPs 1 (fun s => s)
        (fun _ s => (QPDUNES_ERR_STAGE_QP_INFEASIBLE, s)) (exampleState ℝ 1)).1
      = QPDUNES_ERR_STAGE_QP_INFEASIBLE
    ∧ (qpDUNES_solve
        (exampleEnv ℝ Real.sqrt regType_t.QPDUNES_REG_LEVENBERG_MARQUARDT
          QPDUNES_ERR_STAGE_QP_INFEASIBLE 1)
        (exampleState ℝ 1)).1 = QPDUNES_ERR_ITERATION_LIMIT_REACHED
    ∧ (qpDUNES_solve
        (exampleEnv ℝ Real.sqrt regType_t.QPDUNES_REG_LEVENBERG_MARQUARDT
          QPDUNES_ERR_STAGE_QP_INFEASIBLE 1)
        (exampleState ℝ 1)).2.ext = 1 := by
  refine ⟨?_, ?_, ?_⟩
  · simp [qpDUNES_solveAllLocalQPs, List.range_succ]
  · simp [qpDUNES_solve, solve_loop, solve_iteration, solve_newtonDirection,
      solve_logIfEnabled, qpDUNES_factorNewtonSystem, factorNewtonSystem_pass,
      factorNewtonSystem_minDiagElem, exampleEnv, exampleOptions, exampleState,
      qpDUNES_factorizeNewtonHessian, loopExcept, factorizeNewtonHessian_column,
      factorizeNewtonHessian_pivotSum, factorizeNewtonHessian_check, factor_finish,
      factorizeNewtonHessian_diagBlock, factorizeNewtonHessian_subBlock,
      qpDUNES_solveNewtonEquation, backsolve_lowerRow, backsolve_upperRow,
      backsolve_finish, qpDUNES_solveAllLocalQPs, subLoop, List.range_succ]
  · simp [qpDUNES_solve, solve_loop, solve_iteration, solve_newtonDirection,
      solve_logIfEnabled, qpDUNES_factorNewtonSystem, factorNewtonSystem_pass,
      factorNewtonSystem_minDiagElem, exampleEnv, exampleOptions, exampleState,
      qpDUNES_factorizeNewtonHessian, loopExcept, factorizeNewtonHessian_column,
      factorizeNewtonHessian_pivotSum, factorizeNewtonHessian_check, factor_finish,
      factorizeNewtonHessian_diagBlock, factorizeNewtonHessian_subBlock,
      qpDUNES_solveNewtonEquation, backsolve_lowerRow, backsolve_upperRow,
      backsolve_finish, qpDUNES_solveAllLocalQPs, subLoop, List.range_succ]

/-! ## The forward factorization, column by column -/

theorem idx_div (nx k i : Nat) (hi : i < nx) : (k * nx + i) / nx = k := by
  have hpos : 0 < nx := by omega
  rw [Nat.add_comm, Nat.add_mul_div_right _ _ hpos, Nat.div_eq_of_lt hi, Nat.zero_add]

theorem idx_mod (nx k i : Nat) (hi : i < nx) : (k * nx + i) % nx = i := by
  rw [Nat.add_comm, Nat.add_mul_mod_self_right, Nat.mod_eq_of_lt hi]

theorem lowerFactor_eval {α : Type} [LinearOrderedField α] (nx : Nat) (L : xn2x_matrix_t α)
    (k i k1 l : Nat) (hi : i < nx) (hl : l < nx) :
    lowerFactor nx L (k * nx + i) (k1 * nx + l)
      = if k1 = k then (if l ≤ i then L (k, 0, i, l) else 0)
        else if k1 + 1 = k then L (k, -1, i, l) else 0 := by
  unfold lowerFactor
  rw [idx_div nx k i hi, idx_mod nx k i hi, idx_div nx k1 l hl, idx_mod nx k1 l hl]

theorem fullHessian_eval {α : Type} [LinearOrderedField α] (nx : Nat) (H : xn2x_matrix_t α)
    (k i k1 l : Nat) (hi : i < nx) (hl : l < nx) :
    fullHessian nx H (k * nx + i) (k1 * nx + l)
      = if k1 = k then H (k, 0, i, l)
        else if k1 + 1 = k then H (k, -1, i, l)
        else if k + 1 = k1 then H (k1, -1, l, i) else 0 := by
  unfold fullHessian
  rw [idx_div nx k i hi, idx_mod nx k i hi, idx_div nx k1 l hl, idx_mod nx k1 l hl]

/-- The loop over the rest of the diagonal block: the cells `(kk,0,ii,jj)` with
`jj < ii < nx` get the Cholesky update computed from the state before the loop. -/
theorem factorizeNewtonHessian_diagBlock_spec {α : Type} [LinearOrderedField α] (nx : Nat)
    (H : xn2x_matrix_t α) (kk jj : Nat) (L : xn2x_matrix_t α) :
    (∀ x, (∀ ii, jj < ii → ii < nx → x ≠ (kk, (0 : Int), ii, jj)) →
        factorizeNewtonHessian_diagBlock nx H kk jj L x = L x)
    ∧ (∀ ii, jj < ii → ii < nx →
        factorizeNewtonHessian_diagBlock nx H kk jj L (kk, 0, ii, jj)
          = (H (kk, 0, ii, jj)
              - ∑ ll in Finset.range jj, L (kk, 0, ii, ll) * L (kk, 0, jj, ll)
              - (if kk > 0 then
                  ∑ ll in Finset.range nx, L (kk, -1, ii, ll) * L (kk, -1, jj, ll)
                 else 0)) / L (kk, 0, jj, jj)) := by
  have hmem : ∀ a, a ∈ List.range' (jj + 1) (nx - (jj + 1)) ↔ jj < a ∧ a < nx := by
    intro a
    rw [List.mem_range'_1]
    omega
  obtain ⟨h1, h2⟩ := foldl_update_spec
    (fun ii => ((kk, (0 : Int), ii, jj) : Nat × Int × Nat × Nat))
    (fun (M : xn2x_matrix_t α) ii =>
      (if kk > 0 then
          subLoop (List.range nx) (fun ll => M (kk, -1, ii, ll) * M (kk, -1, jj, ll))
            (subLoop (List.range jj) (fun ll => M (kk, 0, ii, ll) * M (kk, 0, jj, ll))
              (H (kk, 0, ii, jj)))
        else
          subLoop (List.range jj) (fun ll => M (kk, 0, ii, ll) * M (kk, 0, jj, ll))
            (H (kk, 0, ii, jj))) / M (kk, 0, jj, jj))
    (List.range' (jj + 1) (nx - (jj + 1))) (List.nodup_range' _ _)
    (by
      intro a _ b _ hab
      simpa using hab)
    (by
      intro M M1 hM ii
      have e1 : ∀ i l, l < jj → M (kk, 0, i, l) = M1 (kk, 0, i, l) := by
        intro i l hl
        apply hM
        intro a _ h
        simp only [Prod.mk.injEq] at h
        omega
      have e2 : ∀ i l, M (kk, -1, i, l) = M1 (kk, -1, i, l) := by
        intro i l
        apply hM
        intro a _ h
        simp only [Prod.mk.injEq] at h
        omega
      have e3 : M (kk, 0, jj, jj) = M1 (kk, 0, jj, jj) := by
        apply hM
        intro a ha h
        simp only [Prod.mk.injEq] at h
        have := (hmem a).1 ha
        omega
      have s1 : subLoop (List.range jj) (fun ll => M (kk, 0, ii, ll) * M (kk, 0, jj, ll))
            (H (kk, 0, ii, jj))
          = subLoop (List.range jj) (fun ll => M1 (kk, 0, ii, ll) * M1 (kk, 0, jj, ll))
            (H (kk, 0, ii, jj)) := by
        apply subLoop_congr
        intro ll hll
        have : ll < jj := List.mem_range.1 hll
        simp only [e1 _ ll this]
      simp only [e2, e3, s1])
    L
  constructor
  · intro x hx
    exact h1 x (fun a ha => hx a ((hmem a).1 ha).1 ((hmem a).1 ha).2)
  · intro ii h3 h4
    have := h2 ii ((hmem ii).2 ⟨h3, h4⟩)
    unfold factorizeNewtonHessian_diagBlock
    rw [this]
    by_cases hk : kk > 0
    · simp only [if_pos hk, subLoop_range]
    · simp only [if_neg hk, subLoop_range, sub_zero]

/-- The loop over the following row's sub-diagonal block: the cells `(kk+1,-1,ii,jj)`
with `ii < nx` get the Cholesky update computed from the state before the loop. -/
theorem factorizeNewtonHessian_subBlock_spec {α : Type} [LinearOrderedField α] (NI nx : Nat)
    (H : xn2x_matrix_t α) (kk jj : Nat) (L : xn2x_matrix_t α) :
    (∀ x, (∀ ii, ii < nx → x ≠ (kk + 1, (-1 : Int), ii, jj)) →
        factorizeNewtonHessian_subBlock NI nx H kk jj L x = L x)
    ∧ (kk + 1 < NI → ∀ ii, ii < nx →
        factorizeNewtonHessian_subBlock NI nx H kk jj L (kk + 1, -1, ii, jj)
          = (H (kk + 1, -1, ii, jj)
              - ∑ ll in Finset.range jj, L (kk + 1, -1, ii, ll) * L (kk, 0, jj, ll))
            / L (kk, 0, jj, jj)) := by
  obtain ⟨h1, h2⟩ := foldl_update_spec
    (fun ii => ((kk + 1, (-1 : Int), ii, jj) : Nat × Int × Nat × Nat))
    (fun (M : xn2x_matrix_t α) ii =>
      subLoop (List.range jj) (fun ll => M (kk + 1, -1, ii, ll) * M (kk, 0, jj, ll))
        (H (kk + 1, -1, ii, jj)) / M (kk, 0, jj, jj))
    (List.range nx) (List.nodup_range nx)
    (by
      intro a _ b _ hab
      simpa using hab)
    (by
      intro M M1 hM ii
      have e1 : ∀ i l, l < jj → M (kk + 1, -1, i, l) = M1 (kk + 1, -1, i, l) := by
        intro i l hl
        apply hM
        intro a _ h
        simp only [Prod.mk.injEq] at h
        omega
      have e2 : ∀ i l, M (kk, 0, i, l) = M1 (kk, 0, i, l) := by
        intro i l
        apply hM
        intro a _ h
        simp only [Prod.mk.injEq] at h
        omega
      have s1 : subLoop (List.range jj)
            (fun ll => M (kk + 1, -1, ii, ll) * M (kk, 0, jj, ll)) (H (kk + 1, -1, ii, jj))
          = subLoop (List.range jj)
            (fun ll => M1 (kk + 1, -1, ii, ll) * M1 (kk, 0, jj, ll))
              (H (kk + 1, -1, ii, jj)) := by
        apply subLoop_congr
        intro ll hll
        have : ll < jj := List.mem_range.1 hll
        simp only [e1 _ ll this, e2]
      beta_reduce
      rw [s1, e2 jj jj])
    L
  unfold factorizeNewtonHessian_subBlock
  constructor
  · intro x hx
    by_cases hk : (kk : Int) < (NI : Int) - 1
    · rw [if_pos hk]
      exact h1 x (fun a ha => hx a (List.mem_range.1 ha))
    · rw [if_neg hk]
  · intro hk ii hii
    have hk2 : (kk : Int) < (NI : Int) - 1 := by omega
    rw [if_pos hk2, h2 ii (List.mem_range.2 hii), subLoop_range]

/-! ## Sums over the rows and columns of the dense readings, block by block -/

theorem sum_blocks_zero {α : Type} [LinearOrderedField α] (nx k : Nat) (G : Nat → α)
    (h : ∀ k1 l, k1 < k → l < nx → G (k1 * nx + l) = 0) :
    ∑ t in Finset.range (k * nx), G t = 0 := by
  apply Finset.sum_eq_zero
  intro t ht
  have ht2 : t < k * nx := Finset.mem_range.1 ht
  have hpos : 0 < nx := by
    rcases Nat.eq_zero_or_pos nx with h0 | h0
    · rw [h0] at ht2; omega
    · exact h0
  have h1 : t / nx < k := Nat.div_lt_of_lt_mul (by rw [Nat.mul_comm]; exact ht2)
  have h2 : t % nx < nx := Nat.mod_lt t hpos
  have h3 : t / nx * nx + t % nx = t := by rw [Nat.mul_comm]; exact Nat.div_add_mod t nx
  rw [← h3]
  exact h (t / nx) (t % nx) h1 h2

/-- A sum over the columns before column `kk*nx + jj` of a quantity that vanishes on
the block columns before `kk - 1`. -/
theorem sum_before_column {α : Type} [LinearOrderedField α] (nx kk jj : Nat) (G : Nat → α)
    (h : ∀ k1 l, k1 + 1 < kk → l < nx → G (k1 * nx + l) = 0) :
    ∑ t in Finset.range (kk * nx + jj), G t
      = (if kk > 0 then ∑ l in Finset.range nx, G ((kk - 1) * nx + l) else 0)
        + ∑ l in Finset.range jj, G (kk * nx + l) := by
  rw [Finset.sum_range_add]
  congr 1
  rcases Nat.eq_zero_or_pos kk with h0 | h0
  · subst h0; simp
  · rw [if_pos h0]
    obtain ⟨k, rfl⟩ : ∃ k, kk = k + 1 := ⟨kk - 1, by omega⟩
    rw [Nat.add_sub_cancel, Nat.add_mul, Nat.one_mul, Finset.sum_range_add,
      sum_blocks_zero nx k G (fun k1 l hk hl => h k1 l (by omega) hl), zero_add]

/-! ## The forward factorization in the dense reading -/

theorem idx_eq_of_div_mod (nx t k j : Nat) (hq : t / nx = k) (hr : t % nx = j) :
    t = k * nx + j := by
  rw [← hq, ← hr, Nat.mul_comm]
  exact (Nat.div_add_mod t nx).symm

/-- A column step of the forward factorization leaves the columns before it alone. -/
theorem lowerFactor_frame_forward {α : Type} [LinearOrderedField α] (nx : Nat)
    (L L1 : xn2x_matrix_t α) (kk jj : Nat)
    (hframe : ∀ x, (∀ ii, x ≠ (kk, (0 : Int), ii, jj)) →
      (∀ ii, x ≠ (kk + 1, (-1 : Int), ii, jj)) → L1 x = L x)
    (r t : Nat) (ht : t < kk * nx + jj) :
    lowerFactor nx L1 r t = lowerFactor nx L r t := by
  unfold lowerFactor
  by_cases h1 : t / nx = r / nx
  · simp only [if_pos h1]
    by_cases h2 : t % nx ≤ r % nx
    · simp only [if_pos h2]
      apply hframe
      · intro ii h
        simp only [Prod.mk.injEq] at h
        have := idx_eq_of_div_mod nx t kk jj (by omega) (by omega)
        omega
      · intro ii h
        simp only [Prod.mk.injEq] at h
        omega
    · simp only [if_neg h2]
  · simp only [if_neg h1]
    by_cases h2 : t / nx + 1 = r / nx
    · simp only [if_pos h2]
      apply hframe
      · intro ii h
        simp only [Prod.mk.injEq] at h
        omega
      · intro ii h
        simp only [Prod.mk.injEq] at h
        have := idx_eq_of_div_mod nx t kk jj (by omega) (by omega)
        omega
    · simp only [if_neg h2]

theorem lowerFactor_diag {α : Type} [LinearOrderedField α] (nx : Nat) (L : xn2x_matrix_t α)
    (k i l : Nat) (hi : i < nx) (hl : l ≤ i) :
    lowerFactor nx L (k * nx + i) (k * nx + l) = L (k, 0, i, l) := by
  rw [lowerFactor_eval nx L k i k l hi (by omega), if_pos rfl, if_pos hl]

theorem lowerFactor_sub {α : Type} [LinearOrderedField α] (nx : Nat) (L : xn2x_matrix_t α)
    (k i l : Nat) (hi : i < nx) (hl : l < nx) :
    lowerFactor nx L ((k + 1) * nx + i) (k * nx + l) = L (k + 1, -1, i, l) := by
  rw [lowerFactor_eval nx L (k + 1) i k l hi hl, if_neg (by omega), if_pos rfl]

theorem lowerFactor_far {α : Type} [LinearOrderedField α] (nx : Nat) (L : xn2x_matrix_t α)
    (k i k1 l : Nat) (hi : i < nx) (hl : l < nx) (hk : k1 + 1 < k) :
    lowerFactor nx L (k * nx + i) (k1 * nx + l) = 0 := by
  rw [lowerFactor_eval nx L k i k1 l hi hl, if_neg (by omega), if_neg (by omega)]

theorem lowerFactor_upper {α : Type} [LinearOrderedField α] (nx : Nat) (L : xn2x_matrix_t α)
    (r m : Nat) (h : r < m) : lowerFactor nx L r m = 0 := by
  unfold lowerFactor
  have h1 : r / nx ≤ m / nx := Nat.div_le_div_right (Nat.le_of_lt h)
  by_cases h2 : m / nx = r / nx
  · rw [if_pos h2]
    have h3 : ¬ (m % nx ≤ r % nx) := by
      intro h4
      have e1 := Nat.div_add_mod r nx
      have e2 := Nat.div_add_mod m nx
      rw [h2] at e2
      omega
    rw [if_neg h3]
  · rw [if_neg h2, if_neg (by omega)]

theorem fullHessian_diag {α : Type} [LinearOrderedField α] (nx : Nat) (H : xn2x_matrix_t α)
    (k i l : Nat) (hi : i < nx) (hl : l < nx) :
    fullHessian nx H (k * nx + i) (k * nx + l) = H (k, 0, i, l) := by
  rw [fullHessian_eval nx H k i k l hi hl, if_pos rfl]

theorem fullHessian_sub {α : Type} [LinearOrderedField α] (nx : Nat) (H : xn2x_matrix_t α)
    (k i l : Nat) (hi : i < nx) (hl : l < nx) :
    fullHessian nx H ((k + 1) * nx + i) (k * nx + l) = H (k + 1, -1, i, l) := by
  rw [fullHessian_eval nx H (k + 1) i k l hi hl, if_neg (by omega), if_pos rfl]

theorem fullHessian_far {α : Type} [LinearOrderedField α] (nx : Nat) (H : xn2x_matrix_t α)
    (k i k1 l : Nat) (hi : i < nx) (hl : l < nx) (hk : k1 + 1 < k) :
    fullHessian nx H (k * nx + i) (k1 * nx + l) = 0 := by
  rw [fullHessian_eval nx H k i k1 l hi hl, if_neg (by omega), if_neg (by omega),
    if_neg (by omega)]

/-- The sum, over the columns before column `kk*nx + jj`, of the products of row `r` of
the factor with row `kk*nx + jj`, in terms of the stored blocks: row `kk*nx + ii` of
the same block row. -/
theorem rowProduct_sameBlock {α : Type} [LinearOrderedField α] (nx : Nat)
    (L : xn2x_matrix_t α) (kk ii jj : Nat) (hii : ii < nx) (hjj : jj ≤ ii) :
    ∑ t in Finset.range (kk * nx + jj),
        lowerFactor nx L (kk * nx + ii) t * lowerFactor nx L (kk * nx + jj) t
      = ∑ ll in Finset.range jj, L (kk, 0, ii, ll) * L (kk, 0, jj, ll)
        + (if kk > 0 then ∑ ll in Finset.range nx, L (kk, -1, ii, ll) * L (kk, -1, jj, ll)
           else 0) := by
  have hjj2 : jj < nx := by omega
  rw [sum_before_column nx kk jj]
  · rw [add_comm]
    congr 1
    · apply Finset.sum_congr rfl
      intro l hl
      have hl2 : l < jj := Finset.mem_range.1 hl
      rw [lowerFactor_diag nx L kk ii l hii (by omega),
        lowerFactor_diag nx L kk jj l hjj2 (by omega)]
    · by_cases hk : kk > 0
      · simp only [if_pos hk]
        obtain ⟨k, rfl⟩ : ∃ k, kk = k + 1 := ⟨kk - 1, by omega⟩
        apply Finset.sum_congr rfl
        intro l hl
        have hl2 : l < nx := Finset.mem_range.1 hl
        rw [Nat.add_sub_cancel, lowerFactor_sub nx L k ii l hii hl2,
          lowerFactor_sub nx L k jj l hjj2 hl2]
      · simp only [if_neg hk]
  · intro k1 l hk hl
    rw [lowerFactor_far nx L kk jj k1 l hjj2 hl hk, mul_zero]

/-- The same sum for row `(kk+1)*nx + ii` of the next block row. -/
theorem rowProduct_nextBlock {α : Type} [LinearOrderedField α] (nx : Nat)
    (L : xn2x_matrix_t α) (kk ii jj : Nat) (hii : ii < nx) (hjj : jj < nx) :
    ∑ t in Finset.range (kk * nx + jj),
        lowerFactor nx L ((kk + 1) * nx + ii) t * lowerFactor nx L (kk * nx + jj) t
      = ∑ ll in Finset.range jj, L (kk + 1, -1, ii, ll) * L (kk, 0, jj, ll) := by
  rw [sum_before_column nx kk jj]
  · have h0 : (if kk > 0 then ∑ l in Finset.range nx,
          lowerFactor nx L ((kk + 1) * nx + ii) ((kk - 1) * nx + l)
            * lowerFactor nx L (kk * nx + jj) ((kk - 1) * nx + l) else 0) = 0 := by
      by_cases hk : kk > 0
      · rw [if_pos hk]
        apply Finset.sum_eq_zero
        intro l hl
        have hl2 : l < nx := Finset.mem_range.1 hl
        rw [lowerFactor_far nx L (kk + 1) ii (kk - 1) l hii hl2 (by omega), zero_mul]
      · rw [if_neg hk]
    rw [h0, zero_add]
    apply Finset.sum_congr rfl
    intro l hl
    have hl2 : l < jj := Finset.mem_range.1 hl
    rw [lowerFactor_sub nx L kk ii l hii (by omega),
      lowerFactor_diag nx L kk jj l hjj (by omega)]
  · intro k1 l hk hl
    rw [lowerFactor_far nx L kk jj k1 l hjj hl hk, mul_zero]

/-- The same sum for a row `k1*nx + ii` two or more block rows below: it vanishes. -/
theorem rowProduct_farBlock {α : Type} [LinearOrderedField α] (nx : Nat)
    (L : xn2x_matrix_t α) (kk k1 ii jj : Nat) (hii : ii < nx) (hjj : jj < nx)
    (hk1 : kk + 1 < k1) :
    ∑ t in Finset.range (kk * nx + jj),
        lowerFactor nx L (k1 * nx + ii) t * lowerFactor nx L (kk * nx + jj) t = 0 := by
  rw [sum_before_column nx kk jj]
  · have h0 : (if kk > 0 then ∑ l in Finset.range nx,
          lowerFactor nx L (k1 * nx + ii) ((kk - 1) * nx + l)
            * lowerFactor nx L (kk * nx + jj) ((kk - 1) * nx + l) else 0) = 0 := by
      by_cases hk : kk > 0
      · rw [if_pos hk]
        apply Finset.sum_eq_zero
        intro l hl
        have hl2 : l < nx := Finset.mem_range.1 hl
        rw [lowerFactor_far nx L k1 ii (kk - 1) l hii hl2 (by omega), zero_mul]
      · rw [if_neg hk]
    rw [h0, zero_add]
    apply Finset.sum_eq_zero
    intro l hl
    have hl2 : l < jj := Finset.mem_range.1 hl
    rw [lowerFactor_far nx L k1 ii kk l hii (by omega) hk1, zero_mul]
  · intro k2 l hk hl
    rw [lowerFactor_far nx L kk jj k2 l hjj hl hk, mul_zero]

/-- The pivot squared-sum of the forward factorization in the dense reading:
`H[c][c]` minus the squares of row `c` of the factor before column `c`. -/
theorem factorizeNewtonHessian_pivotSum_dense {α : Type} [LinearOrderedField α] (nx : Nat)
    (H L : xn2x_matrix_t α) (kk jj : Nat) (hjj : jj < nx) :
    factorizeNewtonHessian_pivotSum nx H L kk jj
      = fullHessian nx H (kk * nx + jj) (kk * nx + jj)
        - ∑ t in Finset.range (kk * nx + jj),
            lowerFactor nx L (kk * nx + jj) t * lowerFactor nx L (kk * nx + jj) t := by
  rw [rowProduct_sameBlock nx L kk jj jj hjj le_rfl, fullHessian_diag nx H kk jj jj hjj hjj]
  unfold factorizeNewtonHessian_pivotSum
  by_cases hk : kk > 0
  · simp only [if_pos hk, subLoop_range]
    ring
  · simp only [if_neg hk, subLoop_range]
    ring

theorem block_le_of_idx_le (nx kk jj k1 i : Nat) (hi : i < nx)
    (h : kk * nx + jj ≤ k1 * nx + i) : kk ≤ k1 := by
  by_contra hc
  have h1 : (k1 + 1) * nx ≤ kk * nx := Nat.mul_le_mul_right nx (by omega)
  have h2 : (k1 + 1) * nx = k1 * nx + nx := by ring
  omega

theorem block_lt_of_idx_lt (nx NI k1 i : Nat) (h : k1 * nx + i < NI * nx) : k1 < NI := by
  by_contra hc
  have h1 : NI * nx ≤ k1 * nx := Nat.mul_le_mul_right nx (by omega)
  omega

theorem exists_block_idx (nx r : Nat) (hpos : 0 < nx) :
    ∃ k1 i, i < nx ∧ r = k1 * nx + i :=
  ⟨r / nx, r % nx, Nat.mod_lt r hpos, idx_eq_of_div_mod nx r _ _ rfl rfl⟩

theorem sqrt_pos_of_pos {α : Type} [LinearOrderedField α] (sqrt : α → α)
    (hsqrt : SqrtSpec sqrt) (s : α) (hs : 0 < s) : 0 < sqrt s := by
  rcases lt_or_eq_of_le (hsqrt.nonneg s) with h | h
  · exact h
  · have := hsqrt.sq s (le_of_lt hs)
    rw [← h, mul_zero] at this
    exact absurd this (ne_of_lt hs)

/-- A column step of the forward factorization extends the Cholesky columns: if the
columns before `c = kk*nx + jj` are done and the step writes the square root of a
positive pivot sum and the updates of the column, the columns up to `c` are done. -/
theorem factorizeNewtonHessian_column_dense {α : Type} [LinearOrderedField α]
    (sqrt : α → α) (hsqrt : SqrtSpec sqrt) (NI nx : Nat) (H L L1 : xn2x_matrix_t α)
    (kk jj : Nat) (hjj : jj < nx) (s : α)
    (hs : s = factorizeNewtonHessian_pivotSum nx H L kk jj) (hspos : 0 < s)
    (hdiag : L1 (kk, 0, jj, jj) = sqrt s)
    (hcol : ∀ ii, jj < ii → ii < nx →
      L1 (kk, 0, ii, jj)
        = (H (kk, 0, ii, jj)
            - ∑ ll in Finset.range jj, L (kk, 0, ii, ll) * L (kk, 0, jj, ll)
            - (if kk > 0 then
                ∑ ll in Finset.range nx, L (kk, -1, ii, ll) * L (kk, -1, jj, ll)
               else 0)) / sqrt s)
    (hsub : kk + 1 < NI → ∀ ii, ii < nx →
      L1 (kk + 1, -1, ii, jj)
        = (H (kk + 1, -1, ii, jj)
            - ∑ ll in Finset.range jj, L (kk + 1, -1, ii, ll) * L (kk, 0, jj, ll)) / sqrt s)
    (hframe : ∀ x, (∀ ii, x ≠ (kk, (0 : Int), ii, jj)) →
      (∀ ii, x ≠ (kk + 1, (-1 : Int), ii, jj)) → L1 x = L x)
    (hInv : cholColumnsDone (NI * nx) (kk * nx + jj) (fullHessian nx H) (lowerFactor nx L)) :
    cholColumnsDone (NI * nx) (kk * nx + jj + 1) (fullHessian nx H) (lowerFactor nx L1) := by
  have hfr := lowerFactor_frame_forward nx L L1 kk jj hframe
  have hsq : 0 < sqrt s := sqrt_pos_of_pos sqrt hsqrt s hspos
  have hsq2 : sqrt s * sqrt s = s := hsqrt.sq s (le_of_lt hspos)
  have hne : sqrt s ≠ 0 := ne_of_gt hsq
  have hcc : lowerFactor nx L1 (kk * nx + jj) (kk * nx + jj) = sqrt s := by
    rw [lowerFactor_diag nx L1 kk jj jj hjj le_rfl, hdiag]
  intro t ht
  by_cases htc : t < kk * nx + jj
  · obtain ⟨p1, p2⟩ := hInv t htc
    refine ⟨by rw [hfr t t htc]; exact p1, ?_⟩
    intro r hr1 hr2
    rw [p2 r hr1 hr2]
    apply Finset.sum_congr rfl
    intro u hu
    have hu2 : u < t + 1 := Finset.mem_range.1 hu
    rw [hfr r u (by omega), hfr t u (by omega)]
  · have htc2 : t = kk * nx + jj := by omega
    subst htc2
    refine ⟨by rw [hcc]; exact hsq, ?_⟩
    intro r hr1 hr2
    have hsum : ∑ u in Finset.range (kk * nx + jj + 1),
          lowerFactor nx L1 r u * lowerFactor nx L1 (kk * nx + jj) u
        = ∑ u in Finset.range (kk * nx + jj),
            lowerFactor nx L r u * lowerFactor nx L (kk * nx + jj) u
          + lowerFactor nx L1 r (kk * nx + jj) * sqrt s := by
      rw [Finset.sum_range_succ, hcc]
      congr 1
      apply Finset.sum_congr rfl
      intro u hu
      have hu2 : u < kk * nx + jj := Finset.mem_range.1 hu
      rw [hfr r u hu2, hfr (kk * nx + jj) u hu2]
    rw [hsum]
    obtain ⟨k1, i, hi, rfl⟩ := exists_block_idx nx r (by omega)
    have hk1 : kk ≤ k1 := block_le_of_idx_le nx kk jj k1 i hi hr1
    have hk2 : k1 < NI := block_lt_of_idx_lt nx NI k1 i hr2
    rcases Nat.lt_or_ge kk k1 with hlt | hge
    · rcases Nat.lt_or_ge (kk + 1) k1 with hfar | hnear
      · rw [rowProduct_farBlock nx L kk k1 i jj hi hjj hfar,
          lowerFactor_far nx L1 k1 i kk jj hi hjj hfar,
          fullHessian_far nx H k1 i kk jj hi hjj hfar]
        ring
      · have hk3 : k1 = kk + 1 := by omega
        subst hk3
        rw [rowProduct_nextBlock nx L kk i jj hi hjj, lowerFactor_sub nx L1 kk i jj hi hjj,
          fullHessian_sub nx H kk i jj hi hjj, hsub hk2 i hi]
        field_simp
    · have hk3 : k1 = kk := by omega
      subst hk3
      have hij : jj ≤ i := by omega
      rcases Nat.lt_or_ge jj i with hlt2 | hge2
      · rw [rowProduct_sameBlock nx L k1 i jj hi hij,
          lowerFactor_diag nx L1 k1 i jj hi hij, fullHessian_diag nx H k1 i jj hi hjj,
          hcol i hlt2 hi]
        field_simp
      · have hij2 : i = jj := by omega
        subst hij2
        rw [hcc, hsq2, hs, factorizeNewtonHessian_pivotSum_dense nx H L k1 i hi]
        ring

theorem loopExcept_range_inv {ε σ : Type} (body : σ → Nat → Except ε σ)
    (P : Nat → σ → Prop) (Q : ε → Prop) (n : Nat)
    (h : ∀ i, i < n → ∀ s, P i s → outcome (P (i + 1)) Q (body s i)) :
    ∀ s, P 0 s → outcome (P n) Q (loopExcept body (List.range n) s) := by
  induction n with
  | zero => intro s hs; exact hs
  | succ n ih =>
    intro s hs
    rw [List.range_succ, loopExcept_append]
    have h1 := ih (fun i hi => h i (Nat.lt_succ_of_lt hi)) s hs
    cases hr : loopExcept body (List.range n) s with
    | error e => rw [hr] at h1; exact h1
    | ok s1 =>
      rw [hr] at h1
      have h2 := h n (Nat.lt_succ_self n) s1 h1
      simp only [loopExcept]
      cases hb : body s1 n with
      | error e => rw [hb] at h2; exact h2
      | ok s2 => rw [hb] at h2; exact h2

theorem idx_lt_of_block_lt (nx NI kk jj : Nat) (hkk : kk < NI) (hjj : jj < nx) :
    kk * nx + jj < NI * nx := by
  have h1 : (kk + 1) * nx ≤ NI * nx := Nat.mul_le_mul_right nx (by omega)
  have h2 : (kk + 1) * nx = kk * nx + nx := by ring
  omega

/-- One column of the forward factorization of a symmetric positive-definite Hessian:
as long as no recorded pivot sum is below `newtonHessDiagRegTolerance`, the columns
done so far are Cholesky columns; a return inside the loop records such a pivot sum. -/
theorem factorizeNewtonHessian_column_step {α : Type} [LinearOrderedField α]
    (sqrt : α → α) (hsqrt : SqrtSpec sqrt) (opts : qpOptions_t α) (NI nx : Nat)
    (H : xn2x_matrix_t α) (hspd : IsSPD (NI * nx) (fullHessian nx H))
    (kk jj : Nat) (hkk : kk < NI) (hjj : jj < nx) (st : factor_state α)
    (hP : pivotsAbove opts.newtonHessDiagRegTolerance st →
      cholColumnsDone (NI * nx) (kk * nx + jj) (fullHessian nx H)
        (lowerFactor nx st.cholHessian)) :
    outcome
      (fun st1 => pivotsAbove opts.newtonHessDiagRegTolerance st1 →
        cholColumnsDone (NI * nx) (kk * nx + jj + 1) (fullHessian nx H)
          (lowerFactor nx st1.cholHessian))
      (fun e => ¬ pivotsAbove opts.newtonHessDiagRegTolerance e.2)
      (factorizeNewtonHessian_column sqrt opts NI nx H kk jj st) := by
  unfold factorizeNewtonHessian_column factorizeNewtonHessian_check
  by_cases hlt : factorizeNewtonHessian_pivotSum nx H st.cholHessian kk jj
      < opts.newtonHessDiagRegTolerance
  · have hbad : ∀ st1 : factor_state α,
        st1.pivots
          = st.pivots ++ [factorizeNewtonHessian_pivotSum nx H st.cholHessian kk jj] →
        ¬ pivotsAbove opts.newtonHessDiagRegTolerance st1 := by
      intro st1 h1 h2
      have := h2 (factorizeNewtonHessian_pivotSum nx H st.cholHessian kk jj)
        (by rw [h1]; simp)
      exact absurd hlt (not_lt.2 this)
    by_cases hsd : opts.regType = regType_t.QPDUNES_REG_SINGULAR_DIRECTIONS
    · simp only [hsd, hlt, and_self, if_true, outcome]
      intro hG
      exact absurd hG (hbad _ rfl)
    · simp only [hsd, false_and, if_false, if_pos hlt, outcome]
      exact hbad _ rfl
  · simp only [hlt, and_false, if_false, outcome]
    intro hG
    have hG0 : pivotsAbove opts.newtonHessDiagRegTolerance st := by
      intro s hs
      exact hG s (List.mem_append_left _ hs)
    have hInv := hP hG0
    have hc : kk * nx + jj < NI * nx := idx_lt_of_block_lt nx NI kk jj hkk hjj
    have hspos : 0 < factorizeNewtonHessian_pivotSum nx H st.cholHessian kk jj := by
      rw [factorizeNewtonHessian_pivotSum_dense nx H st.cholHessian kk jj hjj]
      exact chol_pivot_pos (NI * nx) (kk * nx + jj) hc (fullHessian nx H)
        (lowerFactor nx st.cholHessian) hspd.1 hspd.2
        (fun t ht => ne_of_gt (hInv t ht).1)
        (fun t ht r hr1 hr2 => (hInv t ht).2 r hr1 (by omega))
    obtain ⟨d1, d2⟩ := factorizeNewtonHessian_diagBlock_spec nx H kk jj
      (Function.update st.cholHessian (kk, 0, jj, jj)
        (sqrt (factorizeNewtonHessian_pivotSum nx H st.cholHessian kk jj)))
    obtain ⟨b1, b2⟩ := factorizeNewtonHessian_subBlock_spec NI nx H kk jj
      (factorizeNewtonHessian_diagBlock nx H kk jj
        (Function.update st.cholHessian (kk, 0, jj, jj)
          (sqrt (factorizeNewtonHessian_pivotSum nx H st.cholHessian kk jj))))
    have u1 : ∀ x, x ≠ (kk, (0 : Int), jj, jj) →
        Function.update st.cholHessian (kk, 0, jj, jj)
          (sqrt (factorizeNewtonHessian_pivotSum nx H st.cholHessian kk jj)) x
          = st.cholHessian x := fun x hx => Function.update_noteq hx _ _
    have ne1 : ∀ (a b c d e f : Nat), b ≠ e ∨ c ≠ f →
        ((a, (0 : Int), b, c) : Nat × Int × Nat × Nat) ≠ (d, (0 : Int), e, f) := by
      intro a b c d e f h h2
      simp only [Prod.mk.injEq] at h2
      omega
    have ne2 : ∀ (a b c d e f : Nat),
        ((a, (0 : Int), b, c) : Nat × Int × Nat × Nat) ≠ (d, (-1 : Int), e, f) := by
      intro a b c d e f h2
      simp only [Prod.mk.injEq] at h2
      omega
    have ne3 : ∀ (a b c d e f : Nat),
        ((a, (-1 : Int), b, c) : Nat × Int × Nat × Nat) ≠ (d, (0 : Int), e, f) := by
      intro a b c d e f h2
      simp only [Prod.mk.injEq] at h2
      omega
    have ne4 : ∀ (a b c d e f : Nat), a ≠ d ∨ c ≠ f →
        ((a, (-1 : Int), b, c) : Nat × Int × Nat × Nat) ≠ (d, (-1 : Int), e, f) := by
      intro a b c d e f h h2
      simp only [Prod.mk.injEq] at h2
      omega
    have dg : factorizeNewtonHessian_diagBlock nx H kk jj
          (Function.update st.cholHessian (kk, 0, jj, jj)
            (sqrt (factorizeNewtonHessian_pivotSum nx H st.cholHessian kk jj)))
          (kk, 0, jj, jj)
        = sqrt (factorizeNewtonHessian_pivotSum nx H st.cholHessian kk jj) := by
      rw [d1 _ (fun ii h1 _ => ne1 _ _ _ _ _ _ (Or.inl (by omega))), Function.update_same]
    apply factorizeNewtonHessian_column_dense sqrt hsqrt NI nx H st.cholHessian _ kk jj hjj
      (factorizeNewtonHessian_pivotSum nx H st.cholHessian kk jj) rfl hspos
    · show factorizeNewtonHessian_subBlock NI nx H kk jj _ (kk, 0, jj, jj) = _
      rw [b1 _ (fun ii _ => ne2 _ _ _ _ _ _), dg]
    · intro ii h1 h2
      show factorizeNewtonHessian_subBlock NI nx H kk jj _ (kk, 0, ii, jj) = _
      rw [b1 _ (fun ii _ => ne2 _ _ _ _ _ _), d2 ii h1 h2, Function.update_same]
      congr 1
      congr 1
      · congr 1
        apply Finset.sum_congr rfl
        intro ll hll
        have hll2 : ll < jj := Finset.mem_range.1 hll
        rw [u1 _ (ne1 _ _ _ _ _ _ (Or.inr (by omega))),
          u1 _ (ne1 _ _ _ _ _ _ (Or.inr (by omega)))]
      · by_cases hk : kk > 0
        · simp only [if_pos hk]
          apply Finset.sum_congr rfl
          intro ll _
          rw [u1 _ (ne3 _ _ _ _ _ _), u1 _ (ne3 _ _ _ _ _ _)]
        · simp only [if_neg hk]
    · intro hk ii h2
      show factorizeNewtonHessian_subBlock NI nx H kk jj _ (kk + 1, -1, ii, jj) = _
      rw [b2 hk ii h2, dg]
      congr 1
      congr 1
      apply Finset.sum_congr rfl
      intro ll hll
      have hll2 : ll < jj := Finset.mem_range.1 hll
      rw [d1 _ (fun ii _ _ => ne3 _ _ _ _ _ _), u1 _ (ne3 _ _ _ _ _ _),
        d1 _ (fun ii _ _ => ne1 _ _ _ _ _ _ (Or.inr (by omega))),
        u1 _ (ne1 _ _ _ _ _ _ (Or.inr (by omega)))]
    · intro x hx1 hx2
      show factorizeNewtonHessian_subBlock NI nx H kk jj _ x = _
      rw [b1 x (fun ii _ => hx2 ii), d1 x (fun ii _ _ => hx1 ii), u1 x (hx1 jj)]
    · exact hInv

theorem outcome_mono {ε σ : Type} (P P1 : σ → Prop) (Q : ε → Prop) (r : Except ε σ)
    (h : ∀ s, P s → P1 s) (hr : outcome P Q r) : outcome P1 Q r := by
  cases r with
  | error e => exact hr
  | ok s => exact h s hr

/-- When all columns are done, the product of the factor with its transpose is the
whole matrix. -/
theorem cholColumnsDone_product {α : Type} [LinearOrderedField α] (n : Nat)
    (A Lf : Nat → Nat → α) (hsym : ∀ r m, r < n → m < n → A r m = A m r)
    (hup : ∀ r m, r < m → Lf r m = 0) (hdone : cholColumnsDone n n A Lf)
    (r m : Nat) (hr : r < n) (hm : m < n) :
    ∑ t in Finset.range n, Lf r t * Lf m t = A r m := by
  have key : ∀ r m, m ≤ r → r < n → ∑ t in Finset.range n, Lf r t * Lf m t = A r m := by
    intro r m hmr hr
    rw [(hdone m (by omega)).2 r hmr hr]
    have hsub : Finset.range (m + 1) ⊆ Finset.range n := by
      intro u hu
      simp only [Finset.mem_range] at hu ⊢
      omega
    rw [← Finset.sum_subset hsub]
    intro u _ hu
    simp only [Finset.mem_range] at hu
    rw [hup m u (by omega), mul_zero]
  rcases Nat.lt_or_ge r m with h | h
  · rw [hsym r m hr hm, ← key m r (Nat.le_of_lt h) hm]
    apply Finset.sum_congr rfl
    intro t _
    ring
  · exact key r m h hr

/-- The loops of the forward factorization of a symmetric positive-definite Hessian. -/
theorem factorizeNewtonHessian_loops {α : Type} [LinearOrderedField α]
    (sqrt : α → α) (hsqrt : SqrtSpec sqrt) (opts : qpOptions_t α) (NI nx : Nat)
    (H : xn2x_matrix_t α) (hspd : IsSPD (NI * nx) (fullHessian nx H))
    (st : factor_state α) :
    outcome
      (fun st1 => pivotsAbove opts.newtonHessDiagRegTolerance st1 →
        cholColumnsDone (NI * nx) (NI * nx) (fullHessian nx H)
          (lowerFactor nx st1.cholHessian))
      (fun e => ¬ pivotsAbove opts.newtonHessDiagRegTolerance e.2)
      (loopExcept
        (fun st kk => loopExcept
          (fun st jj => factorizeNewtonHessian_column sqrt opts NI nx H kk jj st)
          (List.range nx) st)
        (List.range NI) st) := by
  apply loopExcept_range_inv _
    (fun K st1 => pivotsAbove opts.newtonHessDiagRegTolerance st1 →
      cholColumnsDone (NI * nx) (K * nx) (fullHessian nx H) (lowerFactor nx st1.cholHessian))
  · intro kk hkk st1 hP
    have h1 := loopExcept_range_inv
      (fun st jj => factorizeNewtonHessian_column sqrt opts NI nx H kk jj st)
      (fun J st1 => pivotsAbove opts.newtonHessDiagRegTolerance st1 →
        cholColumnsDone (NI * nx) (kk * nx + J) (fullHessian nx H)
          (lowerFactor nx st1.cholHessian))
      (fun e => ¬ pivotsAbove opts.newtonHessDiagRegTolerance e.2) nx
      (fun jj hjj st2 hP2 =>
        factorizeNewtonHessian_column_step sqrt hsqrt opts NI nx H hspd kk jj hkk hjj st2 hP2)
      st1 hP
    apply outcome_mono _ _ _ _ _ h1
    intro st2 h2 hG
    have h3 := h2 hG
    rw [Nat.add_mul, Nat.one_mul]
    exact h3
  · intro _ t ht
    simp only [Nat.zero_mul] at ht
    omega

/-- C2. Forward Cholesky correctness: for every symmetric positive-definite
block-tridiagonal Hessian `H` (in the packed storage) whose pivot squared-sums all stay
at or above `newtonHessDiagRegTolerance`, `qpDUNES_factorizeNewtonHessian` returns
`QPDUNES_OK` and the lower-triangular block-banded factor `L` it writes satisfies
`L * L^T = H` exactly, entry by entry of the `N*nx` by `N*nx` matrices (so on every
diagonal and sub-diagonal block). -/
theorem factorizeNewtonHessian_correct {α : Type} [LinearOrderedField α]
    (sqrt : α → α) (hsqrt : SqrtSpec sqrt) (opts : qpOptions_t α) (NI nx : Nat)
    (H cholHessian : xn2x_matrix_t α) (isReg : Bool)
    (hspd : IsSPD (NI * nx) (fullHessian nx H))
    (hpiv : ∀ s ∈ (qpDUNES_factorizeNewtonHessian sqrt opts NI nx H
        ⟨cholHessian, isReg, []⟩).2.pivots, opts.newtonHessDiagRegTolerance ≤ s) :
    (qpDUNES_factorizeNewtonHessian sqrt opts NI nx H ⟨cholHessian, isReg, []⟩).1
      = QPDUNES_OK
    ∧ ∀ r m, r < NI * nx → m < NI * nx →
        ∑ t in Finset.range (NI * nx),
          lowerFactor nx (qpDUNES_factorizeNewtonHessian sqrt opts NI nx H
              ⟨cholHessian, isReg, []⟩).2.cholHessian r t
            * lowerFactor nx (qpDUNES_factorizeNewtonHessian sqrt opts NI nx H
              ⟨cholHessian, isReg, []⟩).2.cholHessian m t
        = fullHessian nx H r m := by
  have h := factorizeNewtonHessian_loops sqrt hsqrt opts NI nx H hspd
    ⟨cholHessian, isReg, []⟩
  unfold qpDUNES_factorizeNewtonHessian at hpiv ⊢
  cases hr : loopExcept
      (fun st kk => loopExcept
        (fun st jj => factorizeNewtonHessian_column sqrt opts NI nx H kk jj st)
        (List.range nx) st)
      (List.range NI) (⟨cholHessian, isReg, []⟩ : factor_state α) with
  | error e =>
    rw [hr] at h hpiv
    exact absurd hpiv h
  | ok st1 =>
    rw [hr] at h hpiv
    refine ⟨rfl, ?_⟩
    intro r m hr2 hm
    exact cholColumnsDone_product (NI * nx) (fullHessian nx H)
      (lowerFactor nx st1.cholHessian) hspd.1
      (fun r m h2 => lowerFactor_upper nx st1.cholHessian r m h2) (h hpiv) r m hr2 hm

/-! ## The example Hessian -/

theorem real_sqrtSpec : SqrtSpec Real.sqrt :=
  ⟨Real.sqrt_nonneg, fun _ hx => Real.mul_self_sqrt hx⟩

theorem exampleHessian_spd : IsSPD (2 * 1) (fullHessian 1 (exampleHessian ℝ)) := by
  constructor
  · intro r m hr hm
    have hr2 : r = 0 ∨ r = 1 := by omega
    have hm2 : m = 0 ∨ m = 1 := by omega
    rcases hr2 with rfl | rfl <;> rcases hm2 with rfl | rfl <;>
      simp [fullHessian, exampleHessian]
  · rintro x ⟨i, hi, hx⟩
    have hi2 : i = 0 ∨ i = 1 := by omega
    have e : ∑ r in Finset.range (2 * 1), ∑ m in Finset.range (2 * 1),
        x r * fullHessian 1 (exampleHessian ℝ) r m * x m
        = (x 0 + x 1) ^ 2 + x 1 ^ 2 := by
      simp [Finset.sum_range_succ, fullHessian, exampleHessian]
      ring
    rw [e]
    rcases hi2 with rfl | rfl
    · by_cases h1 : x 1 = 0
      · rw [h1]
        have : 0 < x 0 ^ 2 := by positivity
        simpa using this
      · have : 0 < x 1 ^ 2 := by positivity
        nlinarith [sq_nonneg (x 0 + x 1)]
    · have : 0 < x 1 ^ 2 := by positivity
      nlinarith [sq_nonneg (x 0 + x 1)]

theorem exampleHessian_forward_pivots (isReg : Bool) (regType : regType_t) :
    (qpDUNES_factorizeNewtonHessian Real.sqrt
        (exampleOptions ℝ regType nwtnHssnFacAlg_t.QPDUNES_NH_FAC_BAND_FORWARD)
        2 1 (exampleHessian ℝ) ⟨fun _ => 0, isReg, []⟩).2.pivots = [1, 1] := by
  norm_num [qpDUNES_factorizeNewtonHessian, loopExcept, List.range_succ,
    factorizeNewtonHessian_column, factorizeNewtonHessian_pivotSum,
    factorizeNewtonHessian_check, factorizeNewtonHessian_diagBlock,
    factorizeNewtonHessian_subBlock, factor_finish, subLoop, exampleOptions,
    exampleHessian, Function.update, -Prod.mk_zero_zero, -Prod.mk_eq_zero]

/-- Witness for C2: the Hessian `[[1, 1], [1, 2]]` (two block rows, `nx = 1`) with
`newtonHessDiagRegTolerance = 1`; its pivot squared-sums are `1` and `1`. -/
theorem factorizeNewtonHessian_correct_witness :
    SqrtSpec Real.sqrt ∧ IsSPD (2 * 1) (fullHessian 1 (exampleHessian ℝ))
    ∧ (qpDUNES_factorizeNewtonHessian Real.sqrt
        (exampleOptions ℝ regType_t.QPDUNES_REG_LEVENBERG_MARQUARDT
          nwtnHssnFacAlg_t.QPDUNES_NH_FAC_BAND_FORWARD)
        2 1 (exampleHessian ℝ) ⟨fun _ => 0, false, []⟩).1 = QPDUNES_OK
    ∧ ∀ r m, r < 2 * 1 → m < 2 * 1 →
        ∑ t in Finset.range (2 * 1),
          lowerFactor 1 (qpDUNES_factorizeNewtonHessian Real.sqrt
            (exampleOptions ℝ regType_t.QPDUNES_REG_LEVENBERG_MARQUARDT
              nwtnHssnFacAlg_t.QPDUNES_NH_FAC_BAND_FORWARD)
            2 1 (exampleHessian ℝ) ⟨fun _ => 0, false, []⟩).2.cholHessian r t
          * lowerFactor 1 (qpDUNES_factorizeNewtonHessian Real.sqrt
            (exampleOptions ℝ regType_t.QPDUNES_REG_LEVENBERG_MARQUARDT
              nwtnHssnFacAlg_t.QPDUNES_NH_FAC_BAND_FORWARD)
            2 1 (exampleHessian ℝ) ⟨fun _ => 0, false, []⟩).2.cholHessian m t
        = fullHessian 1 (exampleHessian ℝ) r m :=
  ⟨real_sqrtSpec, exampleHessian_spd,
    factorizeNewtonHessian_correct Real.sqrt real_sqrtSpec
      (exampleOptions ℝ regType_t.QPDUNES_REG_LEVENBERG_MARQUARDT
        nwtnHssnFacAlg_t.QPDUNES_NH_FAC_BAND_FORWARD)
      2 1 (exampleHessian ℝ) (fun _ => 0) false exampleHessian_spd
      (by
        rw [exampleHessian_forward_pivots]
        norm_num [exampleOptions])⟩

/-! ## The reverse factorization, column by column -/

/-- The loop over the rest of row `jj` of the diagonal block: the cells `(kk,0,jj,ii)`
with `ii < jj` get the reverse Cholesky update computed from the state before the
loop. -/
theorem factorizeNewtonHessianBottomUp_diagBlock_spec {α : Type} [LinearOrderedField α]
    (NI nx : Nat) (H : xn2x_matrix_t α) (kk jj : Nat) (L : xn2x_matrix_t α) :
    (∀ x, (∀ ii, ii < jj → x ≠ (kk, (0 : Int), jj, ii)) →
        factorizeNewtonHessianBottomUp_diagBlock NI nx H kk jj L x = L x)
    ∧ (∀ ii, ii < jj →
        factorizeNewtonHessianBottomUp_diagBlock NI nx H kk jj L (kk, 0, jj, ii)
          = (H (kk, 0, jj, ii)
              - ∑ t in Finset.range (nx - (jj + 1)),
                  L (kk, 0, jj + 1 + t, ii) * L (kk, 0, jj + 1 + t, jj)
              - (if kk + 1 < NI then
                  ∑ ll in Finset.range nx, L (kk + 1, -1, ll, ii) * L (kk + 1, -1, ll, jj)
                 else 0)) / L (kk, 0, jj, jj)) := by
  have hmem : ∀ a, a ∈ (List.range jj).reverse ↔ a < jj := by
    intro a
    rw [List.mem_reverse, List.mem_range]
  obtain ⟨h1, h2⟩ := foldl_update_spec
    (fun ii => ((kk, (0 : Int), jj, ii) : Nat × Int × Nat × Nat))
    (fun (M : xn2x_matrix_t α) ii =>
      (if (kk : Int) < (NI : Int) - 1 then
          subLoop (List.range nx)
            (fun ll => M (kk + 1, -1, ll, ii) * M (kk + 1, -1, ll, jj))
            (subLoop (List.range' (jj + 1) (nx - (jj + 1)))
              (fun ll => M (kk, 0, ll, ii) * M (kk, 0, ll, jj)) (H (kk, 0, jj, ii)))
        else
          subLoop (List.range' (jj + 1) (nx - (jj + 1)))
            (fun ll => M (kk, 0, ll, ii) * M (kk, 0, ll, jj)) (H (kk, 0, jj, ii)))
        / M (kk, 0, jj, jj))
    (List.range jj).reverse (List.nodup_reverse.2 (List.nodup_range jj))
    (by
      intro a _ b _ hab
      simpa using hab)
    (by
      intro M M1 hM ii
      have e1 : ∀ l i, jj < l → M (kk, 0, l, i) = M1 (kk, 0, l, i) := by
        intro l i hl
        apply hM
        intro a _ h
        simp only [Prod.mk.injEq] at h
        omega
      have e2 : ∀ l i, M (kk + 1, -1, l, i) = M1 (kk + 1, -1, l, i) := by
        intro l i
        apply hM
        intro a _ h
        simp only [Prod.mk.injEq] at h
        omega
      have e3 : M (kk, 0, jj, jj) = M1 (kk, 0, jj, jj) := by
        apply hM
        intro a ha h
        simp only [Prod.mk.injEq] at h
        have := (hmem a).1 ha
        omega
      have s1 : subLoop (List.range' (jj + 1) (nx - (jj + 1)))
            (fun ll => M (kk, 0, ll, ii) * M (kk, 0, ll, jj)) (H (kk, 0, jj, ii))
          = subLoop (List.range' (jj + 1) (nx - (jj + 1)))
            (fun ll => M1 (kk, 0, ll, ii) * M1 (kk, 0, ll, jj)) (H (kk, 0, jj, ii)) := by
        apply subLoop_congr
        intro ll hll
        have : jj < ll := by
          rw [List.mem_range'_1] at hll
          omega
        simp only [e1 ll _ this]
      beta_reduce
      rw [s1, e3]
      simp only [e2])
    L
  constructor
  · intro x hx
    exact h1 x (fun a ha => hx a ((hmem a).1 ha))
  · intro ii h3
    have := h2 ii ((hmem ii).2 h3)
    unfold factorizeNewtonHessianBottomUp_diagBlock
    rw [this]
    by_cases hk : kk + 1 < NI
    · have hk2 : (kk : Int) < (NI : Int) - 1 := by omega
      simp only [if_pos hk, if_pos hk2, subLoop_range, subLoop_range']
    · have hk2 : ¬ (kk : Int) < (NI : Int) - 1 := by omega
      simp only [if_neg hk, if_neg hk2, subLoop_range', sub_zero]

/-- The loop over row `jj` of the sub-diagonal block: the cells `(kk,-1,jj,ii)` with
`ii < nx` get the reverse Cholesky update computed from the state before the loop. -/
theorem factorizeNewtonHessianBottomUp_subBlock_spec {α : Type} [LinearOrderedField α]
    (nx : Nat) (H : xn2x_matrix_t α) (kk jj : Nat) (L : xn2x_matrix_t α) :
    (∀ x, (∀ ii, ii < nx → x ≠ (kk, (-1 : Int), jj, ii)) →
        factorizeNewtonHessianBottomUp_subBlock nx H kk jj L x = L x)
    ∧ (kk > 0 → ∀ ii, ii < nx →
        factorizeNewtonHessianBottomUp_subBlock nx H kk jj L (kk, -1, jj, ii)
          = (H (kk, -1, jj, ii)
              - ∑ t in Finset.range (nx - (jj + 1)),
                  L (kk, -1, jj + 1 + t, ii) * L (kk, 0, jj + 1 + t, jj))
            / L (kk, 0, jj, jj)) := by
  have hmem : ∀ a, a ∈ (List.range nx).reverse ↔ a < nx := by
    intro a
    rw [List.mem_reverse, List.mem_range]
  obtain ⟨h1, h2⟩ := foldl_update_spec
    (fun ii => ((kk, (-1 : Int), jj, ii) : Nat × Int × Nat × Nat))
    (fun (M : xn2x_matrix_t α) ii =>
      subLoop (List.range' (jj + 1) (nx - (jj + 1)))
        (fun ll => M (kk, -1, ll, ii) * M (kk, 0, ll, jj)) (H (kk, -1, jj, ii))
        / M (kk, 0, jj, jj))
    (List.range nx).reverse (List.nodup_reverse.2 (List.nodup_range nx))
    (by
      intro a _ b _ hab
      simpa using hab)
    (by
      intro M M1 hM ii
      have e1 : ∀ l i, jj < l → M (kk, -1, l, i) = M1 (kk, -1, l, i) := by
        intro l i hl
        apply hM
        intro a _ h
        simp only [Prod.mk.injEq] at h
        omega
      have e2 : ∀ l i, M (kk, 0, l, i) = M1 (kk, 0, l, i) := by
        intro l i
        apply hM
        intro a _ h
        simp only [Prod.mk.injEq] at h
        omega
      have s1 : subLoop (List.range' (jj + 1) (nx - (jj + 1)))
            (fun ll => M (kk, -1, ll, ii) * M (kk, 0, ll, jj)) (H (kk, -1, jj, ii))
          = subLoop (List.range' (jj + 1) (nx - (jj + 1)))
            (fun ll => M1 (kk, -1, ll, ii) * M1 (kk, 0, ll, jj)) (H (kk, -1, jj, ii)) := by
        apply subLoop_congr
        intro ll hll
        have : jj < ll := by
          rw [List.mem_range'_1] at hll
          omega
        simp only [e1 ll _ this, e2]
      beta_reduce
      rw [s1, e2 jj jj])
    L
  unfold factorizeNewtonHessianBottomUp_subBlock
  constructor
  · intro x hx
    by_cases hk : kk > 0
    · rw [if_pos hk]
      exact h1 x (fun a ha => hx a ((hmem a).1 ha))
    · rw [if_neg hk]
  · intro hk ii hii
    rw [if_pos hk, h2 ii ((hmem ii).2 hii), subLoop_range']

/-! ## The reverse factorization in the dense reading -/

/-- A sum over the rows after row `kk*nx + jj` of a quantity that vanishes on the
block rows after `kk + 1`. -/
theorem sum_after_row {α : Type} [LinearOrderedField α] (nx NI kk jj : Nat) (hkk : kk < NI)
    (hjj : jj < nx) (G : Nat → α)
    (h : ∀ k1 l, kk + 1 < k1 → l < nx → G (k1 * nx + l) = 0) :
    ∑ u in Finset.range (NI * nx - (kk * nx + jj) - 1), G (kk * nx + jj + 1 + u)
      = ∑ t in Finset.range (nx - (jj + 1)), G (kk * nx + (jj + 1 + t))
        + (if kk + 1 < NI then ∑ l in Finset.range nx, G ((kk + 1) * nx + l) else 0) := by
  obtain ⟨d, rfl⟩ : ∃ d, NI = kk + 1 + d := ⟨NI - (kk + 1), by omega⟩
  have h1 : (kk + 1 + d) * nx = kk * nx + nx + d * nx := by ring
  have hlen : (kk + 1 + d) * nx - (kk * nx + jj) - 1 = (nx - (jj + 1)) + d * nx := by omega
  rw [hlen, Finset.sum_range_add]
  congr 1
  · apply Finset.sum_congr rfl
    intro t _
    have : kk * nx + jj + 1 + t = kk * nx + (jj + 1 + t) := by omega
    rw [this]
  · have h2 : ∀ u, kk * nx + jj + 1 + (nx - (jj + 1) + u) = (kk + 1) * nx + u := by
      intro u
      have : (kk + 1) * nx = kk * nx + nx := by ring
      omega
    simp only [h2]
    rcases Nat.eq_zero_or_pos d with h0 | h0
    · subst h0
      simp
    · rw [if_pos (by omega)]
      obtain ⟨d1, rfl⟩ : ∃ d1, d = d1 + 1 := ⟨d - 1, by omega⟩
      have h3 : (d1 + 1) * nx = nx + d1 * nx := by ring
      rw [h3, Finset.sum_range_add,
        sum_blocks_zero nx d1 (fun t => G ((kk + 1) * nx + (nx + t))), add_zero]
      intro k1 l _ hl
      have h4 : (kk + 1) * nx + (nx + (k1 * nx + l)) = (kk + 2 + k1) * nx + l := by ring
      show G ((kk + 1) * nx + (nx + (k1 * nx + l))) = 0
      rw [h4]
      exact h (kk + 2 + k1) l (by omega) hl

/-- A column step of the reverse factorization writes row `kk*nx + jj` only. -/
theorem lowerFactor_frame_reverse {α : Type} [LinearOrderedField α] (nx : Nat)
    (L L1 : xn2x_matrix_t α) (kk jj : Nat)
    (hframe : ∀ x, (∀ ii, x ≠ (kk, (0 : Int), jj, ii)) →
      (∀ ii, x ≠ (kk, (-1 : Int), jj, ii)) → L1 x = L x)
    (r m : Nat) (hr : r ≠ kk * nx + jj) :
    lowerFactor nx L1 r m = lowerFactor nx L r m := by
  have hx : ∀ (o : Int) (i : Nat), L1 (r / nx, o, r % nx, i) = L (r / nx, o, r % nx, i) := by
    intro o i
    apply hframe
    · intro ii h
      simp only [Prod.mk.injEq] at h
      exact hr (idx_eq_of_div_mod nx r kk jj h.1 h.2.2.1)
    · intro ii h
      simp only [Prod.mk.injEq] at h
      exact hr (idx_eq_of_div_mod nx r kk jj h.1 h.2.2.1)
  unfold lowerFactor
  simp only [hx]

/-- The sum, over the rows after row `c = kk*nx + jj`, of the products of column `c` of
the factor with column `kk*nx + ii` of the same block column, in terms of the stored
blocks. -/
theorem colProduct_sameBlock {α : Type} [LinearOrderedField α] (nx NI : Nat)
    (L : xn2x_matrix_t α) (kk ii jj : Nat) (hkk : kk < NI) (hjj : jj < nx) (hij : ii ≤ jj) :
    ∑ u in Finset.range (NI * nx - (kk * nx + jj) - 1),
        lowerFactor nx L (kk * nx + jj + 1 + u) (kk * nx + jj)
          * lowerFactor nx L (kk * nx + jj + 1 + u) (kk * nx + ii)
      = ∑ t in Finset.range (nx - (jj + 1)),
          L (kk, 0, jj + 1 + t, ii) * L (kk, 0, jj + 1 + t, jj)
        + (if kk + 1 < NI then
            ∑ ll in Finset.range nx, L (kk + 1, -1, ll, ii) * L (kk + 1, -1, ll, jj)
           else 0) := by
  rw [sum_after_row nx NI kk jj hkk hjj
    (fun row => lowerFactor nx L row (kk * nx + jj) * lowerFactor nx L row (kk * nx + ii))]
  · congr 1
    · apply Finset.sum_congr rfl
      intro t ht
      have ht2 : t < nx - (jj + 1) := Finset.mem_range.1 ht
      rw [lowerFactor_diag nx L kk (jj + 1 + t) jj (by omega) (by omega),
        lowerFactor_diag nx L kk (jj + 1 + t) ii (by omega) (by omega), mul_comm]
    · by_cases hk : kk + 1 < NI
      · simp only [if_pos hk]
        apply Finset.sum_congr rfl
        intro l hl
        have hl2 : l < nx := Finset.mem_range.1 hl
        rw [lowerFactor_sub nx L kk l jj hl2 hjj,
          lowerFactor_sub nx L kk l ii hl2 (by omega), mul_comm]
      · simp only [if_neg hk]
  · intro k1 l hk hl
    show lowerFactor nx L (k1 * nx + l) (kk * nx + jj)
      * lowerFactor nx L (k1 * nx + l) (kk * nx + ii) = 0
    rw [lowerFactor_far nx L k1 l kk jj hl hjj hk, zero_mul]

/-- The same sum for column `kk*nx + ii` of the previous block column. -/
theorem colProduct_prevBlock {α : Type} [LinearOrderedField α] (nx NI : Nat)
    (L : xn2x_matrix_t α) (kk ii jj : Nat) (hkk : kk + 1 < NI) (hjj : jj < nx)
    (hii : ii < nx) :
    ∑ u in Finset.range (NI * nx - ((kk + 1) * nx + jj) - 1),
        lowerFactor nx L ((kk + 1) * nx + jj + 1 + u) ((kk + 1) * nx + jj)
          * lowerFactor nx L ((kk + 1) * nx + jj + 1 + u) (kk * nx + ii)
      = ∑ t in Finset.range (nx - (jj + 1)),
          L (kk + 1, -1, jj + 1 + t, ii) * L (kk + 1, 0, jj + 1 + t, jj) := by
  rw [sum_after_row nx NI (kk + 1) jj hkk hjj
    (fun row => lowerFactor nx L row ((kk + 1) * nx + jj)
      * lowerFactor nx L row (kk * nx + ii))]
  · have h0 : (if kk + 1 + 1 < NI then ∑ l in Finset.range nx,
          lowerFactor nx L ((kk + 1 + 1) * nx + l) ((kk + 1) * nx + jj)
            * lowerFactor nx L ((kk + 1 + 1) * nx + l) (kk * nx + ii) else 0) = 0 := by
      by_cases hk : kk + 1 + 1 < NI
      · rw [if_pos hk]
        apply Finset.sum_eq_zero
        intro l hl
        have hl2 : l < nx := Finset.mem_range.1 hl
        rw [lowerFactor_far nx L (kk + 1 + 1) l kk ii hl2 hii (by omega), mul_zero]
      · rw [if_neg hk]
    rw [h0, add_zero]
    apply Finset.sum_congr rfl
    intro t ht
    have ht2 : t < nx - (jj + 1) := Finset.mem_range.1 ht
    rw [lowerFactor_diag nx L (kk + 1) (jj + 1 + t) jj (by omega) (by omega),
      lowerFactor_sub nx L kk (jj + 1 + t) ii (by omega) hii, mul_comm]
  · intro k1 l hk hl
    show lowerFactor nx L (k1 * nx + l) ((kk + 1) * nx + jj)
      * lowerFactor nx L (k1 * nx + l) (kk * nx + ii) = 0
    rw [lowerFactor_far nx L k1 l (kk + 1) jj hl hjj hk, zero_mul]

/-- The same sum for a column `k1*nx + ii` two or more block columns before: it
vanishes. -/
theorem colProduct_farBlock {α : Type} [LinearOrderedField α] (nx NI : Nat)
    (L : xn2x_matrix_t α) (kk k1 ii jj : Nat) (hkk : kk < NI) (hjj : jj < nx)
    (hii : ii < nx) (hk1 : k1 + 1 < kk) :
    ∑ u in Finset.range (NI * nx - (kk * nx + jj) - 1),
        lowerFactor nx L (kk * nx + jj + 1 + u) (kk * nx + jj)
          * lowerFactor nx L (kk * nx + jj + 1 + u) (k1 * nx + ii) = 0 := by
  rw [sum_after_row nx NI kk jj hkk hjj
    (fun row => lowerFactor nx L row (kk * nx + jj) * lowerFactor nx L row (k1 * nx + ii))]
  · have h0 : (if kk + 1 < NI then ∑ l in Finset.range nx,
          lowerFactor nx L ((kk + 1) * nx + l) (kk * nx + jj)
            * lowerFactor nx L ((kk + 1) * nx + l) (k1 * nx + ii) else 0) = 0 := by
      by_cases hk : kk + 1 < NI
      · rw [if_pos hk]
        apply Finset.sum_eq_zero
        intro l hl
        have hl2 : l < nx := Finset.mem_range.1 hl
        rw [lowerFactor_far nx L (kk + 1) l k1 ii hl2 hii (by omega), mul_zero]
      · rw [if_neg hk]
    rw [h0, add_zero]
    apply Finset.sum_eq_zero
    intro t ht
    have ht2 : t < nx - (jj + 1) := Finset.mem_range.1 ht
    rw [lowerFactor_far nx L kk (jj + 1 + t) k1 ii (by omega) hii hk1, mul_zero]
  · intro k2 l hk hl
    show lowerFactor nx L (k2 * nx + l) (kk * nx + jj)
      * lowerFactor nx L (k2 * nx + l) (k1 * nx + ii) = 0
    rw [lowerFactor_far nx L k2 l kk jj hl hjj hk, zero_mul]

/-- The pivot squared-sum of the reverse factorization in the dense reading:
`H[c][c]` minus the squares of column `c` of the factor below row `c`. -/
theorem factorizeNewtonHessianBottomUp_pivotSum_dense {α : Type} [LinearOrderedField α]
    (NI nx : Nat) (H L : xn2x_matrix_t α) (kk jj : Nat) (hkk : kk < NI) (hjj : jj < nx) :
    factorizeNewtonHessianBottomUp_pivotSum NI nx H L kk jj
      = fullHessian nx H (kk * nx + jj) (kk * nx + jj)
        - ∑ u in Finset.range (NI * nx - (kk * nx + jj) - 1),
            lowerFactor nx L (kk * nx + jj + 1 + u) (kk * nx + jj)
              * lowerFactor nx L (kk * nx + jj + 1 + u) (kk * nx + jj) := by
  rw [colProduct_sameBlock nx NI L kk jj jj hkk hjj le_rfl,
    fullHessian_diag nx H kk jj jj hjj hjj]
  unfold factorizeNewtonHessianBottomUp_pivotSum
  by_cases hk : kk + 1 < NI
  · have hk2 : (kk : Int) < (NI : Int) - 1 := by omega
    simp only [if_pos hk, if_pos hk2, subLoop_range, subLoop_range']
    ring
  · have hk2 : ¬ (kk : Int) < (NI : Int) - 1 := by omega
    simp only [if_neg hk, if_neg hk2, subLoop_range']
    ring

/-- A column step of the reverse factorization extends the reverse Cholesky rows: if
the rows after `c = kk*nx + jj` are done and the step writes the square root of a
positive pivot sum and the updates of row `c`, the rows from `c` on are done. -/
theorem factorizeNewtonHessianBottomUp_column_dense {α : Type} [LinearOrderedField α]
    (sqrt : α → α) (hsqrt : SqrtSpec sqrt) (NI nx : Nat) (H L L1 : xn2x_matrix_t α)
    (kk jj : Nat) (hkk : kk < NI) (hjj : jj < nx) (s : α)
    (hs : s = factorizeNewtonHessianBottomUp_pivotSum NI nx H L kk jj) (hspos : 0 < s)
    (hdiag : L1 (kk, 0, jj, jj) = sqrt s)
    (hcol : ∀ ii, ii < jj →
      L1 (kk, 0, jj, ii)
        = (H (kk, 0, jj, ii)
            - ∑ t in Finset.range (nx - (jj + 1)),
                L (kk, 0, jj + 1 + t, ii) * L (kk, 0, jj + 1 + t, jj)
            - (if kk + 1 < NI then
                ∑ ll in Finset.range nx, L (kk + 1, -1, ll, ii) * L (kk + 1, -1, ll, jj)
               else 0)) / sqrt s)
    (hsub : kk > 0 → ∀ ii, ii < nx →
      L1 (kk, -1, jj, ii)
        = (H (kk, -1, jj, ii)
            - ∑ t in Finset.range (nx - (jj + 1)),
                L (kk, -1, jj + 1 + t, ii) * L (kk, 0, jj + 1 + t, jj)) / sqrt s)
    (hframe : ∀ x, (∀ ii, x ≠ (kk, (0 : Int), jj, ii)) →
      (∀ ii, x ≠ (kk, (-1 : Int), jj, ii)) → L1 x = L x)
    (hInv : cholRowsDone (NI * nx) (kk * nx + jj + 1) (fullHessian nx H) (lowerFactor nx L)) :
    cholRowsDone (NI * nx) (kk * nx + jj) (fullHessian nx H) (lowerFactor nx L1) := by
  have hfr := lowerFactor_frame_reverse nx L L1 kk jj hframe
  have hsq : 0 < sqrt s := sqrt_pos_of_pos sqrt hsqrt s hspos
  have hsq2 : sqrt s * sqrt s = s := hsqrt.sq s (le_of_lt hspos)
  have hne : sqrt s ≠ 0 := ne_of_gt hsq
  have hcc : lowerFactor nx L1 (kk * nx + jj) (kk * nx + jj) = sqrt s := by
    rw [lowerFactor_diag nx L1 kk jj jj hjj le_rfl, hdiag]
  have hc : kk * nx + jj < NI * nx := idx_lt_of_block_lt nx NI kk jj hkk hjj
  intro t ht1 ht2
  by_cases htc : t = kk * nx + jj
  · subst htc
    refine ⟨by rw [hcc]; exact hsq, ?_⟩
    intro r hr
    have hsum : ∑ u in Finset.range (NI * nx - (kk * nx + jj)),
          lowerFactor nx L1 (kk * nx + jj + u) (kk * nx + jj)
            * lowerFactor nx L1 (kk * nx + jj + u) r
        = ∑ u in Finset.range (NI * nx - (kk * nx + jj) - 1),
            lowerFactor nx L (kk * nx + jj + 1 + u) (kk * nx + jj)
              * lowerFactor nx L (kk * nx + jj + 1 + u) r
          + sqrt s * lowerFactor nx L1 (kk * nx + jj) r := by
      have e1 : NI * nx - (kk * nx + jj) = (NI * nx - (kk * nx + jj) - 1) + 1 := by omega
      rw [e1, Finset.sum_range_succ', Nat.add_zero, hcc, Nat.add_sub_cancel]
      congr 1
      apply Finset.sum_congr rfl
      intro u _
      have e2 : kk * nx + jj + (u + 1) = kk * nx + jj + 1 + u := by omega
      rw [e2, hfr _ _ (by omega), hfr _ _ (by omega)]
    rw [hsum]
    obtain ⟨k1, i, hi, rfl⟩ := exists_block_idx nx r (by omega)
    have hk1 : k1 ≤ kk := block_le_of_idx_le nx k1 i kk jj hjj hr
    rcases Nat.lt_or_ge k1 kk with hlt | hge
    · rcases Nat.lt_or_ge (k1 + 1) kk with hfar | hnear
      · rw [colProduct_farBlock nx NI L kk k1 i jj hkk hjj hi hfar,
          lowerFactor_far nx L1 kk jj k1 i hjj hi hfar,
          fullHessian_far nx H kk jj k1 i hjj hi hfar]
        ring
      · have hk3 : kk = k1 + 1 := by omega
        subst hk3
        rw [colProduct_prevBlock nx NI L k1 i jj hkk hjj hi,
          lowerFactor_sub nx L1 k1 jj i hjj hi, fullHessian_sub nx H k1 jj i hjj hi,
          hsub (by omega) i hi]
        field_simp
    · have hk3 : k1 = kk := by omega
      subst hk3
      have hij : i ≤ jj := by omega
      rcases Nat.lt_or_ge i jj with hlt2 | hge2
      · rw [colProduct_sameBlock nx NI L k1 i jj hkk hjj hij,
          lowerFactor_diag nx L1 k1 jj i hjj hij, fullHessian_diag nx H k1 jj i hjj hi,
          hcol i hlt2]
        field_simp
      · have hij2 : i = jj := by omega
        subst hij2
        rw [hcc, hsq2, hs, factorizeNewtonHessianBottomUp_pivotSum_dense NI nx H L k1 i hkk hi]
        ring
  · obtain ⟨p1, p2⟩ := hInv t (by omega) ht2
    refine ⟨by rw [hfr t t htc]; exact p1, ?_⟩
    intro r hr
    rw [p2 r hr]
    apply Finset.sum_congr rfl
    intro u _
    rw [hfr (t + u) t (by omega), hfr (t + u) r (by omega)]

theorem loopExcept_range_reverse_inv {ε σ : Type} (body : σ → Nat → Except ε σ)
    (P : Nat → σ → Prop) (Q : ε → Prop) (n : Nat)
    (h : ∀ i, i < n → ∀ s, P (i + 1) s → outcome (P i) Q (body s i)) :
    ∀ s, P n s → outcome (P 0) Q (loopExcept body (List.range n).reverse s) := by
  induction n with
  | zero => intro s hs; exact hs
  | succ n ih =>
    intro s hs
    rw [List.range_succ, List.reverse_append, List.reverse_singleton, List.singleton_append]
    simp only [loopExcept]
    have h2 := h n (Nat.lt_succ_self n) s hs
    cases hb : body s n with
    | error e => rw [hb] at h2; exact h2
    | ok s1 =>
      rw [hb] at h2
      exact ih (fun i hi => h i (Nat.lt_succ_of_lt hi)) s1 h2

/-- One column of the reverse factorization of a symmetric positive-definite Hessian:
as long as every recorded pivot sum was accepted, the rows done so far are reverse
Cholesky rows; a return inside the loop records a pivot sum that was not accepted. -/
theorem factorizeNewtonHessianBottomUp_column_step {α : Type} [LinearOrderedField α]
    (sqrt : α → α) (hsqrt : SqrtSpec sqrt) (debug : Bool) (opts : qpOptions_t α)
    (NI nx : Nat) (H : xn2x_matrix_t α) (hspd : IsSPD (NI * nx) (fullHessian nx H))
    (kk jj : Nat) (hkk : kk < NI) (hjj : jj < nx) (st : factor_state α)
    (hP : pivotsAcceptedBottomUp opts st →
      cholRowsDone (NI * nx) (kk * nx + jj + 1) (fullHessian nx H)
        (lowerFactor nx st.cholHessian)) :
    outcome
      (fun st1 => pivotsAcceptedBottomUp opts st1 →
        cholRowsDone (NI * nx) (kk * nx + jj) (fullHessian nx H)
          (lowerFactor nx st1.cholHessian))
      (fun e => ¬ pivotsAcceptedBottomUp opts e.2)
      (factorizeNewtonHessianBottomUp_column sqrt debug opts NI nx H kk jj st) := by
  unfold factorizeNewtonHessianBottomUp_column factorizeNewtonHessianBottomUp_check
  have hbad : ¬ pivotAcceptedBottomUp opts
        (factorizeNewtonHessianBottomUp_pivotSum NI nx H st.cholHessian kk jj) →
      ∀ st1 : factor_state α,
        st1.pivots
          = st.pivots ++ [factorizeNewtonHessianBottomUp_pivotSum NI nx H st.cholHessian kk jj] →
        ¬ pivotsAcceptedBottomUp opts st1 := by
    intro h0 st1 h1 h2
    exact h0 (h2 _ (by rw [h1]; simp))
  by_cases hsd : opts.regType = regType_t.QPDUNES_REG_SINGULAR_DIRECTIONS
      ∧ factorizeNewtonHessianBottomUp_pivotSum NI nx H st.cholHessian kk jj
          < opts.newtonHessDiagRegTolerance
  · have hna : ¬ pivotAcceptedBottomUp opts
        (factorizeNewtonHessianBottomUp_pivotSum NI nx H st.cholHessian kk jj) := by
      intro h
      exact absurd hsd.2 (not_lt.2 (h.1 hsd.1))
    simp only [if_pos hsd]
    by_cases hdbg : debug = true
        ∧ factorizeNewtonHessianBottomUp_pivotSum NI nx H st.cholHessian kk jj + opts.regParam
            < opts.newtonHessDiagRegTolerance
    · simp only [if_pos hdbg, outcome]
      exact hbad hna _ rfl
    · simp only [if_neg hdbg, outcome]
      intro hG
      exact absurd hG (hbad hna _ rfl)
  · simp only [if_neg hsd]
    by_cases hlt : factorizeNewtonHessianBottomUp_pivotSum NI nx H st.cholHessian kk jj
        < 100 * opts.equalityTolerance
    · have hna : ¬ pivotAcceptedBottomUp opts
          (factorizeNewtonHessianBottomUp_pivotSum NI nx H st.cholHessian kk jj) := by
        intro h
        exact absurd hlt (not_lt.2 h.2)
      simp only [if_pos hlt, outcome]
      exact hbad hna _ rfl
    · simp only [if_neg hlt, outcome]
      intro hG
      have hG0 : pivotsAcceptedBottomUp opts st := by
        intro s hs
        exact hG s (List.mem_append_left _ hs)
      have hInv := hP hG0
      have hc : kk * nx + jj < NI * nx := idx_lt_of_block_lt nx NI kk jj hkk hjj
      have hspos : 0 < factorizeNewtonHessianBottomUp_pivotSum NI nx H st.cholHessian kk jj := by
        rw [factorizeNewtonHessianBottomUp_pivotSum_dense NI nx H st.cholHessian kk jj hkk hjj]
        exact chol_pivot_pos_reverse (NI * nx) (kk * nx + jj) hc (fullHessian nx H)
          (lowerFactor nx st.cholHessian) hspd.1 hspd.2
          (fun t ht1 ht2 => ne_of_gt (hInv t (by omega) ht2).1)
          (fun t ht1 ht2 r _ hr2 => (hInv t (by omega) ht2).2 r hr2)
      obtain ⟨d1, d2⟩ := factorizeNewtonHessianBottomUp_diagBlock_spec NI nx H kk jj
        (Function.update st.cholHessian (kk, 0, jj, jj)
          (sqrt (factorizeNewtonHessianBottomUp_pivotSum NI nx H st.cholHessian kk jj)))
      obtain ⟨b1, b2⟩ := factorizeNewtonHessianBottomUp_subBlock_spec nx H kk jj
        (factorizeNewtonHessianBottomUp_diagBlock NI nx H kk jj
          (Function.update st.cholHessian (kk, 0, jj, jj)
            (sqrt (factorizeNewtonHessianBottomUp_pivotSum NI nx H st.cholHessian kk jj))))
      have u1 : ∀ x, x ≠ (kk, (0 : Int), jj, jj) →
          Function.update st.cholHessian (kk, 0, jj, jj)
            (sqrt (factorizeNewtonHessianBottomUp_pivotSum NI nx H st.cholHessian kk jj)) x
            = st.cholHessian x := fun x hx => Function.update_noteq hx _ _
      have ne1 : ∀ (a b c d e f : Nat), a ≠ d ∨ b ≠ e ∨ c ≠ f →
          ((a, (0 : Int), b, c) : Nat × Int × Nat × Nat) ≠ (d, (0 : Int), e, f) := by
        intro a b c d e f h h2
        simp only [Prod.mk.injEq] at h2
        omega
      have ne2 : ∀ (a b c d e f : Nat),
          ((a, (0 : Int), b, c) : Nat × Int × Nat × Nat) ≠ (d, (-1 : Int), e, f) := by
        intro a b c d e f h2
        simp only [Prod.mk.injEq] at h2
        omega
      have ne3 : ∀ (a b c d e f : Nat),
          ((a, (-1 : Int), b, c) : Nat × Int × Nat × Nat) ≠ (d, (0 : Int), e, f) := by
        intro a b c d e f h2
        simp only [Prod.mk.injEq] at h2
        omega
      have ne4 : ∀ (a b c d e f : Nat), a ≠ d ∨ b ≠ e ∨ c ≠ f →
          ((a, (-1 : Int), b, c) : Nat × Int × Nat × Nat) ≠ (d, (-1 : Int), e, f) := by
        intro a b c d e f h h2
        simp only [Prod.mk.injEq] at h2
        omega
      have dg : factorizeNewtonHessianBottomUp_diagBlock NI nx H kk jj
            (Function.update st.cholHessian (kk, 0, jj, jj)
              (sqrt (factorizeNewtonHessianBottomUp_pivotSum NI nx H st.cholHessian kk jj)))
            (kk, 0, jj, jj)
          = sqrt (factorizeNewtonHessianBottomUp_pivotSum NI nx H st.cholHessian kk jj) := by
        rw [d1 _ (fun ii h1 => ne1 _ _ _ _ _ _ (Or.inr (Or.inr (by omega)))),
          Function.update_same]
      apply factorizeNewtonHessianBottomUp_column_dense sqrt hsqrt NI nx H st.cholHessian _
        kk jj hkk hjj
        (factorizeNewtonHessianBottomUp_pivotSum NI nx H st.cholHessian kk jj) rfl hspos
      · show factorizeNewtonHessianBottomUp_subBlock nx H kk jj _ (kk, 0, jj, jj) = _
        rw [b1 _ (fun ii _ => ne2 _ _ _ _ _ _), dg]
      · intro ii h1
        show factorizeNewtonHessianBottomUp_subBlock nx H kk jj _ (kk, 0, jj, ii) = _
        rw [b1 _ (fun ii _ => ne2 _ _ _ _ _ _), d2 ii h1, Function.update_same]
        congr 1
        congr 1
        · congr 1
          apply Finset.sum_congr rfl
          intro t _
          rw [u1 _ (ne1 _ _ _ _ _ _ (Or.inr (Or.inl (by omega)))),
            u1 _ (ne1 _ _ _ _ _ _ (Or.inr (Or.inl (by omega))))]
        · by_cases hk : kk + 1 < NI
          · simp only [if_pos hk]
            apply Finset.sum_congr rfl
            intro ll _
            rw [u1 _ (ne3 _ _ _ _ _ _), u1 _ (ne3 _ _ _ _ _ _)]
          · simp only [if_neg hk]
      · intro hk ii h2
        show factorizeNewtonHessianBottomUp_subBlock nx H kk jj _ (kk, -1, jj, ii) = _
        rw [b2 hk ii h2, dg]
        congr 1
        congr 1
        apply Finset.sum_congr rfl
        intro t _
        rw [d1 _ (fun ii _ => ne3 _ _ _ _ _ _), u1 _ (ne3 _ _ _ _ _ _),
          d1 _ (fun ii _ => ne1 _ _ _ _ _ _ (Or.inr (Or.inl (by omega)))),
          u1 _ (ne1 _ _ _ _ _ _ (Or.inr (Or.inl (by omega))))]
      · intro x hx1 hx2
        show factorizeNewtonHessianBottomUp_subBlock nx H kk jj _ x = _
        rw [b1 x (fun ii _ => hx2 ii), d1 x (fun ii _ => hx1 ii), u1 x (hx1 jj)]
      · exact hInv

/-- When all rows are done, the product of the transpose of the factor with the factor
is the whole matrix. -/
theorem cholRowsDone_product {α : Type} [LinearOrderedField α] (n : Nat)
    (A Lf : Nat → Nat → α) (hsym : ∀ r m, r < n → m < n → A r m = A m r)
    (hup : ∀ r m, r < m → Lf r m = 0) (hdone : cholRowsDone n 0 A Lf)
    (r m : Nat) (hr : r < n) (hm : m < n) :
    ∑ t in Finset.range n, Lf t r * Lf t m = A r m := by
  have key : ∀ t r, r ≤ t → t < n → ∑ u in Finset.range n, Lf u t * Lf u r = A t r := by
    intro t r hrt ht
    rw [(hdone t (Nat.zero_le t) ht).2 r hrt]
    have e1 : n = t + (n - t) := by omega
    conv_lhs => rw [e1]
    rw [Finset.sum_range_add]
    have h0 : ∑ u in Finset.range t, Lf u t * Lf u r = 0 := by
      apply Finset.sum_eq_zero
      intro u hu
      rw [hup u t (Finset.mem_range.1 hu), zero_mul]
    rw [h0, zero_add]
  rcases Nat.lt_or_ge r m with h | h
  · rw [hsym r m hr hm, ← key m r (Nat.le_of_lt h) hm]
    apply Finset.sum_congr rfl
    intro t _
    ring
  · exact key r m h hr

theorem blockIdxStart_full (NI : Nat) (lastActSetChangeIdx : Int)
    (h : (NI : Int) - 1 ≤ lastActSetChangeIdx) :
    (blockIdxStart NI lastActSetChangeIdx + 1).toNat = NI := by
  unfold blockIdxStart
  by_cases h0 : lastActSetChangeIdx ≥ 0
  · rw [if_pos h0, min_eq_right h]
    omega
  · rw [if_neg h0]
    omega

/-- The loops of a full reverse factorization of a symmetric positive-definite
Hessian. -/
theorem factorizeNewtonHessianBottomUp_loops {α : Type} [LinearOrderedField α]
    (sqrt : α → α) (hsqrt : SqrtSpec sqrt) (debug : Bool) (opts : qpOptions_t α)
    (NI nx : Nat) (H : xn2x_matrix_t α) (hspd : IsSPD (NI * nx) (fullHessian nx H))
    (st : factor_state α) :
    outcome
      (fun st1 => pivotsAcceptedBottomUp opts st1 →
        cholRowsDone (NI * nx) 0 (fullHessian nx H) (lowerFactor nx st1.cholHessian))
      (fun e => ¬ pivotsAcceptedBottomUp opts e.2)
      (loopExcept
        (fun st kk => loopExcept
          (fun st jj =>
            factorizeNewtonHessianBottomUp_column sqrt debug opts NI nx H kk jj st)
          (List.range nx).reverse st)
        (List.range NI).reverse st) := by
  have h := loopExcept_range_reverse_inv
    (fun st kk => loopExcept
      (fun st jj => factorizeNewtonHessianBottomUp_column sqrt debug opts NI nx H kk jj st)
      (List.range nx).reverse st)
    (fun K st1 => pivotsAcceptedBottomUp opts st1 →
      cholRowsDone (NI * nx) (K * nx) (fullHessian nx H) (lowerFactor nx st1.cholHessian))
    (fun e => ¬ pivotsAcceptedBottomUp opts e.2) NI
    (by
      intro kk hkk st1 hP
      have h1 := loopExcept_range_reverse_inv
        (fun st jj => factorizeNewtonHessianBottomUp_column sqrt debug opts NI nx H kk jj st)
        (fun J st1 => pivotsAcceptedBottomUp opts st1 →
          cholRowsDone (NI * nx) (kk * nx + J) (fullHessian nx H)
            (lowerFactor nx st1.cholHessian))
        (fun e => ¬ pivotsAcceptedBottomUp opts e.2) nx
        (fun jj hjj st2 hP2 =>
          factorizeNewtonHessianBottomUp_column_step sqrt hsqrt debug opts NI nx H hspd
            kk jj hkk hjj st2 hP2)
        st1
        (by
          intro hG
          have := hP hG
          rw [Nat.add_mul, Nat.one_mul] at this
          exact this)
      exact h1)
    st
    (by
      intro _ t ht1 ht2
      omega)
  apply outcome_mono _ _ _ _ _ h
  intro st2 h2 hG
  have h3 := h2 hG
  rw [Nat.zero_mul] at h3
  exact h3

/-- C3 (as amended). Reverse Cholesky correctness: for every symmetric
positive-definite block-tridiagonal Hessian `H` whose pivot squared-sums are all
accepted (not regularized, not below `1.e2 * equalityTolerance`), a full run of
`qpDUNES_factorizeNewtonHessianBottomUp` (`lastActSetChangeIdx >= N-1`) returns
`QPDUNES_OK` and the lower-triangular block-banded factor `L` it stores satisfies
`L^T * L = H` exactly, entry by entry of the `N*nx` by `N*nx` matrices. -/
theorem factorizeNewtonHessianBottomUp_correct {α : Type} [LinearOrderedField α]
    (sqrt : α → α) (hsqrt : SqrtSpec sqrt) (debug : Bool) (opts : qpOptions_t α)
    (NI nx : Nat) (H cholHessian : xn2x_matrix_t α) (isReg : Bool)
    (lastActSetChangeIdx : Int) (hfull : (NI : Int) - 1 ≤ lastActSetChangeIdx)
    (hspd : IsSPD (NI * nx) (fullHessian nx H))
    (hpiv : ∀ s ∈ (qpDUNES_factorizeNewtonHessianBottomUp sqrt debug opts NI nx H
        lastActSetChangeIdx ⟨cholHessian, isReg, []⟩).2.pivots,
          pivotAcceptedBottomUp opts s) :
    (qpDUNES_factorizeNewtonHessianBottomUp sqrt debug opts NI nx H lastActSetChangeIdx
        ⟨cholHessian, isReg, []⟩).1 = QPDUNES_OK
    ∧ ∀ r m, r < NI * nx → m < NI * nx →
        ∑ t in Finset.range (NI * nx),
          lowerFactor nx (qpDUNES_factorizeNewtonHessianBottomUp sqrt debug opts NI nx H
              lastActSetChangeIdx ⟨cholHessian, isReg, []⟩).2.cholHessian t r
            * lowerFactor nx (qpDUNES_factorizeNewtonHessianBottomUp sqrt debug opts NI nx H
              lastActSetChangeIdx ⟨cholHessian, isReg, []⟩).2.cholHessian t m
        = fullHessian nx H r m := by
  have h := factorizeNewtonHessianBottomUp_loops sqrt hsqrt debug opts NI nx H hspd
    ⟨cholHessian, isReg, []⟩
  unfold qpDUNES_factorizeNewtonHessianBottomUp at hpiv ⊢
  rw [blockIdxStart_full NI lastActSetChangeIdx hfull] at hpiv ⊢
  cases hr : loopExcept
      (fun st kk => loopExcept
        (fun st jj => factorizeNewtonHessianBottomUp_column sqrt debug opts NI nx H kk jj st)
        (List.range nx).reverse st)
      (List.range NI).reverse (⟨cholHessian, isReg, []⟩ : factor_state α) with
  | error e =>
    rw [hr] at h hpiv
    exact absurd hpiv h
  | ok st1 =>
    rw [hr] at h hpiv
    refine ⟨rfl, ?_⟩
    intro r m hr2 hm
    exact cholRowsDone_product (NI * nx) (fullHessian nx H)
      (lowerFactor nx st1.cholHessian) hspd.1
      (fun r m h2 => lowerFactor_upper nx st1.cholHessian r m h2) (h hpiv) r m hr2 hm

theorem exampleHessianBottomUp_spd :
    IsSPD (2 * 1) (fullHessian 1 (exampleHessianBottomUp ℝ)) := by
  constructor
  · intro r m hr hm
    have hr2 : r = 0 ∨ r = 1 := by omega
    have hm2 : m = 0 ∨ m = 1 := by omega
    rcases hr2 with rfl | rfl <;> rcases hm2 with rfl | rfl <;>
      simp [fullHessian, exampleHessianBottomUp]
  · rintro x ⟨i, hi, hx⟩
    have hi2 : i = 0 ∨ i = 1 := by omega
    have e : ∑ r in Finset.range (2 * 1), ∑ m in Finset.range (2 * 1),
        x r * fullHessian 1 (exampleHessianBottomUp ℝ) r m * x m
        = (x 0 + x 1) ^ 2 + x 0 ^ 2 := by
      simp [Finset.sum_range_succ, fullHessian, exampleHessianBottomUp]
      ring
    rw [e]
    rcases hi2 with rfl | rfl
    · have : 0 < x 0 ^ 2 := by positivity
      nlinarith [sq_nonneg (x 0 + x 1)]
    · by_cases h1 : x 0 = 0
      · rw [h1]
        have : 0 < x 1 ^ 2 := by positivity
        simpa using this
      · have : 0 < x 0 ^ 2 := by positivity
        nlinarith [sq_nonneg (x 0 + x 1)]

theorem exampleHessianBottomUp_run (isReg : Bool) (regType : regType_t) :
    qpDUNES_factorizeNewtonHessianBottomUp Real.sqrt false
        (exampleOptions ℝ regType nwtnHssnFacAlg_t.QPDUNES_NH_FAC_BAND_REVERSE)
        2 1 (exampleHessianBottomUp ℝ) 1 ⟨fun _ => 0, isReg, []⟩
      = (QPDUNES_OK,
          ⟨Function.update (Function.update (Function.update (fun _ => 0)
              (1, 0, 0, 0) 1) (1, -1, 0, 0) 1) (0, 0, 0, 0) 1,
            isReg, [1, 1]⟩) := by
  norm_num [qpDUNES_factorizeNewtonHessianBottomUp, blockIdxStart, loopExcept,
    List.range_succ, factorizeNewtonHessianBottomUp_column,
    factorizeNewtonHessianBottomUp_pivotSum, factorizeNewtonHessianBottomUp_check,
    factorizeNewtonHessianBottomUp_diagBlock, factorizeNewtonHessianBottomUp_subBlock,
    factor_finish, subLoop, exampleOptions, exampleHessianBottomUp, Function.update,
    -Prod.mk_zero_zero, -Prod.mk_eq_zero]

theorem exampleHessianBottomUp_accepted :
    ∀ s ∈ (qpDUNES_factorizeNewtonHessianBottomUp Real.sqrt false
        (exampleOptions ℝ regType_t.QPDUNES_REG_LEVENBERG_MARQUARDT
          nwtnHssnFacAlg_t.QPDUNES_NH_FAC_BAND_REVERSE)
        2 1 (exampleHessianBottomUp ℝ) 1 ⟨fun _ => 0, false, []⟩).2.pivots,
      pivotAcceptedBottomUp
        (exampleOptions ℝ regType_t.QPDUNES_REG_LEVENBERG_MARQUARDT
          nwtnHssnFacAlg_t.QPDUNES_NH_FAC_BAND_REVERSE) s := by
  rw [exampleHessianBottomUp_run]
  intro s hs
  have hs1 : s = 1 := by simpa using hs
  subst hs1
  constructor
  · intro h
    exact absurd h (by decide)
  · norm_num [exampleOptions]

/-- Witness for C3 (as amended): the Hessian `[[2, 1], [1, 1]]` (two block rows,
`nx = 1`), whose reverse pivot squared-sums are `1` and `1`. -/
theorem factorizeNewtonHessianBottomUp_correct_witness :
    SqrtSpec Real.sqrt ∧ IsSPD (2 * 1) (fullHessian 1 (exampleHessianBottomUp ℝ))
    ∧ (qpDUNES_factorizeNewtonHessianBottomUp Real.sqrt false
        (exampleOptions ℝ regType_t.QPDUNES_REG_LEVENBERG_MARQUARDT
          nwtnHssnFacAlg_t.QPDUNES_NH_FAC_BAND_REVERSE)
        2 1 (exampleHessianBottomUp ℝ) 1 ⟨fun _ => 0, false, []⟩).1 = QPDUNES_OK
    ∧ ∀ r m, r < 2 * 1 → m < 2 * 1 →
        ∑ t in Finset.range (2 * 1),
          lowerFactor 1 (qpDUNES_factorizeNewtonHessianBottomUp Real.sqrt false
            (exampleOptions ℝ regType_t.QPDUNES_REG_LEVENBERG_MARQUARDT
              nwtnHssnFacAlg_t.QPDUNES_NH_FAC_BAND_REVERSE)
            2 1 (exampleHessianBottomUp ℝ) 1 ⟨fun _ => 0, false, []⟩).2.cholHessian t r
          * lowerFactor 1 (qpDUNES_factorizeNewtonHessianBottomUp Real.sqrt false
            (exampleOptions ℝ regType_t.QPDUNES_REG_LEVENBERG_MARQUARDT
              nwtnHssnFacAlg_t.QPDUNES_NH_FAC_BAND_REVERSE)
            2 1 (exampleHessianBottomUp ℝ) 1 ⟨fun _ => 0, false, []⟩).2.cholHessian t m
        = fullHessian 1 (exampleHessianBottomUp ℝ) r m :=
  ⟨real_sqrtSpec, exampleHessianBottomUp_spd,
    factorizeNewtonHessianBottomUp_correct Real.sqrt real_sqrtSpec false
      (exampleOptions ℝ regType_t.QPDUNES_REG_LEVENBERG_MARQUARDT
        nwtnHssnFacAlg_t.QPDUNES_NH_FAC_BAND_REVERSE)
      2 1 (exampleHessianBottomUp ℝ) (fun _ => 0) false 1 (by norm_num)
      exampleHessianBottomUp_spd exampleHessianBottomUp_accepted⟩

/-- Counterexample to C3 as stated: the symmetric positive-definite Hessian
`[[2, 1], [1, 1]]` (two block rows, `nx = 1`). The full reverse factorization returns
`QPDUNES_OK`, every pivot squared-sum is accepted, the factor is `L = [[1, 0], [1, 1]]`,
and the entry `(0,0)` of `L * L^T` is `1`, not `H[0][0] = 2`. -/
theorem factorizeNewtonHessianBottomUp_LLT_counterexample :
    IsSPD (2 * 1) (fullHessian 1 (exampleHessianBottomUp ℝ))
    ∧ (qpDUNES_factorizeNewtonHessianBottomUp Real.sqrt false
        (exampleOptions ℝ regType_t.QPDUNES_REG_LEVENBERG_MARQUARDT
          nwtnHssnFacAlg_t.QPDUNES_NH_FAC_BAND_REVERSE)
        2 1 (exampleHessianBottomUp ℝ) 1 ⟨fun _ => 0, false, []⟩).1 = QPDUNES_OK
    ∧ (∀ s ∈ (qpDUNES_factorizeNewtonHessianBottomUp Real.sqrt false
        (exampleOptions ℝ regType_t.QPDUNES_REG_LEVENBERG_MARQUARDT
          nwtnHssnFacAlg_t.QPDUNES_NH_FAC_BAND_REVERSE)
        2 1 (exampleHessianBottomUp ℝ) 1 ⟨fun _ => 0, false, []⟩).2.pivots,
      pivotAcceptedBottomUp
        (exampleOptions ℝ regType_t.QPDUNES_REG_LEVENBERG_MARQUARDT
          nwtnHssnFacAlg_t.QPDUNES_NH_FAC_BAND_REVERSE) s)
    ∧ ∑ t in Finset.range (2 * 1),
        lowerFactor 1 (qpDUNES_factorizeNewtonHessianBottomUp Real.sqrt false
          (exampleOptions ℝ regType_t.QPDUNES_REG_LEVENBERG_MARQUARDT
            nwtnHssnFacAlg_t.QPDUNES_NH_FAC_BAND_REVERSE)
          2 1 (exampleHessianBottomUp ℝ) 1 ⟨fun _ => 0, false, []⟩).2.cholHessian 0 t
        * lowerFactor 1 (qpDUNES_factorizeNewtonHessianBottomUp Real.sqrt false
          (exampleOptions ℝ regType_t.QPDUNES_REG_LEVENBERG_MARQUARDT
            nwtnHssnFacAlg_t.QPDUNES_NH_FAC_BAND_REVERSE)
          2 1 (exampleHessianBottomUp ℝ) 1 ⟨fun _ => 0, false, []⟩).2.cholHessian 0 t
      ≠ fullHessian 1 (exampleHessianBottomUp ℝ) 0 0 := by
  refine ⟨exampleHessianBottomUp_spd, ?_, exampleHessianBottomUp_accepted, ?_⟩
  · rw [exampleHessianBottomUp_run]
  · rw [exampleHessianBottomUp_run]
    have e1 : fullHessian 1 (exampleHessianBottomUp ℝ) 0 0 = 2 := by
      norm_num [fullHessian, exampleHessianBottomUp, -Prod.mk_zero_zero, -Prod.mk_eq_zero]
    rw [e1]
    norm_num [Finset.sum_range_succ, lowerFactor, Function.update,
      -Prod.mk_zero_zero, -Prod.mk_eq_zero]

/-! ## Back-substitution in the dense reading -/

/-- A sum over all rows of a column of a lower-triangular matrix starts at the
diagonal. -/
theorem sum_lower_column {α : Type} [LinearOrderedField α] (n t : Nat) (ht : t < n)
    (Lf : Nat → Nat → α) (hup : ∀ r m, r < m → Lf r m = 0) (x : Nat → α) :
    ∑ m in Finset.range n, Lf m t * x m
      = ∑ u in Finset.range (n - t), Lf (t + u) t * x (t + u) := by
  have e1 : n = t + (n - t) := by omega
  conv_lhs => rw [e1]
  rw [Finset.sum_range_add]
  have h0 : ∑ u in Finset.range t, Lf u t * x u = 0 := by
    apply Finset.sum_eq_zero
    intro u hu
    rw [hup u t (Finset.mem_range.1 hu), zero_mul]
  rw [h0, zero_add]

/-- A sum over all columns of a row of a lower-triangular matrix stops at the
diagonal. -/
theorem sum_lower_row {α : Type} [LinearOrderedField α] (n r : Nat) (hr : r < n)
    (Lf : Nat → Nat → α) (hup : ∀ r m, r < m → Lf r m = 0) (x : Nat → α) :
    ∑ t in Finset.range n, Lf r t * x t = ∑ t in Finset.range (r + 1), Lf r t * x t := by
  have hsub : Finset.range (r + 1) ⊆ Finset.range n := by
    intro u hu
    simp only [Finset.mem_range] at hu ⊢
    omega
  rw [← Finset.sum_subset hsub]
  intro u _ hu
  simp only [Finset.mem_range] at hu
  rw [hup r u (by omega), zero_mul]

/-- Solving `L y = g` and then `L^T x = y` solves `A x = g` when `L L^T = A`. -/
theorem solve_of_LLT {α : Type} [LinearOrderedField α] (n : Nat) (A Lf : Nat → Nat → α)
    (x y g : Nat → α) (hup : ∀ r m, r < m → Lf r m = 0)
    (hA : ∀ r m, r < n → m < n → ∑ t in Finset.range n, Lf r t * Lf m t = A r m)
    (hy : ∀ r, r < n → ∑ t in Finset.range (r + 1), Lf r t * y t = g r)
    (hx : ∀ r, r < n → ∑ u in Finset.range (n - r), Lf (r + u) r * x (r + u) = y r)
    (r : Nat) (hr : r < n) :
    ∑ m in Finset.range n, A r m * x m = g r := by
  have h1 : ∑ m in Finset.range n, A r m * x m
      = ∑ t in Finset.range n, Lf r t * ∑ m in Finset.range n, Lf m t * x m := by
    have : ∀ m ∈ Finset.range n, A r m * x m
        = ∑ t in Finset.range n, Lf r t * (Lf m t * x m) := by
      intro m hm
      rw [← hA r m hr (Finset.mem_range.1 hm), Finset.sum_mul]
      apply Finset.sum_congr rfl
      intro t _
      ring
    rw [Finset.sum_congr rfl this, Finset.sum_comm]
    apply Finset.sum_congr rfl
    intro t _
    rw [Finset.mul_sum]
  have h2 : ∀ t ∈ Finset.range n, Lf r t * ∑ m in Finset.range n, Lf m t * x m
      = Lf r t * y t := by
    intro t ht
    rw [sum_lower_column n t (Finset.mem_range.1 ht) Lf hup x, hx t (Finset.mem_range.1 ht)]
  rw [h1, Finset.sum_congr rfl h2, sum_lower_row n r hr Lf hup y, hy r hr]

/-- Solving `L^T y = g` and then `L x = y` solves `A x = g` when `L^T L = A`. -/
theorem solve_of_LTL {α : Type} [LinearOrderedField α] (n : Nat) (A Lf : Nat → Nat → α)
    (x y g : Nat → α) (hup : ∀ r m, r < m → Lf r m = 0)
    (hA : ∀ r m, r < n → m < n → ∑ t in Finset.range n, Lf t r * Lf t m = A r m)
    (hy : ∀ r, r < n → ∑ u in Finset.range (n - r), Lf (r + u) r * y (r + u) = g r)
    (hx : ∀ r, r < n → ∑ t in Finset.range (r + 1), Lf r t * x t = y r)
    (r : Nat) (hr : r < n) :
    ∑ m in Finset.range n, A r m * x m = g r := by
  have h1 : ∑ m in Finset.range n, A r m * x m
      = ∑ t in Finset.range n, Lf t r * ∑ m in Finset.range n, Lf t m * x m := by
    have : ∀ m ∈ Finset.range n, A r m * x m
        = ∑ t in Finset.range n, Lf t r * (Lf t m * x m) := by
      intro m hm
      rw [← hA r m hr (Finset.mem_range.1 hm), Finset.sum_mul]
      apply Finset.sum_congr rfl
      intro t _
      ring
    rw [Finset.sum_congr rfl this, Finset.sum_comm]
    apply Finset.sum_congr rfl
    intro t _
    rw [Finset.mul_sum]
  have h2 : ∀ t ∈ Finset.range n, Lf t r * ∑ m in Finset.range n, Lf t m * x m
      = Lf t r * y t := by
    intro t ht
    rw [sum_lower_row n t (Finset.mem_range.1 ht) Lf hup x, hx t (Finset.mem_range.1 ht)]
  rw [h1, Finset.sum_congr rfl h2, sum_lower_column n r hr Lf hup y, hy r hr]

/-- The numerator of a row of a top-down solve in the dense reading. -/
theorem backsolve_lowerRow_sum {α : Type} [LinearOrderedField α] (nx : Nat)
    (L : xn2x_matrix_t α) (kk ii : Nat) (hii : ii < nx) (sum0 : α) (res : vector_t α) :
    subLoop (List.range ii) (fun jj => L (kk, 0, ii, jj) * res (kk * nx + jj))
        (if kk > 0 then
          subLoop (List.range nx) (fun jj => L (kk, -1, ii, jj) * res ((kk - 1) * nx + jj)) sum0
         else sum0)
      = sum0 - ∑ t in Finset.range (kk * nx + ii), lowerFactor nx L (kk * nx + ii) t * res t := by
  rw [sum_before_column nx kk ii (fun t => lowerFactor nx L (kk * nx + ii) t * res t)]
  · have e1 : ∑ l in Finset.range ii,
          lowerFactor nx L (kk * nx + ii) (kk * nx + l) * res (kk * nx + l)
        = ∑ jj in Finset.range ii, L (kk, 0, ii, jj) * res (kk * nx + jj) := by
      apply Finset.sum_congr rfl
      intro l hl
      have hl2 : l < ii := Finset.mem_range.1 hl
      rw [lowerFactor_diag nx L kk ii l hii (by omega)]
    rw [e1]
    by_cases hk : kk > 0
    · simp only [if_pos hk, subLoop_range]
      obtain ⟨k, rfl⟩ : ∃ k, kk = k + 1 := ⟨kk - 1, by omega⟩
      have e2 : ∑ l in Finset.range nx,
            lowerFactor nx L ((k + 1) * nx + ii) ((k + 1 - 1) * nx + l)
              * res ((k + 1 - 1) * nx + l)
          = ∑ jj in Finset.range nx, L (k + 1, -1, ii, jj) * res ((k + 1 - 1) * nx + jj) := by
        apply Finset.sum_congr rfl
        intro l hl
        have hl2 : l < nx := Finset.mem_range.1 hl
        rw [Nat.add_sub_cancel, lowerFactor_sub nx L k ii l hii hl2]
      rw [e2]
      ring
    · simp only [if_neg hk, subLoop_range]
      ring
  · intro k1 l hk hl
    show lowerFactor nx L (kk * nx + ii) (k1 * nx + l) * res (k1 * nx + l) = 0
    rw [lowerFactor_far nx L kk ii k1 l hii hl hk, zero_mul]

/-- A row of a top-down solve: the guard returns, or the row is solved. -/
theorem backsolve_lowerRow_step {α : Type} [LinearOrderedField α]
    (useAsserts inftyBranch : Bool) (opts : qpOptions_t α) (nx : Nat)
    (L : xn2x_matrix_t α) (kk ii : Nat) (hii : ii < nx) (b res0 res : vector_t α)
    (sum0 : α) (hsum0 : res (kk * nx + ii) = res0 (kk * nx + ii) → sum0 = b (kk * nx + ii))
    (hd : L (kk, 0, ii, ii) ≠ 0)
    (hinf : inftyBranch = true → L (kk, 0, ii, ii) ≤ opts.QPDUNES_INFTY)
    (hI : lowerSolved (kk * nx + ii) (lowerFactor nx L) b res res0) :
    outcome (fun res1 => lowerSolved (kk * nx + ii + 1) (lowerFactor nx L) b res1 res0)
      (guardFired useAsserts opts)
      (backsolve_lowerRow useAsserts inftyBranch opts nx L kk ii sum0 res) := by
  unfold backsolve_lowerRow
  simp only [backsolve_lowerRow_sum nx L kk ii hii sum0 res]
  by_cases hg : useAsserts = true ∧ |L (kk, 0, ii, ii)|
      < opts.QPDUNES_ZERO * |sum0 - ∑ t in Finset.range (kk * nx + ii),
          lowerFactor nx L (kk * nx + ii) t * res t|
  · rw [if_pos hg]
    refine ⟨rfl, hg.1, ?_⟩
    by_contra hz
    have h1 : opts.QPDUNES_ZERO * |sum0 - ∑ t in Finset.range (kk * nx + ii),
        lowerFactor nx L (kk * nx + ii) t * res t| ≤ 0 :=
      mul_nonpos_of_nonpos_of_nonneg (not_lt.1 hz) (abs_nonneg _)
    have h2 : 0 ≤ |L (kk, 0, ii, ii)| := abs_nonneg _
    exact absurd hg.2 (not_lt.2 (le_trans h1 h2))
  · rw [if_neg hg]
    have hni : ¬ (inftyBranch = true ∧ L (kk, 0, ii, ii) > opts.QPDUNES_INFTY) := by
      rintro ⟨h1, h2⟩
      exact absurd h2 (not_lt.2 (hinf h1))
    rw [if_neg hni]
    obtain ⟨i1, i2⟩ := hI
    have hs0 := hsum0 (i2 _ le_rfl)
    constructor
    · intro r hr
      by_cases hrc : r < kk * nx + ii
      · rw [← i1 r hrc]
        apply Finset.sum_congr rfl
        intro t ht
        have ht2 : t < r + 1 := Finset.mem_range.1 ht
        rw [Function.update_noteq (by omega)]
      · have hrc2 : r = kk * nx + ii := by omega
        subst hrc2
        rw [Finset.sum_range_succ, Function.update_same,
          lowerFactor_diag nx L kk ii ii hii le_rfl]
        have e1 : ∑ t in Finset.range (kk * nx + ii),
              lowerFactor nx L (kk * nx + ii) t
                * Function.update res (kk * nx + ii)
                    ((sum0 - ∑ t in Finset.range (kk * nx + ii),
                      lowerFactor nx L (kk * nx + ii) t * res t) / L (kk, 0, ii, ii)) t
            = ∑ t in Finset.range (kk * nx + ii), lowerFactor nx L (kk * nx + ii) t * res t := by
          apply Finset.sum_congr rfl
          intro t ht
          have ht2 : t < kk * nx + ii := Finset.mem_range.1 ht
          rw [Function.update_noteq (by omega)]
        rw [e1, ← hs0]
        field_simp
    · intro r hr
      rw [Function.update_noteq (by omega)]
      exact i2 r (by omega)

/-- The numerator of a row of a bottom-up solve in the dense reading. -/
theorem backsolve_upperRow_sum {α : Type} [LinearOrderedField α] (NI nx : Nat)
    (L : xn2x_matrix_t α) (kk ii : Nat) (hkk : kk < NI) (hii : ii < nx) (sum0 : α)
    (res : vector_t α) :
    (if (kk : Int) < (NI : Int) - 1 then
        subLoop (List.range nx)
          (fun jj => L (kk + 1, -1, jj, ii) * res ((kk + 1) * nx + jj))
          (subLoop (List.range' (ii + 1) (nx - (ii + 1)))
            (fun jj => L (kk, 0, jj, ii) * res (kk * nx + jj)) sum0)
      else
        subLoop (List.range' (ii + 1) (nx - (ii + 1)))
          (fun jj => L (kk, 0, jj, ii) * res (kk * nx + jj)) sum0)
      = sum0 - ∑ u in Finset.range (NI * nx - (kk * nx + ii) - 1),
          lowerFactor nx L (kk * nx + ii + 1 + u) (kk * nx + ii) * res (kk * nx + ii + 1 + u) := by
  rw [sum_after_row nx NI kk ii hkk hii
    (fun row => lowerFactor nx L row (kk * nx + ii) * res row)]
  · have e1 : ∑ t in Finset.range (nx - (ii + 1)),
          lowerFactor nx L (kk * nx + (ii + 1 + t)) (kk * nx + ii) * res (kk * nx + (ii + 1 + t))
        = ∑ t in Finset.range (nx - (ii + 1)),
            L (kk, 0, ii + 1 + t, ii) * res (kk * nx + (ii + 1 + t)) := by
      apply Finset.sum_congr rfl
      intro t ht
      have ht2 : t < nx - (ii + 1) := Finset.mem_range.1 ht
      rw [lowerFactor_diag nx L kk (ii + 1 + t) ii (by omega) (by omega)]
    rw [e1]
    by_cases hk : kk + 1 < NI
    · have hk2 : (kk : Int) < (NI : Int) - 1 := by omega
      simp only [if_pos hk, if_pos hk2, subLoop_range, subLoop_range']
      have e2 : ∑ l in Finset.range nx,
            lowerFactor nx L ((kk + 1) * nx + l) (kk * nx + ii) * res ((kk + 1) * nx + l)
          = ∑ jj in Finset.range nx, L (kk + 1, -1, jj, ii) * res ((kk + 1) * nx + jj) := by
        apply Finset.sum_congr rfl
        intro l hl
        have hl2 : l < nx := Finset.mem_range.1 hl
        rw [lowerFactor_sub nx L kk l ii hl2 hii]
      rw [e2]
      ring
    · have hk2 : ¬ (kk : Int) < (NI : Int) - 1 := by omega
      simp only [if_neg hk, if_neg hk2, subLoop_range']
      ring
  · intro k1 l hk hl
    show lowerFactor nx L (k1 * nx + l) (kk * nx + ii) * res (k1 * nx + l) = 0
    rw [lowerFactor_far nx L k1 l kk ii hl hii hk, zero_mul]

/-- A row of a bottom-up solve: the guard returns, or the row is solved. -/
theorem backsolve_upperRow_step {α : Type} [LinearOrderedField α]
    (useAsserts : Bool) (opts : qpOptions_t α) (NI nx : Nat)
    (L : xn2x_matrix_t α) (kk ii : Nat) (hkk : kk < NI) (hii : ii < nx)
    (b res0 res : vector_t α)
    (sum0 : α) (hsum0 : res (kk * nx + ii) = res0 (kk * nx + ii) → sum0 = b (kk * nx + ii))
    (hd : L (kk, 0, ii, ii) ≠ 0)
    (hI : upperSolved (NI * nx) (kk * nx + ii + 1) (lowerFactor nx L) b res res0) :
    outcome (fun res1 => upperSolved (NI * nx) (kk * nx + ii) (lowerFactor nx L) b res1 res0)
      (guardFired useAsserts opts)
      (backsolve_upperRow useAsserts opts NI nx L kk ii sum0 res) := by
  unfold backsolve_upperRow
  simp only [backsolve_upperRow_sum NI nx L kk ii hkk hii sum0 res]
  have hc : kk * nx + ii < NI * nx := idx_lt_of_block_lt nx NI kk ii hkk hii
  by_cases hg : useAsserts = true ∧ |L (kk, 0, ii, ii)|
      < opts.QPDUNES_ZERO * |sum0 - ∑ u in Finset.range (NI * nx - (kk * nx + ii) - 1),
          lowerFactor nx L (kk * nx + ii + 1 + u) (kk * nx + ii) * res (kk * nx + ii + 1 + u)|
  · rw [if_pos hg]
    refine ⟨rfl, hg.1, ?_⟩
    by_contra hz
    have h1 : opts.QPDUNES_ZERO
        * |sum0 - ∑ u in Finset.range (NI * nx - (kk * nx + ii) - 1),
          lowerFactor nx L (kk * nx + ii + 1 + u) (kk * nx + ii)
            * res (kk * nx + ii + 1 + u)| ≤ 0 :=
      mul_nonpos_of_nonpos_of_nonneg (not_lt.1 hz) (abs_nonneg _)
    have h2 : 0 ≤ |L (kk, 0, ii, ii)| := abs_nonneg _
    exact absurd hg.2 (not_lt.2 (le_trans h1 h2))
  · rw [if_neg hg]
    obtain ⟨i1, i2⟩ := hI
    have hs0 := hsum0 (i2 _ (Nat.lt_succ_self _))
    constructor
    · intro r hr1 hr2
      by_cases hrc : r = kk * nx + ii
      · subst hrc
        obtain ⟨m, hm⟩ : ∃ m, NI * nx - (kk * nx + ii) = m + 1 :=
          ⟨NI * nx - (kk * nx + ii) - 1, by omega⟩
        rw [hm, Nat.add_sub_cancel, Finset.sum_range_succ']
        simp only [Nat.add_zero, Function.update_same]
        rw [lowerFactor_diag nx L kk ii ii hii le_rfl]
        have e1 : ∑ u in Finset.range m,
              lowerFactor nx L (kk * nx + ii + (u + 1)) (kk * nx + ii)
                * Function.update res (kk * nx + ii)
                    ((sum0 - ∑ u in Finset.range m,
                      lowerFactor nx L (kk * nx + ii + 1 + u) (kk * nx + ii)
                        * res (kk * nx + ii + 1 + u)) / L (kk, 0, ii, ii))
                    (kk * nx + ii + (u + 1))
            = ∑ u in Finset.range m,
                lowerFactor nx L (kk * nx + ii + 1 + u) (kk * nx + ii)
                  * res (kk * nx + ii + 1 + u) := by
          apply Finset.sum_congr rfl
          intro u _
          have e2 : kk * nx + ii + (u + 1) = kk * nx + ii + 1 + u := by omega
          rw [e2, Function.update_noteq (by omega)]
        rw [e1, ← hs0]
        field_simp
      · rw [← i1 r (by omega) hr2]
        apply Finset.sum_congr rfl
        intro u _
        rw [Function.update_noteq (by omega)]
    · intro r hr
      rw [Function.update_noteq (by omega)]
      exact i2 r (by omega)

/-- A top-down solve over all rows: the guard returns, or `L res = b`. -/
theorem backsolve_lowerSweep {α : Type} [LinearOrderedField α]
    (useAsserts inftyBranch : Bool) (opts : qpOptions_t α) (NI nx : Nat)
    (L : xn2x_matrix_t α) (rhs : vector_t α → Nat → α) (b res0 : vector_t α)
    (hrhs : ∀ res c, res c = res0 c → rhs res c = b c)
    (hd : ∀ k i, k < NI → i < nx → L (k, 0, i, i) ≠ 0)
    (hinf : inftyBranch = true → ∀ k i, k < NI → i < nx →
      L (k, 0, i, i) ≤ opts.QPDUNES_INFTY) :
    outcome (fun res1 => lowerSolved (NI * nx) (lowerFactor nx L) b res1 res0)
      (guardFired useAsserts opts)
      (loopExcept
        (fun res kk => loopExcept
          (fun res ii => backsolve_lowerRow useAsserts inftyBranch opts nx L kk ii
            (rhs res (kk * nx + ii)) res)
          (List.range nx) res)
        (List.range NI) res0) := by
  apply loopExcept_range_inv _
    (fun K res1 => lowerSolved (K * nx) (lowerFactor nx L) b res1 res0)
  · intro kk hkk res1 hI
    have h1 := loopExcept_range_inv
      (fun res ii => backsolve_lowerRow useAsserts inftyBranch opts nx L kk ii
        (rhs res (kk * nx + ii)) res)
      (fun J res1 => lowerSolved (kk * nx + J) (lowerFactor nx L) b res1 res0)
      (guardFired useAsserts opts) nx
      (fun ii hii res2 hI2 =>
        backsolve_lowerRow_step useAsserts inftyBranch opts nx L kk ii hii b res0 res2
          (rhs res2 (kk * nx + ii)) (hrhs res2 (kk * nx + ii)) (hd kk ii hkk hii)
          (fun h => hinf h kk ii hkk hii) hI2)
      res1 hI
    apply outcome_mono _ _ _ _ _ h1
    intro res2 h2
    rw [Nat.add_mul, Nat.one_mul]
    exact h2
  · constructor
    · intro r hr
      simp only [Nat.zero_mul] at hr
      omega
    · intro r _
      rfl

/-- A bottom-up solve over all rows: the guard returns, or `L^T res = b`. -/
theorem backsolve_upperSweep {α : Type} [LinearOrderedField α]
    (useAsserts : Bool) (opts : qpOptions_t α) (NI nx : Nat)
    (L : xn2x_matrix_t α) (rhs : vector_t α → Nat → α) (b res0 : vector_t α)
    (hrhs : ∀ res c, res c = res0 c → rhs res c = b c)
    (hd : ∀ k i, k < NI → i < nx → L (k, 0, i, i) ≠ 0) :
    outcome (fun res1 => upperSolved (NI * nx) 0 (lowerFactor nx L) b res1 res0)
      (guardFired useAsserts opts)
      (loopExcept
        (fun res kk => loopExcept
          (fun res ii => backsolve_upperRow useAsserts opts NI nx L kk ii
            (rhs res (kk * nx + ii)) res)
          (List.range nx).reverse res)
        (List.range NI).reverse res0) := by
  have h := loopExcept_range_reverse_inv
    (fun res kk => loopExcept
      (fun res ii => backsolve_upperRow useAsserts opts NI nx L kk ii
        (rhs res (kk * nx + ii)) res)
      (List.range nx).reverse res)
    (fun K res1 => upperSolved (NI * nx) (K * nx) (lowerFactor nx L) b res1 res0)
    (guardFired useAsserts opts) NI
    (by
      intro kk hkk res1 hI
      exact loopExcept_range_reverse_inv
        (fun res ii => backsolve_upperRow useAsserts opts NI nx L kk ii
          (rhs res (kk * nx + ii)) res)
        (fun J res1 => upperSolved (NI * nx) (kk * nx + J) (lowerFactor nx L) b res1 res0)
        (guardFired useAsserts opts) nx
        (fun ii hii res2 hI2 =>
          backsolve_upperRow_step useAsserts opts NI nx L kk ii hkk hii b res0 res2
            (rhs res2 (kk * nx + ii)) (hrhs res2 (kk * nx + ii)) (hd kk ii hkk hii) hI2)
        res1
        (by
          have := hI
          rw [Nat.add_mul, Nat.one_mul] at this
          exact this))
    res0
    (by
      constructor
      · intro r hr1 hr2
        omega
      · intro r _
        rfl)
  apply outcome_mono _ _ _ _ _ h
  intro res2 h2
  have h3 : upperSolved (NI * nx) (0 * nx) (lowerFactor nx L) b res2 res0 := h2
  rw [Nat.zero_mul] at h3
  exact h3

theorem guardFired_excluded {α : Type} [LinearOrderedField α] (useAsserts : Bool)
    (opts : qpOptions_t α) (e : return_t × vector_t α) (h : guardFired useAsserts opts e)
    (hno : useAsserts = false ∨ opts.QPDUNES_ZERO ≤ 0) : False := by
  obtain ⟨_, h2, h3⟩ := h
  rcases hno with h4 | h4
  · rw [h4] at h2
    exact absurd h2 (by decide)
  · exact absurd h3 (not_lt.2 h4)

/-- `qpDUNES_solveNewtonEquation` with a factor `L` whose diagonal entries are nonzero
and not above `QPDUNES_INFTY`, for a matrix `A = L L^T`: the routine returns
`QPDUNES_OK` or (through the division guard) `ERR_DIVISION_BY_ZERO`; when it returns
`QPDUNES_OK` the result solves `A x = g`; without the guard it returns `QPDUNES_OK`. -/
theorem solveNewtonEquation_dense {α : Type} [LinearOrderedField α] (useAsserts : Bool)
    (opts : qpOptions_t α) (NI nx : Nat) (res0 : vector_t α) (L : xn2x_matrix_t α)
    (g : vector_t α) (A : Nat → Nat → α)
    (hd : ∀ k i, k < NI → i < nx → L (k, 0, i, i) ≠ 0)
    (hinf : ∀ k i, k < NI → i < nx → L (k, 0, i, i) ≤ opts.QPDUNES_INFTY)
    (hA : ∀ r m, r < NI * nx → m < NI * nx →
      ∑ t in Finset.range (NI * nx), lowerFactor nx L r t * lowerFactor nx L m t = A r m) :
    ((qpDUNES_solveNewtonEquation useAsserts opts NI nx res0 L g).1 = QPDUNES_OK
      ∨ (qpDUNES_solveNewtonEquation useAsserts opts NI nx res0 L g).1
          = QPDUNES_ERR_DIVISION_BY_ZERO)
    ∧ ((qpDUNES_solveNewtonEquation useAsserts opts NI nx res0 L g).1 = QPDUNES_OK →
        ∀ r, r < NI * nx →
          ∑ m in Finset.range (NI * nx),
            A r m * (qpDUNES_solveNewtonEquation useAsserts opts NI nx res0 L g).2 m = g r)
    ∧ ((useAsserts = false ∨ opts.QPDUNES_ZERO ≤ 0) →
        (qpDUNES_solveNewtonEquation useAsserts opts NI nx res0 L g).1 = QPDUNES_OK) := by
  have h1 : outcome (fun res1 => lowerSolved (NI * nx) (lowerFactor nx L) g res1 res0)
      (guardFired useAsserts opts)
      (loopExcept
        (fun res kk => loopExcept
          (fun res ii => backsolve_lowerRow useAsserts true opts nx L kk ii
            (g (kk * nx + ii)) res)
          (List.range nx) res)
        (List.range NI) res0) :=
    backsolve_lowerSweep useAsserts true opts NI nx L (fun _ c => g c) g res0
      (fun _ _ _ => rfl) hd (fun _ => hinf)
  unfold qpDUNES_solveNewtonEquation
  cases hp1 : loopExcept
      (fun res kk => loopExcept
        (fun res ii => backsolve_lowerRow useAsserts true opts nx L kk ii
          (g (kk * nx + ii)) res)
        (List.range nx) res)
      (List.range NI) res0 with
  | error e =>
    rw [hp1] at h1
    simp only [backsolve_finish]
    refine ⟨Or.inr h1.1, ?_, ?_⟩
    · intro h
      rw [h1.1] at h
      exact absurd h (by decide)
    · intro hno
      exact (guardFired_excluded useAsserts opts e h1 hno).elim
  | ok y =>
    rw [hp1] at h1
    have h2 : outcome (fun res1 => upperSolved (NI * nx) 0 (lowerFactor nx L) y res1 y)
        (guardFired useAsserts opts)
        (loopExcept
          (fun res kk => loopExcept
            (fun res ii => backsolve_upperRow useAsserts opts NI nx L kk ii
              (res (kk * nx + ii)) res)
            (List.range nx).reverse res)
          (List.range NI).reverse y) :=
      backsolve_upperSweep useAsserts opts NI nx L (fun res c => res c) y y
        (fun _ _ h => h) hd
    simp only []
    cases hp2 : loopExcept
        (fun res kk => loopExcept
          (fun res ii => backsolve_upperRow useAsserts opts NI nx L kk ii
            (res (kk * nx + ii)) res)
          (List.range nx).reverse res)
        (List.range NI).reverse y with
    | error e =>
      rw [hp2] at h2
      simp only [backsolve_finish]
      refine ⟨Or.inr h2.1, ?_, ?_⟩
      · intro h
        rw [h2.1] at h
        exact absurd h (by decide)
      · intro hno
        exact (guardFired_excluded useAsserts opts e h2 hno).elim
    | ok x =>
      rw [hp2] at h2
      simp only [backsolve_finish]
      refine ⟨Or.inl trivial, ?_, fun _ => trivial⟩
      intro _ r hr
      exact solve_of_LLT (NI * nx) A (lowerFactor nx L) x y g
        (fun r m h => lowerFactor_upper nx L r m h) hA
        (fun r hr => h1.1 r hr) (fun r hr => h2.1 r (Nat.zero_le r) hr) r hr

/-- `qpDUNES_solveNewtonEquationBottomUp` with a factor `L` whose diagonal entries are
nonzero, for a matrix `A = L^T L`: the routine returns `QPDUNES_OK` or (through the
division guard) `ERR_DIVISION_BY_ZERO`; when it returns `QPDUNES_OK` the result solves
`A x = g`; without the guard it returns `QPDUNES_OK`. -/
theorem solveNewtonEquationBottomUp_dense {α : Type} [LinearOrderedField α]
    (useAsserts : Bool) (opts : qpOptions_t α) (NI nx : Nat) (res0 : vector_t α)
    (L : xn2x_matrix_t α) (g : vector_t α) (A : Nat → Nat → α)
    (hd : ∀ k i, k < NI → i < nx → L (k, 0, i, i) ≠ 0)
    (hA : ∀ r m, r < NI * nx → m < NI * nx →
      ∑ t in Finset.range (NI * nx), lowerFactor nx L t r * lowerFactor nx L t m = A r m) :
    ((qpDUNES_solveNewtonEquationBottomUp useAsserts opts NI nx res0 L g).1 = QPDUNES_OK
      ∨ (qpDUNES_solveNewtonEquationBottomUp useAsserts opts NI nx res0 L g).1
          = QPDUNES_ERR_DIVISION_BY_ZERO)
    ∧ ((qpDUNES_solveNewtonEquationBottomUp useAsserts opts NI nx res0 L g).1 = QPDUNES_OK →
        ∀ r, r < NI * nx →
          ∑ m in Finset.range (NI * nx),
            A r m * (qpDUNES_solveNewtonEquationBottomUp useAsserts opts NI nx res0 L g).2 m
          = g r)
    ∧ ((useAsserts = false ∨ opts.QPDUNES_ZERO ≤ 0) →
        (qpDUNES_solveNewtonEquationBottomUp useAsserts opts NI nx res0 L g).1
          = QPDUNES_OK) := by
  have h1 : outcome (fun res1 => upperSolved (NI * nx) 0 (lowerFactor nx L) g res1 res0)
      (guardFired useAsserts opts)
      (loopExcept
        (fun res kk => loopExcept
          (fun res ii => backsolve_upperRow useAsserts opts NI nx L kk ii
            (g (kk * nx + ii)) res)
          (List.range nx).reverse res)
        (List.range NI).reverse res0) :=
    backsolve_upperSweep useAsserts opts NI nx L (fun _ c => g c) g res0
      (fun _ _ _ => rfl) hd
  unfold qpDUNES_solveNewtonEquationBottomUp
  cases hp1 : loopExcept
      (fun res kk => loopExcept
        (fun res ii => backsolve_upperRow useAsserts opts NI nx L kk ii
          (g (kk * nx + ii)) res)
        (List.range nx).reverse res)
      (List.range NI).reverse res0 with
  | error e =>
    rw [hp1] at h1
    simp only [backsolve_finish]
    refine ⟨Or.inr h1.1, ?_, ?_⟩
    · intro h
      rw [h1.1] at h
      exact absurd h (by decide)
    · intro hno
      exact (guardFired_excluded useAsserts opts e h1 hno).elim
  | ok y =>
    rw [hp1] at h1
    have h2 : outcome (fun res1 => lowerSolved (NI * nx) (lowerFactor nx L) y res1 y)
        (guardFired useAsserts opts)
        (loopExcept
          (fun res kk => loopExcept
            (fun res ii => backsolve_lowerRow useAsserts false opts nx L kk ii
              (res (kk * nx + ii)) res)
            (List.range nx) res)
          (List.range NI) y) :=
      backsolve_lowerSweep useAsserts false opts NI nx L (fun res c => res c) y y
        (fun _ _ h => h) hd (fun h => absurd h (by decide))
    simp only []
    cases hp2 : loopExcept
        (fun res kk => loopExcept
          (fun res ii => backsolve_lowerRow useAsserts false opts nx L kk ii
            (res (kk * nx + ii)) res)
          (List.range nx) res)
        (List.range NI) y with
    | error e =>
      rw [hp2] at h2
      simp only [backsolve_finish]
      refine ⟨Or.inr h2.1, ?_, ?_⟩
      · intro h
        rw [h2.1] at h
        exact absurd h (by decide)
      · intro hno
        exact (guardFired_excluded useAsserts opts e h2 hno).elim
    | ok x =>
      rw [hp2] at h2
      simp only [backsolve_finish]
      refine ⟨Or.inl trivial, ?_, fun _ => trivial⟩
      intro _ r hr
      exact solve_of_LTL (NI * nx) A (lowerFactor nx L) x y g
        (fun r m h => lowerFactor_upper nx L r m h) hA
        (fun r hr => h1.1 r (Nat.zero_le r) hr) (fun r hr => h2.1 r hr) r hr

/-! ## Factor and back-substitution together -/

/-- A full reverse factorization whose pivot sums are all accepted returns
`QPDUNES_OK` with all rows done. -/
theorem factorizeNewtonHessianBottomUp_rowsDone {α : Type} [LinearOrderedField α]
    (sqrt : α → α) (hsqrt : SqrtSpec sqrt) (debug : Bool) (opts : qpOptions_t α)
    (NI nx : Nat) (H cholHessian : xn2x_matrix_t α) (isReg : Bool)
    (lastActSetChangeIdx : Int) (hfull : (NI : Int) - 1 ≤ lastActSetChangeIdx)
    (hspd : IsSPD (NI * nx) (fullHessian nx H))
    (hpiv : ∀ s ∈ (qpDUNES_factorizeNewtonHessianBottomUp sqrt debug opts NI nx H
        lastActSetChangeIdx ⟨cholHessian, isReg, []⟩).2.pivots,
          pivotAcceptedBottomUp opts s) :
    (qpDUNES_factorizeNewtonHessianBottomUp sqrt debug opts NI nx H lastActSetChangeIdx
        ⟨cholHessian, isReg, []⟩).1 = QPDUNES_OK
    ∧ cholRowsDone (NI * nx) 0 (fullHessian nx H)
        (lowerFactor nx (qpDUNES_factorizeNewtonHessianBottomUp sqrt debug opts NI nx H
          lastActSetChangeIdx ⟨cholHessian, isReg, []⟩).2.cholHessian) := by
  have h := factorizeNewtonHessianBottomUp_loops sqrt hsqrt debug opts NI nx H hspd
    ⟨cholHessian, isReg, []⟩
  unfold qpDUNES_factorizeNewtonHessianBottomUp at hpiv ⊢
  rw [blockIdxStart_full NI lastActSetChangeIdx hfull] at hpiv ⊢
  cases hr : loopExcept
      (fun st kk => loopExcept
        (fun st jj => factorizeNewtonHessianBottomUp_column sqrt debug opts NI nx H kk jj st)
        (List.range nx).reverse st)
      (List.range NI).reverse (⟨cholHessian, isReg, []⟩ : factor_state α) with
  | error e =>
    rw [hr] at h hpiv
    exact absurd hpiv h
  | ok st1 =>
    rw [hr] at h hpiv
    exact ⟨rfl, h hpiv⟩

/-- C5 (as amended). Reverse back-substitution solves the Newton system: for every
symmetric positive-definite block-tridiagonal `H` whose reverse pivot squared-sums are
all accepted (none regularized, none below `1.e2 * equalityTolerance`), a full
`qpDUNES_factorizeNewtonHessianBottomUp` returns `QPDUNES_OK`, and
`qpDUNES_solveNewtonEquationBottomUp` on the resulting factor returns, for every
right-hand side `g`, either `QPDUNES_OK` with a result `x` satisfying `H x = g`, or
`ERR_DIVISION_BY_ZERO` from the division guard; it returns `QPDUNES_OK` whenever the
guard is compiled out or `QPDUNES_ZERO <= 0`. -/
theorem solveNewtonEquationBottomUp_correct {α : Type} [LinearOrderedField α]
    (sqrt : α → α) (hsqrt : SqrtSpec sqrt) (debug useAsserts : Bool) (opts : qpOptions_t α)
    (NI nx : Nat) (H cholHessian : xn2x_matrix_t α) (isReg : Bool)
    (lastActSetChangeIdx : Int) (res0 g : vector_t α)
    (hfull : (NI : Int) - 1 ≤ lastActSetChangeIdx)
    (hspd : IsSPD (NI * nx) (fullHessian nx H))
    (hpiv : ∀ s ∈ (qpDUNES_factorizeNewtonHessianBottomUp sqrt debug opts NI nx H
        lastActSetChangeIdx ⟨cholHessian, isReg, []⟩).2.pivots,
          pivotAcceptedBottomUp opts s) :
    (qpDUNES_factorizeNewtonHessianBottomUp sqrt debug opts NI nx H lastActSetChangeIdx
        ⟨cholHessian, isReg, []⟩).1 = QPDUNES_OK
    ∧ ((qpDUNES_solveNewtonEquationBottomUp useAsserts opts NI nx res0
          (qpDUNES_factorizeNewtonHessianBottomUp sqrt debug opts NI nx H
            lastActSetChangeIdx ⟨cholHessian, isReg, []⟩).2.cholHessian g).1 = QPDUNES_OK
      ∨ (qpDUNES_solveNewtonEquationBottomUp useAsserts opts NI nx res0
          (qpDUNES_factorizeNewtonHessianBottomUp sqrt debug opts NI nx H
            lastActSetChangeIdx ⟨cholHessian, isReg, []⟩).2.cholHessian g).1
          = QPDUNES_ERR_DIVISION_BY_ZERO)
    ∧ ((qpDUNES_solveNewtonEquationBottomUp useAsserts opts NI nx res0
          (qpDUNES_factorizeNewtonHessianBottomUp sqrt debug opts NI nx H
            lastActSetChangeIdx ⟨cholHessian, isReg, []⟩).2.cholHessian g).1 = QPDUNES_OK →
        ∀ r, r < NI * nx →
          ∑ m in Finset.range (NI * nx),
            fullHessian nx H r m
              * (qpDUNES_solveNewtonEquationBottomUp useAsserts opts NI nx res0
                  (qpDUNES_factorizeNewtonHessianBottomUp sqrt debug opts NI nx H
                    lastActSetChangeIdx ⟨cholHessian, isReg, []⟩).2.cholHessian g).2 m
          = g r)
    ∧ ((useAsserts = false ∨ opts.QPDUNES_ZERO ≤ 0) →
        (qpDUNES_solveNewtonEquationBottomUp useAsserts opts NI nx res0
          (qpDUNES_factorizeNewtonHessianBottomUp sqrt debug opts NI nx H
            lastActSetChangeIdx ⟨cholHessian, isReg, []⟩).2.cholHessian g).1
          = QPDUNES_OK) := by
  obtain ⟨hok, hdone⟩ := factorizeNewtonHessianBottomUp_rowsDone sqrt hsqrt debug opts NI nx
    H cholHessian isReg lastActSetChangeIdx hfull hspd hpiv
  refine ⟨hok, ?_⟩
  apply solveNewtonEquationBottomUp_dense
  · intro k i hk hi
    have h1 := (hdone (k * nx + i) (Nat.zero_le _) (idx_lt_of_block_lt nx NI k i hk hi)).1
    rw [lowerFactor_diag nx _ k i i hi le_rfl] at h1
    exact ne_of_gt h1
  · intro r m hr hm
    exact cholRowsDone_product (NI * nx) (fullHessian nx H) _ hspd.1
      (fun r m h2 => lowerFactor_upper nx _ r m h2) hdone r m hr hm

/-- Witness for C5 (as amended): the Hessian `[[2, 1], [1, 1]]` (two block rows,
`nx = 1`) with the division guard compiled out. -/
theorem solveNewtonEquationBottomUp_correct_witness :
    SqrtSpec Real.sqrt ∧ IsSPD (2 * 1) (fullHessian 1 (exampleHessianBottomUp ℝ))
    ∧ (qpDUNES_factorizeNewtonHessianBottomUp Real.sqrt false
        (exampleOptions ℝ regType_t.QPDUNES_REG_LEVENBERG_MARQUARDT
          nwtnHssnFacAlg_t.QPDUNES_NH_FAC_BAND_REVERSE)
        2 1 (exampleHessianBottomUp ℝ) 1 ⟨fun _ => 0, false, []⟩).1 = QPDUNES_OK
    ∧ (qpDUNES_solveNewtonEquationBottomUp false
        (exampleOptions ℝ regType_t.QPDUNES_REG_LEVENBERG_MARQUARDT
          nwtnHssnFacAlg_t.QPDUNES_NH_FAC_BAND_REVERSE) 2 1 (fun _ => 0)
        (qpDUNES_factorizeNewtonHessianBottomUp Real.sqrt false
          (exampleOptions ℝ regType_t.QPDUNES_REG_LEVENBERG_MARQUARDT
            nwtnHssnFacAlg_t.QPDUNES_NH_FAC_BAND_REVERSE)
          2 1 (exampleHessianBottomUp ℝ) 1 ⟨fun _ => 0, false, []⟩).2.cholHessian
        (fun _ => 1)).1 = QPDUNES_OK :=
  ⟨real_sqrtSpec, exampleHessianBottomUp_spd,
    (solveNewtonEquationBottomUp_correct Real.sqrt real_sqrtSpec false false
      (exampleOptions ℝ regType_t.QPDUNES_REG_LEVENBERG_MARQUARDT
        nwtnHssnFacAlg_t.QPDUNES_NH_FAC_BAND_REVERSE)
      2 1 (exampleHessianBottomUp ℝ) (fun _ => 0) false 1 (fun _ => 0) (fun _ => 1)
      (by norm_num) exampleHessianBottomUp_spd exampleHessianBottomUp_accepted).1,
    (solveNewtonEquationBottomUp_correct Real.sqrt real_sqrtSpec false false
      (exampleOptions ℝ regType_t.QPDUNES_REG_LEVENBERG_MARQUARDT
        nwtnHssnFacAlg_t.QPDUNES_NH_FAC_BAND_REVERSE)
      2 1 (exampleHessianBottomUp ℝ) (fun _ => 0) false 1 (fun _ => 0) (fun _ => 1)
      (by norm_num) exampleHessianBottomUp_spd exampleHessianBottomUp_accepted).2.2.2
      (Or.inl rfl)⟩

theorem exampleHessianSmall_spd :
    IsSPD (1 * 1) (fullHessian 1 (exampleHessianSmall ℝ)) := by
  constructor
  · intro r m hr hm
    have hr2 : r = 0 := by omega
    have hm2 : m = 0 := by omega
    subst hr2 hm2
    rfl
  · rintro x ⟨i, hi, hx⟩
    have hi2 : i = 0 := by omega
    subst hi2
    have e : ∑ r in Finset.range (1 * 1), ∑ m in Finset.range (1 * 1),
        x r * fullHessian 1 (exampleHessianSmall ℝ) r m * x m
        = x 0 ^ 2 / 100 := by
      simp [fullHessian, exampleHessianSmall]
      ring
    rw [e]
    positivity

/-- Counterexample to C5 as stated. (i) The symmetric positive-definite Hessian
`[[1/100]]` with `equalityTolerance = 1/1000` and Levenberg-Marquardt regularization:
the pivot squared-sum `1/100` is below `1.e2 * equalityTolerance = 1/10`, so the full
reverse factorization returns `QPDUNES_ERR_DIVISION_BY_ZERO`. (ii) The symmetric
positive-definite Hessian `[[2, 1], [1, 1]]` with `QPDUNES_ZERO = 1/1000`, assertions
enabled and right-hand side `g = (0, 2000)`: the factorization returns `QPDUNES_OK`,
and the first division of the back-substitution has pivot `1` and numerator `2000`, so
`qpDUNES_solveNewtonEquationBottomUp` returns `QPDUNES_ERR_DIVISION_BY_ZERO`. -/
theorem solveNewtonEquationBottomUp_counterexample :
    (IsSPD (1 * 1) (fullHessian 1 (exampleHessianSmall ℝ))
      ∧ (qpDUNES_factorizeNewtonHessianBottomUp Real.sqrt false
          (exampleOptions ℝ regType_t.QPDUNES_REG_LEVENBERG_MARQUARDT
            nwtnHssnFacAlg_t.QPDUNES_NH_FAC_BAND_REVERSE)
          1 1 (exampleHessianSmall ℝ) 0 ⟨fun _ => 0, false, []⟩).1
        = QPDUNES_ERR_DIVISION_BY_ZERO)
    ∧ (IsSPD (2 * 1) (fullHessian 1 (exampleHessianBottomUp ℝ))
      ∧ (qpDUNES_factorizeNewtonHessianBottomUp Real.sqrt false
          (exampleOptions ℝ regType_t.QPDUNES_REG_LEVENBERG_MARQUARDT
            nwtnHssnFacAlg_t.QPDUNES_NH_FAC_BAND_REVERSE)
          2 1 (exampleHessianBottomUp ℝ) 1 ⟨fun _ => 0, false, []⟩).1 = QPDUNES_OK
      ∧ (qpDUNES_solveNewtonEquationBottomUp true
          (exampleOptions ℝ regType_t.QPDUNES_REG_LEVENBERG_MARQUARDT
            nwtnHssnFacAlg_t.QPDUNES_NH_FAC_BAND_REVERSE) 2 1 (fun _ => 0)
          (qpDUNES_factorizeNewtonHessianBottomUp Real.sqrt false
            (exampleOptions ℝ regType_t.QPDUNES_REG_LEVENBERG_MARQUARDT
              nwtnHssnFacAlg_t.QPDUNES_NH_FAC_BAND_REVERSE)
            2 1 (exampleHessianBottomUp ℝ) 1 ⟨fun _ => 0, false, []⟩).2.cholHessian
          (fun r => if r = 1 then 2000 else 0)).1 = QPDUNES_ERR_DIVISION_BY_ZERO) := by
  have hne : ¬ (regType_t.QPDUNES_REG_LEVENBERG_MARQUARDT
      = regType_t.QPDUNES_REG_SINGULAR_DIRECTIONS) := by decide
  refine ⟨⟨exampleHessianSmall_spd, ?_⟩, exampleHessianBottomUp_spd, ?_, ?_⟩
  · norm_num [qpDUNES_factorizeNewtonHessianBottomUp, blockIdxStart, loopExcept,
      List.range_succ, factorizeNewtonHessianBottomUp_column,
      factorizeNewtonHessianBottomUp_pivotSum, factorizeNewtonHessianBottomUp_check,
      factor_finish, subLoop, exampleOptions, exampleHessianSmall, hne]
  · rw [exampleHessianBottomUp_run]
  · rw [exampleHessianBottomUp_run]
    norm_num [qpDUNES_solveNewtonEquationBottomUp, loopExcept, List.range_succ,
      backsolve_upperRow, backsolve_lowerRow, backsolve_finish, subLoop, exampleOptions,
      Function.update, -Prod.mk_zero_zero, -Prod.mk_eq_zero]

/-! ## Forward factorization followed by back-substitution -/

/-- The diagonal cells of the factor after a column step of the forward factorization
that writes the pivot `v`: cell `(kk,0,jj,jj)` holds `v`, every other diagonal cell is
as before. -/
theorem factorizeNewtonHessian_column_diag {α : Type} [LinearOrderedField α] (NI nx : Nat)
    (H L : xn2x_matrix_t α) (kk jj : Nat) (v : α) (k i : Nat) :
    factorizeNewtonHessian_subBlock NI nx H kk jj
        (factorizeNewtonHessian_diagBlock nx H kk jj
          (Function.update L (kk, 0, jj, jj) v)) (k, 0, i, i)
      = if k = kk ∧ i = jj then v else L (k, 0, i, i) := by
  obtain ⟨d1, _⟩ := factorizeNewtonHessian_diagBlock_spec nx H kk jj
    (Function.update L (kk, 0, jj, jj) v)
  obtain ⟨b1, _⟩ := factorizeNewtonHessian_subBlock_spec NI nx H kk jj
    (factorizeNewtonHessian_diagBlock nx H kk jj (Function.update L (kk, 0, jj, jj) v))
  rw [b1, d1]
  · by_cases h : k = kk ∧ i = jj
    · obtain ⟨h1, h2⟩ := h
      subst h1 h2
      simp
    · rw [if_neg h, Function.update_noteq]
      intro h2
      simp only [Prod.mk.injEq] at h2
      exact h ⟨h2.1, h2.2.2.1⟩
  · intro ii h1 _ h2
    simp only [Prod.mk.injEq] at h2
    omega
  · intro ii _ h2
    simp only [Prod.mk.injEq] at h2
    omega

/-- The result of a column step does not depend on the pivot sums recorded so far. -/
theorem factorizeNewtonHessian_column_ghost {α : Type} [LinearOrderedField α]
    (sqrt : α → α) (opts : qpOptions_t α) (NI nx : Nat) (H : xn2x_matrix_t α)
    (kk jj : Nat) (st : factor_state α) (st1 : factor_state α)
    (h : factorizeNewtonHessian_column sqrt opts NI nx H kk jj st = .ok st1) :
    factorizeNewtonHessian_column sqrt opts NI nx H kk jj
        ⟨st.cholHessian, st.isHessianRegularized, []⟩
      = .ok ⟨st1.cholHessian, st1.isHessianRegularized,
          [factorizeNewtonHessian_pivotSum nx H st.cholHessian kk jj]⟩ := by
  unfold factorizeNewtonHessian_column at h ⊢
  cases hc : factorizeNewtonHessian_check opts
      (factorizeNewtonHessian_pivotSum nx H st.cholHessian kk jj)
      st.isHessianRegularized with
  | error e =>
    simp only [hc] at h
    cases h
  | ok p =>
    simp only [hc] at h ⊢
    cases h
    rfl

/-- One column of the forward factorization of a symmetric positive-definite Hessian:
if the pivots the factor holds in the columns done so far are positive and not above
`QPDUNES_INFTY`, these columns are Cholesky columns; a return inside the loop returns
`QPDUNES_ERR_DIVISION_BY_ZERO`. -/
theorem factorizeNewtonHessian_column_bounded {α : Type} [LinearOrderedField α]
    (sqrt : α → α) (hsqrt : SqrtSpec sqrt) (opts : qpOptions_t α) (NI nx : Nat)
    (H : xn2x_matrix_t α) (hspd : IsSPD (NI * nx) (fullHessian nx H))
    (kk jj : Nat) (hkk : kk < NI) (hjj : jj < nx) (st : factor_state α)
    (hP : diagBounded opts nx (kk * nx + jj) st.cholHessian →
      cholColumnsDone (NI * nx) (kk * nx + jj) (fullHessian nx H)
        (lowerFactor nx st.cholHessian)) :
    outcome
      (fun st1 => diagBounded opts nx (kk * nx + jj + 1) st1.cholHessian →
        cholColumnsDone (NI * nx) (kk * nx + jj + 1) (fullHessian nx H)
          (lowerFactor nx st1.cholHessian))
      (fun e => e.1 = QPDUNES_ERR_DIVISION_BY_ZERO)
      (factorizeNewtonHessian_column sqrt opts NI nx H kk jj st) := by
  cases hr : factorizeNewtonHessian_column sqrt opts NI nx H kk jj st with
  | error e =>
    show e.1 = QPDUNES_ERR_DIVISION_BY_ZERO
    unfold factorizeNewtonHessian_column factorizeNewtonHessian_check at hr
    by_cases h1 : opts.regType = regType_t.QPDUNES_REG_SINGULAR_DIRECTIONS
        ∧ factorizeNewtonHessian_pivotSum nx H st.cholHessian kk jj
          < opts.newtonHessDiagRegTolerance
    · simp only [if_pos h1] at hr
      cases hr
    · simp only [if_neg h1] at hr
      by_cases h2 : factorizeNewtonHessian_pivotSum nx H st.cholHessian kk jj
          < opts.newtonHessDiagRegTolerance
      · simp only [if_pos h2] at hr
        cases hr
        rfl
      · simp only [if_neg h2] at hr
        cases hr
  | ok st1 =>
    show diagBounded opts nx (kk * nx + jj + 1) st1.cholHessian →
      cholColumnsDone (NI * nx) (kk * nx + jj + 1) (fullHessian nx H)
        (lowerFactor nx st1.cholHessian)
    intro hB
    have key : ∃ sum1, st1.cholHessian
          = factorizeNewtonHessian_subBlock NI nx H kk jj
              (factorizeNewtonHessian_diagBlock nx H kk jj
                (Function.update st.cholHessian (kk, 0, jj, jj) (sqrt sum1)))
        ∧ ((sum1 = factorizeNewtonHessian_pivotSum nx H st.cholHessian kk jj
                + (opts.QPDUNES_INFTY * opts.QPDUNES_INFTY + 1))
            ∨ (¬ factorizeNewtonHessian_pivotSum nx H st.cholHessian kk jj
                  < opts.newtonHessDiagRegTolerance)) := by
      have hr2 := hr
      unfold factorizeNewtonHessian_column factorizeNewtonHessian_check at hr2
      by_cases h1 : opts.regType = regType_t.QPDUNES_REG_SINGULAR_DIRECTIONS
          ∧ factorizeNewtonHessian_pivotSum nx H st.cholHessian kk jj
            < opts.newtonHessDiagRegTolerance
      · simp only [if_pos h1] at hr2
        cases hr2
        exact ⟨_, rfl, Or.inl rfl⟩
      · simp only [if_neg h1] at hr2
        by_cases h2 : factorizeNewtonHessian_pivotSum nx H st.cholHessian kk jj
            < opts.newtonHessDiagRegTolerance
        · simp only [if_pos h2] at hr2
          cases hr2
        · simp only [if_neg h2] at hr2
          cases hr2
          exact ⟨_, rfl, Or.inr h2⟩
    obtain ⟨sum1, hL, hcase⟩ := key
    have hdiag : ∀ k i, st1.cholHessian (k, 0, i, i)
        = if k = kk ∧ i = jj then sqrt sum1 else st.cholHessian (k, 0, i, i) := by
      intro k i
      rw [hL]
      exact factorizeNewtonHessian_column_diag NI nx H st.cholHessian kk jj (sqrt sum1) k i
    have hB0 : diagBounded opts nx (kk * nx + jj) st.cholHessian := by
      intro k i hi hlt
      have h1 := hB k i hi (by omega)
      have hne : ¬ (k = kk ∧ i = jj) := by
        rintro ⟨rfl, rfl⟩
        omega
      rw [hdiag k i, if_neg hne] at h1
      exact h1
    have hInv := hP hB0
    have hc : kk * nx + jj < NI * nx := idx_lt_of_block_lt nx NI kk jj hkk hjj
    have hspos : 0 < factorizeNewtonHessian_pivotSum nx H st.cholHessian kk jj := by
      rw [factorizeNewtonHessian_pivotSum_dense nx H st.cholHessian kk jj hjj]
      exact chol_pivot_pos (NI * nx) (kk * nx + jj) hc (fullHessian nx H)
        (lowerFactor nx st.cholHessian) hspd.1 hspd.2
        (fun t ht => ne_of_gt (hInv t ht).1)
        (fun t ht r hr1 hr2 => (hInv t ht).2 r hr1 (by omega))
    rcases hcase with hreg | hge
    · exfalso
      have h1 := hB kk jj hjj (by omega)
      rw [hdiag kk jj, if_pos ⟨rfl, rfl⟩] at h1
      have h2 : 0 ≤ sum1 := by
        rw [hreg]
        nlinarith [mul_self_nonneg opts.QPDUNES_INFTY]
      have h3 := hsqrt.sq sum1 h2
      have h4 : sqrt sum1 * sqrt sum1 ≤ opts.QPDUNES_INFTY * opts.QPDUNES_INFTY :=
        mul_le_mul h1.2 h1.2 (le_of_lt h1.1) (le_trans (le_of_lt h1.1) h1.2)
      rw [h3, hreg] at h4
      linarith
    · have h1 := factorizeNewtonHessian_column_step sqrt hsqrt opts NI nx H hspd kk jj hkk hjj
        ⟨st.cholHessian, st.isHessianRegularized, []⟩ (fun _ => hInv)
      rw [factorizeNewtonHessian_column_ghost sqrt opts NI nx H kk jj st st1 hr] at h1
      apply h1
      intro s hs
      have hs1 : s = factorizeNewtonHessian_pivotSum nx H st.cholHessian kk jj := by
        simpa using hs
      rw [hs1]
      exact not_lt.1 hge

/-- The loops of the forward factorization of a symmetric positive-definite Hessian,
read through the pivots the factor holds. -/
theorem factorizeNewtonHessian_loops_bounded {α : Type} [LinearOrderedField α]
    (sqrt : α → α) (hsqrt : SqrtSpec sqrt) (opts : qpOptions_t α) (NI nx : Nat)
    (H : xn2x_matrix_t α) (hspd : IsSPD (NI * nx) (fullHessian nx H))
    (st : factor_state α) :
    outcome
      (fun st1 => diagBounded opts nx (NI * nx) st1.cholHessian →
        cholColumnsDone (NI * nx) (NI * nx) (fullHessian nx H)
          (lowerFactor nx st1.cholHessian))
      (fun e => e.1 = QPDUNES_ERR_DIVISION_BY_ZERO)
      (loopExcept
        (fun st kk => loopExcept
          (fun st jj => factorizeNewtonHessian_column sqrt opts NI nx H kk jj st)
          (List.range nx) st)
        (List.range NI) st) := by
  refine loopExcept_range_inv
    (fun st kk => loopExcept
      (fun st jj => factorizeNewtonHessian_column sqrt opts NI nx H kk jj st)
      (List.range nx) st)
    (fun K (st1 : factor_state α) => diagBounded opts nx (K * nx) st1.cholHessian →
      cholColumnsDone (NI * nx) (K * nx) (fullHessian nx H) (lowerFactor nx st1.cholHessian))
    (fun e => e.1 = QPDUNES_ERR_DIVISION_BY_ZERO) NI ?_ st ?_
  · intro kk hkk st1 hP
    have h1 := loopExcept_range_inv
      (fun st jj => factorizeNewtonHessian_column sqrt opts NI nx H kk jj st)
      (fun J (st1 : factor_state α) => diagBounded opts nx (kk * nx + J) st1.cholHessian →
        cholColumnsDone (NI * nx) (kk * nx + J) (fullHessian nx H)
          (lowerFactor nx st1.cholHessian))
      (fun e => e.1 = QPDUNES_ERR_DIVISION_BY_ZERO) nx
      (fun jj hjj st2 hP2 =>
        factorizeNewtonHessian_column_bounded sqrt hsqrt opts NI nx H hspd kk jj hkk hjj
          st2 hP2)
      st1 hP
    apply outcome_mono _ _ _ _ _ h1
    intro st2 h2 hG
    rw [Nat.add_mul, Nat.one_mul] at hG ⊢
    exact h2 hG
  · intro _ t ht
    simp only [Nat.zero_mul] at ht
    omega

/-- A forward factorization of a symmetric positive-definite Hessian that returns
`QPDUNES_OK` with all pivots of the factor positive and not above `QPDUNES_INFTY` has
all columns done. -/
theorem factorizeNewtonHessian_columnsDone {α : Type} [LinearOrderedField α]
    (sqrt : α → α) (hsqrt : SqrtSpec sqrt) (opts : qpOptions_t α) (NI nx : Nat)
    (H : xn2x_matrix_t α) (st : factor_state α)
    (hspd : IsSPD (NI * nx) (fullHessian nx H))
    (hok : (qpDUNES_factorizeNewtonHessian sqrt opts NI nx H st).1 = QPDUNES_OK)
    (hpiv : ∀ k i, k < NI → i < nx →
      0 < (qpDUNES_factorizeNewtonHessian sqrt opts NI nx H st).2.cholHessian (k, 0, i, i)
      ∧ (qpDUNES_factorizeNewtonHessian sqrt opts NI nx H st).2.cholHessian (k, 0, i, i)
          ≤ opts.QPDUNES_INFTY) :
    cholColumnsDone (NI * nx) (NI * nx) (fullHessian nx H)
      (lowerFactor nx (qpDUNES_factorizeNewtonHessian sqrt opts NI nx H st).2.cholHessian) := by
  have h := factorizeNewtonHessian_loops_bounded sqrt hsqrt opts NI nx H hspd st
  unfold qpDUNES_factorizeNewtonHessian at hok hpiv ⊢
  cases hr : loopExcept
      (fun st kk => loopExcept
        (fun st jj => factorizeNewtonHessian_column sqrt opts NI nx H kk jj st)
        (List.range nx) st)
      (List.range NI) st with
  | error e =>
    rw [hr] at h hok
    have h1 : e.1 = QPDUNES_ERR_DIVISION_BY_ZERO := h
    have h2 : e.1 = QPDUNES_OK := hok
    rw [h1] at h2
    exact absurd h2 (by decide)
  | ok st1 =>
    rw [hr] at h hpiv
    apply h
    intro k i hi hlt
    have hk : k < NI := by
      by_contra hk
      have h1 : NI * nx ≤ k * nx := Nat.mul_le_mul_right nx (by omega)
      omega
    exact hpiv k i hk hi

/-- C4 (as amended). Forward back-substitution solves the Newton system: for every
symmetric positive-definite block-tridiagonal `H`, if
`qpDUNES_factorizeNewtonHessian` returns `QPDUNES_OK` with a factor `L` whose pivots
are all positive and none above `QPDUNES_INFTY`, then for every right-hand side `g`
`qpDUNES_solveNewtonEquation` returns either `QPDUNES_OK` with a result `x` satisfying
`H x = g`, or `ERR_DIVISION_BY_ZERO` from the division guard; it returns `QPDUNES_OK`
whenever the guard is compiled out or `QPDUNES_ZERO <= 0`. -/
theorem solveNewtonEquation_correct {α : Type} [LinearOrderedField α]
    (sqrt : α → α) (hsqrt : SqrtSpec sqrt) (useAsserts : Bool) (opts : qpOptions_t α)
    (NI nx : Nat) (H : xn2x_matrix_t α) (st : factor_state α) (res0 g : vector_t α)
    (hspd : IsSPD (NI * nx) (fullHessian nx H))
    (hok : (qpDUNES_factorizeNewtonHessian sqrt opts NI nx H st).1 = QPDUNES_OK)
    (hpiv : ∀ k i, k < NI → i < nx →
      0 < (qpDUNES_factorizeNewtonHessian sqrt opts NI nx H st).2.cholHessian (k, 0, i, i)
      ∧ (qpDUNES_factorizeNewtonHessian sqrt opts NI nx H st).2.cholHessian (k, 0, i, i)
          ≤ opts.QPDUNES_INFTY) :
    ((qpDUNES_solveNewtonEquation useAsserts opts NI nx res0
          (qpDUNES_factorizeNewtonHessian sqrt opts NI nx H st).2.cholHessian g).1
        = QPDUNES_OK
      ∨ (qpDUNES_solveNewtonEquation useAsserts opts NI nx res0
          (qpDUNES_factorizeNewtonHessian sqrt opts NI nx H st).2.cholHessian g).1
        = QPDUNES_ERR_DIVISION_BY_ZERO)
    ∧ ((qpDUNES_solveNewtonEquation useAsserts opts NI nx res0
          (qpDUNES_factorizeNewtonHessian sqrt opts NI nx H st).2.cholHessian g).1
        = QPDUNES_OK →
        ∀ r, r < NI * nx →
          ∑ m in Finset.range (NI * nx),
            fullHessian nx H r m
              * (qpDUNES_solveNewtonEquation useAsserts opts NI nx res0
                  (qpDUNES_factorizeNewtonHessian sqrt opts NI nx H st).2.cholHessian g).2 m
          = g r)
    ∧ ((useAsserts = false ∨ opts.QPDUNES_ZERO ≤ 0) →
        (qpDUNES_solveNewtonEquation useAsserts opts NI nx res0
          (qpDUNES_factorizeNewtonHessian sqrt opts NI nx H st).2.cholHessian g).1
        = QPDUNES_OK) := by
  have hdone := factorizeNewtonHessian_columnsDone sqrt hsqrt opts NI nx H st hspd hok hpiv
  apply solveNewtonEquation_dense
  · intro k i hk hi
    exact ne_of_gt (hpiv k i hk hi).1
  · intro k i hk hi
    exact (hpiv k i hk hi).2
  · intro r m hr hm
    exact cholColumnsDone_product (NI * nx) (fullHessian nx H) _ hspd.1
      (fun r m h2 => lowerFactor_upper nx _ r m h2) hdone r m hr hm

theorem exampleHessian_run (isReg : Bool) (regType : regType_t) :
    qpDUNES_factorizeNewtonHessian Real.sqrt
        (exampleOptions ℝ regType nwtnHssnFacAlg_t.QPDUNES_NH_FAC_BAND_FORWARD)
        2 1 (exampleHessian ℝ) ⟨fun _ => 0, isReg, []⟩
      = (QPDUNES_OK,
          ⟨Function.update (Function.update (Function.update (fun _ => 0)
              (0, 0, 0, 0) 1) (1, -1, 0, 0) 1) (1, 0, 0, 0) 1,
            isReg, [1, 1]⟩) := by
  norm_num [qpDUNES_factorizeNewtonHessian, loopExcept, List.range_succ,
    factorizeNewtonHessian_column, factorizeNewtonHessian_pivotSum,
    factorizeNewtonHessian_check, factorizeNewtonHessian_diagBlock,
    factorizeNewtonHessian_subBlock, factor_finish, subLoop, exampleOptions,
    exampleHessian, Function.update, -Prod.mk_zero_zero, -Prod.mk_eq_zero]

theorem exampleHessian_bounded (isReg : Bool) (regType : regType_t) :
    ∀ k i, k < 2 → i < 1 →
      0 < (qpDUNES_factorizeNewtonHessian Real.sqrt
          (exampleOptions ℝ regType nwtnHssnFacAlg_t.QPDUNES_NH_FAC_BAND_FORWARD)
          2 1 (exampleHessian ℝ) ⟨fun _ => 0, isReg, []⟩).2.cholHessian (k, 0, i, i)
      ∧ (qpDUNES_factorizeNewtonHessian Real.sqrt
          (exampleOptions ℝ regType nwtnHssnFacAlg_t.QPDUNES_NH_FAC_BAND_FORWARD)
          2 1 (exampleHessian ℝ) ⟨fun _ => 0, isReg, []⟩).2.cholHessian (k, 0, i, i)
        ≤ (exampleOptions ℝ regType
            nwtnHssnFacAlg_t.QPDUNES_NH_FAC_BAND_FORWARD).QPDUNES_INFTY := by
  intro k i hk hi
  rw [exampleHessian_run]
  have hi0 : i = 0 := by omega
  have hk2 : k = 0 ∨ k = 1 := by omega
  subst hi0
  rcases hk2 with rfl | rfl <;>
    norm_num [Function.update, exampleOptions, -Prod.mk_zero_zero, -Prod.mk_eq_zero]

/-- Witness for C4 (as amended): the Hessian `[[1, 1], [1, 2]]` (two block rows,
`nx = 1`), whose factor has the pivots `1` and `1`, with the division guard compiled
out. -/
theorem solveNewtonEquation_correct_witness :
    SqrtSpec Real.sqrt ∧ IsSPD (2 * 1) (fullHessian 1 (exampleHessian ℝ))
    ∧ (qpDUNES_factorizeNewtonHessian Real.sqrt
        (exampleOptions ℝ regType_t.QPDUNES_REG_LEVENBERG_MARQUARDT
          nwtnHssnFacAlg_t.QPDUNES_NH_FAC_BAND_FORWARD)
        2 1 (exampleHessian ℝ) ⟨fun _ => 0, false, []⟩).1 = QPDUNES_OK
    ∧ (qpDUNES_solveNewtonEquation false
        (exampleOptions ℝ regType_t.QPDUNES_REG_LEVENBERG_MARQUARDT
          nwtnHssnFacAlg_t.QPDUNES_NH_FAC_BAND_FORWARD) 2 1 (fun _ => 0)
        (qpDUNES_factorizeNewtonHessian Real.sqrt
          (exampleOptions ℝ regType_t.QPDUNES_REG_LEVENBERG_MARQUARDT
            nwtnHssnFacAlg_t.QPDUNES_NH_FAC_BAND_FORWARD)
          2 1 (exampleHessian ℝ) ⟨fun _ => 0, false, []⟩).2.cholHessian
        (fun _ => 1)).1 = QPDUNES_OK :=
  ⟨real_sqrtSpec, exampleHessian_spd, by rw [exampleHessian_run],
    (solveNewtonEquation_correct Real.sqrt real_sqrtSpec false
      (exampleOptions ℝ regType_t.QPDUNES_REG_LEVENBERG_MARQUARDT
        nwtnHssnFacAlg_t.QPDUNES_NH_FAC_BAND_FORWARD)
      2 1 (exampleHessian ℝ) ⟨fun _ => 0, false, []⟩ (fun _ => 0) (fun _ => 1)
      exampleHessian_spd (by rw [exampleHessian_run])
      (exampleHessian_bounded false regType_t.QPDUNES_REG_LEVENBERG_MARQUARDT)).2.2
      (Or.inl rfl)⟩

/-- Counterexample to C4 as stated: the symmetric positive-definite Hessian
`[[1, 1], [1, 2]]` (two block rows, `nx = 1`) with `QPDUNES_INFTY = 1000`,
`QPDUNES_ZERO = 1/1000`, assertions enabled and right-hand side `g = (2000, 0)`. The
forward factorization returns `QPDUNES_OK` with the pivots `1` and `1`; the first
division of the back-substitution has pivot `1` and numerator `2000`, so
`qpDUNES_solveNewtonEquation` returns `QPDUNES_ERR_DIVISION_BY_ZERO`. -/
theorem solveNewtonEquation_counterexample :
    IsSPD (2 * 1) (fullHessian 1 (exampleHessian ℝ))
    ∧ (qpDUNES_factorizeNewtonHessian Real.sqrt
        (exampleOptions ℝ regType_t.QPDUNES_REG_LEVENBERG_MARQUARDT
          nwtnHssnFacAlg_t.QPDUNES_NH_FAC_BAND_FORWARD)
        2 1 (exampleHessian ℝ) ⟨fun _ => 0, false, []⟩).1 = QPDUNES_OK
    ∧ (∀ k i, k < 2 → i < 1 →
      0 < (qpDUNES_factorizeNewtonHessian Real.sqrt
          (exampleOptions ℝ regType_t.QPDUNES_REG_LEVENBERG_MARQUARDT
            nwtnHssnFacAlg_t.QPDUNES_NH_FAC_BAND_FORWARD)
          2 1 (exampleHessian ℝ) ⟨fun _ => 0, false, []⟩).2.cholHessian (k, 0, i, i)
      ∧ (qpDUNES_factorizeNewtonHessian Real.sqrt
          (exampleOptions ℝ regType_t.QPDUNES_REG_LEVENBERG_MARQUARDT
            nwtnHssnFacAlg_t.QPDUNES_NH_FAC_BAND_FORWARD)
          2 1 (exampleHessian ℝ) ⟨fun _ => 0, false, []⟩).2.cholHessian (k, 0, i, i)
        ≤ (exampleOptions ℝ regType_t.QPDUNES_REG_LEVENBERG_MARQUARDT
            nwtnHssnFacAlg_t.QPDUNES_NH_FAC_BAND_FORWARD).QPDUNES_INFTY)
    ∧ (qpDUNES_solveNewtonEquation true
        (exampleOptions ℝ regType_t.QPDUNES_REG_LEVENBERG_MARQUARDT
          nwtnHssnFacAlg_t.QPDUNES_NH_FAC_BAND_FORWARD) 2 1 (fun _ => 0)
        (qpDUNES_factorizeNewtonHessian Real.sqrt
          (exampleOptions ℝ regType_t.QPDUNES_REG_LEVENBERG_MARQUARDT
            nwtnHssnFacAlg_t.QPDUNES_NH_FAC_BAND_FORWARD)
          2 1 (exampleHessian ℝ) ⟨fun _ => 0, false, []⟩).2.cholHessian
        (fun r => if r = 0 then 2000 else 0)).1 = QPDUNES_ERR_DIVISION_BY_ZERO := by
  refine ⟨exampleHessian_spd, by rw [exampleHessian_run],
    exampleHessian_bounded false regType_t.QPDUNES_REG_LEVENBERG_MARQUARDT, ?_⟩
  rw [exampleHessian_run]
  norm_num [qpDUNES_solveNewtonEquation, loopExcept, List.range_succ,
    backsolve_upperRow, backsolve_lowerRow, backsolve_finish, subLoop, exampleOptions,
    Function.update, -Prod.mk_zero_zero, -Prod.mk_eq_zero]

/-! ## Pivots above `QPDUNES_INFTY` in `qpDUNES_solveNewtonEquation` -/

/-- A row of a top-down solve either returns `QPDUNES_ERR_DIVISION_BY_ZERO` or writes
the one cell `res[kk*nx + ii]`; with the branch for pivots above `QPDUNES_INFTY` and
such a pivot, it writes `0`. -/
theorem backsolve_lowerRow_cases {α : Type} [LinearOrderedField α]
    (useAsserts inftyBranch : Bool) (opts : qpOptions_t α) (nx : Nat)
    (L : xn2x_matrix_t α) (kk ii : Nat) (sum0 : α) (res : vector_t α) :
    outcome
      (fun res1 => ∃ v, res1 = Function.update res (kk * nx + ii) v
        ∧ (inftyBranch = true → opts.QPDUNES_INFTY < L (kk, 0, ii, ii) → v = 0))
      (fun e => e.1 = QPDUNES_ERR_DIVISION_BY_ZERO)
      (backsolve_lowerRow useAsserts inftyBranch opts nx L kk ii sum0 res) := by
  unfold backsolve_lowerRow
  dsimp only
  split_ifs
  all_goals first
    | exact rfl
    | exact ⟨0, rfl, fun _ _ => rfl⟩
    | exact ⟨_, rfl, fun hb hp => False.elim
        ((by assumption : ¬ (inftyBranch = true
          ∧ L (kk, 0, ii, ii) > opts.QPDUNES_INFTY)) ⟨hb, hp⟩)⟩

/-- After the top-down solve of `qpDUNES_solveNewtonEquation`, the entry of a row whose
pivot is above `QPDUNES_INFTY` is `0`. -/
theorem backsolve_lowerSweep_flag {α : Type} [LinearOrderedField α]
    (useAsserts : Bool) (opts : qpOptions_t α) (NI nx : Nat)
    (L : xn2x_matrix_t α) (rhs : vector_t α → Nat → α) (res0 : vector_t α)
    (k i : Nat) (hk : k < NI) (hi : i < nx)
    (hflag : opts.QPDUNES_INFTY < L (k, 0, i, i)) :
    outcome (fun res1 => res1 (k * nx + i) = 0)
      (fun e => e.1 = QPDUNES_ERR_DIVISION_BY_ZERO)
      (loopExcept
        (fun res kk => loopExcept
          (fun res ii => backsolve_lowerRow useAsserts true opts nx L kk ii
            (rhs res (kk * nx + ii)) res)
          (List.range nx) res)
        (List.range NI) res0) := by
  have h := loopExcept_range_inv
    (fun res kk => loopExcept
      (fun res ii => backsolve_lowerRow useAsserts true opts nx L kk ii
        (rhs res (kk * nx + ii)) res)
      (List.range nx) res)
    (fun K (res1 : vector_t α) => k * nx + i < K * nx → res1 (k * nx + i) = 0)
    (fun e => e.1 = QPDUNES_ERR_DIVISION_BY_ZERO) NI
    (by
      intro kk hkk res1 hI
      have h1 := loopExcept_range_inv
        (fun res ii => backsolve_lowerRow useAsserts true opts nx L kk ii
          (rhs res (kk * nx + ii)) res)
        (fun J (res1 : vector_t α) => k * nx + i < kk * nx + J → res1 (k * nx + i) = 0)
        (fun e => e.1 = QPDUNES_ERR_DIVISION_BY_ZERO) nx
        (by
          intro ii hii res2 hI2
          apply outcome_mono _ _ _ _ _
            (backsolve_lowerRow_cases useAsserts true opts nx L kk ii
              (rhs res2 (kk * nx + ii)) res2)
          rintro res3 ⟨v, hv, hv0⟩ hlt
          rw [hv]
          by_cases hc : k * nx + i = kk * nx + ii
          · have hk2 : kk = k := by
              have e1 := idx_div nx k i hi
              have e2 := idx_div nx kk ii hii
              rw [hc, e2] at e1
              exact e1
            have hi2 : ii = i := by
              have e1 := idx_mod nx k i hi
              have e2 := idx_mod nx kk ii hii
              rw [hc, e2] at e1
              exact e1
            subst hk2 hi2
            rw [Function.update_same]
            exact hv0 rfl hflag
          · rw [Function.update_noteq hc]
            exact hI2 (by omega))
        res1 hI
      apply outcome_mono _ _ _ _ _ h1
      intro res2 h2 hlt
      rw [Nat.add_mul, Nat.one_mul] at hlt
      exact h2 hlt)
    res0
    (by
      intro hlt
      simp only [Nat.zero_mul] at hlt
      omega)
  apply outcome_mono _ _ _ _ _ h
  intro res2 h2
  exact h2 (idx_lt_of_block_lt nx NI k i hk hi)

/-- C11 (as amended). Sentinel pivots zero the right-hand side of the row, not the
step component: for every factor `L` with nonzero pivots and every right-hand side, if
the diagonal factor entry of row `(k,i)` exceeds `QPDUNES_INFTY` and
`qpDUNES_solveNewtonEquation` returns `QPDUNES_OK`, then the component `c = k*nx+i` of
the returned solution `x` is `-(sum over the rows t > c of L[t][c] * x[t]) / L[c][c]`;
it is `0` when column `c` of `L` is zero below the pivot. -/
theorem solveNewtonEquation_sentinel {α : Type} [LinearOrderedField α]
    (useAsserts : Bool) (opts : qpOptions_t α) (NI nx : Nat) (res0 : vector_t α)
    (L : xn2x_matrix_t α) (g : vector_t α) (k i : Nat) (hk : k < NI) (hi : i < nx)
    (hd : ∀ k i, k < NI → i < nx → L (k, 0, i, i) ≠ 0)
    (hflag : opts.QPDUNES_INFTY < L (k, 0, i, i))
    (hok : (qpDUNES_solveNewtonEquation useAsserts opts NI nx res0 L g).1 = QPDUNES_OK) :
    (qpDUNES_solveNewtonEquation useAsserts opts NI nx res0 L g).2 (k * nx + i)
        = -(∑ u in Finset.range (NI * nx - (k * nx + i) - 1),
              lowerFactor nx L (k * nx + i + 1 + u) (k * nx + i)
                * (qpDUNES_solveNewtonEquation useAsserts opts NI nx res0 L g).2
                    (k * nx + i + 1 + u))
          / L (k, 0, i, i)
    ∧ ((∀ t, k * nx + i < t → t < NI * nx → lowerFactor nx L t (k * nx + i) = 0) →
        (qpDUNES_solveNewtonEquation useAsserts opts NI nx res0 L g).2 (k * nx + i) = 0) := by
  have h1 := backsolve_lowerSweep_flag useAsserts opts NI nx L (fun _ c => g c) res0 k i
    hk hi hflag
  have hc : k * nx + i < NI * nx := idx_lt_of_block_lt nx NI k i hk hi
  unfold qpDUNES_solveNewtonEquation at hok ⊢
  cases hp1 : loopExcept
      (fun res kk => loopExcept
        (fun res ii => backsolve_lowerRow useAsserts true opts nx L kk ii
          (g (kk * nx + ii)) res)
        (List.range nx) res)
      (List.range NI) res0 with
  | error e =>
    rw [hp1] at h1 hok
    have h2 : e.1 = QPDUNES_ERR_DIVISION_BY_ZERO := h1
    have h3 : e.1 = QPDUNES_OK := hok
    rw [h2] at h3
    exact absurd h3 (by decide)
  | ok y =>
    rw [hp1] at h1 hok
    have hy : y (k * nx + i) = 0 := h1
    have h2 := backsolve_upperSweep useAsserts opts NI nx L (fun res c => res c) y y
      (fun _ _ h => h) hd
    simp only [] at hok ⊢
    cases hp2 : loopExcept
        (fun res kk => loopExcept
          (fun res ii => backsolve_upperRow useAsserts opts NI nx L kk ii
            (res (kk * nx + ii)) res)
          (List.range nx).reverse res)
        (List.range NI).reverse y with
    | error e =>
      rw [hp2] at h2 hok
      have h3 : e.1 = QPDUNES_ERR_DIVISION_BY_ZERO := h2.1
      have h4 : e.1 = QPDUNES_OK := hok
      rw [h3] at h4
      exact absurd h4 (by decide)
    | ok x =>
      rw [hp2] at h2
      simp only [backsolve_finish]
      have h3 := h2.1 (k * nx + i) (Nat.zero_le _) hc
      rw [hy] at h3
      obtain ⟨m, hm⟩ : ∃ m, NI * nx - (k * nx + i) = m + 1 := ⟨NI * nx - (k * nx + i) - 1, by omega⟩
      rw [hm, Finset.sum_range_succ'] at h3
      simp only [Nat.add_zero] at h3
      rw [lowerFactor_diag nx L k i i hi le_rfl] at h3
      have hm2 : NI * nx - (k * nx + i) - 1 = m := by omega
      rw [hm2]
      have e1 : ∑ u in Finset.range m,
            lowerFactor nx L (k * nx + i + 1 + u) (k * nx + i) * x (k * nx + i + 1 + u)
          = ∑ u in Finset.range m,
            lowerFactor nx L (k * nx + i + (u + 1)) (k * nx + i) * x (k * nx + i + (u + 1)) := by
        apply Finset.sum_congr rfl
        intro u _
        have : k * nx + i + 1 + u = k * nx + i + (u + 1) := by omega
        rw [this]
      have hp := hd k i hk hi
      have hx : x (k * nx + i)
          = -(∑ u in Finset.range m,
              lowerFactor nx L (k * nx + i + 1 + u) (k * nx + i) * x (k * nx + i + 1 + u))
            / L (k, 0, i, i) := by
        rw [e1]
        field_simp
        linarith
      refine ⟨hx, ?_⟩
      intro hz
      rw [hx]
      have e2 : ∑ u in Finset.range m,
            lowerFactor nx L (k * nx + i + 1 + u) (k * nx + i) * x (k * nx + i + 1 + u)
          = 0 := by
        apply Finset.sum_eq_zero
        intro u hu
        have hu2 : u < m := Finset.mem_range.1 hu
        rw [hz (k * nx + i + 1 + u) (by omega) (by omega), zero_mul]
      rw [e2, neg_zero, zero_div]

theorem exampleFactorFlagged_run :
    qpDUNES_solveNewtonEquation true
        (exampleOptions ℝ regType_t.QPDUNES_REG_SINGULAR_DIRECTIONS
          nwtnHssnFacAlg_t.QPDUNES_NH_FAC_BAND_FORWARD) 2 1 (fun _ => 0)
        (exampleFactorFlagged ℝ) (fun r => if r = 1 then 1 else 0)
      = (QPDUNES_OK, Function.update (Function.update (Function.update
          (Function.update (fun _ => 0) 0 0) 1 1) 1 1) 0 (-1 / 2000)) := by
  norm_num [qpDUNES_solveNewtonEquation, loopExcept, List.range_succ,
    backsolve_upperRow, backsolve_lowerRow, backsolve_finish, subLoop, exampleOptions,
    exampleFactorFlagged, Function.update, -Prod.mk_zero_zero, -Prod.mk_eq_zero]

theorem exampleFactorFlagged_pivots :
    ∀ k i, k < 2 → i < 1 → exampleFactorFlagged ℝ (k, 0, i, i) ≠ 0 := by
  intro k i _ _
  unfold exampleFactorFlagged
  split_ifs <;> norm_num

theorem exampleFactorFlagged_flag :
    (exampleOptions ℝ regType_t.QPDUNES_REG_SINGULAR_DIRECTIONS
        nwtnHssnFacAlg_t.QPDUNES_NH_FAC_BAND_FORWARD).QPDUNES_INFTY
      < exampleFactorFlagged ℝ (0, 0, 0, 0) := by
  norm_num [exampleOptions, exampleFactorFlagged]

/-- Witness for C11 (as amended): the factor `[[2000, 0], [1, 1]]` (two block rows,
`nx = 1`) with `QPDUNES_INFTY = 1000`, row `(0,0)` and the right-hand side
`g = (0, 1)`. -/
theorem solveNewtonEquation_sentinel_witness :
    (exampleOptions ℝ regType_t.QPDUNES_REG_SINGULAR_DIRECTIONS
        nwtnHssnFacAlg_t.QPDUNES_NH_FAC_BAND_FORWARD).QPDUNES_INFTY
      < exampleFactorFlagged ℝ (0, 0, 0, 0)
    ∧ (qpDUNES_solveNewtonEquation true
        (exampleOptions ℝ regType_t.QPDUNES_REG_SINGULAR_DIRECTIONS
          nwtnHssnFacAlg_t.QPDUNES_NH_FAC_BAND_FORWARD) 2 1 (fun _ => 0)
        (exampleFactorFlagged ℝ) (fun r => if r = 1 then 1 else 0)).1 = QPDUNES_OK
    ∧ (qpDUNES_solveNewtonEquation true
        (exampleOptions ℝ regType_t.QPDUNES_REG_SINGULAR_DIRECTIONS
          nwtnHssnFacAlg_t.QPDUNES_NH_FAC_BAND_FORWARD) 2 1 (fun _ => 0)
        (exampleFactorFlagged ℝ) (fun r => if r = 1 then 1 else 0)).2 (0 * 1 + 0)
      = -(∑ u in Finset.range (2 * 1 - (0 * 1 + 0) - 1),
            lowerFactor 1 (exampleFactorFlagged ℝ) (0 * 1 + 0 + 1 + u) (0 * 1 + 0)
              * (qpDUNES_solveNewtonEquation true
                  (exampleOptions ℝ regType_t.QPDUNES_REG_SINGULAR_DIRECTIONS
                    nwtnHssnFacAlg_t.QPDUNES_NH_FAC_BAND_FORWARD) 2 1 (fun _ => 0)
                  (exampleFactorFlagged ℝ) (fun r => if r = 1 then 1 else 0)).2
                  (0 * 1 + 0 + 1 + u))
        / exampleFactorFlagged ℝ (0, 0, 0, 0) :=
  ⟨exampleFactorFlagged_flag, by rw [exampleFactorFlagged_run],
    (solveNewtonEquation_sentinel true
      (exampleOptions ℝ regType_t.QPDUNES_REG_SINGULAR_DIRECTIONS
        nwtnHssnFacAlg_t.QPDUNES_NH_FAC_BAND_FORWARD) 2 1 (fun _ => 0)
      (exampleFactorFlagged ℝ) (fun r => if r = 1 then 1 else 0) 0 0 (by norm_num)
      (by norm_num) exampleFactorFlagged_pivots exampleFactorFlagged_flag
      (by rw [exampleFactorFlagged_run])).1⟩

/-- Counterexample to C11 as stated: the factor `[[2000, 0], [1, 1]]` (two block rows,
`nx = 1`) with `QPDUNES_INFTY = 1000` and the right-hand side `g = (0, 1)`. The pivot
of row `(0,0)` is above `QPDUNES_INFTY`; the top-down solve leaves `(0, 1)`, the
bottom-up solve writes `1` and then `(0 - 1 * 1) / 2000`, and the routine returns
`QPDUNES_OK` with component `0` equal to `-1/2000`. -/
theorem solveNewtonEquation_sentinel_counterexample :
    (exampleOptions ℝ regType_t.QPDUNES_REG_SINGULAR_DIRECTIONS
        nwtnHssnFacAlg_t.QPDUNES_NH_FAC_BAND_FORWARD).QPDUNES_INFTY
      < exampleFactorFlagged ℝ (0, 0, 0, 0)
    ∧ (qpDUNES_solveNewtonEquation true
        (exampleOptions ℝ regType_t.QPDUNES_REG_SINGULAR_DIRECTIONS
          nwtnHssnFacAlg_t.QPDUNES_NH_FAC_BAND_FORWARD) 2 1 (fun _ => 0)
        (exampleFactorFlagged ℝ) (fun r => if r = 1 then 1 else 0)).1 = QPDUNES_OK
    ∧ (qpDUNES_solveNewtonEquation true
        (exampleOptions ℝ regType_t.QPDUNES_REG_SINGULAR_DIRECTIONS
          nwtnHssnFacAlg_t.QPDUNES_NH_FAC_BAND_FORWARD) 2 1 (fun _ => 0)
        (exampleFactorFlagged ℝ) (fun r => if r = 1 then 1 else 0)).2 (0 * 1 + 0)
      = -1 / 2000
    ∧ (qpDUNES_solveNewtonEquation true
        (exampleOptions ℝ regType_t.QPDUNES_REG_SINGULAR_DIRECTIONS
          nwtnHssnFacAlg_t.QPDUNES_NH_FAC_BAND_FORWARD) 2 1 (fun _ => 0)
        (exampleFactorFlagged ℝ) (fun r => if r = 1 then 1 else 0)).2 (0 * 1 + 0) ≠ 0 := by
  rw [exampleFactorFlagged_run]
  refine ⟨exampleFactorFlagged_flag, rfl, ?_, ?_⟩ <;> norm_num [Function.update]

/-! ## Regularization inside and around the factorization -/

/-- A column step of the forward factorization returns only
`QPDUNES_ERR_DIVISION_BY_ZERO`. -/
theorem factorizeNewtonHessian_column_error {α : Type} [LinearOrderedField α]
    (sqrt : α → α) (opts : qpOptions_t α) (NI nx : Nat) (H : xn2x_matrix_t α)
    (kk jj : Nat) (st : factor_state α) :
    outcome (fun _ => True) (fun e => e.1 = QPDUNES_ERR_DIVISION_BY_ZERO)
      (factorizeNewtonHessian_column sqrt opts NI nx H kk jj st) := by
  unfold factorizeNewtonHessian_column factorizeNewtonHessian_check
  dsimp only
  split_ifs <;> first | exact trivial | exact rfl

/-- A column step of the reverse factorization returns only
`QPDUNES_ERR_DIVISION_BY_ZERO`. -/
theorem factorizeNewtonHessianBottomUp_column_error {α : Type} [LinearOrderedField α]
    (sqrt : α → α) (debug : Bool) (opts : qpOptions_t α) (NI nx : Nat)
    (H : xn2x_matrix_t α) (kk jj : Nat) (st : factor_state α) :
    outcome (fun _ => True) (fun e => e.1 = QPDUNES_ERR_DIVISION_BY_ZERO)
      (factorizeNewtonHessianBottomUp_column sqrt debug opts NI nx H kk jj st) := by
  unfold factorizeNewtonHessianBottomUp_column factorizeNewtonHessianBottomUp_check
  dsimp only
  split_ifs <;> first | exact trivial | exact rfl

/-- The forward factorization returns `QPDUNES_OK` or `QPDUNES_ERR_DIVISION_BY_ZERO`. -/
theorem factorizeNewtonHessian_status {α : Type} [LinearOrderedField α]
    (sqrt : α → α) (opts : qpOptions_t α) (NI nx : Nat) (H : xn2x_matrix_t α)
    (st : factor_state α) :
    (qpDUNES_factorizeNewtonHessian sqrt opts NI nx H st).1 = QPDUNES_OK
    ∨ (qpDUNES_factorizeNewtonHessian sqrt opts NI nx H st).1
        = QPDUNES_ERR_DIVISION_BY_ZERO := by
  have h := loopExcept_inv
    (fun st kk => loopExcept
      (fun st jj => factorizeNewtonHessian_column sqrt opts NI nx H kk jj st)
      (List.range nx) st)
    (fun _ => True) (fun e => e.1 = QPDUNES_ERR_DIVISION_BY_ZERO) (List.range NI)
    (fun st1 kk _ _ => loopExcept_inv
      (fun st jj => factorizeNewtonHessian_column sqrt opts NI nx H kk jj st)
      (fun _ => True) (fun e => e.1 = QPDUNES_ERR_DIVISION_BY_ZERO) (List.range nx)
      (fun st2 jj _ _ => factorizeNewtonHessian_column_error sqrt opts NI nx H kk jj st2)
      st1 trivial)
    st trivial
  unfold qpDUNES_factorizeNewtonHessian
  cases hr : loopExcept
      (fun st kk => loopExcept
        (fun st jj => factorizeNewtonHessian_column sqrt opts NI nx H kk jj st)
        (List.range nx) st)
      (List.range NI) st with
  | error e =>
    rw [hr] at h
    exact Or.inr h
  | ok st1 => exact Or.inl rfl

/-- The reverse factorization returns `QPDUNES_OK` or `QPDUNES_ERR_DIVISION_BY_ZERO`. -/
theorem factorizeNewtonHessianBottomUp_status {α : Type} [LinearOrderedField α]
    (sqrt : α → α) (debug : Bool) (opts : qpOptions_t α) (NI nx : Nat)
    (H : xn2x_matrix_t α) (lastActSetChangeIdx : Int) (st : factor_state α) :
    (qpDUNES_factorizeNewtonHessianBottomUp sqrt debug opts NI nx H lastActSetChangeIdx
        st).1 = QPDUNES_OK
    ∨ (qpDUNES_factorizeNewtonHessianBottomUp sqrt debug opts NI nx H lastActSetChangeIdx
        st).1 = QPDUNES_ERR_DIVISION_BY_ZERO := by
  have h := loopExcept_inv
    (fun st kk => loopExcept
      (fun st jj => factorizeNewtonHessianBottomUp_column sqrt debug opts NI nx H kk jj st)
      (List.range nx).reverse st)
    (fun _ => True) (fun e => e.1 = QPDUNES_ERR_DIVISION_BY_ZERO)
    (List.range (blockIdxStart NI lastActSetChangeIdx + 1).toNat).reverse
    (fun st1 kk _ _ => loopExcept_inv
      (fun st jj => factorizeNewtonHessianBottomUp_column sqrt debug opts NI nx H kk jj st)
      (fun _ => True) (fun e => e.1 = QPDUNES_ERR_DIVISION_BY_ZERO) (List.range nx).reverse
      (fun st2 jj _ _ =>
        factorizeNewtonHessianBottomUp_column_error sqrt debug opts NI nx H kk jj st2)
      st1 trivial)
    st trivial
  unfold qpDUNES_factorizeNewtonHessianBottomUp
  cases hr : loopExcept
      (fun st kk => loopExcept
        (fun st jj =>
          factorizeNewtonHessianBottomUp_column sqrt debug opts NI nx H kk jj st)
        (List.range nx).reverse st)
      (List.range (blockIdxStart NI lastActSetChangeIdx + 1).toNat).reverse st with
  | error e =>
    rw [hr] at h
    exact Or.inr h
  | ok st1 => exact Or.inl rfl

/-- The diagonal cells of the factor after a column step of the reverse factorization
that writes the pivot `v`: cell `(kk,0,jj,jj)` holds `v`, every other diagonal cell is
as before. -/
theorem factorizeNewtonHessianBottomUp_column_diag {α : Type} [LinearOrderedField α]
    (NI nx : Nat) (H L : xn2x_matrix_t α) (kk jj : Nat) (v : α) (k i : Nat) :
    factorizeNewtonHessianBottomUp_subBlock nx H kk jj
        (factorizeNewtonHessianBottomUp_diagBlock NI nx H kk jj
          (Function.update L (kk, 0, jj, jj) v)) (k, 0, i, i)
      = if k = kk ∧ i = jj then v else L (k, 0, i, i) := by
  obtain ⟨d1, _⟩ := factorizeNewtonHessianBottomUp_diagBlock_spec NI nx H kk jj
    (Function.update L (kk, 0, jj, jj) v)
  obtain ⟨b1, _⟩ := factorizeNewtonHessianBottomUp_subBlock_spec nx H kk jj
    (factorizeNewtonHessianBottomUp_diagBlock NI nx H kk jj
      (Function.update L (kk, 0, jj, jj) v))
  rw [b1, d1]
  · by_cases h : k = kk ∧ i = jj
    · obtain ⟨h1, h2⟩ := h
      subst h1 h2
      simp
    · rw [if_neg h, Function.update_noteq]
      intro h2
      simp only [Prod.mk.injEq] at h2
      exact h ⟨h2.1, h2.2.2.1⟩
  · intro ii h1 h2
    simp only [Prod.mk.injEq] at h2
    omega
  · intro ii _ h2
    simp only [Prod.mk.injEq] at h2
    omega

/-- A factorization pass of `qpDUNES_factorNewtonSystem` returns `QPDUNES_OK` or
`QPDUNES_ERR_DIVISION_BY_ZERO`, and it runs for each known factorization algorithm. -/
theorem factorNewtonSystem_pass_status {α : Type} [LinearOrderedField α] (sqrt : α → α)
    (debug : Bool) (opts : qpOptions_t α) (NI nx : Nat) (H : xn2x_matrix_t α)
    (lastActSetChangeIdx : Int) (st : factor_state α) :
    (factorNewtonSystem_pass sqrt debug opts NI nx H lastActSetChangeIdx st = none
      ∧ opts.nwtnHssnFacAlg = nwtnHssnFacAlg_t.unknownFacAlg)
    ∨ ∃ statusFlag st1,
        factorNewtonSystem_pass sqrt debug opts NI nx H lastActSetChangeIdx st
          = some (statusFlag, st1)
        ∧ (statusFlag = QPDUNES_OK ∨ statusFlag = QPDUNES_ERR_DIVISION_BY_ZERO) := by
  unfold factorNewtonSystem_pass
  cases hf : opts.nwtnHssnFacAlg with
  | QPDUNES_NH_FAC_BAND_FORWARD =>
    exact Or.inr ⟨_, _, rfl, factorizeNewtonHessian_status sqrt opts NI nx H st⟩
  | QPDUNES_NH_FAC_BAND_REVERSE =>
    exact Or.inr ⟨_, _, rfl,
      factorizeNewtonHessianBottomUp_status sqrt debug opts NI nx H lastActSetChangeIdx st⟩
  | unknownFacAlg => exact Or.inl ⟨rfl, rfl⟩

/-- With `regType = SingularDirections`, `qpDUNES_factorNewtonSystem` returns
`QPDUNES_OK` with the Hessian as it was and the factor state of its first pass. -/
theorem factorNewtonSystem_singularDirections_result {α : Type} [LinearOrderedField α]
    (sqrt : α → α) (debug : Bool) (opts : qpOptions_t α) (NI nx : Nat)
    (H : xn2x_matrix_t α) (st : factor_state α) (lastActSetChangeIdx : Int)
    (hreg : opts.regType = regType_t.QPDUNES_REG_SINGULAR_DIRECTIONS)
    (p : return_t × factor_state α)
    (hp : factorNewtonSystem_pass sqrt debug opts NI nx H lastActSetChangeIdx st = some p) :
    qpDUNES_factorNewtonSystem sqrt debug opts NI nx H st lastActSetChangeIdx
      = ⟨QPDUNES_OK, H, p.2⟩ := by
  unfold qpDUNES_factorNewtonSystem
  rcases factorNewtonSystem_pass_status sqrt debug opts NI nx H lastActSetChangeIdx st
    with ⟨h1, _⟩ | ⟨statusFlag, st1, hp2, hs⟩
  · rw [h1] at hp
    cases hp
  · rw [hp2] at hp
    cases hp
    rw [hp2]
    simp only [hreg]
    by_cases hc : statusFlag = QPDUNES_ERR_DIVISION_BY_ZERO
        ∨ factorNewtonSystem_minDiagElem opts NI nx statusFlag st1.cholHessian
          < opts.newtonHessDiagRegTolerance
    · simp only [if_pos hc]
    · simp only [if_neg hc]
      have hok : statusFlag = QPDUNES_OK := by
        rcases hs with h | h
        · exact h
        · exact absurd (Or.inl h) hc
      simp only [hok, ne_eq, not_true_eq_false, if_false]

/-- C12 (as amended). Singular-directions regularization: with
`regType = SingularDirections`, whenever a pivot squared-sum `s` falls below
`newtonHessDiagRegTolerance`, a column step of the reverse factorization (without
`__DEBUG__`, or with `s + regParam` not below the tolerance) sets
`isHessianRegularized = true`, writes the pivot `sqrt(s + regParam)` on the affected
row and continues; a column step of the forward factorization writes the pivot
`sqrt(s + QPDUNES_INFTY^2 + 1)` instead; and `qpDUNES_factorNewtonSystem` with either
factorization returns `QPDUNES_OK` after a single factorization pass, with the Hessian
as it was and the factor state that pass left. -/
theorem factorNewtonSystem_singularDirections {α : Type} [LinearOrderedField α]
    (sqrt : α → α) (debug : Bool) (opts : qpOptions_t α) (NI nx : Nat)
    (H : xn2x_matrix_t α) (st : factor_state α) (lastActSetChangeIdx : Int)
    (hreg : opts.regType = regType_t.QPDUNES_REG_SINGULAR_DIRECTIONS) :
    (∀ kk jj (st0 : factor_state α),
      factorizeNewtonHessianBottomUp_pivotSum NI nx H st0.cholHessian kk jj
          < opts.newtonHessDiagRegTolerance →
      (debug = false ∨ opts.newtonHessDiagRegTolerance
          ≤ factorizeNewtonHessianBottomUp_pivotSum NI nx H st0.cholHessian kk jj
            + opts.regParam) →
      ∃ st1, factorizeNewtonHessianBottomUp_column sqrt debug opts NI nx H kk jj st0
          = .ok st1
        ∧ st1.isHessianRegularized = true
        ∧ st1.cholHessian (kk, 0, jj, jj)
          = sqrt (factorizeNewtonHessianBottomUp_pivotSum NI nx H st0.cholHessian kk jj
              + opts.regParam))
    ∧ (∀ kk jj (st0 : factor_state α),
      factorizeNewtonHessian_pivotSum nx H st0.cholHessian kk jj
          < opts.newtonHessDiagRegTolerance →
      ∃ st1, factorizeNewtonHessian_column sqrt opts NI nx H kk jj st0 = .ok st1
        ∧ st1.isHessianRegularized = true
        ∧ st1.cholHessian (kk, 0, jj, jj)
          = sqrt (factorizeNewtonHessian_pivotSum nx H st0.cholHessian kk jj
              + (opts.QPDUNES_INFTY * opts.QPDUNES_INFTY + 1)))
    ∧ (opts.nwtnHssnFacAlg ≠ nwtnHssnFacAlg_t.unknownFacAlg →
      (qpDUNES_factorNewtonSystem sqrt debug opts NI nx H st lastActSetChangeIdx).status
        = QPDUNES_OK
      ∧ (qpDUNES_factorNewtonSystem sqrt debug opts NI nx H st lastActSetChangeIdx).hessian
        = H
      ∧ ∃ statusFlag,
          factorNewtonSystem_pass sqrt debug opts NI nx H lastActSetChangeIdx st
            = some (statusFlag,
                (qpDUNES_factorNewtonSystem sqrt debug opts NI nx H st
                  lastActSetChangeIdx).fac)) := by
  refine ⟨?_, ?_, ?_⟩
  · intro kk jj st0 hlt hdbg
    have hnd : ¬ (debug = true
        ∧ factorizeNewtonHessianBottomUp_pivotSum NI nx H st0.cholHessian kk jj
            + opts.regParam < opts.newtonHessDiagRegTolerance) := by
      rintro ⟨h1, h2⟩
      rcases hdbg with h3 | h3
      · rw [h3] at h1
        exact absurd h1 (by decide)
      · exact absurd h2 (not_lt.2 h3)
    have hcol : factorizeNewtonHessianBottomUp_column sqrt debug opts NI nx H kk jj st0
        = .ok ⟨factorizeNewtonHessianBottomUp_subBlock nx H kk jj
            (factorizeNewtonHessianBottomUp_diagBlock NI nx H kk jj
              (Function.update st0.cholHessian (kk, 0, jj, jj)
                (sqrt (factorizeNewtonHessianBottomUp_pivotSum NI nx H st0.cholHessian kk jj
                  + opts.regParam)))),
          true,
          st0.pivots
            ++ [factorizeNewtonHessianBottomUp_pivotSum NI nx H st0.cholHessian kk jj]⟩ := by
      unfold factorizeNewtonHessianBottomUp_column factorizeNewtonHessianBottomUp_check
      simp only [hreg, hlt, and_self, if_true, if_neg hnd]
    exact ⟨_, hcol, rfl,
      (factorizeNewtonHessianBottomUp_column_diag NI nx H st0.cholHessian kk jj _
        kk jj).trans (if_pos ⟨rfl, rfl⟩)⟩
  · intro kk jj st0 hlt
    have hcol : factorizeNewtonHessian_column sqrt opts NI nx H kk jj st0
        = .ok ⟨factorizeNewtonHessian_subBlock NI nx H kk jj
            (factorizeNewtonHessian_diagBlock nx H kk jj
              (Function.update st0.cholHessian (kk, 0, jj, jj)
                (sqrt (factorizeNewtonHessian_pivotSum nx H st0.cholHessian kk jj
                  + (opts.QPDUNES_INFTY * opts.QPDUNES_INFTY + 1))))),
          true,
          st0.pivots ++ [factorizeNewtonHessian_pivotSum nx H st0.cholHessian kk jj]⟩ := by
      unfold factorizeNewtonHessian_column factorizeNewtonHessian_check
      simp only [hreg, hlt, and_self, if_true]
    exact ⟨_, hcol, rfl,
      (factorizeNewtonHessian_column_diag NI nx H st0.cholHessian kk jj _
        kk jj).trans (if_pos ⟨rfl, rfl⟩)⟩
  · intro hf
    rcases factorNewtonSystem_pass_status sqrt debug opts NI nx H lastActSetChangeIdx st
      with ⟨_, h2⟩ | ⟨statusFlag, st1, hp, _⟩
    · exact absurd h2 hf
    · rw [factorNewtonSystem_singularDirections_result sqrt debug opts NI nx H st
        lastActSetChangeIdx hreg _ hp]
      exact ⟨rfl, rfl, statusFlag, hp⟩

/-- Witness for C12 (as amended): the 1 x 1 Hessian `(1/2)` with
`regType = SingularDirections`, the reverse factorization and
`newtonHessDiagRegTolerance = 1`. -/
theorem factorNewtonSystem_singularDirections_witness :
    (exampleOptions ℝ regType_t.QPDUNES_REG_SINGULAR_DIRECTIONS
        nwtnHssnFacAlg_t.QPDUNES_NH_FAC_BAND_REVERSE).regType
      = regType_t.QPDUNES_REG_SINGULAR_DIRECTIONS
    ∧ (qpDUNES_factorNewtonSystem Real.sqrt false
        (exampleOptions ℝ regType_t.QPDUNES_REG_SINGULAR_DIRECTIONS
          nwtnHssnFacAlg_t.QPDUNES_NH_FAC_BAND_REVERSE)
        1 1 (fun _ => 1 / 2) ⟨fun _ => 0, false, []⟩ 0).status = QPDUNES_OK :=
  ⟨rfl,
    ((factorNewtonSystem_singularDirections Real.sqrt false
      (exampleOptions ℝ regType_t.QPDUNES_REG_SINGULAR_DIRECTIONS
        nwtnHssnFacAlg_t.QPDUNES_NH_FAC_BAND_REVERSE)
      1 1 (fun _ => 1 / 2) ⟨fun _ => 0, false, []⟩ 0 rfl).2.2
      (by simp [exampleOptions])).1⟩

/-- Counterexample to C12 as stated: the 1 x 1 Hessian `(1/2)` with
`regType = SingularDirections`, the forward factorization,
`newtonHessDiagRegTolerance = 1`, `regParam = 1` and `QPDUNES_INFTY = 1000`. The pivot
squared-sum `s = 1/2` is below the tolerance, `qpDUNES_factorNewtonSystem` returns
`QPDUNES_OK`, and the pivot it leaves on the row is `sqrt(1/2 + 1000 * 1000 + 1)`, not
`sqrt(1/2 + regParam)`. -/
theorem factorNewtonSystem_singularDirections_counterexample :
    (qpDUNES_factorNewtonSystem Real.sqrt false
        (exampleOptions ℝ regType_t.QPDUNES_REG_SINGULAR_DIRECTIONS
          nwtnHssnFacAlg_t.QPDUNES_NH_FAC_BAND_FORWARD)
        1 1 (fun _ => 1 / 2) ⟨fun _ => 0, false, []⟩ 0).status = QPDUNES_OK
    ∧ (qpDUNES_factorNewtonSystem Real.sqrt false
        (exampleOptions ℝ regType_t.QPDUNES_REG_SINGULAR_DIRECTIONS
          nwtnHssnFacAlg_t.QPDUNES_NH_FAC_BAND_FORWARD)
        1 1 (fun _ => 1 / 2) ⟨fun _ => 0, false, []⟩ 0).fac.pivots = [1 / 2]
    ∧ (1 / 2 : ℝ) < (exampleOptions ℝ regType_t.QPDUNES_REG_SINGULAR_DIRECTIONS
          nwtnHssnFacAlg_t.QPDUNES_NH_FAC_BAND_FORWARD).newtonHessDiagRegTolerance
    ∧ (qpDUNES_factorNewtonSystem Real.sqrt false
        (exampleOptions ℝ regType_t.QPDUNES_REG_SINGULAR_DIRECTIONS
          nwtnHssnFacAlg_t.QPDUNES_NH_FAC_BAND_FORWARD)
        1 1 (fun _ => 1 / 2) ⟨fun _ => 0, false, []⟩ 0).fac.cholHessian (0, 0, 0, 0)
      = Real.sqrt (1 / 2 + (1000 * 1000 + 1))
    ∧ (qpDUNES_factorNewtonSystem Real.sqrt false
        (exampleOptions ℝ regType_t.QPDUNES_REG_SINGULAR_DIRECTIONS
          nwtnHssnFacAlg_t.QPDUNES_NH_FAC_BAND_FORWARD)
        1 1 (fun _ => 1 / 2) ⟨fun _ => 0, false, []⟩ 0).fac.cholHessian (0, 0, 0, 0)
      ≠ Real.sqrt (1 / 2 + (exampleOptions ℝ regType_t.QPDUNES_REG_SINGULAR_DIRECTIONS
          nwtnHssnFacAlg_t.QPDUNES_NH_FAC_BAND_FORWARD).regParam) := by
  have hrun : qpDUNES_factorizeNewtonHessian Real.sqrt
        (exampleOptions ℝ regType_t.QPDUNES_REG_SINGULAR_DIRECTIONS
          nwtnHssnFacAlg_t.QPDUNES_NH_FAC_BAND_FORWARD)
        1 1 (fun _ => 1 / 2) ⟨fun _ => 0, false, []⟩
      = (QPDUNES_OK,
          ⟨Function.update (fun _ => 0) (0, 0, 0, 0) (Real.sqrt (1 / 2 + (1000 * 1000 + 1))),
            true, [1 / 2]⟩) := by
    have h1 : ((2 : ℝ)⁻¹ < 1) := by norm_num
    simp [qpDUNES_factorizeNewtonHessian, loopExcept, factorizeNewtonHessian_column,
      factorizeNewtonHessian_pivotSum, factorizeNewtonHessian_check,
      factorizeNewtonHessian_diagBlock, factorizeNewtonHessian_subBlock, factor_finish,
      subLoop, exampleOptions, h1, -Prod.mk_zero_zero, -Prod.mk_eq_zero]
  have hpass : factorNewtonSystem_pass Real.sqrt false
        (exampleOptions ℝ regType_t.QPDUNES_REG_SINGULAR_DIRECTIONS
          nwtnHssnFacAlg_t.QPDUNES_NH_FAC_BAND_FORWARD)
        1 1 (fun _ => 1 / 2) 0 ⟨fun _ => 0, false, []⟩
      = some (qpDUNES_factorizeNewtonHessian Real.sqrt
        (exampleOptions ℝ regType_t.QPDUNES_REG_SINGULAR_DIRECTIONS
          nwtnHssnFacAlg_t.QPDUNES_NH_FAC_BAND_FORWARD)
        1 1 (fun _ => 1 / 2) ⟨fun _ => 0, false, []⟩) := rfl
  rw [factorNewtonSystem_singularDirections_result Real.sqrt false
    (exampleOptions ℝ regType_t.QPDUNES_REG_SINGULAR_DIRECTIONS
      nwtnHssnFacAlg_t.QPDUNES_NH_FAC_BAND_FORWARD)
    1 1 (fun _ => 1 / 2) ⟨fun _ => 0, false, []⟩ 0 rfl _ hpass, hrun]
  refine ⟨rfl, rfl, ?_, ?_, ?_⟩
  · norm_num [exampleOptions]
  · simp
  · simp only [Function.update_same]
    intro h
    rw [Real.sqrt_inj (by norm_num [exampleOptions]) (by norm_num [exampleOptions])] at h
    norm_num [exampleOptions] at h

/-- The inner loop of the Levenberg-Marquardt update: the diagonal cells `(kk,0,j,j)`
with `j < n` grow by `regParam`, the other cells are unchanged. -/
theorem addRegParam_inner {α : Type} [LinearOrderedField α] (r : α) (kk n : Nat)
    (H0 : xn2x_matrix_t α) :
    (∀ j, j < n →
      (List.range n).foldl
          (fun H jj => Function.update H (kk, 0, jj, jj) (H (kk, 0, jj, jj) + r)) H0
          (kk, 0, j, j)
        = H0 (kk, 0, j, j) + r)
    ∧ (∀ x, (∀ j, j < n → x ≠ (kk, (0 : Int), j, j)) →
      (List.range n).foldl
          (fun H jj => Function.update H (kk, 0, jj, jj) (H (kk, 0, jj, jj) + r)) H0 x
        = H0 x) := by
  induction n with
  | zero =>
    constructor
    · intro j hj
      omega
    · intro x _
      rfl
  | succ n ih =>
    obtain ⟨ih1, ih2⟩ := ih
    simp only [List.range_succ, List.foldl_append, List.foldl_cons, List.foldl_nil]
    constructor
    · intro j hj
      by_cases hjn : j = n
      · subst hjn
        rw [Function.update_same, ih2]
        intro j2 hj2 h
        simp only [Prod.mk.injEq] at h
        omega
      · rw [Function.update_noteq, ih1 j (by omega)]
        intro h
        simp only [Prod.mk.injEq] at h
        omega
    · intro x hx
      rw [Function.update_noteq (hx n (Nat.lt_succ_self n)),
        ih2 x (fun j hj => hx j (Nat.lt_succ_of_lt hj))]

/-- The Levenberg-Marquardt update adds exactly `regParam` to every diagonal entry of
every diagonal block of the Hessian and leaves all other entries unchanged. -/
theorem factorNewtonSystem_addRegParam_spec {α : Type} [LinearOrderedField α]
    (opts : qpOptions_t α) (NI nx : Nat) (H0 : xn2x_matrix_t α) :
    (∀ k j, k < NI → j < nx →
      factorNewtonSystem_addRegParam opts NI nx H0 (k, 0, j, j)
        = H0 (k, 0, j, j) + opts.regParam)
    ∧ (∀ x, (∀ k j, k < NI → j < nx → x ≠ (k, (0 : Int), j, j)) →
      factorNewtonSystem_addRegParam opts NI nx H0 x = H0 x) := by
  unfold factorNewtonSystem_addRegParam
  induction NI with
  | zero =>
    constructor
    · intro k j hk
      omega
    · intro x _
      rfl
  | succ K ih =>
    obtain ⟨ih1, ih2⟩ := ih
    simp only [List.range_succ, List.foldl_append, List.foldl_cons, List.foldl_nil]
    obtain ⟨in1, in2⟩ := addRegParam_inner opts.regParam K nx
      ((List.range K).foldl
        (fun H kk => (List.range nx).foldl
          (fun H jj => Function.update H (kk, 0, jj, jj) (H (kk, 0, jj, jj) + opts.regParam))
          H) H0)
    constructor
    · intro k j hk hj
      by_cases hkK : k = K
      · subst hkK
        rw [in1 j hj, ih2]
        intro k2 j2 hk2 _ h
        simp only [Prod.mk.injEq] at h
        omega
      · rw [in2, ih1 k j (by omega) hj]
        intro j2 _ h
        simp only [Prod.mk.injEq] at h
        omega
    · intro x hx
      rw [in2 x (fun j hj => hx K j (Nat.lt_succ_self K) hj),
        ih2 x (fun k j hk hj => hx k j (Nat.lt_succ_of_lt hk) hj)]

/-- The running minimum over one block: it is below `t` exactly when it started below
`t` or met an entry below `t`. -/
theorem minDiagElem_inner {α : Type} [LinearOrderedField α] (c : Nat → α) (t : α) (n : Nat)
    (m0 : α) :
    (List.range n).foldl (fun m ii => if m > c ii then c ii else m) m0 < t
      ↔ m0 < t ∨ ∃ ii, ii < n ∧ c ii < t := by
  induction n with
  | zero =>
    simp
  | succ n ih =>
    simp only [List.range_succ, List.foldl_append, List.foldl_cons, List.foldl_nil]
    by_cases h : (List.range n).foldl (fun m ii => if m > c ii then c ii else m) m0 > c n
    · rw [if_pos h]
      constructor
      · intro h2
        exact Or.inr ⟨n, Nat.lt_succ_self n, h2⟩
      · rintro (h2 | ⟨ii, hii, h3⟩)
        · exact lt_trans h (ih.2 (Or.inl h2))
        · by_cases hin : ii = n
          · subst hin
            exact h3
          · exact lt_trans h (ih.2 (Or.inr ⟨ii, by omega, h3⟩))
    · rw [if_neg h, ih]
      constructor
      · rintro (h2 | ⟨ii, hii, h3⟩)
        · exact Or.inl h2
        · exact Or.inr ⟨ii, by omega, h3⟩
      · rintro (h2 | ⟨ii, hii, h3⟩)
        · exact Or.inl h2
        · by_cases hin : ii = n
          · subst hin
            exact ih.1 (lt_of_le_of_lt (not_lt.1 h) h3)
          · exact Or.inr ⟨ii, by omega, h3⟩

/-- The scan for the minimum diagonal element after a pass that returned `QPDUNES_OK`:
the minimum is below `t` exactly when `QPDUNES_INFTY` is or a pivot of the factor is. -/
theorem factorNewtonSystem_minDiagElem_lt {α : Type} [LinearOrderedField α]
    (opts : qpOptions_t α) (NI nx : Nat) (L : xn2x_matrix_t α) (t : α) :
    factorNewtonSystem_minDiagElem opts NI nx QPDUNES_OK L < t
      ↔ opts.QPDUNES_INFTY < t ∨ ∃ k i, k < NI ∧ i < nx ∧ L (k, 0, i, i) < t := by
  unfold factorNewtonSystem_minDiagElem
  simp only [if_true]
  induction NI with
  | zero => simp
  | succ K ih =>
    simp only [List.range_succ, List.foldl_append, List.foldl_cons, List.foldl_nil]
    rw [minDiagElem_inner (fun ii => L (K, 0, ii, ii)) t nx, ih]
    constructor
    · rintro ((h | ⟨k, i, hk, hi, h⟩) | ⟨i, hi, h⟩)
      · exact Or.inl h
      · exact Or.inr ⟨k, i, by omega, hi, h⟩
      · exact Or.inr ⟨K, i, Nat.lt_succ_self K, hi, h⟩
    · rintro (h | ⟨k, i, hk, hi, h⟩)
      · exact Or.inl (Or.inl h)
      · by_cases hkK : k = K
        · subst hkK
          exact Or.inr ⟨i, hi, h⟩
        · exact Or.inl (Or.inr ⟨k, i, by omega, hi, h⟩)

/-- Without singular-directions regularization a column step of the forward
factorization leaves `*isHessianRegularized` alone. -/
theorem factorizeNewtonHessian_column_flag {α : Type} [LinearOrderedField α]
    (sqrt : α → α) (opts : qpOptions_t α) (NI nx : Nat) (H : xn2x_matrix_t α)
    (hreg : opts.regType ≠ regType_t.QPDUNES_REG_SINGULAR_DIRECTIONS)
    (kk jj : Nat) (st : factor_state α) (b : Bool) (hb : st.isHessianRegularized = b) :
    outcome (fun st1 => st1.isHessianRegularized = b)
      (fun e => e.2.isHessianRegularized = b)
      (factorizeNewtonHessian_column sqrt opts NI nx H kk jj st) := by
  unfold factorizeNewtonHessian_column factorizeNewtonHessian_check
  dsimp only
  simp only [hreg, false_and, if_false]
  split_ifs <;> exact hb

/-- Without singular-directions regularization a column step of the reverse
factorization leaves `*isHessianRegularized` alone. -/
theorem factorizeNewtonHessianBottomUp_column_flag {α : Type} [LinearOrderedField α]
    (sqrt : α → α) (debug : Bool) (opts : qpOptions_t α) (NI nx : Nat)
    (H : xn2x_matrix_t α)
    (hreg : opts.regType ≠ regType_t.QPDUNES_REG_SINGULAR_DIRECTIONS)
    (kk jj : Nat) (st : factor_state α) (b : Bool) (hb : st.isHessianRegularized = b) :
    outcome (fun st1 => st1.isHessianRegularized = b)
      (fun e => e.2.isHessianRegularized = b)
      (factorizeNewtonHessianBottomUp_column sqrt debug opts NI nx H kk jj st) := by
  unfold factorizeNewtonHessianBottomUp_column factorizeNewtonHessianBottomUp_check
  dsimp only
  simp only [hreg, false_and, if_false]
  split_ifs <;> exact hb

/-- Without singular-directions regularization a factorization pass of
`qpDUNES_factorNewtonSystem` leaves `*isHessianRegularized` alone. -/
theorem factorNewtonSystem_pass_flag {α : Type} [LinearOrderedField α] (sqrt : α → α)
    (debug : Bool) (opts : qpOptions_t α) (NI nx : Nat) (H : xn2x_matrix_t α)
    (lastActSetChangeIdx : Int) (st : factor_state α)
    (hreg : opts.regType ≠ regType_t.QPDUNES_REG_SINGULAR_DIRECTIONS)
    (p : return_t × factor_state α)
    (hp : factorNewtonSystem_pass sqrt debug opts NI nx H lastActSetChangeIdx st = some p) :
    p.2.isHessianRegularized = st.isHessianRegularized := by
  unfold factorNewtonSystem_pass at hp
  cases hf : opts.nwtnHssnFacAlg with
  | QPDUNES_NH_FAC_BAND_FORWARD =>
    rw [hf] at hp
    simp only [Option.some.injEq] at hp
    rw [← hp]
    have h := loopExcept_inv
      (fun st kk => loopExcept
        (fun st jj => factorizeNewtonHessian_column sqrt opts NI nx H kk jj st)
        (List.range nx) st)
      (fun st1 => st1.isHessianRegularized = st.isHessianRegularized)
      (fun e => e.2.isHessianRegularized = st.isHessianRegularized) (List.range NI)
      (fun st1 kk _ h1 => loopExcept_inv
        (fun st jj => factorizeNewtonHessian_column sqrt opts NI nx H kk jj st)
        (fun st1 => st1.isHessianRegularized = st.isHessianRegularized)
        (fun e => e.2.isHessianRegularized = st.isHessianRegularized) (List.range nx)
        (fun st2 jj _ h2 =>
          factorizeNewtonHessian_column_flag sqrt opts NI nx H hreg kk jj st2 _ h2)
        st1 h1)
      st rfl
    unfold qpDUNES_factorizeNewtonHessian
    cases hr : loopExcept
        (fun st kk => loopExcept
          (fun st jj => factorizeNewtonHessian_column sqrt opts NI nx H kk jj st)
          (List.range nx) st)
        (List.range NI) st with
    | error e =>
      rw [hr] at h
      exact h
    | ok st1 =>
      rw [hr] at h
      exact h
  | QPDUNES_NH_FAC_BAND_REVERSE =>
    rw [hf] at hp
    simp only [Option.some.injEq] at hp
    rw [← hp]
    have h := loopExcept_inv
      (fun st kk => loopExcept
        (fun st jj =>
          factorizeNewtonHessianBottomUp_column sqrt debug opts NI nx H kk jj st)
        (List.range nx).reverse st)
      (fun st1 => st1.isHessianRegularized = st.isHessianRegularized)
      (fun e => e.2.isHessianRegularized = st.isHessianRegularized)
      (List.range (blockIdxStart NI lastActSetChangeIdx + 1).toNat).reverse
      (fun st1 kk _ h1 => loopExcept_inv
        (fun st jj =>
          factorizeNewtonHessianBottomUp_column sqrt debug opts NI nx H kk jj st)
        (fun st1 => st1.isHessianRegularized = st.isHessianRegularized)
        (fun e => e.2.isHessianRegularized = st.isHessianRegularized)
        (List.range nx).reverse
        (fun st2 jj _ h2 =>
          factorizeNewtonHessianBottomUp_column_flag sqrt debug opts NI nx H hreg kk jj
            st2 _ h2)
        st1 h1)
      st rfl
    unfold qpDUNES_factorizeNewtonHessianBottomUp
    cases hr : loopExcept
        (fun st kk => loopExcept
          (fun st jj =>
            factorizeNewtonHessianBottomUp_column sqrt debug opts NI nx H kk jj st)
          (List.range nx).reverse st)
        (List.range (blockIdxStart NI lastActSetChangeIdx + 1).toNat).reverse st with
    | error e =>
      rw [hr] at h
      exact h
    | ok st1 =>
      rw [hr] at h
      exact h
  | unknownFacAlg =>
    rw [hf] at hp
    cases hp

/-- A factorization pass of `qpDUNES_factorNewtonSystem` that restarts at or above the
last block row is the pass over all block rows. -/
theorem factorNewtonSystem_pass_full {α : Type} [LinearOrderedField α] (sqrt : α → α)
    (debug : Bool) (opts : qpOptions_t α) (NI nx : Nat) (H : xn2x_matrix_t α)
    (idx1 idx2 : Int) (h1 : (NI : Int) - 1 ≤ idx1) (h2 : (NI : Int) - 1 ≤ idx2)
    (st : factor_state α) :
    factorNewtonSystem_pass sqrt debug opts NI nx H idx1 st
      = factorNewtonSystem_pass sqrt debug opts NI nx H idx2 st := by
  unfold factorNewtonSystem_pass qpDUNES_factorizeNewtonHessianBottomUp
  rw [blockIdxStart_full NI idx1 h1, blockIdxStart_full NI idx2 h2]

/-- Levenberg-Marquardt regularization when the trigger of
`qpDUNES_factorNewtonSystem` holds: the routine returns what the second pass returns,
run on the regularized Hessian with `_NI_+1` and the flag set. -/
theorem factorNewtonSystem_lm_regularized {α : Type} [LinearOrderedField α]
    (sqrt : α → α) (debug : Bool) (opts : qpOptions_t α) (NI nx : Nat)
    (H : xn2x_matrix_t α) (st : factor_state α) (lastActSetChangeIdx : Int)
    (hreg : opts.regType = regType_t.QPDUNES_REG_LEVENBERG_MARQUARDT)
    (p1 : return_t × factor_state α)
    (hp1 : factorNewtonSystem_pass sqrt debug opts NI nx H lastActSetChangeIdx st = some p1)
    (hc : p1.1 = QPDUNES_ERR_DIVISION_BY_ZERO
      ∨ factorNewtonSystem_minDiagElem opts NI nx p1.1 p1.2.cholHessian
          < opts.newtonHessDiagRegTolerance) :
    ∃ p2, factorNewtonSystem_pass sqrt debug opts NI nx
          (factorNewtonSystem_addRegParam opts NI nx H) ((NI : Int) + 1)
          { p1.2 with isHessianRegularized := true } = some p2
      ∧ qpDUNES_factorNewtonSystem sqrt debug opts NI nx H st lastActSetChangeIdx
        = ⟨p2.1, factorNewtonSystem_addRegParam opts NI nx H, p2.2⟩ := by
  obtain ⟨s1, st1⟩ := p1
  unfold qpDUNES_factorNewtonSystem
  rw [hp1]
  simp only [hreg]
  simp only [if_pos hc]
  rcases factorNewtonSystem_pass_status sqrt debug opts NI nx
      (factorNewtonSystem_addRegParam opts NI nx H) ((NI : Int) + 1)
      { st1 with isHessianRegularized := true }
    with ⟨_, h2⟩ | ⟨s2, st3, hp2, _⟩
  · rcases factorNewtonSystem_pass_status sqrt debug opts NI nx H lastActSetChangeIdx st
      with ⟨h3, _⟩ | ⟨_, _, _, _⟩
    · rw [h3] at hp1
      cases hp1
    · unfold factorNewtonSystem_pass at hp1
      rw [h2] at hp1
      cases hp1
  · refine ⟨(s2, st3), hp2, ?_⟩
    rw [hp2]
    by_cases hs : s2 = QPDUNES_OK
    · simp only [hs, ne_eq, not_true_eq_false, if_false]
    · simp only [ne_eq, hs, not_false_eq_true, if_true]

/-- Levenberg-Marquardt regularization when the trigger of
`qpDUNES_factorNewtonSystem` does not hold: the routine returns what the first pass
returned and leaves the Hessian alone. -/
theorem factorNewtonSystem_lm_untouched {α : Type} [LinearOrderedField α]
    (sqrt : α → α) (debug : Bool) (opts : qpOptions_t α) (NI nx : Nat)
    (H : xn2x_matrix_t α) (st : factor_state α) (lastActSetChangeIdx : Int)
    (p1 : return_t × factor_state α)
    (hp1 : factorNewtonSystem_pass sqrt debug opts NI nx H lastActSetChangeIdx st = some p1)
    (hc : ¬ (p1.1 = QPDUNES_ERR_DIVISION_BY_ZERO
      ∨ factorNewtonSystem_minDiagElem opts NI nx p1.1 p1.2.cholHessian
          < opts.newtonHessDiagRegTolerance)) :
    qpDUNES_factorNewtonSystem sqrt debug opts NI nx H st lastActSetChangeIdx
      = ⟨p1.1, H, p1.2⟩ := by
  obtain ⟨s1, st1⟩ := p1
  unfold qpDUNES_factorNewtonSystem
  rw [hp1]
  simp only [if_neg hc]
  by_cases hs : s1 = QPDUNES_OK
  · simp only [hs, ne_eq, not_true_eq_false, if_false]
  · simp only [ne_eq, hs, not_false_eq_true, if_true]

/-- The trigger of the regularization in `qpDUNES_factorNewtonSystem`, for
`newtonHessDiagRegTolerance <= QPDUNES_INFTY`: the first pass returned
`QPDUNES_ERR_DIVISION_BY_ZERO` or a pivot of the factor is below the tolerance. -/
theorem factorNewtonSystem_trigger {α : Type} [LinearOrderedField α]
    (sqrt : α → α) (debug : Bool) (opts : qpOptions_t α) (NI nx : Nat)
    (H : xn2x_matrix_t α) (st : factor_state α) (lastActSetChangeIdx : Int)
    (hinf : opts.newtonHessDiagRegTolerance ≤ opts.QPDUNES_INFTY)
    (p1 : return_t × factor_state α)
    (hp1 : factorNewtonSystem_pass sqrt debug opts NI nx H lastActSetChangeIdx st
      = some p1) :
    (p1.1 = QPDUNES_ERR_DIVISION_BY_ZERO
      ∨ factorNewtonSystem_minDiagElem opts NI nx p1.1 p1.2.cholHessian
          < opts.newtonHessDiagRegTolerance)
    ↔ (p1.1 = QPDUNES_ERR_DIVISION_BY_ZERO
      ∨ ∃ k i, k < NI ∧ i < nx
          ∧ p1.2.cholHessian (k, 0, i, i) < opts.newtonHessDiagRegTolerance) := by
  rcases factorNewtonSystem_pass_status sqrt debug opts NI nx H lastActSetChangeIdx st
    with ⟨h3, _⟩ | ⟨s1, st1, hp, hs⟩
  · rw [h3] at hp1
    cases hp1
  · rw [hp] at hp1
    cases hp1
    rcases hs with hs | hs
    · subst hs
      rw [factorNewtonSystem_minDiagElem_lt]
      constructor
      · rintro (h | h | h)
        · exact Or.inl h
        · exact absurd h (not_lt.2 hinf)
        · exact Or.inr h
      · rintro (h | h)
        · exact Or.inl h
        · exact Or.inr (Or.inr h)
    · constructor
      · intro _
        exact Or.inl hs
      · intro _
        exact Or.inl hs

/-- C13. Levenberg-Marquardt regularization: with `regType = LevenbergMarquardt`, if
the first factorization pass returns `ERR_DIVISION_BY_ZERO` or the minimum diagonal
entry of the factor (the scan that starts from `QPDUNES_INFTY`) is below
`newtonHessDiagRegTolerance`, `qpDUNES_factorNewtonSystem` adds exactly `regParam` to
every diagonal entry of every diagonal block of the Hessian (all other Hessian entries
unchanged), sets `isHessianRegularized = true`, refactorizes all `N` block rows (the
second pass is the pass for any restart index at or above `N-1`, whatever
`lastActSetChangeIdx` was) and returns the status of this second pass; if neither
trigger holds it returns the status of the first pass, the Hessian is unchanged and
`isHessianRegularized` is as it was on entry. For
`newtonHessDiagRegTolerance <= QPDUNES_INFTY` the trigger is: the first pass returned
`ERR_DIVISION_BY_ZERO` or some diagonal entry of the factor is below the tolerance. -/
theorem factorNewtonSystem_levenbergMarquardt {α : Type} [LinearOrderedField α]
    (sqrt : α → α) (debug : Bool) (opts : qpOptions_t α) (NI nx : Nat)
    (H : xn2x_matrix_t α) (st : factor_state α) (lastActSetChangeIdx : Int)
    (hreg : opts.regType = regType_t.QPDUNES_REG_LEVENBERG_MARQUARDT)
    (p1 : return_t × factor_state α)
    (hp1 : factorNewtonSystem_pass sqrt debug opts NI nx H lastActSetChangeIdx st
      = some p1) :
    ((p1.1 = QPDUNES_ERR_DIVISION_BY_ZERO
        ∨ factorNewtonSystem_minDiagElem opts NI nx p1.1 p1.2.cholHessian
            < opts.newtonHessDiagRegTolerance) →
      (∀ k j, k < NI → j < nx →
        (qpDUNES_factorNewtonSystem sqrt debug opts NI nx H st lastActSetChangeIdx).hessian
            (k, 0, j, j)
          = H (k, 0, j, j) + opts.regParam)
      ∧ (∀ x, (∀ k j, k < NI → j < nx → x ≠ (k, (0 : Int), j, j)) →
        (qpDUNES_factorNewtonSystem sqrt debug opts NI nx H st lastActSetChangeIdx).hessian x
          = H x)
      ∧ (qpDUNES_factorNewtonSystem sqrt debug opts NI nx H st
          lastActSetChangeIdx).fac.isHessianRegularized = true
      ∧ (∀ idx : Int, (NI : Int) - 1 ≤ idx →
        factorNewtonSystem_pass sqrt debug opts NI nx
            (qpDUNES_factorNewtonSystem sqrt debug opts NI nx H st
              lastActSetChangeIdx).hessian idx
            { p1.2 with isHessianRegularized := true }
          = some
            ((qpDUNES_factorNewtonSystem sqrt debug opts NI nx H st
                lastActSetChangeIdx).status,
              (qpDUNES_factorNewtonSystem sqrt debug opts NI nx H st
                lastActSetChangeIdx).fac)))
    ∧ (¬ (p1.1 = QPDUNES_ERR_DIVISION_BY_ZERO
        ∨ factorNewtonSystem_minDiagElem opts NI nx p1.1 p1.2.cholHessian
            < opts.newtonHessDiagRegTolerance) →
      (qpDUNES_factorNewtonSystem sqrt debug opts NI nx H st lastActSetChangeIdx).status
        = p1.1
      ∧ (qpDUNES_factorNewtonSystem sqrt debug opts NI nx H st lastActSetChangeIdx).hessian
        = H
      ∧ (qpDUNES_factorNewtonSystem sqrt debug opts NI nx H st lastActSetChangeIdx).fac
        = p1.2
      ∧ (qpDUNES_factorNewtonSystem sqrt debug opts NI nx H st
          lastActSetChangeIdx).fac.isHessianRegularized = st.isHessianRegularized)
    ∧ (opts.newtonHessDiagRegTolerance ≤ opts.QPDUNES_INFTY →
      ((p1.1 = QPDUNES_ERR_DIVISION_BY_ZERO
          ∨ factorNewtonSystem_minDiagElem opts NI nx p1.1 p1.2.cholHessian
              < opts.newtonHessDiagRegTolerance)
        ↔ (p1.1 = QPDUNES_ERR_DIVISION_BY_ZERO
          ∨ ∃ k i, k < NI ∧ i < nx
              ∧ p1.2.cholHessian (k, 0, i, i) < opts.newtonHessDiagRegTolerance))) := by
  have hnsd : opts.regType ≠ regType_t.QPDUNES_REG_SINGULAR_DIRECTIONS := by
    rw [hreg]
    decide
  refine ⟨?_, ?_, ?_⟩
  · intro hc
    obtain ⟨p2, hp2, hR⟩ := factorNewtonSystem_lm_regularized sqrt debug opts NI nx H st
      lastActSetChangeIdx hreg p1 hp1 hc
    rw [hR]
    obtain ⟨a1, a2⟩ := factorNewtonSystem_addRegParam_spec opts NI nx H
    refine ⟨a1, a2, ?_, ?_⟩
    · exact factorNewtonSystem_pass_flag sqrt debug opts NI nx _ _ _ hnsd p2 hp2
    · intro idx hidx
      rw [factorNewtonSystem_pass_full sqrt debug opts NI nx _ idx ((NI : Int) + 1) hidx
        (by omega)]
      exact hp2
  · intro hc
    rw [factorNewtonSystem_lm_untouched sqrt debug opts NI nx H st lastActSetChangeIdx p1 hp1
      hc]
    exact ⟨rfl, rfl, rfl,
      factorNewtonSystem_pass_flag sqrt debug opts NI nx H lastActSetChangeIdx st hnsd p1 hp1⟩
  · intro hinf
    exact factorNewtonSystem_trigger sqrt debug opts NI nx H st lastActSetChangeIdx hinf p1
      hp1

theorem exampleHessianHalf_forward :
    qpDUNES_factorizeNewtonHessian Real.sqrt
        (exampleOptions ℝ regType_t.QPDUNES_REG_LEVENBERG_MARQUARDT
          nwtnHssnFacAlg_t.QPDUNES_NH_FAC_BAND_FORWARD)
        1 1 (fun _ => 1 / 2) ⟨fun _ => 0, false, []⟩
      = (QPDUNES_ERR_DIVISION_BY_ZERO, ⟨fun _ => 0, false, [1 / 2]⟩) := by
  have h1 : ((2 : ℝ)⁻¹ < 1) := by norm_num
  have hne : ¬ (regType_t.QPDUNES_REG_LEVENBERG_MARQUARDT
      = regType_t.QPDUNES_REG_SINGULAR_DIRECTIONS) := by decide
  simp [qpDUNES_factorizeNewtonHessian, loopExcept, factorizeNewtonHessian_column,
    factorizeNewtonHessian_pivotSum, factorizeNewtonHessian_check, factor_finish,
    subLoop, exampleOptions, h1, hne]

/-- Witness for C13: the 1 x 1 Hessian `(1/2)` with Levenberg-Marquardt
regularization, the forward factorization, `newtonHessDiagRegTolerance = 1` and
`regParam = 1`: the first pass returns `ERR_DIVISION_BY_ZERO`, the Hessian becomes
`(3/2)` and `isHessianRegularized` is set. -/
theorem factorNewtonSystem_levenbergMarquardt_witness :
    (exampleOptions ℝ regType_t.QPDUNES_REG_LEVENBERG_MARQUARDT
        nwtnHssnFacAlg_t.QPDUNES_NH_FAC_BAND_FORWARD).regType
      = regType_t.QPDUNES_REG_LEVENBERG_MARQUARDT
    ∧ (qpDUNES_factorNewtonSystem Real.sqrt false
        (exampleOptions ℝ regType_t.QPDUNES_REG_LEVENBERG_MARQUARDT
          nwtnHssnFacAlg_t.QPDUNES_NH_FAC_BAND_FORWARD)
        1 1 (fun _ => 1 / 2) ⟨fun _ => 0, false, []⟩ 0).hessian (0, 0, 0, 0)
      = 1 / 2 + (exampleOptions ℝ regType_t.QPDUNES_REG_LEVENBERG_MARQUARDT
        nwtnHssnFacAlg_t.QPDUNES_NH_FAC_BAND_FORWARD).regParam
    ∧ (qpDUNES_factorNewtonSystem Real.sqrt false
        (exampleOptions ℝ regType_t.QPDUNES_REG_LEVENBERG_MARQUARDT
          nwtnHssnFacAlg_t.QPDUNES_NH_FAC_BAND_FORWARD)
        1 1 (fun _ => 1 / 2) ⟨fun _ => 0, false, []⟩ 0).fac.isHessianRegularized = true :=
  ⟨rfl,
    ((factorNewtonSystem_levenbergMarquardt Real.sqrt false
      (exampleOptions ℝ regType_t.QPDUNES_REG_LEVENBERG_MARQUARDT
        nwtnHssnFacAlg_t.QPDUNES_NH_FAC_BAND_FORWARD)
      1 1 (fun _ => 1 / 2) ⟨fun _ => 0, false, []⟩ 0 rfl
      (qpDUNES_factorizeNewtonHessian Real.sqrt
        (exampleOptions ℝ regType_t.QPDUNES_REG_LEVENBERG_MARQUARDT
          nwtnHssnFacAlg_t.QPDUNES_NH_FAC_BAND_FORWARD)
        1 1 (fun _ => 1 / 2) ⟨fun _ => 0, false, []⟩) rfl).1
      (Or.inl (by rw [exampleHessianHalf_forward]))).1 0 0 (by norm_num) (by norm_num),
    ((factorNewtonSystem_levenbergMarquardt Real.sqrt false
      (exampleOptions ℝ regType_t.QPDUNES_REG_LEVENBERG_MARQUARDT
        nwtnHssnFacAlg_t.QPDUNES_NH_FAC_BAND_FORWARD)
      1 1 (fun _ => 1 / 2) ⟨fun _ => 0, false, []⟩ 0 rfl
      (qpDUNES_factorizeNewtonHessian Real.sqrt
        (exampleOptions ℝ regType_t.QPDUNES_REG_LEVENBERG_MARQUARDT
          nwtnHssnFacAlg_t.QPDUNES_NH_FAC_BAND_FORWARD)
        1 1 (fun _ => 1 / 2) ⟨fun _ => 0, false, []⟩) rfl).1
      (Or.inl (by rw [exampleHessianHalf_forward]))).2.2.1⟩

/-! ## Partial refactorization -/

theorem loopExcept_congr {ε σ : Type} (body1 body2 : σ → Nat → Except ε σ) (l : List Nat)
    (h : ∀ i, i ∈ l → ∀ s, body1 s i = body2 s i) (s : σ) :
    loopExcept body1 l s = loopExcept body2 l s := by
  induction l generalizing s with
  | nil => rfl
  | cons i l ih =>
    unfold loopExcept
    rw [h i (List.mem_cons_self i l) s]
    cases body2 s i with
    | error e => rfl
    | ok s1 => exact ih (fun j hj => h j (List.mem_cons_of_mem i hj)) s1

/-- Two runs of a downward loop whose bodies keep an index-dependent relation. -/
theorem loopExcept_range_reverse_rel {ε σ : Type} (body1 body2 : σ → Nat → Except ε σ)
    (R : Nat → σ → σ → Prop) (Q : ε → ε → Prop) (n : Nat)
    (h : ∀ i, i < n → ∀ a b, R (i + 1) a b → outcome2 (R i) Q (body1 a i) (body2 b i)) :
    ∀ a b, R n a b →
      outcome2 (R 0) Q (loopExcept body1 (List.range n).reverse a)
        (loopExcept body2 (List.range n).reverse b) := by
  induction n with
  | zero => intro a b hab; exact hab
  | succ n ih =>
    intro a b hab
    rw [List.range_succ, List.reverse_append, List.reverse_singleton, List.singleton_append]
    simp only [loopExcept]
    have h2 := h n (Nat.lt_succ_self n) a b hab
    cases hb1 : body1 a n with
    | error e1 =>
      cases hb2 : body2 b n with
      | error e2 =>
        rw [hb1, hb2] at h2
        exact h2
      | ok b1 =>
        rw [hb1, hb2] at h2
        exact h2.elim
    | ok a1 =>
      cases hb2 : body2 b n with
      | error e2 =>
        rw [hb1, hb2] at h2
        exact h2.elim
      | ok b1 =>
        rw [hb1, hb2] at h2
        exact ih (fun i hi => h i (Nat.lt_succ_of_lt hi)) a1 b1 h2

theorem outcome2_mono {ε σ : Type} (R R1 : σ → σ → Prop) (Q : ε → ε → Prop)
    (r1 r2 : Except ε σ) (h : ∀ a b, R a b → R1 a b) (hr : outcome2 R Q r1 r2) :
    outcome2 R1 Q r1 r2 := by
  cases r1 with
  | error e1 =>
    cases r2 with
    | error e2 => exact hr
    | ok b => exact hr
  | ok a =>
    cases r2 with
    | error e2 => exact hr
    | ok b => exact h a b hr

/-- The cells a column step of the reverse factorization writes, from the factor `A`
before the step and the pivot `v`: the pivot cell, the updates of row `jj` computed
from the rows below `jj` and from the sub-diagonal block of the next block row, and
nothing else. -/
theorem factorizeNewtonHessianBottomUp_write_spec {α : Type} [LinearOrderedField α]
    (NI nx : Nat) (H A : xn2x_matrix_t α) (kk jj : Nat) (v : α) :
    (factorizeNewtonHessianBottomUp_subBlock nx H kk jj
        (factorizeNewtonHessianBottomUp_diagBlock NI nx H kk jj
          (Function.update A (kk, 0, jj, jj) v)) (kk, 0, jj, jj) = v)
    ∧ (∀ ii, ii < jj →
        factorizeNewtonHessianBottomUp_subBlock nx H kk jj
          (factorizeNewtonHessianBottomUp_diagBlock NI nx H kk jj
            (Function.update A (kk, 0, jj, jj) v)) (kk, 0, jj, ii)
        = (H (kk, 0, jj, ii)
            - ∑ t in Finset.range (nx - (jj + 1)),
                A (kk, 0, jj + 1 + t, ii) * A (kk, 0, jj + 1 + t, jj)
            - (if kk + 1 < NI then
                ∑ ll in Finset.range nx, A (kk + 1, -1, ll, ii) * A (kk + 1, -1, ll, jj)
               else 0)) / v)
    ∧ (kk > 0 → ∀ ii, ii < nx →
        factorizeNewtonHessianBottomUp_subBlock nx H kk jj
          (factorizeNewtonHessianBottomUp_diagBlock NI nx H kk jj
            (Function.update A (kk, 0, jj, jj) v)) (kk, -1, jj, ii)
        = (H (kk, -1, jj, ii)
            - ∑ t in Finset.range (nx - (jj + 1)),
                A (kk, -1, jj + 1 + t, ii) * A (kk, 0, jj + 1 + t, jj)) / v)
    ∧ (∀ x, ¬ cellWritten nx kk jj x →
        factorizeNewtonHessianBottomUp_subBlock nx H kk jj
          (factorizeNewtonHessianBottomUp_diagBlock NI nx H kk jj
            (Function.update A (kk, 0, jj, jj) v)) x = A x) := by
  obtain ⟨d1, d2⟩ := factorizeNewtonHessianBottomUp_diagBlock_spec NI nx H kk jj
    (Function.update A (kk, 0, jj, jj) v)
  obtain ⟨b1, b2⟩ := factorizeNewtonHessianBottomUp_subBlock_spec nx H kk jj
    (factorizeNewtonHessianBottomUp_diagBlock NI nx H kk jj
      (Function.update A (kk, 0, jj, jj) v))
  have u1 : ∀ x, x ≠ (kk, (0 : Int), jj, jj) →
      Function.update A (kk, 0, jj, jj) v x = A x := fun x hx => Function.update_noteq hx _ _
  have dv : factorizeNewtonHessianBottomUp_diagBlock NI nx H kk jj
      (Function.update A (kk, 0, jj, jj) v) (kk, 0, jj, jj) = v := by
    rw [d1, Function.update_same]
    intro ii hii h
    simp only [Prod.mk.injEq] at h
    omega
  refine ⟨?_, ?_, ?_, ?_⟩
  · rw [b1, dv]
    intro ii _ h
    simp only [Prod.mk.injEq] at h
    omega
  · intro ii hii
    rw [b1, d2 ii hii, Function.update_same]
    · congr 1
      congr 1
      · congr 1
        apply Finset.sum_congr rfl
        intro t _
        rw [u1, u1]
        · intro h
          simp only [Prod.mk.injEq] at h
          omega
        · intro h
          simp only [Prod.mk.injEq] at h
          omega
      · by_cases hk : kk + 1 < NI
        · simp only [if_pos hk]
          apply Finset.sum_congr rfl
          intro ll _
          rw [u1, u1]
          · intro h
            simp only [Prod.mk.injEq] at h
            omega
          · intro h
            simp only [Prod.mk.injEq] at h
            omega
        · simp only [if_neg hk]
    · intro i2 _ h
      simp only [Prod.mk.injEq] at h
      omega
  · intro hk ii hii
    rw [b2 hk ii hii, dv]
    congr 1
    congr 1
    apply Finset.sum_congr rfl
    intro t _
    rw [d1, d1, u1, u1]
    · intro h
      simp only [Prod.mk.injEq] at h
      omega
    · intro h
      simp only [Prod.mk.injEq] at h
      omega
    · intro i2 _ h
      simp only [Prod.mk.injEq] at h
      omega
    · intro i2 _ h
      simp only [Prod.mk.injEq] at h
      omega
  · intro x hx
    have hx0 : x ≠ (kk, (0 : Int), jj, jj) := fun h => hx (Or.inl h)
    have hx1 : ∀ ii, ii < jj → x ≠ (kk, (0 : Int), jj, ii) :=
      fun ii hii h => hx (Or.inr (Or.inl ⟨ii, hii, h⟩))
    by_cases hk : kk > 0
    · have hx2 : ∀ ii, ii < nx → x ≠ (kk, (-1 : Int), jj, ii) :=
        fun ii hii h => hx (Or.inr (Or.inr ⟨hk, ii, hii, h⟩))
      rw [b1 x hx2, d1 x hx1, u1 x hx0]
    · have hs : factorizeNewtonHessianBottomUp_subBlock nx H kk jj
          (factorizeNewtonHessianBottomUp_diagBlock NI nx H kk jj
            (Function.update A (kk, 0, jj, jj) v))
          = factorizeNewtonHessianBottomUp_diagBlock NI nx H kk jj
            (Function.update A (kk, 0, jj, jj) v) := by
        unfold factorizeNewtonHessianBottomUp_subBlock
        rw [if_neg hk]
      rw [hs, d1 x hx1, u1 x hx0]

/-- A column step of the reverse factorization changes only the cells it writes; when
it returns, it has changed none. -/
theorem factorizeNewtonHessianBottomUp_column_frame {α : Type} [LinearOrderedField α]
    (sqrt : α → α) (debug : Bool) (opts : qpOptions_t α) (NI nx : Nat)
    (H : xn2x_matrix_t α) (kk jj : Nat) (st : factor_state α) :
    outcome
      (fun st1 => ∀ x, ¬ cellWritten nx kk jj x → st1.cholHessian x = st.cholHessian x)
      (fun e => e.2.cholHessian = st.cholHessian)
      (factorizeNewtonHessianBottomUp_column sqrt debug opts NI nx H kk jj st) := by
  unfold factorizeNewtonHessianBottomUp_column factorizeNewtonHessianBottomUp_check
  dsimp only
  split_ifs
  · exact rfl
  · exact (factorizeNewtonHessianBottomUp_write_spec NI nx H st.cholHessian kk jj _).2.2.2
  · exact rfl
  · exact (factorizeNewtonHessianBottomUp_write_spec NI nx H st.cholHessian kk jj _).2.2.2

/-- The cells a column step writes agree for two factors that agree on the rows
already done. -/
theorem factorizeNewtonHessianBottomUp_write_sim {α : Type} [LinearOrderedField α]
    (NI nx : Nat) (H : xn2x_matrix_t α) (kk jj : Nat) (A B : xn2x_matrix_t α) (v : α)
    (hAB : ∀ x, ¬ cellPending nx kk (jj + 1) x → A x = B x) :
    ∀ x, ¬ cellPending nx kk jj x →
      factorizeNewtonHessianBottomUp_subBlock nx H kk jj
          (factorizeNewtonHessianBottomUp_diagBlock NI nx H kk jj
            (Function.update A (kk, 0, jj, jj) v)) x
        = factorizeNewtonHessianBottomUp_subBlock nx H kk jj
          (factorizeNewtonHessianBottomUp_diagBlock NI nx H kk jj
            (Function.update B (kk, 0, jj, jj) v)) x := by
  have rd1 : ∀ l i j, A (kk + 1, l, i, j) = B (kk + 1, l, i, j) := by
    intro l i j
    apply hAB
    rintro ⟨k, j2, _, hw, hlt⟩
    rcases hw with h | ⟨ii, _, h⟩ | ⟨_, ii, _, h⟩ <;>
      simp only [Prod.mk.injEq] at h <;> omega
  have rd2 : ∀ l i j, jj < i → A (kk, l, i, j) = B (kk, l, i, j) := by
    intro l i j hi
    apply hAB
    rintro ⟨k, j2, _, hw, hlt⟩
    rcases hw with h | ⟨ii, _, h⟩ | ⟨_, ii, _, h⟩ <;>
      simp only [Prod.mk.injEq] at h <;> omega
  obtain ⟨a0, a1, a2, a3⟩ := factorizeNewtonHessianBottomUp_write_spec NI nx H A kk jj v
  obtain ⟨b0, b1, b2, b3⟩ := factorizeNewtonHessianBottomUp_write_spec NI nx H B kk jj v
  intro x hx
  by_cases hw : cellWritten nx kk jj x
  · rcases hw with h | ⟨ii, hii, h⟩ | ⟨hk, ii, hii, h⟩
    · subst h
      rw [a0, b0]
    · subst h
      rw [a1 ii hii, b1 ii hii]
      simp only [rd1]
      have e : ∑ t in Finset.range (nx - (jj + 1)),
            A (kk, 0, jj + 1 + t, ii) * A (kk, 0, jj + 1 + t, jj)
          = ∑ t in Finset.range (nx - (jj + 1)),
            B (kk, 0, jj + 1 + t, ii) * B (kk, 0, jj + 1 + t, jj) := by
        apply Finset.sum_congr rfl
        intro t _
        rw [rd2 0 (jj + 1 + t) ii (by omega), rd2 0 (jj + 1 + t) jj (by omega)]
      rw [e]
    · subst h
      rw [a2 hk ii hii, b2 hk ii hii]
      have e : ∑ t in Finset.range (nx - (jj + 1)),
            A (kk, -1, jj + 1 + t, ii) * A (kk, 0, jj + 1 + t, jj)
          = ∑ t in Finset.range (nx - (jj + 1)),
            B (kk, -1, jj + 1 + t, ii) * B (kk, 0, jj + 1 + t, jj) := by
        apply Finset.sum_congr rfl
        intro t _
        rw [rd2 (-1) (jj + 1 + t) ii (by omega), rd2 0 (jj + 1 + t) jj (by omega)]
      rw [e]
  · rw [a3 x hw, b3 x hw]
    apply hAB
    rintro ⟨k, j, hj, hw2, hlt⟩
    apply hx
    refine ⟨k, j, hj, hw2, ?_⟩
    rcases hlt with h | ⟨h1, h2⟩
    · exact Or.inl h
    · by_cases hjj : j = jj
      · subst hjj h1
        exact absurd hw2 hw
      · exact Or.inr ⟨h1, by omega⟩

/-- A column step of the reverse factorization run on two states whose factors agree
on the rows already done: both runs return, with the same code, or both go on, with
factors that agree on the rows done after the step. -/
theorem factorizeNewtonHessianBottomUp_column_sim {α : Type} [LinearOrderedField α]
    (sqrt : α → α) (debug : Bool) (opts : qpOptions_t α) (NI nx : Nat)
    (H : xn2x_matrix_t α) (kk jj : Nat) (A B : factor_state α)
    (hAB : ∀ x, ¬ cellPending nx kk (jj + 1) x → A.cholHessian x = B.cholHessian x) :
    outcome2
      (fun A1 B1 => ∀ x, ¬ cellPending nx kk jj x → A1.cholHessian x = B1.cholHessian x)
      (fun e1 e2 => e1.1 = e2.1)
      (factorizeNewtonHessianBottomUp_column sqrt debug opts NI nx H kk jj A)
      (factorizeNewtonHessianBottomUp_column sqrt debug opts NI nx H kk jj B) := by
  have rd1 : ∀ l i j, A.cholHessian (kk + 1, l, i, j) = B.cholHessian (kk + 1, l, i, j) := by
    intro l i j
    apply hAB
    rintro ⟨k, j2, _, hw, hlt⟩
    rcases hw with h | ⟨ii, _, h⟩ | ⟨_, ii, _, h⟩ <;>
      simp only [Prod.mk.injEq] at h <;> omega
  have rd2 : ∀ l i j, jj < i → A.cholHessian (kk, l, i, j) = B.cholHessian (kk, l, i, j) := by
    intro l i j hi
    apply hAB
    rintro ⟨k, j2, _, hw, hlt⟩
    rcases hw with h | ⟨ii, _, h⟩ | ⟨_, ii, _, h⟩ <;>
      simp only [Prod.mk.injEq] at h <;> omega
  have hsum : factorizeNewtonHessianBottomUp_pivotSum NI nx H A.cholHessian kk jj
      = factorizeNewtonHessianBottomUp_pivotSum NI nx H B.cholHessian kk jj := by
    unfold factorizeNewtonHessianBottomUp_pivotSum
    simp only [subLoop_range', subLoop_range, rd1]
    have e : ∑ t in Finset.range (nx - (jj + 1)),
          A.cholHessian (kk, 0, jj + 1 + t, jj) * A.cholHessian (kk, 0, jj + 1 + t, jj)
        = ∑ t in Finset.range (nx - (jj + 1)),
          B.cholHessian (kk, 0, jj + 1 + t, jj) * B.cholHessian (kk, 0, jj + 1 + t, jj) := by
      apply Finset.sum_congr rfl
      intro t _
      rw [rd2 0 (jj + 1 + t) jj (by omega)]
    rw [e]
  unfold factorizeNewtonHessianBottomUp_column factorizeNewtonHessianBottomUp_check
  rw [hsum]
  dsimp only
  split_ifs
  · exact rfl
  · exact factorizeNewtonHessianBottomUp_write_sim NI nx H kk jj _ _ _ hAB
  · exact rfl
  · exact factorizeNewtonHessianBottomUp_write_sim NI nx H kk jj _ _ _ hAB

/-- A column step of the reverse factorization reads the Hessian in its own block row
only. -/
theorem factorizeNewtonHessianBottomUp_column_congr {α : Type} [LinearOrderedField α]
    (sqrt : α → α) (debug : Bool) (opts : qpOptions_t α) (NI nx : Nat)
    (H H0 : xn2x_matrix_t α) (kk jj : Nat)
    (h : ∀ l i j, H (kk, l, i, j) = H0 (kk, l, i, j)) (st : factor_state α) :
    factorizeNewtonHessianBottomUp_column sqrt debug opts NI nx H kk jj st
      = factorizeNewtonHessianBottomUp_column sqrt debug opts NI nx H0 kk jj st := by
  unfold factorizeNewtonHessianBottomUp_column factorizeNewtonHessianBottomUp_pivotSum
    factorizeNewtonHessianBottomUp_diagBlock factorizeNewtonHessianBottomUp_subBlock
  simp only [h]

/-- The block rows of the reverse factorization return only
`QPDUNES_ERR_DIVISION_BY_ZERO`. -/
theorem factorizeNewtonHessianBottomUp_rows_error {α : Type} [LinearOrderedField α]
    (sqrt : α → α) (debug : Bool) (opts : qpOptions_t α) (NI nx : Nat)
    (H : xn2x_matrix_t α) (l : List Nat) (st : factor_state α) :
    outcome (fun _ => True) (fun e => e.1 = QPDUNES_ERR_DIVISION_BY_ZERO)
      (loopExcept
        (fun st kk => loopExcept
          (fun st jj => factorizeNewtonHessianBottomUp_column sqrt debug opts NI nx H kk jj st)
          (List.range nx).reverse st)
        l st) :=
  loopExcept_inv
    (fun st kk => loopExcept
      (fun st jj => factorizeNewtonHessianBottomUp_column sqrt debug opts NI nx H kk jj st)
      (List.range nx).reverse st)
    (fun _ => True)
    (fun (e : return_t × factor_state α) => e.1 = QPDUNES_ERR_DIVISION_BY_ZERO) l
    (fun st1 kk _ _ => loopExcept_inv
      (fun st jj => factorizeNewtonHessianBottomUp_column sqrt debug opts NI nx H kk jj st)
      (fun _ => True) (fun e => e.1 = QPDUNES_ERR_DIVISION_BY_ZERO) (List.range nx).reverse
      (fun st2 jj _ _ =>
        factorizeNewtonHessianBottomUp_column_error sqrt debug opts NI nx H kk jj st2)
      st1 trivial)
    st trivial

/-- The block rows up to `idx` of the reverse factorization change only cells of these
block rows. -/
theorem factorizeNewtonHessianBottomUp_rows_frame {α : Type} [LinearOrderedField α]
    (sqrt : α → α) (debug : Bool) (opts : qpOptions_t α) (NI nx : Nat)
    (H : xn2x_matrix_t α) (idx : Nat) (l : List Nat) (hl : ∀ kk, kk ∈ l → kk ≤ idx)
    (st : factor_state α) :
    outcome
      (fun st1 => ∀ x, ¬ cellPending nx idx nx x → st1.cholHessian x = st.cholHessian x)
      (fun e => ∀ x, ¬ cellPending nx idx nx x → e.2.cholHessian x = st.cholHessian x)
      (loopExcept
        (fun st kk => loopExcept
          (fun st jj => factorizeNewtonHessianBottomUp_column sqrt debug opts NI nx H kk jj st)
          (List.range nx).reverse st)
        l st) := by
  refine loopExcept_inv
    (fun st kk => loopExcept
      (fun st jj => factorizeNewtonHessianBottomUp_column sqrt debug opts NI nx H kk jj st)
      (List.range nx).reverse st)
    (fun (st1 : factor_state α) =>
      ∀ x, ¬ cellPending nx idx nx x → st1.cholHessian x = st.cholHessian x)
    (fun (e : return_t × factor_state α) =>
      ∀ x, ¬ cellPending nx idx nx x → e.2.cholHessian x = st.cholHessian x) l ?_ st ?_
  · intro st1 kk hkk h1
    refine loopExcept_inv
      (fun st jj => factorizeNewtonHessianBottomUp_column sqrt debug opts NI nx H kk jj st)
      (fun (st1 : factor_state α) =>
        ∀ x, ¬ cellPending nx idx nx x → st1.cholHessian x = st.cholHessian x)
      (fun (e : return_t × factor_state α) =>
        ∀ x, ¬ cellPending nx idx nx x → e.2.cholHessian x = st.cholHessian x)
      (List.range nx).reverse ?_ st1 ?_
    · intro st2 jj hjj h2
      have hjj2 : jj < nx := List.mem_range.1 (List.mem_reverse.1 hjj)
      have hcol := factorizeNewtonHessianBottomUp_column_frame sqrt debug opts NI nx H kk jj st2
      show outcome _ _
        (factorizeNewtonHessianBottomUp_column sqrt debug opts NI nx H kk jj st2)
      cases hr : factorizeNewtonHessianBottomUp_column sqrt debug opts NI nx H kk jj st2 with
      | error e =>
        rw [hr] at hcol
        simp only [outcome] at hcol ⊢
        intro x hx
        have h3 : e.2.cholHessian = st2.cholHessian := hcol
        rw [h3]
        exact h2 x hx
      | ok st3 =>
        rw [hr] at hcol
        simp only [outcome] at hcol ⊢
        intro x hx
        have h3 : st3.cholHessian x = st2.cholHessian x := by
          apply hcol
          intro hw
          apply hx
          refine ⟨kk, jj, hjj2, hw, ?_⟩
          have := hl kk hkk
          omega
        rw [h3]
        exact h2 x hx
    · exact h1
  · intro x _
    rfl

/-- The block rows `n-1, ..., 0` of the reverse factorization run on two states whose
factors agree outside these block rows: both runs return, with the same code, or both
go on to the same factor. -/
theorem factorizeNewtonHessianBottomUp_rows_sim {α : Type} [LinearOrderedField α]
    (sqrt : α → α) (debug : Bool) (opts : qpOptions_t α) (NI nx : Nat)
    (H : xn2x_matrix_t α) (n : Nat) (A B : factor_state α)
    (hAB : ∀ x, ¬ cellPending nx n 0 x → A.cholHessian x = B.cholHessian x) :
    outcome2 (fun A1 B1 => A1.cholHessian = B1.cholHessian) (fun e1 e2 => e1.1 = e2.1)
      (loopExcept
        (fun st kk => loopExcept
          (fun st jj => factorizeNewtonHessianBottomUp_column sqrt debug opts NI nx H kk jj st)
          (List.range nx).reverse st)
        (List.range n).reverse A)
      (loopExcept
        (fun st kk => loopExcept
          (fun st jj => factorizeNewtonHessianBottomUp_column sqrt debug opts NI nx H kk jj st)
          (List.range nx).reverse st)
        (List.range n).reverse B) := by
  have h := loopExcept_range_reverse_rel
    (fun st kk => loopExcept
      (fun st jj => factorizeNewtonHessianBottomUp_column sqrt debug opts NI nx H kk jj st)
      (List.range nx).reverse st)
    (fun st kk => loopExcept
      (fun st jj => factorizeNewtonHessianBottomUp_column sqrt debug opts NI nx H kk jj st)
      (List.range nx).reverse st)
    (fun K (A1 B1 : factor_state α) =>
      ∀ x, ¬ cellPending nx K 0 x → A1.cholHessian x = B1.cholHessian x)
    (fun e1 e2 => e1.1 = e2.1) n
    (by
      intro kk _ A1 B1 h1
      exact loopExcept_range_reverse_rel
        (fun st jj => factorizeNewtonHessianBottomUp_column sqrt debug opts NI nx H kk jj st)
        (fun st jj => factorizeNewtonHessianBottomUp_column sqrt debug opts NI nx H kk jj st)
        (fun J (A1 B1 : factor_state α) =>
          ∀ x, ¬ cellPending nx kk J x → A1.cholHessian x = B1.cholHessian x)
        (fun e1 e2 => e1.1 = e2.1) nx
        (fun jj _ A2 B2 h2 =>
          factorizeNewtonHessianBottomUp_column_sim sqrt debug opts NI nx H kk jj A2 B2 h2)
        A1 B1
        (by
          intro x hx
          apply h1
          rintro ⟨k, j, hj, hw, hlt⟩
          apply hx
          refine ⟨k, j, hj, hw, ?_⟩
          rcases hlt with h3 | ⟨h3, h4⟩
          · by_cases hk : k = kk
            · exact Or.inr ⟨hk, hj⟩
            · exact Or.inl (by omega)
          · omega))
    A B hAB
  apply outcome2_mono _ _ _ _ _ _ h
  intro A1 B1 h1
  funext x
  apply h1
  rintro ⟨k, j, _, _, hlt⟩
  omega

theorem blockIdxStart_unchangedTail (NI idx : Nat) (h : idx < NI) :
    (blockIdxStart NI (idx : Int) + 1).toNat = idx + 1 := by
  unfold blockIdxStart
  have h0 : (idx : Int) ≥ 0 := by omega
  rw [if_pos h0, min_eq_left (by omega)]
  omega

theorem range_reverse_split (NI idx : Nat) (h : idx < NI) :
    (List.range NI).reverse
      = (List.range' (idx + 1) (NI - (idx + 1))).reverse ++ (List.range (idx + 1)).reverse := by
  have e := List.range'_append_1 0 (idx + 1) (NI - (idx + 1))
  rw [Nat.zero_add] at e
  have e2 : NI - (idx + 1) + (idx + 1) = NI := by omega
  rw [e2] at e
  rw [List.range_eq_range', List.range_eq_range', ← e, List.reverse_append]

/-- A reverse factorization restarted at block row `idx` runs the block rows
`idx, ..., 0`. -/
theorem factorizeNewtonHessianBottomUp_restart {α : Type} [LinearOrderedField α]
    (sqrt : α → α) (debug : Bool) (opts : qpOptions_t α) (NI nx : Nat)
    (H : xn2x_matrix_t α) (idx : Nat) (hidx : idx < NI) (st : factor_state α) :
    qpDUNES_factorizeNewtonHessianBottomUp sqrt debug opts NI nx H (idx : Int) st
      = factor_finish
        (loopExcept
          (fun st kk => loopExcept
            (fun st jj =>
              factorizeNewtonHessianBottomUp_column sqrt debug opts NI nx H kk jj st)
            (List.range nx).reverse st)
          (List.range (idx + 1)).reverse st) := by
  unfold qpDUNES_factorizeNewtonHessianBottomUp
  rw [blockIdxStart_unchangedTail NI idx hidx]

/-- A full reverse factorization runs the block rows above `idx` and then the block
rows `idx, ..., 0`. -/
theorem factorizeNewtonHessianBottomUp_split {α : Type} [LinearOrderedField α]
    (sqrt : α → α) (debug : Bool) (opts : qpOptions_t α) (NI nx : Nat)
    (H : xn2x_matrix_t α) (idx : Nat) (hidx : idx < NI) (lastFull : Int)
    (hfull : (NI : Int) - 1 ≤ lastFull) (st : factor_state α) :
    qpDUNES_factorizeNewtonHessianBottomUp sqrt debug opts NI nx H lastFull st
      = factor_finish
        (match loopExcept
            (fun st kk => loopExcept
              (fun st jj =>
                factorizeNewtonHessianBottomUp_column sqrt debug opts NI nx H kk jj st)
              (List.range nx).reverse st)
            (List.range' (idx + 1) (NI - (idx + 1))).reverse st with
          | .error e => .error e
          | .ok m =>
            loopExcept
              (fun st kk => loopExcept
                (fun st jj =>
                  factorizeNewtonHessianBottomUp_column sqrt debug opts NI nx H kk jj st)
                (List.range nx).reverse st)
              (List.range (idx + 1)).reverse m) := by
  unfold qpDUNES_factorizeNewtonHessianBottomUp
  rw [blockIdxStart_full NI lastFull hfull, range_reverse_split NI idx hidx,
    loopExcept_append]
  cases loopExcept
      (fun st kk => loopExcept
        (fun st jj =>
          factorizeNewtonHessianBottomUp_column sqrt debug opts NI nx H kk jj st)
        (List.range nx).reverse st)
      (List.range' (idx + 1) (NI - (idx + 1))).reverse st with
  | error e => rfl
  | ok m => rfl

/-- The block rows above `idx` of the reverse factorization run alike on two Hessians
that agree in these block rows. -/
theorem factorizeNewtonHessianBottomUp_upper_congr {α : Type} [LinearOrderedField α]
    (sqrt : α → α) (debug : Bool) (opts : qpOptions_t α) (NI nx : Nat)
    (H H0 : xn2x_matrix_t α) (idx : Nat)
    (hH : ∀ k l i j, idx < k → H (k, l, i, j) = H0 (k, l, i, j)) (st : factor_state α) :
    loopExcept
        (fun st kk => loopExcept
          (fun st jj =>
            factorizeNewtonHessianBottomUp_column sqrt debug opts NI nx H kk jj st)
          (List.range nx).reverse st)
        (List.range' (idx + 1) (NI - (idx + 1))).reverse st
      = loopExcept
        (fun st kk => loopExcept
          (fun st jj =>
            factorizeNewtonHessianBottomUp_column sqrt debug opts NI nx H0 kk jj st)
          (List.range nx).reverse st)
        (List.range' (idx + 1) (NI - (idx + 1))).reverse st := by
  apply loopExcept_congr
  intro kk hkk s1
  have hk : idx < kk := by
    have := (List.mem_range'_1.1 (List.mem_reverse.1 hkk)).1
    omega
  apply loopExcept_congr
  intro jj _ s2
  exact factorizeNewtonHessianBottomUp_column_congr sqrt debug opts NI nx H H0 kk jj
    (fun l i j => hH kk l i j hk) s2

/-- C14. Partial refactorization is equivalent to full refactorization: for every
index `idx` in `0..N-1`, if `cholHessian` holds the result of a full reverse
factorization of a Hessian `H0` (one that returned `QPDUNES_OK`) and `H` differs from
`H0` only in block rows with index `<= idx`, then
`qpDUNES_factorizeNewtonHessianBottomUp` on `H` with `lastActSetChangeIdx = idx` leaves
every factor block row with index `> idx` unchanged, returns the code of a full
reverse factorization of `H` and, when that is `QPDUNES_OK`, produces exactly the same
factor. -/
theorem factorizeNewtonHessianBottomUp_partialRefactor {α : Type} [LinearOrderedField α]
    (sqrt : α → α) (debug : Bool) (opts : qpOptions_t α) (NI nx : Nat)
    (H0 H : xn2x_matrix_t α) (st0 : factor_state α) (idx : Nat) (lastFull : Int)
    (hidx : idx < NI) (hfull : (NI : Int) - 1 ≤ lastFull)
    (hH : ∀ k l i j, idx < k → H (k, l, i, j) = H0 (k, l, i, j))
    (hok : (qpDUNES_factorizeNewtonHessianBottomUp sqrt debug opts NI nx H0 lastFull
        st0).1 = QPDUNES_OK) :
    (∀ k l i j, idx < k →
      (qpDUNES_factorizeNewtonHessianBottomUp sqrt debug opts NI nx H (idx : Int)
          (qpDUNES_factorizeNewtonHessianBottomUp sqrt debug opts NI nx H0 lastFull
            st0).2).2.cholHessian (k, l, i, j)
        = (qpDUNES_factorizeNewtonHessianBottomUp sqrt debug opts NI nx H0 lastFull
            st0).2.cholHessian (k, l, i, j))
    ∧ (qpDUNES_factorizeNewtonHessianBottomUp sqrt debug opts NI nx H (idx : Int)
          (qpDUNES_factorizeNewtonHessianBottomUp sqrt debug opts NI nx H0 lastFull
            st0).2).1
        = (qpDUNES_factorizeNewtonHessianBottomUp sqrt debug opts NI nx H lastFull st0).1
    ∧ ((qpDUNES_factorizeNewtonHessianBottomUp sqrt debug opts NI nx H (idx : Int)
          (qpDUNES_factorizeNewtonHessianBottomUp sqrt debug opts NI nx H0 lastFull
            st0).2).1 = QPDUNES_OK →
      (qpDUNES_factorizeNewtonHessianBottomUp sqrt debug opts NI nx H (idx : Int)
          (qpDUNES_factorizeNewtonHessianBottomUp sqrt debug opts NI nx H0 lastFull
            st0).2).2.cholHessian
        = (qpDUNES_factorizeNewtonHessianBottomUp sqrt debug opts NI nx H lastFull
            st0).2.cholHessian) := by
  -- the full factorization of `H0`: the block rows above `idx`, then the others
  have e0 := factorizeNewtonHessianBottomUp_split sqrt debug opts NI nx H0 idx hidx lastFull
    hfull st0
  have eF := factorizeNewtonHessianBottomUp_split sqrt debug opts NI nx H idx hidx lastFull
    hfull st0
  rw [factorizeNewtonHessianBottomUp_upper_congr sqrt debug opts NI nx H H0 idx hH st0] at eF
  have hUerr := factorizeNewtonHessianBottomUp_rows_error sqrt debug opts NI nx H0
    (List.range' (idx + 1) (NI - (idx + 1))).reverse st0
  cases hm : loopExcept
      (fun st kk => loopExcept
        (fun st jj =>
          factorizeNewtonHessianBottomUp_column sqrt debug opts NI nx H0 kk jj st)
        (List.range nx).reverse st)
      (List.range' (idx + 1) (NI - (idx + 1))).reverse st0 with
  | error e =>
    rw [hm] at e0 hUerr
    rw [e0] at hok
    have h1 : e.1 = QPDUNES_ERR_DIVISION_BY_ZERO := hUerr
    have h2 : e.1 = QPDUNES_OK := hok
    rw [h1] at h2
    exact absurd h2 (by decide)
  | ok m =>
    rw [hm] at e0 eF
    simp only [] at e0 eF
    have hLerr := factorizeNewtonHessianBottomUp_rows_error sqrt debug opts NI nx H0
      (List.range (idx + 1)).reverse m
    have hLframe := factorizeNewtonHessianBottomUp_rows_frame sqrt debug opts NI nx H0 idx
      (List.range (idx + 1)).reverse
      (fun kk hkk => by
        have := List.mem_range.1 (List.mem_reverse.1 hkk)
        omega) m
    cases hS : loopExcept
        (fun st kk => loopExcept
          (fun st jj =>
            factorizeNewtonHessianBottomUp_column sqrt debug opts NI nx H0 kk jj st)
          (List.range nx).reverse st)
        (List.range (idx + 1)).reverse m with
    | error e =>
      rw [hS] at e0 hLerr
      rw [e0] at hok
      have h1 : e.1 = QPDUNES_ERR_DIVISION_BY_ZERO := hLerr
      have h2 : e.1 = QPDUNES_OK := hok
      rw [h1] at h2
      exact absurd h2 (by decide)
    | ok S0 =>
      rw [hS] at e0 hLframe
      have hS0 : ∀ x, ¬ cellPending nx idx nx x → S0.cholHessian x = m.cholHessian x :=
        hLframe
      have e1 : qpDUNES_factorizeNewtonHessianBottomUp sqrt debug opts NI nx H0 lastFull st0
          = (QPDUNES_OK, S0) := e0
      rw [e1, eF, factorizeNewtonHessianBottomUp_restart sqrt debug opts NI nx H idx hidx S0]
      have hPframe := factorizeNewtonHessianBottomUp_rows_frame sqrt debug opts NI nx H idx
        (List.range (idx + 1)).reverse
        (fun kk hkk => by
          have := List.mem_range.1 (List.mem_reverse.1 hkk)
          omega) S0
      have hPerr := factorizeNewtonHessianBottomUp_rows_error sqrt debug opts NI nx H
        (List.range (idx + 1)).reverse S0
      have hsim := factorizeNewtonHessianBottomUp_rows_sim sqrt debug opts NI nx H (idx + 1)
        S0 m
        (by
          intro x hx
          apply hS0
          rintro ⟨k, j, hj, hw, hlt⟩
          apply hx
          refine ⟨k, j, hj, hw, Or.inl ?_⟩
          omega)
      have hrow : ∀ k l i j, idx < k →
          ¬ cellPending nx idx nx ((k, l, i, j) : Nat × Int × Nat × Nat) := by
        intro k l i j hk
        rintro ⟨k2, j2, _, hw, hlt⟩
        rcases hw with h | ⟨ii, _, h⟩ | ⟨_, ii, _, h⟩ <;>
          simp only [Prod.mk.injEq] at h <;> omega
      cases hP : loopExcept
          (fun st kk => loopExcept
            (fun st jj =>
              factorizeNewtonHessianBottomUp_column sqrt debug opts NI nx H kk jj st)
            (List.range nx).reverse st)
          (List.range (idx + 1)).reverse S0 with
      | error eP =>
        rw [hP] at hPframe hPerr hsim
        have hcode : eP.1 = QPDUNES_ERR_DIVISION_BY_ZERO := hPerr
        cases hF : loopExcept
            (fun st kk => loopExcept
              (fun st jj =>
                factorizeNewtonHessianBottomUp_column sqrt debug opts NI nx H kk jj st)
              (List.range nx).reverse st)
            (List.range (idx + 1)).reverse m with
        | error eF2 =>
          rw [hF] at hsim
          refine ⟨fun k l i j hk => hPframe _ (hrow k l i j hk), hsim, ?_⟩
          intro h2
          have h3 : eP.1 = QPDUNES_OK := h2
          rw [hcode] at h3
          exact absurd h3 (by decide)
        | ok F2 =>
          rw [hF] at hsim
          exact hsim.elim
      | ok P1 =>
        rw [hP] at hPframe hsim
        cases hF : loopExcept
            (fun st kk => loopExcept
              (fun st jj =>
                factorizeNewtonHessianBottomUp_column sqrt debug opts NI nx H kk jj st)
              (List.range nx).reverse st)
            (List.range (idx + 1)).reverse m with
        | error eF2 =>
          rw [hF] at hsim
          exact hsim.elim
        | ok F2 =>
          rw [hF] at hsim
          exact ⟨fun k l i j hk => hPframe _ (hrow k l i j hk), rfl, fun _ => hsim⟩

theorem exampleHessianChanged_rows :
    ∀ k l i j, 0 < k →
      exampleHessianChanged ℝ (k, l, i, j) = exampleHessianBottomUp ℝ (k, l, i, j) := by
  intro k l i j hk
  have hne : ((k, l, i, j) : Nat × Int × Nat × Nat) ≠ (0, 0, 0, 0) := by
    intro h
    simp only [Prod.mk.injEq] at h
    omega
  unfold exampleHessianChanged exampleHessianBottomUp
  rw [if_neg hne, if_neg hne]

/-- Witness for C14: the Hessian `[[2, 1], [1, 1]]` (two block rows, `nx = 1`), its
full reverse factorization, and the Hessian `[[3, 1], [1, 1]]` that differs from it in
block row `0` only, refactorized from `idx = 0`. -/
theorem factorizeNewtonHessianBottomUp_partialRefactor_witness :
    (0 < 2) ∧ ((2 : Int) - 1 ≤ 1)
    ∧ (∀ k l i j, 0 < k →
        exampleHessianChanged ℝ (k, l, i, j) = exampleHessianBottomUp ℝ (k, l, i, j))
    ∧ (qpDUNES_factorizeNewtonHessianBottomUp Real.sqrt false
        (exampleOptions ℝ regType_t.QPDUNES_REG_LEVENBERG_MARQUARDT
          nwtnHssnFacAlg_t.QPDUNES_NH_FAC_BAND_REVERSE)
        2 1 (exampleHessianBottomUp ℝ) 1 ⟨fun _ => 0, false, []⟩).1 = QPDUNES_OK
    ∧ (qpDUNES_factorizeNewtonHessianBottomUp Real.sqrt false
        (exampleOptions ℝ regType_t.QPDUNES_REG_LEVENBERG_MARQUARDT
          nwtnHssnFacAlg_t.QPDUNES_NH_FAC_BAND_REVERSE)
        2 1 (exampleHessianChanged ℝ) ((0 : Nat) : Int)
        (qpDUNES_factorizeNewtonHessianBottomUp Real.sqrt false
          (exampleOptions ℝ regType_t.QPDUNES_REG_LEVENBERG_MARQUARDT
            nwtnHssnFacAlg_t.QPDUNES_NH_FAC_BAND_REVERSE)
          2 1 (exampleHessianBottomUp ℝ) 1 ⟨fun _ => 0, false, []⟩).2).1
      = (qpDUNES_factorizeNewtonHessianBottomUp Real.sqrt false
        (exampleOptions ℝ regType_t.QPDUNES_REG_LEVENBERG_MARQUARDT
          nwtnHssnFacAlg_t.QPDUNES_NH_FAC_BAND_REVERSE)
        2 1 (exampleHessianChanged ℝ) 1 ⟨fun _ => 0, false, []⟩).1 :=
  ⟨by norm_num, by norm_num, exampleHessianChanged_rows, by rw [exampleHessianBottomUp_run],
    (factorizeNewtonHessianBottomUp_partialRefactor Real.sqrt false
      (exampleOptions ℝ regType_t.QPDUNES_REG_LEVENBERG_MARQUARDT
        nwtnHssnFacAlg_t.QPDUNES_NH_FAC_BAND_REVERSE)
      2 1 (exampleHessianBottomUp ℝ) (exampleHessianChanged ℝ) ⟨fun _ => 0, false, []⟩ 0 1
      (by norm_num) (by norm_num) exampleHessianChanged_rows
      (by rw [exampleHessianBottomUp_run])).2.1⟩

/-! ## The restart point of the reverse factorization -/

/-- A column step of the reverse factorization that goes on records one more pivot
squared-sum. -/
theorem factorizeNewtonHessianBottomUp_column_count {α : Type} [LinearOrderedField α]
    (sqrt : α → α) (debug : Bool) (opts : qpOptions_t α) (NI nx : Nat)
    (H : xn2x_matrix_t α) (kk jj : Nat) (st : factor_state α) :
    outcome (fun st1 => st1.pivots.length = st.pivots.length + 1) (fun _ => True)
      (factorizeNewtonHessianBottomUp_column sqrt debug opts NI nx H kk jj st) := by
  unfold factorizeNewtonHessianBottomUp_column factorizeNewtonHessianBottomUp_check
  dsimp only
  split_ifs
  · exact trivial
  · exact List.length_append _ _
  · exact trivial
  · exact List.length_append _ _

/-- The block rows `n-1, ..., 0` of the reverse factorization, when none returns,
record `n * nx` pivot squared-sums. -/
theorem factorizeNewtonHessianBottomUp_rows_count {α : Type} [LinearOrderedField α]
    (sqrt : α → α) (debug : Bool) (opts : qpOptions_t α) (NI nx : Nat)
    (H : xn2x_matrix_t α) (n : Nat) (st : factor_state α) :
    outcome (fun st1 => st1.pivots.length = st.pivots.length + n * nx) (fun _ => True)
      (loopExcept
        (fun st kk => loopExcept
          (fun st jj => factorizeNewtonHessianBottomUp_column sqrt debug opts NI nx H kk jj st)
          (List.range nx).reverse st)
        (List.range n).reverse st) := by
  have h := loopExcept_range_reverse_inv
    (fun st kk => loopExcept
      (fun st jj => factorizeNewtonHessianBottomUp_column sqrt debug opts NI nx H kk jj st)
      (List.range nx).reverse st)
    (fun K (st1 : factor_state α) =>
      st1.pivots.length + K * nx = st.pivots.length + n * nx)
    (fun (_ : return_t × factor_state α) => True) n
    (by
      intro kk _ st1 h1
      have h2 := loopExcept_range_reverse_inv
        (fun st jj => factorizeNewtonHessianBottomUp_column sqrt debug opts NI nx H kk jj st)
        (fun J (st2 : factor_state α) =>
          st2.pivots.length + kk * nx + J = st.pivots.length + n * nx)
        (fun (_ : return_t × factor_state α) => True) nx
        (by
          intro jj _ st2 h3
          apply outcome_mono _ _ _ _ _
            (factorizeNewtonHessianBottomUp_column_count sqrt debug opts NI nx H kk jj st2)
          intro st3 h4
          show st3.pivots.length + kk * nx + jj = st.pivots.length + n * nx
          omega)
        st1
        (by
          have e : (kk + 1) * nx = kk * nx + nx := by ring
          rw [e] at h1
          omega)
      apply outcome_mono _ _ _ _ _ h2
      intro st2 h3
      have h4 : st2.pivots.length + kk * nx + 0 = st.pivots.length + n * nx := h3
      show st2.pivots.length + kk * nx = st.pivots.length + n * nx
      omega)
    st (by omega)
  apply outcome_mono _ _ _ _ _ h
  intro st1 h1
  have h2 : st1.pivots.length + 0 * nx = st.pivots.length + n * nx := h1
  rw [Nat.zero_mul, Nat.add_zero] at h2
  exact h2

theorem blockIdxStart_clamped (NI : Nat) (lastActSetChangeIdx : Int)
    (h0 : 0 ≤ lastActSetChangeIdx) (hNI : 0 < NI) :
    (blockIdxStart NI lastActSetChangeIdx + 1).toNat
      = min lastActSetChangeIdx.toNat (NI - 1) + 1 := by
  unfold blockIdxStart
  rw [if_pos h0]
  rcases le_total lastActSetChangeIdx ((NI : Int) - 1) with h | h
  · rw [min_eq_left h, min_eq_left (by omega)]
    omega
  · rw [min_eq_right h, min_eq_right (by omega)]
    omega

/-- C15 (as amended). Reverse factorization restart point: for a negative
`lastActSetChangeIdx`, `qpDUNES_factorizeNewtonHessianBottomUp` recomputes no block row
and returns `QPDUNES_OK` with the factor as it was; for a nonnegative
`lastActSetChangeIdx` (and `N >= 1`) it starts at block row
`c = min(lastActSetChangeIdx, N-1)` and runs exactly the block rows `c, c-1, ..., 0`:
the cells of the block rows above `c` are unchanged, and a run that returns
`QPDUNES_OK` has computed `(c+1) * nx` pivots. -/
theorem factorizeNewtonHessianBottomUp_restartPoint {α : Type} [LinearOrderedField α]
    (sqrt : α → α) (debug : Bool) (opts : qpOptions_t α) (NI nx : Nat)
    (H : xn2x_matrix_t α) (lastActSetChangeIdx : Int) (st : factor_state α) :
    (lastActSetChangeIdx < 0 →
      qpDUNES_factorizeNewtonHessianBottomUp sqrt debug opts NI nx H lastActSetChangeIdx st
        = (QPDUNES_OK, st))
    ∧ (0 ≤ lastActSetChangeIdx → 0 < NI →
      qpDUNES_factorizeNewtonHessianBottomUp sqrt debug opts NI nx H lastActSetChangeIdx st
        = factor_finish
          (loopExcept
            (fun st kk => loopExcept
              (fun st jj =>
                factorizeNewtonHessianBottomUp_column sqrt debug opts NI nx H kk jj st)
              (List.range nx).reverse st)
            (List.range (min lastActSetChangeIdx.toNat (NI - 1) + 1)).reverse st)
      ∧ (∀ k l i j, min lastActSetChangeIdx.toNat (NI - 1) < k →
        (qpDUNES_factorizeNewtonHessianBottomUp sqrt debug opts NI nx H
            lastActSetChangeIdx st).2.cholHessian (k, l, i, j)
          = st.cholHessian (k, l, i, j))
      ∧ ((qpDUNES_factorizeNewtonHessianBottomUp sqrt debug opts NI nx H
            lastActSetChangeIdx st).1 = QPDUNES_OK →
        (qpDUNES_factorizeNewtonHessianBottomUp sqrt debug opts NI nx H
            lastActSetChangeIdx st).2.pivots.length
          = st.pivots.length + (min lastActSetChangeIdx.toNat (NI - 1) + 1) * nx)) := by
  constructor
  · intro hneg
    unfold qpDUNES_factorizeNewtonHessianBottomUp blockIdxStart
    rw [if_neg (by omega)]
    rfl
  · intro h0 hNI
    have e : qpDUNES_factorizeNewtonHessianBottomUp sqrt debug opts NI nx H
          lastActSetChangeIdx st
        = factor_finish
          (loopExcept
            (fun st kk => loopExcept
              (fun st jj =>
                factorizeNewtonHessianBottomUp_column sqrt debug opts NI nx H kk jj st)
              (List.range nx).reverse st)
            (List.range (min lastActSetChangeIdx.toNat (NI - 1) + 1)).reverse st) := by
      unfold qpDUNES_factorizeNewtonHessianBottomUp
      rw [blockIdxStart_clamped NI lastActSetChangeIdx h0 hNI]
    rw [e]
    have hframe := factorizeNewtonHessianBottomUp_rows_frame sqrt debug opts NI nx H
      (min lastActSetChangeIdx.toNat (NI - 1))
      (List.range (min lastActSetChangeIdx.toNat (NI - 1) + 1)).reverse
      (fun kk hkk => by
        have := List.mem_range.1 (List.mem_reverse.1 hkk)
        omega) st
    have hcount := factorizeNewtonHessianBottomUp_rows_count sqrt debug opts NI nx H
      (min lastActSetChangeIdx.toNat (NI - 1) + 1) st
    have herr := factorizeNewtonHessianBottomUp_rows_error sqrt debug opts NI nx H
      (List.range (min lastActSetChangeIdx.toNat (NI - 1) + 1)).reverse st
    have hrow : ∀ k l i j, min lastActSetChangeIdx.toNat (NI - 1) < k →
        ¬ cellPending nx (min lastActSetChangeIdx.toNat (NI - 1)) nx
          ((k, l, i, j) : Nat × Int × Nat × Nat) := by
      intro k l i j hk
      rintro ⟨k2, j2, _, hw, hlt⟩
      rcases hw with h | ⟨ii, _, h⟩ | ⟨_, ii, _, h⟩ <;>
        simp only [Prod.mk.injEq] at h <;> omega
    refine ⟨rfl, ?_, ?_⟩
    · intro k l i j hk
      cases hr : loopExcept
          (fun st kk => loopExcept
            (fun st jj =>
              factorizeNewtonHessianBottomUp_column sqrt debug opts NI nx H kk jj st)
            (List.range nx).reverse st)
          (List.range (min lastActSetChangeIdx.toNat (NI - 1) + 1)).reverse st with
      | error e1 =>
        rw [hr] at hframe
        exact hframe _ (hrow k l i j hk)
      | ok st1 =>
        rw [hr] at hframe
        exact hframe _ (hrow k l i j hk)
    · cases hr : loopExcept
          (fun st kk => loopExcept
            (fun st jj =>
              factorizeNewtonHessianBottomUp_column sqrt debug opts NI nx H kk jj st)
            (List.range nx).reverse st)
          (List.range (min lastActSetChangeIdx.toNat (NI - 1) + 1)).reverse st with
      | error e1 =>
        rw [hr] at herr
        intro h2
        have h3 : e1.1 = QPDUNES_ERR_DIVISION_BY_ZERO := herr
        have h4 : e1.1 = QPDUNES_OK := h2
        rw [h3] at h4
        exact absurd h4 (by decide)
      | ok st1 =>
        rw [hr] at hcount
        intro _
        exact hcount

/-- Counterexample to C15 as stated: `lastActSetChangeIdx = -1` with one block row,
`nx = 1` and the Hessian `(1)`. The index clamped to `[0, N-1]` is `0`, and a run
restarted at block row `0` computes the pivot squared-sum `1` of that block row; the
run with `lastActSetChangeIdx = -1` returns `QPDUNES_OK` without computing any pivot
and leaves the factor as it was. -/
theorem factorizeNewtonHessianBottomUp_restartPoint_counterexample :
    qpDUNES_factorizeNewtonHessianBottomUp Real.sqrt false
        (exampleOptions ℝ regType_t.QPDUNES_REG_LEVENBERG_MARQUARDT
          nwtnHssnFacAlg_t.QPDUNES_NH_FAC_BAND_REVERSE)
        1 1 (fun _ => 1) (-1) ⟨fun _ => 0, false, []⟩
      = (QPDUNES_OK, ⟨fun _ => 0, false, []⟩)
    ∧ qpDUNES_factorizeNewtonHessianBottomUp Real.sqrt false
        (exampleOptions ℝ regType_t.QPDUNES_REG_LEVENBERG_MARQUARDT
          nwtnHssnFacAlg_t.QPDUNES_NH_FAC_BAND_REVERSE)
        1 1 (fun _ => 1) 0 ⟨fun _ => 0, false, []⟩
      = (QPDUNES_OK, ⟨Function.update (fun _ => 0) (0, 0, 0, 0) 1, false, [1]⟩)
    ∧ (qpDUNES_factorizeNewtonHessianBottomUp Real.sqrt false
        (exampleOptions ℝ regType_t.QPDUNES_REG_LEVENBERG_MARQUARDT
          nwtnHssnFacAlg_t.QPDUNES_NH_FAC_BAND_REVERSE)
        1 1 (fun _ => 1) (-1) ⟨fun _ => 0, false, []⟩).2.cholHessian (0, 0, 0, 0)
      ≠ (qpDUNES_factorizeNewtonHessianBottomUp Real.sqrt false
        (exampleOptions ℝ regType_t.QPDUNES_REG_LEVENBERG_MARQUARDT
          nwtnHssnFacAlg_t.QPDUNES_NH_FAC_BAND_REVERSE)
        1 1 (fun _ => 1) 0 ⟨fun _ => 0, false, []⟩).2.cholHessian (0, 0, 0, 0) := by
  have h1 : qpDUNES_factorizeNewtonHessianBottomUp Real.sqrt false
        (exampleOptions ℝ regType_t.QPDUNES_REG_LEVENBERG_MARQUARDT
          nwtnHssnFacAlg_t.QPDUNES_NH_FAC_BAND_REVERSE)
        1 1 (fun _ => 1) (-1) ⟨fun _ => 0, false, []⟩
      = (QPDUNES_OK, ⟨fun _ => 0, false, []⟩) := by
    norm_num [qpDUNES_factorizeNewtonHessianBottomUp, blockIdxStart, loopExcept,
      factor_finish]
  have h2 : qpDUNES_factorizeNewtonHessianBottomUp Real.sqrt false
        (exampleOptions ℝ regType_t.QPDUNES_REG_LEVENBERG_MARQUARDT
          nwtnHssnFacAlg_t.QPDUNES_NH_FAC_BAND_REVERSE)
        1 1 (fun _ => 1) 0 ⟨fun _ => 0, false, []⟩
      = (QPDUNES_OK, ⟨Function.update (fun _ => 0) (0, 0, 0, 0) 1, false, [1]⟩) := by
    have hne : ¬ (regType_t.QPDUNES_REG_LEVENBERG_MARQUARDT
        = regType_t.QPDUNES_REG_SINGULAR_DIRECTIONS) := by decide
    norm_num [qpDUNES_factorizeNewtonHessianBottomUp, blockIdxStart, loopExcept,
      List.range_succ, factorizeNewtonHessianBottomUp_column,
      factorizeNewtonHessianBottomUp_pivotSum, factorizeNewtonHessianBottomUp_check,
      factorizeNewtonHessianBottomUp_diagBlock, factorizeNewtonHessianBottomUp_subBlock,
      factor_finish, subLoop, exampleOptions, hne, -Prod.mk_zero_zero, -Prod.mk_eq_zero]
  refine ⟨h1, h2, ?_⟩
  rw [h1, h2]
  norm_num [Function.update]

/-- Witness for C15 (as amended): `lastActSetChangeIdx = 5` with two block rows. -/
theorem factorizeNewtonHessianBottomUp_restartPoint_witness :
    (0 : Int) ≤ 5 ∧ 0 < 2
    ∧ qpDUNES_factorizeNewtonHessianBottomUp Real.sqrt false
        (exampleOptions ℝ regType_t.QPDUNES_REG_LEVENBERG_MARQUARDT
          nwtnHssnFacAlg_t.QPDUNES_NH_FAC_BAND_REVERSE)
        2 1 (exampleHessianBottomUp ℝ) 5 ⟨fun _ => 0, false, []⟩
      = factor_finish
        (loopExcept
          (fun st kk => loopExcept
            (fun st jj =>
              factorizeNewtonHessianBottomUp_column Real.sqrt false
                (exampleOptions ℝ regType_t.QPDUNES_REG_LEVENBERG_MARQUARDT
                  nwtnHssnFacAlg_t.QPDUNES_NH_FAC_BAND_REVERSE)
                2 1 (exampleHessianBottomUp ℝ) kk jj st)
            (List.range 1).reverse st)
          (List.range (min (5 : Int).toNat (2 - 1) + 1)).reverse ⟨fun _ => 0, false, []⟩) :=
  ⟨by norm_num, by norm_num,
    ((factorizeNewtonHessianBottomUp_restartPoint Real.sqrt false
      (exampleOptions ℝ regType_t.QPDUNES_REG_LEVENBERG_MARQUARDT
        nwtnHssnFacAlg_t.QPDUNES_NH_FAC_BAND_REVERSE)
      2 1 (exampleHessianBottomUp ℝ) 5 ⟨fun _ => 0, false, []⟩).2
      (by norm_num) (by norm_num)).1⟩

/-! ## The division guard of the back-substitutions -/

theorem loopExcept_proj {ε ε1 σ τ : Type} (p : σ → τ) (pe : ε → ε1)
    (body1 : σ → Nat → Except ε σ) (body2 : τ → Nat → Except ε1 τ) (l : List Nat)
    (h : ∀ s i, body2 (p s) i = outcomeMap p pe (body1 s i)) (s : σ) :
    loopExcept body2 l (p s) = outcomeMap p pe (loopExcept body1 l s) := by
  induction l generalizing s with
  | nil => rfl
  | cons i l ih =>
    unfold loopExcept
    rw [h s i]
    cases body1 s i with
    | error e => rfl
    | ok s1 => exact ih s1

/-- A row of a top-down solve with the record of the divisions computes what the row
without the record computes. -/
theorem backsolve_lowerRow_ghost_proj {α : Type} [LinearOrderedField α]
    (useAsserts inftyBranch : Bool) (opts : qpOptions_t α) (nx : Nat)
    (L : xn2x_matrix_t α) (kk ii : Nat) (sum0 : α) (s : backsolve_state α) :
    backsolve_lowerRow useAsserts inftyBranch opts nx L kk ii sum0 s.res
      = outcomeMap (fun s : backsolve_state α => s.res)
          (fun e : return_t × backsolve_state α => (e.1, e.2.res))
          (backsolve_lowerRow_ghost useAsserts inftyBranch opts nx L kk ii sum0 s) := by
  unfold backsolve_lowerRow backsolve_lowerRow_ghost
  dsimp only
  split_ifs <;> rfl

/-- A row of a bottom-up solve with the record of the divisions computes what the row
without the record computes. -/
theorem backsolve_upperRow_ghost_proj {α : Type} [LinearOrderedField α]
    (useAsserts : Bool) (opts : qpOptions_t α) (NI nx : Nat)
    (L : xn2x_matrix_t α) (kk ii : Nat) (sum0 : α) (s : backsolve_state α) :
    backsolve_upperRow useAsserts opts NI nx L kk ii sum0 s.res
      = outcomeMap (fun s : backsolve_state α => s.res)
          (fun e : return_t × backsolve_state α => (e.1, e.2.res))
          (backsolve_upperRow_ghost useAsserts opts NI nx L kk ii sum0 s) := by
  unfold backsolve_upperRow backsolve_upperRow_ghost
  dsimp only
  split_ifs <;> rfl

/-- The top-down sweep with the record of the divisions computes what the sweep without
the record computes. -/
theorem backsolve_lowerSweep_ghost_proj {α : Type} [LinearOrderedField α]
    (useAsserts inftyBranch : Bool) (opts : qpOptions_t α) (NI nx : Nat)
    (L : xn2x_matrix_t α) (rhs : vector_t α → Nat → α) (s : backsolve_state α) :
    loopExcept
        (fun res kk => loopExcept
          (fun res ii => backsolve_lowerRow useAsserts inftyBranch opts nx L kk ii
            (rhs res (kk * nx + ii)) res)
          (List.range nx) res)
        (List.range NI) s.res
      = outcomeMap (fun s : backsolve_state α => s.res)
          (fun e : return_t × backsolve_state α => (e.1, e.2.res))
          (loopExcept
            (fun s kk => loopExcept
              (fun s ii => backsolve_lowerRow_ghost useAsserts inftyBranch opts nx L kk ii
                (rhs s.res (kk * nx + ii)) s)
              (List.range nx) s)
            (List.range NI) s) :=
  loopExcept_proj (fun s : backsolve_state α => s.res)
    (fun e : return_t × backsolve_state α => (e.1, e.2.res)) _ _ (List.range NI)
    (fun s1 kk => loopExcept_proj (fun s : backsolve_state α => s.res)
      (fun e : return_t × backsolve_state α => (e.1, e.2.res))
      (fun s ii => backsolve_lowerRow_ghost useAsserts inftyBranch opts nx L kk ii
        (rhs s.res (kk * nx + ii)) s)
      (fun res ii => backsolve_lowerRow useAsserts inftyBranch opts nx L kk ii
        (rhs res (kk * nx + ii)) res)
      (List.range nx)
      (fun s2 ii => backsolve_lowerRow_ghost_proj useAsserts inftyBranch opts nx L kk ii
        (rhs s2.res (kk * nx + ii)) s2)
      s1)
    s

/-- The bottom-up sweep with the record of the divisions computes what the sweep
without the record computes. -/
theorem backsolve_upperSweep_ghost_proj {α : Type} [LinearOrderedField α]
    (useAsserts : Bool) (opts : qpOptions_t α) (NI nx : Nat)
    (L : xn2x_matrix_t α) (rhs : vector_t α → Nat → α) (s : backsolve_state α) :
    loopExcept
        (fun res kk => loopExcept
          (fun res ii => backsolve_upperRow useAsserts opts NI nx L kk ii
            (rhs res (kk * nx + ii)) res)
          (List.range nx).reverse res)
        (List.range NI).reverse s.res
      = outcomeMap (fun s : backsolve_state α => s.res)
          (fun e : return_t × backsolve_state α => (e.1, e.2.res))
          (loopExcept
            (fun s kk => loopExcept
              (fun s ii => backsolve_upperRow_ghost useAsserts opts NI nx L kk ii
                (rhs s.res (kk * nx + ii)) s)
              (List.range nx).reverse s)
            (List.range NI).reverse s) :=
  loopExcept_proj (fun s : backsolve_state α => s.res)
    (fun e : return_t × backsolve_state α => (e.1, e.2.res)) _ _ (List.range NI).reverse
    (fun s1 kk => loopExcept_proj (fun s : backsolve_state α => s.res)
      (fun e : return_t × backsolve_state α => (e.1, e.2.res))
      (fun s ii => backsolve_upperRow_ghost useAsserts opts NI nx L kk ii
        (rhs s.res (kk * nx + ii)) s)
      (fun res ii => backsolve_upperRow useAsserts opts NI nx L kk ii
        (rhs res (kk * nx + ii)) res)
      (List.range nx).reverse
      (fun s2 ii => backsolve_upperRow_ghost_proj useAsserts opts NI nx L kk ii
        (rhs s2.res (kk * nx + ii)) s2)
      s1)
    s

/-- The routine `qpDUNES_solveNewtonEquation` with the record of the divisions returns
the code and the vector `res` of `qpDUNES_solveNewtonEquation`. -/
theorem solveNewtonEquation_ghost_proj {α : Type} [LinearOrderedField α]
    (useAsserts : Bool) (opts : qpOptions_t α) (NI nx : Nat) (res0 : vector_t α)
    (L : xn2x_matrix_t α) (g : vector_t α) :
    qpDUNES_solveNewtonEquation useAsserts opts NI nx res0 L g
      = ((qpDUNES_solveNewtonEquation_ghost useAsserts opts NI nx res0 L g).1,
          (qpDUNES_solveNewtonEquation_ghost useAsserts opts NI nx res0 L g).2.res) := by
  unfold qpDUNES_solveNewtonEquation qpDUNES_solveNewtonEquation_ghost
  have h1 := backsolve_lowerSweep_ghost_proj useAsserts true opts NI nx L (fun _ c => g c)
    ⟨res0, [], []⟩
  simp only [] at h1
  rw [h1]
  cases loopExcept
      (fun s kk => loopExcept
        (fun s ii => backsolve_lowerRow_ghost useAsserts true opts nx L kk ii
          (g (kk * nx + ii)) s)
        (List.range nx) s)
      (List.range NI) (⟨res0, [], []⟩ : backsolve_state α) with
  | error e => rfl
  | ok s =>
    simp only [outcomeMap]
    have h2 := backsolve_upperSweep_ghost_proj useAsserts opts NI nx L (fun res c => res c) s
    simp only [] at h2
    rw [h2]
    cases loopExcept
        (fun s kk => loopExcept
          (fun s ii => backsolve_upperRow_ghost useAsserts opts NI nx L kk ii
            (s.res (kk * nx + ii)) s)
          (List.range nx).reverse s)
        (List.range NI).reverse s with
    | error e => rfl
    | ok s1 => rfl

/-- The routine `qpDUNES_solveNewtonEquationBottomUp` with the record of the divisions
returns the code and the vector `res` of `qpDUNES_solveNewtonEquationBottomUp`. -/
theorem solveNewtonEquationBottomUp_ghost_proj {α : Type} [LinearOrderedField α]
    (useAsserts : Bool) (opts : qpOptions_t α) (NI nx : Nat) (res0 : vector_t α)
    (L : xn2x_matrix_t α) (g : vector_t α) :
    qpDUNES_solveNewtonEquationBottomUp useAsserts opts NI nx res0 L g
      = ((qpDUNES_solveNewtonEquationBottomUp_ghost useAsserts opts NI nx res0 L g).1,
          (qpDUNES_solveNewtonEquationBottomUp_ghost useAsserts opts NI nx res0 L
            g).2.res) := by
  unfold qpDUNES_solveNewtonEquationBottomUp qpDUNES_solveNewtonEquationBottomUp_ghost
  have h1 := backsolve_upperSweep_ghost_proj useAsserts opts NI nx L (fun _ c => g c)
    ⟨res0, [], []⟩
  simp only [] at h1
  rw [h1]
  cases loopExcept
      (fun s kk => loopExcept
        (fun s ii => backsolve_upperRow_ghost useAsserts opts NI nx L kk ii
          (g (kk * nx + ii)) s)
        (List.range nx).reverse s)
      (List.range NI).reverse (⟨res0, [], []⟩ : backsolve_state α) with
  | error e => rfl
  | ok s =>
    simp only [outcomeMap]
    have h2 := backsolve_lowerSweep_ghost_proj useAsserts false opts NI nx L
      (fun res c => res c) s
    simp only [] at h2
    rw [h2]
    cases loopExcept
        (fun s kk => loopExcept
          (fun s ii => backsolve_lowerRow_ghost useAsserts false opts nx L kk ii
            (s.res (kk * nx + ii)) s)
          (List.range nx) s)
        (List.range NI) s with
    | error e => rfl
    | ok s1 => rfl

/-- The division step of a top-down row with assertions enabled, for any numerator and
pivot, keeps the record guarded. -/
theorem backsolve_lowerDivide_guard {α : Type} [LinearOrderedField α]
    (inftyBranch : Bool) (opts : qpOptions_t α) (c : Nat) (sum pivot : α)
    (s : backsolve_state α) (hs : guardPassed opts s) :
    outcome (guardPassed opts) (guardReturned opts)
      (if true = true ∧ |pivot| < opts.QPDUNES_ZERO * |sum| then
        (.error (QPDUNES_ERR_DIVISION_BY_ZERO,
          { s with checks := s.checks ++ [(sum, pivot)] }) : backsolve_ghostStep α)
      else if inftyBranch = true ∧ pivot > opts.QPDUNES_INFTY then
        .ok { res := Function.update s.res c 0, checks := s.checks ++ [(sum, pivot)],
              divs := s.divs }
      else
        .ok { res := Function.update s.res c (sum / pivot),
              checks := s.checks ++ [(sum, pivot)], divs := s.divs ++ [(sum, pivot)] }) := by
  split_ifs with h1 h2
  · exact ⟨rfl, ⟨_, List.mem_append_right _ (List.mem_singleton_self _), h1.2⟩, hs.2⟩
  · refine ⟨?_, hs.2⟩
    intro p hp
    rcases List.mem_append.1 hp with h | h
    · exact hs.1 p h
    · rw [List.mem_singleton.1 h]
      exact fun hg => h1 ⟨rfl, hg⟩
  · refine ⟨?_, ?_⟩
    · intro p hp
      rcases List.mem_append.1 hp with h | h
      · exact hs.1 p h
      · rw [List.mem_singleton.1 h]
        exact fun hg => h1 ⟨rfl, hg⟩
    · intro p hp
      rcases List.mem_append.1 hp with h | h
      · exact hs.2 p h
      · rw [List.mem_singleton.1 h]
        exact fun hg => h1 ⟨rfl, hg⟩

/-- A row of a top-down solve with assertions enabled keeps the record guarded. -/
theorem backsolve_lowerRow_ghost_guard {α : Type} [LinearOrderedField α]
    (inftyBranch : Bool) (opts : qpOptions_t α) (nx : Nat)
    (L : xn2x_matrix_t α) (kk ii : Nat) (sum0 : α) (s : backsolve_state α)
    (hs : guardPassed opts s) :
    outcome (guardPassed opts) (guardReturned opts)
      (backsolve_lowerRow_ghost true inftyBranch opts nx L kk ii sum0 s) := by
  unfold backsolve_lowerRow_ghost
  dsimp only
  exact backsolve_lowerDivide_guard inftyBranch opts _ _ _ s hs

/-- The division step of a bottom-up row with assertions enabled, for any numerator
and pivot, keeps the record guarded. -/
theorem backsolve_upperDivide_guard {α : Type} [LinearOrderedField α]
    (opts : qpOptions_t α) (c : Nat) (sum pivot : α)
    (s : backsolve_state α) (hs : guardPassed opts s) :
    outcome (guardPassed opts) (guardReturned opts)
      (if true = true ∧ |pivot| < opts.QPDUNES_ZERO * |sum| then
        (.error (QPDUNES_ERR_DIVISION_BY_ZERO,
          { s with checks := s.checks ++ [(sum, pivot)] }) : backsolve_ghostStep α)
      else
        .ok { res := Function.update s.res c (sum / pivot),
              checks := s.checks ++ [(sum, pivot)], divs := s.divs ++ [(sum, pivot)] }) := by
  split_ifs with h1
  · exact ⟨rfl, ⟨_, List.mem_append_right _ (List.mem_singleton_self _), h1.2⟩, hs.2⟩
  · refine ⟨?_, ?_⟩
    · intro p hp
      rcases List.mem_append.1 hp with h | h
      · exact hs.1 p h
      · rw [List.mem_singleton.1 h]
        exact fun hg => h1 ⟨rfl, hg⟩
    · intro p hp
      rcases List.mem_append.1 hp with h | h
      · exact hs.2 p h
      · rw [List.mem_singleton.1 h]
        exact fun hg => h1 ⟨rfl, hg⟩

/-- A row of a bottom-up solve with assertions enabled keeps the record guarded. -/
theorem backsolve_upperRow_ghost_guard {α : Type} [LinearOrderedField α]
    (opts : qpOptions_t α) (NI nx : Nat)
    (L : xn2x_matrix_t α) (kk ii : Nat) (sum0 : α) (s : backsolve_state α)
    (hs : guardPassed opts s) :
    outcome (guardPassed opts) (guardReturned opts)
      (backsolve_upperRow_ghost true opts NI nx L kk ii sum0 s) := by
  unfold backsolve_upperRow_ghost
  dsimp only
  exact backsolve_upperDivide_guard opts _ _ _ s hs

/-- A top-down sweep with assertions enabled keeps the record guarded. -/
theorem backsolve_lowerSweep_ghost_guard {α : Type} [LinearOrderedField α]
    (inftyBranch : Bool) (opts : qpOptions_t α) (NI nx : Nat)
    (L : xn2x_matrix_t α) (rhs : vector_t α → Nat → α) (s : backsolve_state α)
    (hs : guardPassed opts s) :
    outcome (guardPassed opts) (guardReturned opts)
      (loopExcept
        (fun s kk => loopExcept
          (fun s ii => backsolve_lowerRow_ghost true inftyBranch opts nx L kk ii
            (rhs s.res (kk * nx + ii)) s)
          (List.range nx) s)
        (List.range NI) s) :=
  loopExcept_inv
    (fun s kk => loopExcept
      (fun s ii => backsolve_lowerRow_ghost true inftyBranch opts nx L kk ii
        (rhs s.res (kk * nx + ii)) s)
      (List.range nx) s)
    (guardPassed opts) (guardReturned opts) (List.range NI)
    (fun s1 kk _ h1 => loopExcept_inv
      (fun s ii => backsolve_lowerRow_ghost true inftyBranch opts nx L kk ii
        (rhs s.res (kk * nx + ii)) s)
      (guardPassed opts) (guardReturned opts) (List.range nx)
      (fun s2 ii _ h2 => backsolve_lowerRow_ghost_guard inftyBranch opts nx L kk ii
        (rhs s2.res (kk * nx + ii)) s2 h2)
      s1 h1)
    s hs

/-- A bottom-up sweep with assertions enabled keeps the record guarded. -/
theorem backsolve_upperSweep_ghost_guard {α : Type} [LinearOrderedField α]
    (opts : qpOptions_t α) (NI nx : Nat)
    (L : xn2x_matrix_t α) (rhs : vector_t α → Nat → α) (s : backsolve_state α)
    (hs : guardPassed opts s) :
    outcome (guardPassed opts) (guardReturned opts)
      (loopExcept
        (fun s kk => loopExcept
          (fun s ii => backsolve_upperRow_ghost true opts NI nx L kk ii
            (rhs s.res (kk * nx + ii)) s)
          (List.range nx).reverse s)
        (List.range NI).reverse s) :=
  loopExcept_inv
    (fun s kk => loopExcept
      (fun s ii => backsolve_upperRow_ghost true opts NI nx L kk ii
        (rhs s.res (kk * nx + ii)) s)
      (List.range nx).reverse s)
    (guardPassed opts) (guardReturned opts) (List.range NI).reverse
    (fun s1 kk _ h1 => loopExcept_inv
      (fun s ii => backsolve_upperRow_ghost true opts NI nx L kk ii
        (rhs s.res (kk * nx + ii)) s)
      (guardPassed opts) (guardReturned opts) (List.range nx).reverse
      (fun s2 ii _ h2 => backsolve_upperRow_ghost_guard opts NI nx L kk ii
        (rhs s2.res (kk * nx + ii)) s2 h2)
      s1 h1)
    s hs

/-- What the guarded record of a finished back-substitution says. -/
theorem backsolve_ghostFinish_guard {α : Type} [LinearOrderedField α]
    (opts : qpOptions_t α) (r : backsolve_ghostStep α)
    (h : outcome (guardPassed opts) (guardReturned opts) r) :
    ((backsolve_ghostFinish r).1 = QPDUNES_OK
        ∨ (backsolve_ghostFinish r).1 = QPDUNES_ERR_DIVISION_BY_ZERO)
    ∧ (∀ p ∈ (backsolve_ghostFinish r).2.divs, ¬ guardHolds opts p)
    ∧ ((backsolve_ghostFinish r).1 = QPDUNES_ERR_DIVISION_BY_ZERO
        ↔ ∃ p ∈ (backsolve_ghostFinish r).2.checks, guardHolds opts p) := by
  cases r with
  | error e =>
    have h1 : guardReturned opts e := h
    exact ⟨Or.inr h1.1, h1.2.2, fun _ => h1.2.1, fun _ => h1.1⟩
  | ok s =>
    have h1 : guardPassed opts s := h
    refine ⟨Or.inl rfl, h1.2, ?_, ?_⟩
    · intro h2
      have h3 : QPDUNES_OK = QPDUNES_ERR_DIVISION_BY_ZERO := h2
      exact absurd h3 (by decide)
    · rintro ⟨p, hp, hg⟩
      exact absurd hg (h1.1 p hp)

/-- The loops of `qpDUNES_solveNewtonEquation` with assertions enabled keep the record
guarded. -/
theorem solveNewtonEquation_ghost_guard {α : Type} [LinearOrderedField α]
    (opts : qpOptions_t α) (NI nx : Nat) (res0 : vector_t α)
    (L : xn2x_matrix_t α) (g : vector_t α) :
    ((qpDUNES_solveNewtonEquation_ghost true opts NI nx res0 L g).1 = QPDUNES_OK
        ∨ (qpDUNES_solveNewtonEquation_ghost true opts NI nx res0 L g).1
          = QPDUNES_ERR_DIVISION_BY_ZERO)
    ∧ (∀ p ∈ (qpDUNES_solveNewtonEquation_ghost true opts NI nx res0 L g).2.divs,
        ¬ guardHolds opts p)
    ∧ ((qpDUNES_solveNewtonEquation_ghost true opts NI nx res0 L g).1
          = QPDUNES_ERR_DIVISION_BY_ZERO
        ↔ ∃ p ∈ (qpDUNES_solveNewtonEquation_ghost true opts NI nx res0 L g).2.checks,
            guardHolds opts p) := by
  unfold qpDUNES_solveNewtonEquation_ghost
  apply backsolve_ghostFinish_guard
  have h1 := backsolve_lowerSweep_ghost_guard true opts NI nx L (fun _ c => g c)
    ⟨res0, [], []⟩
    ⟨fun p hp => absurd hp (List.not_mem_nil p), fun p hp => absurd hp (List.not_mem_nil p)⟩
  simp only [] at h1
  cases hr : loopExcept
      (fun s kk => loopExcept
        (fun s ii => backsolve_lowerRow_ghost true true opts nx L kk ii
          (g (kk * nx + ii)) s)
        (List.range nx) s)
      (List.range NI) (⟨res0, [], []⟩ : backsolve_state α) with
  | error e =>
    rw [hr] at h1
    exact h1
  | ok s =>
    rw [hr] at h1
    exact backsolve_upperSweep_ghost_guard opts NI nx L (fun res c => res c) s h1

/-- The loops of `qpDUNES_solveNewtonEquationBottomUp` with assertions enabled keep the
record guarded. -/
theorem solveNewtonEquationBottomUp_ghost_guard {α : Type} [LinearOrderedField α]
    (opts : qpOptions_t α) (NI nx : Nat) (res0 : vector_t α)
    (L : xn2x_matrix_t α) (g : vector_t α) :
    ((qpDUNES_solveNewtonEquationBottomUp_ghost true opts NI nx res0 L g).1 = QPDUNES_OK
        ∨ (qpDUNES_solveNewtonEquationBottomUp_ghost true opts NI nx res0 L g).1
          = QPDUNES_ERR_DIVISION_BY_ZERO)
    ∧ (∀ p ∈ (qpDUNES_solveNewtonEquationBottomUp_ghost true opts NI nx res0 L g).2.divs,
        ¬ guardHolds opts p)
    ∧ ((qpDUNES_solveNewtonEquationBottomUp_ghost true opts NI nx res0 L g).1
          = QPDUNES_ERR_DIVISION_BY_ZERO
        ↔ ∃ p ∈ (qpDUNES_solveNewtonEquationBottomUp_ghost true opts NI nx res0 L
              g).2.checks,
            guardHolds opts p) := by
  unfold qpDUNES_solveNewtonEquationBottomUp_ghost
  apply backsolve_ghostFinish_guard
  have h1 := backsolve_upperSweep_ghost_guard opts NI nx L (fun _ c => g c)
    ⟨res0, [], []⟩
    ⟨fun p hp => absurd hp (List.not_mem_nil p), fun p hp => absurd hp (List.not_mem_nil p)⟩
  simp only [] at h1
  cases hr : loopExcept
      (fun s kk => loopExcept
        (fun s ii => backsolve_upperRow_ghost true opts NI nx L kk ii
          (g (kk * nx + ii)) s)
        (List.range nx).reverse s)
      (List.range NI).reverse (⟨res0, [], []⟩ : backsolve_state α) with
  | error e =>
    rw [hr] at h1
    exact h1
  | ok s =>
    rw [hr] at h1
    exact backsolve_lowerSweep_ghost_guard false opts NI nx L (fun res c => res c) s h1

theorem guardHolds_zero_pivot {α : Type} [LinearOrderedField α] (opts : qpOptions_t α)
    (hz : 0 < opts.QPDUNES_ZERO) (p : α × α) (hp : ¬ guardHolds opts p) (h0 : p.2 = 0) :
    p.1 = 0 := by
  unfold guardHolds at hp
  rw [h0, abs_zero, not_lt] at hp
  by_contra hne
  have h1 : 0 < |p.1| := abs_pos.2 hne
  have h2 : 0 < opts.QPDUNES_ZERO * |p.1| := mul_pos hz h1
  exact absurd hp (not_le.2 h2)

/-- C16 (as amended). Division guard in back-substitution: in both
`qpDUNES_solveNewtonEquation` and `qpDUNES_solveNewtonEquationBottomUp` with assertions
enabled, the routine returns `QPDUNES_OK` or `ERR_DIVISION_BY_ZERO`; it returns
`ERR_DIVISION_BY_ZERO` exactly when a row arrives at its division with
`|pivot| < QPDUNES_ZERO * |numerator|`; no division it executes has
`|pivot| < QPDUNES_ZERO * |numerator|`; and for `QPDUNES_ZERO > 0` every division it
executes by a zero pivot has the numerator `0`. -/
theorem solveNewtonEquation_division_guard {α : Type} [LinearOrderedField α]
    (opts : qpOptions_t α) (NI nx : Nat) (res0 : vector_t α)
    (L : xn2x_matrix_t α) (g : vector_t α) :
    (((qpDUNES_solveNewtonEquation true opts NI nx res0 L g).1 = QPDUNES_OK
        ∨ (qpDUNES_solveNewtonEquation true opts NI nx res0 L g).1
          = QPDUNES_ERR_DIVISION_BY_ZERO)
      ∧ ((qpDUNES_solveNewtonEquation true opts NI nx res0 L g).1
            = QPDUNES_ERR_DIVISION_BY_ZERO
          ↔ ∃ p ∈ (qpDUNES_solveNewtonEquation_ghost true opts NI nx res0 L g).2.checks,
              |p.2| < opts.QPDUNES_ZERO * |p.1|)
      ∧ (∀ p ∈ (qpDUNES_solveNewtonEquation_ghost true opts NI nx res0 L g).2.divs,
          ¬ |p.2| < opts.QPDUNES_ZERO * |p.1|)
      ∧ (0 < opts.QPDUNES_ZERO →
          ∀ p ∈ (qpDUNES_solveNewtonEquation_ghost true opts NI nx res0 L g).2.divs,
            p.2 = 0 → p.1 = 0))
    ∧ (((qpDUNES_solveNewtonEquationBottomUp true opts NI nx res0 L g).1 = QPDUNES_OK
        ∨ (qpDUNES_solveNewtonEquationBottomUp true opts NI nx res0 L g).1
          = QPDUNES_ERR_DIVISION_BY_ZERO)
      ∧ ((qpDUNES_solveNewtonEquationBottomUp true opts NI nx res0 L g).1
            = QPDUNES_ERR_DIVISION_BY_ZERO
          ↔ ∃ p ∈ (qpDUNES_solveNewtonEquationBottomUp_ghost true opts NI nx res0 L
                g).2.checks,
              |p.2| < opts.QPDUNES_ZERO * |p.1|)
      ∧ (∀ p ∈ (qpDUNES_solveNewtonEquationBottomUp_ghost true opts NI nx res0 L g).2.divs,
          ¬ |p.2| < opts.QPDUNES_ZERO * |p.1|)
      ∧ (0 < opts.QPDUNES_ZERO →
          ∀ p ∈ (qpDUNES_solveNewtonEquationBottomUp_ghost true opts NI nx res0 L
              g).2.divs,
            p.2 = 0 → p.1 = 0)) := by
  obtain ⟨a1, a2, a3⟩ := solveNewtonEquation_ghost_guard opts NI nx res0 L g
  obtain ⟨b1, b2, b3⟩ := solveNewtonEquationBottomUp_ghost_guard opts NI nx res0 L g
  rw [solveNewtonEquation_ghost_proj true opts NI nx res0 L g,
    solveNewtonEquationBottomUp_ghost_proj true opts NI nx res0 L g]
  exact ⟨⟨a1, a3, a2, fun hz p hp h0 => guardHolds_zero_pivot opts hz p (a2 p hp) h0⟩,
    ⟨b1, b3, b2, fun hz p hp h0 => guardHolds_zero_pivot opts hz p (b2 p hp) h0⟩⟩

/-- Counterexample to C16 as stated: the factor `(0)` (one block row, `nx = 1`), the
right-hand side `(0)`, assertions enabled and `QPDUNES_ZERO = 1/1000`. In the first row
the numerator is `0` and the pivot is `0`, the guard `|0| < QPDUNES_ZERO * |0|` does not
hold, and the division `0 / 0` is executed; both routines return `QPDUNES_OK`. -/
theorem solveNewtonEquation_division_guard_counterexample :
    ((qpDUNES_solveNewtonEquation true
        (exampleOptions ℝ regType_t.QPDUNES_REG_LEVENBERG_MARQUARDT
          nwtnHssnFacAlg_t.QPDUNES_NH_FAC_BAND_FORWARD)
        1 1 (fun _ => 0) (fun _ => 0) (fun _ => 0)).1 = QPDUNES_OK
      ∧ (qpDUNES_solveNewtonEquation_ghost true
        (exampleOptions ℝ regType_t.QPDUNES_REG_LEVENBERG_MARQUARDT
          nwtnHssnFacAlg_t.QPDUNES_NH_FAC_BAND_FORWARD)
        1 1 (fun _ => 0) (fun _ => 0) (fun _ => 0)).2.divs.head? = some (0, 0))
    ∧ ((qpDUNES_solveNewtonEquationBottomUp true
        (exampleOptions ℝ regType_t.QPDUNES_REG_LEVENBERG_MARQUARDT
          nwtnHssnFacAlg_t.QPDUNES_NH_FAC_BAND_REVERSE)
        1 1 (fun _ => 0) (fun _ => 0) (fun _ => 0)).1 = QPDUNES_OK
      ∧ (qpDUNES_solveNewtonEquationBottomUp_ghost true
        (exampleOptions ℝ regType_t.QPDUNES_REG_LEVENBERG_MARQUARDT
          nwtnHssnFacAlg_t.QPDUNES_NH_FAC_BAND_REVERSE)
        1 1 (fun _ => 0) (fun _ => 0) (fun _ => 0)).2.divs.head? = some (0, 0)) := by
  refine ⟨⟨?_, ?_⟩, ?_, ?_⟩
  · norm_num [qpDUNES_solveNewtonEquation, loopExcept, List.range_succ,
      backsolve_upperRow, backsolve_lowerRow, backsolve_finish, subLoop, exampleOptions,
      Function.update]
  · norm_num [qpDUNES_solveNewtonEquation_ghost, loopExcept, List.range_succ,
      backsolve_upperRow_ghost, backsolve_lowerRow_ghost, backsolve_ghostFinish, subLoop,
      exampleOptions, Function.update]
  · norm_num [qpDUNES_solveNewtonEquationBottomUp, loopExcept, List.range_succ,
      backsolve_upperRow, backsolve_lowerRow, backsolve_finish, subLoop, exampleOptions,
      Function.update]
  · norm_num [qpDUNES_solveNewtonEquationBottomUp_ghost, loopExcept, List.range_succ,
      backsolve_upperRow_ghost, backsolve_lowerRow_ghost, backsolve_ghostFinish, subLoop,
      exampleOptions, Function.update]

/-! ## Newton system setup: which blocks are written -/

theorem foldl_inv {σ : Type} (f : σ → Nat → σ) (P : σ → Prop) (l : List Nat)
    (h : ∀ s i, i ∈ l → P s → P (f s i)) (s0 : σ) (h0 : P s0) : P (l.foldl f s0) := by
  induction l generalizing s0 with
  | nil => exact h0
  | cons i l ih =>
    simp only [List.foldl_cons]
    exact ih (fun s j hj => h s j (List.mem_cons_of_mem i hj)) _
      (h s0 i (List.mem_cons_self i l) h0)

/-- The loop that writes a diagonal block changes only cells of that block. -/
theorem setupNewtonSystem_writeDiag_frame {α : Type} [LinearOrderedField α] (nx kk : Nat)
    (H : xn2x_matrix_t α) (xx : vector_t α) (x : Nat × Int × Nat × Nat)
    (hx : ∀ ii jj, ii < nx → jj < nx → x ≠ (kk, (0 : Int), ii, jj)) :
    (setupNewtonSystem_writeDiag nx kk H xx).1 x = H x := by
  unfold setupNewtonSystem_writeDiag
  apply foldl_inv _ (fun (st : xn2x_matrix_t α × vector_t α) => st.1 x = H x)
  · intro st ii hii h1
    apply foldl_inv _ (fun (st : xn2x_matrix_t α × vector_t α) => st.1 x = H x)
    · intro st2 jj hjj h2
      show Function.update st2.1 (kk, 0, ii, jj) _ x = H x
      rw [Function.update_noteq (hx ii jj (List.mem_range.1 hii) (List.mem_range.1 hjj))]
      exact h2
    · exact h1
  · rfl

/-- The loop that writes a sub-diagonal block of a qpOASES stage changes only cells of
that block. -/
theorem setupNewtonSystem_writeSubQpoases_frame {α : Type} [LinearOrderedField α]
    (nx kk : Nat) (H : xn2x_matrix_t α) (xx : vector_t α) (x : Nat × Int × Nat × Nat)
    (hx : ∀ ii jj, ii < nx → jj < nx → x ≠ (kk, (-1 : Int), ii, jj)) :
    setupNewtonSystem_writeSubQpoases nx kk H xx x = H x := by
  unfold setupNewtonSystem_writeSubQpoases
  apply foldl_inv _ (fun (M : xn2x_matrix_t α) => M x = H x)
  · intro M ii hii h1
    apply foldl_inv _ (fun (M : xn2x_matrix_t α) => M x = H x)
    · intro M2 jj hjj h2
      show Function.update M2 (kk, -1, ii, jj) _ x = H x
      rw [Function.update_noteq (hx ii jj (List.mem_range.1 hii) (List.mem_range.1 hjj))]
      exact h2
    · exact h1
  · rfl

/-- The loop that writes a sub-diagonal block of a clipping stage changes only cells of
that block. -/
theorem setupNewtonSystem_writeSubClipping_frame {α : Type} [LinearOrderedField α]
    (nx kk : Nat) (tol : α) (y : vector_t α) (H : xn2x_matrix_t α) (xx : vector_t α)
    (x : Nat × Int × Nat × Nat)
    (hx : ∀ ii jj, ii < nx → jj < nx → x ≠ (kk, (-1 : Int), ii, jj)) :
    setupNewtonSystem_writeSubClipping nx kk tol y H xx x = H x := by
  unfold setupNewtonSystem_writeSubClipping
  apply foldl_inv _ (fun (M : xn2x_matrix_t α) => M x = H x)
  · intro M ii hii h1
    apply foldl_inv _ (fun (M : xn2x_matrix_t α) => M x = H x)
    · intro M2 jj hjj h2
      have hne := hx ii jj (List.mem_range.1 hii) (List.mem_range.1 hjj)
      show (if y (2 * jj) ≤ tol ∧ y (2 * jj + 1) ≤ tol then
          Function.update M2 (kk, -1, ii, jj) (-xx (ii * nx + jj))
        else Function.update M2 (kk, -1, ii, jj) 0) x = H x
      split_ifs
      · rw [Function.update_noteq hne]
        exact h2
      · rw [Function.update_noteq hne]
        exact h2
    · exact h1
  · rfl

/-- The body of the diagonal-block loop: without a changed active set on stage `kk` or
`kk+1` it does nothing, and it changes only cells of the diagonal block `kk`. -/
theorem setupNewtonSystem_diagBlock_frame {α τ : Type} [LinearOrderedField α]
    (env : setup_env α τ) (stages : Nat → intervalNewton_t α) (kk : Nat)
    (s : setup_state α τ) :
    (¬ ((stages kk).actSetHasChanged = true ∨ (stages (kk + 1)).actSetHasChanged = true) →
      setupNewtonSystem_diagBlock env stages kk s = s)
    ∧ (∀ x, (∀ ii jj, ii < env.nx → jj < env.nx → x ≠ (kk, (0 : Int), ii, jj)) →
      (setupNewtonSystem_diagBlock env stages kk s).hessian x = s.hessian x) := by
  constructor
  · intro h
    unfold setupNewtonSystem_diagBlock
    rw [if_neg h]
  · intro x hx
    unfold setupNewtonSystem_diagBlock
    split_ifs
    all_goals first
      | rfl
      | exact setupNewtonSystem_writeDiag_frame env.nx kk s.hessian _ x hx

/-- The body of the sub-diagonal-block loop: without a changed active set on stage `kk`
it does nothing, and it changes only cells of the sub-diagonal block `kk`. -/
theorem setupNewtonSystem_subBlock_frame {α τ : Type} [LinearOrderedField α]
    (env : setup_env α τ) (stages : Nat → intervalNewton_t α) (kk : Nat)
    (s : setup_state α τ) :
    (¬ (stages kk).actSetHasChanged = true → setupNewtonSystem_subBlock env stages kk s = s)
    ∧ (∀ x, (∀ ii jj, ii < env.nx → jj < env.nx → x ≠ (kk, (-1 : Int), ii, jj)) →
      (setupNewtonSystem_subBlock env stages kk s).hessian x = s.hessian x) := by
  constructor
  · intro h
    unfold setupNewtonSystem_subBlock
    rw [if_neg h]
  · intro x hx
    unfold setupNewtonSystem_subBlock
    split_ifs
    · exact setupNewtonSystem_writeSubQpoases_frame env.nx kk s.hessian _ x hx
    · exact setupNewtonSystem_writeSubClipping_frame env.nx kk _ _ s.hessian _ x hx
    · rfl

/-- The cells of the Hessian that `qpDUNES_setupNewtonSystem` leaves alone: every cell
that is not in a diagonal block `k < NI` with a changed active set on stage `k` or
`k+1`, nor in a sub-diagonal block `1 <= k < NI` with a changed active set on stage
`k`. -/
theorem setupNewtonSystem_frame {α τ : Type} [LinearOrderedField α] (sqrt : α → α)
    (env : setup_env α τ) (intervals : Nat → interval_t α)
    (stages : Nat → intervalNewton_t α) (s : setup_state α τ) (x : Nat × Int × Nat × Nat)
    (hd : ∀ k i j, k < env.NI → i < env.nx → j < env.nx → x = (k, (0 : Int), i, j) →
      ¬ ((stages k).actSetHasChanged = true ∨ (stages (k + 1)).actSetHasChanged = true))
    (hs : ∀ k i j, 1 ≤ k → k < env.NI → i < env.nx → j < env.nx →
      x = (k, (-1 : Int), i, j) → ¬ (stages k).actSetHasChanged = true) :
    (qpDUNES_setupNewtonSystem sqrt env intervals stages s).2.hessian x = s.hessian x := by
  unfold qpDUNES_setupNewtonSystem
  dsimp only
  split_ifs
  · rfl
  · apply foldl_inv _ (fun (st : setup_state α τ) => st.hessian x = s.hessian x)
    · intro st kk hkk h1
      have hk := List.mem_range'_1.1 hkk
      by_cases hf : (stages kk).actSetHasChanged = true
      · rw [(setupNewtonSystem_subBlock_frame env stages kk st).2 x
          (fun ii jj hii hjj hx => hs kk ii jj hk.1 (by omega) hii hjj hx hf)]
        exact h1
      · rw [(setupNewtonSystem_subBlock_frame env stages kk st).1 hf]
        exact h1
    · apply foldl_inv _ (fun (st : setup_state α τ) => st.hessian x = s.hessian x)
      · intro st kk hkk h1
        have hk := List.mem_range.1 hkk
        by_cases hf : (stages kk).actSetHasChanged = true
            ∨ (stages (kk + 1)).actSetHasChanged = true
        · rw [(setupNewtonSystem_diagBlock_frame env stages kk st).2 x
            (fun ii jj hii hjj hx => hd kk ii jj hk hii hjj hx hf)]
          exact h1
        · rw [(setupNewtonSystem_diagBlock_frame env stages kk st).1 hf]
          exact h1
      · rfl

/-- C17. Block reuse: in `qpDUNES_setupNewtonSystem`, the diagonal block `k`
(`0 <= k < N`) of the Hessian keeps every entry unless `actSetHasChanged` is true on
stage `k` or stage `k+1`, and the sub-diagonal block `k` (`1 <= k < N`) keeps every
entry unless it is true on stage `k`; consequently, when `actSetHasChanged` is false on
every stage, running the setup once or twice in succession leaves the stored Hessian
entry-for-entry unchanged. -/
theorem setupNewtonSystem_blockReuse {α τ : Type} [LinearOrderedField α] (sqrt : α → α)
    (env : setup_env α τ) (intervals : Nat → interval_t α)
    (stages : Nat → intervalNewton_t α) (s : setup_state α τ) :
    (∀ k i j, k < env.NI →
      ¬ ((stages k).actSetHasChanged = true ∨ (stages (k + 1)).actSetHasChanged = true) →
      (qpDUNES_setupNewtonSystem sqrt env intervals stages s).2.hessian (k, 0, i, j)
        = s.hessian (k, 0, i, j))
    ∧ (∀ k i j, 1 ≤ k → k < env.NI → ¬ (stages k).actSetHasChanged = true →
      (qpDUNES_setupNewtonSystem sqrt env intervals stages s).2.hessian (k, -1, i, j)
        = s.hessian (k, -1, i, j))
    ∧ ((∀ k, k ≤ env.NI → (stages k).actSetHasChanged = false) →
      (qpDUNES_setupNewtonSystem sqrt env intervals stages s).2.hessian = s.hessian
      ∧ (qpDUNES_setupNewtonSystem sqrt env intervals stages
          (qpDUNES_setupNewtonSystem sqrt env intervals stages s).2).2.hessian
        = s.hessian) := by
  refine ⟨?_, ?_, ?_⟩
  · intro k i j _ hf
    apply setupNewtonSystem_frame
    · intro k2 i2 j2 _ _ _ hx
      simp only [Prod.mk.injEq] at hx
      rw [← hx.1]
      exact hf
    · intro k2 i2 j2 _ _ _ _ hx
      simp only [Prod.mk.injEq] at hx
      omega
  · intro k i j _ _ hf
    apply setupNewtonSystem_frame
    · intro k2 i2 j2 _ _ _ hx
      simp only [Prod.mk.injEq] at hx
      omega
    · intro k2 i2 j2 _ _ _ _ hx
      simp only [Prod.mk.injEq] at hx
      rw [← hx.1]
      exact hf
  · intro hall
    have hnone : ∀ (st : setup_state α τ),
        (qpDUNES_setupNewtonSystem sqrt env intervals stages st).2.hessian = st.hessian := by
      intro st
      funext x
      apply setupNewtonSystem_frame
      · intro k i j hk _ _ _ hf
        rcases hf with hf | hf
        · rw [hall k (by omega)] at hf
          exact absurd hf (by decide)
        · rw [hall (k + 1) (by omega)] at hf
          exact absurd hf (by decide)
      · intro k i j _ hk _ _ _ hf
        rw [hall k (by omega)] at hf
        exact absurd hf (by decide)
    exact ⟨hnone s, (hnone _).trans (hnone s)⟩

theorem vectorNorm_eq_sqrt_sum {α : Type} [LinearOrderedField α] (sqrt : α → α)
    (vec : vector_t α) (len : Nat) :
    vectorNorm sqrt vec len = sqrt (∑ ii in Finset.range len, vec ii * vec ii) := by
  unfold vectorNorm
  rw [foldl_add_eq_sum (fun ii => vec ii * vec ii) len 0, zero_add]

/-- C18. Stationarity exit of Newton setup: `qpDUNES_setupNewtonSystem` returns
`QPDUNES_SUCC_OPTIMAL_SOLUTION_FOUND` if and only if the Euclidean norm of the freshly
assembled gradient (the gradient `qpDUNES_computeNewtonGradient` writes, over its
`nx * NI` entries) is strictly below `stationarityTolerance`, and in that case it
modifies no entry of the Hessian, whatever the `actSetHasChanged` flags are; otherwise
it returns `QPDUNES_OK`. -/
theorem setupNewtonSystem_stationarity {α τ : Type} [LinearOrderedField α] (sqrt : α → α)
    (env : setup_env α τ) (intervals : Nat → interval_t α)
    (stages : Nat → intervalNewton_t α) (s : setup_state α τ) :
    ((qpDUNES_setupNewtonSystem sqrt env intervals stages s).1
        = QPDUNES_SUCC_OPTIMAL_SOLUTION_FOUND
      ↔ sqrt (∑ ii in Finset.range (env.nx * env.NI),
            (qpDUNES_computeNewtonGradient env.NI env.nx env.nz intervals s.gradient
                s.tmp.xVecTmp).gradient ii
              * (qpDUNES_computeNewtonGradient env.NI env.nx env.nz intervals s.gradient
                s.tmp.xVecTmp).gradient ii)
          < env.stationarityTolerance)
    ∧ ((qpDUNES_setupNewtonSystem sqrt env intervals stages s).1
        = QPDUNES_SUCC_OPTIMAL_SOLUTION_FOUND →
      (qpDUNES_setupNewtonSystem sqrt env intervals stages s).2.hessian = s.hessian)
    ∧ ((qpDUNES_setupNewtonSystem sqrt env intervals stages s).1
        ≠ QPDUNES_SUCC_OPTIMAL_SOLUTION_FOUND →
      (qpDUNES_setupNewtonSystem sqrt env intervals stages s).1 = QPDUNES_OK)
    ∧ (qpDUNES_setupNewtonSystem sqrt env intervals stages s).2.gradient
      = (qpDUNES_computeNewtonGradient env.NI env.nx env.nz intervals s.gradient
          s.tmp.xVecTmp).gradient := by
  rw [← vectorNorm_eq_sqrt_sum sqrt
    (qpDUNES_computeNewtonGradient env.NI env.nx env.nz intervals s.gradient
      s.tmp.xVecTmp).gradient (env.nx * env.NI)]
  unfold qpDUNES_setupNewtonSystem
  dsimp only
  by_cases h : vectorNorm sqrt
      (qpDUNES_computeNewtonGradient env.NI env.nx env.nz intervals s.gradient
        s.tmp.xVecTmp).gradient (env.nx * env.NI) < env.stationarityTolerance
  · rw [if_pos h]
    exact ⟨⟨fun _ => h, fun _ => rfl⟩, fun _ => rfl, fun hne => absurd rfl hne, rfl⟩
  · rw [if_neg h]
    have hne : ¬ (QPDUNES_OK = QPDUNES_SUCC_OPTIMAL_SOLUTION_FOUND) := by decide
    refine ⟨⟨fun h2 => ?_, fun h2 => absurd h2 h⟩, fun h2 => ?_, fun _ => rfl, ?_⟩
    · exact absurd h2 hne
    · exact absurd h2 hne
    · apply foldl_inv _ (fun (st : setup_state α τ) =>
        st.gradient = (qpDUNES_computeNewtonGradient env.NI env.nx env.nz intervals
          s.gradient s.tmp.xVecTmp).gradient)
      · intro st kk _ h1
        unfold setupNewtonSystem_subBlock
        split_ifs <;> exact h1
      · apply foldl_inv _ (fun (st : setup_state α τ) =>
          st.gradient = (qpDUNES_computeNewtonGradient env.NI env.nx env.nz intervals
            s.gradient s.tmp.xVecTmp).gradient)
        · intro st kk _ h1
          unfold setupNewtonSystem_diagBlock
          split_ifs <;> exact h1
        · rfl

/-! ## Step length: the minimum step and the full-step shortcut -/

/-- The loop over the stages takes every step when every stage has a defined stage
solver. -/
theorem determineStepLength_doSteps_ok {α σ : Type} [LinearOrderedField α]
    (env : ls_env α σ) (stages : Nat → intervalNewton_t α) (alpha : α) (qp : σ)
    (hsolver : ∀ k, k ≤ env.NI → (stages k).qpSolverSpecification ≠ unknownSolver) :
    ∃ qp1, determineStepLength_doSteps env stages alpha qp = .ok qp1 := by
  have h := loopExcept_inv
    (fun qp kk =>
      match (stages kk).qpSolverSpecification with
      | QPDUNES_STAGE_QP_SOLVER_CLIPPING =>
        (.ok (env.directQpSolver_doStep kk alpha qp) : Except (return_t × σ) σ)
      | QPDUNES_STAGE_QP_SOLVER_QPOASES => .ok (env.qpOASES_doStep kk alpha qp)
      | unknownSolver => .error (QPDUNES_ERR_UNKNOWN_ERROR, qp))
    (fun _ => True) (fun _ => False) (List.range (env.NI + 1))
    (by
      intro qp1 kk hkk _
      have hk : kk ≤ env.NI := by
        have := List.mem_range.1 hkk
        omega
      have hne := hsolver kk hk
      beta_reduce
      cases hs : (stages kk).qpSolverSpecification with
      | QPDUNES_STAGE_QP_SOLVER_CLIPPING => exact trivial
      | QPDUNES_STAGE_QP_SOLVER_QPOASES => exact trivial
      | unknownSolver => exact absurd hs hne)
    qp trivial
  unfold determineStepLength_doSteps
  cases hr : loopExcept
      (fun qp kk =>
        match (stages kk).qpSolverSpecification with
        | QPDUNES_STAGE_QP_SOLVER_CLIPPING =>
          (.ok (env.directQpSolver_doStep kk alpha qp) : Except (return_t × σ) σ)
        | QPDUNES_STAGE_QP_SOLVER_QPOASES => .ok (env.qpOASES_doStep kk alpha qp)
        | unknownSolver => .error (QPDUNES_ERR_UNKNOWN_ERROR, qp))
      (List.range (env.NI + 1)) qp with
  | error e =>
    rw [hr] at h
    exact h.elim
  | ok qp1 => exact ⟨qp1, rfl⟩

theorem addVectorScaledVector_apply {α : Type} [LinearOrderedField α] (res x : vector_t α)
    (a : α) (y : vector_t α) (len i : Nat) :
    addVectorScaledVector res x a y len i = if i < len then x i + a * y i else res i := by
  unfold addVectorScaledVector
  exact foldl_update_self (fun ii _ => x ii + a * y ii) res len i

/-- The stage loop of `qpDUNES_determineStepLength` can only fail with
`QPDUNES_ERR_UNKNOWN_ERROR`. -/
theorem determineStepLength_doSteps_error {α σ : Type} [LinearOrderedField α]
    (env : ls_env α σ) (stages : Nat → intervalNewton_t α) (alpha : α) (qp : σ)
    (e : return_t × σ) (h : determineStepLength_doSteps env stages alpha qp = .error e) :
    e.1 = QPDUNES_ERR_UNKNOWN_ERROR := by
  have h1 : outcome (fun _ : σ => True)
      (fun (e : return_t × σ) => e.1 = QPDUNES_ERR_UNKNOWN_ERROR)
      (determineStepLength_doSteps env stages alpha qp) := by
    unfold determineStepLength_doSteps
    refine loopExcept_inv _ _ _ _ ?_ qp trivial
    intro qp1 kk _ _
    beta_reduce
    cases (stages kk).qpSolverSpecification with
    | QPDUNES_STAGE_QP_SOLVER_CLIPPING => exact trivial
    | QPDUNES_STAGE_QP_SOLVER_QPOASES => exact trivial
    | unknownSolver => exact rfl
  rw [h] at h1
  exact h1

/-- The loop over the stages takes every step only when every stage has a defined stage
solver. -/
theorem determineStepLength_doSteps_solver {α σ : Type} [LinearOrderedField α]
    (env : ls_env α σ) (stages : Nat → intervalNewton_t α) (alpha : α) (qp qp1 : σ)
    (h : determineStepLength_doSteps env stages alpha qp = .ok qp1) :
    ∀ k, k ≤ env.NI → (stages k).qpSolverSpecification ≠ unknownSolver := by
  have h1 : outcome
      (fun _ : σ => ∀ k, k < env.NI + 1 → (stages k).qpSolverSpecification ≠ unknownSolver)
      (fun _ : return_t × σ => True)
      (determineStepLength_doSteps env stages alpha qp) := by
    unfold determineStepLength_doSteps
    refine loopExcept_range_inv _
      (fun n _ => ∀ k, k < n → (stages k).qpSolverSpecification ≠ unknownSolver)
      _ _ ?_ qp (fun k hk => absurd hk (Nat.not_lt_zero k))
    intro i _ qp2 hP
    beta_reduce
    cases hs : (stages i).qpSolverSpecification with
    | QPDUNES_STAGE_QP_SOLVER_CLIPPING =>
      intro k hk
      rcases Nat.lt_succ_iff_lt_or_eq.1 hk with h2 | h2
      · exact hP k h2
      · rw [h2, hs]
        decide
    | QPDUNES_STAGE_QP_SOLVER_QPOASES =>
      intro k hk
      rcases Nat.lt_succ_iff_lt_or_eq.1 hk with h2 | h2
      · exact hP k h2
      · rw [h2, hs]
        decide
    | unknownSolver => exact trivial
  rw [h] at h1
  exact fun k hk => h1 k (Nat.lt_succ_of_le hk)

/-- The full-step shortcut of `qpDUNES_determineStepLength` (dual_qp.c:1347-1379): the
step length, the counter and `lambda` are written before the loop over the stages; the
loop returns `QPDUNES_ERR_UNKNOWN_ERROR` at a stage without a defined solver
(dual_qp.c:1371-1374), and `QPDUNES_OK` is returned after the loop. -/
theorem determineStepLength_fullStep_spec {α σ : Type} [LinearOrderedField α]
    (env : ls_env α σ) (stages : Nat → intervalNewton_t α) (deltaLambdaFS : vector_t α)
    (newtonHessianRegularized : Bool) (s : ls_state α σ)
    (hmin : (determineStepLength_alphaMin env stages s.qp).1
      > 1 - env.opts.equalityTolerance)
    (hreg : newtonHessianRegularized = false) :
    (qpDUNES_determineStepLength env stages deltaLambdaFS newtonHessianRegularized
        s).2.alpha = 1
    ∧ (qpDUNES_determineStepLength env stages deltaLambdaFS newtonHessianRegularized
        s).2.itCntr = 0
    ∧ (∀ i, i < env.nx * env.NI →
      (qpDUNES_determineStepLength env stages deltaLambdaFS newtonHessianRegularized
          s).2.lambda i
        = s.lambda i + deltaLambdaFS i)
    ∧ (∀ i, env.nx * env.NI ≤ i →
      (qpDUNES_determineStepLength env stages deltaLambdaFS newtonHessianRegularized
          s).2.lambda i
        = s.lambda i)
    ∧ ((∀ k, k ≤ env.NI → (stages k).qpSolverSpecification ≠ unknownSolver) →
      (qpDUNES_determineStepLength env stages deltaLambdaFS newtonHessianRegularized s).1
        = QPDUNES_OK)
    ∧ ((∃ k, k ≤ env.NI ∧ (stages k).qpSolverSpecification = unknownSolver) →
      (qpDUNES_determineStepLength env stages deltaLambdaFS newtonHessianRegularized s).1
        = QPDUNES_ERR_UNKNOWN_ERROR) := by
  unfold qpDUNES_determineStepLength
  dsimp only
  rw [if_pos ⟨hmin, hreg⟩]
  cases hd : determineStepLength_doSteps env stages 1 s.qp with
  | error e =>
    dsimp only
    refine ⟨rfl, rfl, ?_, ?_, ?_, ?_⟩
    · intro i hi
      rw [addVectorScaledVector_apply, if_pos hi, one_mul]
    · intro i hi
      rw [addVectorScaledVector_apply, if_neg (by omega)]
    · intro hsolver
      obtain ⟨qp1, hq⟩ := determineStepLength_doSteps_ok env stages 1 s.qp hsolver
      rw [hq] at hd
      cases hd
    · intro _
      exact determineStepLength_doSteps_error env stages _ _ e hd
  | ok qp1 =>
    dsimp only
    refine ⟨rfl, rfl, ?_, ?_, fun _ => rfl, ?_⟩
    · intro i hi
      rw [addVectorScaledVector_apply, if_pos hi, one_mul]
    · intro i hi
      rw [addVectorScaledVector_apply, if_neg (by omega)]
    · rintro ⟨k, hk, hs⟩
      exact absurd hs (determineStepLength_doSteps_solver env stages 1 s.qp qp1 hd k hk)

/-- C19 (amended). Full-step shortcut: in `qpDUNES_determineStepLength`, if the minimum
active-set-change step `alphaMin` exceeds `1 - equalityTolerance` and the Hessian was not
regularized, then for every configured `lsType` (including invalid ones) the routine
sets `alpha = 1`, updates `lambda` to `lambda + deltaLambda` (on its `nx * NI` entries)
and performs zero line-search iterations; it returns `QPDUNES_OK` when every stage
`0..N` is on the Clipping or the qpOASES stage solver, and `QPDUNES_ERR_UNKNOWN_ERROR`
when some stage has no defined stage solver. -/
theorem determineStepLength_fullStep {α σ : Type} [LinearOrderedField α]
    (env : ls_env α σ) (stages : Nat → intervalNewton_t α) (deltaLambdaFS : vector_t α)
    (newtonHessianRegularized : Bool) (s : ls_state α σ)
    (hmin : (determineStepLength_alphaMin env stages s.qp).1
      > 1 - env.opts.equalityTolerance)
    (hreg : newtonHessianRegularized = false) :
    (qpDUNES_determineStepLength env stages deltaLambdaFS newtonHessianRegularized
        s).2.alpha = 1
    ∧ (qpDUNES_determineStepLength env stages deltaLambdaFS newtonHessianRegularized
        s).2.itCntr = 0
    ∧ (∀ i, i < env.nx * env.NI →
      (qpDUNES_determineStepLength env stages deltaLambdaFS newtonHessianRegularized
          s).2.lambda i
        = s.lambda i + deltaLambdaFS i)
    ∧ (∀ i, env.nx * env.NI ≤ i →
      (qpDUNES_determineStepLength env stages deltaLambdaFS newtonHessianRegularized
          s).2.lambda i
        = s.lambda i)
    ∧ ((∀ k, k ≤ env.NI → (stages k).qpSolverSpecification ≠ unknownSolver) →
      (qpDUNES_determineStepLength env stages deltaLambdaFS newtonHessianRegularized s).1
        = QPDUNES_OK)
    ∧ ((∃ k, k ≤ env.NI ∧ (stages k).qpSolverSpecification = unknownSolver) →
      (qpDUNES_determineStepLength env stages deltaLambdaFS newtonHessianRegularized s).1
        = QPDUNES_ERR_UNKNOWN_ERROR) :=
  determineStepLength_fullStep_spec env stages deltaLambdaFS newtonHessianRegularized s
    hmin hreg

theorem exampleLsEnv_alphaMin (lsType : lsType_t) (solver1 : qp_solver_t) :
    (determineStepLength_alphaMin (exampleLsEnv ℝ lsType)
        (exampleStages ℝ QPDUNES_STAGE_QP_SOLVER_CLIPPING solver1) ()).1 = 5 := by
  cases solver1 <;>
    norm_num [determineStepLength_alphaMin, exampleLsEnv, exampleStages, List.range_succ]

/-- Witness for C19: two Clipping stages with minimum step `5`,
`equalityTolerance = 1/1000` and an invalid `lsType`. -/
theorem determineStepLength_fullStep_witness :
    (determineStepLength_alphaMin (exampleLsEnv ℝ lsType_t.unknownLsType)
        (exampleStages ℝ QPDUNES_STAGE_QP_SOLVER_CLIPPING QPDUNES_STAGE_QP_SOLVER_CLIPPING)
        (exampleLsState ℝ).qp).1
      > 1 - (exampleLsEnv ℝ lsType_t.unknownLsType).opts.equalityTolerance
    ∧ (qpDUNES_determineStepLength (exampleLsEnv ℝ lsType_t.unknownLsType)
        (exampleStages ℝ QPDUNES_STAGE_QP_SOLVER_CLIPPING QPDUNES_STAGE_QP_SOLVER_CLIPPING)
        (fun _ => 3) false (exampleLsState ℝ)).1 = QPDUNES_OK
    ∧ (qpDUNES_determineStepLength (exampleLsEnv ℝ lsType_t.unknownLsType)
        (exampleStages ℝ QPDUNES_STAGE_QP_SOLVER_CLIPPING QPDUNES_STAGE_QP_SOLVER_CLIPPING)
        (fun _ => 3) false (exampleLsState ℝ)).2.itCntr = 0 :=
  ⟨by
      rw [show (exampleLsState ℝ).qp = () from rfl, exampleLsEnv_alphaMin]
      norm_num [exampleLsEnv],
    (determineStepLength_fullStep (exampleLsEnv ℝ lsType_t.unknownLsType)
      (exampleStages ℝ QPDUNES_STAGE_QP_SOLVER_CLIPPING QPDUNES_STAGE_QP_SOLVER_CLIPPING)
      (fun _ => 3) false (exampleLsState ℝ)
      (by
        rw [show (exampleLsState ℝ).qp = () from rfl, exampleLsEnv_alphaMin]
        norm_num [exampleLsEnv])
      rfl).2.2.2.2.1
      (by
        intro k _
        unfold exampleStages
        dsimp only
        split_ifs <;> decide),
    (determineStepLength_fullStep (exampleLsEnv ℝ lsType_t.unknownLsType)
      (exampleStages ℝ QPDUNES_STAGE_QP_SOLVER_CLIPPING QPDUNES_STAGE_QP_SOLVER_CLIPPING)
      (fun _ => 3) false (exampleLsState ℝ)
      (by
        rw [show (exampleLsState ℝ).qp = () from rfl, exampleLsEnv_alphaMin]
        norm_num [exampleLsEnv])
      rfl).2.1⟩

/-- C19 (counterexample). With the Clipping solver on stage `0` (minimum step `5`,
`equalityTolerance = 1/1000`), an undefined stage solver on stage `1` and a Hessian that
is not regularized, `qpDUNES_determineStepLength` takes the full-step shortcut, sets
`alpha = 1` and moves `lambda` from `2` to `5`, and returns
`QPDUNES_ERR_UNKNOWN_ERROR` instead of `QPDUNES_OK` (dual_qp.c:1371-1374). -/
theorem determineStepLength_fullStep_counterexample :
    (determineStepLength_alphaMin (exampleLsEnv ℝ QPDUNES_LS_BACKTRACKING_LS)
        (exampleStages ℝ QPDUNES_STAGE_QP_SOLVER_CLIPPING unknownSolver)
        (exampleLsState ℝ).qp).1
      > 1 - (exampleLsEnv ℝ QPDUNES_LS_BACKTRACKING_LS).opts.equalityTolerance
    ∧ (qpDUNES_determineStepLength (exampleLsEnv ℝ QPDUNES_LS_BACKTRACKING_LS)
        (exampleStages ℝ QPDUNES_STAGE_QP_SOLVER_CLIPPING unknownSolver)
        (fun _ => 3) false (exampleLsState ℝ)).1 = QPDUNES_ERR_UNKNOWN_ERROR
    ∧ (qpDUNES_determineStepLength (exampleLsEnv ℝ QPDUNES_LS_BACKTRACKING_LS)
        (exampleStages ℝ QPDUNES_STAGE_QP_SOLVER_CLIPPING unknownSolver)
        (fun _ => 3) false (exampleLsState ℝ)).1 ≠ QPDUNES_OK
    ∧ (qpDUNES_determineStepLength (exampleLsEnv ℝ QPDUNES_LS_BACKTRACKING_LS)
        (exampleStages ℝ QPDUNES_STAGE_QP_SOLVER_CLIPPING unknownSolver)
        (fun _ => 3) false (exampleLsState ℝ)).2.alpha = 1
    ∧ (qpDUNES_determineStepLength (exampleLsEnv ℝ QPDUNES_LS_BACKTRACKING_LS)
        (exampleStages ℝ QPDUNES_STAGE_QP_SOLVER_CLIPPING unknownSolver)
        (fun _ => 3) false (exampleLsState ℝ)).2.lambda 0 = 5 := by
  have hmin : (determineStepLength_alphaMin (exampleLsEnv ℝ QPDUNES_LS_BACKTRACKING_LS)
        (exampleStages ℝ QPDUNES_STAGE_QP_SOLVER_CLIPPING unknownSolver)
        (exampleLsState ℝ).qp).1
      > 1 - (exampleLsEnv ℝ QPDUNES_LS_BACKTRACKING_LS).opts.equalityTolerance := by
    rw [show (exampleLsState ℝ).qp = () from rfl, exampleLsEnv_alphaMin]
    norm_num [exampleLsEnv]
  obtain ⟨h1, _, h3, _, _, h6⟩ := determineStepLength_fullStep_spec
    (exampleLsEnv ℝ QPDUNES_LS_BACKTRACKING_LS)
    (exampleStages ℝ QPDUNES_STAGE_QP_SOLVER_CLIPPING unknownSolver)
    (fun _ => 3) false (exampleLsState ℝ) hmin rfl
  have hs : (qpDUNES_determineStepLength (exampleLsEnv ℝ QPDUNES_LS_BACKTRACKING_LS)
        (exampleStages ℝ QPDUNES_STAGE_QP_SOLVER_CLIPPING unknownSolver)
        (fun _ => 3) false (exampleLsState ℝ)).1 = QPDUNES_ERR_UNKNOWN_ERROR :=
    h6 ⟨1, le_refl _, by simp [exampleStages]⟩
  refine ⟨hmin, hs, ?_, h1, ?_⟩
  · rw [hs]
    decide
  · rw [h3 0 (by norm_num [exampleLsEnv])]
    norm_num [exampleLsState]

/-- The running minimum of the loop over the stages, when the stage routine reports the
minimum step `m k` for stage `k`: after the stages before `n`, `alphaMin` is at most
its initial value `a0` and at most the minimum step of every Clipping stage, and it is
one of these values. -/
theorem determineStepLength_alphaMin_loop {α σ : Type} [LinearOrderedField α]
    (env : ls_env α σ) (stages : Nat → intervalNewton_t α) (qp : σ) (m : Nat → α)
    (hget : ∀ k a, env.directQpSolver_getMinStepsize k qp a = m k) (a0 b0 : α) (n : Nat) :
    ((List.range n).foldl
        (fun (a : α × α) kk =>
          if (stages kk).qpSolverSpecification = QPDUNES_STAGE_QP_SOLVER_CLIPPING then
            if env.directQpSolver_getMinStepsize kk qp a.2 < a.1 then
              (env.directQpSolver_getMinStepsize kk qp a.2,
                env.directQpSolver_getMinStepsize kk qp a.2)
            else (a.1, env.directQpSolver_getMinStepsize kk qp a.2)
          else a)
        (a0, b0)).1 ≤ a0
    ∧ (∀ k, k < n →
        (stages k).qpSolverSpecification = QPDUNES_STAGE_QP_SOLVER_CLIPPING →
        ((List.range n).foldl
          (fun (a : α × α) kk =>
            if (stages kk).qpSolverSpecification = QPDUNES_STAGE_QP_SOLVER_CLIPPING then
              if env.directQpSolver_getMinStepsize kk qp a.2 < a.1 then
                (env.directQpSolver_getMinStepsize kk qp a.2,
                  env.directQpSolver_getMinStepsize kk qp a.2)
              else (a.1, env.directQpSolver_getMinStepsize kk qp a.2)
            else a)
          (a0, b0)).1 ≤ m k)
    ∧ (((List.range n).foldl
          (fun (a : α × α) kk =>
            if (stages kk).qpSolverSpecification = QPDUNES_STAGE_QP_SOLVER_CLIPPING then
              if env.directQpSolver_getMinStepsize kk qp a.2 < a.1 then
                (env.directQpSolver_getMinStepsize kk qp a.2,
                  env.directQpSolver_getMinStepsize kk qp a.2)
              else (a.1, env.directQpSolver_getMinStepsize kk qp a.2)
            else a)
          (a0, b0)).1 = a0
        ∨ ∃ k, k < n
            ∧ (stages k).qpSolverSpecification = QPDUNES_STAGE_QP_SOLVER_CLIPPING
            ∧ ((List.range n).foldl
                (fun (a : α × α) kk =>
                  if (stages kk).qpSolverSpecification
                      = QPDUNES_STAGE_QP_SOLVER_CLIPPING then
                    if env.directQpSolver_getMinStepsize kk qp a.2 < a.1 then
                      (env.directQpSolver_getMinStepsize kk qp a.2,
                        env.directQpSolver_getMinStepsize kk qp a.2)
                    else (a.1, env.directQpSolver_getMinStepsize kk qp a.2)
                  else a)
                (a0, b0)).1 = m k) := by
  simp only [hget]
  induction n with
  | zero =>
    refine ⟨le_rfl, ?_, Or.inl rfl⟩
    intro k hk
    omega
  | succ n ih =>
    obtain ⟨i1, i2, i3⟩ := ih
    simp only [List.range_succ, List.foldl_append, List.foldl_cons, List.foldl_nil]
    by_cases hc : (stages n).qpSolverSpecification = QPDUNES_STAGE_QP_SOLVER_CLIPPING
    · rw [if_pos hc]
      by_cases hlt : m n < ((List.range n).foldl
          (fun (a : α × α) kk =>
            if (stages kk).qpSolverSpecification = QPDUNES_STAGE_QP_SOLVER_CLIPPING then
              if m kk < a.1 then (m kk, m kk) else (a.1, m kk)
            else a)
          (a0, b0)).1
      · rw [if_pos hlt]
        refine ⟨le_trans (le_of_lt hlt) i1, ?_, Or.inr ⟨n, Nat.lt_succ_self n, hc, rfl⟩⟩
        intro k hk hck
        by_cases hkn : k = n
        · rw [hkn]
        · exact le_trans (le_of_lt hlt) (i2 k (by omega) hck)
      · rw [if_neg hlt]
        refine ⟨i1, ?_, ?_⟩
        · intro k hk hck
          by_cases hkn : k = n
          · rw [hkn]
            exact not_lt.1 hlt
          · exact i2 k (by omega) hck
        · rcases i3 with h | ⟨k, hk, hck, h⟩
          · exact Or.inl h
          · exact Or.inr ⟨k, by omega, hck, h⟩
    · rw [if_neg hc]
      refine ⟨i1, ?_, ?_⟩
      · intro k hk hck
        by_cases hkn : k = n
        · rw [hkn] at hck
          exact absurd hck hc
        · exact i2 k (by omega) hck
      · rcases i3 with h | ⟨k, hk, hck, h⟩
        · exact Or.inl h
        · exact Or.inr ⟨k, by omega, hck, h⟩

/-- C20 (as amended). Minimum step `alphaMin`: when `directQpSolver_getMinStepsize`
reports the step `m k` for stage `k`, the `alphaMin` computed at the start of
`qpDUNES_determineStepLength` is the minimum of an initial value and of the steps `m k`
of the Clipping stages `k <= NI`; the initial value is `QPDUNES_INFTY` when stage `0`
is a Clipping stage and `0` otherwise. In particular `alphaMin = 0` when no stage is a
Clipping stage, and when stage `0` is not one and no Clipping stage reports a negative
step. -/
theorem determineStepLength_alphaMin_spec {α σ : Type} [LinearOrderedField α]
    (env : ls_env α σ) (stages : Nat → intervalNewton_t α) (qp : σ) (m : Nat → α)
    (hget : ∀ k a, env.directQpSolver_getMinStepsize k qp a = m k) :
    (determineStepLength_alphaMin env stages qp).1
        ≤ (if (stages 0).qpSolverSpecification = QPDUNES_STAGE_QP_SOLVER_CLIPPING then
            env.opts.QPDUNES_INFTY else 0)
    ∧ (∀ k, k ≤ env.NI →
        (stages k).qpSolverSpecification = QPDUNES_STAGE_QP_SOLVER_CLIPPING →
        (determineStepLength_alphaMin env stages qp).1 ≤ m k)
    ∧ ((determineStepLength_alphaMin env stages qp).1
          = (if (stages 0).qpSolverSpecification = QPDUNES_STAGE_QP_SOLVER_CLIPPING then
              env.opts.QPDUNES_INFTY else 0)
        ∨ ∃ k, k ≤ env.NI
            ∧ (stages k).qpSolverSpecification = QPDUNES_STAGE_QP_SOLVER_CLIPPING
            ∧ (determineStepLength_alphaMin env stages qp).1 = m k)
    ∧ ((stages 0).qpSolverSpecification ≠ QPDUNES_STAGE_QP_SOLVER_CLIPPING →
        (∀ k, k ≤ env.NI →
          (stages k).qpSolverSpecification = QPDUNES_STAGE_QP_SOLVER_CLIPPING → 0 ≤ m k) →
        (determineStepLength_alphaMin env stages qp).1 = 0) := by
  obtain ⟨h1, h2, h3⟩ := determineStepLength_alphaMin_loop env stages qp m hget
    (if (stages 0).qpSolverSpecification = QPDUNES_STAGE_QP_SOLVER_CLIPPING then
      env.opts.QPDUNES_INFTY else 0)
    env.opts.QPDUNES_INFTY (env.NI + 1)
  have e : determineStepLength_alphaMin env stages qp
      = (List.range (env.NI + 1)).foldl
        (fun (a : α × α) kk =>
          if (stages kk).qpSolverSpecification = QPDUNES_STAGE_QP_SOLVER_CLIPPING then
            if env.directQpSolver_getMinStepsize kk qp a.2 < a.1 then
              (env.directQpSolver_getMinStepsize kk qp a.2,
                env.directQpSolver_getMinStepsize kk qp a.2)
            else (a.1, env.directQpSolver_getMinStepsize kk qp a.2)
          else a)
        ((if (stages 0).qpSolverSpecification = QPDUNES_STAGE_QP_SOLVER_CLIPPING then
            env.opts.QPDUNES_INFTY else 0), env.opts.QPDUNES_INFTY) := rfl
  rw [e]
  refine ⟨h1, fun k hk hc => h2 k (by omega) hc, ?_, ?_⟩
  · rcases h3 with h | ⟨k, hk, hc, h⟩
    · exact Or.inl h
    · exact Or.inr ⟨k, by omega, hc, h⟩
  · intro h0 hpos
    rw [if_neg h0] at h1 h3 ⊢
    rcases h3 with h | ⟨k, hk, hc, h⟩
    · exact h
    · apply le_antisymm h1
      rw [h]
      exact hpos k (by omega) hc

/-- Witness for C20 (as amended): two Clipping stages that report the minimum step
`5`, with `QPDUNES_INFTY = 1000`. -/
theorem determineStepLength_alphaMin_spec_witness :
    (∀ (k : Nat) (a : ℝ),
      (exampleLsEnv ℝ lsType_t.QPDUNES_LS_BACKTRACKING_LS).directQpSolver_getMinStepsize
        k () a = 5)
    ∧ ∀ k, k ≤ (exampleLsEnv ℝ lsType_t.QPDUNES_LS_BACKTRACKING_LS).NI →
        (exampleStages ℝ QPDUNES_STAGE_QP_SOLVER_CLIPPING QPDUNES_STAGE_QP_SOLVER_CLIPPING
          k).qpSolverSpecification = QPDUNES_STAGE_QP_SOLVER_CLIPPING →
        (determineStepLength_alphaMin (exampleLsEnv ℝ lsType_t.QPDUNES_LS_BACKTRACKING_LS)
          (exampleStages ℝ QPDUNES_STAGE_QP_SOLVER_CLIPPING
            QPDUNES_STAGE_QP_SOLVER_CLIPPING) ()).1 ≤ 5 :=
  ⟨fun _ _ => rfl,
    (determineStepLength_alphaMin_spec (exampleLsEnv ℝ lsType_t.QPDUNES_LS_BACKTRACKING_LS)
      (exampleStages ℝ QPDUNES_STAGE_QP_SOLVER_CLIPPING QPDUNES_STAGE_QP_SOLVER_CLIPPING)
      () (fun _ => 5) (fun _ _ => rfl)).2.1⟩

/-- Counterexample to C20 as stated. (i) Two stages that both use the General solver
(qpOASES), with `QPDUNES_INFTY = 1000`: no minimum step is computable, and `alphaMin`
is `0`, not `QPDUNES_INFTY`. (ii) Stage `0` on the General solver and stage `1` a
Clipping stage that reports the minimum step `5`: `alphaMin` is `0`, not the smallest
step `5` over the Clipping stages. -/
theorem determineStepLength_alphaMin_counterexample :
    ((determineStepLength_alphaMin (exampleLsEnv ℝ lsType_t.QPDUNES_LS_BACKTRACKING_LS)
        (exampleStages ℝ QPDUNES_STAGE_QP_SOLVER_QPOASES QPDUNES_STAGE_QP_SOLVER_QPOASES)
        ()).1 = 0
      ∧ (exampleLsEnv ℝ lsType_t.QPDUNES_LS_BACKTRACKING_LS).opts.QPDUNES_INFTY = 1000)
    ∧ ((determineStepLength_alphaMin (exampleLsEnv ℝ lsType_t.QPDUNES_LS_BACKTRACKING_LS)
        (exampleStages ℝ QPDUNES_STAGE_QP_SOLVER_QPOASES QPDUNES_STAGE_QP_SOLVER_CLIPPING)
        ()).1 = 0
      ∧ (exampleLsEnv ℝ lsType_t.QPDUNES_LS_BACKTRACKING_LS).directQpSolver_getMinStepsize
          1 () 1000 = 5) := by
  have hne : ¬ (QPDUNES_STAGE_QP_SOLVER_QPOASES = QPDUNES_STAGE_QP_SOLVER_CLIPPING) := by
    decide
  refine ⟨⟨?_, rfl⟩, ?_, rfl⟩
  · norm_num [determineStepLength_alphaMin, exampleLsEnv, exampleStages, List.range_succ,
      hne]
  · norm_num [determineStepLength_alphaMin, exampleLsEnv, exampleStages, List.range_succ,
      hne]

/-! ## The backtracking line search -/

/-- Trial `i + 1` of a search is trial `i` of the search that starts one reduction
later. -/
theorem backTracking_trialValue_succ {α ω : Type} [LinearOrderedField α]
    (env : lineSearch_env α ω) (stages : Nat → intervalNewton_t α) (i : Nat) (alpha : α)
    (qp : lsData α ω) :
    backTracking_trialValue env stages (i + 1) alpha qp
      = backTracking_trialValue env stages i (alpha * env.opts.lineSearchReductionFactor)
          (qpDUNES_computeParametricObjectiveValue env stages alpha qp).2 := by
  unfold backTracking_trialValue
  rw [pow_succ, ← mul_assoc, mul_comm (alpha * env.opts.lineSearchReductionFactor ^ i),
    ← mul_assoc, mul_comm env.opts.lineSearchReductionFactor alpha]
  rfl

/-- What the loop of the backtracking search leaves behind, by return code: `lambda` and
the incumbent are never written; on `QPDUNES_OK` the step length is the start value
reduced `j` times, `j` trials were rejected and trial `j` passed the progress test; on
the iteration cap every one of the `fuel` trials was rejected and the step length is the
start value reduced `fuel` times; on the minimum-step error the step length is
`alphaMin`. -/
theorem backTrackingLineSearch_loop_spec {α ω : Type} [LinearOrderedField α]
    (env : lineSearch_env α ω) (stages : Nat → intervalNewton_t α)
    (normDeltaLambda alphaMin objValIncumbent minimumProgress : α) (fuel : Nat) :
    ∀ s : ls_state α (lsData α ω),
      (backTrackingLineSearch_loop env stages normDeltaLambda alphaMin objValIncumbent
          minimumProgress fuel s).2.lambda = s.lambda
      ∧ (backTrackingLineSearch_loop env stages normDeltaLambda alphaMin objValIncumbent
          minimumProgress fuel s).2.objValIncumbent = s.objValIncumbent
      ∧ ((backTrackingLineSearch_loop env stages normDeltaLambda alphaMin objValIncumbent
            minimumProgress fuel s).1 = QPDUNES_OK →
          ∃ j, j < fuel
            ∧ (backTrackingLineSearch_loop env stages normDeltaLambda alphaMin
                objValIncumbent minimumProgress fuel s).2.alpha
              = s.alpha * env.opts.lineSearchReductionFactor ^ j
            ∧ (backTrackingLineSearch_loop env stages normDeltaLambda alphaMin
                objValIncumbent minimumProgress fuel s).2.itCntr = s.itCntr + j
            ∧ (backTrackingLineSearch_loop env stages normDeltaLambda alphaMin
                objValIncumbent minimumProgress fuel s).2.qp
              = backTracking_trialData env stages (j + 1) s.alpha s.qp
            ∧ backTracking_trialValue env stages j s.alpha s.qp
              > objValIncumbent + minimumProgress
            ∧ ∀ i, i < j → ¬ (backTracking_trialValue env stages i s.alpha s.qp
              > objValIncumbent + minimumProgress))
      ∧ ((backTrackingLineSearch_loop env stages normDeltaLambda alphaMin objValIncumbent
            minimumProgress fuel s).1
            = QPDUNES_ERR_NUMBER_OF_MAX_LINESEARCH_ITERATIONS_REACHED →
          (backTrackingLineSearch_loop env stages normDeltaLambda alphaMin
              objValIncumbent minimumProgress fuel s).2.alpha
            = s.alpha * env.opts.lineSearchReductionFactor ^ fuel
          ∧ (backTrackingLineSearch_loop env stages normDeltaLambda alphaMin
              objValIncumbent minimumProgress fuel s).2.itCntr = s.itCntr + fuel
          ∧ (backTrackingLineSearch_loop env stages normDeltaLambda alphaMin
              objValIncumbent minimumProgress fuel s).2.qp
            = backTracking_trialData env stages fuel s.alpha s.qp
          ∧ ∀ i, i < fuel → ¬ (backTracking_trialValue env stages i s.alpha s.qp
              > objValIncumbent + minimumProgress))
      ∧ ((backTrackingLineSearch_loop env stages normDeltaLambda alphaMin objValIncumbent
            minimumProgress fuel s).1 = QPDUNES_ERR_DECEEDED_MIN_LINESEARCH_STEPSIZE →
          (backTrackingLineSearch_loop env stages normDeltaLambda alphaMin
              objValIncumbent minimumProgress fuel s).2.alpha = alphaMin)
      ∧ ((backTrackingLineSearch_loop env stages normDeltaLambda alphaMin objValIncumbent
            minimumProgress fuel s).1 = QPDUNES_OK
          ∨ (backTrackingLineSearch_loop env stages normDeltaLambda alphaMin
              objValIncumbent minimumProgress fuel s).1
            = QPDUNES_ERR_NUMBER_OF_MAX_LINESEARCH_ITERATIONS_REACHED
          ∨ (backTrackingLineSearch_loop env stages normDeltaLambda alphaMin
              objValIncumbent minimumProgress fuel s).1
            = QPDUNES_ERR_DECEEDED_MIN_LINESEARCH_STEPSIZE) := by
  induction fuel with
  | zero =>
    intro s
    have hne : ¬ (QPDUNES_ERR_NUMBER_OF_MAX_LINESEARCH_ITERATIONS_REACHED = QPDUNES_OK) := by
      decide
    have hne2 : ¬ (QPDUNES_ERR_NUMBER_OF_MAX_LINESEARCH_ITERATIONS_REACHED
        = QPDUNES_ERR_DECEEDED_MIN_LINESEARCH_STEPSIZE) := by decide
    simp [backTrackingLineSearch_loop, backTracking_trialData, hne, hne2]
  | succ fuel ih =>
    intro s
    rw [backTrackingLineSearch_loop]
    dsimp only
    by_cases h1 : (qpDUNES_computeParametricObjectiveValue env stages s.alpha s.qp).1
        > objValIncumbent + minimumProgress
    · rw [if_pos h1]
      have hne : ¬ (QPDUNES_OK = QPDUNES_ERR_NUMBER_OF_MAX_LINESEARCH_ITERATIONS_REACHED) := by
        decide
      have hne2 : ¬ (QPDUNES_OK = QPDUNES_ERR_DECEEDED_MIN_LINESEARCH_STEPSIZE) := by decide
      refine ⟨rfl, rfl, ?_, ?_, ?_, Or.inl rfl⟩
      · intro _
        refine ⟨0, Nat.succ_pos _, by simp, rfl, rfl, ?_, ?_⟩
        · simpa [backTracking_trialValue, backTracking_trialData] using h1
        · intro i hi
          omega
      · intro h
        exact absurd h hne
      · intro h
        exact absurd h hne2
    · rw [if_neg h1]
      by_cases h2 : normDeltaLambda * (s.alpha * env.opts.lineSearchReductionFactor - alphaMin)
          < env.opts.equalityTolerance
      · rw [if_pos h2]
        have hne : ¬ (QPDUNES_ERR_DECEEDED_MIN_LINESEARCH_STEPSIZE = QPDUNES_OK) := by decide
        have hne2 : ¬ (QPDUNES_ERR_DECEEDED_MIN_LINESEARCH_STEPSIZE
            = QPDUNES_ERR_NUMBER_OF_MAX_LINESEARCH_ITERATIONS_REACHED) := by decide
        refine ⟨rfl, rfl, ?_, ?_, ?_, Or.inr (Or.inr rfl)⟩
        · intro h
          exact absurd h hne
        · intro h
          exact absurd h hne2
        · intro _
          rfl
      · rw [if_neg h2]
        obtain ⟨a1, a2, a3, a4, a5, a6⟩ := ih
          { lambda := s.lambda, alpha := s.alpha * env.opts.lineSearchReductionFactor,
            itCntr := s.itCntr + 1, objValIncumbent := s.objValIncumbent,
            qp := (qpDUNES_computeParametricObjectiveValue env stages s.alpha s.qp).2 }
        have hfirst : ¬ (backTracking_trialValue env stages 0 s.alpha s.qp
            > objValIncumbent + minimumProgress) := by
          simpa [backTracking_trialValue, backTracking_trialData] using h1
        refine ⟨a1, a2, ?_, ?_, a5, a6⟩
        · intro h
          obtain ⟨j, hj, b1, b2, b3, b4, b5⟩ := a3 h
          refine ⟨j + 1, by omega, ?_, ?_, ?_, ?_, ?_⟩
          · rw [b1, pow_succ]
            ring
          · rw [b2]
            dsimp only
            omega
          · rw [b3]
            rfl
          · rw [backTracking_trialValue_succ]
            exact b4
          · intro i hi
            cases i with
            | zero => exact hfirst
            | succ i =>
              rw [backTracking_trialValue_succ]
              exact b5 i (by omega)
        · intro h
          obtain ⟨b1, b2, b3, b4⟩ := a4 h
          refine ⟨?_, ?_, ?_, ?_⟩
          · rw [b1, pow_succ]
            ring
          · rw [b2]
            dsimp only
            omega
          · rw [b3]
            rfl
          · intro i hi
            cases i with
            | zero => exact hfirst
            | succ i =>
              rw [backTracking_trialValue_succ]
              exact b4 i (by omega)

/-- The dual value of the line-search examples at the step length `a` is `a - a^2`, and
the evaluation is recorded. -/
theorem exampleLineSearchEnv_trial (lsType : lsType_t) (minStep : ℝ)
    (maxIt maxRef nGrid : Nat) (a : ℝ) (l : List ℝ) :
    qpDUNES_computeParametricObjectiveValue
        (exampleLineSearchEnv ℝ Real.sqrt lsType minStep maxIt maxRef nGrid)
        (exampleStages ℝ QPDUNES_STAGE_QP_SOLVER_CLIPPING QPDUNES_STAGE_QP_SOLVER_CLIPPING)
        a (exampleLsData ℝ l)
      = (a - a ^ 2, exampleLsData ℝ (a :: l)) := by
  simp [qpDUNES_computeParametricObjectiveValue, exampleLineSearchEnv, exampleStages,
    exampleLsData, loopExcept, List.range_succ, scalarProd]

/-- The backtracking search of the examples with three iterations allowed: the trial at
`1` is rejected, the trial at `1/2` is accepted. -/
theorem exampleLineSearchEnv_backTracking (lsType : lsType_t) (minStep : ℝ)
    (maxRef nGrid : Nat) :
    qpDUNES_backTrackingLineSearch
        (exampleLineSearchEnv ℝ Real.sqrt lsType minStep 3 maxRef nGrid)
        (exampleStages ℝ QPDUNES_STAGE_QP_SOLVER_CLIPPING QPDUNES_STAGE_QP_SOLVER_CLIPPING)
        (fun _ => 1) 1 0 1 0 (exampleLineSearchState ℝ)
      = (QPDUNES_OK,
          { lambda := fun _ => 2, alpha := 1 / 2, itCntr := 1, objValIncumbent := 0,
            qp := exampleLsData ℝ [1 / 2, 1] }) := by
  have e1 : (exampleLineSearchEnv ℝ Real.sqrt lsType minStep 3 maxRef
      nGrid).lsOpts.maxNumLineSearchIterations = 3 := rfl
  simp only [qpDUNES_backTrackingLineSearch, exampleLineSearchState, e1,
    backTrackingLineSearch_loop, exampleLineSearchEnv_trial]
  norm_num [exampleLineSearchEnv, vectorNorm, List.range_succ]

/-- C21. Backtracking acceptance: whenever `qpDUNES_backTrackingLineSearch` returns
`QPDUNES_OK`, the returned step length is `alphaMax * lineSearchReductionFactor ^ j` for
the number `j` of rejected trials, `j < maxNumLineSearchIterations` (the counter, which
goes on from its value on entry, has advanced by `j` and is still below the cap), the
dual value evaluated at that step length is strictly greater than
`objValIncumbent + lineSearchMinRelProgress * |objValIncumbent| + lineSearchMinAbsProgress`,
and every earlier trial `alphaMax * lineSearchReductionFactor ^ i`, `i < j`, failed that
test. The dual value of a trial is what `qpDUNES_computeParametricObjectiveValue` returns
on the stage data left by the trials before it. -/
theorem backTrackingLineSearch_acceptance {α ω : Type} [LinearOrderedField α]
    (env : lineSearch_env α ω) (stages : Nat → intervalNewton_t α)
    (deltaLambdaFS : vector_t α) (nV : Nat) (alphaMin alphaMax objValIncumbent : α)
    (s : ls_state α (lsData α ω))
    (hok : (qpDUNES_backTrackingLineSearch env stages deltaLambdaFS nV alphaMin alphaMax
      objValIncumbent s).1 = QPDUNES_OK) :
    ∃ j, j < env.lsOpts.maxNumLineSearchIterations
      ∧ s.itCntr + j < env.lsOpts.maxNumLineSearchIterations
      ∧ (qpDUNES_backTrackingLineSearch env stages deltaLambdaFS nV alphaMin alphaMax
          objValIncumbent s).2.alpha = alphaMax * env.opts.lineSearchReductionFactor ^ j
      ∧ (qpDUNES_backTrackingLineSearch env stages deltaLambdaFS nV alphaMin alphaMax
          objValIncumbent s).2.itCntr = s.itCntr + j
      ∧ backTracking_trialValue env stages j alphaMax s.qp
        > objValIncumbent + env.lsOpts.lineSearchMinRelProgress * |objValIncumbent|
          + env.lsOpts.lineSearchMinAbsProgress
      ∧ (∀ i, i < j → ¬ (backTracking_trialValue env stages i alphaMax s.qp
        > objValIncumbent + env.lsOpts.lineSearchMinRelProgress * |objValIncumbent|
          + env.lsOpts.lineSearchMinAbsProgress))
      ∧ (qpDUNES_backTrackingLineSearch env stages deltaLambdaFS nV alphaMin alphaMax
          objValIncumbent s).2.qp = backTracking_trialData env stages (j + 1) alphaMax s.qp := by
  unfold qpDUNES_backTrackingLineSearch at hok ⊢
  dsimp only at hok ⊢
  obtain ⟨_, _, a3, _⟩ := backTrackingLineSearch_loop_spec env stages
    (vectorNorm env.sqrt deltaLambdaFS nV) alphaMin objValIncumbent
    (env.lsOpts.lineSearchMinRelProgress * |objValIncumbent|
      + env.lsOpts.lineSearchMinAbsProgress)
    (env.lsOpts.maxNumLineSearchIterations - s.itCntr)
    { lambda := s.lambda, alpha := alphaMax, itCntr := s.itCntr,
      objValIncumbent := s.objValIncumbent, qp := s.qp }
  obtain ⟨j, hj, b1, b2, b3, b4, b5⟩ := a3 hok
  refine ⟨j, by omega, by omega, b1, b2, ?_, ?_, b3⟩
  · rw [add_assoc]
    exact b4
  · intro i hi
    rw [add_assoc]
    exact b5 i hi

/-- Witness for C21: in the example the trial at `1` is rejected and the trial at `1/2`
is accepted. -/
theorem backTrackingLineSearch_acceptance_witness :
    (qpDUNES_backTrackingLineSearch
        (exampleLineSearchEnv ℝ Real.sqrt QPDUNES_LS_BACKTRACKING_LS (1 / 4) 3 3 3)
        (exampleStages ℝ QPDUNES_STAGE_QP_SOLVER_CLIPPING QPDUNES_STAGE_QP_SOLVER_CLIPPING)
        (fun _ => 1) 1 0 1 0 (exampleLineSearchState ℝ)).1 = QPDUNES_OK
    ∧ ∃ j, j < 3
      ∧ (qpDUNES_backTrackingLineSearch
          (exampleLineSearchEnv ℝ Real.sqrt QPDUNES_LS_BACKTRACKING_LS (1 / 4) 3 3 3)
          (exampleStages ℝ QPDUNES_STAGE_QP_SOLVER_CLIPPING QPDUNES_STAGE_QP_SOLVER_CLIPPING)
          (fun _ => 1) 1 0 1 0 (exampleLineSearchState ℝ)).2.alpha = 1 * (1 / 2) ^ j :=
  have h : (qpDUNES_backTrackingLineSearch
      (exampleLineSearchEnv ℝ Real.sqrt QPDUNES_LS_BACKTRACKING_LS (1 / 4) 3 3 3)
      (exampleStages ℝ QPDUNES_STAGE_QP_SOLVER_CLIPPING QPDUNES_STAGE_QP_SOLVER_CLIPPING)
      (fun _ => 1) 1 0 1 0 (exampleLineSearchState ℝ)).1 = QPDUNES_OK := by
    rw [exampleLineSearchEnv_backTracking]
  ⟨h, (backTrackingLineSearch_acceptance _ _ _ _ _ _ _ _ h).imp
    (fun _ hj => ⟨hj.1, hj.2.2.1⟩)⟩

/-! ## Step length: what follows the line search -/

theorem addScaledVector_apply {α : Type} [LinearOrderedField α] (res : vector_t α)
    (a : α) (u : vector_t α) (len i : Nat) :
    addScaledVector res a u len i = if i < len then res i + a * u i else res i := by
  unfold addScaledVector
  exact foldl_update_self (fun ii r => r + a * u ii) res len i

/-- When the full-step shortcut is not taken and the line search goes on to "UPDATE
VARIABLES" with the status `st` and the state `s1`, `qpDUNES_determineStepLength`
keeps the step length and the counter of `s1`, adds `alpha * deltaLambdaFS` onto the
first `nx * NI` entries of `lambda`, and returns `st` unless a stage has no known
solver. -/
theorem determineStepLength_of_lineSearch_ok {α σ : Type} [LinearOrderedField α]
    (env : ls_env α σ) (stages : Nat → intervalNewton_t α) (deltaLambdaFS : vector_t α)
    (newtonHessianRegularized : Bool) (s : ls_state α σ) (st : return_t)
    (s1 : ls_state α σ)
    (hshort : ¬ ((determineStepLength_alphaMin env stages s.qp).1
      > 1 - env.opts.equalityTolerance ∧ newtonHessianRegularized = false))
    (hls : determineStepLength_lineSearch env deltaLambdaFS
      (determineStepLength_alphaMin env stages s.qp).1 1 { s with itCntr := 0 }
        = .ok (st, s1)) :
    (qpDUNES_determineStepLength env stages deltaLambdaFS newtonHessianRegularized
        s).2.alpha = s1.alpha
    ∧ (qpDUNES_determineStepLength env stages deltaLambdaFS newtonHessianRegularized
        s).2.itCntr = s1.itCntr
    ∧ (∀ i, (qpDUNES_determineStepLength env stages deltaLambdaFS newtonHessianRegularized
        s).2.lambda i
        = if i < env.nx * env.NI then s1.lambda i + s1.alpha * deltaLambdaFS i
          else s1.lambda i)
    ∧ ((qpDUNES_determineStepLength env stages deltaLambdaFS newtonHessianRegularized
          s).1 = st
        ∨ (qpDUNES_determineStepLength env stages deltaLambdaFS newtonHessianRegularized
          s).1 = QPDUNES_ERR_UNKNOWN_ERROR)
    ∧ ((∀ k, k ≤ env.NI → (stages k).qpSolverSpecification ≠ unknownSolver) →
        (qpDUNES_determineStepLength env stages deltaLambdaFS newtonHessianRegularized
          s).1 = st
        ∧ (qpDUNES_determineStepLength env stages deltaLambdaFS newtonHessianRegularized
            s).2.objValIncumbent
          = env.qpDUNES_computeObjectiveValue
              (qpDUNES_determineStepLength env stages deltaLambdaFS
                newtonHessianRegularized s).2.qp) := by
  unfold qpDUNES_determineStepLength
  dsimp only
  rw [if_neg hshort, hls]
  dsimp only
  cases hd : determineStepLength_doSteps env stages s1.alpha s1.qp with
  | error e =>
    dsimp only
    refine ⟨rfl, rfl, fun i => addScaledVector_apply _ _ _ _ _, Or.inr ?_, ?_⟩
    · exact determineStepLength_doSteps_error env stages _ _ e hd
    · intro hsolver
      obtain ⟨qp1, hq⟩ := determineStepLength_doSteps_ok env stages s1.alpha s1.qp hsolver
      rw [hq] at hd
      cases hd
  | ok qp =>
    dsimp only
    exact ⟨rfl, rfl, fun i => addScaledVector_apply _ _ _ _ _, Or.inl rfl,
      fun _ => ⟨rfl, rfl⟩⟩

/-- When the full-step shortcut is not taken and the line search returns inside the
switch, `qpDUNES_determineStepLength` returns what the line search left. -/
theorem determineStepLength_of_lineSearch_error {α σ : Type} [LinearOrderedField α]
    (env : ls_env α σ) (stages : Nat → intervalNewton_t α) (deltaLambdaFS : vector_t α)
    (newtonHessianRegularized : Bool) (s : ls_state α σ) (r : return_t × ls_state α σ)
    (hshort : ¬ ((determineStepLength_alphaMin env stages s.qp).1
      > 1 - env.opts.equalityTolerance ∧ newtonHessianRegularized = false))
    (hls : determineStepLength_lineSearch env deltaLambdaFS
      (determineStepLength_alphaMin env stages s.qp).1 1 { s with itCntr := 0 }
        = .error r) :
    qpDUNES_determineStepLength env stages deltaLambdaFS newtonHessianRegularized s = r := by
  unfold qpDUNES_determineStepLength
  dsimp only
  rw [if_neg hshort, hls]

/-! ## Backtracking inside `qpDUNES_determineStepLength` -/

/-- The switch of `qpDUNES_determineStepLength` for `QPDUNES_LS_BACKTRACKING_LS`. -/
theorem determineStepLength_lineSearch_backTracking {α ω : Type} [LinearOrderedField α]
    (env : lineSearch_env α ω) (stages : Nat → intervalNewton_t α)
    (deltaLambdaFS : vector_t α) (alphaMin alphaMax : α) (s : ls_state α (lsData α ω))
    (hls : env.opts.lsType = QPDUNES_LS_BACKTRACKING_LS) :
    determineStepLength_lineSearch (lineSearch_lsEnv env stages) deltaLambdaFS alphaMin
        alphaMax s
      = if (qpDUNES_backTrackingLineSearch env stages deltaLambdaFS (env.nx * env.NI) 0
            alphaMax s.objValIncumbent s).1 = QPDUNES_ERR_DECEEDED_MIN_LINESEARCH_STEPSIZE
        then .error (qpDUNES_backTrackingLineSearch env stages deltaLambdaFS
          (env.nx * env.NI) 0 alphaMax s.objValIncumbent s)
        else .ok (qpDUNES_backTrackingLineSearch env stages deltaLambdaFS
          (env.nx * env.NI) 0 alphaMax s.objValIncumbent s) := by
  have h : (lineSearch_lsEnv env stages).opts.lsType = QPDUNES_LS_BACKTRACKING_LS := hls
  unfold determineStepLength_lineSearch
  rw [h]
  rfl

/-- The minimum step of the line-search examples with two Clipping stages. -/
theorem exampleLineSearchEnv_alphaMin (lsType : lsType_t) (minStep : ℝ)
    (maxIt maxRef nGrid : Nat) (qp : lsData ℝ (List ℝ)) (h : minStep < 1000) :
    (determineStepLength_alphaMin
        (lineSearch_lsEnv (exampleLineSearchEnv ℝ Real.sqrt lsType minStep maxIt maxRef nGrid)
          (exampleStages ℝ QPDUNES_STAGE_QP_SOLVER_CLIPPING QPDUNES_STAGE_QP_SOLVER_CLIPPING))
        (exampleStages ℝ QPDUNES_STAGE_QP_SOLVER_CLIPPING QPDUNES_STAGE_QP_SOLVER_CLIPPING)
        qp).1 = minStep := by
  simp [determineStepLength_alphaMin, lineSearch_lsEnv, exampleLineSearchEnv, exampleStages,
    List.range_succ, h]

/-- The backtracking search of the examples with one iteration allowed: the trial at `1`
is rejected, the step length is reduced to `1/2`, and the search stops at the cap. -/
theorem exampleLineSearchEnv_backTracking_cap (lsType : lsType_t) (minStep : ℝ)
    (maxRef nGrid : Nat) :
    qpDUNES_backTrackingLineSearch
        (exampleLineSearchEnv ℝ Real.sqrt lsType minStep 1 maxRef nGrid)
        (exampleStages ℝ QPDUNES_STAGE_QP_SOLVER_CLIPPING QPDUNES_STAGE_QP_SOLVER_CLIPPING)
        (fun _ => 1) 1 0 1 0 (exampleLineSearchState ℝ)
      = (QPDUNES_ERR_NUMBER_OF_MAX_LINESEARCH_ITERATIONS_REACHED,
          { lambda := fun _ => 2, alpha := 1 / 2, itCntr := 1, objValIncumbent := 0,
            qp := exampleLsData ℝ [1] }) := by
  have e1 : (exampleLineSearchEnv ℝ Real.sqrt lsType minStep 1 maxRef
      nGrid).lsOpts.maxNumLineSearchIterations = 1 := rfl
  simp only [qpDUNES_backTrackingLineSearch, exampleLineSearchState, e1,
    backTrackingLineSearch_loop, exampleLineSearchEnv_trial]
  norm_num [exampleLineSearchEnv, vectorNorm, List.range_succ]

/-- The stage loop of the examples leaves the data alone. -/
theorem exampleLineSearchEnv_doSteps (lsType : lsType_t) (minStep : ℝ)
    (maxIt maxRef nGrid : Nat) (a : ℝ) (qp : lsData ℝ (List ℝ)) :
    determineStepLength_doSteps
        (lineSearch_lsEnv (exampleLineSearchEnv ℝ Real.sqrt lsType minStep maxIt maxRef nGrid)
          (exampleStages ℝ QPDUNES_STAGE_QP_SOLVER_CLIPPING QPDUNES_STAGE_QP_SOLVER_CLIPPING))
        (exampleStages ℝ QPDUNES_STAGE_QP_SOLVER_CLIPPING QPDUNES_STAGE_QP_SOLVER_CLIPPING)
        a qp = .ok qp := by
  simp [determineStepLength_doSteps, lineSearch_lsEnv, exampleLineSearchEnv, exampleStages,
    loopExcept, List.range_succ]

/-- The objective value of the example data is `0`. -/
theorem exampleLineSearchEnv_objective (lsType : lsType_t) (minStep : ℝ)
    (maxIt maxRef nGrid : Nat) (l : List ℝ) :
    qpDUNES_computeObjectiveValue
        (exampleLineSearchEnv ℝ Real.sqrt lsType minStep maxIt maxRef nGrid)
        (exampleLsData ℝ l) = 0 := by
  simp [qpDUNES_computeObjectiveValue, exampleLineSearchEnv, exampleLsData, scalarProd,
    List.range_succ]

/-- The step-length routine on the example with `QPDUNES_LS_BACKTRACKING_LS`, the minimum
step `1/4` and one line-search iteration allowed. -/
theorem exampleLineSearchEnv_determineStepLength_cap :
    qpDUNES_determineStepLength
        (lineSearch_lsEnv
          (exampleLineSearchEnv ℝ Real.sqrt QPDUNES_LS_BACKTRACKING_LS (1 / 4) 1 1 2)
          (exampleStages ℝ QPDUNES_STAGE_QP_SOLVER_CLIPPING QPDUNES_STAGE_QP_SOLVER_CLIPPING))
        (exampleStages ℝ QPDUNES_STAGE_QP_SOLVER_CLIPPING QPDUNES_STAGE_QP_SOLVER_CLIPPING)
        (fun _ => 1) false (exampleLineSearchState ℝ)
      = (QPDUNES_ERR_NUMBER_OF_MAX_LINESEARCH_ITERATIONS_REACHED,
          { lambda := addScaledVector (fun _ => 2) (1 / 2) (fun _ => 1) 1, alpha := 1 / 2,
            itCntr := 1, objValIncumbent := 0, qp := exampleLsData ℝ [1] }) := by
  have hne : ¬ (QPDUNES_ERR_NUMBER_OF_MAX_LINESEARCH_ITERATIONS_REACHED
      = QPDUNES_ERR_DECEEDED_MIN_LINESEARCH_STEPSIZE) := by decide
  have hmin := exampleLineSearchEnv_alphaMin QPDUNES_LS_BACKTRACKING_LS (1 / 4) 1 1 2
    (exampleLsData ℝ []) (by norm_num)
  have hbt := exampleLineSearchEnv_backTracking_cap QPDUNES_LS_BACKTRACKING_LS (1 / 4) 1 2
  have hshort : ¬ ((1 / 4 : ℝ) > 1 - 1 / 1000 ∧ True) := by norm_num
  unfold qpDUNES_determineStepLength
  simp only [exampleLineSearchState] at hbt hmin ⊢
  rw [hmin]
  have e1 : (lineSearch_lsEnv
      (exampleLineSearchEnv ℝ Real.sqrt QPDUNES_LS_BACKTRACKING_LS (1 / 4) 1 1 2)
      (exampleStages ℝ QPDUNES_STAGE_QP_SOLVER_CLIPPING
        QPDUNES_STAGE_QP_SOLVER_CLIPPING)).opts.equalityTolerance = 1 / 1000 := rfl
  rw [e1, if_neg hshort, determineStepLength_lineSearch_backTracking _ _ _ _ _ _ rfl]
  have e2 : (exampleLineSearchEnv ℝ Real.sqrt QPDUNES_LS_BACKTRACKING_LS (1 / 4) 1 1 2).nx
      * (exampleLineSearchEnv ℝ Real.sqrt QPDUNES_LS_BACKTRACKING_LS (1 / 4) 1 1 2).NI
      = 1 := rfl
  have e3 : (lineSearch_lsEnv
      (exampleLineSearchEnv ℝ Real.sqrt QPDUNES_LS_BACKTRACKING_LS (1 / 4) 1 1 2)
      (exampleStages ℝ QPDUNES_STAGE_QP_SOLVER_CLIPPING
        QPDUNES_STAGE_QP_SOLVER_CLIPPING)).nx
      * (lineSearch_lsEnv
      (exampleLineSearchEnv ℝ Real.sqrt QPDUNES_LS_BACKTRACKING_LS (1 / 4) 1 1 2)
      (exampleStages ℝ QPDUNES_STAGE_QP_SOLVER_CLIPPING
        QPDUNES_STAGE_QP_SOLVER_CLIPPING)).NI = 1 := rfl
  have e4 : ∀ qp, (lineSearch_lsEnv
      (exampleLineSearchEnv ℝ Real.sqrt QPDUNES_LS_BACKTRACKING_LS (1 / 4) 1 1 2)
      (exampleStages ℝ QPDUNES_STAGE_QP_SOLVER_CLIPPING
        QPDUNES_STAGE_QP_SOLVER_CLIPPING)).qpDUNES_computeObjectiveValue qp
      = qpDUNES_computeObjectiveValue
        (exampleLineSearchEnv ℝ Real.sqrt QPDUNES_LS_BACKTRACKING_LS (1 / 4) 1 1 2) qp :=
    fun _ => rfl
  simp only [e2, e3, e4, hbt, hne, if_false, exampleLineSearchEnv_doSteps,
    exampleLineSearchEnv_objective]

/-- C22 (counterexample). With `QPDUNES_LS_BACKTRACKING_LS` and one line-search iteration
allowed, the example search evaluates the dual value at the step length `1` only (the
record of the evaluations is `[1]`), rejects it and stops at the iteration cap; the step
length that `qpDUNES_determineStepLength` returns and by which it advances `lambda`
(from `2` to `2 + 1/2 * 1`) is `1/2`, a step length at which the dual value was never
evaluated. -/
theorem determineStepLength_backTracking_cap_counterexample :
    (qpDUNES_determineStepLength
        (lineSearch_lsEnv
          (exampleLineSearchEnv ℝ Real.sqrt QPDUNES_LS_BACKTRACKING_LS (1 / 4) 1 1 2)
          (exampleStages ℝ QPDUNES_STAGE_QP_SOLVER_CLIPPING QPDUNES_STAGE_QP_SOLVER_CLIPPING))
        (exampleStages ℝ QPDUNES_STAGE_QP_SOLVER_CLIPPING QPDUNES_STAGE_QP_SOLVER_CLIPPING)
        (fun _ => 1) false (exampleLineSearchState ℝ)).1
      = QPDUNES_ERR_NUMBER_OF_MAX_LINESEARCH_ITERATIONS_REACHED
    ∧ (qpDUNES_determineStepLength
        (lineSearch_lsEnv
          (exampleLineSearchEnv ℝ Real.sqrt QPDUNES_LS_BACKTRACKING_LS (1 / 4) 1 1 2)
          (exampleStages ℝ QPDUNES_STAGE_QP_SOLVER_CLIPPING QPDUNES_STAGE_QP_SOLVER_CLIPPING))
        (exampleStages ℝ QPDUNES_STAGE_QP_SOLVER_CLIPPING QPDUNES_STAGE_QP_SOLVER_CLIPPING)
        (fun _ => 1) false (exampleLineSearchState ℝ)).2.alpha = 1 / 2
    ∧ (qpDUNES_determineStepLength
        (lineSearch_lsEnv
          (exampleLineSearchEnv ℝ Real.sqrt QPDUNES_LS_BACKTRACKING_LS (1 / 4) 1 1 2)
          (exampleStages ℝ QPDUNES_STAGE_QP_SOLVER_CLIPPING QPDUNES_STAGE_QP_SOLVER_CLIPPING))
        (exampleStages ℝ QPDUNES_STAGE_QP_SOLVER_CLIPPING QPDUNES_STAGE_QP_SOLVER_CLIPPING)
        (fun _ => 1) false (exampleLineSearchState ℝ)).2.lambda 0 = 2 + 1 / 2 * 1
    ∧ (qpDUNES_determineStepLength
        (lineSearch_lsEnv
          (exampleLineSearchEnv ℝ Real.sqrt QPDUNES_LS_BACKTRACKING_LS (1 / 4) 1 1 2)
          (exampleStages ℝ QPDUNES_STAGE_QP_SOLVER_CLIPPING QPDUNES_STAGE_QP_SOLVER_CLIPPING))
        (exampleStages ℝ QPDUNES_STAGE_QP_SOLVER_CLIPPING QPDUNES_STAGE_QP_SOLVER_CLIPPING)
        (fun _ => 1) false (exampleLineSearchState ℝ)).2.qp.other = [1]
    ∧ (1 / 2 : ℝ) ∉ [(1 : ℝ)] := by
  rw [exampleLineSearchEnv_determineStepLength_cap]
  refine ⟨rfl, rfl, ?_, rfl, by norm_num⟩
  show addScaledVector (fun _ => (2 : ℝ)) (1 / 2) (fun _ => 1) 1 0 = 2 + 1 / 2 * 1
  rw [addScaledVector_apply]
  norm_num

/-- C22 (amended). With `lsType = QPDUNES_LS_BACKTRACKING_LS` and no full-step shortcut,
when the backtracking line search stops with
`QPDUNES_ERR_NUMBER_OF_MAX_LINESEARCH_ITERATIONS_REACHED`, the step length that is
returned and used to update `lambda` is
`lineSearchReductionFactor ^ maxNumLineSearchIterations`: the search, which starts at `1`
with the counter `0`, has evaluated the dual value at the step lengths
`lineSearchReductionFactor ^ i`, `i < maxNumLineSearchIterations`, only (each of them
failed the progress test), so the accepted step length is the last one tried times
`lineSearchReductionFactor`. -/
theorem determineStepLength_backTracking_cap {α ω : Type} [LinearOrderedField α]
    (env : lineSearch_env α ω) (stages : Nat → intervalNewton_t α)
    (deltaLambdaFS : vector_t α) (newtonHessianRegularized : Bool)
    (s : ls_state α (lsData α ω))
    (hls : env.opts.lsType = QPDUNES_LS_BACKTRACKING_LS)
    (hshort : ¬ ((determineStepLength_alphaMin (lineSearch_lsEnv env stages) stages s.qp).1
      > 1 - env.opts.equalityTolerance ∧ newtonHessianRegularized = false))
    (hcap : (qpDUNES_backTrackingLineSearch env stages deltaLambdaFS (env.nx * env.NI) 0 1
      s.objValIncumbent { s with itCntr := 0 }).1
        = QPDUNES_ERR_NUMBER_OF_MAX_LINESEARCH_ITERATIONS_REACHED) :
    (qpDUNES_determineStepLength (lineSearch_lsEnv env stages) stages deltaLambdaFS
        newtonHessianRegularized s).2.alpha
      = env.opts.lineSearchReductionFactor ^ env.lsOpts.maxNumLineSearchIterations
    ∧ (∀ i, i < env.nx * env.NI →
        (qpDUNES_determineStepLength (lineSearch_lsEnv env stages) stages deltaLambdaFS
          newtonHessianRegularized s).2.lambda i
        = s.lambda i
          + env.opts.lineSearchReductionFactor ^ env.lsOpts.maxNumLineSearchIterations
            * deltaLambdaFS i)
    ∧ (qpDUNES_backTrackingLineSearch env stages deltaLambdaFS (env.nx * env.NI) 0 1
        s.objValIncumbent { s with itCntr := 0 }).2.alpha
      = env.opts.lineSearchReductionFactor ^ env.lsOpts.maxNumLineSearchIterations
    ∧ (qpDUNES_backTrackingLineSearch env stages deltaLambdaFS (env.nx * env.NI) 0 1
        s.objValIncumbent { s with itCntr := 0 }).2.qp
      = backTracking_trialData env stages env.lsOpts.maxNumLineSearchIterations 1 s.qp
    ∧ (∀ i, i < env.lsOpts.maxNumLineSearchIterations →
        ¬ (backTracking_trialValue env stages i 1 s.qp
          > s.objValIncumbent + env.lsOpts.lineSearchMinRelProgress * |s.objValIncumbent|
            + env.lsOpts.lineSearchMinAbsProgress))
    ∧ ((qpDUNES_determineStepLength (lineSearch_lsEnv env stages) stages deltaLambdaFS
          newtonHessianRegularized s).1
        = QPDUNES_ERR_NUMBER_OF_MAX_LINESEARCH_ITERATIONS_REACHED
      ∨ (qpDUNES_determineStepLength (lineSearch_lsEnv env stages) stages deltaLambdaFS
          newtonHessianRegularized s).1 = QPDUNES_ERR_UNKNOWN_ERROR) := by
  have hne : ¬ (QPDUNES_ERR_NUMBER_OF_MAX_LINESEARCH_ITERATIONS_REACHED
      = QPDUNES_ERR_DECEEDED_MIN_LINESEARCH_STEPSIZE) := by decide
  -- what the search leaves
  have hbt : (qpDUNES_backTrackingLineSearch env stages deltaLambdaFS (env.nx * env.NI) 0 1
        s.objValIncumbent { s with itCntr := 0 }).2.lambda = s.lambda
      ∧ (qpDUNES_backTrackingLineSearch env stages deltaLambdaFS (env.nx * env.NI) 0 1
        s.objValIncumbent { s with itCntr := 0 }).2.alpha
        = env.opts.lineSearchReductionFactor ^ env.lsOpts.maxNumLineSearchIterations
      ∧ (qpDUNES_backTrackingLineSearch env stages deltaLambdaFS (env.nx * env.NI) 0 1
        s.objValIncumbent { s with itCntr := 0 }).2.qp
        = backTracking_trialData env stages env.lsOpts.maxNumLineSearchIterations 1 s.qp
      ∧ (∀ i, i < env.lsOpts.maxNumLineSearchIterations →
        ¬ (backTracking_trialValue env stages i 1 s.qp
          > s.objValIncumbent + env.lsOpts.lineSearchMinRelProgress * |s.objValIncumbent|
            + env.lsOpts.lineSearchMinAbsProgress)) := by
    unfold qpDUNES_backTrackingLineSearch at hcap ⊢
    dsimp only at hcap ⊢
    rw [Nat.sub_zero] at hcap ⊢
    obtain ⟨a1, _, _, a4, _⟩ := backTrackingLineSearch_loop_spec env stages
      (vectorNorm env.sqrt deltaLambdaFS (env.nx * env.NI)) 0 s.objValIncumbent
      (env.lsOpts.lineSearchMinRelProgress * |s.objValIncumbent|
        + env.lsOpts.lineSearchMinAbsProgress)
      env.lsOpts.maxNumLineSearchIterations
      { lambda := s.lambda, alpha := 1, itCntr := 0,
        objValIncumbent := s.objValIncumbent, qp := s.qp }
    obtain ⟨b1, _, b3, b4⟩ := a4 hcap
    refine ⟨a1, ?_, b3, ?_⟩
    · rw [b1]
      exact one_mul _
    · intro i hi
      rw [add_assoc]
      exact b4 i hi
  obtain ⟨c1, c2, c3, c4⟩ := hbt
  -- the switch goes on to the update
  have hsw := determineStepLength_lineSearch_backTracking env stages deltaLambdaFS
    (determineStepLength_alphaMin (lineSearch_lsEnv env stages) stages s.qp).1 1
    { s with itCntr := 0 } hls
  rw [hcap, if_neg hne] at hsw
  obtain ⟨d1, _, d3, d4, _⟩ := determineStepLength_of_lineSearch_ok
    (lineSearch_lsEnv env stages) stages deltaLambdaFS newtonHessianRegularized s
    QPDUNES_ERR_NUMBER_OF_MAX_LINESEARCH_ITERATIONS_REACHED
    (qpDUNES_backTrackingLineSearch env stages deltaLambdaFS (env.nx * env.NI) 0 1
      s.objValIncumbent { s with itCntr := 0 }).2
    hshort (by rw [hsw, ← hcap])
  refine ⟨d1.trans c2, ?_, c2, c3, c4, d4⟩
  intro i hi
  have hi2 : i < (lineSearch_lsEnv env stages).nx * (lineSearch_lsEnv env stages).NI := hi
  rw [d3 i, if_pos hi2, c1, c2]

/-- Witness for C22: the example with one line-search iteration allowed. -/
theorem determineStepLength_backTracking_cap_witness :
    (qpDUNES_determineStepLength
        (lineSearch_lsEnv
          (exampleLineSearchEnv ℝ Real.sqrt QPDUNES_LS_BACKTRACKING_LS (1 / 4) 1 1 2)
          (exampleStages ℝ QPDUNES_STAGE_QP_SOLVER_CLIPPING QPDUNES_STAGE_QP_SOLVER_CLIPPING))
        (exampleStages ℝ QPDUNES_STAGE_QP_SOLVER_CLIPPING QPDUNES_STAGE_QP_SOLVER_CLIPPING)
        (fun _ => 1) false (exampleLineSearchState ℝ)).2.alpha = (1 / 2) ^ 1 :=
  (determineStepLength_backTracking_cap
    (exampleLineSearchEnv ℝ Real.sqrt QPDUNES_LS_BACKTRACKING_LS (1 / 4) 1 1 2)
    (exampleStages ℝ QPDUNES_STAGE_QP_SOLVER_CLIPPING QPDUNES_STAGE_QP_SOLVER_CLIPPING)
    (fun _ => 1) false (exampleLineSearchState ℝ) rfl
    (by
      rw [exampleLineSearchEnv_alphaMin _ _ _ _ _ _ (by norm_num)]
      norm_num [exampleLineSearchEnv])
    (by
      have h := exampleLineSearchEnv_backTracking_cap QPDUNES_LS_BACKTRACKING_LS (1 / 4) 1 2
      simp only [exampleLineSearchState] at h
      show (qpDUNES_backTrackingLineSearch _ _ _ 1 0 1 0 _).1 = _
      simp only [exampleLineSearchState]
      rw [h])).1

/-! ## The active-set-change variant of the backtracking search -/

/-- The switch of `qpDUNES_determineStepLength` for
`QPDUNES_LS_BACKTRACKING_LS_WITH_AS_CHANGE`. -/
theorem determineStepLength_lineSearch_asChange {α ω : Type} [LinearOrderedField α]
    (env : lineSearch_env α ω) (stages : Nat → intervalNewton_t α)
    (deltaLambdaFS : vector_t α) (alphaMin alphaMax : α) (s : ls_state α (lsData α ω))
    (hls : env.opts.lsType = QPDUNES_LS_BACKTRACKING_LS_WITH_AS_CHANGE) :
    determineStepLength_lineSearch (lineSearch_lsEnv env stages) deltaLambdaFS alphaMin
        alphaMax s
      = if (qpDUNES_backTrackingLineSearch env stages deltaLambdaFS (env.nx * env.NI) 0
            alphaMax s.objValIncumbent s).1 = QPDUNES_ERR_DECEEDED_MIN_LINESEARCH_STEPSIZE
        then .error (qpDUNES_backTrackingLineSearch env stages deltaLambdaFS
          (env.nx * env.NI) 0 alphaMax s.objValIncumbent s)
        else if alphaMin < 1 - env.opts.equalityTolerance
            ∧ (qpDUNES_backTrackingLineSearch env stages deltaLambdaFS (env.nx * env.NI) 0
              alphaMax s.objValIncumbent s).2.alpha < alphaMin
          then .ok ((qpDUNES_backTrackingLineSearch env stages deltaLambdaFS
              (env.nx * env.NI) 0 alphaMax s.objValIncumbent s).1,
            { (qpDUNES_backTrackingLineSearch env stages deltaLambdaFS
                (env.nx * env.NI) 0 alphaMax s.objValIncumbent s).2 with
              alpha := alphaMin })
          else .ok (qpDUNES_backTrackingLineSearch env stages deltaLambdaFS
            (env.nx * env.NI) 0 alphaMax s.objValIncumbent s) := by
  have h : (lineSearch_lsEnv env stages).opts.lsType
      = QPDUNES_LS_BACKTRACKING_LS_WITH_AS_CHANGE := hls
  unfold determineStepLength_lineSearch
  rw [h]
  rfl

/-- The backtracking search never writes `lambda`. -/
theorem backTrackingLineSearch_lambda {α ω : Type} [LinearOrderedField α]
    (env : lineSearch_env α ω) (stages : Nat → intervalNewton_t α)
    (deltaLambdaFS : vector_t α) (nV : Nat) (alphaMin alphaMax objValIncumbent : α)
    (s : ls_state α (lsData α ω)) :
    (qpDUNES_backTrackingLineSearch env stages deltaLambdaFS nV alphaMin alphaMax
      objValIncumbent s).2.lambda = s.lambda := by
  unfold qpDUNES_backTrackingLineSearch
  dsimp only
  exact (backTrackingLineSearch_loop_spec env stages _ _ _ _ _
    { lambda := s.lambda, alpha := alphaMax, itCntr := s.itCntr,
      objValIncumbent := s.objValIncumbent, qp := s.qp }).1

/-- C23. Active-set-change snap: with
`lsType = QPDUNES_LS_BACKTRACKING_LS_WITH_AS_CHANGE`, whenever
`qpDUNES_determineStepLength` does not take the full-step shortcut and the backtracking
search does not fail with the minimum-step error, the step length `alpha` that is
returned and used to update `lambda` (`lambda_new = lambda_old + alpha * deltaLambda` on
the `nx * NI` entries) is `max(alpha_backtracking, alphaMin)` if
`alphaMin < 1 - equalityTolerance` and `alpha_backtracking` otherwise; in particular
`alpha >= alphaMin` whenever `alphaMin < 1 - equalityTolerance`. -/
theorem determineStepLength_activeSetSnap {α ω : Type} [LinearOrderedField α]
    (env : lineSearch_env α ω) (stages : Nat → intervalNewton_t α)
    (deltaLambdaFS : vector_t α) (newtonHessianRegularized : Bool)
    (s : ls_state α (lsData α ω))
    (hls : env.opts.lsType = QPDUNES_LS_BACKTRACKING_LS_WITH_AS_CHANGE)
    (hshort : ¬ ((determineStepLength_alphaMin (lineSearch_lsEnv env stages) stages s.qp).1
      > 1 - env.opts.equalityTolerance ∧ newtonHessianRegularized = false))
    (hbt : (qpDUNES_backTrackingLineSearch env stages deltaLambdaFS (env.nx * env.NI) 0 1
      s.objValIncumbent { s with itCntr := 0 }).1
        ≠ QPDUNES_ERR_DECEEDED_MIN_LINESEARCH_STEPSIZE) :
    (qpDUNES_determineStepLength (lineSearch_lsEnv env stages) stages deltaLambdaFS
        newtonHessianRegularized s).2.alpha
      = (if (determineStepLength_alphaMin (lineSearch_lsEnv env stages) stages s.qp).1
            < 1 - env.opts.equalityTolerance
          then max (qpDUNES_backTrackingLineSearch env stages deltaLambdaFS
              (env.nx * env.NI) 0 1 s.objValIncumbent { s with itCntr := 0 }).2.alpha
            (determineStepLength_alphaMin (lineSearch_lsEnv env stages) stages s.qp).1
          else (qpDUNES_backTrackingLineSearch env stages deltaLambdaFS
              (env.nx * env.NI) 0 1 s.objValIncumbent { s with itCntr := 0 }).2.alpha)
    ∧ (∀ i, i < env.nx * env.NI →
        (qpDUNES_determineStepLength (lineSearch_lsEnv env stages) stages deltaLambdaFS
          newtonHessianRegularized s).2.lambda i
        = s.lambda i
          + (qpDUNES_determineStepLength (lineSearch_lsEnv env stages) stages
              deltaLambdaFS newtonHessianRegularized s).2.alpha * deltaLambdaFS i)
    ∧ ((determineStepLength_alphaMin (lineSearch_lsEnv env stages) stages s.qp).1
          < 1 - env.opts.equalityTolerance →
        (determineStepLength_alphaMin (lineSearch_lsEnv env stages) stages s.qp).1
          ≤ (qpDUNES_determineStepLength (lineSearch_lsEnv env stages) stages
              deltaLambdaFS newtonHessianRegularized s).2.alpha) := by
  have hlam := backTrackingLineSearch_lambda env stages deltaLambdaFS (env.nx * env.NI) 0 1
    s.objValIncumbent { s with itCntr := 0 }
  have hsw := determineStepLength_lineSearch_asChange env stages deltaLambdaFS
    (determineStepLength_alphaMin (lineSearch_lsEnv env stages) stages s.qp).1 1
    { s with itCntr := 0 } hls
  dsimp only at hlam hsw
  generalize qpDUNES_backTrackingLineSearch env stages deltaLambdaFS (env.nx * env.NI) 0 1
    s.objValIncumbent { s with itCntr := 0 } = r at hbt hlam hsw ⊢
  have hshort2 := hshort
  generalize halpha :
    (determineStepLength_alphaMin (lineSearch_lsEnv env stages) stages s.qp).1
      = alphaMin at hshort hsw ⊢
  rw [if_neg hbt] at hsw
  have key : (qpDUNES_determineStepLength (lineSearch_lsEnv env stages) stages
        deltaLambdaFS newtonHessianRegularized s).2.alpha
      = (if alphaMin < 1 - env.opts.equalityTolerance then max r.2.alpha alphaMin
          else r.2.alpha)
      ∧ (∀ i, i < env.nx * env.NI →
        (qpDUNES_determineStepLength (lineSearch_lsEnv env stages) stages deltaLambdaFS
          newtonHessianRegularized s).2.lambda i
        = s.lambda i
          + (qpDUNES_determineStepLength (lineSearch_lsEnv env stages) stages
              deltaLambdaFS newtonHessianRegularized s).2.alpha * deltaLambdaFS i) := by
    by_cases h1 : alphaMin < 1 - env.opts.equalityTolerance
    · by_cases h2 : r.2.alpha < alphaMin
      · rw [if_pos ⟨h1, h2⟩] at hsw
        obtain ⟨d1, _, d3, _⟩ := determineStepLength_of_lineSearch_ok
          (lineSearch_lsEnv env stages) stages deltaLambdaFS newtonHessianRegularized s r.1
          { r.2 with alpha := alphaMin } hshort2 (by rw [halpha]; exact hsw)
        refine ⟨?_, ?_⟩
        · rw [d1, if_pos h1, max_eq_right (le_of_lt h2)]
        · intro i hi
          have hi2 : i < (lineSearch_lsEnv env stages).nx
            * (lineSearch_lsEnv env stages).NI := hi
          rw [d3 i, if_pos hi2, d1]
          show r.2.lambda i + _ = _
          rw [hlam]
      · have h3 : ¬ (alphaMin < 1 - env.opts.equalityTolerance ∧ r.2.alpha < alphaMin) :=
          fun h => h2 h.2
        rw [if_neg h3] at hsw
        obtain ⟨d1, _, d3, _⟩ := determineStepLength_of_lineSearch_ok
          (lineSearch_lsEnv env stages) stages deltaLambdaFS newtonHessianRegularized s r.1
          r.2 hshort2 (by rw [halpha]; exact hsw)
        refine ⟨?_, ?_⟩
        · rw [d1, if_pos h1, max_eq_left (not_lt.1 h2)]
        · intro i hi
          have hi2 : i < (lineSearch_lsEnv env stages).nx
            * (lineSearch_lsEnv env stages).NI := hi
          rw [d3 i, if_pos hi2, d1, hlam]
    · have h3 : ¬ (alphaMin < 1 - env.opts.equalityTolerance ∧ r.2.alpha < alphaMin) :=
        fun h => h1 h.1
      rw [if_neg h3] at hsw
      obtain ⟨d1, _, d3, _⟩ := determineStepLength_of_lineSearch_ok
        (lineSearch_lsEnv env stages) stages deltaLambdaFS newtonHessianRegularized s r.1
        r.2 hshort2 (by rw [halpha]; exact hsw)
      refine ⟨?_, ?_⟩
      · rw [d1, if_neg h1]
      · intro i hi
        have hi2 : i < (lineSearch_lsEnv env stages).nx
          * (lineSearch_lsEnv env stages).NI := hi
        rw [d3 i, if_pos hi2, d1, hlam]
  refine ⟨key.1, key.2, ?_⟩
  intro h1
  rw [key.1, if_pos h1]
  exact le_max_right _ _

/-- Witness for C23: in the example with the minimum step `3/4` the backtracking search
accepts `1/2`, and the step length is snapped to `3/4`. -/
theorem determineStepLength_activeSetSnap_witness :
    (qpDUNES_determineStepLength
        (lineSearch_lsEnv
          (exampleLineSearchEnv ℝ Real.sqrt QPDUNES_LS_BACKTRACKING_LS_WITH_AS_CHANGE (3 / 4)
            3 3 3)
          (exampleStages ℝ QPDUNES_STAGE_QP_SOLVER_CLIPPING QPDUNES_STAGE_QP_SOLVER_CLIPPING))
        (exampleStages ℝ QPDUNES_STAGE_QP_SOLVER_CLIPPING QPDUNES_STAGE_QP_SOLVER_CLIPPING)
        (fun _ => 1) false (exampleLineSearchState ℝ)).2.alpha = 3 / 4 := by
  have hmin := exampleLineSearchEnv_alphaMin QPDUNES_LS_BACKTRACKING_LS_WITH_AS_CHANGE
    (3 / 4) 3 3 3 (exampleLsData ℝ []) (by norm_num)
  have hbt := exampleLineSearchEnv_backTracking QPDUNES_LS_BACKTRACKING_LS_WITH_AS_CHANGE
    (3 / 4) 3 3
  simp only [exampleLineSearchState] at hmin hbt
  have h := (determineStepLength_activeSetSnap
    (exampleLineSearchEnv ℝ Real.sqrt QPDUNES_LS_BACKTRACKING_LS_WITH_AS_CHANGE (3 / 4)
      3 3 3)
    (exampleStages ℝ QPDUNES_STAGE_QP_SOLVER_CLIPPING QPDUNES_STAGE_QP_SOLVER_CLIPPING)
    (fun _ => 1) false (exampleLineSearchState ℝ) rfl
    (by
      simp only [exampleLineSearchState]
      rw [hmin]
      norm_num [exampleLineSearchEnv])
    (by
      show (qpDUNES_backTrackingLineSearch _ _ _ 1 0 1 0 _).1 ≠ _
      simp only [exampleLineSearchState]
      rw [hbt]
      decide)).1
  rw [h]
  simp only [exampleLineSearchState]
  rw [hmin]
  have e2 : (exampleLineSearchEnv ℝ Real.sqrt QPDUNES_LS_BACKTRACKING_LS_WITH_AS_CHANGE
      (3 / 4) 3 3 3).nx
      * (exampleLineSearchEnv ℝ Real.sqrt QPDUNES_LS_BACKTRACKING_LS_WITH_AS_CHANGE
      (3 / 4) 3 3 3).NI = 1 := rfl
  rw [e2, hbt]
  norm_num [exampleLineSearchEnv]

/-! ## Progress of the dual value -/

/-- When the line search goes on to "UPDATE VARIABLES" and `qpDUNES_determineStepLength`
does not return `QPDUNES_ERR_UNKNOWN_ERROR` from the stage loop, the stage loop has run
through, and the incumbent is the objective value of the data it leaves. -/
theorem determineStepLength_of_lineSearch_incumbent {α σ : Type} [LinearOrderedField α]
    (env : ls_env α σ) (stages : Nat → intervalNewton_t α) (deltaLambdaFS : vector_t α)
    (newtonHessianRegularized : Bool) (s : ls_state α σ) (st : return_t)
    (s1 : ls_state α σ)
    (hshort : ¬ ((determineStepLength_alphaMin env stages s.qp).1
      > 1 - env.opts.equalityTolerance ∧ newtonHessianRegularized = false))
    (hls : determineStepLength_lineSearch env deltaLambdaFS
      (determineStepLength_alphaMin env stages s.qp).1 1 { s with itCntr := 0 }
        = .ok (st, s1))
    (hne : (qpDUNES_determineStepLength env stages deltaLambdaFS newtonHessianRegularized
      s).1 ≠ QPDUNES_ERR_UNKNOWN_ERROR) :
    (qpDUNES_determineStepLength env stages deltaLambdaFS newtonHessianRegularized s).1 = st
    ∧ determineStepLength_doSteps env stages s1.alpha s1.qp
      = .ok (qpDUNES_determineStepLength env stages deltaLambdaFS newtonHessianRegularized
          s).2.qp
    ∧ (qpDUNES_determineStepLength env stages deltaLambdaFS newtonHessianRegularized
        s).2.objValIncumbent
      = env.qpDUNES_computeObjectiveValue
          (qpDUNES_determineStepLength env stages deltaLambdaFS newtonHessianRegularized
            s).2.qp := by
  unfold qpDUNES_determineStepLength at hne ⊢
  dsimp only at hne ⊢
  rw [if_neg hshort, hls] at hne ⊢
  dsimp only at hne ⊢
  cases hd : determineStepLength_doSteps env stages s1.alpha s1.qp with
  | error e =>
    rw [hd] at hne
    exact absurd (determineStepLength_doSteps_error env stages _ _ e hd) hne
  | ok qp => exact ⟨rfl, rfl, rfl⟩

/-! ## The dual update -/

/-- The first loop of the bisection search never writes `lambda`. -/
theorem bisectionIntervalSearch_inflate_lambda {α ω : Type} [LinearOrderedField α]
    (env : lineSearch_env α ω) (deltaLambdaFS : vector_t α) (nV : Nat)
    (slopeNormalization : α) (fuel : Nat) :
    ∀ b : bisection_state α ω,
      outcome (fun (b1 : bisection_state α ω) => b1.s.lambda = b.s.lambda)
        (fun (e : return_t × bisection_state α ω) => e.2.s.lambda = b.s.lambda)
        (bisectionIntervalSearch_inflate env deltaLambdaFS nV slopeNormalization fuel b) := by
  induction fuel with
  | zero =>
    intro b
    exact rfl
  | succ fuel ih =>
    intro b
    rw [bisectionIntervalSearch_inflate]
    dsimp only
    split_ifs
    · exact rfl
    · exact rfl
    · exact rfl
    · exact ih _

/-- The second loop of the bisection search never writes `lambda`. -/
theorem bisectionIntervalSearch_halve_lambda {α ω : Type} [LinearOrderedField α]
    (env : lineSearch_env α ω) (deltaLambdaFS : vector_t α) (nV : Nat)
    (slopeNormalization : α) (fuel : Nat) :
    ∀ b : bisection_state α ω,
      (bisectionIntervalSearch_halve env deltaLambdaFS nV slopeNormalization fuel
        b).2.s.lambda = b.s.lambda := by
  induction fuel with
  | zero =>
    intro b
    rfl
  | succ fuel ih =>
    intro b
    rw [bisectionIntervalSearch_halve]
    dsimp only
    split_ifs
    · rfl
    · exact ih _
    · exact ih _

/-- The bisection search never writes `lambda`. -/
theorem bisectionIntervalSearch_lambda {α ω : Type} [LinearOrderedField α]
    (env : lineSearch_env α ω) (deltaLambdaFS : vector_t α) (nV : Nat)
    (alphaMin alphaMax : α) (s : ls_state α (lsData α ω)) :
    (qpDUNES_bisectionIntervalSearch env deltaLambdaFS nV alphaMin alphaMax s).2.lambda
      = s.lambda := by
  unfold qpDUNES_bisectionIntervalSearch qpDUNES_bisectionIntervalSearch_trace
  dsimp only
  have h1 := bisectionIntervalSearch_inflate_lambda env deltaLambdaFS nV
    (min 1 (vectorNorm env.sqrt deltaLambdaFS nV))
    (env.lsOpts.maxNumLineSearchRefinementIterations - s.itCntr)
    { alphaMin := alphaMin, alphaMax := alphaMax, alphaC := env.alphaC, s := s, evals := [] }
  cases hr : bisectionIntervalSearch_inflate env deltaLambdaFS nV
      (min 1 (vectorNorm env.sqrt deltaLambdaFS nV))
      (env.lsOpts.maxNumLineSearchRefinementIterations - s.itCntr)
      { alphaMin := alphaMin, alphaMax := alphaMax, alphaC := env.alphaC, s := s,
        evals := [] } with
  | error e =>
    rw [hr] at h1
    exact h1
  | ok b =>
    rw [hr] at h1
    dsimp only
    rw [bisectionIntervalSearch_halve_lambda]
    exact h1

/-- The grid search never writes `lambda`. -/
theorem gridSearch_lambda {α ω : Type} [LinearOrderedField α]
    (env : lineSearch_env α ω) (stages : Nat → intervalNewton_t α) (alphaMin alphaMax : α)
    (s : ls_state α (lsData α ω)) :
    (qpDUNES_gridSearch env stages alphaMin alphaMax s).2.lambda = s.lambda := by
  unfold qpDUNES_gridSearch
  dsimp only
  refine foldl_inv _ (fun (s1 : ls_state α (lsData α ω)) => s1.lambda = s.lambda) _ ?_ s rfl
  intro s1 kk _ h1
  unfold gridSearch_step
  dsimp only
  split_ifs
  · exact h1
  · exact h1

/-- When the backtracking search fails with the minimum-step error, the step length it
leaves is its argument `alphaMin`. -/
theorem backTrackingLineSearch_minStep {α ω : Type} [LinearOrderedField α]
    (env : lineSearch_env α ω) (stages : Nat → intervalNewton_t α)
    (deltaLambdaFS : vector_t α) (nV : Nat) (alphaMin alphaMax objValIncumbent : α)
    (s : ls_state α (lsData α ω))
    (h : (qpDUNES_backTrackingLineSearch env stages deltaLambdaFS nV alphaMin alphaMax
      objValIncumbent s).1 = QPDUNES_ERR_DECEEDED_MIN_LINESEARCH_STEPSIZE) :
    (qpDUNES_backTrackingLineSearch env stages deltaLambdaFS nV alphaMin alphaMax
      objValIncumbent s).2.alpha = alphaMin := by
  unfold qpDUNES_backTrackingLineSearch at h ⊢
  dsimp only at h ⊢
  exact (backTrackingLineSearch_loop_spec env stages _ _ _ _ _
    { lambda := s.lambda, alpha := alphaMax, itCntr := s.itCntr,
      objValIncumbent := s.objValIncumbent, qp := s.qp }).2.2.2.2.1 h

/-- The switch "do a line search" leaves `lambda` alone when none of the line searches
writes it; when it returns inside the switch (the minimum-step error of a backtracking
search called with `alphaMin = 0`) the step length is `0`. -/
theorem determineStepLength_lineSearch_frame {α σ : Type} [LinearOrderedField α]
    (env : ls_env α σ) (deltaLambdaFS : vector_t α) (alphaMin alphaMax : α)
    (s : ls_state α σ)
    (hbt : ∀ a b c s1, (env.qpDUNES_backTrackingLineSearch deltaLambdaFS a b c s1).2.lambda
      = s1.lambda)
    (hbt0 : ∀ a b c s1, (env.qpDUNES_backTrackingLineSearch deltaLambdaFS a b c s1).1
        = QPDUNES_ERR_DECEEDED_MIN_LINESEARCH_STEPSIZE →
      (env.qpDUNES_backTrackingLineSearch deltaLambdaFS a b c s1).2.alpha = a)
    (hgold : ∀ a b s1, (env.qpDUNES_goldenSectionIntervalSearch deltaLambdaFS a b s1).2.lambda
      = s1.lambda)
    (hbis : ∀ a b s1, (env.qpDUNES_bisectionIntervalSearch deltaLambdaFS a b s1).2.lambda
      = s1.lambda)
    (hgrid : ∀ a b s1, (env.qpDUNES_gridSearch a b s1).2.lambda = s1.lambda) :
    outcome (fun (p : return_t × ls_state α σ) => p.2.lambda = s.lambda)
      (fun (r : return_t × ls_state α σ) => r.2.lambda = s.lambda ∧ r.2.alpha = 0)
      (determineStepLength_lineSearch env deltaLambdaFS alphaMin alphaMax s) := by
  unfold determineStepLength_lineSearch
  cases env.opts.lsType with
  | QPDUNES_LS_BACKTRACKING_LS =>
    dsimp only
    split_ifs with h
    · exact ⟨hbt _ _ _ _, hbt0 _ _ _ _ h⟩
    · exact hbt _ _ _ _
  | QPDUNES_LS_BACKTRACKING_LS_WITH_AS_CHANGE =>
    dsimp only
    split_ifs with h h2
    · exact ⟨hbt _ _ _ _, hbt0 _ _ _ _ h⟩
    · exact hbt _ _ _ _
    · exact hbt _ _ _ _
  | QPDUNES_LS_GOLDEN_SECTION_LS => exact hgold _ _ _
  | QPDUNES_LS_GRADIENT_BISECTION_LS => exact hbis _ _ _
  | QPDUNES_LS_ACCELERATED_GRADIENT_BISECTION_LS =>
    dsimp only
    split_ifs with h
    · exact ⟨hbt _ _ _ _, hbt0 _ _ _ _ h⟩
    · exact (hbis _ _ _).trans (hbt _ _ _ _)
  | QPDUNES_LS_GRID_LS => exact hgrid _ _ _
  | QPDUNES_LS_ACCELERATED_GRID_LS =>
    dsimp only
    split_ifs with h
    · exact ⟨hbt _ _ _ _, hbt0 _ _ _ _ h⟩
    · exact (hgrid _ _ _).trans (hbt _ _ _ _)
  | unknownLsType => exact rfl

/-- The switch "do a line search" with the line searches of `dual_qp.c` leaves `lambda`
alone. -/
theorem lineSearch_lsEnv_frame {α ω : Type} [LinearOrderedField α]
    (env : lineSearch_env α ω) (stages : Nat → intervalNewton_t α)
    (deltaLambdaFS : vector_t α) (alphaMin alphaMax : α) (s : ls_state α (lsData α ω)) :
    outcome (fun (p : return_t × ls_state α (lsData α ω)) => p.2.lambda = s.lambda)
      (fun (r : return_t × ls_state α (lsData α ω)) =>
        r.2.lambda = s.lambda ∧ r.2.alpha = 0)
      (determineStepLength_lineSearch (lineSearch_lsEnv env stages) deltaLambdaFS alphaMin
        alphaMax s) :=
  determineStepLength_lineSearch_frame (lineSearch_lsEnv env stages) deltaLambdaFS alphaMin
    alphaMax s
    (fun _ _ _ _ => backTrackingLineSearch_lambda env stages deltaLambdaFS _ _ _ _ _)
    (fun _ _ _ _ h => backTrackingLineSearch_minStep env stages deltaLambdaFS _ _ _ _ _ h)
    (fun _ _ _ => rfl)
    (fun _ _ _ => bisectionIntervalSearch_lambda env deltaLambdaFS _ _ _ _)
    (fun _ _ _ => gridSearch_lambda env stages _ _ _)

/-- C25. Dual update: for every configured line search and whatever status
`qpDUNES_determineStepLength` returns (in particular for the statuses the driver
accepts: `QPDUNES_OK`, the iteration cap and the maximum step size), the new multiplier
vector satisfies `lambda_new = lambda_old + alpha * deltaLambda` on each of its
`nx * NI` components, where `alpha` is the step length the routine outputs, and the
entries beyond are left alone. The direction `deltaLambdaFS` is only read: it is an
argument that neither the routine nor the line searches write. -/
theorem determineStepLength_dualUpdate {α ω : Type} [LinearOrderedField α]
    (env : lineSearch_env α ω) (stages : Nat → intervalNewton_t α)
    (deltaLambdaFS : vector_t α) (newtonHessianRegularized : Bool)
    (s : ls_state α (lsData α ω)) :
    (∀ i, i < env.nx * env.NI →
      (qpDUNES_determineStepLength (lineSearch_lsEnv env stages) stages deltaLambdaFS
          newtonHessianRegularized s).2.lambda i
        = s.lambda i
          + (qpDUNES_determineStepLength (lineSearch_lsEnv env stages) stages
              deltaLambdaFS newtonHessianRegularized s).2.alpha * deltaLambdaFS i)
    ∧ (∀ i, env.nx * env.NI ≤ i →
      (qpDUNES_determineStepLength (lineSearch_lsEnv env stages) stages deltaLambdaFS
          newtonHessianRegularized s).2.lambda i = s.lambda i) := by
  have hall : ∀ i,
      (qpDUNES_determineStepLength (lineSearch_lsEnv env stages) stages deltaLambdaFS
          newtonHessianRegularized s).2.lambda i
        = if i < env.nx * env.NI then
            s.lambda i
              + (qpDUNES_determineStepLength (lineSearch_lsEnv env stages) stages
                  deltaLambdaFS newtonHessianRegularized s).2.alpha * deltaLambdaFS i
          else s.lambda i := by
    intro i
    by_cases hshort : (determineStepLength_alphaMin (lineSearch_lsEnv env stages) stages
        s.qp).1 > 1 - (lineSearch_lsEnv env stages).opts.equalityTolerance
        ∧ newtonHessianRegularized = false
    · unfold qpDUNES_determineStepLength
      dsimp only
      rw [if_pos hshort]
      cases determineStepLength_doSteps (lineSearch_lsEnv env stages) stages 1 s.qp with
      | error e => exact addVectorScaledVector_apply _ _ _ _ _ _
      | ok qp => exact addVectorScaledVector_apply _ _ _ _ _ _
    · have hfr := lineSearch_lsEnv_frame env stages deltaLambdaFS
        (determineStepLength_alphaMin (lineSearch_lsEnv env stages) stages s.qp).1 1
        { s with itCntr := 0 }
      cases hr : determineStepLength_lineSearch (lineSearch_lsEnv env stages)
          deltaLambdaFS
          (determineStepLength_alphaMin (lineSearch_lsEnv env stages) stages s.qp).1 1
          { s with itCntr := 0 } with
      | error r =>
        rw [hr] at hfr
        rw [determineStepLength_of_lineSearch_error (lineSearch_lsEnv env stages) stages
          deltaLambdaFS newtonHessianRegularized s r hshort hr]
        have h1 : r.2.lambda = s.lambda := hfr.1
        have h2 : r.2.alpha = 0 := hfr.2
        rw [h1, h2]
        split_ifs
        · simp
        · rfl
      | ok p =>
        rw [hr] at hfr
        have h1 : p.2.lambda = s.lambda := hfr
        obtain ⟨d1, _, d3, _⟩ := determineStepLength_of_lineSearch_ok
          (lineSearch_lsEnv env stages) stages deltaLambdaFS newtonHessianRegularized s
          p.1 p.2 hshort hr
        rw [d3 i, d1, h1]
        rfl
  refine ⟨?_, ?_⟩
  · intro i hi
    rw [hall i, if_pos hi]
  · intro i hi
    rw [hall i, if_neg (by omega)]

/-! ## The bisection search -/

/-- The switch of `qpDUNES_determineStepLength` for `QPDUNES_LS_GRADIENT_BISECTION_LS`. -/
theorem determineStepLength_lineSearch_bisection {α ω : Type} [LinearOrderedField α]
    (env : lineSearch_env α ω) (stages : Nat → intervalNewton_t α)
    (deltaLambdaFS : vector_t α) (alphaMin alphaMax : α) (s : ls_state α (lsData α ω))
    (hls : env.opts.lsType = QPDUNES_LS_GRADIENT_BISECTION_LS) :
    determineStepLength_lineSearch (lineSearch_lsEnv env stages) deltaLambdaFS alphaMin
        alphaMax s
      = .ok (qpDUNES_bisectionIntervalSearch env deltaLambdaFS (env.nx * env.NI) alphaMin
          alphaMax s) := by
  have h : (lineSearch_lsEnv env stages).opts.lsType = QPDUNES_LS_GRADIENT_BISECTION_LS := hls
  unfold determineStepLength_lineSearch
  rw [h]
  rfl

/-- C26 (failing input). With `maxNumLineSearchRefinementIterations = 1` the bisection
search of the example, called on the interval from `0` to `1` with the counter `0`,
evaluates the directional derivative at the step length `1` (it is `-1`: descent, so the
first loop is left by `break`, which does not count the iteration) and then at `1/2` (it
is `0`: stationary), and returns `QPDUNES_OK` with the step length `1/2`: two derivative
evaluations were made, one more than `maxNumLineSearchRefinementIterations`. At the
returned step length the derivative divided by `min(1, ||deltaLambda||)` is within
`lineSearchStationarityTolerance`. -/
theorem bisectionIntervalSearch_evaluations_failingInput :
    (qpDUNES_bisectionIntervalSearch_trace
        (exampleLineSearchEnv ℝ Real.sqrt QPDUNES_LS_GRADIENT_BISECTION_LS (1 / 4) 3 1 3)
        (fun _ => 1) 1 0 1 (exampleLineSearchState ℝ)).1 = QPDUNES_OK
    ∧ (qpDUNES_bisectionIntervalSearch_trace
        (exampleLineSearchEnv ℝ Real.sqrt QPDUNES_LS_GRADIENT_BISECTION_LS (1 / 4) 3 1 3)
        (fun _ => 1) 1 0 1 (exampleLineSearchState ℝ)).2.s.alpha = 1 / 2
    ∧ (qpDUNES_bisectionIntervalSearch_trace
        (exampleLineSearchEnv ℝ Real.sqrt QPDUNES_LS_GRADIENT_BISECTION_LS (1 / 4) 3 1 3)
        (fun _ => 1) 1 0 1 (exampleLineSearchState ℝ)).2.evals = [(1 / 2, 0), (1, -1)]
    ∧ (exampleLineSearchEnv ℝ Real.sqrt QPDUNES_LS_GRADIENT_BISECTION_LS (1 / 4) 3 1
        3).lsOpts.maxNumLineSearchRefinementIterations = 1
    ∧ ¬ ((qpDUNES_bisectionIntervalSearch_trace
        (exampleLineSearchEnv ℝ Real.sqrt QPDUNES_LS_GRADIENT_BISECTION_LS (1 / 4) 3 1 3)
        (fun _ => 1) 1 0 1 (exampleLineSearchState ℝ)).2.evals.length
      ≤ (exampleLineSearchEnv ℝ Real.sqrt QPDUNES_LS_GRADIENT_BISECTION_LS (1 / 4) 3 1
        3).lsOpts.maxNumLineSearchRefinementIterations) := by
  have e1 : (exampleLineSearchEnv ℝ Real.sqrt QPDUNES_LS_GRADIENT_BISECTION_LS (1 / 4) 3 1
      3).lsOpts.maxNumLineSearchRefinementIterations = 1 := rfl
  have h3 : (qpDUNES_bisectionIntervalSearch_trace
      (exampleLineSearchEnv ℝ Real.sqrt QPDUNES_LS_GRADIENT_BISECTION_LS (1 / 4) 3 1 3)
      (fun _ => 1) 1 0 1 (exampleLineSearchState ℝ)).1 = QPDUNES_OK
      ∧ (qpDUNES_bisectionIntervalSearch_trace
      (exampleLineSearchEnv ℝ Real.sqrt QPDUNES_LS_GRADIENT_BISECTION_LS (1 / 4) 3 1 3)
      (fun _ => 1) 1 0 1 (exampleLineSearchState ℝ)).2.s.alpha = 1 / 2
      ∧ (qpDUNES_bisectionIntervalSearch_trace
      (exampleLineSearchEnv ℝ Real.sqrt QPDUNES_LS_GRADIENT_BISECTION_LS (1 / 4) 3 1 3)
      (fun _ => 1) 1 0 1 (exampleLineSearchState ℝ)).2.evals = [(1 / 2, 0), (1, -1)] := by
    simp only [qpDUNES_bisectionIntervalSearch_trace, exampleLineSearchState, e1,
      bisectionIntervalSearch_inflate, bisectionIntervalSearch_halve]
    norm_num [bisectionIntervalSearch_slope, bisectionIntervalSearch_trialPrimal,
      bisectionIntervalSearch_gradientTry, addVectorScaledVector, multiplyCz, addToVector,
      scalarProd, List.range_succ, exampleLsData, exampleLineSearchEnv, vectorNorm,
      bisectionIntervalSearch_inflate, bisectionIntervalSearch_halve]
  refine ⟨h3.1, h3.2.1, h3.2.2, rfl, ?_⟩
  rw [h3.2.2, e1]
  decide

/-- The bisection search of the example on the interval from `5` to `1` with one
refinement iteration allowed: the derivative at `1` is `-1`, the midpoint `3` is not
stationary, and the search stops at the cap with the step length `3`. -/
theorem exampleLineSearchEnv_bisection_inverted :
    (qpDUNES_bisectionIntervalSearch
        (exampleLineSearchEnv ℝ Real.sqrt QPDUNES_LS_GRADIENT_BISECTION_LS 5 3 1 3)
        (fun _ => 1) 1 5 1
        { lambda := fun _ => 2, alpha := 3, itCntr := 0, objValIncumbent := 0,
          qp := exampleLsData ℝ [] }).1
      = QPDUNES_ERR_NUMBER_OF_MAX_LINESEARCH_ITERATIONS_REACHED
    ∧ (qpDUNES_bisectionIntervalSearch
        (exampleLineSearchEnv ℝ Real.sqrt QPDUNES_LS_GRADIENT_BISECTION_LS 5 3 1 3)
        (fun _ => 1) 1 5 1
        { lambda := fun _ => 2, alpha := 3, itCntr := 0, objValIncumbent := 0,
          qp := exampleLsData ℝ [] }).2.alpha = 3 := by
  have e1 : (exampleLineSearchEnv ℝ Real.sqrt QPDUNES_LS_GRADIENT_BISECTION_LS 5 3 1
      3).lsOpts.maxNumLineSearchRefinementIterations = 1 := rfl
  simp only [qpDUNES_bisectionIntervalSearch, qpDUNES_bisectionIntervalSearch_trace, e1,
    bisectionIntervalSearch_inflate, bisectionIntervalSearch_halve]
  norm_num [bisectionIntervalSearch_slope, bisectionIntervalSearch_trialPrimal,
    bisectionIntervalSearch_gradientTry, addVectorScaledVector, multiplyCz, addToVector,
    scalarProd, List.range_succ, exampleLsData, exampleLineSearchEnv, vectorNorm,
    bisectionIntervalSearch_inflate, bisectionIntervalSearch_halve]

/-- C27 (failing input). With `lsType = QPDUNES_LS_GRADIENT_BISECTION_LS`,
`lineSearchMaxStepSize = 1`, a regularized Hessian and two Clipping stages that report
the minimum step `5`, `qpDUNES_determineStepLength` does not take the full-step shortcut
and calls the bisection search with `alphaMin = 5` and `alphaMax = 1`; the derivative at
`1` is negative, so the search halves the interval between `5` and `1`, and with one
refinement iteration allowed it stops at the cap with the step length `3`. The status is
one the driver accepts, and `lambda` is advanced by `3` (from `2` to `2 + 3 * 1`), which
exceeds `lineSearchMaxStepSize`. -/
theorem determineStepLength_bisection_stepCap_failingInput :
    (qpDUNES_determineStepLength
        (lineSearch_lsEnv
          (exampleLineSearchEnv ℝ Real.sqrt QPDUNES_LS_GRADIENT_BISECTION_LS 5 3 1 3)
          (exampleStages ℝ QPDUNES_STAGE_QP_SOLVER_CLIPPING QPDUNES_STAGE_QP_SOLVER_CLIPPING))
        (exampleStages ℝ QPDUNES_STAGE_QP_SOLVER_CLIPPING QPDUNES_STAGE_QP_SOLVER_CLIPPING)
        (fun _ => 1) true (exampleLineSearchState ℝ)).1
      = QPDUNES_ERR_NUMBER_OF_MAX_LINESEARCH_ITERATIONS_REACHED
    ∧ (qpDUNES_determineStepLength
        (lineSearch_lsEnv
          (exampleLineSearchEnv ℝ Real.sqrt QPDUNES_LS_GRADIENT_BISECTION_LS 5 3 1 3)
          (exampleStages ℝ QPDUNES_STAGE_QP_SOLVER_CLIPPING QPDUNES_STAGE_QP_SOLVER_CLIPPING))
        (exampleStages ℝ QPDUNES_STAGE_QP_SOLVER_CLIPPING QPDUNES_STAGE_QP_SOLVER_CLIPPING)
        (fun _ => 1) true (exampleLineSearchState ℝ)).2.alpha = 3
    ∧ (qpDUNES_determineStepLength
        (lineSearch_lsEnv
          (exampleLineSearchEnv ℝ Real.sqrt QPDUNES_LS_GRADIENT_BISECTION_LS 5 3 1 3)
          (exampleStages ℝ QPDUNES_STAGE_QP_SOLVER_CLIPPING QPDUNES_STAGE_QP_SOLVER_CLIPPING))
        (exampleStages ℝ QPDUNES_STAGE_QP_SOLVER_CLIPPING QPDUNES_STAGE_QP_SOLVER_CLIPPING)
        (fun _ => 1) true (exampleLineSearchState ℝ)).2.lambda 0 = 2 + 3 * 1
    ∧ (1 : ℝ) ≤ (exampleLineSearchEnv ℝ Real.sqrt QPDUNES_LS_GRADIENT_BISECTION_LS 5 3 1
        3).lsOpts.lineSearchMaxStepSize
    ∧ ¬ ((qpDUNES_determineStepLength
        (lineSearch_lsEnv
          (exampleLineSearchEnv ℝ Real.sqrt QPDUNES_LS_GRADIENT_BISECTION_LS 5 3 1 3)
          (exampleStages ℝ QPDUNES_STAGE_QP_SOLVER_CLIPPING QPDUNES_STAGE_QP_SOLVER_CLIPPING))
        (exampleStages ℝ QPDUNES_STAGE_QP_SOLVER_CLIPPING QPDUNES_STAGE_QP_SOLVER_CLIPPING)
        (fun _ => 1) true (exampleLineSearchState ℝ)).2.alpha
      ≤ (exampleLineSearchEnv ℝ Real.sqrt QPDUNES_LS_GRADIENT_BISECTION_LS 5 3 1
        3).lsOpts.lineSearchMaxStepSize) := by
  have hmin := exampleLineSearchEnv_alphaMin QPDUNES_LS_GRADIENT_BISECTION_LS 5 3 1 3
    (exampleLsData ℝ []) (by norm_num)
  have hbis := exampleLineSearchEnv_bisection_inverted
  have hlam := bisectionIntervalSearch_lambda
    (exampleLineSearchEnv ℝ Real.sqrt QPDUNES_LS_GRADIENT_BISECTION_LS 5 3 1 3)
    (fun _ => 1) 1 5 1
    { lambda := fun _ => 2, alpha := 3, itCntr := 0, objValIncumbent := 0,
      qp := exampleLsData ℝ [] }
  have hsw := determineStepLength_lineSearch_bisection
    (exampleLineSearchEnv ℝ Real.sqrt QPDUNES_LS_GRADIENT_BISECTION_LS 5 3 1 3)
    (exampleStages ℝ QPDUNES_STAGE_QP_SOLVER_CLIPPING QPDUNES_STAGE_QP_SOLVER_CLIPPING)
    (fun _ => 1) 5 1
    { lambda := fun _ => 2, alpha := 3, itCntr := 0, objValIncumbent := 0,
      qp := exampleLsData ℝ [] } rfl
  have hsolver : ∀ k, k ≤ 1 → (exampleStages ℝ QPDUNES_STAGE_QP_SOLVER_CLIPPING
      QPDUNES_STAGE_QP_SOLVER_CLIPPING k).qpSolverSpecification ≠ unknownSolver := by
    intro k _
    unfold exampleStages
    dsimp only
    split_ifs <;> decide
  obtain ⟨d1, _, d3, _, d5⟩ := determineStepLength_of_lineSearch_ok
    (lineSearch_lsEnv
      (exampleLineSearchEnv ℝ Real.sqrt QPDUNES_LS_GRADIENT_BISECTION_LS 5 3 1 3)
      (exampleStages ℝ QPDUNES_STAGE_QP_SOLVER_CLIPPING QPDUNES_STAGE_QP_SOLVER_CLIPPING))
    (exampleStages ℝ QPDUNES_STAGE_QP_SOLVER_CLIPPING QPDUNES_STAGE_QP_SOLVER_CLIPPING)
    (fun _ => 1) true (exampleLineSearchState ℝ)
    (qpDUNES_bisectionIntervalSearch
      (exampleLineSearchEnv ℝ Real.sqrt QPDUNES_LS_GRADIENT_BISECTION_LS 5 3 1 3)
      (fun _ => 1) 1 5 1
      { lambda := fun _ => 2, alpha := 3, itCntr := 0, objValIncumbent := 0,
        qp := exampleLsData ℝ [] }).1
    (qpDUNES_bisectionIntervalSearch
      (exampleLineSearchEnv ℝ Real.sqrt QPDUNES_LS_GRADIENT_BISECTION_LS 5 3 1 3)
      (fun _ => 1) 1 5 1
      { lambda := fun _ => 2, alpha := 3, itCntr := 0, objValIncumbent := 0,
        qp := exampleLsData ℝ [] }).2
    (by simp)
    (by
      simp only [exampleLineSearchState] at hmin ⊢
      rw [hmin]
      exact hsw)
  have hst := (d5 hsolver).1
  rw [hbis.1] at hst
  rw [hbis.2] at d1
  refine ⟨hst, d1, ?_, ?_, ?_⟩
  · rw [d3 0, hlam, hbis.2]
    norm_num [lineSearch_lsEnv, exampleLineSearchEnv]
  · norm_num [exampleLineSearchEnv]
  · rw [d1]
    norm_num [exampleLineSearchEnv]

/-! ## The grid search -/

/-- The loop of the grid search after `k` grid points: the stage data are those left by
the `k` evaluations, the counter is untouched, and either no value so far has exceeded
the incumbent on entry and the step length and the incumbent are as on entry, or the
step length is a grid point `j < k` whose value exceeds the incumbent on entry and is at
least the value of every grid point before `k`, and the incumbent is that value. -/
theorem gridSearch_loop_spec {α ω : Type} [LinearOrderedField α]
    (env : lineSearch_env α ω) (stages : Nat → intervalNewton_t α) (alphaMin alphaMax : α)
    (s : ls_state α (lsData α ω)) (k : Nat) :
    ((List.range k).foldl (gridSearch_step env stages alphaMin alphaMax) s).qp
        = gridSearch_trialData env stages alphaMin alphaMax k s.qp
    ∧ ((List.range k).foldl (gridSearch_step env stages alphaMin alphaMax) s).itCntr
        = s.itCntr
    ∧ (((∀ i, i < k → ¬ (gridSearch_trialValue env stages alphaMin alphaMax i s.qp
            > s.objValIncumbent))
        ∧ ((List.range k).foldl (gridSearch_step env stages alphaMin alphaMax) s).alpha
          = s.alpha
        ∧ ((List.range k).foldl (gridSearch_step env stages alphaMin alphaMax)
            s).objValIncumbent = s.objValIncumbent)
      ∨ ∃ j, j < k
        ∧ ((List.range k).foldl (gridSearch_step env stages alphaMin alphaMax) s).alpha
          = gridSearch_point env alphaMin alphaMax j
        ∧ ((List.range k).foldl (gridSearch_step env stages alphaMin alphaMax)
            s).objValIncumbent = gridSearch_trialValue env stages alphaMin alphaMax j s.qp
        ∧ gridSearch_trialValue env stages alphaMin alphaMax j s.qp > s.objValIncumbent
        ∧ ∀ i, i < k → gridSearch_trialValue env stages alphaMin alphaMax i s.qp
            ≤ gridSearch_trialValue env stages alphaMin alphaMax j s.qp) := by
  induction k with
  | zero =>
    refine ⟨rfl, rfl, Or.inl ⟨?_, rfl, rfl⟩⟩
    intro i hi
    omega
  | succ k ih =>
    obtain ⟨h1, h2, h3⟩ := ih
    rw [List.range_succ, List.foldl_append]
    simp only [List.foldl_cons, List.foldl_nil]
    generalize (List.range k).foldl (gridSearch_step env stages alphaMin alphaMax) s = sk
      at h1 h2 h3 ⊢
    have hv : (qpDUNES_computeParametricObjectiveValue env stages
        (alphaMin + (k : α) * (alphaMax - alphaMin)
          / ((env.lsOpts.lineSearchNbrGridPoints : α) - 1)) sk.qp).1
        = gridSearch_trialValue env stages alphaMin alphaMax k s.qp := by
      rw [h1]
      rfl
    have hq : (qpDUNES_computeParametricObjectiveValue env stages
        (alphaMin + (k : α) * (alphaMax - alphaMin)
          / ((env.lsOpts.lineSearchNbrGridPoints : α) - 1)) sk.qp).2
        = gridSearch_trialData env stages alphaMin alphaMax (k + 1) s.qp := by
      rw [h1]
      unfold gridSearch_trialData
      rw [List.range_succ, List.foldl_append]
      rfl
    unfold gridSearch_step
    dsimp only
    rw [hv, hq]
    by_cases hgt : gridSearch_trialValue env stages alphaMin alphaMax k s.qp
        > sk.objValIncumbent
    · rw [if_pos hgt]
      refine ⟨rfl, h2, Or.inr ⟨k, Nat.lt_succ_self k, rfl, rfl, ?_, ?_⟩⟩
      · rcases h3 with ⟨_, _, c3⟩ | ⟨j, _, _, c3, c4, _⟩
        · rw [← c3]
          exact hgt
        · rw [c3] at hgt
          exact lt_trans c4 hgt
      · intro i hi
        by_cases hik : i = k
        · rw [hik]
        · have hlt : i < k := by omega
          rcases h3 with ⟨c1, _, c3⟩ | ⟨j, _, _, c3, _, c5⟩
          · rw [c3] at hgt
            exact le_of_lt (lt_of_le_of_lt (not_lt.1 (c1 i hlt)) hgt)
          · rw [c3] at hgt
            exact le_of_lt (lt_of_le_of_lt (c5 i hlt) hgt)
    · rw [if_neg hgt]
      refine ⟨rfl, h2, ?_⟩
      rcases h3 with ⟨c1, c2, c3⟩ | ⟨j, hj, c2, c3, c4, c5⟩
      · refine Or.inl ⟨?_, c2, c3⟩
        intro i hi
        by_cases hik : i = k
        · rw [hik, ← c3]
          exact hgt
        · exact c1 i (by omega)
      · refine Or.inr ⟨j, by omega, c2, c3, c4, ?_⟩
        intro i hi
        by_cases hik : i = k
        · rw [hik, ← c3]
          exact not_lt.1 hgt
        · exact c5 i (by omega)

/-- C28 (counterexample). With two grid points on the interval from `0` to `1`, the
incumbent `0` and the step length `3` left by an earlier iteration, the grid search of
the example evaluates the dual value at `0` and at `1`; neither value (both are `0`)
exceeds the incumbent, so the search returns `QPDUNES_OK` with the step length `3`, which
is none of the grid points. -/
theorem gridSearch_bestPoint_counterexample :
    (qpDUNES_gridSearch
        (exampleLineSearchEnv ℝ Real.sqrt QPDUNES_LS_GRID_LS (1 / 4) 3 3 2)
        (exampleStages ℝ QPDUNES_STAGE_QP_SOLVER_CLIPPING QPDUNES_STAGE_QP_SOLVER_CLIPPING)
        0 1 (exampleLineSearchState ℝ)).1 = QPDUNES_OK
    ∧ (qpDUNES_gridSearch
        (exampleLineSearchEnv ℝ Real.sqrt QPDUNES_LS_GRID_LS (1 / 4) 3 3 2)
        (exampleStages ℝ QPDUNES_STAGE_QP_SOLVER_CLIPPING QPDUNES_STAGE_QP_SOLVER_CLIPPING)
        0 1 (exampleLineSearchState ℝ)).2.alpha = 3
    ∧ (qpDUNES_gridSearch
        (exampleLineSearchEnv ℝ Real.sqrt QPDUNES_LS_GRID_LS (1 / 4) 3 3 2)
        (exampleStages ℝ QPDUNES_STAGE_QP_SOLVER_CLIPPING QPDUNES_STAGE_QP_SOLVER_CLIPPING)
        0 1 (exampleLineSearchState ℝ)).2.qp.other = [1, 0]
    ∧ ¬ (∃ k : Nat, k < 2
      ∧ (qpDUNES_gridSearch
        (exampleLineSearchEnv ℝ Real.sqrt QPDUNES_LS_GRID_LS (1 / 4) 3 3 2)
        (exampleStages ℝ QPDUNES_STAGE_QP_SOLVER_CLIPPING QPDUNES_STAGE_QP_SOLVER_CLIPPING)
        0 1 (exampleLineSearchState ℝ)).2.alpha
        = 0 + (k : ℝ) * (1 - 0) / ((2 : ℝ) - 1)) := by
  have e1 : (exampleLineSearchEnv ℝ Real.sqrt QPDUNES_LS_GRID_LS (1 / 4) 3 3
      2).lsOpts.lineSearchNbrGridPoints = 2 := rfl
  have h : qpDUNES_gridSearch
      (exampleLineSearchEnv ℝ Real.sqrt QPDUNES_LS_GRID_LS (1 / 4) 3 3 2)
      (exampleStages ℝ QPDUNES_STAGE_QP_SOLVER_CLIPPING QPDUNES_STAGE_QP_SOLVER_CLIPPING)
      0 1 (exampleLineSearchState ℝ)
      = (QPDUNES_OK,
          { lambda := fun _ => 2, alpha := 3, itCntr := 2, objValIncumbent := 0,
            qp := exampleLsData ℝ [1, 0] }) := by
    simp only [qpDUNES_gridSearch, e1, List.range_succ, List.range_zero, List.nil_append,
      List.cons_append, List.foldl_cons, List.foldl_nil, gridSearch_step,
      exampleLineSearchState, exampleLineSearchEnv_trial]
    norm_num [exampleLineSearchEnv_trial]
  rw [h]
  refine ⟨rfl, rfl, rfl, ?_⟩
  rintro ⟨k, hk, hk2⟩
  have hk3 : k = 0 ∨ k = 1 := by omega
  rcases hk3 with rfl | rfl
  · norm_num at hk2
  · norm_num at hk2

/-- C28 (amended). Grid search: for every `lineSearchNbrGridPoints = n >= 2`,
`qpDUNES_gridSearch` evaluates the dual value at the `n` equally spaced points
`alphaMin + k * (alphaMax - alphaMin) / (n - 1)`, `k = 0 .. n-1`, in this order (the
first point is `alphaMin`, the last is `alphaMax`), returns `QPDUNES_OK` and increases
the iteration counter by `n`; if the dual value at some grid point exceeds the incumbent
on entry, it outputs as `alpha` a grid point whose dual value is at least the dual value
at every grid point, and that value as the incumbent. -/
theorem gridSearch_bestPoint {α ω : Type} [LinearOrderedField α]
    (env : lineSearch_env α ω) (stages : Nat → intervalNewton_t α) (alphaMin alphaMax : α)
    (s : ls_state α (lsData α ω)) (hn : 2 ≤ env.lsOpts.lineSearchNbrGridPoints) :
    (qpDUNES_gridSearch env stages alphaMin alphaMax s).1 = QPDUNES_OK
    ∧ (qpDUNES_gridSearch env stages alphaMin alphaMax s).2.itCntr
      = s.itCntr + env.lsOpts.lineSearchNbrGridPoints
    ∧ gridSearch_point env alphaMin alphaMax 0 = alphaMin
    ∧ gridSearch_point env alphaMin alphaMax (env.lsOpts.lineSearchNbrGridPoints - 1)
      = alphaMax
    ∧ (qpDUNES_gridSearch env stages alphaMin alphaMax s).2.qp
      = gridSearch_trialData env stages alphaMin alphaMax
          env.lsOpts.lineSearchNbrGridPoints s.qp
    ∧ ((∃ k, k < env.lsOpts.lineSearchNbrGridPoints
          ∧ gridSearch_trialValue env stages alphaMin alphaMax k s.qp > s.objValIncumbent) →
        ∃ j, j < env.lsOpts.lineSearchNbrGridPoints
          ∧ (qpDUNES_gridSearch env stages alphaMin alphaMax s).2.alpha
            = gridSearch_point env alphaMin alphaMax j
          ∧ (qpDUNES_gridSearch env stages alphaMin alphaMax s).2.objValIncumbent
            = gridSearch_trialValue env stages alphaMin alphaMax j s.qp
          ∧ ∀ i, i < env.lsOpts.lineSearchNbrGridPoints →
            gridSearch_trialValue env stages alphaMin alphaMax i s.qp
              ≤ gridSearch_trialValue env stages alphaMin alphaMax j s.qp) := by
  obtain ⟨h1, h2, h3⟩ := gridSearch_loop_spec env stages alphaMin alphaMax s
    env.lsOpts.lineSearchNbrGridPoints
  refine ⟨rfl, ?_, ?_, ?_, h1, ?_⟩
  · show _ + _ = _
    rw [h2]
  · unfold gridSearch_point
    simp
  · unfold gridSearch_point
    have hc : ((env.lsOpts.lineSearchNbrGridPoints - 1 : Nat) : α)
        = (env.lsOpts.lineSearchNbrGridPoints : α) - 1 := by
      rw [Nat.cast_sub (by omega)]
      simp
    have hpos : (env.lsOpts.lineSearchNbrGridPoints : α) - 1 ≠ 0 := by
      have h2le : (2 : α) ≤ (env.lsOpts.lineSearchNbrGridPoints : α) := by
        exact_mod_cast hn
      have : (0 : α) < (env.lsOpts.lineSearchNbrGridPoints : α) - 1 := by linarith
      exact ne_of_gt this
    rw [hc, mul_div_cancel_left₀ _ hpos]
    ring
  · rintro ⟨k, hk, hv⟩
    rcases h3 with ⟨c1, _, _⟩ | ⟨j, hj, c2, c3, _, c5⟩
    · exact absurd hv (c1 k hk)
    · exact ⟨j, hj, c2, c3, c5⟩

/-- Witness for C28: the example with three grid points. -/
theorem gridSearch_bestPoint_witness :
    (qpDUNES_gridSearch
        (exampleLineSearchEnv ℝ Real.sqrt QPDUNES_LS_GRID_LS (1 / 4) 3 3 3)
        (exampleStages ℝ QPDUNES_STAGE_QP_SOLVER_CLIPPING QPDUNES_STAGE_QP_SOLVER_CLIPPING)
        0 1 (exampleLineSearchState ℝ)).1 = QPDUNES_OK :=
  (gridSearch_bestPoint
    (exampleLineSearchEnv ℝ Real.sqrt QPDUNES_LS_GRID_LS (1 / 4) 3 3 3)
    (exampleStages ℝ QPDUNES_STAGE_QP_SOLVER_CLIPPING QPDUNES_STAGE_QP_SOLVER_CLIPPING)
    0 1 (exampleLineSearchState ℝ) (by norm_num [exampleLineSearchEnv])).1

/-! ## Monotone dual ascent -/

/-- When the loop of the backtracking search returns `QPDUNES_OK`, the stage data it
leaves are those left by an evaluation of the dual value at the returned step length,
and that value passed the progress test. -/
theorem backTrackingLineSearch_loop_accepted {α ω : Type} [LinearOrderedField α]
    (env : lineSearch_env α ω) (stages : Nat → intervalNewton_t α)
    (normDeltaLambda alphaMin objValIncumbent minimumProgress : α) (fuel : Nat) :
    ∀ s : ls_state α (lsData α ω),
      (backTrackingLineSearch_loop env stages normDeltaLambda alphaMin objValIncumbent
          minimumProgress fuel s).1 = QPDUNES_OK →
      ∃ qp0,
        (backTrackingLineSearch_loop env stages normDeltaLambda alphaMin objValIncumbent
            minimumProgress fuel s).2.qp
          = (qpDUNES_computeParametricObjectiveValue env stages
              (backTrackingLineSearch_loop env stages normDeltaLambda alphaMin
                objValIncumbent minimumProgress fuel s).2.alpha qp0).2
        ∧ (qpDUNES_computeParametricObjectiveValue env stages
              (backTrackingLineSearch_loop env stages normDeltaLambda alphaMin
                objValIncumbent minimumProgress fuel s).2.alpha qp0).1
            > objValIncumbent + minimumProgress := by
  induction fuel with
  | zero =>
    intro s h
    simp only [backTrackingLineSearch_loop] at h
    cases h
  | succ fuel ih =>
    intro s h
    simp only [backTrackingLineSearch_loop] at h ⊢
    by_cases h1 : (qpDUNES_computeParametricObjectiveValue env stages s.alpha s.qp).1
        > objValIncumbent + minimumProgress
    · rw [if_pos h1]
      exact ⟨s.qp, rfl, h1⟩
    · rw [if_neg h1] at h ⊢
      by_cases h2 : normDeltaLambda
          * (s.alpha * env.opts.lineSearchReductionFactor - alphaMin)
          < env.opts.equalityTolerance
      · rw [if_pos h2] at h
        cases h
      · rw [if_neg h2] at h ⊢
        exact ih _ h

/-- When the backtracking search returns `QPDUNES_OK`, the stage data it leaves are
those left by an evaluation of the dual value at the returned step length, and that
value exceeds
`objValIncumbent + lineSearchMinRelProgress * |objValIncumbent| + lineSearchMinAbsProgress`. -/
theorem backTrackingLineSearch_accepted {α ω : Type} [LinearOrderedField α]
    (env : lineSearch_env α ω) (stages : Nat → intervalNewton_t α)
    (deltaLambdaFS : vector_t α) (nV : Nat) (alphaMin alphaMax objValIncumbent : α)
    (s : ls_state α (lsData α ω))
    (hok : (qpDUNES_backTrackingLineSearch env stages deltaLambdaFS nV alphaMin alphaMax
      objValIncumbent s).1 = QPDUNES_OK) :
    ∃ qp0,
      (qpDUNES_backTrackingLineSearch env stages deltaLambdaFS nV alphaMin alphaMax
          objValIncumbent s).2.qp
        = (qpDUNES_computeParametricObjectiveValue env stages
            (qpDUNES_backTrackingLineSearch env stages deltaLambdaFS nV alphaMin alphaMax
              objValIncumbent s).2.alpha qp0).2
      ∧ (qpDUNES_computeParametricObjectiveValue env stages
            (qpDUNES_backTrackingLineSearch env stages deltaLambdaFS nV alphaMin alphaMax
              objValIncumbent s).2.alpha qp0).1
          > objValIncumbent + env.lsOpts.lineSearchMinRelProgress * |objValIncumbent|
            + env.lsOpts.lineSearchMinAbsProgress := by
  unfold qpDUNES_backTrackingLineSearch at hok ⊢
  dsimp only at hok ⊢
  obtain ⟨qp0, h1, h2⟩ := backTrackingLineSearch_loop_accepted env stages _ _ _ _ _ _ hok
  refine ⟨qp0, h1, ?_⟩
  rw [add_assoc]
  exact h2

/-- The switch "do a line search" for the two backtracking searches, when the step
length that the backtracking search leaves is not raised to `alphaMin`: the switch goes
on to "UPDATE VARIABLES" with what the backtracking search returns, unless that is the
minimum-step error. -/
theorem determineStepLength_lineSearch_backTracking_kept {α ω : Type}
    [LinearOrderedField α] (env : lineSearch_env α ω) (stages : Nat → intervalNewton_t α)
    (deltaLambdaFS : vector_t α) (alphaMin alphaMax : α) (s : ls_state α (lsData α ω))
    (hls : env.opts.lsType = QPDUNES_LS_BACKTRACKING_LS
      ∨ (env.opts.lsType = QPDUNES_LS_BACKTRACKING_LS_WITH_AS_CHANGE
        ∧ ¬ (alphaMin < 1 - env.opts.equalityTolerance
          ∧ (qpDUNES_backTrackingLineSearch env stages deltaLambdaFS (env.nx * env.NI) 0
              alphaMax s.objValIncumbent s).2.alpha < alphaMin))) :
    determineStepLength_lineSearch (lineSearch_lsEnv env stages) deltaLambdaFS alphaMin
        alphaMax s
      = if (qpDUNES_backTrackingLineSearch env stages deltaLambdaFS (env.nx * env.NI) 0
            alphaMax s.objValIncumbent s).1 = QPDUNES_ERR_DECEEDED_MIN_LINESEARCH_STEPSIZE
        then .error (qpDUNES_backTrackingLineSearch env stages deltaLambdaFS
          (env.nx * env.NI) 0 alphaMax s.objValIncumbent s)
        else .ok (qpDUNES_backTrackingLineSearch env stages deltaLambdaFS
          (env.nx * env.NI) 0 alphaMax s.objValIncumbent s) := by
  rcases hls with h | ⟨h, hkeep⟩
  · exact determineStepLength_lineSearch_backTracking env stages deltaLambdaFS alphaMin
      alphaMax s h
  · rw [determineStepLength_lineSearch_asChange env stages deltaLambdaFS alphaMin alphaMax
      s h, if_neg hkeep]

/-- C24 (amended). Monotone dual ascent: in every iteration in which
`qpDUNES_determineStepLength` does not take the full-step shortcut (as when the Hessian
is not regularized and `alphaMin <= 1 - equalityTolerance`), `lsType` is
`QPDUNES_LS_BACKTRACKING_LS`, or `QPDUNES_LS_BACKTRACKING_LS_WITH_AS_CHANGE` and the
step length of the backtracking search is not raised to `alphaMin`,
`lineSearchMinRelProgress >= 0`, the routine returns `QPDUNES_OK`, and the stage
solvers reproduce a trial (the stage steps of a length `a`, taken on the data that the
evaluation of the dual value at `a` has left, give stage data whose objective value is
that dual value), the incumbent objective after `qpDUNES_determineStepLength` satisfies
`objVal_new >= objVal_old + lineSearchMinAbsProgress`. -/
theorem determineStepLength_ascent {α ω : Type} [LinearOrderedField α]
    (env : lineSearch_env α ω) (stages : Nat → intervalNewton_t α)
    (deltaLambdaFS : vector_t α) (newtonHessianRegularized : Bool)
    (s : ls_state α (lsData α ω))
    (hshort : ¬ ((determineStepLength_alphaMin (lineSearch_lsEnv env stages) stages s.qp).1
      > 1 - env.opts.equalityTolerance ∧ newtonHessianRegularized = false))
    (hls : env.opts.lsType = QPDUNES_LS_BACKTRACKING_LS
      ∨ (env.opts.lsType = QPDUNES_LS_BACKTRACKING_LS_WITH_AS_CHANGE
        ∧ ¬ ((determineStepLength_alphaMin (lineSearch_lsEnv env stages) stages s.qp).1
            < 1 - env.opts.equalityTolerance
          ∧ (qpDUNES_backTrackingLineSearch env stages deltaLambdaFS (env.nx * env.NI) 0 1
              s.objValIncumbent { s with itCntr := 0 }).2.alpha
            < (determineStepLength_alphaMin (lineSearch_lsEnv env stages) stages s.qp).1)))
    (hrel : 0 ≤ env.lsOpts.lineSearchMinRelProgress)
    (hstep : ∀ a qp qp1,
      determineStepLength_doSteps (lineSearch_lsEnv env stages) stages a
          (qpDUNES_computeParametricObjectiveValue env stages a qp).2 = .ok qp1 →
      qpDUNES_computeObjectiveValue env qp1
        = (qpDUNES_computeParametricObjectiveValue env stages a qp).1)
    (hok : (qpDUNES_determineStepLength (lineSearch_lsEnv env stages) stages deltaLambdaFS
      newtonHessianRegularized s).1 = QPDUNES_OK) :
    (qpDUNES_determineStepLength (lineSearch_lsEnv env stages) stages deltaLambdaFS
        newtonHessianRegularized s).2.objValIncumbent
      ≥ s.objValIncumbent + env.lsOpts.lineSearchMinAbsProgress := by
  have hne1 : ¬ (QPDUNES_ERR_DECEEDED_MIN_LINESEARCH_STEPSIZE = QPDUNES_OK) := by decide
  have hne2 : ¬ (QPDUNES_OK = QPDUNES_ERR_UNKNOWN_ERROR) := by decide
  have hsw := determineStepLength_lineSearch_backTracking_kept env stages deltaLambdaFS
    (determineStepLength_alphaMin (lineSearch_lsEnv env stages) stages s.qp).1 1
    { s with itCntr := 0 } hls
  have hspec := backTrackingLineSearch_accepted env stages deltaLambdaFS
    (env.nx * env.NI) 0 1 s.objValIncumbent { s with itCntr := 0 }
  dsimp only at hsw hspec
  generalize qpDUNES_backTrackingLineSearch env stages deltaLambdaFS (env.nx * env.NI) 0 1
    s.objValIncumbent { s with itCntr := 0 } = r at hsw hspec
  by_cases hd : r.1 = QPDUNES_ERR_DECEEDED_MIN_LINESEARCH_STEPSIZE
  · rw [if_pos hd] at hsw
    rw [determineStepLength_of_lineSearch_error (lineSearch_lsEnv env stages) stages
      deltaLambdaFS newtonHessianRegularized s r hshort hsw, hd] at hok
    exact absurd hok hne1
  · rw [if_neg hd] at hsw
    have hne : (qpDUNES_determineStepLength (lineSearch_lsEnv env stages) stages
        deltaLambdaFS newtonHessianRegularized s).1 ≠ QPDUNES_ERR_UNKNOWN_ERROR := by
      rw [hok]
      exact hne2
    obtain ⟨c1, c2, c3⟩ := determineStepLength_of_lineSearch_incumbent
      (lineSearch_lsEnv env stages) stages deltaLambdaFS newtonHessianRegularized s r.1 r.2
      hshort hsw hne
    obtain ⟨qp0, b1, b2⟩ := hspec (c1.symm.trans hok)
    rw [b1] at c2
    have h4 := hstep _ _ _ c2
    have h5 : (qpDUNES_determineStepLength (lineSearch_lsEnv env stages) stages
        deltaLambdaFS newtonHessianRegularized s).2.objValIncumbent
        = (qpDUNES_computeParametricObjectiveValue env stages r.2.alpha qp0).1 :=
      c3.trans h4
    rw [h5]
    have h1 : 0 ≤ env.lsOpts.lineSearchMinRelProgress * |s.objValIncumbent| :=
      mul_nonneg hrel (abs_nonneg _)
    have h3 : s.objValIncumbent + env.lsOpts.lineSearchMinAbsProgress
        ≤ s.objValIncumbent + env.lsOpts.lineSearchMinRelProgress * |s.objValIncumbent|
          + env.lsOpts.lineSearchMinAbsProgress :=
      add_le_add_right (le_add_of_nonneg_right h1) _
    exact le_trans h3 (le_of_lt b2)
/-- The dual value of the ascent examples at the step length `a`. -/
theorem exampleAscentEnv_trial (f : ℝ → ℝ) (minRel minAbs : ℝ) (lsType : lsType_t)
    (minStep : ℝ) (maxIt maxRef nGrid : Nat) (a : ℝ) (l : List ℝ) :
    qpDUNES_computeParametricObjectiveValue
        (exampleAscentEnv ℝ Real.sqrt f minRel minAbs lsType minStep maxIt maxRef nGrid)
        (exampleStages ℝ QPDUNES_STAGE_QP_SOLVER_CLIPPING QPDUNES_STAGE_QP_SOLVER_CLIPPING)
        a (exampleLsData ℝ l)
      = (f a, exampleLsData ℝ (a :: l)) := by
  simp [qpDUNES_computeParametricObjectiveValue, exampleAscentEnv, exampleStages,
    exampleLsData, loopExcept, List.range_succ, scalarProd]

/-- The minimum step of the ascent examples. -/
theorem exampleAscentEnv_alphaMin (f : ℝ → ℝ) (minRel minAbs : ℝ) (lsType : lsType_t)
    (minStep : ℝ) (maxIt maxRef nGrid : Nat) (qp : lsData ℝ (List ℝ))
    (h : minStep < 1000) :
    (determineStepLength_alphaMin
        (lineSearch_lsEnv
          (exampleAscentEnv ℝ Real.sqrt f minRel minAbs lsType minStep maxIt maxRef nGrid)
          (exampleStages ℝ QPDUNES_STAGE_QP_SOLVER_CLIPPING QPDUNES_STAGE_QP_SOLVER_CLIPPING))
        (exampleStages ℝ QPDUNES_STAGE_QP_SOLVER_CLIPPING QPDUNES_STAGE_QP_SOLVER_CLIPPING)
        qp).1 = minStep := by
  simp [determineStepLength_alphaMin, lineSearch_lsEnv, exampleAscentEnv, exampleStages,
    List.range_succ, h]

/-- The stage steps of the ascent examples reproduce a trial: taken on the data that
the evaluation of the dual value at `a` has left, they give stage data whose objective
value is that dual value. -/
theorem exampleAscentEnv_consistent (f : ℝ → ℝ) (minRel minAbs : ℝ) (lsType : lsType_t)
    (minStep : ℝ) (maxIt maxRef nGrid : Nat) (a : ℝ) (qp qp1 : lsData ℝ (List ℝ))
    (h : determineStepLength_doSteps
        (lineSearch_lsEnv
          (exampleAscentEnv ℝ Real.sqrt f minRel minAbs lsType minStep maxIt maxRef nGrid)
          (exampleStages ℝ QPDUNES_STAGE_QP_SOLVER_CLIPPING QPDUNES_STAGE_QP_SOLVER_CLIPPING))
        (exampleStages ℝ QPDUNES_STAGE_QP_SOLVER_CLIPPING QPDUNES_STAGE_QP_SOLVER_CLIPPING)
        a
        (qpDUNES_computeParametricObjectiveValue
          (exampleAscentEnv ℝ Real.sqrt f minRel minAbs lsType minStep maxIt maxRef nGrid)
          (exampleStages ℝ QPDUNES_STAGE_QP_SOLVER_CLIPPING
            QPDUNES_STAGE_QP_SOLVER_CLIPPING) a qp).2 = .ok qp1) :
    qpDUNES_computeObjectiveValue
        (exampleAscentEnv ℝ Real.sqrt f minRel minAbs lsType minStep maxIt maxRef nGrid) qp1
      = (qpDUNES_computeParametricObjectiveValue
          (exampleAscentEnv ℝ Real.sqrt f minRel minAbs lsType minStep maxIt maxRef nGrid)
          (exampleStages ℝ QPDUNES_STAGE_QP_SOLVER_CLIPPING
            QPDUNES_STAGE_QP_SOLVER_CLIPPING) a qp).1 := by
  simp [determineStepLength_doSteps, lineSearch_lsEnv, qpDUNES_computeParametricObjectiveValue,
    exampleAscentEnv, exampleStages, loopExcept, List.range_succ] at h ⊢
  subst h
  simp [qpDUNES_computeObjectiveValue, List.range_succ, Function.update_apply]

/-- The stage steps of the ascent examples on data whose `z` is zero: the objective
value afterwards is `f a`. -/
theorem exampleAscentEnv_accept (f : ℝ → ℝ) (minRel minAbs : ℝ) (lsType : lsType_t)
    (minStep : ℝ) (maxIt maxRef nGrid : Nat) (a : ℝ) (qp : lsData ℝ (List ℝ))
    (hz : ∀ k i, (qp.intervals k).z i = 0) :
    ∃ qp1, determineStepLength_doSteps
        (lineSearch_lsEnv
          (exampleAscentEnv ℝ Real.sqrt f minRel minAbs lsType minStep maxIt maxRef nGrid)
          (exampleStages ℝ QPDUNES_STAGE_QP_SOLVER_CLIPPING QPDUNES_STAGE_QP_SOLVER_CLIPPING))
        (exampleStages ℝ QPDUNES_STAGE_QP_SOLVER_CLIPPING QPDUNES_STAGE_QP_SOLVER_CLIPPING)
        a qp = .ok qp1
      ∧ qpDUNES_computeObjectiveValue
        (exampleAscentEnv ℝ Real.sqrt f minRel minAbs lsType minStep maxIt maxRef nGrid) qp1
        = f a := by
  have h : determineStepLength_doSteps
      (lineSearch_lsEnv
        (exampleAscentEnv ℝ Real.sqrt f minRel minAbs lsType minStep maxIt maxRef nGrid)
        (exampleStages ℝ QPDUNES_STAGE_QP_SOLVER_CLIPPING QPDUNES_STAGE_QP_SOLVER_CLIPPING))
      (exampleStages ℝ QPDUNES_STAGE_QP_SOLVER_CLIPPING QPDUNES_STAGE_QP_SOLVER_CLIPPING)
      a qp
      = .ok ((exampleAscentEnv ℝ Real.sqrt f minRel minAbs lsType minStep maxIt maxRef
          nGrid).directQpSolver_doStep 1 a
        ((exampleAscentEnv ℝ Real.sqrt f minRel minAbs lsType minStep maxIt maxRef
          nGrid).directQpSolver_doStep 0 a qp)) := by
    simp [determineStepLength_doSteps, lineSearch_lsEnv, exampleAscentEnv, exampleStages,
      loopExcept, List.range_succ]
  refine ⟨_, h, ?_⟩
  simp [qpDUNES_computeObjectiveValue, List.range_succ, Function.update_apply, scalarProd,
    hz, exampleAscentEnv]
/-- The step-length routine on the ascent examples when the full-step shortcut is not
taken and the line search goes on to "UPDATE VARIABLES" with the status `st` and the
state `s1`: the routine returns `st`, keeps the step length of `s1` and stores the dual
value at that step length as the incumbent. -/
theorem exampleAscentStep_of_lineSearch (f : ℝ → ℝ) (minRel minAbs : ℝ)
    (lsType : lsType_t) (minStep : ℝ) (maxIt maxRef nGrid : Nat) (objVal : ℝ)
    (st : return_t) (s1 : ls_state ℝ (lsData ℝ (List ℝ)))
    (hmin : minStep ≤ 1 - 1 / 1000)
    (hls : determineStepLength_lineSearch
        (lineSearch_lsEnv
          (exampleAscentEnv ℝ Real.sqrt f minRel minAbs lsType minStep maxIt maxRef nGrid)
          (exampleStages ℝ QPDUNES_STAGE_QP_SOLVER_CLIPPING QPDUNES_STAGE_QP_SOLVER_CLIPPING))
        (fun _ => 1) minStep 1
        { lambda := fun _ => 2, alpha := 3, itCntr := 0, objValIncumbent := objVal,
          qp := exampleLsData ℝ [] } = .ok (st, s1))
    (hz : ∀ k i, (s1.qp.intervals k).z i = 0) :
    (exampleAscentStep ℝ Real.sqrt f minRel minAbs lsType minStep maxIt maxRef nGrid
        objVal).1 = st
    ∧ (exampleAscentStep ℝ Real.sqrt f minRel minAbs lsType minStep maxIt maxRef nGrid
        objVal).2.alpha = s1.alpha
    ∧ (exampleAscentStep ℝ Real.sqrt f minRel minAbs lsType minStep maxIt maxRef nGrid
        objVal).2.objValIncumbent = f s1.alpha := by
  have hm := exampleAscentEnv_alphaMin f minRel minAbs lsType minStep maxIt maxRef nGrid
    (exampleLsData ℝ []) (by linarith)
  have hshort : ¬ (minStep > 1 - 1 / 1000 ∧ True) := by
    rintro ⟨h, _⟩
    linarith
  have e1 : (lineSearch_lsEnv
      (exampleAscentEnv ℝ Real.sqrt f minRel minAbs lsType minStep maxIt maxRef nGrid)
      (exampleStages ℝ QPDUNES_STAGE_QP_SOLVER_CLIPPING
        QPDUNES_STAGE_QP_SOLVER_CLIPPING)).opts.equalityTolerance = 1 / 1000 := rfl
  obtain ⟨qp1, h1, h2⟩ := exampleAscentEnv_accept f minRel minAbs lsType minStep maxIt
    maxRef nGrid s1.alpha s1.qp hz
  have e4 : ∀ qp, (lineSearch_lsEnv
      (exampleAscentEnv ℝ Real.sqrt f minRel minAbs lsType minStep maxIt maxRef nGrid)
      (exampleStages ℝ QPDUNES_STAGE_QP_SOLVER_CLIPPING
        QPDUNES_STAGE_QP_SOLVER_CLIPPING)).qpDUNES_computeObjectiveValue qp
      = qpDUNES_computeObjectiveValue
        (exampleAscentEnv ℝ Real.sqrt f minRel minAbs lsType minStep maxIt maxRef nGrid)
        qp :=
    fun _ => rfl
  unfold exampleAscentStep qpDUNES_determineStepLength
  simp only [exampleLineSearchState] at hm ⊢
  rw [hm, e1, if_neg hshort, hls]
  dsimp only
  rw [h1]
  dsimp only
  rw [e4, h2]
  exact ⟨rfl, rfl, rfl⟩

/-- The step-length routine on the ascent examples when the full-step shortcut is
taken: it returns `QPDUNES_OK` and stores the dual value at the step length `1` as the
incumbent. -/
theorem exampleAscentStep_fullStep (f : ℝ → ℝ) (minRel minAbs : ℝ)
    (lsType : lsType_t) (minStep : ℝ) (maxIt maxRef nGrid : Nat) (objVal : ℝ)
    (hmin : 1 - 1 / 1000 < minStep) (hmin2 : minStep < 1000) :
    (exampleAscentStep ℝ Real.sqrt f minRel minAbs lsType minStep maxIt maxRef nGrid
        objVal).1 = QPDUNES_OK
    ∧ (exampleAscentStep ℝ Real.sqrt f minRel minAbs lsType minStep maxIt maxRef nGrid
        objVal).2.alpha = 1
    ∧ (exampleAscentStep ℝ Real.sqrt f minRel minAbs lsType minStep maxIt maxRef nGrid
        objVal).2.objValIncumbent = f 1 := by
  have hm := exampleAscentEnv_alphaMin f minRel minAbs lsType minStep maxIt maxRef nGrid
    (exampleLsData ℝ []) hmin2
  have hshort : minStep > 1 - 1 / 1000 ∧ True := ⟨hmin, trivial⟩
  have e1 : (lineSearch_lsEnv
      (exampleAscentEnv ℝ Real.sqrt f minRel minAbs lsType minStep maxIt maxRef nGrid)
      (exampleStages ℝ QPDUNES_STAGE_QP_SOLVER_CLIPPING
        QPDUNES_STAGE_QP_SOLVER_CLIPPING)).opts.equalityTolerance = 1 / 1000 := rfl
  obtain ⟨qp1, h1, h2⟩ := exampleAscentEnv_accept f minRel minAbs lsType minStep maxIt
    maxRef nGrid 1 (exampleLsData ℝ []) (fun _ _ => rfl)
  have e4 : ∀ qp, (lineSearch_lsEnv
      (exampleAscentEnv ℝ Real.sqrt f minRel minAbs lsType minStep maxIt maxRef nGrid)
      (exampleStages ℝ QPDUNES_STAGE_QP_SOLVER_CLIPPING
        QPDUNES_STAGE_QP_SOLVER_CLIPPING)).qpDUNES_computeObjectiveValue qp
      = qpDUNES_computeObjectiveValue
        (exampleAscentEnv ℝ Real.sqrt f minRel minAbs lsType minStep maxIt maxRef nGrid)
        qp :=
    fun _ => rfl
  unfold exampleAscentStep qpDUNES_determineStepLength
  simp only [exampleLineSearchState] at hm ⊢
  rw [hm, e1, if_pos hshort, h1]
  dsimp only
  rw [e4, h2]
  exact ⟨rfl, rfl, rfl⟩
/-- The backtracking search of the ascent examples with the dual value `a - a^2`,
`lineSearchMinAbsProgress = 1/5` and three iterations allowed: the trial at `1` (value
`0`) is rejected, the trial at `1/2` (value `1/4`) is accepted. -/
theorem exampleAscentEnv_backTracking (lsType : lsType_t) (minStep : ℝ)
    (maxRef nGrid : Nat) :
    qpDUNES_backTrackingLineSearch
        (exampleAscentEnv ℝ Real.sqrt (fun a => a - a ^ 2) 0 (1 / 5) lsType minStep 3
          maxRef nGrid)
        (exampleStages ℝ QPDUNES_STAGE_QP_SOLVER_CLIPPING QPDUNES_STAGE_QP_SOLVER_CLIPPING)
        (fun _ => 1) 1 0 1 0
        { lambda := fun _ => 2, alpha := 3, itCntr := 0, objValIncumbent := 0,
          qp := exampleLsData ℝ [] }
      = (QPDUNES_OK,
          { lambda := fun _ => 2, alpha := 1 / 2, itCntr := 1, objValIncumbent := 0,
            qp := exampleLsData ℝ [1 / 2, 1] }) := by
  have e1 : (exampleAscentEnv ℝ Real.sqrt (fun a => a - a ^ 2) 0 (1 / 5) lsType minStep 3
      maxRef nGrid).lsOpts.maxNumLineSearchIterations = 3 := rfl
  simp only [qpDUNES_backTrackingLineSearch, e1, backTrackingLineSearch_loop,
    exampleAscentEnv_trial]
  norm_num [exampleAscentEnv, vectorNorm, List.range_succ]

/-- The backtracking search of the ascent examples with the dual value `a - a^2`,
`lineSearchMinAbsProgress = 3/10` and one iteration allowed: the trial at `1` is
rejected, the step length is reduced to `1/2`, and the search stops at the cap. -/
theorem exampleAscentEnv_backTracking_cap (lsType : lsType_t) (minStep : ℝ)
    (maxRef nGrid : Nat) :
    qpDUNES_backTrackingLineSearch
        (exampleAscentEnv ℝ Real.sqrt (fun a => a - a ^ 2) 0 (3 / 10) lsType minStep 1
          maxRef nGrid)
        (exampleStages ℝ QPDUNES_STAGE_QP_SOLVER_CLIPPING QPDUNES_STAGE_QP_SOLVER_CLIPPING)
        (fun _ => 1) 1 0 1 0
        { lambda := fun _ => 2, alpha := 3, itCntr := 0, objValIncumbent := 0,
          qp := exampleLsData ℝ [] }
      = (QPDUNES_ERR_NUMBER_OF_MAX_LINESEARCH_ITERATIONS_REACHED,
          { lambda := fun _ => 2, alpha := 1 / 2, itCntr := 1, objValIncumbent := 0,
            qp := exampleLsData ℝ [1] }) := by
  have e1 : (exampleAscentEnv ℝ Real.sqrt (fun a => a - a ^ 2) 0 (3 / 10) lsType minStep 1
      maxRef nGrid).lsOpts.maxNumLineSearchIterations = 1 := rfl
  simp only [qpDUNES_backTrackingLineSearch, e1, backTrackingLineSearch_loop,
    exampleAscentEnv_trial]
  norm_num [exampleAscentEnv, vectorNorm, List.range_succ]

/-- The backtracking search of the ascent examples with the dual value `1 + a - a^2`,
the incumbent `1`, `lineSearchMinRelProgress = -1` and
`lineSearchMinAbsProgress = 1/1000`: the trial at `1` (value `1`) exceeds
`1 + (-1) * |1| + 1/1000` and is accepted. -/
theorem exampleAscentEnv_backTracking_negRel (lsType : lsType_t) (minStep : ℝ)
    (maxRef nGrid : Nat) :
    qpDUNES_backTrackingLineSearch
        (exampleAscentEnv ℝ Real.sqrt (fun a => 1 + a - a ^ 2) (-1) (1 / 1000) lsType
          minStep 3 maxRef nGrid)
        (exampleStages ℝ QPDUNES_STAGE_QP_SOLVER_CLIPPING QPDUNES_STAGE_QP_SOLVER_CLIPPING)
        (fun _ => 1) 1 0 1 1
        { lambda := fun _ => 2, alpha := 3, itCntr := 0, objValIncumbent := 1,
          qp := exampleLsData ℝ [] }
      = (QPDUNES_OK,
          { lambda := fun _ => 2, alpha := 1, itCntr := 0, objValIncumbent := 1,
            qp := exampleLsData ℝ [1] }) := by
  have e1 : (exampleAscentEnv ℝ Real.sqrt (fun a => 1 + a - a ^ 2) (-1) (1 / 1000) lsType
      minStep 3 maxRef nGrid).lsOpts.maxNumLineSearchIterations = 3 := rfl
  simp only [qpDUNES_backTrackingLineSearch, e1, backTrackingLineSearch_loop,
    exampleAscentEnv_trial]
  norm_num [exampleAscentEnv, vectorNorm, List.range_succ]

/-- The grid search of the ascent examples with the dual value `a - a^2` and two grid
points on the interval from `1/4` to `1`: the value `3/16` at `1/4` exceeds the
incumbent `0`, the value `0` at `1` does not exceed `3/16`. -/
theorem exampleAscentEnv_gridSearch (minRel minAbs : ℝ) (lsType : lsType_t)
    (minStep : ℝ) (maxIt maxRef : Nat) (a0 : ℝ) (it0 : Nat) (l : List ℝ) :
    qpDUNES_gridSearch
        (exampleAscentEnv ℝ Real.sqrt (fun a => a - a ^ 2) minRel minAbs lsType minStep
          maxIt maxRef 2)
        (exampleStages ℝ QPDUNES_STAGE_QP_SOLVER_CLIPPING QPDUNES_STAGE_QP_SOLVER_CLIPPING)
        (1 / 4) 1
        { lambda := fun _ => 2, alpha := a0, itCntr := it0, objValIncumbent := 0,
          qp := exampleLsData ℝ l }
      = (QPDUNES_OK,
          { lambda := fun _ => 2, alpha := 1 / 4, itCntr := it0 + 2,
            objValIncumbent := 3 / 16, qp := exampleLsData ℝ (1 :: 1 / 4 :: l) }) := by
  have e1 : (exampleAscentEnv ℝ Real.sqrt (fun a => a - a ^ 2) minRel minAbs lsType minStep
      maxIt maxRef 2).lsOpts.lineSearchNbrGridPoints = 2 := rfl
  simp only [qpDUNES_gridSearch, e1, List.range_succ, List.range_zero, List.nil_append,
    List.cons_append, List.foldl_cons, List.foldl_nil, gridSearch_step,
    exampleAscentEnv_trial]
  norm_num [exampleAscentEnv_trial]
/-- The bisection search of the ascent examples on the interval from `0` to `1`, with
one more refinement iteration allowed than the counter shows: the derivative at `1` is
`-1`, the derivative at the midpoint `1/2` is `0`, and the search returns `QPDUNES_OK`
with the step length `1/2`; the primal `z` of the stages is not written. -/
theorem exampleAscentEnv_bisection (f : ℝ → ℝ) (minRel minAbs : ℝ) (lsType : lsType_t)
    (minStep : ℝ) (maxIt nGrid : Nat) (a0 : ℝ) (it0 : Nat) (l : List ℝ) :
    (qpDUNES_bisectionIntervalSearch
        (exampleAscentEnv ℝ Real.sqrt f minRel minAbs lsType minStep maxIt (it0 + 1) nGrid)
        (fun _ => 1) 1 0 1
        { lambda := fun _ => 2, alpha := a0, itCntr := it0, objValIncumbent := 0,
          qp := exampleLsData ℝ l }).1 = QPDUNES_OK
    ∧ (qpDUNES_bisectionIntervalSearch
        (exampleAscentEnv ℝ Real.sqrt f minRel minAbs lsType minStep maxIt (it0 + 1) nGrid)
        (fun _ => 1) 1 0 1
        { lambda := fun _ => 2, alpha := a0, itCntr := it0, objValIncumbent := 0,
          qp := exampleLsData ℝ l }).2.alpha = 1 / 2
    ∧ ∀ k i, ((qpDUNES_bisectionIntervalSearch
        (exampleAscentEnv ℝ Real.sqrt f minRel minAbs lsType minStep maxIt (it0 + 1) nGrid)
        (fun _ => 1) 1 0 1
        { lambda := fun _ => 2, alpha := a0, itCntr := it0, objValIncumbent := 0,
          qp := exampleLsData ℝ l }).2.qp.intervals k).z i = 0 := by
  have e1 : (exampleAscentEnv ℝ Real.sqrt f minRel minAbs lsType minStep maxIt (it0 + 1)
      nGrid).lsOpts.maxNumLineSearchRefinementIterations = it0 + 1 := rfl
  simp only [qpDUNES_bisectionIntervalSearch, qpDUNES_bisectionIntervalSearch_trace, e1,
    Nat.add_sub_cancel_left, bisectionIntervalSearch_inflate, bisectionIntervalSearch_halve]
  refine ⟨?_, ?_, ?_⟩
  · norm_num [bisectionIntervalSearch_slope, bisectionIntervalSearch_trialPrimal,
      bisectionIntervalSearch_gradientTry, addVectorScaledVector, multiplyCz, addToVector,
      scalarProd, List.range_succ, exampleLsData, exampleAscentEnv, vectorNorm,
      bisectionIntervalSearch_inflate, bisectionIntervalSearch_halve]
  · norm_num [bisectionIntervalSearch_slope, bisectionIntervalSearch_trialPrimal,
      bisectionIntervalSearch_gradientTry, addVectorScaledVector, multiplyCz, addToVector,
      scalarProd, List.range_succ, exampleLsData, exampleAscentEnv, vectorNorm,
      bisectionIntervalSearch_inflate, bisectionIntervalSearch_halve]
  · intro k i
    norm_num [bisectionIntervalSearch_slope, bisectionIntervalSearch_trialPrimal,
      bisectionIntervalSearch_gradientTry, addVectorScaledVector, multiplyCz, addToVector,
      scalarProd, List.range_succ, exampleLsData, exampleAscentEnv, vectorNorm,
      bisectionIntervalSearch_inflate, bisectionIntervalSearch_halve,
      Function.update_apply]
    split_ifs <;> rfl
/-- The switch of `qpDUNES_determineStepLength` for `QPDUNES_LS_GRID_LS`. -/
theorem determineStepLength_lineSearch_grid {α ω : Type} [LinearOrderedField α]
    (env : lineSearch_env α ω) (stages : Nat → intervalNewton_t α)
    (deltaLambdaFS : vector_t α) (alphaMin alphaMax : α) (s : ls_state α (lsData α ω))
    (hls : env.opts.lsType = QPDUNES_LS_GRID_LS) :
    determineStepLength_lineSearch (lineSearch_lsEnv env stages) deltaLambdaFS alphaMin
        alphaMax s
      = .ok (qpDUNES_gridSearch env stages alphaMin alphaMax s) := by
  have h : (lineSearch_lsEnv env stages).opts.lsType = QPDUNES_LS_GRID_LS := hls
  unfold determineStepLength_lineSearch
  rw [h]
  rfl

/-- The switch of `qpDUNES_determineStepLength` for
`QPDUNES_LS_ACCELERATED_GRADIENT_BISECTION_LS`. -/
theorem determineStepLength_lineSearch_acceleratedBisection {α ω : Type}
    [LinearOrderedField α] (env : lineSearch_env α ω) (stages : Nat → intervalNewton_t α)
    (deltaLambdaFS : vector_t α) (alphaMin alphaMax : α) (s : ls_state α (lsData α ω))
    (hls : env.opts.lsType = QPDUNES_LS_ACCELERATED_GRADIENT_BISECTION_LS) :
    determineStepLength_lineSearch (lineSearch_lsEnv env stages) deltaLambdaFS alphaMin
        alphaMax s
      = if (qpDUNES_backTrackingLineSearch env stages deltaLambdaFS (env.nx * env.NI) 0
            alphaMax s.objValIncumbent s).1 = QPDUNES_ERR_DECEEDED_MIN_LINESEARCH_STEPSIZE
        then .error (qpDUNES_backTrackingLineSearch env stages deltaLambdaFS
          (env.nx * env.NI) 0 alphaMax s.objValIncumbent s)
        else .ok (qpDUNES_bisectionIntervalSearch env deltaLambdaFS (env.nx * env.NI)
          alphaMin
          (min alphaMax ((qpDUNES_backTrackingLineSearch env stages deltaLambdaFS
            (env.nx * env.NI) 0 alphaMax s.objValIncumbent s).2.alpha
              / env.opts.lineSearchReductionFactor))
          (qpDUNES_backTrackingLineSearch env stages deltaLambdaFS (env.nx * env.NI) 0
            alphaMax s.objValIncumbent s).2) := by
  have h : (lineSearch_lsEnv env stages).opts.lsType
      = QPDUNES_LS_ACCELERATED_GRADIENT_BISECTION_LS := hls
  unfold determineStepLength_lineSearch
  rw [h]
  rfl

/-- The switch of `qpDUNES_determineStepLength` for `QPDUNES_LS_ACCELERATED_GRID_LS`. -/
theorem determineStepLength_lineSearch_acceleratedGrid {α ω : Type}
    [LinearOrderedField α] (env : lineSearch_env α ω) (stages : Nat → intervalNewton_t α)
    (deltaLambdaFS : vector_t α) (alphaMin alphaMax : α) (s : ls_state α (lsData α ω))
    (hls : env.opts.lsType = QPDUNES_LS_ACCELERATED_GRID_LS) :
    determineStepLength_lineSearch (lineSearch_lsEnv env stages) deltaLambdaFS alphaMin
        alphaMax s
      = if (qpDUNES_backTrackingLineSearch env stages deltaLambdaFS (env.nx * env.NI) 0
            alphaMax s.objValIncumbent s).1 = QPDUNES_ERR_DECEEDED_MIN_LINESEARCH_STEPSIZE
        then .error (qpDUNES_backTrackingLineSearch env stages deltaLambdaFS
          (env.nx * env.NI) 0 alphaMax s.objValIncumbent s)
        else .ok (qpDUNES_gridSearch env stages alphaMin
          (min alphaMax ((qpDUNES_backTrackingLineSearch env stages deltaLambdaFS
            (env.nx * env.NI) 0 alphaMax s.objValIncumbent s).2.alpha
              / env.opts.lineSearchReductionFactor))
          (qpDUNES_backTrackingLineSearch env stages deltaLambdaFS (env.nx * env.NI) 0
            alphaMax s.objValIncumbent s).2) := by
  have h : (lineSearch_lsEnv env stages).opts.lsType = QPDUNES_LS_ACCELERATED_GRID_LS := hls
  unfold determineStepLength_lineSearch
  rw [h]
  rfl

/-- The ascent example with `QPDUNES_LS_BACKTRACKING_LS`, the dual value `a - a^2`,
`lineSearchMinAbsProgress = 1/5` and three iterations allowed: the trial at `1/2` is
accepted and its value `1/4` is the new incumbent. -/
theorem exampleAscentStep_accept :
    (exampleAscentStep ℝ Real.sqrt (fun a => a - a ^ 2) 0 (1 / 5)
        QPDUNES_LS_BACKTRACKING_LS (1 / 4) 3 3 2 0).1 = QPDUNES_OK
    ∧ (exampleAscentStep ℝ Real.sqrt (fun a => a - a ^ 2) 0 (1 / 5)
        QPDUNES_LS_BACKTRACKING_LS (1 / 4) 3 3 2 0).2.alpha = 1 / 2
    ∧ (exampleAscentStep ℝ Real.sqrt (fun a => a - a ^ 2) 0 (1 / 5)
        QPDUNES_LS_BACKTRACKING_LS (1 / 4) 3 3 2 0).2.objValIncumbent = 1 / 4 := by
  have hne : ¬ (QPDUNES_OK = QPDUNES_ERR_DECEEDED_MIN_LINESEARCH_STEPSIZE) := by decide
  have h := exampleAscentStep_of_lineSearch (fun a => a - a ^ 2) 0 (1 / 5)
    QPDUNES_LS_BACKTRACKING_LS (1 / 4) 3 3 2 0 QPDUNES_OK
    { lambda := fun _ => 2, alpha := 1 / 2, itCntr := 1, objValIncumbent := 0,
      qp := exampleLsData ℝ [1 / 2, 1] }
    (by norm_num)
    (by
      rw [determineStepLength_lineSearch_backTracking _ _ _ _ _ _ rfl]
      have e2 : (exampleAscentEnv ℝ Real.sqrt (fun a => a - a ^ 2) 0 (1 / 5)
          QPDUNES_LS_BACKTRACKING_LS (1 / 4) 3 3 2).nx
          * (exampleAscentEnv ℝ Real.sqrt (fun a => a - a ^ 2) 0 (1 / 5)
          QPDUNES_LS_BACKTRACKING_LS (1 / 4) 3 3 2).NI = 1 := rfl
      simp only [e2, exampleAscentEnv_backTracking, hne, if_false])
    (fun _ _ => rfl)
  refine ⟨h.1, h.2.1, ?_⟩
  rw [h.2.2]
  norm_num

/-- The ascent example with `QPDUNES_LS_BACKTRACKING_LS`, the dual value `a - a^2`,
`lineSearchMinAbsProgress = 3/10` and one iteration allowed: the search stops at the cap
with the step length `1/2`, whose value `1/4` is the new incumbent. -/
theorem exampleAscentStep_cap :
    (exampleAscentStep ℝ Real.sqrt (fun a => a - a ^ 2) 0 (3 / 10)
        QPDUNES_LS_BACKTRACKING_LS (1 / 4) 1 3 2 0).1
      = QPDUNES_ERR_NUMBER_OF_MAX_LINESEARCH_ITERATIONS_REACHED
    ∧ (exampleAscentStep ℝ Real.sqrt (fun a => a - a ^ 2) 0 (3 / 10)
        QPDUNES_LS_BACKTRACKING_LS (1 / 4) 1 3 2 0).2.alpha = 1 / 2
    ∧ (exampleAscentStep ℝ Real.sqrt (fun a => a - a ^ 2) 0 (3 / 10)
        QPDUNES_LS_BACKTRACKING_LS (1 / 4) 1 3 2 0).2.objValIncumbent = 1 / 4 := by
  have hne : ¬ (QPDUNES_ERR_NUMBER_OF_MAX_LINESEARCH_ITERATIONS_REACHED
      = QPDUNES_ERR_DECEEDED_MIN_LINESEARCH_STEPSIZE) := by decide
  have h := exampleAscentStep_of_lineSearch (fun a => a - a ^ 2) 0 (3 / 10)
    QPDUNES_LS_BACKTRACKING_LS (1 / 4) 1 3 2 0
    QPDUNES_ERR_NUMBER_OF_MAX_LINESEARCH_ITERATIONS_REACHED
    { lambda := fun _ => 2, alpha := 1 / 2, itCntr := 1, objValIncumbent := 0,
      qp := exampleLsData ℝ [1] }
    (by norm_num)
    (by
      rw [determineStepLength_lineSearch_backTracking _ _ _ _ _ _ rfl]
      have e2 : (exampleAscentEnv ℝ Real.sqrt (fun a => a - a ^ 2) 0 (3 / 10)
          QPDUNES_LS_BACKTRACKING_LS (1 / 4) 1 3 2).nx
          * (exampleAscentEnv ℝ Real.sqrt (fun a => a - a ^ 2) 0 (3 / 10)
          QPDUNES_LS_BACKTRACKING_LS (1 / 4) 1 3 2).NI = 1 := rfl
      simp only [e2, exampleAscentEnv_backTracking_cap, hne, if_false])
    (fun _ _ => rfl)
  refine ⟨h.1, h.2.1, ?_⟩
  rw [h.2.2]
  norm_num

/-- The ascent example with `QPDUNES_LS_BACKTRACKING_LS_WITH_AS_CHANGE`, the dual value
`a - a^2`, `lineSearchMinAbsProgress = 1/5` and the minimum step `3/4`: the backtracking
search accepts the trial at `1/2`, the step length is raised to `3/4`, and the value
`3/16` there is the new incumbent. -/
theorem exampleAscentStep_raised :
    (exampleAscentStep ℝ Real.sqrt (fun a => a - a ^ 2) 0 (1 / 5)
        QPDUNES_LS_BACKTRACKING_LS_WITH_AS_CHANGE (3 / 4) 3 3 2 0).1 = QPDUNES_OK
    ∧ (exampleAscentStep ℝ Real.sqrt (fun a => a - a ^ 2) 0 (1 / 5)
        QPDUNES_LS_BACKTRACKING_LS_WITH_AS_CHANGE (3 / 4) 3 3 2 0).2.alpha = 3 / 4
    ∧ (exampleAscentStep ℝ Real.sqrt (fun a => a - a ^ 2) 0 (1 / 5)
        QPDUNES_LS_BACKTRACKING_LS_WITH_AS_CHANGE (3 / 4) 3 3 2 0).2.objValIncumbent
      = 3 / 16 := by
  have hne : ¬ (QPDUNES_OK = QPDUNES_ERR_DECEEDED_MIN_LINESEARCH_STEPSIZE) := by decide
  have hraise : (3 / 4 : ℝ) < 1 - 1 / 1000 ∧ (1 / 2 : ℝ) < 3 / 4 := by norm_num
  have h := exampleAscentStep_of_lineSearch (fun a => a - a ^ 2) 0 (1 / 5)
    QPDUNES_LS_BACKTRACKING_LS_WITH_AS_CHANGE (3 / 4) 3 3 2 0 QPDUNES_OK
    { lambda := fun _ => 2, alpha := 3 / 4, itCntr := 1, objValIncumbent := 0,
      qp := exampleLsData ℝ [1 / 2, 1] }
    (by norm_num)
    (by
      rw [determineStepLength_lineSearch_asChange _ _ _ _ _ _ rfl]
      have e2 : (exampleAscentEnv ℝ Real.sqrt (fun a => a - a ^ 2) 0 (1 / 5)
          QPDUNES_LS_BACKTRACKING_LS_WITH_AS_CHANGE (3 / 4) 3 3 2).nx
          * (exampleAscentEnv ℝ Real.sqrt (fun a => a - a ^ 2) 0 (1 / 5)
          QPDUNES_LS_BACKTRACKING_LS_WITH_AS_CHANGE (3 / 4) 3 3 2).NI = 1 := rfl
      have e3 : (exampleAscentEnv ℝ Real.sqrt (fun a => a - a ^ 2) 0 (1 / 5)
          QPDUNES_LS_BACKTRACKING_LS_WITH_AS_CHANGE (3 / 4) 3 3
          2).opts.equalityTolerance = 1 / 1000 := rfl
      simp only [e2, e3, exampleAscentEnv_backTracking, hne, if_false, hraise, and_self,
        if_true])
    (fun _ _ => rfl)
  refine ⟨h.1, h.2.1, ?_⟩
  rw [h.2.2]
  norm_num

/-- The ascent example with `QPDUNES_LS_GRID_LS`, the dual value `a - a^2`, two grid
points and the minimum step `1/4`: the grid search returns the grid point `1/4`, whose
value `3/16` is the new incumbent. -/
theorem exampleAscentStep_grid :
    (exampleAscentStep ℝ Real.sqrt (fun a => a - a ^ 2) 0 (1 / 5)
        QPDUNES_LS_GRID_LS (1 / 4) 3 3 2 0).1 = QPDUNES_OK
    ∧ (exampleAscentStep ℝ Real.sqrt (fun a => a - a ^ 2) 0 (1 / 5)
        QPDUNES_LS_GRID_LS (1 / 4) 3 3 2 0).2.alpha = 1 / 4
    ∧ (exampleAscentStep ℝ Real.sqrt (fun a => a - a ^ 2) 0 (1 / 5)
        QPDUNES_LS_GRID_LS (1 / 4) 3 3 2 0).2.objValIncumbent = 3 / 16 := by
  have h := exampleAscentStep_of_lineSearch (fun a => a - a ^ 2) 0 (1 / 5)
    QPDUNES_LS_GRID_LS (1 / 4) 3 3 2 0 QPDUNES_OK
    { lambda := fun _ => 2, alpha := 1 / 4, itCntr := 0 + 2, objValIncumbent := 3 / 16,
      qp := exampleLsData ℝ [1, 1 / 4] }
    (by norm_num)
    (by
      rw [determineStepLength_lineSearch_grid _ _ _ _ _ _ rfl,
        exampleAscentEnv_gridSearch])
    (fun _ _ => rfl)
  refine ⟨h.1, h.2.1, ?_⟩
  rw [h.2.2]
  norm_num

/-- The ascent example with `QPDUNES_LS_ACCELERATED_GRID_LS`, the dual value `a - a^2`,
`lineSearchMinAbsProgress = 1/5`, two grid points and the minimum step `1/4`: the
backtracking search accepts the trial at `1/2`, the grid search on the interval from
`1/4` to `1` then returns the grid point `1/4`, whose value `3/16` is the new
incumbent. -/
theorem exampleAscentStep_acceleratedGrid :
    (exampleAscentStep ℝ Real.sqrt (fun a => a - a ^ 2) 0 (1 / 5)
        QPDUNES_LS_ACCELERATED_GRID_LS (1 / 4) 3 3 2 0).1 = QPDUNES_OK
    ∧ (exampleAscentStep ℝ Real.sqrt (fun a => a - a ^ 2) 0 (1 / 5)
        QPDUNES_LS_ACCELERATED_GRID_LS (1 / 4) 3 3 2 0).2.alpha = 1 / 4
    ∧ (exampleAscentStep ℝ Real.sqrt (fun a => a - a ^ 2) 0 (1 / 5)
        QPDUNES_LS_ACCELERATED_GRID_LS (1 / 4) 3 3 2 0).2.objValIncumbent = 3 / 16 := by
  have hne : ¬ (QPDUNES_OK = QPDUNES_ERR_DECEEDED_MIN_LINESEARCH_STEPSIZE) := by decide
  have hmin : min (1 : ℝ) (1 / 2 / (1 / 2)) = 1 := by norm_num
  have h := exampleAscentStep_of_lineSearch (fun a => a - a ^ 2) 0 (1 / 5)
    QPDUNES_LS_ACCELERATED_GRID_LS (1 / 4) 3 3 2 0 QPDUNES_OK
    { lambda := fun _ => 2, alpha := 1 / 4, itCntr := 1 + 2, objValIncumbent := 3 / 16,
      qp := exampleLsData ℝ [1, 1 / 4, 1 / 2, 1] }
    (by norm_num)
    (by
      rw [determineStepLength_lineSearch_acceleratedGrid _ _ _ _ _ _ rfl]
      have e2 : (exampleAscentEnv ℝ Real.sqrt (fun a => a - a ^ 2) 0 (1 / 5)
          QPDUNES_LS_ACCELERATED_GRID_LS (1 / 4) 3 3 2).nx
          * (exampleAscentEnv ℝ Real.sqrt (fun a => a - a ^ 2) 0 (1 / 5)
          QPDUNES_LS_ACCELERATED_GRID_LS (1 / 4) 3 3 2).NI = 1 := rfl
      have e3 : (exampleAscentEnv ℝ Real.sqrt (fun a => a - a ^ 2) 0 (1 / 5)
          QPDUNES_LS_ACCELERATED_GRID_LS (1 / 4) 3 3
          2).opts.lineSearchReductionFactor = 1 / 2 := rfl
      simp only [e2, e3, exampleAscentEnv_backTracking, hne, if_false, hmin,
        exampleAscentEnv_gridSearch])
    (fun _ _ => rfl)
  refine ⟨h.1, h.2.1, ?_⟩
  rw [h.2.2]
  norm_num

/-- The ascent example with `QPDUNES_LS_GRADIENT_BISECTION_LS`, the dual value
`a - a^2`, `lineSearchMinAbsProgress = 3/10` and the minimum step `0`: the bisection
search returns the stationary step length `1/2`, whose value `1/4` is the new
incumbent. -/
theorem exampleAscentStep_bisection :
    (exampleAscentStep ℝ Real.sqrt (fun a => a - a ^ 2) 0 (3 / 10)
        QPDUNES_LS_GRADIENT_BISECTION_LS 0 3 (0 + 1) 2 0).1 = QPDUNES_OK
    ∧ (exampleAscentStep ℝ Real.sqrt (fun a => a - a ^ 2) 0 (3 / 10)
        QPDUNES_LS_GRADIENT_BISECTION_LS 0 3 (0 + 1) 2 0).2.alpha = 1 / 2
    ∧ (exampleAscentStep ℝ Real.sqrt (fun a => a - a ^ 2) 0 (3 / 10)
        QPDUNES_LS_GRADIENT_BISECTION_LS 0 3 (0 + 1) 2 0).2.objValIncumbent = 1 / 4 := by
  obtain ⟨b1, b2, b3⟩ := exampleAscentEnv_bisection (fun a => a - a ^ 2) 0 (3 / 10)
    QPDUNES_LS_GRADIENT_BISECTION_LS 0 3 2 3 0 []
  have h := exampleAscentStep_of_lineSearch (fun a => a - a ^ 2) 0 (3 / 10)
    QPDUNES_LS_GRADIENT_BISECTION_LS 0 3 (0 + 1) 2 0
    (qpDUNES_bisectionIntervalSearch
      (exampleAscentEnv ℝ Real.sqrt (fun a => a - a ^ 2) 0 (3 / 10)
        QPDUNES_LS_GRADIENT_BISECTION_LS 0 3 (0 + 1) 2)
      (fun _ => 1) 1 0 1
      { lambda := fun _ => 2, alpha := 3, itCntr := 0, objValIncumbent := 0,
        qp := exampleLsData ℝ [] }).1
    (qpDUNES_bisectionIntervalSearch
      (exampleAscentEnv ℝ Real.sqrt (fun a => a - a ^ 2) 0 (3 / 10)
        QPDUNES_LS_GRADIENT_BISECTION_LS 0 3 (0 + 1) 2)
      (fun _ => 1) 1 0 1
      { lambda := fun _ => 2, alpha := 3, itCntr := 0, objValIncumbent := 0,
        qp := exampleLsData ℝ [] }).2
    (by norm_num)
    (determineStepLength_lineSearch_bisection _ _ _ _ _ _ rfl)
    b3
  rw [b1, b2] at h
  refine ⟨h.1, h.2.1, ?_⟩
  rw [h.2.2]
  norm_num

/-- The ascent example with `QPDUNES_LS_ACCELERATED_GRADIENT_BISECTION_LS`, the dual
value `a - a^2`, `lineSearchMinAbsProgress = 3/10`, one line-search iteration allowed
and the minimum step `0`: the backtracking search stops at the cap, the bisection
search then returns the stationary step length `1/2`, whose value `1/4` is the new
incumbent. -/
theorem exampleAscentStep_acceleratedBisection :
    (exampleAscentStep ℝ Real.sqrt (fun a => a - a ^ 2) 0 (3 / 10)
        QPDUNES_LS_ACCELERATED_GRADIENT_BISECTION_LS 0 1 (1 + 1) 2 0).1 = QPDUNES_OK
    ∧ (exampleAscentStep ℝ Real.sqrt (fun a => a - a ^ 2) 0 (3 / 10)
        QPDUNES_LS_ACCELERATED_GRADIENT_BISECTION_LS 0 1 (1 + 1) 2 0).2.alpha = 1 / 2
    ∧ (exampleAscentStep ℝ Real.sqrt (fun a => a - a ^ 2) 0 (3 / 10)
        QPDUNES_LS_ACCELERATED_GRADIENT_BISECTION_LS 0 1 (1 + 1) 2 0).2.objValIncumbent
      = 1 / 4 := by
  have hne : ¬ (QPDUNES_ERR_NUMBER_OF_MAX_LINESEARCH_ITERATIONS_REACHED
      = QPDUNES_ERR_DECEEDED_MIN_LINESEARCH_STEPSIZE) := by decide
  have hmin : min (1 : ℝ) (1 / 2 / (1 / 2)) = 1 := by norm_num
  obtain ⟨b1, b2, b3⟩ := exampleAscentEnv_bisection (fun a => a - a ^ 2) 0 (3 / 10)
    QPDUNES_LS_ACCELERATED_GRADIENT_BISECTION_LS 0 1 2 (1 / 2) 1 [1]
  have h := exampleAscentStep_of_lineSearch (fun a => a - a ^ 2) 0 (3 / 10)
    QPDUNES_LS_ACCELERATED_GRADIENT_BISECTION_LS 0 1 (1 + 1) 2 0
    (qpDUNES_bisectionIntervalSearch
      (exampleAscentEnv ℝ Real.sqrt (fun a => a - a ^ 2) 0 (3 / 10)
        QPDUNES_LS_ACCELERATED_GRADIENT_BISECTION_LS 0 1 (1 + 1) 2)
      (fun _ => 1) 1 0 1
      { lambda := fun _ => 2, alpha := 1 / 2, itCntr := 1, objValIncumbent := 0,
        qp := exampleLsData ℝ [1] }).1
    (qpDUNES_bisectionIntervalSearch
      (exampleAscentEnv ℝ Real.sqrt (fun a => a - a ^ 2) 0 (3 / 10)
        QPDUNES_LS_ACCELERATED_GRADIENT_BISECTION_LS 0 1 (1 + 1) 2)
      (fun _ => 1) 1 0 1
      { lambda := fun _ => 2, alpha := 1 / 2, itCntr := 1, objValIncumbent := 0,
        qp := exampleLsData ℝ [1] }).2
    (by norm_num)
    (by
      rw [determineStepLength_lineSearch_acceleratedBisection _ _ _ _ _ _ rfl]
      have e2 : (exampleAscentEnv ℝ Real.sqrt (fun a => a - a ^ 2) 0 (3 / 10)
          QPDUNES_LS_ACCELERATED_GRADIENT_BISECTION_LS 0 1 (1 + 1) 2).nx
          * (exampleAscentEnv ℝ Real.sqrt (fun a => a - a ^ 2) 0 (3 / 10)
          QPDUNES_LS_ACCELERATED_GRADIENT_BISECTION_LS 0 1 (1 + 1) 2).NI = 1 := rfl
      have e3 : (exampleAscentEnv ℝ Real.sqrt (fun a => a - a ^ 2) 0 (3 / 10)
          QPDUNES_LS_ACCELERATED_GRADIENT_BISECTION_LS 0 1 (1 + 1)
          2).opts.lineSearchReductionFactor = 1 / 2 := rfl
      simp only [e2, e3, exampleAscentEnv_backTracking_cap, hne, if_false, hmin])
    b3
  rw [b1, b2] at h
  refine ⟨h.1, h.2.1, ?_⟩
  rw [h.2.2]
  norm_num

/-- The ascent example with `QPDUNES_LS_BACKTRACKING_LS`, the dual value `1 + a - a^2`,
the incumbent `1`, `lineSearchMinRelProgress = -1` and
`lineSearchMinAbsProgress = 1/1000`: the trial at `1` is accepted and its value `1` is
the new incumbent. -/
theorem exampleAscentStep_negRel :
    (exampleAscentStep ℝ Real.sqrt (fun a => 1 + a - a ^ 2) (-1) (1 / 1000)
        QPDUNES_LS_BACKTRACKING_LS (1 / 4) 3 3 2 1).1 = QPDUNES_OK
    ∧ (exampleAscentStep ℝ Real.sqrt (fun a => 1 + a - a ^ 2) (-1) (1 / 1000)
        QPDUNES_LS_BACKTRACKING_LS (1 / 4) 3 3 2 1).2.alpha = 1
    ∧ (exampleAscentStep ℝ Real.sqrt (fun a => 1 + a - a ^ 2) (-1) (1 / 1000)
        QPDUNES_LS_BACKTRACKING_LS (1 / 4) 3 3 2 1).2.objValIncumbent = 1 := by
  have hne : ¬ (QPDUNES_OK = QPDUNES_ERR_DECEEDED_MIN_LINESEARCH_STEPSIZE) := by decide
  have h := exampleAscentStep_of_lineSearch (fun a => 1 + a - a ^ 2) (-1) (1 / 1000)
    QPDUNES_LS_BACKTRACKING_LS (1 / 4) 3 3 2 1 QPDUNES_OK
    { lambda := fun _ => 2, alpha := 1, itCntr := 0, objValIncumbent := 1,
      qp := exampleLsData ℝ [1] }
    (by norm_num)
    (by
      rw [determineStepLength_lineSearch_backTracking _ _ _ _ _ _ rfl]
      have e2 : (exampleAscentEnv ℝ Real.sqrt (fun a => 1 + a - a ^ 2) (-1) (1 / 1000)
          QPDUNES_LS_BACKTRACKING_LS (1 / 4) 3 3 2).nx
          * (exampleAscentEnv ℝ Real.sqrt (fun a => 1 + a - a ^ 2) (-1) (1 / 1000)
          QPDUNES_LS_BACKTRACKING_LS (1 / 4) 3 3 2).NI = 1 := rfl
      simp only [e2, exampleAscentEnv_backTracking_negRel, hne, if_false])
    (fun _ _ => rfl)
  refine ⟨h.1, h.2.1, ?_⟩
  rw [h.2.2]
  norm_num
/-- Witness for C24: in the ascent example with `QPDUNES_LS_BACKTRACKING_LS`, the dual
value `a - a^2`, the incumbent `0` and `lineSearchMinAbsProgress = 1/5`, the
backtracking search accepts the trial at `1/2`, the routine returns `QPDUNES_OK`, and
the new incumbent (`1/4`) is at least `0 + 1/5`. -/
theorem determineStepLength_ascent_witness :
    (exampleAscentStep ℝ Real.sqrt (fun a => a - a ^ 2) 0 (1 / 5)
        QPDUNES_LS_BACKTRACKING_LS (1 / 4) 3 3 2 0).1 = QPDUNES_OK
    ∧ (exampleAscentStep ℝ Real.sqrt (fun a => a - a ^ 2) 0 (1 / 5)
        QPDUNES_LS_BACKTRACKING_LS (1 / 4) 3 3 2 0).2.objValIncumbent ≥ 0 + 1 / 5 :=
  ⟨exampleAscentStep_accept.1,
    determineStepLength_ascent
      (exampleAscentEnv ℝ Real.sqrt (fun a => a - a ^ 2) 0 (1 / 5)
        QPDUNES_LS_BACKTRACKING_LS (1 / 4) 3 3 2)
      (exampleStages ℝ QPDUNES_STAGE_QP_SOLVER_CLIPPING QPDUNES_STAGE_QP_SOLVER_CLIPPING)
      (fun _ => 1) false { exampleLineSearchState ℝ with objValIncumbent := 0 }
      (by
        rw [exampleAscentEnv_alphaMin _ _ _ _ _ _ _ _ _ (by norm_num)]
        norm_num [exampleAscentEnv])
      (Or.inl rfl)
      (le_refl (0 : ℝ))
      (fun a qp qp1 h => exampleAscentEnv_consistent _ _ _ _ _ _ _ _ a qp qp1 h)
      exampleAscentStep_accept.1⟩

/-- C24 (counterexample). In the ascent examples the dual value along the search
direction is `a - a^2` and the incumbent is `0` (in the last one `1 + a - a^2` and `1`),
the stage steps reproduce a trial, the Hessian is not regularized, and
`qpDUNES_determineStepLength` returns a status the driver accepts, but the new
incumbent is below `objVal_old + lineSearchMinAbsProgress`:
with the minimum step `5` the full-step shortcut is taken (new incumbent `0`,
`lineSearchMinAbsProgress = 1/1000`);
with one iteration allowed the backtracking search stops at the cap with the step length
`1/2` (new incumbent `1/4`, `lineSearchMinAbsProgress = 3/10`);
with `QPDUNES_LS_BACKTRACKING_LS_WITH_AS_CHANGE` the accepted step length `1/2` is
raised to `alphaMin = 3/4` (new incumbent `3/16`, `lineSearchMinAbsProgress = 1/5`);
the grid search and the accelerated grid search return the grid point `1/4` (new
incumbent `3/16`, `lineSearchMinAbsProgress = 1/5`);
the bisection search and the accelerated bisection search return the stationary step
length `1/2` (new incumbent `1/4`, `lineSearchMinAbsProgress = 3/10`);
and with `lineSearchMinRelProgress = -1` the backtracking search accepts the full step
(new incumbent `1`, old incumbent `1`, `lineSearchMinAbsProgress = 1/1000`). -/
theorem determineStepLength_ascent_counterexample :
    ((exampleAscentStep ℝ Real.sqrt (fun a => a - a ^ 2) 0 (1 / 1000)
          QPDUNES_LS_BACKTRACKING_LS 5 3 3 2 0).1 = QPDUNES_OK
      ∧ (exampleAscentStep ℝ Real.sqrt (fun a => a - a ^ 2) 0 (1 / 1000)
          QPDUNES_LS_BACKTRACKING_LS 5 3 3 2 0).2.alpha = 1
      ∧ ¬ ((exampleAscentStep ℝ Real.sqrt (fun a => a - a ^ 2) 0 (1 / 1000)
          QPDUNES_LS_BACKTRACKING_LS 5 3 3 2 0).2.objValIncumbent ≥ 0 + 1 / 1000))
    ∧ ((exampleAscentStep ℝ Real.sqrt (fun a => a - a ^ 2) 0 (3 / 10)
          QPDUNES_LS_BACKTRACKING_LS (1 / 4) 1 3 2 0).1
        = QPDUNES_ERR_NUMBER_OF_MAX_LINESEARCH_ITERATIONS_REACHED
      ∧ (exampleAscentStep ℝ Real.sqrt (fun a => a - a ^ 2) 0 (3 / 10)
          QPDUNES_LS_BACKTRACKING_LS (1 / 4) 1 3 2 0).2.alpha = 1 / 2
      ∧ ¬ ((exampleAscentStep ℝ Real.sqrt (fun a => a - a ^ 2) 0 (3 / 10)
          QPDUNES_LS_BACKTRACKING_LS (1 / 4) 1 3 2 0).2.objValIncumbent ≥ 0 + 3 / 10))
    ∧ ((exampleAscentStep ℝ Real.sqrt (fun a => a - a ^ 2) 0 (1 / 5)
          QPDUNES_LS_BACKTRACKING_LS_WITH_AS_CHANGE (3 / 4) 3 3 2 0).1 = QPDUNES_OK
      ∧ (exampleAscentStep ℝ Real.sqrt (fun a => a - a ^ 2) 0 (1 / 5)
          QPDUNES_LS_BACKTRACKING_LS_WITH_AS_CHANGE (3 / 4) 3 3 2 0).2.alpha = 3 / 4
      ∧ ¬ ((exampleAscentStep ℝ Real.sqrt (fun a => a - a ^ 2) 0 (1 / 5)
          QPDUNES_LS_BACKTRACKING_LS_WITH_AS_CHANGE (3 / 4) 3 3 2 0).2.objValIncumbent
        ≥ 0 + 1 / 5))
    ∧ ((exampleAscentStep ℝ Real.sqrt (fun a => a - a ^ 2) 0 (1 / 5)
          QPDUNES_LS_GRID_LS (1 / 4) 3 3 2 0).1 = QPDUNES_OK
      ∧ (exampleAscentStep ℝ Real.sqrt (fun a => a - a ^ 2) 0 (1 / 5)
          QPDUNES_LS_GRID_LS (1 / 4) 3 3 2 0).2.alpha = 1 / 4
      ∧ ¬ ((exampleAscentStep ℝ Real.sqrt (fun a => a - a ^ 2) 0 (1 / 5)
          QPDUNES_LS_GRID_LS (1 / 4) 3 3 2 0).2.objValIncumbent ≥ 0 + 1 / 5))
    ∧ ((exampleAscentStep ℝ Real.sqrt (fun a => a - a ^ 2) 0 (1 / 5)
          QPDUNES_LS_ACCELERATED_GRID_LS (1 / 4) 3 3 2 0).1 = QPDUNES_OK
      ∧ (exampleAscentStep ℝ Real.sqrt (fun a => a - a ^ 2) 0 (1 / 5)
          QPDUNES_LS_ACCELERATED_GRID_LS (1 / 4) 3 3 2 0).2.alpha = 1 / 4
      ∧ ¬ ((exampleAscentStep ℝ Real.sqrt (fun a => a - a ^ 2) 0 (1 / 5)
          QPDUNES_LS_ACCELERATED_GRID_LS (1 / 4) 3 3 2 0).2.objValIncumbent ≥ 0 + 1 / 5))
    ∧ ((exampleAscentStep ℝ Real.sqrt (fun a => a - a ^ 2) 0 (3 / 10)
          QPDUNES_LS_GRADIENT_BISECTION_LS 0 3 (0 + 1) 2 0).1 = QPDUNES_OK
      ∧ (exampleAscentStep ℝ Real.sqrt (fun a => a - a ^ 2) 0 (3 / 10)
          QPDUNES_LS_GRADIENT_BISECTION_LS 0 3 (0 + 1) 2 0).2.alpha = 1 / 2
      ∧ ¬ ((exampleAscentStep ℝ Real.sqrt (fun a => a - a ^ 2) 0 (3 / 10)
          QPDUNES_LS_GRADIENT_BISECTION_LS 0 3 (0 + 1) 2 0).2.objValIncumbent
        ≥ 0 + 3 / 10))
    ∧ ((exampleAscentStep ℝ Real.sqrt (fun a => a - a ^ 2) 0 (3 / 10)
          QPDUNES_LS_ACCELERATED_GRADIENT_BISECTION_LS 0 1 (1 + 1) 2 0).1 = QPDUNES_OK
      ∧ (exampleAscentStep ℝ Real.sqrt (fun a => a - a ^ 2) 0 (3 / 10)
          QPDUNES_LS_ACCELERATED_GRADIENT_BISECTION_LS 0 1 (1 + 1) 2 0).2.alpha = 1 / 2
      ∧ ¬ ((exampleAscentStep ℝ Real.sqrt (fun a => a - a ^ 2) 0 (3 / 10)
          QPDUNES_LS_ACCELERATED_GRADIENT_BISECTION_LS 0 1 (1 + 1) 2 0).2.objValIncumbent
        ≥ 0 + 3 / 10))
    ∧ ((exampleAscentStep ℝ Real.sqrt (fun a => 1 + a - a ^ 2) (-1) (1 / 1000)
          QPDUNES_LS_BACKTRACKING_LS (1 / 4) 3 3 2 1).1 = QPDUNES_OK
      ∧ (exampleAscentStep ℝ Real.sqrt (fun a => 1 + a - a ^ 2) (-1) (1 / 1000)
          QPDUNES_LS_BACKTRACKING_LS (1 / 4) 3 3 2 1).2.alpha = 1
      ∧ ¬ ((exampleAscentStep ℝ Real.sqrt (fun a => 1 + a - a ^ 2) (-1) (1 / 1000)
          QPDUNES_LS_BACKTRACKING_LS (1 / 4) 3 3 2 1).2.objValIncumbent
        ≥ 1 + 1 / 1000)) := by
  obtain ⟨a1, a2, a3⟩ := exampleAscentStep_fullStep (fun a => a - a ^ 2) 0 (1 / 1000)
    QPDUNES_LS_BACKTRACKING_LS 5 3 3 2 0 (by norm_num) (by norm_num)
  obtain ⟨b1, b2, b3⟩ := exampleAscentStep_cap
  obtain ⟨c1, c2, c3⟩ := exampleAscentStep_raised
  obtain ⟨d1, d2, d3⟩ := exampleAscentStep_grid
  obtain ⟨e1, e2, e3⟩ := exampleAscentStep_acceleratedGrid
  obtain ⟨f1, f2, f3⟩ := exampleAscentStep_bisection
  obtain ⟨g1, g2, g3⟩ := exampleAscentStep_acceleratedBisection
  obtain ⟨h1, h2, h3⟩ := exampleAscentStep_negRel
  refine ⟨⟨a1, a2, ?_⟩, ⟨b1, b2, ?_⟩, ⟨c1, c2, ?_⟩, ⟨d1, d2, ?_⟩, ⟨e1, e2, ?_⟩,
    ⟨f1, f2, ?_⟩, ⟨g1, g2, ?_⟩, ⟨h1, h2, ?_⟩⟩
  · rw [a3]
    norm_num
  · rw [b3]
    norm_num
  · rw [c3]
    norm_num
  · rw [d3]
    norm_num
  · rw [e3]
    norm_num
  · rw [f3]
    norm_num
  · rw [g3]
    norm_num
  · rw [h3]
    norm_num

/-! ## The driver: the iteration limit and the status of the line search -/

/-- An iteration of `qpDUNES_solve` is its direction step followed by the stage solves,
the line search and the classification of its status. -/
theorem solve_iteration_eq {α ε : Type} [LinearOrderedField α] (env : solve_env α ε)
    (itCntr : Int) (s : solve_state α ε) :
    solve_iteration env itCntr s
      = match solve_direction env itCntr s with
        | .error e => .error e
        | .ok s =>
          match (env.determineStepLength
              (qpDUNES_solveAllLocalQPs env.NI env.updateAllLocalQPs env.solveLocalQP
                s).2).1 with
          | QPDUNES_OK =>
            .ok (env.logIteration (env.acceptActSet (env.determineStepLength
              (qpDUNES_solveAllLocalQPs env.NI env.updateAllLocalQPs env.solveLocalQP
                s).2).2))
          | QPDUNES_ERR_NUMBER_OF_MAX_LINESEARCH_ITERATIONS_REACHED =>
            .ok (env.logIteration (env.acceptActSet (env.determineStepLength
              (qpDUNES_solveAllLocalQPs env.NI env.updateAllLocalQPs env.solveLocalQP
                s).2).2))
          | QPDUNES_ERR_EXCEEDED_MAX_LINESEARCH_STEPSIZE =>
            .ok (env.logIteration (env.acceptActSet (env.determineStepLength
              (qpDUNES_solveAllLocalQPs env.NI env.updateAllLocalQPs env.solveLocalQP
                s).2).2))
          | QPDUNES_ERR_DECEEDED_MIN_LINESEARCH_STEPSIZE =>
            .error (QPDUNES_ERR_NEWTON_SYSTEM_NO_ASCENT_DIRECTION,
              solve_logIfEnabled env (env.determineStepLength
                (qpDUNES_solveAllLocalQPs env.NI env.updateAllLocalQPs env.solveLocalQP
                  s).2).2)
          | statusFlag =>
            .error (statusFlag,
              solve_logIfEnabled env (env.determineStepLength
                (qpDUNES_solveAllLocalQPs env.NI env.updateAllLocalQPs env.solveLocalQP
                  s).2).2) := by
  unfold solve_iteration solve_direction
  rfl

/-- The loop of `qpDUNES_solve` returns the iteration limit after `fuel` iterations that
all go on to the next one, with `numIter` set to `maxIter`. -/
theorem solve_loop_limit {α ε : Type} [LinearOrderedField α] (env : solve_env α ε)
    (fuel : Nat) :
    ∀ (itCntr : Int) (states : Nat → solve_state α ε),
      (∀ i : Nat, i < fuel →
        solve_iteration env (itCntr + (i : Int)) (states i) = .ok (states (i + 1))) →
      solve_loop env fuel itCntr (states 0)
        = (QPDUNES_ERR_ITERATION_LIMIT_REACHED,
            { states fuel with numIter := env.maxIter }) := by
  induction fuel with
  | zero =>
    intro itCntr states _
    rfl
  | succ fuel ih =>
    intro itCntr states h
    have h0 := h 0 (Nat.succ_pos fuel)
    rw [Nat.cast_zero, add_zero] at h0
    rw [solve_loop, h0]
    dsimp only
    have h1 := ih (itCntr + 1) (fun i => states (i + 1))
      (by
        intro i hi
        have h2 := h (i + 1) (by omega)
        rw [Nat.cast_succ, ← add_assoc, add_right_comm] at h2
        exact h2)
    exact h1

/-- An iteration that goes on to the next one ends with the active-set update and one
call of `qpDUNES_logIteration`. -/
theorem solve_iteration_ok_logged {α ε : Type} [LinearOrderedField α]
    (env : solve_env α ε) (itCntr : Int) (s s1 : solve_state α ε)
    (h : solve_iteration env itCntr s = .ok s1) :
    ∃ sd, solve_direction env itCntr s = .ok sd
      ∧ s1 = env.logIteration (env.acceptActSet (env.determineStepLength
          (qpDUNES_solveAllLocalQPs env.NI env.updateAllLocalQPs env.solveLocalQP
            sd).2).2) := by
  rw [solve_iteration_eq] at h
  cases hd : solve_direction env itCntr s with
  | error e =>
    rw [hd] at h
    cases h
  | ok sd =>
    rw [hd] at h
    refine ⟨sd, rfl, ?_⟩
    dsimp only at h
    cases hr : (env.determineStepLength
        (qpDUNES_solveAllLocalQPs env.NI env.updateAllLocalQPs env.solveLocalQP
          sd).2).1 <;> rw [hr] at h <;> dsimp only at h <;> cases h <;> rfl

/-- C29. Iteration limit: if the initial stage resolve succeeds and each of the
iterations `1 .. maxIter` goes on to the next one (the Newton setup does not report
optimality and no phase fails fatally: `solve_iteration` returns `.ok`), `qpDUNES_solve`
performs exactly `maxIter` iterations (`states i` is the state after iteration `i`),
returns `QPDUNES_ERR_ITERATION_LIMIT_REACHED` and leaves `log.numIter` equal to
`maxIter`; every iteration ends with one call of `qpDUNES_logIteration`, so for
`maxIter = 1` one iteration record is written after the initial one. -/
theorem solve_iterationLimit {α ε : Type} [LinearOrderedField α] (env : solve_env α ε)
    (s : solve_state α ε) (states : Nat → solve_state α ε)
    (hinit : ((List.range (env.NI + 1)).foldl
      (fun (r : return_t × solve_state α ε) ii => env.initialStageStep ii r.2)
      (QPDUNES_OK, { s with numIter := 0, lastActSetChangeIdx := (env.NI : Int) })).1
        = QPDUNES_OK)
    (h0 : states 0 = solve_logIfEnabled env (env.acceptActSet (env.computeObjectiveValue
      ((List.range (env.NI + 1)).foldl
        (fun (r : return_t × solve_state α ε) ii => env.initialStageStep ii r.2)
        (QPDUNES_OK, { s with numIter := 0, lastActSetChangeIdx := (env.NI : Int) })).2)))
    (hstep : ∀ i : Nat, i < env.maxIter.toNat →
      solve_iteration env ((i : Int) + 1) (states i) = .ok (states (i + 1))) :
    qpDUNES_solve env s
      = (QPDUNES_ERR_ITERATION_LIMIT_REACHED,
          { states env.maxIter.toNat with numIter := env.maxIter })
    ∧ (qpDUNES_solve env s).1 = QPDUNES_ERR_ITERATION_LIMIT_REACHED
    ∧ (qpDUNES_solve env s).2.numIter = env.maxIter
    ∧ (∀ i : Nat, i < env.maxIter.toNat →
        ∃ sd, solve_direction env ((i : Int) + 1) (states i) = .ok sd
          ∧ states (i + 1) = env.logIteration (env.acceptActSet (env.determineStepLength
            (qpDUNES_solveAllLocalQPs env.NI env.updateAllLocalQPs env.solveLocalQP
              sd).2).2)) := by
  have hmain : qpDUNES_solve env s
      = (QPDUNES_ERR_ITERATION_LIMIT_REACHED,
          { states env.maxIter.toNat with numIter := env.maxIter }) := by
    unfold qpDUNES_solve
    dsimp only
    rw [if_neg (not_not.2 hinit), ← h0]
    exact solve_loop_limit env env.maxIter.toNat 1 states
      (by
        intro i hi
        rw [add_comm]
        exact hstep i hi)
  refine ⟨hmain, by rw [hmain], by rw [hmain], ?_⟩
  intro i hi
  exact solve_iteration_ok_logged env _ _ _ (hstep i hi)

/-- Witness for C29: the example solve with iteration logging and `maxIter = 1`; the log
routine is called twice, once for the initial record and once in iteration 1. -/
theorem solve_iterationLimit_witness :
    (qpDUNES_solve (exampleLogEnv ℝ Real.sqrt 1) (exampleState ℝ 1)).1
      = QPDUNES_ERR_ITERATION_LIMIT_REACHED
    ∧ (qpDUNES_solve (exampleLogEnv ℝ Real.sqrt 1) (exampleState ℝ 1)).2.numIter = 1
    ∧ (qpDUNES_solve (exampleLogEnv ℝ Real.sqrt 1) (exampleState ℝ 1)).2.ext = 2 := by
  have hok : ∃ s1, solve_iteration (exampleLogEnv ℝ Real.sqrt 1) 1
      { exampleState ℝ 1 with numIter := 0, lastActSetChangeIdx := 1, ext := 1 } = .ok s1
      ∧ s1.ext = 2 := by
    simp [solve_iteration, solve_newtonDirection,
      solve_logIfEnabled, qpDUNES_factorNewtonSystem, factorNewtonSystem_pass,
      factorNewtonSystem_minDiagElem, exampleLogEnv, exampleEnv, exampleOptions,
      exampleState, qpDUNES_factorizeNewtonHessian, loopExcept,
      factorizeNewtonHessian_column, factorizeNewtonHessian_pivotSum,
      factorizeNewtonHessian_check, factor_finish, factorizeNewtonHessian_diagBlock,
      factorizeNewtonHessian_subBlock, qpDUNES_solveNewtonEquation, backsolve_lowerRow,
      backsolve_upperRow, backsolve_finish, qpDUNES_solveAllLocalQPs, subLoop,
      List.range_succ]
  obtain ⟨s1, hs1, hext⟩ := hok
  have h := solve_iterationLimit (exampleLogEnv ℝ Real.sqrt 1) (exampleState ℝ 1)
    (fun i => if i = 0 then
      { exampleState ℝ 1 with numIter := 0, lastActSetChangeIdx := 1, ext := 1 } else s1)
    (by simp [exampleLogEnv, exampleEnv, List.range_succ])
    (by simp [exampleLogEnv, exampleEnv, exampleState, solve_logIfEnabled, List.range_succ])
    (by
      intro i hi
      have hi0 : i = 0 := by
        have : (exampleLogEnv ℝ Real.sqrt 1).maxIter.toNat = 1 := rfl
        omega
      subst hi0
      simpa using hs1)
  refine ⟨h.2.1, h.2.2.1, ?_⟩
  rw [h.1]
  have : (exampleLogEnv ℝ Real.sqrt 1).maxIter.toNat = 1 := rfl
  rw [this]
  simpa using hext

/-- The first loop of the bisection search returns with `QPDUNES_OK` or with the
maximum-step-size code only. -/
theorem bisectionIntervalSearch_inflate_status {α ω : Type} [LinearOrderedField α]
    (env : lineSearch_env α ω) (deltaLambdaFS : vector_t α) (nV : Nat)
    (slopeNormalization : α) (fuel : Nat) :
    ∀ b : bisection_state α ω,
      outcome (fun (_ : bisection_state α ω) => True)
        (fun (e : return_t × bisection_state α ω) =>
          e.1 = QPDUNES_OK ∨ e.1 = QPDUNES_ERR_EXCEEDED_MAX_LINESEARCH_STEPSIZE)
        (bisectionIntervalSearch_inflate env deltaLambdaFS nV slopeNormalization fuel b) := by
  induction fuel with
  | zero =>
    intro b
    exact trivial
  | succ fuel ih =>
    intro b
    rw [bisectionIntervalSearch_inflate]
    dsimp only
    split_ifs
    · exact Or.inl rfl
    · exact trivial
    · exact Or.inr rfl
    · exact ih _

/-- The second loop of the bisection search ends with `QPDUNES_OK` or at the iteration
cap. -/
theorem bisectionIntervalSearch_halve_status {α ω : Type} [LinearOrderedField α]
    (env : lineSearch_env α ω) (deltaLambdaFS : vector_t α) (nV : Nat)
    (slopeNormalization : α) (fuel : Nat) :
    ∀ b : bisection_state α ω,
      (bisectionIntervalSearch_halve env deltaLambdaFS nV slopeNormalization fuel b).1
          = QPDUNES_OK
        ∨ (bisectionIntervalSearch_halve env deltaLambdaFS nV slopeNormalization fuel b).1
          = QPDUNES_ERR_NUMBER_OF_MAX_LINESEARCH_ITERATIONS_REACHED := by
  induction fuel with
  | zero =>
    intro b
    exact Or.inr rfl
  | succ fuel ih =>
    intro b
    rw [bisectionIntervalSearch_halve]
    dsimp only
    split_ifs
    · exact Or.inl rfl
    · exact ih _
    · exact ih _

/-- The bisection search never returns the no-ascent code or the minimum-step error. -/
theorem bisectionIntervalSearch_status {α ω : Type} [LinearOrderedField α]
    (env : lineSearch_env α ω) (deltaLambdaFS : vector_t α) (nV : Nat)
    (alphaMin alphaMax : α) (s : ls_state α (lsData α ω)) :
    (qpDUNES_bisectionIntervalSearch env deltaLambdaFS nV alphaMin alphaMax s).1
        = QPDUNES_OK
      ∨ (qpDUNES_bisectionIntervalSearch env deltaLambdaFS nV alphaMin alphaMax s).1
        = QPDUNES_ERR_EXCEEDED_MAX_LINESEARCH_STEPSIZE
      ∨ (qpDUNES_bisectionIntervalSearch env deltaLambdaFS nV alphaMin alphaMax s).1
        = QPDUNES_ERR_NUMBER_OF_MAX_LINESEARCH_ITERATIONS_REACHED := by
  unfold qpDUNES_bisectionIntervalSearch qpDUNES_bisectionIntervalSearch_trace
  dsimp only
  have h1 := bisectionIntervalSearch_inflate_status env deltaLambdaFS nV
    (min 1 (vectorNorm env.sqrt deltaLambdaFS nV))
    (env.lsOpts.maxNumLineSearchRefinementIterations - s.itCntr)
    { alphaMin := alphaMin, alphaMax := alphaMax, alphaC := env.alphaC, s := s, evals := [] }
  cases hr : bisectionIntervalSearch_inflate env deltaLambdaFS nV
      (min 1 (vectorNorm env.sqrt deltaLambdaFS nV))
      (env.lsOpts.maxNumLineSearchRefinementIterations - s.itCntr)
      { alphaMin := alphaMin, alphaMax := alphaMax, alphaC := env.alphaC, s := s,
        evals := [] } with
  | error e =>
    rw [hr] at h1
    dsimp only
    rcases (h1 : e.1 = QPDUNES_OK ∨ e.1 = QPDUNES_ERR_EXCEEDED_MAX_LINESEARCH_STEPSIZE)
      with h | h
    · exact Or.inl h
    · exact Or.inr (Or.inl h)
  | ok b =>
    dsimp only
    rcases bisectionIntervalSearch_halve_status env deltaLambdaFS nV
      (min 1 (vectorNorm env.sqrt deltaLambdaFS nV))
      (env.lsOpts.maxNumLineSearchRefinementIterations - b.s.itCntr) b with h | h
    · exact Or.inl h
    · exact Or.inr (Or.inr h)

/-- The status of the switch "do a line search": a status that none of the line
searches returns is not the status of the switch, unless it is the code for an unknown
line-search type. -/
theorem determineStepLength_lineSearch_status {α σ : Type} [LinearOrderedField α]
    (env : ls_env α σ) (deltaLambdaFS : vector_t α) (alphaMin alphaMax : α)
    (s : ls_state α σ) (st : return_t) (hst : st ≠ QPDUNES_ERR_UNKNOWN_LS_TYPE)
    (hbt : ∀ a b c s1, (env.qpDUNES_backTrackingLineSearch deltaLambdaFS a b c s1).1 ≠ st)
    (hgold : ∀ a b s1, (env.qpDUNES_goldenSectionIntervalSearch deltaLambdaFS a b s1).1 ≠ st)
    (hbis : ∀ a b s1, (env.qpDUNES_bisectionIntervalSearch deltaLambdaFS a b s1).1 ≠ st)
    (hgrid : ∀ a b s1, (env.qpDUNES_gridSearch a b s1).1 ≠ st) :
    outcome (fun (p : return_t × ls_state α σ) => p.1 ≠ st)
      (fun (r : return_t × ls_state α σ) => r.1 ≠ st)
      (determineStepLength_lineSearch env deltaLambdaFS alphaMin alphaMax s) := by
  unfold determineStepLength_lineSearch
  cases env.opts.lsType with
  | QPDUNES_LS_BACKTRACKING_LS =>
    dsimp only
    split_ifs with h
    · exact hbt _ _ _ _
    · exact hbt _ _ _ _
  | QPDUNES_LS_BACKTRACKING_LS_WITH_AS_CHANGE =>
    dsimp only
    split_ifs with h h2
    · exact hbt _ _ _ _
    · exact hbt _ _ _ _
    · exact hbt _ _ _ _
  | QPDUNES_LS_GOLDEN_SECTION_LS => exact hgold _ _ _
  | QPDUNES_LS_GRADIENT_BISECTION_LS => exact hbis _ _ _
  | QPDUNES_LS_ACCELERATED_GRADIENT_BISECTION_LS =>
    dsimp only
    split_ifs with h
    · exact hbt _ _ _ _
    · exact hbis _ _ _
  | QPDUNES_LS_GRID_LS => exact hgrid _ _ _
  | QPDUNES_LS_ACCELERATED_GRID_LS =>
    dsimp only
    split_ifs with h
    · exact hbt _ _ _ _
    · exact hgrid _ _ _
  | unknownLsType => exact fun h => hst h.symm

/-- With the line searches of `dual_qp.c`, `qpDUNES_determineStepLength` never returns
`QPDUNES_ERR_NEWTON_SYSTEM_NO_ASCENT_DIRECTION`, provided the golden section search does
not. -/
theorem lineSearch_lsEnv_status {α ω : Type} [LinearOrderedField α]
    (env : lineSearch_env α ω) (stages : Nat → intervalNewton_t α)
    (deltaLambdaFS : vector_t α) (newtonHessianRegularized : Bool)
    (s : ls_state α (lsData α ω))
    (hgold : ∀ l a b st, (env.qpDUNES_goldenSectionIntervalSearch l deltaLambdaFS a b st).1
      ≠ QPDUNES_ERR_NEWTON_SYSTEM_NO_ASCENT_DIRECTION) :
    (qpDUNES_determineStepLength (lineSearch_lsEnv env stages) stages deltaLambdaFS
      newtonHessianRegularized s).1 ≠ QPDUNES_ERR_NEWTON_SYSTEM_NO_ASCENT_DIRECTION := by
  have hne1 : ¬ (QPDUNES_OK = QPDUNES_ERR_NEWTON_SYSTEM_NO_ASCENT_DIRECTION) := by decide
  have hne2 : ¬ (QPDUNES_ERR_UNKNOWN_ERROR
      = QPDUNES_ERR_NEWTON_SYSTEM_NO_ASCENT_DIRECTION) := by decide
  have hne3 : ¬ (QPDUNES_ERR_NUMBER_OF_MAX_LINESEARCH_ITERATIONS_REACHED
      = QPDUNES_ERR_NEWTON_SYSTEM_NO_ASCENT_DIRECTION) := by decide
  have hne4 : ¬ (QPDUNES_ERR_DECEEDED_MIN_LINESEARCH_STEPSIZE
      = QPDUNES_ERR_NEWTON_SYSTEM_NO_ASCENT_DIRECTION) := by decide
  have hne5 : ¬ (QPDUNES_ERR_EXCEEDED_MAX_LINESEARCH_STEPSIZE
      = QPDUNES_ERR_NEWTON_SYSTEM_NO_ASCENT_DIRECTION) := by decide
  have hne6 : QPDUNES_ERR_NEWTON_SYSTEM_NO_ASCENT_DIRECTION
      ≠ QPDUNES_ERR_UNKNOWN_LS_TYPE := by decide
  by_cases hshort : (determineStepLength_alphaMin (lineSearch_lsEnv env stages) stages
      s.qp).1 > 1 - (lineSearch_lsEnv env stages).opts.equalityTolerance
      ∧ newtonHessianRegularized = false
  · unfold qpDUNES_determineStepLength
    dsimp only
    rw [if_pos hshort]
    cases hd : determineStepLength_doSteps (lineSearch_lsEnv env stages) stages 1 s.qp with
    | error e =>
      dsimp only
      rw [determineStepLength_doSteps_error _ _ _ _ e hd]
      exact hne2
    | ok qp => exact hne1
  · have hsw := determineStepLength_lineSearch_status (lineSearch_lsEnv env stages)
      deltaLambdaFS
      (determineStepLength_alphaMin (lineSearch_lsEnv env stages) stages s.qp).1 1
      { s with itCntr := 0 } QPDUNES_ERR_NEWTON_SYSTEM_NO_ASCENT_DIRECTION hne6
      (by
        intro a b c s1
        show (qpDUNES_backTrackingLineSearch env stages deltaLambdaFS _ a b c s1).1 ≠ _
        have h := (backTrackingLineSearch_loop_spec env stages
          (vectorNorm env.sqrt deltaLambdaFS (env.nx * env.NI)) a c
          (env.lsOpts.lineSearchMinRelProgress * |c| + env.lsOpts.lineSearchMinAbsProgress)
          (env.lsOpts.maxNumLineSearchIterations - s1.itCntr)
          { lambda := s1.lambda, alpha := b, itCntr := s1.itCntr,
            objValIncumbent := s1.objValIncumbent, qp := s1.qp }).2.2.2.2.2
        unfold qpDUNES_backTrackingLineSearch
        dsimp only
        rcases h with h | h | h
        · rw [h]
          exact hne1
        · rw [h]
          exact hne3
        · rw [h]
          exact hne4)
      (fun _ _ _ => hgold _ _ _ _)
      (by
        intro a b s1
        show (qpDUNES_bisectionIntervalSearch env deltaLambdaFS _ a b s1).1 ≠ _
        rcases bisectionIntervalSearch_status env deltaLambdaFS (env.nx * env.NI) a b s1
          with h | h | h
        · rw [h]
          exact hne1
        · rw [h]
          exact hne5
        · rw [h]
          exact hne3)
      (fun _ _ _ => hne1)
    cases hr : determineStepLength_lineSearch (lineSearch_lsEnv env stages) deltaLambdaFS
        (determineStepLength_alphaMin (lineSearch_lsEnv env stages) stages s.qp).1 1
        { s with itCntr := 0 } with
    | error r =>
      rw [hr] at hsw
      rw [determineStepLength_of_lineSearch_error (lineSearch_lsEnv env stages) stages
        deltaLambdaFS newtonHessianRegularized s r hshort hr]
      exact hsw
    | ok p =>
      rw [hr] at hsw
      obtain ⟨_, _, _, d4, _⟩ := determineStepLength_of_lineSearch_ok
        (lineSearch_lsEnv env stages) stages deltaLambdaFS newtonHessianRegularized s
        p.1 p.2 hshort hr
      rcases d4 with h | h
      · rw [h]
        exact hsw
      · rw [h]
        exact hne2

/-- C30. Line-search status classification in the driver: in an iteration of
`qpDUNES_solve` whose direction step has succeeded, with `r` what
`qpDUNES_determineStepLength` returns: if the status is `QPDUNES_OK`, the iteration cap
of the line search or the maximum step size, the iteration goes on to the accept phase
(the active-set update and the log) and the loop to the next iteration; if it is
`QPDUNES_ERR_DECEEDED_MIN_LINESEARCH_STEPSIZE`, `qpDUNES_solve` returns
`QPDUNES_ERR_NEWTON_SYSTEM_NO_ASCENT_DIRECTION`; any other status (such as
`QPDUNES_ERR_UNKNOWN_LS_TYPE`) is returned unchanged. So for a line search that does not
itself return the no-ascent code (the one of `dual_qp.c` does not) the solve returns the
no-ascent code in this iteration exactly when the line search returns the minimum-step
error. -/
theorem solve_lineSearch_status {α ε : Type} [LinearOrderedField α] (env : solve_env α ε)
    (fuel : Nat) (itCntr : Int) (s sd : solve_state α ε)
    (r : return_t × solve_state α ε)
    (hdir : solve_direction env itCntr s = .ok sd)
    (hr : env.determineStepLength
      (qpDUNES_solveAllLocalQPs env.NI env.updateAllLocalQPs env.solveLocalQP sd).2 = r) :
    ((r.1 = QPDUNES_OK
        ∨ r.1 = QPDUNES_ERR_NUMBER_OF_MAX_LINESEARCH_ITERATIONS_REACHED
        ∨ r.1 = QPDUNES_ERR_EXCEEDED_MAX_LINESEARCH_STEPSIZE) →
      solve_iteration env itCntr s = .ok (env.logIteration (env.acceptActSet r.2))
      ∧ solve_loop env (fuel + 1) itCntr s
        = solve_loop env fuel (itCntr + 1) (env.logIteration (env.acceptActSet r.2)))
    ∧ (r.1 = QPDUNES_ERR_DECEEDED_MIN_LINESEARCH_STEPSIZE →
      solve_loop env (fuel + 1) itCntr s
        = (QPDUNES_ERR_NEWTON_SYSTEM_NO_ASCENT_DIRECTION, solve_logIfEnabled env r.2))
    ∧ ((r.1 ≠ QPDUNES_OK
        ∧ r.1 ≠ QPDUNES_ERR_NUMBER_OF_MAX_LINESEARCH_ITERATIONS_REACHED
        ∧ r.1 ≠ QPDUNES_ERR_EXCEEDED_MAX_LINESEARCH_STEPSIZE
        ∧ r.1 ≠ QPDUNES_ERR_DECEEDED_MIN_LINESEARCH_STEPSIZE) →
      solve_loop env (fuel + 1) itCntr s = (r.1, solve_logIfEnabled env r.2))
    ∧ (r.1 ≠ QPDUNES_ERR_NEWTON_SYSTEM_NO_ASCENT_DIRECTION →
      ((∃ st, solve_iteration env itCntr s
          = .error (QPDUNES_ERR_NEWTON_SYSTEM_NO_ASCENT_DIRECTION, st))
        ↔ r.1 = QPDUNES_ERR_DECEEDED_MIN_LINESEARCH_STEPSIZE)) := by
  have hit := solve_iteration_eq env itCntr s
  rw [hdir] at hit
  dsimp only at hit
  rw [hr] at hit
  refine ⟨?_, ?_, ?_, ?_⟩
  · intro h
    have h1 : solve_iteration env itCntr s
        = .ok (env.logIteration (env.acceptActSet r.2)) := by
      rcases h with h | h | h <;> rw [hit, h]
    refine ⟨h1, ?_⟩
    rw [solve_loop, h1]
  · intro h
    rw [solve_loop, hit, h]
  · rintro ⟨h1, h2, h3, h4⟩
    rw [solve_loop, hit]
    cases hs : r.1 <;> first
      | exact absurd hs h1
      | exact absurd hs h2
      | exact absurd hs h3
      | exact absurd hs h4
      | rfl
  · intro hna
    rw [hit]
    constructor
    · rintro ⟨st, hst⟩
      cases hs : r.1 <;> rw [hs] at hst <;> first
        | rfl
        | exact absurd hs hna
        | (dsimp only at hst; cases hst)
    · intro h
      rw [h]
      exact ⟨_, rfl⟩

/-- Witness for C30: iteration 1 of the example solve, whose line search returns
`QPDUNES_OK`. -/
theorem solve_lineSearch_status_witness :
    ∃ sd, solve_direction
        (exampleEnv ℝ Real.sqrt regType_t.QPDUNES_REG_LEVENBERG_MARQUARDT QPDUNES_OK 1) 1
        (exampleState ℝ 1) = .ok sd
      ∧ solve_loop
          (exampleEnv ℝ Real.sqrt regType_t.QPDUNES_REG_LEVENBERG_MARQUARDT QPDUNES_OK 1)
          (0 + 1) 1 (exampleState ℝ 1)
        = solve_loop
          (exampleEnv ℝ Real.sqrt regType_t.QPDUNES_REG_LEVENBERG_MARQUARDT QPDUNES_OK 1)
          0 (1 + 1)
          ((exampleEnv ℝ Real.sqrt regType_t.QPDUNES_REG_LEVENBERG_MARQUARDT QPDUNES_OK
            1).determineStepLength
            (qpDUNES_solveAllLocalQPs 1 (fun s => s) (fun _ s => (QPDUNES_OK, s)) sd).2).2 := by
  have hok : ∃ sd, solve_direction
      (exampleEnv ℝ Real.sqrt regType_t.QPDUNES_REG_LEVENBERG_MARQUARDT QPDUNES_OK 1) 1
      (exampleState ℝ 1) = .ok sd := by
    simp [solve_direction, solve_newtonDirection,
      solve_logIfEnabled, qpDUNES_factorNewtonSystem, factorNewtonSystem_pass,
      factorNewtonSystem_minDiagElem, exampleEnv, exampleOptions,
      exampleState, qpDUNES_factorizeNewtonHessian, loopExcept,
      factorizeNewtonHessian_column, factorizeNewtonHessian_pivotSum,
      factorizeNewtonHessian_check, factor_finish, factorizeNewtonHessian_diagBlock,
      factorizeNewtonHessian_subBlock, qpDUNES_solveNewtonEquation, backsolve_lowerRow,
      backsolve_upperRow, backsolve_finish, subLoop, List.range_succ]
  obtain ⟨sd, hsd⟩ := hok
  exact ⟨sd, hsd,
    ((solve_lineSearch_status
      (exampleEnv ℝ Real.sqrt regType_t.QPDUNES_REG_LEVENBERG_MARQUARDT QPDUNES_OK 1)
      0 1 (exampleState ℝ 1) sd _ hsd rfl).1 (Or.inl rfl)).2⟩

/-! ## Step selection in the driver -/

theorem copyVector_apply {α : Type} (res src : vector_t α) (len i : Nat) :
    qpDUNES_copyVector res src len i = if i < len then src i else res i := by
  unfold qpDUNES_copyVector
  exact foldl_update_self (fun ii _ => src ii) res len i

/-- C31. Step selection in the driver: in iteration `itCntr` of `qpDUNES_solve` the
direction phase takes the gradient branch exactly when `itCntr > 1` and
`itCntr - 1 <= nbrInitialGradientSteps`, that is for the iterations
`2 .. nbrInitialGradientSteps + 1`. In that branch the result is the state after
`qpDUNES_computeNewtonGradient` with the first `NI * nx` entries of the gradient copied
into the step direction: the Newton setup, the factorization and the back-substitution
are not run, so `hessian` and `cholHessian` are the ones the gradient routine leaves.
In every other iteration the direction phase is the Newton direction (setup,
factorization, back-substitution); iteration 1 is always one of these. -/
theorem solve_stepSelection {α ε : Type} [LinearOrderedField α] (env : solve_env α ε)
    (itCntr : Int) (s : solve_state α ε) :
    ((itCntr > 1 ∧ itCntr - 1 ≤ env.nbrInitialGradientSteps)
      ↔ (2 ≤ itCntr ∧ itCntr ≤ env.nbrInitialGradientSteps + 1))
    ∧ ((2 ≤ itCntr ∧ itCntr ≤ env.nbrInitialGradientSteps + 1) →
      solve_direction env itCntr s
        = .ok { env.computeNewtonGradient
                  { s with numIter := itCntr, isHessianRegularized := false } with
                deltaLambda := qpDUNES_copyVector
                  (env.computeNewtonGradient
                    { s with numIter := itCntr, isHessianRegularized := false }).deltaLambda
                  (env.computeNewtonGradient
                    { s with numIter := itCntr, isHessianRegularized := false }).gradient
                  (env.NI * env.nx) }
      ∧ ∀ sd, solve_direction env itCntr s = .ok sd →
          (∀ i, i < env.NI * env.nx → sd.deltaLambda i = sd.gradient i)
          ∧ sd.hessian = (env.computeNewtonGradient
              { s with numIter := itCntr, isHessianRegularized := false }).hessian
          ∧ sd.cholHessian = (env.computeNewtonGradient
              { s with numIter := itCntr, isHessianRegularized := false }).cholHessian)
    ∧ (¬ (2 ≤ itCntr ∧ itCntr ≤ env.nbrInitialGradientSteps + 1) →
      solve_direction env itCntr s
        = solve_newtonDirection env
            { s with numIter := itCntr, isHessianRegularized := false })
    ∧ solve_direction env 1 s
        = solve_newtonDirection env { s with numIter := 1, isHessianRegularized := false } := by
  have hiff : (itCntr > 1 ∧ itCntr - 1 ≤ env.nbrInitialGradientSteps)
      ↔ (2 ≤ itCntr ∧ itCntr ≤ env.nbrInitialGradientSteps + 1) := by
    constructor <;> rintro ⟨h1, h2⟩ <;> constructor <;> omega
  refine ⟨hiff, ?_, ?_, ?_⟩
  · intro h
    have hc := hiff.mpr h
    have heq : solve_direction env itCntr s
        = .ok { env.computeNewtonGradient
                  { s with numIter := itCntr, isHessianRegularized := false } with
                deltaLambda := qpDUNES_copyVector
                  (env.computeNewtonGradient
                    { s with numIter := itCntr, isHessianRegularized := false }).deltaLambda
                  (env.computeNewtonGradient
                    { s with numIter := itCntr, isHessianRegularized := false }).gradient
                  (env.NI * env.nx) } := by
      unfold solve_direction
      dsimp only
      rw [if_pos hc]
    refine ⟨heq, ?_⟩
    intro sd hsd
    rw [heq] at hsd
    cases hsd
    refine ⟨?_, rfl, rfl⟩
    intro i hi
    dsimp only
    rw [copyVector_apply, if_pos hi]
  · intro h
    have hc : ¬ (itCntr > 1 ∧ itCntr - 1 ≤ env.nbrInitialGradientSteps) :=
      fun h2 => h (hiff.mp h2)
    unfold solve_direction
    dsimp only
    rw [if_neg hc]
  · unfold solve_direction
    dsimp only
    rw [if_neg (by omega)]

/-! ## The initial resolve of the stages -/

/-- C38 (the code at the failing input). In the example solve with two stages the
initial resolve of stage 0 returns `ERR_STAGE_QP_INFEASIBLE` and the one of stage 1
returns `QPDUNES_OK`. The status of stage 0 is overwritten by the one of stage 1, so
`qpDUNES_solve` enters the loop of Newton iterations: with `maxIter = 1` it runs the
line search (`ext = 1`) and returns `ERR_ITERATION_LIMIT_REACHED`, and when the Newton
setup finds the gradient stationary it returns `SUCC_OPTIMAL_SOLUTION_FOUND`. -/
theorem solve_initialResolve_failingInput :
    ((exampleInitialFailEnv ℝ Real.sqrt QPDUNES_OK 1).initialStageStep 0
        (exampleState ℝ 1)).1 = QPDUNES_ERR_STAGE_QP_INFEASIBLE
    ∧ (qpDUNES_solve (exampleInitialFailEnv ℝ Real.sqrt QPDUNES_OK 1)
        (exampleState ℝ 1)).1 = QPDUNES_ERR_ITERATION_LIMIT_REACHED
    ∧ (qpDUNES_solve (exampleInitialFailEnv ℝ Real.sqrt QPDUNES_OK 1)
        (exampleState ℝ 1)).2.ext = 1
    ∧ (qpDUNES_solve
        (exampleInitialFailEnv ℝ Real.sqrt QPDUNES_SUCC_OPTIMAL_SOLUTION_FOUND 1)
        (exampleState ℝ 1)).1 = QPDUNES_SUCC_OPTIMAL_SOLUTION_FOUND := by
  refine ⟨?_, ?_, ?_, ?_⟩
  · simp [exampleInitialFailEnv]
  · simp [qpDUNES_solve, solve_loop, solve_iteration, solve_newtonDirection,
      solve_logIfEnabled, qpDUNES_factorNewtonSystem, factorNewtonSystem_pass,
      factorNewtonSystem_minDiagElem, exampleInitialFailEnv, exampleEnv, exampleOptions,
      exampleState,
      qpDUNES_factorizeNewtonHessian, loopExcept, factorizeNewtonHessian_column,
      factorizeNewtonHessian_pivotSum, factorizeNewtonHessian_check, factor_finish,
      factorizeNewtonHessian_diagBlock, factorizeNewtonHessian_subBlock,
      qpDUNES_solveNewtonEquation, backsolve_lowerRow, backsolve_upperRow,
      backsolve_finish, qpDUNES_solveAllLocalQPs, subLoop, List.range_succ]
  · simp [qpDUNES_solve, solve_loop, solve_iteration, solve_newtonDirection,
      solve_logIfEnabled, qpDUNES_factorNewtonSystem, factorNewtonSystem_pass,
      factorNewtonSystem_minDiagElem, exampleInitialFailEnv, exampleEnv, exampleOptions,
      exampleState,
      qpDUNES_factorizeNewtonHessian, loopExcept, factorizeNewtonHessian_column,
      factorizeNewtonHessian_pivotSum, factorizeNewtonHessian_check, factor_finish,
      factorizeNewtonHessian_diagBlock, factorizeNewtonHessian_subBlock,
      qpDUNES_solveNewtonEquation, backsolve_lowerRow, backsolve_upperRow,
      backsolve_finish, qpDUNES_solveAllLocalQPs, subLoop, List.range_succ]
  · simp [qpDUNES_solve, solve_loop, solve_iteration, solve_newtonDirection,
      solve_logIfEnabled, exampleInitialFailEnv, exampleEnv, exampleOptions,
      exampleState, List.range_succ]

/-! ## An unknown line-search type -/

theorem determineStepLength_lineSearch_unknown {α σ : Type} [LinearOrderedField α]
    (env : ls_env α σ) (deltaLambdaFS : vector_t α) (alphaMin alphaMax : α)
    (s : ls_state α σ) (h : env.opts.lsType = unknownLsType) :
    determineStepLength_lineSearch env deltaLambdaFS alphaMin alphaMax s
      = .ok (QPDUNES_ERR_UNKNOWN_LS_TYPE, s) := by
  unfold determineStepLength_lineSearch
  rw [h]

/-- C40 (the code at the failing input). The example line search with an `lsType`
that is none of the seven known values, the minimum step `1/4` (so the full-step
shortcut does not apply), `lambda = (2)`, the search direction `(1)` and the step
length `3` left in `alpha` by an earlier call. The `default` case of the switch sets
the status and goes on to "UPDATE VARIABLES": `qpDUNES_determineStepLength` returns
`ERR_UNKNOWN_LS_TYPE` with `alpha` still `3`, but `lambda` has been advanced by the
stale step to `2 + 3 * 1`. -/
theorem determineStepLength_unknownLsType_failingInput :
    (qpDUNES_determineStepLength
        (lineSearch_lsEnv
          (exampleLineSearchEnv ℝ Real.sqrt unknownLsType (1 / 4) 1 1 2)
          (exampleStages ℝ QPDUNES_STAGE_QP_SOLVER_CLIPPING QPDUNES_STAGE_QP_SOLVER_CLIPPING))
        (exampleStages ℝ QPDUNES_STAGE_QP_SOLVER_CLIPPING QPDUNES_STAGE_QP_SOLVER_CLIPPING)
        (fun _ => 1) false (exampleLineSearchState ℝ)).1
      = QPDUNES_ERR_UNKNOWN_LS_TYPE
    ∧ (qpDUNES_determineStepLength
        (lineSearch_lsEnv
          (exampleLineSearchEnv ℝ Real.sqrt unknownLsType (1 / 4) 1 1 2)
          (exampleStages ℝ QPDUNES_STAGE_QP_SOLVER_CLIPPING QPDUNES_STAGE_QP_SOLVER_CLIPPING))
        (exampleStages ℝ QPDUNES_STAGE_QP_SOLVER_CLIPPING QPDUNES_STAGE_QP_SOLVER_CLIPPING)
        (fun _ => 1) false (exampleLineSearchState ℝ)).2.alpha = 3
    ∧ (exampleLineSearchState ℝ).lambda 0 = 2
    ∧ (qpDUNES_determineStepLength
        (lineSearch_lsEnv
          (exampleLineSearchEnv ℝ Real.sqrt unknownLsType (1 / 4) 1 1 2)
          (exampleStages ℝ QPDUNES_STAGE_QP_SOLVER_CLIPPING QPDUNES_STAGE_QP_SOLVER_CLIPPING))
        (exampleStages ℝ QPDUNES_STAGE_QP_SOLVER_CLIPPING QPDUNES_STAGE_QP_SOLVER_CLIPPING)
        (fun _ => 1) false (exampleLineSearchState ℝ)).2.lambda 0 = 5 := by
  have h : qpDUNES_determineStepLength
        (lineSearch_lsEnv
          (exampleLineSearchEnv ℝ Real.sqrt unknownLsType (1 / 4) 1 1 2)
          (exampleStages ℝ QPDUNES_STAGE_QP_SOLVER_CLIPPING QPDUNES_STAGE_QP_SOLVER_CLIPPING))
        (exampleStages ℝ QPDUNES_STAGE_QP_SOLVER_CLIPPING QPDUNES_STAGE_QP_SOLVER_CLIPPING)
        (fun _ => 1) false (exampleLineSearchState ℝ)
      = (QPDUNES_ERR_UNKNOWN_LS_TYPE,
          { lambda := addScaledVector (fun _ => 2) 3 (fun _ => 1) 1, alpha := 3,
            itCntr := 0, objValIncumbent := 0, qp := exampleLsData ℝ [] }) := by
    have hmin := exampleLineSearchEnv_alphaMin unknownLsType (1 / 4) 1 1 2
      (exampleLsData ℝ []) (by norm_num)
    have hshort : ¬ ((1 / 4 : ℝ) > 1 - 1 / 1000 ∧ True) := by norm_num
    unfold qpDUNES_determineStepLength
    simp only [exampleLineSearchState] at hmin ⊢
    rw [hmin]
    have e1 : (lineSearch_lsEnv
        (exampleLineSearchEnv ℝ Real.sqrt unknownLsType (1 / 4) 1 1 2)
        (exampleStages ℝ QPDUNES_STAGE_QP_SOLVER_CLIPPING
          QPDUNES_STAGE_QP_SOLVER_CLIPPING)).opts.equalityTolerance = 1 / 1000 := rfl
    rw [e1, if_neg hshort, determineStepLength_lineSearch_unknown _ _ _ _ _ rfl]
    have e2 : (exampleLineSearchEnv ℝ Real.sqrt unknownLsType (1 / 4) 1 1 2).nx
        * (exampleLineSearchEnv ℝ Real.sqrt unknownLsType (1 / 4) 1 1 2).NI
        = 1 := rfl
    have e3 : (lineSearch_lsEnv
        (exampleLineSearchEnv ℝ Real.sqrt unknownLsType (1 / 4) 1 1 2)
        (exampleStages ℝ QPDUNES_STAGE_QP_SOLVER_CLIPPING
          QPDUNES_STAGE_QP_SOLVER_CLIPPING)).nx
        * (lineSearch_lsEnv
        (exampleLineSearchEnv ℝ Real.sqrt unknownLsType (1 / 4) 1 1 2)
        (exampleStages ℝ QPDUNES_STAGE_QP_SOLVER_CLIPPING
          QPDUNES_STAGE_QP_SOLVER_CLIPPING)).NI = 1 := rfl
    have e4 : ∀ qp, (lineSearch_lsEnv
        (exampleLineSearchEnv ℝ Real.sqrt unknownLsType (1 / 4) 1 1 2)
        (exampleStages ℝ QPDUNES_STAGE_QP_SOLVER_CLIPPING
          QPDUNES_STAGE_QP_SOLVER_CLIPPING)).qpDUNES_computeObjectiveValue qp
        = qpDUNES_computeObjectiveValue
          (exampleLineSearchEnv ℝ Real.sqrt unknownLsType (1 / 4) 1 1 2) qp :=
      fun _ => rfl
    simp only [e2, e3, e4, exampleLineSearchEnv_doSteps, exampleLineSearchEnv_objective]
  rw [h]
  refine ⟨rfl, rfl, rfl, ?_⟩
  show addScaledVector (fun _ => (2 : ℝ)) 3 (fun _ => 1) 1 0 = 5
  rw [addScaledVector_apply]
  norm_num

/-! ## Active bounds in the Hessian assembly -/

/-- C34 (the code at the failing input). With `nx = 1`, `equalityTolerance = 1/1000` and
a Clipping stage whose lower multiplier is exactly the tolerance (`y = (1/1000, 0)`):
the loop "Annihilate columns in invQ" of the diagonal block tests `y >= tolerance` and
zeroes the diagonal entry `0` of the inverse Hessian `(1)` (the bound counts as
active), while the loop that writes the sub-diagonal block of the same stage tests
`y <= tolerance` for inactivity and writes `-xxMatTmp[0] = -1` into column `0` (the
bound counts as inactive). -/
theorem setupNewtonSystem_activeBound_failingInput :
    setupNewtonSystem_annihilate 1 (1 / 1000 : ℝ)
        (fun i => if i = 0 then 1 / 1000 else 0) (fun _ => 1) 0 = 0
    ∧ setupNewtonSystem_writeSubClipping 1 1 (1 / 1000 : ℝ)
        (fun i => if i = 0 then 1 / 1000 else 0) (fun _ => 5) (fun _ => 1) (1, -1, 0, 0)
      = -1 := by
  constructor
  · simp [setupNewtonSystem_annihilate, List.range_succ]
  · simp [setupNewtonSystem_writeSubClipping, List.range_succ]

/-! ## Active-set extraction -/

/-- A loop over the entries `0 .. n-1` of stage `kk` whose body writes the status
`v ii` into entry `ii` and counts it when it is not zero. -/
theorem getActSet_entries_inv (f : actSet_t → Nat → actSet_t) (v : Nat → Int) (kk : Nat)
    (hf : ∀ st ii, (f st ii).actSetStatus
          = Function.update st.actSetStatus kk
              (Function.update (st.actSetStatus kk) ii (v ii))
        ∧ (f st ii).nActConstr = st.nActConstr + (if v ii ≠ 0 then 1 else 0)
        ∧ (f st ii).counter = st.counter)
    (n : Nat) (st : actSet_t) :
    (∀ k i, ((List.range n).foldl f st).actSetStatus k i
        = if k = kk ∧ i < n then v i else st.actSetStatus k i)
    ∧ ((List.range n).foldl f st).nActConstr
        = st.nActConstr + ((Finset.range n).filter (fun i => v i ≠ 0)).card
    ∧ ((List.range n).foldl f st).counter = st.counter := by
  induction n with
  | zero =>
    refine ⟨fun k i => ?_, ?_, rfl⟩
    · simp
    · simp
  | succ n ih =>
    obtain ⟨h1, h2, h3⟩ := ih
    rw [List.range_succ, List.foldl_append]
    simp only [List.foldl_cons, List.foldl_nil]
    generalize (List.range n).foldl f st = r at h1 h2 h3
    obtain ⟨g1, g2, g3⟩ := hf r n
    refine ⟨fun k i => ?_, ?_, ?_⟩
    · rw [g1]
      by_cases hk : k = kk
      · subst hk
        rw [Function.update_same]
        by_cases hi : i = n
        · subst hi
          rw [Function.update_same, if_pos ⟨rfl, by omega⟩]
        · rw [Function.update_noteq hi, h1]
          by_cases hlt : i < n
          · rw [if_pos ⟨rfl, hlt⟩, if_pos ⟨rfl, by omega⟩]
          · rw [if_neg (fun h => hlt h.2), if_neg (fun h => hlt (by omega))]
      · rw [Function.update_noteq hk, h1, if_neg (fun h => hk h.1),
          if_neg (fun h => hk h.1)]
    · rw [g2, h2, Finset.range_succ, Finset.filter_insert]
      by_cases hv : v n ≠ 0
      · rw [if_pos hv, if_pos hv, Finset.card_insert_of_not_mem (by simp)]
        omega
      · rw [if_neg hv, if_neg hv]
        omega
    · rw [g3, h3]

theorem getActSet_entryClipping_step {α : Type} [LinearOrderedField α]
    (equalityTolerance : α) (y : vector_t α) (kk : Nat) (st : actSet_t) (ii : Nat) :
    (getActSet_entryClipping equalityTolerance y kk st ii).actSetStatus
        = Function.update st.actSetStatus kk
            (Function.update (st.actSetStatus kk) ii
              (if y (2 * ii) > equalityTolerance then -1
               else if y (2 * ii + 1) > equalityTolerance then 1 else 0))
    ∧ (getActSet_entryClipping equalityTolerance y kk st ii).nActConstr
        = st.nActConstr
          + (if (if y (2 * ii) > equalityTolerance then (-1 : Int)
                 else if y (2 * ii + 1) > equalityTolerance then 1 else 0) ≠ 0
             then 1 else 0)
    ∧ (getActSet_entryClipping equalityTolerance y kk st ii).counter = st.counter := by
  unfold getActSet_entryClipping
  by_cases h1 : y (2 * ii) > equalityTolerance
  · simp only [if_pos h1]
    norm_num
  · simp only [if_neg h1]
    by_cases h2 : y (2 * ii + 1) > equalityTolerance
    · simp only [if_pos h2]
      norm_num
    · simp only [if_neg h2]
      norm_num

/-- The stage loop of `qpDUNES_getActSet` over the stages `0 .. m-1`, all of them
Clipping stages. -/
theorem getActSet_stages_inv {α : Type} [LinearOrderedField α] (nDnV : Nat → Nat)
    (equalityTolerance : α) (stages : Nat → intervalNewton_t α) (m : Nat)
    (hall : ∀ k, k < m →
      (stages k).qpSolverSpecification = QPDUNES_STAGE_QP_SOLVER_CLIPPING)
    (st : actSet_t) :
    (∀ k i, ((List.range m).foldl (getActSet_stage nDnV equalityTolerance stages)
          st).actSetStatus k i
        = if k < m ∧ i < nDnV k then
            (if (stages k).y (2 * i) > equalityTolerance then -1
             else if (stages k).y (2 * i + 1) > equalityTolerance then 1 else 0)
          else st.actSetStatus k i)
    ∧ ((List.range m).foldl (getActSet_stage nDnV equalityTolerance stages)
          st).nActConstr
        = st.nActConstr + ∑ k in Finset.range m,
            ((Finset.range (nDnV k)).filter (fun i =>
              (if (stages k).y (2 * i) > equalityTolerance then (-1 : Int)
               else if (stages k).y (2 * i + 1) > equalityTolerance then 1 else 0)
                ≠ 0)).card
    ∧ ((List.range m).foldl (getActSet_stage nDnV equalityTolerance stages)
          st).counter = st.counter := by
  induction m with
  | zero =>
    refine ⟨fun k i => ?_, ?_, rfl⟩
    · simp
    · simp
  | succ m ih =>
    obtain ⟨h1, h2, h3⟩ := ih (fun k hk => hall k (by omega))
    rw [List.range_succ, List.foldl_append]
    simp only [List.foldl_cons, List.foldl_nil]
    generalize (List.range m).foldl (getActSet_stage nDnV equalityTolerance stages) st
      = r at h1 h2 h3
    unfold getActSet_stage
    rw [if_pos (hall m (by omega))]
    obtain ⟨g1, g2, g3⟩ := getActSet_entries_inv
      (getActSet_entryClipping equalityTolerance (stages m).y m)
      (fun i => if (stages m).y (2 * i) > equalityTolerance then -1
        else if (stages m).y (2 * i + 1) > equalityTolerance then 1 else 0) m
      (fun st ii => getActSet_entryClipping_step equalityTolerance (stages m).y m st ii)
      (nDnV m) r
    refine ⟨fun k i => ?_, ?_, ?_⟩
    · rw [g1]
      by_cases hk : k = m
      · by_cases hi : i < nDnV k
        · rw [if_pos (show k = m ∧ i < nDnV m from ⟨hk, hk ▸ hi⟩),
            if_pos (show k < m + 1 ∧ i < nDnV k from ⟨by omega, hi⟩), hk]
        · rw [if_neg (show ¬ (k = m ∧ i < nDnV m) from fun h => hi (hk ▸ h.2)),
            if_neg (show ¬ (k < m + 1 ∧ i < nDnV k) from fun h => hi h.2), h1,
            if_neg (show ¬ (k < m ∧ i < nDnV k) from fun h => hi h.2)]
      · rw [if_neg (show ¬ (k = m ∧ i < nDnV m) from fun h => hk h.1), h1]
        by_cases hc : k < m ∧ i < nDnV k
        · rw [if_pos hc, if_pos (show k < m + 1 ∧ i < nDnV k from ⟨by omega, hc.2⟩)]
        · rw [if_neg hc,
            if_neg (show ¬ (k < m + 1 ∧ i < nDnV k) from
              fun h => hc ⟨by omega, h.2⟩)]
    · rw [g2, h2, Finset.sum_range_succ]
      omega
    · rw [g3, h3]

/-- C36. Active-set extraction: when all the stages `0 .. NI` use the Clipping solver,
`qpDUNES_getActSet` sets `actSetStatus[k][i]`, for every stage `k <= NI` and every
entry `i < _ND(k)+_NV(k)`, to `-1` if the lower multiplier `y[2i]` of stage `k` exceeds
`equalityTolerance`, to `+1` if it does not but the upper multiplier `y[2i+1]` does, and
to `0` otherwise; it leaves every other entry of the table alone, and the number it
returns is the number of the entries (over these stages and indices) whose status is not
zero. -/
theorem getActSet_clipping {α : Type} [LinearOrderedField α] (NI : Nat)
    (nDnV : Nat → Nat) (equalityTolerance : α) (stages : Nat → intervalNewton_t α)
    (actSetStatus : Nat → Nat → Int) (counter : Int)
    (hall : ∀ k, k ≤ NI →
      (stages k).qpSolverSpecification = QPDUNES_STAGE_QP_SOLVER_CLIPPING) :
    (∀ k i, k ≤ NI → i < nDnV k →
      (qpDUNES_getActSet NI nDnV equalityTolerance stages actSetStatus
          counter).actSetStatus k i
        = if (stages k).y (2 * i) > equalityTolerance then -1
          else if (stages k).y (2 * i + 1) > equalityTolerance then 1 else 0)
    ∧ (∀ k i, ¬ (k ≤ NI ∧ i < nDnV k) →
      (qpDUNES_getActSet NI nDnV equalityTolerance stages actSetStatus
          counter).actSetStatus k i = actSetStatus k i)
    ∧ (qpDUNES_getActSet NI nDnV equalityTolerance stages actSetStatus
          counter).nActConstr
        = ∑ k in Finset.range (NI + 1),
            ((Finset.range (nDnV k)).filter (fun i =>
              (qpDUNES_getActSet NI nDnV equalityTolerance stages actSetStatus
                counter).actSetStatus k i ≠ 0)).card := by
  obtain ⟨h1, h2, _⟩ := getActSet_stages_inv nDnV equalityTolerance stages (NI + 1)
    (fun k hk => hall k (by omega))
    { actSetStatus := actSetStatus, nActConstr := 0, counter := counter }
  have e1 : ∀ k i, k ≤ NI → i < nDnV k →
      (qpDUNES_getActSet NI nDnV equalityTolerance stages actSetStatus
          counter).actSetStatus k i
        = if (stages k).y (2 * i) > equalityTolerance then -1
          else if (stages k).y (2 * i + 1) > equalityTolerance then 1 else 0 := by
    intro k i hk hi
    unfold qpDUNES_getActSet
    rw [h1, if_pos ⟨by omega, hi⟩]
  refine ⟨e1, ?_, ?_⟩
  · intro k i hki
    unfold qpDUNES_getActSet
    rw [h1, if_neg (fun h => hki ⟨by omega, h.2⟩)]
  · have h3 : (qpDUNES_getActSet NI nDnV equalityTolerance stages actSetStatus
        counter).nActConstr
        = 0 + ∑ k in Finset.range (NI + 1),
            ((Finset.range (nDnV k)).filter (fun i =>
              (if (stages k).y (2 * i) > equalityTolerance then (-1 : Int)
               else if (stages k).y (2 * i + 1) > equalityTolerance then 1 else 0)
                ≠ 0)).card := h2
    rw [h3, zero_add]
    apply Finset.sum_congr rfl
    intro k hk
    congr 1
    apply Finset.filter_congr
    intro i hi
    rw [e1 k i (by simpa [Nat.lt_succ_iff] using hk) (by simpa using hi)]

/-- Witness for C36: two Clipping stages with one entry each, `equalityTolerance =
1/1000`, the lower bound of stage `0` and the upper bound of stage `1` active: the
statuses are `-1` and `+1`. -/
theorem getActSet_clipping_witness :
    (∀ k, k ≤ 1 → (exampleActiveStages ℝ k).qpSolverSpecification
        = QPDUNES_STAGE_QP_SOLVER_CLIPPING)
    ∧ (qpDUNES_getActSet 1 (fun _ => 1) (1 / 1000 : ℝ) (exampleActiveStages ℝ)
        (fun _ _ => 7) 0).actSetStatus 0 0 = -1
    ∧ (qpDUNES_getActSet 1 (fun _ => 1) (1 / 1000 : ℝ) (exampleActiveStages ℝ)
        (fun _ _ => 7) 0).actSetStatus 1 0 = 1 := by
  have h := getActSet_clipping 1 (fun _ => 1) (1 / 1000 : ℝ) (exampleActiveStages ℝ)
    (fun _ _ => 7) 0 (fun _ _ => rfl)
  refine ⟨fun _ _ => rfl, ?_, ?_⟩
  · rw [h.1 0 0 (by norm_num) (by norm_num)]
    norm_num [exampleActiveStages]
  · rw [h.1 1 0 (by norm_num) (by norm_num)]
    norm_num [exampleActiveStages]

/-! ## The banded Hessian-vector product -/

theorem foldl_accumulate_at {α : Type} [LinearOrderedField α] (p : Nat) (F : Nat → α)
    (res : vector_t α) (n q : Nat) :
    ((List.range n).foldl (fun r jj => Function.update r p (r p + F jj)) res) q
      = if q = p then res p + ∑ jj in Finset.range n, F jj else res q := by
  induction n with
  | zero => by_cases h : q = p <;> simp [h]
  | succ n ih =>
    rw [List.range_succ, List.foldl_append]
    simp only [List.foldl_cons, List.foldl_nil]
    by_cases h : q = p
    · subst h
      rw [Function.update_same, if_pos rfl, Finset.sum_range_succ]
      have := ih
      rw [if_pos rfl] at this
      rw [this, add_assoc]
    · rw [Function.update_noteq h, ih, if_neg h, if_neg h]

theorem foldl_accumulate_offset {α : Type} [LinearOrderedField α] (off : Nat)
    (G : Nat → α) (res : vector_t α) (n q : Nat) :
    ((List.range n).foldl
        (fun r jj => Function.update r (off + jj) (r (off + jj) + G jj)) res) q
      = if off ≤ q ∧ q < off + n then res q + G (q - off) else res q := by
  induction n with
  | zero =>
    rw [List.range_zero, List.foldl_nil, if_neg (by omega)]
  | succ n ih =>
    rw [List.range_succ, List.foldl_append]
    simp only [List.foldl_cons, List.foldl_nil]
    by_cases h : q = off + n
    · subst h
      rw [Function.update_same, if_pos ⟨by omega, by omega⟩, Nat.add_sub_cancel_left]
      have h2 : ¬ (off ≤ off + n ∧ off + n < off + n) := by omega
      rw [ih, if_neg h2]
    · rw [Function.update_noteq h, ih]
      by_cases h2 : off ≤ q ∧ q < off + n
      · rw [if_pos h2, if_pos ⟨h2.1, by omega⟩]
      · rw [if_neg h2, if_neg (by omega)]

/-- One in-block row of the product: row `ii` of block row `kk` gets its sub-diagonal
and diagonal parts, and every row of the block row gets the contribution of column `ii`
of the super-diagonal block. -/
theorem multiplyNewtonHessianVector_row_spec {α : Type} [LinearOrderedField α]
    (NI nx : Nat) (H : xn2x_matrix_t α) (vec : vector_t α) (kk : Nat) (res : vector_t α)
    (ii q : Nat) :
    multiplyNewtonHessianVector_row NI nx H vec kk res ii q
      = (if q = kk * nx + ii then
          res q
            + (if kk > 0 then
                ∑ jj in Finset.range nx, H (kk, -1, ii, jj) * vec ((kk - 1) * nx + jj)
               else 0)
            + ∑ jj in Finset.range nx, H (kk, 0, ii, jj) * vec (kk * nx + jj)
         else res q)
        + (if (kk : Int) < (NI : Int) - 1 ∧ kk * nx ≤ q ∧ q < kk * nx + nx then
            H (kk + 1, -1, ii, q - kk * nx) * vec ((kk + 1) * nx + ii)
           else 0) := by
  unfold multiplyNewtonHessianVector_row
  have h1 : ∀ q, (if kk > 0 then
        (List.range nx).foldl
          (fun r jj => Function.update r (kk * nx + ii)
            (r (kk * nx + ii) + H (kk, -1, ii, jj) * vec ((kk - 1) * nx + jj)))
          res
      else res) q
      = if q = kk * nx + ii then
          res q + (if kk > 0 then
            ∑ jj in Finset.range nx, H (kk, -1, ii, jj) * vec ((kk - 1) * nx + jj)
           else 0)
        else res q := by
    intro q
    by_cases hk : kk > 0
    · rw [if_pos hk, if_pos hk, foldl_accumulate_at]
      by_cases hq : q = kk * nx + ii
      · rw [if_pos hq, if_pos hq, hq]
      · rw [if_neg hq, if_neg hq]
    · rw [if_neg hk, if_neg hk, add_zero]
      by_cases hq : q = kk * nx + ii
      · rw [if_pos hq]
      · rw [if_neg hq]
  generalize (if kk > 0 then
        (List.range nx).foldl
          (fun r jj => Function.update r (kk * nx + ii)
            (r (kk * nx + ii) + H (kk, -1, ii, jj) * vec ((kk - 1) * nx + jj)))
          res
      else res) = r1 at h1
  have h2 : ∀ q, ((List.range nx).foldl
        (fun r jj => Function.update r (kk * nx + ii)
          (r (kk * nx + ii) + H (kk, 0, ii, jj) * vec (kk * nx + jj))) r1) q
      = if q = kk * nx + ii then
          res q
            + (if kk > 0 then
                ∑ jj in Finset.range nx, H (kk, -1, ii, jj) * vec ((kk - 1) * nx + jj)
               else 0)
            + ∑ jj in Finset.range nx, H (kk, 0, ii, jj) * vec (kk * nx + jj)
        else res q := by
    intro q
    rw [foldl_accumulate_at]
    by_cases hq : q = kk * nx + ii
    · rw [if_pos hq, if_pos hq, h1, if_pos rfl, hq]
    · rw [if_neg hq, if_neg hq, h1, if_neg hq]
  generalize (List.range nx).foldl
        (fun r jj => Function.update r (kk * nx + ii)
          (r (kk * nx + ii) + H (kk, 0, ii, jj) * vec (kk * nx + jj))) r1 = r2 at h2
  by_cases hc : (kk : Int) < (NI : Int) - 1
  · rw [if_pos hc, foldl_accumulate_offset (kk * nx)
      (fun jj => H (kk + 1, -1, ii, jj) * vec ((kk + 1) * nx + ii)) r2 nx q]
    by_cases hb : kk * nx ≤ q ∧ q < kk * nx + nx
    · rw [if_pos hb, h2,
        if_pos (show (kk : Int) < (NI : Int) - 1 ∧ kk * nx ≤ q ∧ q < kk * nx + nx
          from ⟨hc, hb⟩)]
    · rw [if_neg hb, h2,
        if_neg (show ¬ ((kk : Int) < (NI : Int) - 1 ∧ kk * nx ≤ q ∧ q < kk * nx + nx)
          from fun h => hb h.2), add_zero]
  · rw [if_neg hc, h2,
      if_neg (show ¬ ((kk : Int) < (NI : Int) - 1 ∧ kk * nx ≤ q ∧ q < kk * nx + nx)
        from fun h => hc h.1), add_zero]

/-- The rows `0 .. I-1` of block row `kk` of the product, after the chunk of the block
row has been emptied. -/
theorem multiplyNewtonHessianVector_rows_spec {α : Type} [LinearOrderedField α]
    (NI nx : Nat) (H : xn2x_matrix_t α) (vec : vector_t α) (kk : Nat) (res : vector_t α)
    (I : Nat) (hI : I ≤ nx) :
    (∀ t, t < nx →
      ((List.range I).foldl (multiplyNewtonHessianVector_row NI nx H vec kk)
          ((List.range nx).foldl (fun r ii => Function.update r (kk * nx + ii) 0) res))
        (kk * nx + t)
        = (if t < I then
            (if kk > 0 then
              ∑ jj in Finset.range nx, H (kk, -1, t, jj) * vec ((kk - 1) * nx + jj)
             else 0)
            + ∑ jj in Finset.range nx, H (kk, 0, t, jj) * vec (kk * nx + jj)
           else 0)
          + (if (kk : Int) < (NI : Int) - 1 then
              ∑ i in Finset.range I, H (kk + 1, -1, i, t) * vec ((kk + 1) * nx + i)
             else 0))
    ∧ (∀ q, ¬ (kk * nx ≤ q ∧ q < kk * nx + nx) →
      ((List.range I).foldl (multiplyNewtonHessianVector_row NI nx H vec kk)
          ((List.range nx).foldl (fun r ii => Function.update r (kk * nx + ii) 0) res)) q
        = res q) := by
  induction I with
  | zero =>
    constructor
    · intro t ht
      rw [List.range_zero, List.foldl_nil, foldl_update_offset,
        if_pos ⟨by omega, by omega⟩]
      simp
    · intro q hq
      rw [List.range_zero, List.foldl_nil, foldl_update_offset, if_neg hq]
  | succ I ih =>
    obtain ⟨h1, h2⟩ := ih (by omega)
    rw [List.range_succ, List.foldl_append]
    simp only [List.foldl_cons, List.foldl_nil]
    generalize (List.range I).foldl (multiplyNewtonHessianVector_row NI nx H vec kk)
      ((List.range nx).foldl (fun r ii => Function.update r (kk * nx + ii) 0) res)
      = r at h1 h2
    constructor
    · intro t ht
      rw [multiplyNewtonHessianVector_row_spec, h1 t ht, Nat.add_sub_cancel_left,
        Finset.sum_range_succ]
      split_ifs <;> first
        | (exfalso; omega)
        | (have e : t = I := by omega
           subst e
           ring)
        | ring
    · intro q hq
      rw [multiplyNewtonHessianVector_row_spec,
        if_neg (show ¬ (q = kk * nx + I) from by omega),
        if_neg (show ¬ ((kk : Int) < (NI : Int) - 1 ∧ kk * nx ≤ q ∧ q < kk * nx + nx)
          from fun h => hq h.2), h2 q hq, add_zero]

/-- The block rows `0 .. K-1` of the product. -/
theorem multiplyNewtonHessianVector_blocks_spec {α : Type} [LinearOrderedField α]
    (NI nx : Nat) (H : xn2x_matrix_t α) (vec : vector_t α) (res : vector_t α) (K : Nat) :
    (∀ k t, k < K → t < nx →
      ((List.range K).foldl (multiplyNewtonHessianVector_block NI nx H vec) res)
        (k * nx + t)
        = (if k > 0 then
            ∑ jj in Finset.range nx, H (k, -1, t, jj) * vec ((k - 1) * nx + jj)
           else 0)
          + ∑ jj in Finset.range nx, H (k, 0, t, jj) * vec (k * nx + jj)
          + (if (k : Int) < (NI : Int) - 1 then
              ∑ i in Finset.range nx, H (k + 1, -1, i, t) * vec ((k + 1) * nx + i)
             else 0))
    ∧ (∀ q, ¬ q < K * nx →
      ((List.range K).foldl (multiplyNewtonHessianVector_block NI nx H vec) res) q
        = res q) := by
  induction K with
  | zero =>
    constructor
    · intro k t hk
      omega
    · intro q _
      rfl
  | succ K ih =>
    obtain ⟨h1, h2⟩ := ih
    rw [List.range_succ, List.foldl_append]
    simp only [List.foldl_cons, List.foldl_nil]
    generalize (List.range K).foldl (multiplyNewtonHessianVector_block NI nx H vec) res
      = r at h1 h2
    obtain ⟨g1, g2⟩ := multiplyNewtonHessianVector_rows_spec NI nx H vec K r nx
      (Nat.le_refl nx)
    have hK : (K + 1) * nx = K * nx + nx := by ring
    constructor
    · intro k t hk ht
      unfold multiplyNewtonHessianVector_block
      by_cases hkK : k = K
      · subst hkK
        rw [g1 t ht, if_pos ht]
      · have hlt : k * nx + t < K * nx := idx_lt_of_block_lt nx K k t (by omega) ht
        rw [g2 (k * nx + t) (by omega), h1 k t (by omega) ht]
    · intro q hq
      unfold multiplyNewtonHessianVector_block
      rw [g2 q (by omega), h2 q (by omega)]

theorem sum_range_blocks {α : Type} [LinearOrderedField α] (nx NI : Nat) (G : Nat → α) :
    ∑ m in Finset.range (NI * nx), G m
      = ∑ k in Finset.range NI, ∑ l in Finset.range nx, G (k * nx + l) := by
  induction NI with
  | zero => simp
  | succ n ih =>
    rw [Nat.add_mul, Nat.one_mul, Finset.sum_range_add, ih, Finset.sum_range_succ]

/-- A sum over the block rows of a quantity that vanishes outside the block rows
`kk - 1`, `kk` and `kk + 1`. -/
theorem sum_three_blocks {α : Type} [LinearOrderedField α] (NI kk : Nat) (hkk : kk < NI)
    (B : Nat → α) (h : ∀ k, k + 1 < kk ∨ kk + 1 < k → B k = 0) :
    ∑ k in Finset.range NI, B k
      = (if kk > 0 then B (kk - 1) else 0) + B kk
        + (if (kk : Int) < (NI : Int) - 1 then B (kk + 1) else 0) := by
  have e : ∀ k, k ∈ Finset.range NI → B k
      = (if k + 1 = kk then B k else 0) + (if k = kk then B k else 0)
        + (if k = kk + 1 then B k else 0) := by
    intro k _
    by_cases h1 : k + 1 = kk
    · rw [if_pos h1, if_neg (by omega), if_neg (by omega), add_zero, add_zero]
    · rw [if_neg h1]
      by_cases h2 : k = kk
      · rw [if_pos h2, if_neg (by omega), add_zero, zero_add]
      · rw [if_neg h2]
        by_cases h3 : k = kk + 1
        · rw [if_pos h3, zero_add, zero_add]
        · rw [if_neg h3, h k (by omega)]
          simp
  rw [Finset.sum_congr rfl e, Finset.sum_add_distrib, Finset.sum_add_distrib,
    Finset.sum_ite_eq', Finset.sum_ite_eq', if_pos (Finset.mem_range.2 hkk)]
  congr 1
  · congr 1
    by_cases h0 : kk > 0
    · rw [if_pos h0]
      have e2 : ∀ k, k ∈ Finset.range NI →
          (if k + 1 = kk then B k else 0) = (if k = kk - 1 then B k else 0) := by
        intro k _
        by_cases h1 : k + 1 = kk
        · rw [if_pos h1, if_pos (by omega)]
        · rw [if_neg h1, if_neg (by omega)]
      rw [Finset.sum_congr rfl e2, Finset.sum_ite_eq',
        if_pos (Finset.mem_range.2 (by omega))]
    · rw [if_neg h0]
      apply Finset.sum_eq_zero
      intro k _
      rw [if_neg (by omega)]
  · by_cases hc : (kk : Int) < (NI : Int) - 1
    · rw [if_pos hc, if_pos (Finset.mem_range.2 (by omega))]
    · rw [if_neg hc, if_neg (fun hm => hc (by have := Finset.mem_range.1 hm; omega))]

/-- Row `kk*nx + t` of the dense Hessian times `vec`, in terms of the stored blocks. -/
theorem fullHessian_row_product {α : Type} [LinearOrderedField α] (NI nx : Nat)
    (H : xn2x_matrix_t α) (vec : vector_t α) (kk t : Nat) (hkk : kk < NI) (ht : t < nx) :
    ∑ m in Finset.range (NI * nx), fullHessian nx H (kk * nx + t) m * vec m
      = (if kk > 0 then
          ∑ jj in Finset.range nx, H (kk, -1, t, jj) * vec ((kk - 1) * nx + jj)
         else 0)
        + ∑ jj in Finset.range nx, H (kk, 0, t, jj) * vec (kk * nx + jj)
        + (if (kk : Int) < (NI : Int) - 1 then
            ∑ i in Finset.range nx, H (kk + 1, -1, i, t) * vec ((kk + 1) * nx + i)
           else 0) := by
  rw [sum_range_blocks nx NI (fun m => fullHessian nx H (kk * nx + t) m * vec m),
    sum_three_blocks NI kk hkk
      (fun k => ∑ l in Finset.range nx,
        fullHessian nx H (kk * nx + t) (k * nx + l) * vec (k * nx + l))]
  · congr 1
    · congr 1
      · by_cases h0 : kk > 0
        · rw [if_pos h0, if_pos h0]
          apply Finset.sum_congr rfl
          intro l hl
          rw [fullHessian_eval nx H kk t (kk - 1) l ht (Finset.mem_range.1 hl),
            if_neg (by omega), if_pos (by omega)]
        · rw [if_neg h0, if_neg h0]
      · apply Finset.sum_congr rfl
        intro l hl
        rw [fullHessian_eval nx H kk t kk l ht (Finset.mem_range.1 hl), if_pos rfl]
    · by_cases hc : (kk : Int) < (NI : Int) - 1
      · rw [if_pos hc, if_pos hc]
        apply Finset.sum_congr rfl
        intro l hl
        rw [fullHessian_eval nx H kk t (kk + 1) l ht (Finset.mem_range.1 hl),
          if_neg (by omega), if_neg (by omega), if_pos rfl]
      · rw [if_neg hc, if_neg hc]
  · intro k hk
    apply Finset.sum_eq_zero
    intro l hl
    rw [fullHessian_eval nx H kk t k l ht (Finset.mem_range.1 hl), if_neg (by omega),
      if_neg (by omega), if_neg (by omega), zero_mul]

/-- C35. Banded Hessian-vector product: for every block-tridiagonal Hessian in packed
lower-band storage and every vector `vec` (an argument that is only read, not the
storage of the result), `qpDUNES_multiplyNewtonHessianVector` returns `QPDUNES_OK` and
writes into the first `NI * nx` entries of `res` the product of the dense symmetric
matrix `fullHessian` (diagonal blocks `H[k,0]`, sub-diagonal blocks `H[k,-1]`,
super-diagonal blocks the transposes `H[k+1,-1]^T`) with `vec`; it leaves the other
entries of `res` alone. -/
theorem multiplyNewtonHessianVector_dense {α : Type} [LinearOrderedField α] (NI nx : Nat)
    (res : vector_t α) (hessian : xn2x_matrix_t α) (vec : vector_t α) :
    (qpDUNES_multiplyNewtonHessianVector NI nx res hessian vec).1 = QPDUNES_OK
    ∧ (∀ r, r < NI * nx →
      (qpDUNES_multiplyNewtonHessianVector NI nx res hessian vec).2 r
        = ∑ m in Finset.range (NI * nx), fullHessian nx hessian r m * vec m)
    ∧ (∀ r, ¬ r < NI * nx →
      (qpDUNES_multiplyNewtonHessianVector NI nx res hessian vec).2 r = res r) := by
  obtain ⟨h1, h2⟩ := multiplyNewtonHessianVector_blocks_spec NI nx hessian vec res NI
  refine ⟨rfl, ?_, ?_⟩
  · intro r hr
    have hpos : 0 < nx := by
      rcases Nat.eq_zero_or_pos nx with h0 | h0
      · rw [h0] at hr
        omega
      · exact h0
    obtain ⟨k, t, ht, rfl⟩ := exists_block_idx nx r hpos
    have hk : k < NI := block_lt_of_idx_lt nx NI k t hr
    unfold qpDUNES_multiplyNewtonHessianVector
    rw [fullHessian_row_product NI nx hessian vec k t hk ht]
    exact h1 k t hk ht
  · intro r hr
    unfold qpDUNES_multiplyNewtonHessianVector
    exact h2 r hr

/-! ## The statuses the driver returns -/

theorem loopExcept_status {ε σ : Type} (body : σ → Nat → Except ε σ) (Q : ε → Prop)
    (l : List Nat) (h : ∀ s i, outcome (fun _ => True) Q (body s i)) (s : σ) :
    outcome (fun _ => True) Q (loopExcept body l s) :=
  loopExcept_inv body (fun _ => True) Q l (fun s i _ _ => h s i) s trivial

theorem backsolve_lowerRow_status {α : Type} [LinearOrderedField α]
    (useAsserts inftyBranch : Bool) (opts : qpOptions_t α) (nx : Nat)
    (cholHessian : xn2x_matrix_t α) (kk ii : Nat) (sum0 : α) (res : vector_t α) :
    outcome (fun _ => True)
      (fun (e : return_t × vector_t α) => e.1 = QPDUNES_ERR_DIVISION_BY_ZERO)
      (backsolve_lowerRow useAsserts inftyBranch opts nx cholHessian kk ii sum0 res) := by
  unfold backsolve_lowerRow
  dsimp only
  split_ifs <;> first | exact trivial | exact rfl

theorem backsolve_upperRow_status {α : Type} [LinearOrderedField α]
    (useAsserts : Bool) (opts : qpOptions_t α) (NI nx : Nat)
    (cholHessian : xn2x_matrix_t α) (kk ii : Nat) (sum0 : α) (res : vector_t α) :
    outcome (fun _ => True)
      (fun (e : return_t × vector_t α) => e.1 = QPDUNES_ERR_DIVISION_BY_ZERO)
      (backsolve_upperRow useAsserts opts NI nx cholHessian kk ii sum0 res) := by
  unfold backsolve_upperRow
  dsimp only
  split_ifs <;> first | exact trivial | exact rfl

theorem backsolve_finish_status {α : Type} (r : backsolve_step α)
    (h : outcome (fun _ => True)
      (fun (e : return_t × vector_t α) => e.1 = QPDUNES_ERR_DIVISION_BY_ZERO) r) :
    (backsolve_finish r).1 = QPDUNES_OK
      ∨ (backsolve_finish r).1 = QPDUNES_ERR_DIVISION_BY_ZERO := by
  cases r with
  | error e => exact Or.inr h
  | ok res => exact Or.inl rfl

/-- The forward back-substitution returns `QPDUNES_OK` or
`QPDUNES_ERR_DIVISION_BY_ZERO`. -/
theorem solveNewtonEquation_status {α : Type} [LinearOrderedField α] (useAsserts : Bool)
    (opts : qpOptions_t α) (NI nx : Nat) (res : vector_t α)
    (cholHessian : xn2x_matrix_t α) (gradient : vector_t α) :
    (qpDUNES_solveNewtonEquation useAsserts opts NI nx res cholHessian gradient).1
        = QPDUNES_OK
      ∨ (qpDUNES_solveNewtonEquation useAsserts opts NI nx res cholHessian gradient).1
        = QPDUNES_ERR_DIVISION_BY_ZERO := by
  unfold qpDUNES_solveNewtonEquation
  apply backsolve_finish_status
  have h1 := loopExcept_status
    (fun res kk => loopExcept
      (fun res ii => backsolve_lowerRow useAsserts true opts nx cholHessian kk ii
        (gradient (kk * nx + ii)) res)
      (List.range nx) res)
    (fun (e : return_t × vector_t α) => e.1 = QPDUNES_ERR_DIVISION_BY_ZERO)
    (List.range NI)
    (fun res kk => loopExcept_status _ _ _
      (fun res ii => backsolve_lowerRow_status useAsserts true opts nx cholHessian kk ii
        (gradient (kk * nx + ii)) res) res) res
  cases hr : loopExcept
      (fun res kk => loopExcept
        (fun res ii => backsolve_lowerRow useAsserts true opts nx cholHessian kk ii
          (gradient (kk * nx + ii)) res)
        (List.range nx) res)
      (List.range NI) res with
  | error e =>
    rw [hr] at h1
    exact h1
  | ok res1 =>
    exact loopExcept_status _ _ _
      (fun res kk => loopExcept_status _ _ _
        (fun res ii => backsolve_upperRow_status useAsserts opts NI nx cholHessian kk ii
          (res (kk * nx + ii)) res) res) res1

/-- The reverse back-substitution returns `QPDUNES_OK` or
`QPDUNES_ERR_DIVISION_BY_ZERO`. -/
theorem solveNewtonEquationBottomUp_status {α : Type} [LinearOrderedField α]
    (useAsserts : Bool) (opts : qpOptions_t α) (NI nx : Nat) (res : vector_t α)
    (cholHessian : xn2x_matrix_t α) (gradient : vector_t α) :
    (qpDUNES_solveNewtonEquationBottomUp useAsserts opts NI nx res cholHessian
        gradient).1 = QPDUNES_OK
      ∨ (qpDUNES_solveNewtonEquationBottomUp useAsserts opts NI nx res cholHessian
        gradient).1 = QPDUNES_ERR_DIVISION_BY_ZERO := by
  unfold qpDUNES_solveNewtonEquationBottomUp
  apply backsolve_finish_status
  have h1 := loopExcept_status
    (fun res kk => loopExcept
      (fun res ii => backsolve_upperRow useAsserts opts NI nx cholHessian kk ii
        (gradient (kk * nx + ii)) res)
      (List.range nx).reverse res)
    (fun (e : return_t × vector_t α) => e.1 = QPDUNES_ERR_DIVISION_BY_ZERO)
    (List.range NI).reverse
    (fun res kk => loopExcept_status _ _ _
      (fun res ii => backsolve_upperRow_status useAsserts opts NI nx cholHessian kk ii
        (gradient (kk * nx + ii)) res) res) res
  cases hr : loopExcept
      (fun res kk => loopExcept
        (fun res ii => backsolve_upperRow useAsserts opts NI nx cholHessian kk ii
          (gradient (kk * nx + ii)) res)
        (List.range nx).reverse res)
      (List.range NI).reverse res with
  | error e =>
    rw [hr] at h1
    exact h1
  | ok res1 =>
    exact loopExcept_status _ _ _
      (fun res kk => loopExcept_status _ _ _
        (fun res ii => backsolve_lowerRow_status useAsserts false opts nx cholHessian kk
          ii (res (kk * nx + ii)) res) res) res1

/-- The factorization phase never returns the success code of the Newton setup. -/
theorem factorNewtonSystem_status {α : Type} [LinearOrderedField α] (sqrt : α → α)
    (debug : Bool) (opts : qpOptions_t α) (NI nx : Nat) (hessian : xn2x_matrix_t α)
    (st : factor_state α) (lastActSetChangeIdx : Int) :
    (qpDUNES_factorNewtonSystem sqrt debug opts NI nx hessian st
      lastActSetChangeIdx).status ≠ QPDUNES_SUCC_OPTIMAL_SOLUTION_FOUND := by
  have hne1 : ¬ (QPDUNES_OK = QPDUNES_SUCC_OPTIMAL_SOLUTION_FOUND) := by decide
  have hne2 : ¬ (QPDUNES_ERR_DIVISION_BY_ZERO = QPDUNES_SUCC_OPTIMAL_SOLUTION_FOUND) := by
    decide
  have hne3 : ¬ (QPDUNES_ERR_INVALID_ARGUMENT = QPDUNES_SUCC_OPTIMAL_SOLUTION_FOUND) := by
    decide
  have hne4 : ¬ (QPDUNES_ERR_UNKNOWN_ERROR = QPDUNES_SUCC_OPTIMAL_SOLUTION_FOUND) := by
    decide
  unfold qpDUNES_factorNewtonSystem
  rcases factorNewtonSystem_pass_status sqrt debug opts NI nx hessian lastActSetChangeIdx st
    with ⟨h, _⟩ | ⟨statusFlag, st1, h, hs⟩
  · rw [h]
    exact hne3
  · rw [h]
    dsimp only
    split_ifs with hc hn
    · cases opts.regType with
      | QPDUNES_REG_LEVENBERG_MARQUARDT =>
        dsimp only
        rcases factorNewtonSystem_pass_status sqrt debug opts NI nx
          (factorNewtonSystem_addRegParam opts NI nx hessian) ((NI : Int) + 1)
          { st1 with isHessianRegularized := true }
          with ⟨h2, _⟩ | ⟨statusFlag2, st3, h2, hs2⟩
        · rw [h2]
          exact hne3
        · rw [h2]
          dsimp only
          split_ifs
          · rcases hs2 with hs2 | hs2 <;> rw [hs2] <;> assumption
          · exact hne1
      | QPDUNES_REG_NORMALIZED_LEVENBERG_MARQUARDT =>
        dsimp only
        rcases factorNewtonSystem_pass_status sqrt debug opts NI nx hessian
          ((NI : Int) + 1) { st1 with isHessianRegularized := true }
          with ⟨h2, _⟩ | ⟨statusFlag2, st3, h2, hs2⟩
        · rw [h2]
          exact hne3
        · rw [h2]
          dsimp only
          split_ifs
          · rcases hs2 with hs2 | hs2 <;> rw [hs2] <;> assumption
          · exact hne1
      | QPDUNES_REG_SINGULAR_DIRECTIONS => exact hne1
      | QPDUNES_REG_UNCONSTRAINED_HESSIAN => exact hne4
      | QPDUNES_REG_GRADIENT_STEP => exact hne2
      | unknownRegType =>
        dsimp only
        rcases factorNewtonSystem_pass_status sqrt debug opts NI nx hessian
          ((NI : Int) + 1) { st1 with isHessianRegularized := true }
          with ⟨h2, _⟩ | ⟨statusFlag2, st3, h2, hs2⟩
        · rw [h2]
          exact hne3
        · rw [h2]
          dsimp only
          split_ifs
          · rcases hs2 with hs2 | hs2 <;> rw [hs2] <;> assumption
          · exact hne1
    · rcases hs with hs | hs <;> rw [hs] <;> assumption
    · exact hne1
/-- What the Newton direction phase returns when it returns: never `QPDUNES_OK`; and
the success code only as the status of the Newton setup, with the state the setup
left (logged). -/
theorem solve_newtonDirection_status {α ε : Type} [LinearOrderedField α]
    (env : solve_env α ε) (s : solve_state α ε) :
    outcome (fun _ => True)
      (fun (e : return_t × solve_state α ε) =>
        e.1 ≠ QPDUNES_OK
        ∧ (e.1 = QPDUNES_SUCC_OPTIMAL_SOLUTION_FOUND →
          (env.setupNewtonSystem s).1 = QPDUNES_SUCC_OPTIMAL_SOLUTION_FOUND
          ∧ e.2 = (if env.logIterations = true then
              env.saveLastActSet (solve_logIfEnabled env (env.setupNewtonSystem s).2)
            else solve_logIfEnabled env (env.setupNewtonSystem s).2)))
      (solve_newtonDirection env s) := by
  have hf := factorNewtonSystem_status env.sqrt env.debug env.opts env.NI env.nx
    (env.setupNewtonSystem s).2.hessian
    { cholHessian := (env.setupNewtonSystem s).2.cholHessian,
      isHessianRegularized := (env.setupNewtonSystem s).2.isHessianRegularized,
      pivots := [] }
    (env.setupNewtonSystem s).2.lastActSetChangeIdx
  unfold solve_newtonDirection
  dsimp only
  generalize qpDUNES_factorNewtonSystem env.sqrt env.debug env.opts env.NI env.nx
    (env.setupNewtonSystem s).2.hessian
    { cholHessian := (env.setupNewtonSystem s).2.cholHessian,
      isHessianRegularized := (env.setupNewtonSystem s).2.isHessianRegularized,
      pivots := [] }
    (env.setupNewtonSystem s).2.lastActSetChangeIdx = f at hf ⊢
  cases h1 : (env.setupNewtonSystem s).1
  case QPDUNES_OK =>
    dsimp only
    cases h2 : f.status
    case QPDUNES_OK =>
      dsimp only
      cases h3 : env.opts.nwtnHssnFacAlg
      case QPDUNES_NH_FAC_BAND_FORWARD =>
        dsimp only
        rcases solveNewtonEquation_status env.useAsserts env.opts env.NI env.nx
          (env.setupNewtonSystem s).2.deltaLambda f.fac.cholHessian
          (env.setupNewtonSystem s).2.gradient with h4 | h4
        · rw [if_neg (show ¬ ((qpDUNES_solveNewtonEquation env.useAsserts env.opts env.NI env.nx
              (env.setupNewtonSystem s).2.deltaLambda f.fac.cholHessian
              (env.setupNewtonSystem s).2.gradient).1 ≠ QPDUNES_OK) from fun hs => hs h4)]
          exact trivial
        · have hs : (qpDUNES_solveNewtonEquation env.useAsserts env.opts env.NI env.nx
              (env.setupNewtonSystem s).2.deltaLambda f.fac.cholHessian
              (env.setupNewtonSystem s).2.gradient).1 ≠ QPDUNES_OK := by
            rw [h4]
            decide
          rw [if_pos hs]
          refine ⟨hs, fun h => ?_⟩
          exfalso
          have h5 : (qpDUNES_solveNewtonEquation env.useAsserts env.opts env.NI env.nx
              (env.setupNewtonSystem s).2.deltaLambda f.fac.cholHessian
              (env.setupNewtonSystem s).2.gradient).1
              = QPDUNES_SUCC_OPTIMAL_SOLUTION_FOUND := h
          rw [h4] at h5
          exact absurd h5 (by decide)
      case QPDUNES_NH_FAC_BAND_REVERSE =>
        dsimp only
        rcases solveNewtonEquationBottomUp_status env.useAsserts env.opts env.NI env.nx
          (env.setupNewtonSystem s).2.deltaLambda f.fac.cholHessian
          (env.setupNewtonSystem s).2.gradient with h4 | h4
        · rw [if_neg (show ¬ ((qpDUNES_solveNewtonEquationBottomUp env.useAsserts env.opts env.NI env.nx
              (env.setupNewtonSystem s).2.deltaLambda f.fac.cholHessian
              (env.setupNewtonSystem s).2.gradient).1 ≠ QPDUNES_OK) from fun hs => hs h4)]
          exact trivial
        · have hs : (qpDUNES_solveNewtonEquationBottomUp env.useAsserts env.opts env.NI env.nx
              (env.setupNewtonSystem s).2.deltaLambda f.fac.cholHessian
              (env.setupNewtonSystem s).2.gradient).1 ≠ QPDUNES_OK := by
            rw [h4]
            decide
          rw [if_pos hs]
          refine ⟨hs, fun h => ?_⟩
          exfalso
          have h5 : (qpDUNES_solveNewtonEquationBottomUp env.useAsserts env.opts env.NI env.nx
              (env.setupNewtonSystem s).2.deltaLambda f.fac.cholHessian
              (env.setupNewtonSystem s).2.gradient).1
              = QPDUNES_SUCC_OPTIMAL_SOLUTION_FOUND := h
          rw [h4] at h5
          exact absurd h5 (by decide)
      case unknownFacAlg =>
        exact ⟨fun h => (by cases h), fun h => (by cases h)⟩
    all_goals
      rw [h2] at hf
      exact ⟨fun h => (by cases h), fun h => absurd h hf⟩
  case QPDUNES_SUCC_OPTIMAL_SOLUTION_FOUND =>
    exact ⟨fun h => (by cases h), fun _ => ⟨rfl, rfl⟩⟩
  all_goals exact ⟨fun h => (by cases h), fun h => (by cases h)⟩

/-- With the line searches of `dual_qp.c`, `qpDUNES_determineStepLength` never returns
the success code `QPDUNES_SUCC_OPTIMAL_SOLUTION_FOUND` of the Newton setup, provided
the golden section search does not. -/
theorem lineSearch_lsEnv_notOptimal {α ω : Type} [LinearOrderedField α]
    (env : lineSearch_env α ω) (stages : Nat → intervalNewton_t α)
    (deltaLambdaFS : vector_t α) (newtonHessianRegularized : Bool)
    (s : ls_state α (lsData α ω))
    (hgold : ∀ l a b st, (env.qpDUNES_goldenSectionIntervalSearch l deltaLambdaFS a b st).1
      ≠ QPDUNES_SUCC_OPTIMAL_SOLUTION_FOUND) :
    (qpDUNES_determineStepLength (lineSearch_lsEnv env stages) stages deltaLambdaFS
      newtonHessianRegularized s).1 ≠ QPDUNES_SUCC_OPTIMAL_SOLUTION_FOUND := by
  have hne1 : ¬ (QPDUNES_OK = QPDUNES_SUCC_OPTIMAL_SOLUTION_FOUND) := by decide
  have hne2 : ¬ (QPDUNES_ERR_UNKNOWN_ERROR
      = QPDUNES_SUCC_OPTIMAL_SOLUTION_FOUND) := by decide
  have hne3 : ¬ (QPDUNES_ERR_NUMBER_OF_MAX_LINESEARCH_ITERATIONS_REACHED
      = QPDUNES_SUCC_OPTIMAL_SOLUTION_FOUND) := by decide
  have hne4 : ¬ (QPDUNES_ERR_DECEEDED_MIN_LINESEARCH_STEPSIZE
      = QPDUNES_SUCC_OPTIMAL_SOLUTION_FOUND) := by decide
  have hne5 : ¬ (QPDUNES_ERR_EXCEEDED_MAX_LINESEARCH_STEPSIZE
      = QPDUNES_SUCC_OPTIMAL_SOLUTION_FOUND) := by decide
  have hne6 : QPDUNES_SUCC_OPTIMAL_SOLUTION_FOUND
      ≠ QPDUNES_ERR_UNKNOWN_LS_TYPE := by decide
  by_cases hshort : (determineStepLength_alphaMin (lineSearch_lsEnv env stages) stages
      s.qp).1 > 1 - (lineSearch_lsEnv env stages).opts.equalityTolerance
      ∧ newtonHessianRegularized = false
  · unfold qpDUNES_determineStepLength
    dsimp only
    rw [if_pos hshort]
    cases hd : determineStepLength_doSteps (lineSearch_lsEnv env stages) stages 1 s.qp with
    | error e =>
      dsimp only
      rw [determineStepLength_doSteps_error _ _ _ _ e hd]
      exact hne2
    | ok qp => exact hne1
  · have hsw := determineStepLength_lineSearch_status (lineSearch_lsEnv env stages)
      deltaLambdaFS
      (determineStepLength_alphaMin (lineSearch_lsEnv env stages) stages s.qp).1 1
      { s with itCntr := 0 } QPDUNES_SUCC_OPTIMAL_SOLUTION_FOUND hne6
      (by
        intro a b c s1
        show (qpDUNES_backTrackingLineSearch env stages deltaLambdaFS _ a b c s1).1 ≠ _
        have h := (backTrackingLineSearch_loop_spec env stages
          (vectorNorm env.sqrt deltaLambdaFS (env.nx * env.NI)) a c
          (env.lsOpts.lineSearchMinRelProgress * |c| + env.lsOpts.lineSearchMinAbsProgress)
          (env.lsOpts.maxNumLineSearchIterations - s1.itCntr)
          { lambda := s1.lambda, alpha := b, itCntr := s1.itCntr,
            objValIncumbent := s1.objValIncumbent, qp := s1.qp }).2.2.2.2.2
        unfold qpDUNES_backTrackingLineSearch
        dsimp only
        rcases h with h | h | h
        · rw [h]
          exact hne1
        · rw [h]
          exact hne3
        · rw [h]
          exact hne4)
      (fun _ _ _ => hgold _ _ _ _)
      (by
        intro a b s1
        show (qpDUNES_bisectionIntervalSearch env deltaLambdaFS _ a b s1).1 ≠ _
        rcases bisectionIntervalSearch_status env deltaLambdaFS (env.nx * env.NI) a b s1
          with h | h | h
        · rw [h]
          exact hne1
        · rw [h]
          exact hne5
        · rw [h]
          exact hne3)
      (fun _ _ _ => hne1)
    cases hr : determineStepLength_lineSearch (lineSearch_lsEnv env stages) deltaLambdaFS
        (determineStepLength_alphaMin (lineSearch_lsEnv env stages) stages s.qp).1 1
        { s with itCntr := 0 } with
    | error r =>
      rw [hr] at hsw
      rw [determineStepLength_of_lineSearch_error (lineSearch_lsEnv env stages) stages
        deltaLambdaFS newtonHessianRegularized s r hshort hr]
      exact hsw
    | ok p =>
      rw [hr] at hsw
      obtain ⟨_, _, _, d4, _⟩ := determineStepLength_of_lineSearch_ok
        (lineSearch_lsEnv env stages) stages deltaLambdaFS newtonHessianRegularized s
        p.1 p.2 hshort hr
      rcases d4 with h | h
      · rw [h]
        exact hsw
      · rw [h]
        exact hne2

/-- What an iteration of the driver returns when it returns: never `QPDUNES_OK`; and,
when the line search does not return the success code, the success code only as the
status of the Newton setup called in this iteration. -/
theorem solve_iteration_status {α ε : Type} [LinearOrderedField α] (env : solve_env α ε)
    (itCntr : Int) (s : solve_state α ε) :
    outcome (fun _ => True)
      (fun (e : return_t × solve_state α ε) =>
        e.1 ≠ QPDUNES_OK
        ∧ ((∀ st, (env.determineStepLength st).1 ≠ QPDUNES_SUCC_OPTIMAL_SOLUTION_FOUND) →
          e.1 = QPDUNES_SUCC_OPTIMAL_SOLUTION_FOUND →
          ∃ st, (env.setupNewtonSystem st).1 = QPDUNES_SUCC_OPTIMAL_SOLUTION_FOUND
            ∧ e.2 = (if env.logIterations = true then
                env.saveLastActSet (solve_logIfEnabled env (env.setupNewtonSystem st).2)
              else solve_logIfEnabled env (env.setupNewtonSystem st).2)))
      (solve_iteration env itCntr s) := by
  rw [solve_iteration_eq]
  cases hd : solve_direction env itCntr s with
  | error e =>
    dsimp only
    unfold solve_direction at hd
    dsimp only at hd
    by_cases hc : itCntr > 1 ∧ itCntr - 1 ≤ env.nbrInitialGradientSteps
    · rw [if_pos hc] at hd
      cases hd
    · rw [if_neg hc] at hd
      have h := solve_newtonDirection_status env
        { s with numIter := itCntr, isHessianRegularized := false }
      rw [hd] at h
      exact ⟨h.1, fun _ hs => ⟨_, h.2 hs⟩⟩
  | ok sd =>
    dsimp only
    have hls := fun (h : ∀ st, (env.determineStepLength st).1
        ≠ QPDUNES_SUCC_OPTIMAL_SOLUTION_FOUND) => h
      (qpDUNES_solveAllLocalQPs env.NI env.updateAllLocalQPs env.solveLocalQP sd).2
    generalize env.determineStepLength
      (qpDUNES_solveAllLocalQPs env.NI env.updateAllLocalQPs env.solveLocalQP sd).2
      = r at hls ⊢
    cases hr : r.1
    case QPDUNES_OK => exact trivial
    case QPDUNES_ERR_NUMBER_OF_MAX_LINESEARCH_ITERATIONS_REACHED => exact trivial
    case QPDUNES_ERR_EXCEEDED_MAX_LINESEARCH_STEPSIZE => exact trivial
    case QPDUNES_SUCC_OPTIMAL_SOLUTION_FOUND =>
      exact ⟨fun h => (by cases h), fun h _ => absurd hr (hls h)⟩
    all_goals exact ⟨fun h => (by cases h), fun _ h => (by cases h)⟩

/-- What the loop of the driver returns: never `QPDUNES_OK`; and, when the line search
does not return the success code, the success code only as the status of a call of the
Newton setup. -/
theorem solve_loop_status {α ε : Type} [LinearOrderedField α] (env : solve_env α ε)
    (fuel : Nat) :
    ∀ (itCntr : Int) (s : solve_state α ε),
      (solve_loop env fuel itCntr s).1 ≠ QPDUNES_OK
      ∧ ((∀ st, (env.determineStepLength st).1 ≠ QPDUNES_SUCC_OPTIMAL_SOLUTION_FOUND) →
        (solve_loop env fuel itCntr s).1 = QPDUNES_SUCC_OPTIMAL_SOLUTION_FOUND →
        ∃ st, (env.setupNewtonSystem st).1 = QPDUNES_SUCC_OPTIMAL_SOLUTION_FOUND
          ∧ (solve_loop env fuel itCntr s).2 = (if env.logIterations = true then
              env.saveLastActSet (solve_logIfEnabled env (env.setupNewtonSystem st).2)
            else solve_logIfEnabled env (env.setupNewtonSystem st).2)) := by
  induction fuel with
  | zero =>
    intro itCntr s
    exact ⟨fun h => (by cases h), fun _ h => (by cases h)⟩
  | succ fuel ih =>
    intro itCntr s
    rw [solve_loop]
    have h := solve_iteration_status env itCntr s
    cases hr : solve_iteration env itCntr s with
    | error e =>
      rw [hr] at h
      exact h
    | ok s1 => exact ih (itCntr + 1) s1

/-- C37. Success status of the driver: `qpDUNES_solve` never returns `QPDUNES_OK`,
for every input and configuration. Of the two statuses that are not error codes this
leaves `QPDUNES_SUCC_OPTIMAL_SOLUTION_FOUND`; when the routines declared outside the
driver do not return that code themselves (the initial resolve of a stage and the line
search), and the Newton setup of the driver is `qpDUNES_setupNewtonSystem` on the data
`intervals st`, `stages st`, `toSetup st` of the state `st` it is called in, then
`qpDUNES_solve` returns that code only out of a call of the Newton setup in a state
`st` in which the gradient assembled from the current stage primals (the one
`qpDUNES_computeNewtonGradient` writes) has a Euclidean norm strictly below
`stationarityTolerance`; the state returned is the one that call left (logged). -/
theorem solve_successStatus {α ε τ : Type} [LinearOrderedField α] (env : solve_env α ε)
    (senv : setup_env α τ) (intervals : solve_state α ε → Nat → interval_t α)
    (stages : solve_state α ε → Nat → intervalNewton_t α)
    (toSetup : solve_state α ε → setup_state α τ) (s : solve_state α ε) :
    (qpDUNES_solve env s).1 ≠ QPDUNES_OK
    ∧ ((∀ ii st, (env.initialStageStep ii st).1 ≠ QPDUNES_SUCC_OPTIMAL_SOLUTION_FOUND) →
      (∀ st, (env.determineStepLength st).1 ≠ QPDUNES_SUCC_OPTIMAL_SOLUTION_FOUND) →
      (∀ st, (env.setupNewtonSystem st).1
        = (qpDUNES_setupNewtonSystem env.sqrt senv (intervals st) (stages st)
            (toSetup st)).1) →
      (qpDUNES_solve env s).1 = QPDUNES_SUCC_OPTIMAL_SOLUTION_FOUND →
      ∃ st, (env.setupNewtonSystem st).1 = QPDUNES_SUCC_OPTIMAL_SOLUTION_FOUND
        ∧ (qpDUNES_solve env s).2 = (if env.logIterations = true then
            env.saveLastActSet (solve_logIfEnabled env (env.setupNewtonSystem st).2)
          else solve_logIfEnabled env (env.setupNewtonSystem st).2)
        ∧ env.sqrt (∑ ii in Finset.range (senv.nx * senv.NI),
            (qpDUNES_computeNewtonGradient senv.NI senv.nx senv.nz (intervals st)
                (toSetup st).gradient (toSetup st).tmp.xVecTmp).gradient ii
              * (qpDUNES_computeNewtonGradient senv.NI senv.nx senv.nz (intervals st)
                (toSetup st).gradient (toSetup st).tmp.xVecTmp).gradient ii)
          < senv.stationarityTolerance) := by
  have hfold : ∀ (l : List Nat) (r0 : return_t × solve_state α ε),
      (∀ ii st, (env.initialStageStep ii st).1 ≠ QPDUNES_SUCC_OPTIMAL_SOLUTION_FOUND) →
      r0.1 ≠ QPDUNES_SUCC_OPTIMAL_SOLUTION_FOUND →
      (l.foldl (fun (r : return_t × solve_state α ε) ii => env.initialStageStep ii r.2)
        r0).1 ≠ QPDUNES_SUCC_OPTIMAL_SOLUTION_FOUND := by
    intro l
    induction l with
    | nil =>
      intro r0 _ h0
      exact h0
    | cons a l ih =>
      intro r0 hinit _
      rw [List.foldl_cons]
      exact ih _ hinit (hinit a r0.2)
  unfold qpDUNES_solve
  dsimp only
  by_cases h0 : ((List.range (env.NI + 1)).foldl
      (fun (r : return_t × solve_state α ε) ii => env.initialStageStep ii r.2)
      (QPDUNES_OK, { s with numIter := 0, lastActSetChangeIdx := (env.NI : Int) })).1
      ≠ QPDUNES_OK
  · rw [if_pos h0]
    refine ⟨h0, fun hinit _ _ hs => ?_⟩
    exact absurd hs (hfold _ _ hinit (fun h => (by cases h)))
  · rw [if_neg h0]
    obtain ⟨h1, h2⟩ := solve_loop_status env env.maxIter.toNat 1
      (solve_logIfEnabled env (env.acceptActSet (env.computeObjectiveValue
        ((List.range (env.NI + 1)).foldl
          (fun (r : return_t × solve_state α ε) ii => env.initialStageStep ii r.2)
          (QPDUNES_OK,
            { s with numIter := 0, lastActSetChangeIdx := (env.NI : Int) })).2)))
    refine ⟨h1, fun _ hls hsetup hs => ?_⟩
    obtain ⟨st, hst, hfin⟩ := h2 hls hs
    refine ⟨st, hst, hfin, ?_⟩
    rw [← vectorNorm_eq_sqrt_sum env.sqrt
      (qpDUNES_computeNewtonGradient senv.NI senv.nx senv.nz (intervals st)
        (toSetup st).gradient (toSetup st).tmp.xVecTmp).gradient (senv.nx * senv.NI)]
    have h3 := hsetup st
    rw [hst] at h3
    unfold qpDUNES_setupNewtonSystem at h3
    dsimp only at h3
    by_contra hn
    rw [if_neg hn] at h3
    cases h3

/-- Witness for C37: the example solve whose Newton setup is
`qpDUNES_setupNewtonSystem` on stages with the primals `z = (0)`. It returns
`QPDUNES_SUCC_OPTIMAL_SOLUTION_FOUND`, and the norm of the assembled gradient is below
`stationarityTolerance = 1`. -/
theorem solve_successStatus_witness :
    (qpDUNES_solve (exampleStationaryEnv ℝ Real.sqrt 1) (exampleState ℝ 1)).1
      = QPDUNES_SUCC_OPTIMAL_SOLUTION_FOUND
    ∧ ∃ st : solve_state ℝ Nat,
        Real.sqrt (∑ ii in Finset.range (1 * 1),
          (qpDUNES_computeNewtonGradient 1 1 1
              (exampleZeroIntervals ℝ)
              st.gradient (fun _ => 0)).gradient ii
            * (qpDUNES_computeNewtonGradient 1 1 1
              (exampleZeroIntervals ℝ)
              st.gradient (fun _ => 0)).gradient ii) < 1 := by
  have hgrad : ∀ g : vector_t ℝ, vectorNorm Real.sqrt
      (qpDUNES_computeNewtonGradient 1 1 1
        (exampleZeroIntervals ℝ)
        g (fun _ => 0)).gradient (1 * 1) < 1 := by
    intro g
    simp [vectorNorm, qpDUNES_computeNewtonGradient, multiplyCz, addToVector,
      exampleZeroIntervals, List.range_succ]
  have hsetup : ∀ st : solve_state ℝ Nat,
      ((exampleStationaryEnv ℝ Real.sqrt 1).setupNewtonSystem st).1
        = QPDUNES_SUCC_OPTIMAL_SOLUTION_FOUND := by
    intro st
    show (qpDUNES_setupNewtonSystem Real.sqrt (exampleSetupEnv ℝ) _ _ _).1 = _
    unfold qpDUNES_setupNewtonSystem
    dsimp only
    rw [if_pos]
    exact hgrad st.gradient
  have hs : (qpDUNES_solve (exampleStationaryEnv ℝ Real.sqrt 1) (exampleState ℝ 1)).1
      = QPDUNES_SUCC_OPTIMAL_SOLUTION_FOUND := by
    have e1 : (exampleStationaryEnv ℝ Real.sqrt 1).NI = 1 := rfl
    have e2 : (exampleStationaryEnv ℝ Real.sqrt 1).maxIter = 1 := rfl
    have e3 : (exampleStationaryEnv ℝ Real.sqrt 1).nbrInitialGradientSteps = 0 := rfl
    have e4 : ∀ ii st, (exampleStationaryEnv ℝ Real.sqrt 1).initialStageStep ii st
        = (QPDUNES_OK, st) := fun _ _ => rfl
    simp [qpDUNES_solve, solve_loop, solve_iteration, solve_newtonDirection, e1, e2, e3, e4,
      hsetup, List.range_succ]
  obtain ⟨st, _, _, h⟩ := (solve_successStatus (exampleStationaryEnv ℝ Real.sqrt 1)
    (exampleSetupEnv ℝ)
    (fun _ => exampleZeroIntervals ℝ)
    (fun _ => exampleStages ℝ QPDUNES_STAGE_QP_SOLVER_CLIPPING
      QPDUNES_STAGE_QP_SOLVER_CLIPPING)
    (fun s => { hessian := s.hessian, gradient := s.gradient,
                tmp := { xxMatTmp := fun _ => 0, xVecTmp := fun _ => 0, other := () } })
    (exampleState ℝ 1)).2
    (fun _ _ h => (by cases h)) (fun _ h => (by cases h)) (fun _ => rfl) hs
  exact ⟨hs, st, h⟩

/-! ## Positive pivots in the forward factorization -/

theorem foldl_proj {σ τ : Type} (p : σ → τ) (f : σ → Nat → σ) (g : τ → Nat → τ)
    (l : List Nat) (h : ∀ s i, p (f s i) = g (p s) i) (s : σ) :
    p (l.foldl f s) = l.foldl g (p s) := by
  induction l generalizing s with
  | nil => rfl
  | cons i l ih =>
    simp only [List.foldl_cons]
    rw [ih, h]

theorem sqrt_le_sqrt_of_le {α : Type} [LinearOrderedField α] (sqrt : α → α)
    (hsqrt : SqrtSpec sqrt) (a b : α) (ha : 0 ≤ a) (hab : a ≤ b) : sqrt a ≤ sqrt b := by
  by_contra hc
  have hlt : sqrt b < sqrt a := lt_of_not_le hc
  have h1 := mul_self_lt_mul_self (hsqrt.nonneg b) hlt
  rw [hsqrt.sq a ha, hsqrt.sq b (le_trans ha hab)] at h1
  exact absurd hab (not_le_of_lt h1)

/-- The loop over the rest of the diagonal block with the record computes what the loop
without the record computes, and every divisor it records is the diagonal entry
`(kk,0,jj,jj)` the loop started with. -/
theorem factorizeNewtonHessian_diagBlock_record_spec {α : Type} [LinearOrderedField α]
    (nx : Nat) (H : xn2x_matrix_t α) (kk jj : Nat) (L : xn2x_matrix_t α) (d : List α) :
    (factorizeNewtonHessian_diagBlock_record nx H kk jj (L, d)).1
        = factorizeNewtonHessian_diagBlock nx H kk jj L
    ∧ ∀ x ∈ (factorizeNewtonHessian_diagBlock_record nx H kk jj (L, d)).2,
        x ∈ d ∨ x = L (kk, 0, jj, jj) := by
  constructor
  · unfold factorizeNewtonHessian_diagBlock_record factorizeNewtonHessian_diagBlock
    exact foldl_proj (fun t : xn2x_matrix_t α × List α => t.1) _ _ _ (fun _ _ => rfl) (L, d)
  · have h := foldl_inv
      (fun (t : xn2x_matrix_t α × List α) ii =>
        ((Function.update t.1 (kk, 0, ii, jj)
            ((if kk > 0 then
                subLoop (List.range nx)
                  (fun ll => t.1 (kk, -1, ii, ll) * t.1 (kk, -1, jj, ll))
                  (subLoop (List.range jj)
                    (fun ll => t.1 (kk, 0, ii, ll) * t.1 (kk, 0, jj, ll))
                    (H (kk, 0, ii, jj)))
              else subLoop (List.range jj)
                (fun ll => t.1 (kk, 0, ii, ll) * t.1 (kk, 0, jj, ll))
                (H (kk, 0, ii, jj))) / t.1 (kk, 0, jj, jj)),
          t.2 ++ [t.1 (kk, 0, jj, jj)]) : xn2x_matrix_t α × List α))
      (fun t => t.1 (kk, 0, jj, jj) = L (kk, 0, jj, jj)
        ∧ ∀ x ∈ t.2, x ∈ d ∨ x = L (kk, 0, jj, jj))
      (List.range' (jj + 1) (nx - (jj + 1)))
      (by
        intro t ii hii ht
        have hii2 : jj + 1 ≤ ii := (List.mem_range'_1.1 hii).1
        constructor
        · dsimp only
          rw [Function.update_noteq]
          · exact ht.1
          · intro h2
            simp only [Prod.mk.injEq] at h2
            omega
        · intro x hx
          dsimp only at hx
          rcases List.mem_append.1 hx with h1 | h1
          · exact ht.2 x h1
          · rw [List.mem_singleton] at h1
            exact Or.inr (h1.trans ht.1))
      (L, d) ⟨rfl, fun x hx => Or.inl hx⟩
    exact h.2

/-- The loop over the following sub-diagonal block with the record computes what the
loop without the record computes, and every divisor it records is the diagonal entry
`(kk,0,jj,jj)` the loop started with. -/
theorem factorizeNewtonHessian_subBlock_record_spec {α : Type} [LinearOrderedField α]
    (NI nx : Nat) (H : xn2x_matrix_t α) (kk jj : Nat) (L : xn2x_matrix_t α)
    (d : List α) :
    (factorizeNewtonHessian_subBlock_record NI nx H kk jj (L, d)).1
        = factorizeNewtonHessian_subBlock NI nx H kk jj L
    ∧ ∀ x ∈ (factorizeNewtonHessian_subBlock_record NI nx H kk jj (L, d)).2,
        x ∈ d ∨ x = L (kk, 0, jj, jj) := by
  unfold factorizeNewtonHessian_subBlock_record factorizeNewtonHessian_subBlock
  by_cases hc : (kk : Int) < (NI : Int) - 1
  · rw [if_pos hc, if_pos hc]
    constructor
    · exact foldl_proj (fun t : xn2x_matrix_t α × List α => t.1) _ _ _ (fun _ _ => rfl)
        (L, d)
    · have h := foldl_inv
        (fun (t : xn2x_matrix_t α × List α) ii =>
          ((Function.update t.1 (kk + 1, -1, ii, jj)
              (subLoop (List.range jj)
                (fun ll => t.1 (kk + 1, -1, ii, ll) * t.1 (kk, 0, jj, ll))
                (H (kk + 1, -1, ii, jj)) / t.1 (kk, 0, jj, jj)),
            t.2 ++ [t.1 (kk, 0, jj, jj)]) : xn2x_matrix_t α × List α))
        (fun t => t.1 (kk, 0, jj, jj) = L (kk, 0, jj, jj)
          ∧ ∀ x ∈ t.2, x ∈ d ∨ x = L (kk, 0, jj, jj))
        (List.range nx)
        (by
          intro t ii _ ht
          constructor
          · dsimp only
            rw [Function.update_noteq]
            · exact ht.1
            · intro h2
              simp only [Prod.mk.injEq] at h2
              omega
          · intro x hx
            dsimp only at hx
            rcases List.mem_append.1 hx with h1 | h1
            · exact ht.2 x h1
            · rw [List.mem_singleton] at h1
              exact Or.inr (h1.trans ht.1))
        (L, d) ⟨rfl, fun x hx => Or.inl hx⟩
      exact h.2
  · rw [if_neg hc, if_neg hc]
    exact ⟨rfl, fun x hx => Or.inl hx⟩

theorem factorizeNewtonHessian_check_ok {α : Type} [LinearOrderedField α]
    (opts : qpOptions_t α) (hreg : opts.regType ≠ regType_t.QPDUNES_REG_SINGULAR_DIRECTIONS)
    (sum : α) (isReg : Bool) :
    outcome (fun (p : α × Bool) => p.1 = sum ∧ opts.newtonHessDiagRegTolerance ≤ sum)
      (fun e => e = QPDUNES_ERR_DIVISION_BY_ZERO)
      (factorizeNewtonHessian_check opts sum isReg) := by
  unfold factorizeNewtonHessian_check
  rw [if_neg (fun h => hreg h.1)]
  by_cases hs : sum < opts.newtonHessDiagRegTolerance
  · rw [if_pos hs]
    exact rfl
  · rw [if_neg hs]
    exact ⟨rfl, le_of_not_lt hs⟩

/-- A column step with the record computes what the step without the record
computes. -/
theorem factorizeNewtonHessian_column_record_proj {α : Type} [LinearOrderedField α]
    (sqrt : α → α) (opts : qpOptions_t α) (NI nx : Nat) (H : xn2x_matrix_t α)
    (kk jj : Nat) (t : factor_record α) :
    factorizeNewtonHessian_column sqrt opts NI nx H kk jj t.fac
      = outcomeMap (fun t : factor_record α => t.fac)
          (fun e : return_t × factor_record α => (e.1, e.2.fac))
          (factorizeNewtonHessian_column_record sqrt opts NI nx H kk jj t) := by
  unfold factorizeNewtonHessian_column factorizeNewtonHessian_column_record
  dsimp only
  cases hc : factorizeNewtonHessian_check opts
      (factorizeNewtonHessian_pivotSum nx H t.fac.cholHessian kk jj)
      t.fac.isHessianRegularized with
  | error code => rfl
  | ok p =>
    dsimp only [outcomeMap]
    have h1 := (factorizeNewtonHessian_diagBlock_record_spec nx H kk jj
      (Function.update t.fac.cholHessian (kk, 0, jj, jj) (sqrt p.1)) t.divs).1
    have h2 := (factorizeNewtonHessian_subBlock_record_spec NI nx H kk jj
      (factorizeNewtonHessian_diagBlock_record nx H kk jj
        (Function.update t.fac.cholHessian (kk, 0, jj, jj) (sqrt p.1), t.divs)).1
      (factorizeNewtonHessian_diagBlock_record nx H kk jj
        (Function.update t.fac.cholHessian (kk, 0, jj, jj) (sqrt p.1), t.divs)).2).1
    have h3 : (factorizeNewtonHessian_subBlock_record NI nx H kk jj
        (factorizeNewtonHessian_diagBlock_record nx H kk jj
          (Function.update t.fac.cholHessian (kk, 0, jj, jj) (sqrt p.1), t.divs))).1
        = factorizeNewtonHessian_subBlock NI nx H kk jj
          (factorizeNewtonHessian_diagBlock_record nx H kk jj
            (Function.update t.fac.cholHessian (kk, 0, jj, jj) (sqrt p.1), t.divs)).1 := h2
    rw [h3, h1]

/-- The forward factorization with the record computes what the routine without the
record computes. -/
theorem factorizeNewtonHessian_record_proj {α : Type} [LinearOrderedField α]
    (sqrt : α → α) (opts : qpOptions_t α) (NI nx : Nat) (H : xn2x_matrix_t α)
    (st : factor_state α) :
    qpDUNES_factorizeNewtonHessian sqrt opts NI nx H st
      = ((qpDUNES_factorizeNewtonHessian_record sqrt opts NI nx H st).1,
          (qpDUNES_factorizeNewtonHessian_record sqrt opts NI nx H st).2.fac) := by
  unfold qpDUNES_factorizeNewtonHessian qpDUNES_factorizeNewtonHessian_record
  have h := loopExcept_proj (fun t : factor_record α => t.fac)
    (fun e : return_t × factor_record α => (e.1, e.2.fac))
    (fun t kk => loopExcept
      (fun t jj => factorizeNewtonHessian_column_record sqrt opts NI nx H kk jj t)
      (List.range nx) t)
    (fun st kk => loopExcept
      (fun st jj => factorizeNewtonHessian_column sqrt opts NI nx H kk jj st)
      (List.range nx) st)
    (List.range NI)
    (fun t kk => loopExcept_proj (fun t : factor_record α => t.fac)
      (fun e : return_t × factor_record α => (e.1, e.2.fac))
      (fun t jj => factorizeNewtonHessian_column_record sqrt opts NI nx H kk jj t)
      (fun st jj => factorizeNewtonHessian_column sqrt opts NI nx H kk jj st)
      (List.range nx)
      (fun t jj => factorizeNewtonHessian_column_record_proj sqrt opts NI nx H kk jj t) t)
    { fac := st, roots := [], divs := [] }
  dsimp only at h
  rw [h]
  cases loopExcept
      (fun t kk => loopExcept
        (fun t jj => factorizeNewtonHessian_column_record sqrt opts NI nx H kk jj t)
        (List.range nx) t)
      (List.range NI) { fac := st, roots := [], divs := [] } with
  | error e => rfl
  | ok t => rfl

/-- One column of the forward factorization with the record, for a positive
`newtonHessDiagRegTolerance` and a `regType` other than singular directions: if so far
every square root was taken of a number that is at least the tolerance, every divisor
was at least the square root of the tolerance, and so is every diagonal entry of the
columns done, the same holds after the column; a return inside the loop returns an
error code and leaves the record alone. -/
theorem factorizeNewtonHessian_column_record_inv {α : Type} [LinearOrderedField α]
    (sqrt : α → α) (hsqrt : SqrtSpec sqrt) (opts : qpOptions_t α) (NI nx : Nat)
    (H : xn2x_matrix_t α) (htol : 0 < opts.newtonHessDiagRegTolerance)
    (hreg : opts.regType ≠ regType_t.QPDUNES_REG_SINGULAR_DIRECTIONS)
    (kk jj : Nat) (hjj : jj < nx) (t : factor_record α)
    (hP : (∀ a ∈ t.roots, opts.newtonHessDiagRegTolerance ≤ a)
      ∧ (∀ d ∈ t.divs, sqrt opts.newtonHessDiagRegTolerance ≤ d)
      ∧ ∀ k i, i < nx → k * nx + i < kk * nx + jj →
          sqrt opts.newtonHessDiagRegTolerance ≤ t.fac.cholHessian (k, 0, i, i)) :
    outcome
      (fun t1 : factor_record α =>
        (∀ a ∈ t1.roots, opts.newtonHessDiagRegTolerance ≤ a)
        ∧ (∀ d ∈ t1.divs, sqrt opts.newtonHessDiagRegTolerance ≤ d)
        ∧ ∀ k i, i < nx → k * nx + i < kk * nx + jj + 1 →
            sqrt opts.newtonHessDiagRegTolerance ≤ t1.fac.cholHessian (k, 0, i, i))
      (fun e : return_t × factor_record α =>
        (∀ a ∈ e.2.roots, opts.newtonHessDiagRegTolerance ≤ a)
        ∧ (∀ d ∈ e.2.divs, sqrt opts.newtonHessDiagRegTolerance ≤ d)
        ∧ e.1 = QPDUNES_ERR_DIVISION_BY_ZERO)
      (factorizeNewtonHessian_column_record sqrt opts NI nx H kk jj t) := by
  obtain ⟨hr, hd, hdiag⟩ := hP
  have hchk := factorizeNewtonHessian_check_ok opts hreg
    (factorizeNewtonHessian_pivotSum nx H t.fac.cholHessian kk jj)
    t.fac.isHessianRegularized
  unfold factorizeNewtonHessian_column_record
  dsimp only
  cases hc : factorizeNewtonHessian_check opts
      (factorizeNewtonHessian_pivotSum nx H t.fac.cholHessian kk jj)
      t.fac.isHessianRegularized with
  | error code =>
    rw [hc] at hchk
    exact ⟨hr, hd, hchk⟩
  | ok p =>
    rw [hc] at hchk
    obtain ⟨hp1, hp2⟩ : p.1 = factorizeNewtonHessian_pivotSum nx H t.fac.cholHessian kk jj
        ∧ opts.newtonHessDiagRegTolerance
          ≤ factorizeNewtonHessian_pivotSum nx H t.fac.cholHessian kk jj := hchk
    have hp : opts.newtonHessDiagRegTolerance ≤ p.1 := by
      rw [hp1]
      exact hp2
    have hroot : sqrt opts.newtonHessDiagRegTolerance ≤ sqrt p.1 :=
      sqrt_le_sqrt_of_le sqrt hsqrt _ _ (le_of_lt htol) hp
    obtain ⟨d1, d2⟩ := factorizeNewtonHessian_diagBlock_record_spec nx H kk jj
      (Function.update t.fac.cholHessian (kk, 0, jj, jj) (sqrt p.1)) t.divs
    obtain ⟨b1, b2⟩ := factorizeNewtonHessian_subBlock_record_spec NI nx H kk jj
      (factorizeNewtonHessian_diagBlock_record nx H kk jj
        (Function.update t.fac.cholHessian (kk, 0, jj, jj) (sqrt p.1), t.divs)).1
      (factorizeNewtonHessian_diagBlock_record nx H kk jj
        (Function.update t.fac.cholHessian (kk, 0, jj, jj) (sqrt p.1), t.divs)).2
    have hkeep : (factorizeNewtonHessian_diagBlock_record nx H kk jj
        (Function.update t.fac.cholHessian (kk, 0, jj, jj) (sqrt p.1), t.divs)).1
          (kk, 0, jj, jj) = sqrt p.1 := by
      rw [d1, (factorizeNewtonHessian_diagBlock_spec nx H kk jj
        (Function.update t.fac.cholHessian (kk, 0, jj, jj) (sqrt p.1))).1,
        Function.update_same]
      intro ii h1 _ h2
      simp only [Prod.mk.injEq] at h2
      omega
    refine ⟨?_, ?_, ?_⟩
    · intro a ha
      rcases List.mem_append.1 ha with h1 | h1
      · exact hr a h1
      · rw [List.mem_singleton] at h1
        rw [h1]
        exact hp
    · intro x hx
      rcases b2 x hx with h1 | h1
      · rcases d2 x h1 with h2 | h2
        · exact hd x h2
        · rw [h2, Function.update_same]
          exact hroot
      · rw [h1, hkeep]
        exact hroot
    · intro k i hi hlt
      have e1 : (factorizeNewtonHessian_subBlock_record NI nx H kk jj
          (factorizeNewtonHessian_diagBlock_record nx H kk jj
            (Function.update t.fac.cholHessian (kk, 0, jj, jj) (sqrt p.1), t.divs))).1
          = factorizeNewtonHessian_subBlock NI nx H kk jj
            (factorizeNewtonHessian_diagBlock nx H kk jj
              (Function.update t.fac.cholHessian (kk, 0, jj, jj) (sqrt p.1))) := by
        rw [← d1]
        exact b1
      show sqrt opts.newtonHessDiagRegTolerance
        ≤ (factorizeNewtonHessian_subBlock_record NI nx H kk jj
          (factorizeNewtonHessian_diagBlock_record nx H kk jj
            (Function.update t.fac.cholHessian (kk, 0, jj, jj) (sqrt p.1), t.divs))).1
          (k, 0, i, i)
      rw [e1, factorizeNewtonHessian_column_diag]
      by_cases hki : k = kk ∧ i = jj
      · rw [if_pos hki]
        exact hroot
      · rw [if_neg hki]
        apply hdiag k i hi
        have hne : k * nx + i ≠ kk * nx + jj := by
          intro he
          apply hki
          have q1 := idx_div nx k i hi
          have q2 := idx_mod nx k i hi
          rw [he, idx_div nx kk jj hjj] at q1
          rw [he, idx_mod nx kk jj hjj] at q2
          exact ⟨q1.symm, q2.symm⟩
        omega

/-- The loops of the forward factorization with the record, started with an empty
record. -/
theorem factorizeNewtonHessian_record_loops {α : Type} [LinearOrderedField α]
    (sqrt : α → α) (hsqrt : SqrtSpec sqrt) (opts : qpOptions_t α) (NI nx : Nat)
    (H : xn2x_matrix_t α) (htol : 0 < opts.newtonHessDiagRegTolerance)
    (hreg : opts.regType ≠ regType_t.QPDUNES_REG_SINGULAR_DIRECTIONS)
    (st : factor_state α) :
    outcome
      (fun t1 : factor_record α =>
        (∀ a ∈ t1.roots, opts.newtonHessDiagRegTolerance ≤ a)
        ∧ (∀ d ∈ t1.divs, sqrt opts.newtonHessDiagRegTolerance ≤ d)
        ∧ ∀ k i, i < nx → k * nx + i < NI * nx →
            sqrt opts.newtonHessDiagRegTolerance ≤ t1.fac.cholHessian (k, 0, i, i))
      (fun e : return_t × factor_record α =>
        (∀ a ∈ e.2.roots, opts.newtonHessDiagRegTolerance ≤ a)
        ∧ (∀ d ∈ e.2.divs, sqrt opts.newtonHessDiagRegTolerance ≤ d)
        ∧ e.1 = QPDUNES_ERR_DIVISION_BY_ZERO)
      (loopExcept
        (fun t kk => loopExcept
          (fun t jj => factorizeNewtonHessian_column_record sqrt opts NI nx H kk jj t)
          (List.range nx) t)
        (List.range NI) { fac := st, roots := [], divs := [] }) := by
  refine loopExcept_range_inv
    (fun t kk => loopExcept
      (fun t jj => factorizeNewtonHessian_column_record sqrt opts NI nx H kk jj t)
      (List.range nx) t)
    (fun K (t1 : factor_record α) =>
      (∀ a ∈ t1.roots, opts.newtonHessDiagRegTolerance ≤ a)
      ∧ (∀ d ∈ t1.divs, sqrt opts.newtonHessDiagRegTolerance ≤ d)
      ∧ ∀ k i, i < nx → k * nx + i < K * nx →
          sqrt opts.newtonHessDiagRegTolerance ≤ t1.fac.cholHessian (k, 0, i, i))
    _ NI ?_ _ ?_
  · intro kk _ t1 hP
    have h1 := loopExcept_range_inv
      (fun t jj => factorizeNewtonHessian_column_record sqrt opts NI nx H kk jj t)
      (fun J (t1 : factor_record α) =>
        (∀ a ∈ t1.roots, opts.newtonHessDiagRegTolerance ≤ a)
        ∧ (∀ d ∈ t1.divs, sqrt opts.newtonHessDiagRegTolerance ≤ d)
        ∧ ∀ k i, i < nx → k * nx + i < kk * nx + J →
            sqrt opts.newtonHessDiagRegTolerance ≤ t1.fac.cholHessian (k, 0, i, i))
      (fun e : return_t × factor_record α =>
        (∀ a ∈ e.2.roots, opts.newtonHessDiagRegTolerance ≤ a)
        ∧ (∀ d ∈ e.2.divs, sqrt opts.newtonHessDiagRegTolerance ≤ d)
        ∧ e.1 = QPDUNES_ERR_DIVISION_BY_ZERO) nx
      (fun jj hjj t2 hP2 =>
        factorizeNewtonHessian_column_record_inv sqrt hsqrt opts NI nx H htol hreg kk jj
          hjj t2 hP2)
      t1 hP
    apply outcome_mono _ _ _ _ _ h1
    intro t2 h2
    have e : (kk + 1) * nx = kk * nx + nx := by ring
    dsimp only at h2 ⊢
    rw [e]
    exact h2
  · refine ⟨fun a ha => ?_, fun d hd => ?_, fun k i _ hlt => ?_⟩
    · cases ha
    · cases hd
    · simp only [Nat.zero_mul] at hlt
      omega

/-- C39. Positive pivots in the forward factorization: if `newtonHessDiagRegTolerance`
is positive and `regType` is not singular directions, then
`sqrt(newtonHessDiagRegTolerance) > 0`; whenever `qpDUNES_factorizeNewtonHessian`
returns `QPDUNES_OK` every diagonal entry of the factor is at least
`sqrt(newtonHessDiagRegTolerance)`; and in every run (whatever it returns) every square
root is taken of a number that is at least the tolerance, so of no negative number, and
every division divides by a number that is at least `sqrt(newtonHessDiagRegTolerance)`,
so by no zero. The square roots and divisors are those of the routine with the record,
which computes what `qpDUNES_factorizeNewtonHessian` computes. The Hessian is an
argument that the routine only reads (`const` in dual_qp.c:869), so it is the same
after a return of `QPDUNES_ERR_DIVISION_BY_ZERO` as before the call; the only status
other than `QPDUNES_OK` is that error. -/
theorem factorizeNewtonHessian_positivePivots {α : Type} [LinearOrderedField α]
    (sqrt : α → α) (hsqrt : SqrtSpec sqrt) (opts : qpOptions_t α) (NI nx : Nat)
    (hessian : xn2x_matrix_t α) (st : factor_state α)
    (htol : 0 < opts.newtonHessDiagRegTolerance)
    (hreg : opts.regType ≠ regType_t.QPDUNES_REG_SINGULAR_DIRECTIONS) :
    0 < sqrt opts.newtonHessDiagRegTolerance
    ∧ ((qpDUNES_factorizeNewtonHessian sqrt opts NI nx hessian st).1 = QPDUNES_OK →
      ∀ k i, k < NI → i < nx →
        sqrt opts.newtonHessDiagRegTolerance
          ≤ (qpDUNES_factorizeNewtonHessian sqrt opts NI nx hessian st).2.cholHessian
              (k, 0, i, i))
    ∧ (∀ a ∈ (qpDUNES_factorizeNewtonHessian_record sqrt opts NI nx hessian st).2.roots,
        opts.newtonHessDiagRegTolerance ≤ a)
    ∧ (∀ d ∈ (qpDUNES_factorizeNewtonHessian_record sqrt opts NI nx hessian st).2.divs,
        sqrt opts.newtonHessDiagRegTolerance ≤ d)
    ∧ qpDUNES_factorizeNewtonHessian sqrt opts NI nx hessian st
        = ((qpDUNES_factorizeNewtonHessian_record sqrt opts NI nx hessian st).1,
            (qpDUNES_factorizeNewtonHessian_record sqrt opts NI nx hessian st).2.fac)
    ∧ ((qpDUNES_factorizeNewtonHessian sqrt opts NI nx hessian st).1 ≠ QPDUNES_OK →
      (qpDUNES_factorizeNewtonHessian sqrt opts NI nx hessian st).1
        = QPDUNES_ERR_DIVISION_BY_ZERO) := by
  have hproj := factorizeNewtonHessian_record_proj sqrt opts NI nx hessian st
  have hloops := factorizeNewtonHessian_record_loops sqrt hsqrt opts NI nx hessian htol
    hreg st
  refine ⟨sqrt_pos_of_pos sqrt hsqrt _ htol, ?_, ?_, ?_, hproj, ?_⟩
  · intro hok k i hk hi
    rw [hproj] at hok ⊢
    dsimp only at hok ⊢
    unfold qpDUNES_factorizeNewtonHessian_record at hok ⊢
    cases hr : loopExcept
        (fun t kk => loopExcept
          (fun t jj =>
            factorizeNewtonHessian_column_record sqrt opts NI nx hessian kk jj t)
          (List.range nx) t)
        (List.range NI) { fac := st, roots := [], divs := [] } with
    | error e =>
      rw [hr] at hloops hok
      dsimp only at hok
      have h3 : e.1 = QPDUNES_ERR_DIVISION_BY_ZERO := hloops.2.2
      rw [h3] at hok
      cases hok
    | ok t =>
      rw [hr] at hloops
      exact hloops.2.2 k i hi (idx_lt_of_block_lt nx NI k i hk hi)
  · unfold qpDUNES_factorizeNewtonHessian_record
    cases hr : loopExcept
        (fun t kk => loopExcept
          (fun t jj =>
            factorizeNewtonHessian_column_record sqrt opts NI nx hessian kk jj t)
          (List.range nx) t)
        (List.range NI) { fac := st, roots := [], divs := [] } with
    | error e =>
      rw [hr] at hloops
      exact hloops.1
    | ok t =>
      rw [hr] at hloops
      exact hloops.1
  · unfold qpDUNES_factorizeNewtonHessian_record
    cases hr : loopExcept
        (fun t kk => loopExcept
          (fun t jj =>
            factorizeNewtonHessian_column_record sqrt opts NI nx hessian kk jj t)
          (List.range nx) t)
        (List.range NI) { fac := st, roots := [], divs := [] } with
    | error e =>
      rw [hr] at hloops
      exact hloops.2.1
    | ok t =>
      rw [hr] at hloops
      exact hloops.2.1
  · intro hne
    rcases factorizeNewtonHessian_status sqrt opts NI nx hessian st with h | h
    · exact absurd h hne
    · exact h

/-- Witness for C39: the Hessian `[[1, 1], [1, 2]]` (two block rows, `nx = 1`) with
`newtonHessDiagRegTolerance = 1` and Levenberg-Marquardt regularization: the forward
factorization returns `QPDUNES_OK` and the diagonal entries of the factor are at least
`sqrt 1`. -/
theorem factorizeNewtonHessian_positivePivots_witness :
    (qpDUNES_factorizeNewtonHessian Real.sqrt
        (exampleOptions ℝ regType_t.QPDUNES_REG_LEVENBERG_MARQUARDT
          nwtnHssnFacAlg_t.QPDUNES_NH_FAC_BAND_FORWARD)
        2 1 (exampleHessian ℝ) ⟨fun _ => 0, false, []⟩).1 = QPDUNES_OK
    ∧ ∀ k i, k < 2 → i < 1 →
        Real.sqrt 1
          ≤ (qpDUNES_factorizeNewtonHessian Real.sqrt
              (exampleOptions ℝ regType_t.QPDUNES_REG_LEVENBERG_MARQUARDT
                nwtnHssnFacAlg_t.QPDUNES_NH_FAC_BAND_FORWARD)
              2 1 (exampleHessian ℝ) ⟨fun _ => 0, false, []⟩).2.cholHessian
              (k, 0, i, i) := by
  have hok : (qpDUNES_factorizeNewtonHessian Real.sqrt
      (exampleOptions ℝ regType_t.QPDUNES_REG_LEVENBERG_MARQUARDT
        nwtnHssnFacAlg_t.QPDUNES_NH_FAC_BAND_FORWARD)
      2 1 (exampleHessian ℝ) ⟨fun _ => 0, false, []⟩).1 = QPDUNES_OK := by
    rw [exampleHessian_run]
  exact ⟨hok, (factorizeNewtonHessian_positivePivots Real.sqrt real_sqrtSpec
    (exampleOptions ℝ regType_t.QPDUNES_REG_LEVENBERG_MARQUARDT
      nwtnHssnFacAlg_t.QPDUNES_NH_FAC_BAND_FORWARD)
    2 1 (exampleHessian ℝ) ⟨fun _ => 0, false, []⟩
    (by norm_num [exampleOptions]) (by simp [exampleOptions])).2.1 hok⟩

/-! ## Symmetry of the diagonal blocks of the assembled Hessian -/

theorem foldl_range_inv {σ : Type} (f : σ → Nat → σ) (P : Nat → σ → Prop) (n : Nat)
    (h : ∀ i, i < n → ∀ s, P i s → P (i + 1) (f s i)) (s : σ) (h0 : P 0 s) :
    P n ((List.range n).foldl f s) := by
  induction n with
  | zero => exact h0
  | succ n ih =>
    rw [List.range_succ, List.foldl_append]
    simp only [List.foldl_cons, List.foldl_nil]
    exact h n (Nat.lt_succ_self n) _ (ih (fun i hi => h i (Nat.lt_succ_of_lt hi)))

theorem idx_inj (nx i j i1 j1 : Nat) (hj : j < nx) (hj1 : j1 < nx)
    (h : i * nx + j = i1 * nx + j1) : i = i1 ∧ j = j1 := by
  have q1 := idx_div nx i j hj
  have q2 := idx_mod nx i j hj
  rw [h, idx_div nx i1 j1 hj1] at q1
  rw [h, idx_mod nx i1 j1 hj1] at q2
  exact ⟨q1.symm, q2.symm⟩

/-- The loop "write Hessian part" of a diagonal block copies the `nx` by `nx` matrix
in `xxMatTmp` into the block (each entry is read before it is cleaned). -/
theorem setupNewtonSystem_writeDiag_spec {α : Type} [LinearOrderedField α] (nx kk : Nat)
    (H : xn2x_matrix_t α) (xx : vector_t α) (i j : Nat) (hi : i < nx) (hj : j < nx) :
    (setupNewtonSystem_writeDiag nx kk H xx).1 (kk, 0, i, j) = xx (i * nx + j) := by
  have h := foldl_range_inv
    (fun st ii => (List.range nx).foldl
      (fun (st : xn2x_matrix_t α × vector_t α) jj =>
        (Function.update st.1 (kk, 0, ii, jj) (st.2 (ii * nx + jj)),
          Function.update st.2 (ii * nx + jj) 0))
      st)
    (fun I (st : xn2x_matrix_t α × vector_t α) =>
      ∀ i j, i < nx → j < nx →
        (i * nx + j < I * nx → st.1 (kk, 0, i, j) = xx (i * nx + j))
        ∧ (I * nx ≤ i * nx + j → st.2 (i * nx + j) = xx (i * nx + j)))
    nx
    (by
      intro ii hii st hP
      have h2 := foldl_range_inv
        (fun (st : xn2x_matrix_t α × vector_t α) jj =>
          (Function.update st.1 (kk, 0, ii, jj) (st.2 (ii * nx + jj)),
            Function.update st.2 (ii * nx + jj) 0))
        (fun J (st : xn2x_matrix_t α × vector_t α) =>
          ∀ i j, i < nx → j < nx →
            (i * nx + j < ii * nx + J → st.1 (kk, 0, i, j) = xx (i * nx + j))
            ∧ (ii * nx + J ≤ i * nx + j → st.2 (i * nx + j) = xx (i * nx + j)))
        nx
        (by
          intro jj hjj st2 hP2 i j hi hj
          dsimp only
          by_cases he : i * nx + j = ii * nx + jj
          · obtain ⟨e1, e2⟩ := idx_inj nx i j ii jj hj hjj he
            subst e1 e2
            constructor
            · intro _
              rw [Function.update_same]
              exact (hP2 i j hi hj).2 (Nat.le_refl _)
            · intro hle
              omega
          · constructor
            · intro hlt
              rw [Function.update_noteq]
              · exact (hP2 i j hi hj).1 (by omega)
              · intro h3
                simp only [Prod.mk.injEq] at h3
                apply he
                rw [h3.2.2.1, h3.2.2.2]
            · intro hle
              rw [Function.update_noteq he]
              exact (hP2 i j hi hj).2 (by omega))
        st
        (by
          intro i j hi hj
          rw [Nat.add_zero]
          exact hP i j hi hj)
      intro i j hi hj
      have e : (ii + 1) * nx = ii * nx + nx := by ring
      rw [e]
      exact h2 i j hi hj)
    (H, xx)
    (by
      intro i j _ _
      constructor
      · intro hlt
        simp only [Nat.zero_mul] at hlt
        omega
      · intro _
        rfl)
  unfold setupNewtonSystem_writeDiag
  exact (h i j hi hj).1 (idx_lt_of_block_lt nx nx i j hi hj)

/-- Zeroing diagonal entries keeps a symmetric matrix symmetric. -/
theorem setupNewtonSystem_annihilate_symmetric {α : Type} [LinearOrderedField α]
    (nx : Nat) (tol : α) (y : vector_t α) (xx : vector_t α)
    (h : isSymmetricDense nx xx) :
    isSymmetricDense nx (setupNewtonSystem_annihilate nx tol y xx) := by
  unfold setupNewtonSystem_annihilate
  apply foldl_inv _ (fun x => isSymmetricDense nx x) _ _ xx h
  intro x ii hii hx
  have hii2 : ii < nx := List.mem_range.1 hii
  split_ifs
  · intro i j hi hj
    by_cases h1 : i * nx + j = ii * nx + ii
    · obtain ⟨e1, e2⟩ := idx_inj nx i j ii ii hj hii2 h1
      rw [e1, e2]
    · have h2 : j * nx + i ≠ ii * nx + ii := by
        intro h3
        obtain ⟨e1, e2⟩ := idx_inj nx j i ii ii hi hii2 h3
        apply h1
        rw [e1, e2]
      rw [Function.update_noteq h1, Function.update_noteq h2]
      exact hx i j hi hj
  · exact hx

/-- A diagonal block that is rebuilt is symmetric, when the stage routines give
symmetric matrices. -/
theorem setupNewtonSystem_diagBlock_symmetric {α τ : Type} [LinearOrderedField α]
    (env : setup_env α τ) (stages : Nat → intervalNewton_t α) (kk : Nat)
    (s : setup_state α τ)
    (hEPE : ∀ k t, isSymmetricDense env.nx (env.qpOASES_EPE k t).xxMatTmp)
    (hInvQ : ∀ k t,
      isSymmetricDense env.nx (env.qpDUNES_makeMatrixDense (env.getInvQ k t)).xxMatTmp)
    (hCPC : ∀ k t, isSymmetricDense env.nx t.xxMatTmp →
      isSymmetricDense env.nx (env.qpOASES_CPC k t).xxMatTmp)
    (hCHC : ∀ k t, isSymmetricDense env.nx t.xxMatTmp →
      isSymmetricDense env.nx (env.addCInvHCT k t).xxMatTmp)
    (hre : (stages kk).actSetHasChanged = true ∨ (stages (kk + 1)).actSetHasChanged = true) :
    isSymmetricBlock env.nx kk (setupNewtonSystem_diagBlock env stages kk s).hessian := by
  have h3 : (setupNewtonSystem_diagBlock env stages kk s).hessian
      = (setupNewtonSystem_writeDiag env.nx kk s.hessian
          (if (stages kk).qpSolverSpecification = QPDUNES_STAGE_QP_SOLVER_QPOASES then
            env.qpOASES_CPC kk
              (if (stages (kk + 1)).qpSolverSpecification
                  = QPDUNES_STAGE_QP_SOLVER_QPOASES then
                env.qpOASES_EPE (kk + 1) s.tmp
              else
                { env.qpDUNES_makeMatrixDense (env.getInvQ (kk + 1) s.tmp) with
                  xxMatTmp := setupNewtonSystem_annihilate env.nx env.equalityTolerance
                    (stages (kk + 1)).y
                    (env.qpDUNES_makeMatrixDense
                      (env.getInvQ (kk + 1) s.tmp)).xxMatTmp })
          else env.addCInvHCT kk
              (if (stages (kk + 1)).qpSolverSpecification
                  = QPDUNES_STAGE_QP_SOLVER_QPOASES then
                env.qpOASES_EPE (kk + 1) s.tmp
              else
                { env.qpDUNES_makeMatrixDense (env.getInvQ (kk + 1) s.tmp) with
                  xxMatTmp := setupNewtonSystem_annihilate env.nx env.equalityTolerance
                    (stages (kk + 1)).y
                    (env.qpDUNES_makeMatrixDense
                      (env.getInvQ (kk + 1) s.tmp)).xxMatTmp })).xxMatTmp).1 := by
    unfold setupNewtonSystem_diagBlock
    rw [if_pos hre]
  intro i j hi hj
  rw [h3]
  have h1 : isSymmetricDense env.nx
      (if (stages (kk + 1)).qpSolverSpecification = QPDUNES_STAGE_QP_SOLVER_QPOASES then
        env.qpOASES_EPE (kk + 1) s.tmp
      else
        { env.qpDUNES_makeMatrixDense (env.getInvQ (kk + 1) s.tmp) with
          xxMatTmp := setupNewtonSystem_annihilate env.nx env.equalityTolerance
            (stages (kk + 1)).y
            (env.qpDUNES_makeMatrixDense (env.getInvQ (kk + 1) s.tmp)).xxMatTmp }).xxMatTmp := by
    split_ifs
    · exact hEPE _ _
    · exact setupNewtonSystem_annihilate_symmetric _ _ _ _ (hInvQ _ _)
  generalize (if (stages (kk + 1)).qpSolverSpecification
        = QPDUNES_STAGE_QP_SOLVER_QPOASES then
        env.qpOASES_EPE (kk + 1) s.tmp
      else
        { env.qpDUNES_makeMatrixDense (env.getInvQ (kk + 1) s.tmp) with
          xxMatTmp := setupNewtonSystem_annihilate env.nx env.equalityTolerance
            (stages (kk + 1)).y
            (env.qpDUNES_makeMatrixDense (env.getInvQ (kk + 1) s.tmp)).xxMatTmp }) = t1
    at h1 ⊢
  have h2 : isSymmetricDense env.nx
      (if (stages kk).qpSolverSpecification = QPDUNES_STAGE_QP_SOLVER_QPOASES then
        env.qpOASES_CPC kk t1
      else env.addCInvHCT kk t1).xxMatTmp := by
    split_ifs
    · exact hCPC _ _ h1
    · exact hCHC _ _ h1
  rw [setupNewtonSystem_writeDiag_spec _ _ _ _ i j hi hj,
    setupNewtonSystem_writeDiag_spec _ _ _ _ j i hj hi]
  exact h2 i j hi hj

/-- The two block loops of the Newton setup, from any state: a diagonal block that is
rebuilt or was symmetric is symmetric after the loops. -/
theorem setupNewtonSystem_blocks_symmetric {α τ : Type} [LinearOrderedField α]
    (env : setup_env α τ) (stages : Nat → intervalNewton_t α) (s0 : setup_state α τ)
    (hEPE : ∀ k t, isSymmetricDense env.nx (env.qpOASES_EPE k t).xxMatTmp)
    (hInvQ : ∀ k t,
      isSymmetricDense env.nx (env.qpDUNES_makeMatrixDense (env.getInvQ k t)).xxMatTmp)
    (hCPC : ∀ k t, isSymmetricDense env.nx t.xxMatTmp →
      isSymmetricDense env.nx (env.qpOASES_CPC k t).xxMatTmp)
    (hCHC : ∀ k t, isSymmetricDense env.nx t.xxMatTmp →
      isSymmetricDense env.nx (env.addCInvHCT k t).xxMatTmp)
    (k : Nat) (hk : k < env.NI)
    (hcase : ((stages k).actSetHasChanged = true
        ∨ (stages (k + 1)).actSetHasChanged = true)
      ∨ isSymmetricBlock env.nx k s0.hessian) :
    isSymmetricBlock env.nx k
      ((List.range' 1 (env.NI - 1)).foldl
        (fun s kk => setupNewtonSystem_subBlock env stages kk s)
        ((List.range env.NI).foldl
          (fun s kk => setupNewtonSystem_diagBlock env stages kk s) s0)).hessian := by
  have h1 := foldl_range_inv
    (fun s kk => setupNewtonSystem_diagBlock env stages kk s)
    (fun K (s1 : setup_state α τ) =>
      (k < K → isSymmetricBlock env.nx k s1.hessian)
      ∧ (K ≤ k → ∀ i j, s1.hessian (k, 0, i, j) = s0.hessian (k, 0, i, j)))
    env.NI
    (by
      intro K _ s1 hP
      obtain ⟨f1, f2⟩ := setupNewtonSystem_diagBlock_frame env stages K s1
      dsimp only
      constructor
      · intro hlt
        by_cases hkK : k = K
        · subst hkK
          by_cases hre : (stages k).actSetHasChanged = true
              ∨ (stages (k + 1)).actSetHasChanged = true
          · exact setupNewtonSystem_diagBlock_symmetric env stages k s1 hEPE hInvQ
              hCPC hCHC hre
          · rw [f1 hre]
            intro i j hi hj
            rw [hP.2 (Nat.le_refl k), hP.2 (Nat.le_refl k)]
            rcases hcase with h | h
            · exact absurd h hre
            · exact h i j hi hj
        · intro i j hi hj
          rw [f2 (k, 0, i, j), f2 (k, 0, j, i)]
          · exact hP.1 (by omega) i j hi hj
          · intro ii jj _ _ h3
            simp only [Prod.mk.injEq] at h3
            exact hkK h3.1
          · intro ii jj _ _ h3
            simp only [Prod.mk.injEq] at h3
            exact hkK h3.1
      · intro hle i j
        rw [f2 (k, 0, i, j)]
        · exact hP.2 (by omega) i j
        · intro ii jj _ _ h3
          simp only [Prod.mk.injEq] at h3
          omega)
    s0 ⟨fun h => absurd h (Nat.not_lt_zero k), fun _ _ _ => rfl⟩
  have h2 := h1.1 hk
  generalize (List.range env.NI).foldl
    (fun s kk => setupNewtonSystem_diagBlock env stages kk s) s0 = s1 at h2 ⊢
  have h3 := foldl_inv (fun s kk => setupNewtonSystem_subBlock env stages kk s)
    (fun (s2 : setup_state α τ) => ∀ x : Nat × Int × Nat × Nat, x.2.1 = 0 →
      s2.hessian x = s1.hessian x)
    (List.range' 1 (env.NI - 1))
    (by
      intro s2 kk _ hP x hx
      dsimp only
      rw [(setupNewtonSystem_subBlock_frame env stages kk s2).2 x]
      · exact hP x hx
      · intro ii jj _ _ h4
        rw [h4] at hx
        simp at hx)
    s1 (fun _ _ => rfl)
  intro i j hi hj
  rw [h3 (k, 0, i, j) rfl, h3 (k, 0, j, i) rfl]
  exact h2 i j hi hj

/-- The product `MᵀM` is symmetric, and adding it keeps a symmetric matrix
symmetric. -/
theorem multiplyMatrixTMatrixDenseDense_symmetric {α : Type} [LinearOrderedField α]
    (res M : vector_t α) (dim0 nx : Nat) (addToRes : Bool)
    (h : addToRes = true → isSymmetricDense nx res) :
    isSymmetricDense nx (multiplyMatrixTMatrixDenseDense res M M dim0 nx nx addToRes) := by
  intro i j hi hj
  unfold multiplyMatrixTMatrixDenseDense
  rw [if_pos (idx_lt_of_block_lt nx nx i j hi hj),
    if_pos (idx_lt_of_block_lt nx nx j i hj hi), idx_div nx i j hj, idx_mod nx i j hj,
    idx_div nx j i hi, idx_mod nx j i hi]
  have e : (fun ll => M (ll * nx + i) * M (ll * nx + j))
      = (fun ll => M (ll * nx + j) * M (ll * nx + i)) := by
    funext ll
    exact mul_comm _ _
  rw [e]
  by_cases ha : addToRes = true
  · rw [if_pos ha, if_pos ha, h ha i j hi hj]
  · rw [if_neg ha, if_neg ha]

/-- The dense matrix with a given diagonal is symmetric. -/
theorem makeMatrixDense_symmetric {α : Type} [LinearOrderedField α] (M : vector_t α)
    (nx : Nat) : isSymmetricDense nx (qpDUNES_makeMatrixDense M nx nx) := by
  intro i j hi hj
  unfold qpDUNES_makeMatrixDense
  rw [if_pos (idx_lt_of_block_lt nx nx i j hi hj),
    if_pos (idx_lt_of_block_lt nx nx j i hj hi), idx_div nx i j hj, idx_mod nx i j hj,
    idx_div nx j i hi, idx_mod nx j i hi]
  by_cases hij : i = j
  · rw [hij]
  · rw [if_neg hij, if_neg (fun h => hij h.symm)]

/-- Adding `C P Cᵀ` with a diagonal `P` keeps a symmetric matrix symmetric. -/
theorem addCInvHCT_symmetric {α : Type} [LinearOrderedField α] (res P C : vector_t α)
    (nx nz : Nat) (h : isSymmetricDense nx res) :
    isSymmetricDense nx (addCInvHCT res P C nx nz) := by
  intro i j hi hj
  unfold addCInvHCT
  rw [if_pos (idx_lt_of_block_lt nx nx i j hi hj),
    if_pos (idx_lt_of_block_lt nx nx j i hj hi), idx_div nx i j hj, idx_mod nx i j hj,
    idx_div nx j i hi, idx_mod nx j i hi, h i j hi hj]
  have e : (fun ll => C (i * nz + ll) * P ll * C (j * nz + ll))
      = (fun ll => C (j * nz + ll) * P ll * C (i * nz + ll)) := by
    funext ll
    ring
  rw [e]
/-- The Newton setup with stage routines that give symmetric matrices: a diagonal block
`k < NI` that the setup rebuilds, or that was symmetric on entry, is symmetric after the
setup. -/
theorem setupNewtonSystem_symmetric_of_parts {α τ : Type} [LinearOrderedField α]
    (sqrt : α → α) (env : setup_env α τ) (intervals : Nat → interval_t α)
    (stages : Nat → intervalNewton_t α) (s : setup_state α τ)
    (hEPE : ∀ k t, isSymmetricDense env.nx (env.qpOASES_EPE k t).xxMatTmp)
    (hInvQ : ∀ k t,
      isSymmetricDense env.nx (env.qpDUNES_makeMatrixDense (env.getInvQ k t)).xxMatTmp)
    (hCPC : ∀ k t, isSymmetricDense env.nx t.xxMatTmp →
      isSymmetricDense env.nx (env.qpOASES_CPC k t).xxMatTmp)
    (hCHC : ∀ k t, isSymmetricDense env.nx t.xxMatTmp →
      isSymmetricDense env.nx (env.addCInvHCT k t).xxMatTmp) :
    ∀ k, k < env.NI →
      ((((stages k).actSetHasChanged = true ∨ (stages (k + 1)).actSetHasChanged = true)
          ∧ (qpDUNES_setupNewtonSystem sqrt env intervals stages s).1 = QPDUNES_OK)
        ∨ isSymmetricBlock env.nx k s.hessian) →
      isSymmetricBlock env.nx k
        (qpDUNES_setupNewtonSystem sqrt env intervals stages s).2.hessian := by
  intro k hk hcase
  unfold qpDUNES_setupNewtonSystem at hcase ⊢
  dsimp only at hcase ⊢
  by_cases hstat : vectorNorm sqrt
      (qpDUNES_computeNewtonGradient env.NI env.nx env.nz intervals s.gradient
        s.tmp.xVecTmp).gradient (env.nx * env.NI) < env.stationarityTolerance
  · rw [if_pos hstat] at hcase ⊢
    rcases hcase with ⟨_, h⟩ | h
    · cases h
    · exact h
  · rw [if_neg hstat] at hcase ⊢
    have hcase2 : ((stages k).actSetHasChanged = true
        ∨ (stages (k + 1)).actSetHasChanged = true)
        ∨ isSymmetricBlock env.nx k s.hessian := by
      rcases hcase with ⟨h, _⟩ | h
      · exact Or.inl h
      · exact Or.inr h
    exact setupNewtonSystem_blocks_symmetric env stages _ hEPE hInvQ hCPC hCHC k hk hcase2

/-- C33. Banded symmetry: after `qpDUNES_setupNewtonSystem` has rebuilt a diagonal block
`k < NI` (the active set of stage `k` or `k+1` has changed and the setup returns
`QPDUNES_OK`), the block is symmetric, `H[k,0] = H[k,0]^T`, for General stages, whose
terms are formed as `MᵀM` from whatever matrices `M` the backsolves leave, and for
Clipping stages, whose terms are the dense diagonal inverse Hessian with diagonal
entries annihilated and `C P Cᵀ` with a diagonal `P`; a diagonal block that was
symmetric on entry is symmetric after the setup as well, so every diagonal block of the
assembled Hessian is symmetric once each has been rebuilt. -/
theorem setupNewtonSystem_diagSymmetric {α τ : Type} [LinearOrderedField α]
    (sqrt : α → α) (env : setup_env α τ) (intervals : Nat → interval_t α)
    (stages : Nat → intervalNewton_t α) (nV nFree : Nat → Nat)
    (backsolveRT_ZTET backsolveRT_ZTCT invQ projInvQ : Nat → vector_t α)
    (s : setup_state α τ) :
    ∀ k, k < env.NI →
      ((((stages k).actSetHasChanged = true ∨ (stages (k + 1)).actSetHasChanged = true)
          ∧ (qpDUNES_setupNewtonSystem sqrt
              (setupNewtonSystem_denseEnv env intervals nV nFree backsolveRT_ZTET
                backsolveRT_ZTCT invQ projInvQ) intervals stages s).1 = QPDUNES_OK)
        ∨ isSymmetricBlock env.nx k s.hessian) →
      isSymmetricBlock env.nx k
        (qpDUNES_setupNewtonSystem sqrt
          (setupNewtonSystem_denseEnv env intervals nV nFree backsolveRT_ZTET
            backsolveRT_ZTCT invQ projInvQ) intervals stages s).2.hessian :=
  setupNewtonSystem_symmetric_of_parts sqrt
    (setupNewtonSystem_denseEnv env intervals nV nFree backsolveRT_ZTET backsolveRT_ZTCT
      invQ projInvQ) intervals stages s
    (fun k t => multiplyMatrixTMatrixDenseDense_symmetric t.xxMatTmp (backsolveRT_ZTET k)
      (nFree k) env.nx false (fun h => (by cases h)))
    (fun k t => makeMatrixDense_symmetric (getInvQ t.xxMatTmp (invQ k) (nV k)) env.nx)
    (fun k t ht => multiplyMatrixTMatrixDenseDense_symmetric t.xxMatTmp
      (backsolveRT_ZTCT k) (nFree k) env.nx true (fun _ => ht))
    (fun k t ht => addCInvHCT_symmetric t.xxMatTmp (projInvQ k) (intervals k).C env.nx
      env.nz ht)

/-- Witness for C33: one coupling interval with `nx = 2`, a qpOASES stage `0` and a
Clipping stage `1` whose active sets have changed, with the backsolve matrix
`M = [[1, 2], [3, 4]]`: the setup returns `QPDUNES_OK` and the diagonal block `0` it
has rebuilt is symmetric. -/
theorem setupNewtonSystem_diagSymmetric_witness :
    (qpDUNES_setupNewtonSystem Real.sqrt
        (setupNewtonSystem_denseEnv (exampleSymmetricSetupEnv ℝ) (exampleZeroIntervals ℝ)
          (fun _ => 2) (fun _ => 2) (fun _ i => (i : ℝ) + 1) (fun _ i => (i : ℝ) + 1)
          (fun _ _ => 1) (fun _ _ => 1))
        (exampleZeroIntervals ℝ) (exampleMixedStages ℝ) (exampleSetupState ℝ)).1
      = QPDUNES_OK
    ∧ isSymmetricBlock 2 0
        (qpDUNES_setupNewtonSystem Real.sqrt
          (setupNewtonSystem_denseEnv (exampleSymmetricSetupEnv ℝ) (exampleZeroIntervals ℝ)
            (fun _ => 2) (fun _ => 2) (fun _ i => (i : ℝ) + 1) (fun _ i => (i : ℝ) + 1)
            (fun _ _ => 1) (fun _ _ => 1))
          (exampleZeroIntervals ℝ) (exampleMixedStages ℝ)
          (exampleSetupState ℝ)).2.hessian := by
  have hok : (qpDUNES_setupNewtonSystem Real.sqrt
      (setupNewtonSystem_denseEnv (exampleSymmetricSetupEnv ℝ) (exampleZeroIntervals ℝ)
        (fun _ => 2) (fun _ => 2) (fun _ i => (i : ℝ) + 1) (fun _ i => (i : ℝ) + 1)
        (fun _ _ => 1) (fun _ _ => 1))
      (exampleZeroIntervals ℝ) (exampleMixedStages ℝ) (exampleSetupState ℝ)).1
      = QPDUNES_OK := by
    unfold qpDUNES_setupNewtonSystem
    dsimp only
    rw [if_neg]
    exact not_lt.2 (Real.sqrt_nonneg _)
  exact ⟨hok, setupNewtonSystem_diagSymmetric Real.sqrt (exampleSymmetricSetupEnv ℝ)
    (exampleZeroIntervals ℝ) (exampleMixedStages ℝ) (fun _ => 2) (fun _ => 2)
    (fun _ i => (i : ℝ) + 1) (fun _ i => (i : ℝ) + 1) (fun _ _ => 1) (fun _ _ => 1)
    (exampleSetupState ℝ) 0 (by decide) (Or.inl ⟨Or.inl rfl, hok⟩)⟩

/-! ## The trial point of the parametric objective -/

/-- The trial step of a stage reads `nV`, the bounds, `zUnconstrained`, `dz` and the
entries of `z`, `y` and `zVecTmp` it does not write: a trial step taken before does not
change what it gives. -/
theorem directQpSolver_trialStage_again {α : Type} [LinearOrderedField α]
    (diagH : Nat → vector_t α) (qTrial : Nat → α → vector_t α) (kk : Nat)
    (alpha alpha1 : α) (interval : intervalLs_t α) :
    directQpSolver_trialStage diagH qTrial kk alpha
        (directQpSolver_trialStage diagH qTrial kk alpha1 interval)
      = directQpSolver_trialStage diagH qTrial kk alpha interval := by
  unfold directQpSolver_trialStage
  dsimp only
  congr 1
  · funext i
    by_cases h : i < interval.nV
    · rw [if_pos h, if_pos h]
    · rw [if_neg h, if_neg h, if_neg h]
  · funext m
    by_cases h : m / 2 < interval.nV
    · rw [if_pos h, if_pos h]
    · rw [if_neg h, if_neg h, if_neg h]
  · funext i
    by_cases h : i < interval.nV
    · rw [if_pos h, if_pos h]
    · rw [if_neg h, if_neg h, if_neg h]

theorem loopExcept_range_ok {ε σ : Type} (body : σ → Nat → Except ε σ)
    (step : σ → Nat → σ) (K : Nat)
    (h : ∀ k, k < K → ∀ s, body s k = .ok (step s k)) (s : σ) :
    loopExcept body (List.range K) s = .ok ((List.range K).foldl step s) := by
  induction K with
  | zero => rfl
  | succ K ih =>
    rw [List.range_succ, loopExcept_append, ih (fun k hk => h k (Nat.lt_succ_of_lt hk)),
      List.foldl_append]
    simp only [loopExcept, List.foldl_cons, List.foldl_nil]
    rw [h K (Nat.lt_succ_self K)]

/-- The stage loop of `qpDUNES_computeParametricObjectiveValue` over Clipping stages
with the trial step modelled from the spec: after the stages `0 .. K-1` the value is the
sum of their contributions, each of these stages holds its trial data, and everything
else is as before. -/
theorem computeParametricObjectiveValue_loop {α ω : Type} [LinearOrderedField α]
    (env : lineSearch_env α ω) (diagH : Nat → vector_t α)
    (qTrial : Nat → α → vector_t α) (pTrial : Nat → α → α)
    (alpha : α) (qp : lsData α ω) (K : Nat) :
    (List.range K).foldl
      (fun (st : α × lsData α ω) kk =>
        (st.1
          + (1 / 2 * env.multiplyzHz kk
                ((directQpSolver_doStep_trial diagH qTrial pTrial kk alpha
                  st.2).2.intervals kk).z
                ((directQpSolver_doStep_trial diagH qTrial pTrial kk alpha
                  st.2).2.intervals kk).nV
              + scalarProd
                ((directQpSolver_doStep_trial diagH qTrial pTrial kk alpha
                  st.2).2.intervals kk).zVecTmp
                ((directQpSolver_doStep_trial diagH qTrial pTrial kk alpha
                  st.2).2.intervals kk).z
                ((directQpSolver_doStep_trial diagH qTrial pTrial kk alpha
                  st.2).2.intervals kk).nV
              + (directQpSolver_doStep_trial diagH qTrial pTrial kk alpha st.2).1),
          (directQpSolver_doStep_trial diagH qTrial pTrial kk alpha st.2).2))
      (0, qp)
    = (∑ k in Finset.range K,
          parametricObjective_stageValue env k
            (directQpSolver_trialStage diagH qTrial k alpha (qp.intervals k))
            (pTrial k alpha),
        { qp with
          intervals := fun k =>
            if k < K then directQpSolver_trialStage diagH qTrial k alpha (qp.intervals k)
            else qp.intervals k }) := by
  induction K with
  | zero =>
    simp only [List.range_zero, List.foldl_nil, Finset.range_zero, Finset.sum_empty,
      Nat.not_lt_zero, if_false]
  | succ K ih =>
    rw [List.range_succ, List.foldl_append, ih]
    simp only [List.foldl_cons, List.foldl_nil]
    unfold directQpSolver_doStep_trial parametricObjective_stageValue
    dsimp only
    rw [Function.update_same, if_neg (Nat.lt_irrefl K), Finset.sum_range_succ]
    refine Prod.ext rfl ?_
    dsimp only
    congr 1
    funext k
    by_cases hk : k = K
    · subst hk
      rw [Function.update_same, if_pos (Nat.lt_succ_self k)]
    · rw [Function.update_noteq hk]
      by_cases hlt : k < K
      · rw [if_pos hlt, if_pos (by omega)]
      · rw [if_neg hlt, if_neg (by omega)]

/-- The value and the data of `qpDUNES_computeParametricObjectiveValue` when every stage
is a Clipping stage and the trial step is the one modelled from the spec. -/
theorem computeParametricObjectiveValue_eq {α ω : Type} [LinearOrderedField α]
    (env : lineSearch_env α ω) (diagH : Nat → vector_t α)
    (qTrial : Nat → α → vector_t α) (pTrial : Nat → α → α)
    (stages : Nat → intervalNewton_t α) (alpha : α) (qp : lsData α ω)
    (hcl : ∀ k, k ≤ env.NI →
      (stages k).qpSolverSpecification = QPDUNES_STAGE_QP_SOLVER_CLIPPING) :
    qpDUNES_computeParametricObjectiveValue
        (lineSearch_trialEnv env diagH qTrial pTrial) stages alpha qp
      = (∑ k in Finset.range (env.NI + 1),
          parametricObjective_stageValue env k
            (directQpSolver_trialStage diagH qTrial k alpha (qp.intervals k))
            (pTrial k alpha),
        { qp with
          intervals := fun k =>
            if k < env.NI + 1 then
              directQpSolver_trialStage diagH qTrial k alpha (qp.intervals k)
            else qp.intervals k }) := by
  have h := computeParametricObjectiveValue_loop env diagH qTrial pTrial alpha qp
    (env.NI + 1)
  unfold qpDUNES_computeParametricObjectiveValue
  have e : (lineSearch_trialEnv env diagH qTrial pTrial).NI = env.NI := rfl
  rw [e, loopExcept_range_ok _
    (fun (st : α × lsData α ω) kk =>
      (st.1
        + (1 / 2 * env.multiplyzHz kk
              ((directQpSolver_doStep_trial diagH qTrial pTrial kk alpha
                st.2).2.intervals kk).z
              ((directQpSolver_doStep_trial diagH qTrial pTrial kk alpha
                st.2).2.intervals kk).nV
            + scalarProd
              ((directQpSolver_doStep_trial diagH qTrial pTrial kk alpha
                st.2).2.intervals kk).zVecTmp
              ((directQpSolver_doStep_trial diagH qTrial pTrial kk alpha
                st.2).2.intervals kk).z
              ((directQpSolver_doStep_trial diagH qTrial pTrial kk alpha
                st.2).2.intervals kk).nV
            + (directQpSolver_doStep_trial diagH qTrial pTrial kk alpha st.2).1),
        (directQpSolver_doStep_trial diagH qTrial pTrial kk alpha st.2).2))
    (env.NI + 1)
    (by
      intro k hk st
      simp only [hcl k (by omega)]
      rfl)]
  dsimp only
  rw [h]

/-- C32. Parametric trial point: with the trial step of a Clipping stage as the spec
gives it, for every trial step size `alpha` the call
`qpDUNES_computeParametricObjectiveValue(alpha)` on Clipping stages leaves in every
stage `k <= NI` the primal `z(alpha) = clip(zUnconstrained + alpha*dz)` onto
`[zLow, zUpp]` (in its first `nV` entries) and returns the sum over the stages of
`1/2 z(alpha)' H z(alpha) + qTry' z(alpha) + pTry` evaluated at that primal; the value
depends only on `alpha` and the stage data that no trial call writes: after a call with
any other step size `alpha1`, the call with `alpha` returns the same value as without
it. -/
theorem computeParametricObjectiveValue_trialPoint {α ω : Type} [LinearOrderedField α]
    (env : lineSearch_env α ω) (diagH : Nat → vector_t α)
    (qTrial : Nat → α → vector_t α) (pTrial : Nat → α → α)
    (stages : Nat → intervalNewton_t α) (alpha alpha1 : α) (qp : lsData α ω)
    (hcl : ∀ k, k ≤ env.NI →
      (stages k).qpSolverSpecification = QPDUNES_STAGE_QP_SOLVER_CLIPPING) :
    (∀ k i, k ≤ env.NI → i < (qp.intervals k).nV →
      ((qpDUNES_computeParametricObjectiveValue
          (lineSearch_trialEnv env diagH qTrial pTrial) stages alpha qp).2.intervals k).z i
        = clampToBounds ((qp.intervals k).zLow i) ((qp.intervals k).zUpp i)
            ((qp.intervals k).zUnconstrained i + alpha * (qp.intervals k).dz i))
    ∧ (qpDUNES_computeParametricObjectiveValue
          (lineSearch_trialEnv env diagH qTrial pTrial) stages alpha qp).1
        = ∑ k in Finset.range (env.NI + 1),
            (1 / 2 * env.multiplyzHz k
                ((qpDUNES_computeParametricObjectiveValue
                  (lineSearch_trialEnv env diagH qTrial pTrial) stages alpha
                  qp).2.intervals k).z (qp.intervals k).nV
              + scalarProd
                ((qpDUNES_computeParametricObjectiveValue
                  (lineSearch_trialEnv env diagH qTrial pTrial) stages alpha
                  qp).2.intervals k).zVecTmp
                ((qpDUNES_computeParametricObjectiveValue
                  (lineSearch_trialEnv env diagH qTrial pTrial) stages alpha
                  qp).2.intervals k).z (qp.intervals k).nV
              + pTrial k alpha)
    ∧ (qpDUNES_computeParametricObjectiveValue
          (lineSearch_trialEnv env diagH qTrial pTrial) stages alpha
          (qpDUNES_computeParametricObjectiveValue
            (lineSearch_trialEnv env diagH qTrial pTrial) stages alpha1 qp).2).1
        = (qpDUNES_computeParametricObjectiveValue
            (lineSearch_trialEnv env diagH qTrial pTrial) stages alpha qp).1 := by
  have hv := fun a q => computeParametricObjectiveValue_eq env diagH qTrial pTrial stages
    a q hcl
  refine ⟨?_, ?_, ?_⟩
  · intro k i hk hi
    rw [hv]
    dsimp only
    rw [if_pos (by omega)]
    unfold directQpSolver_trialStage
    dsimp only
    rw [if_pos hi]
  · rw [hv]
    dsimp only
    apply Finset.sum_congr rfl
    intro k hk
    rw [if_pos (Finset.mem_range.1 hk)]
    rfl
  · rw [hv alpha _, hv alpha1 qp, hv alpha qp]
    dsimp only
    apply Finset.sum_congr rfl
    intro k hk
    rw [if_pos (Finset.mem_range.1 hk), directQpSolver_trialStage_again]

/-- Witness for C32: the two Clipping stages of the line-search examples (stage `0`
has `zUnconstrained = (1)`, `dz = (-2)` and the bounds `-1000` and `1000`), the trial
constant `pTry = alpha`: the call with `alpha = 1/4` leaves `z = (1/2)` in stage `0`,
and after a call with `alpha = 1` it returns the same value. -/
theorem computeParametricObjectiveValue_trialPoint_witness :
    (∀ k, k ≤ 1 →
      (exampleStages ℝ QPDUNES_STAGE_QP_SOLVER_CLIPPING QPDUNES_STAGE_QP_SOLVER_CLIPPING
        k).qpSolverSpecification = QPDUNES_STAGE_QP_SOLVER_CLIPPING)
    ∧ ((qpDUNES_computeParametricObjectiveValue
        (lineSearch_trialEnv
          (exampleLineSearchEnv ℝ Real.sqrt QPDUNES_LS_BACKTRACKING_LS (1 / 4) 1 1 2)
          (fun _ _ => 1) (fun _ _ _ => 0) (fun _ a => a))
        (exampleStages ℝ QPDUNES_STAGE_QP_SOLVER_CLIPPING QPDUNES_STAGE_QP_SOLVER_CLIPPING)
        (1 / 4) (exampleLsData ℝ [])).2.intervals 0).z 0 = 1 / 2
    ∧ (qpDUNES_computeParametricObjectiveValue
        (lineSearch_trialEnv
          (exampleLineSearchEnv ℝ Real.sqrt QPDUNES_LS_BACKTRACKING_LS (1 / 4) 1 1 2)
          (fun _ _ => 1) (fun _ _ _ => 0) (fun _ a => a))
        (exampleStages ℝ QPDUNES_STAGE_QP_SOLVER_CLIPPING QPDUNES_STAGE_QP_SOLVER_CLIPPING)
        (1 / 4)
        (qpDUNES_computeParametricObjectiveValue
          (lineSearch_trialEnv
            (exampleLineSearchEnv ℝ Real.sqrt QPDUNES_LS_BACKTRACKING_LS (1 / 4) 1 1 2)
            (fun _ _ => 1) (fun _ _ _ => 0) (fun _ a => a))
          (exampleStages ℝ QPDUNES_STAGE_QP_SOLVER_CLIPPING
            QPDUNES_STAGE_QP_SOLVER_CLIPPING)
          1 (exampleLsData ℝ [])).2).1
      = (qpDUNES_computeParametricObjectiveValue
        (lineSearch_trialEnv
          (exampleLineSearchEnv ℝ Real.sqrt QPDUNES_LS_BACKTRACKING_LS (1 / 4) 1 1 2)
          (fun _ _ => 1) (fun _ _ _ => 0) (fun _ a => a))
        (exampleStages ℝ QPDUNES_STAGE_QP_SOLVER_CLIPPING QPDUNES_STAGE_QP_SOLVER_CLIPPING)
        (1 / 4) (exampleLsData ℝ [])).1 := by
  have hcl : ∀ k, k ≤ 1 →
      (exampleStages ℝ QPDUNES_STAGE_QP_SOLVER_CLIPPING QPDUNES_STAGE_QP_SOLVER_CLIPPING
        k).qpSolverSpecification = QPDUNES_STAGE_QP_SOLVER_CLIPPING := by
    intro k _
    simp [exampleStages]
  have h := computeParametricObjectiveValue_trialPoint
    (exampleLineSearchEnv ℝ Real.sqrt QPDUNES_LS_BACKTRACKING_LS (1 / 4) 1 1 2)
    (fun _ _ => 1) (fun _ _ _ => 0) (fun _ a => a)
    (exampleStages ℝ QPDUNES_STAGE_QP_SOLVER_CLIPPING QPDUNES_STAGE_QP_SOLVER_CLIPPING)
    (1 / 4) 1 (exampleLsData ℝ []) hcl
  refine ⟨hcl, ?_, h.2.2⟩
  rw [h.1 0 0 (by decide) (by simp [exampleLsData])]
  norm_num [clampToBounds, exampleLsData]

end QpDunes
